import Mathlib

/-!
# Craze: a verification development

A shallow embedding of the Craze interpreter (`craze_lexer.h`, `craze_parser.c`,
`craze_interpreter.c`) and theorems about it.

Conventions of the embedding

* A C pointer that may be `NULL` is an `Option`.
* `Token` keeps the two fields the parser inspects, `type` and `lexeme`; `line`,
  `column` and `length` only feed diagnostics and node positions, which the
  embedding leaves out (likewise `ASTNode.line`, `ASTNode.column`,
  `Parser.error_msg`).
* The parser pulls its tokens from the lexer one at a time.  The lexer is seen
  here through the stream it delivers: `Parser.lexer` is the list of tokens
  `lexer_next_token` will return next, the final `TOKEN_EOF` excluded; once the
  list is exhausted every further call returns `TOKEN_EOF`.
* Recursive C functions and C loops take a `fuel` argument; running out of it
  is the outcome `Outcome.outOfFuel`, which stands for "has not returned yet".
* A read through a `NULL` pointer is the outcome `Outcome.nullDeref`.
* `malloc`/`realloc`/`strdup` are assumed to succeed.
-/

set_option autoImplicit false

namespace Craze

/-! ## Tokens (`craze_lexer.h`) -/

/-- The enum `TokenType` of `craze_lexer.h`, in declaration order. -/
inductive TokenType
  | TOKEN_LET | TOKEN_FN | TOKEN_RETURN | TOKEN_IF | TOKEN_ELSE | TOKEN_WHILE
  | TOKEN_TRUE | TOKEN_FALSE | TOKEN_VOID | TOKEN_INT | TOKEN_FLOAT | TOKEN_STRING
  | TOKEN_BOOL
  | TOKEN_IDENTIFIER | TOKEN_INT_LITERAL | TOKEN_FLOAT_LITERAL | TOKEN_STRING_LITERAL
  | TOKEN_PLUS | TOKEN_MINUS | TOKEN_STAR | TOKEN_SLASH | TOKEN_EQUAL
  | TOKEN_EQUAL_EQUAL | TOKEN_BANG_EQUAL | TOKEN_GREATER | TOKEN_LESS
  | TOKEN_GREATER_EQUAL | TOKEN_LESS_EQUAL
  | TOKEN_LEFT_PAREN | TOKEN_RIGHT_PAREN | TOKEN_LEFT_BRACE | TOKEN_RIGHT_BRACE
  | TOKEN_COLON | TOKEN_COMMA | TOKEN_SEMICOLON
  | TOKEN_EOF | TOKEN_ERROR
  deriving DecidableEq, Repr

open TokenType

/-- The struct `Token`, restricted to the fields the parser reads. -/
structure Token where
  type : TokenType
  lexeme : String
  deriving DecidableEq, Repr

/-- The token `lexer_next_token` returns at the end of the source
(`make_token(lexer, TOKEN_EOF)` with an empty lexeme). -/
def eofToken : Token := { type := TOKEN_EOF, lexeme := "" }

/-! ## Abstract syntax (`craze_parser.h`) -/

/-- The enum `DataType`. -/
inductive DataType
  | TYPE_VOID | TYPE_INT | TYPE_FLOAT | TYPE_STRING | TYPE_BOOL | TYPE_INVALID
  deriving DecidableEq, Repr

open DataType

/-- The union `literal.value`.  A float literal holds `atof(lexeme)`; the
embedding keeps the lexeme and applies `atof` where the value is used. -/
inductive LitValue
  | int_value (v : Int)
  | float_value (lexeme : String)
  | string_value (s : String)
  | bool_value (b : Bool)
  deriving DecidableEq, Repr

/-- The struct `ASTNode`: one constructor per `node_type` with the matching arm
of the union.  Arrays are lists; `params`/`arguments` keep their separate
count because the parser can return a `NULL` array (here `[]`) together with a
non-zero count.  Children the parser or the interpreter treat as possibly
`NULL` are `Option`s. -/
inductive ASTNode
  | var_decl (name : String) (type_node : ASTNode) (initializer : Option ASTNode)
  | func_decl (name : String) (params : List ASTNode) (param_count : Nat)
      (return_type : ASTNode) (body : ASTNode)
  | param (name : String) (type_node : ASTNode)
  | if_stmt (condition : ASTNode) (then_branch : ASTNode) (else_branch : Option ASTNode)
  | while_stmt (condition : ASTNode) (body : ASTNode)
  | return_stmt (value : Option ASTNode)
  | expr_stmt (expression : ASTNode)
  | block (statements : List ASTNode)
  | binary_expr (operator : TokenType) (left : Option ASTNode) (right : ASTNode)
  | unary_expr (operator : TokenType) (operand : ASTNode)
  | assign_expr (variable_name : String) (value : ASTNode)
  | call_expr (function_name : String) (arguments : List ASTNode) (arg_count : Nat)
  | var_expr (name : String)
  | literal (literal_type : TokenType) (value : LitValue)
  | type_node (type : DataType)

open ASTNode

/-- The field `data_type` of a node.  `make_node` sets it to `TYPE_INVALID`;
only `make_literal_node` and `make_type_node` overwrite it. -/
def ASTNode.data_type : ASTNode → DataType
  | literal TOKEN_INT_LITERAL _ => TYPE_INT
  | literal TOKEN_FLOAT_LITERAL _ => TYPE_FLOAT
  | literal TOKEN_STRING_LITERAL _ => TYPE_STRING
  | literal TOKEN_TRUE _ => TYPE_BOOL
  | literal TOKEN_FALSE _ => TYPE_BOOL
  | type_node t => t
  | _ => TYPE_INVALID

/-- Whether `node->node_type == NODE_VAR_EXPR`. -/
def ASTNode.isVarExpr : ASTNode → Bool
  | var_expr _ => true
  | _ => false

/-! ## Parser state and token utilities (`craze_parser.c`) -/

/-- The struct `Parser`. -/
structure Parser where
  lexer : List Token
  current_token : Token
  previous_token : Token
  had_error : Bool
  panic_mode : Bool
  deriving DecidableEq, Repr

/-- What a parsing routine does: return a result in a new parser state, read
through a `NULL` pointer, or not return within the fuel given. -/
inductive Outcome (α : Type)
  | done (result : α) (p : Parser)
  | nullDeref
  | outOfFuel

/-- The call `lexer_next_token(parser->lexer)` seen from the parser. -/
def lexer_next_token : List Token → Token × List Token
  | [] => (eofToken, [])
  | t :: ts => (t, ts)

/-- The function `advance`. -/
def advance (p : Parser) : Parser :=
  let r := lexer_next_token p.lexer
  { p with previous_token := p.current_token, current_token := r.1, lexer := r.2 }

/-- The function `check`. -/
def check (p : Parser) (t : TokenType) : Bool :=
  p.current_token.type == t

/-- The function `match`: the returned flag and the state after it. -/
def match_ (p : Parser) (t : TokenType) : Bool × Parser :=
  if check p t then (true, advance p) else (false, p)

/-- The function `parser_error`. -/
def parser_error (p : Parser) : Parser :=
  if p.panic_mode then p else { p with panic_mode := true, had_error := true }

/-- The `while` loop of `synchronize`.  Every iteration that does not return
calls `advance`, so the loop runs at most once per pending token plus once for
the end of the stream; `synchronize` passes that bound as `fuel`
(`synchronize_loop_exit` shows the bound is never exhausted). -/
def synchronize_loop : Nat → Parser → Parser
  | 0, p => p
  | fuel + 1, p =>
    if p.current_token.type != TOKEN_EOF then
      if p.previous_token.type == TOKEN_SEMICOLON then p
      else
        match p.current_token.type with
        | TOKEN_LET | TOKEN_FN | TOKEN_IF | TOKEN_WHILE | TOKEN_RETURN => p
        | _ => synchronize_loop fuel (advance p)
    else p

/-- The function `synchronize`. -/
def synchronize (p : Parser) : Parser :=
  synchronize_loop (p.lexer.length + 1) { p with panic_mode := false }

/-- The function `consume`. -/
def consume (p : Parser) (t : TokenType) : Parser :=
  if p.current_token.type == t then advance p
  else synchronize (parser_error p)

/-! ## Node construction -/

/-- Two's-complement wrap of an integer to the range of a 32-bit `int`. -/
def wrap32 (x : Int) : Int := (x + 2147483648) % 4294967296 - 2147483648

/-- The value of a decimal digit, if the character is one. -/
def digitVal (c : Char) : Option Nat :=
  if '0' ≤ c ∧ c ≤ '9' then some (c.toNat - '0'.toNat) else none

/-- The number written by the leading decimal digits of a character list. -/
def leadingDigits : Nat → List Char → Nat
  | acc, [] => acc
  | acc, c :: cs =>
    match digitVal c with
    | some d => leadingDigits (acc * 10 + d) cs
    | none => acc

/-- The C library call `atoi` on a lexeme of the lexer (a run of digits):
`(int) strtol(s, NULL, 10)`, where `strtol` saturates at `LONG_MAX` and the
conversion to `int` keeps the low 32 bits. -/
def atoi (s : String) : Int :=
  wrap32 (min (leadingDigits 0 s.data) 9223372036854775807 : Nat)

/-- The string payload of a string literal: `strdup(lexeme + 1)` with its last
character overwritten by the terminator. -/
def stripQuotes (s : String) : String :=
  String.mk (s.data.drop 1).dropLast

/-- The function `make_literal_node`. -/
def make_literal_node (t : Token) : Option ASTNode :=
  match t.type with
  | TOKEN_INT_LITERAL => some (literal TOKEN_INT_LITERAL (.int_value (atoi t.lexeme)))
  | TOKEN_FLOAT_LITERAL => some (literal TOKEN_FLOAT_LITERAL (.float_value t.lexeme))
  | TOKEN_STRING_LITERAL =>
    some (literal TOKEN_STRING_LITERAL (.string_value (stripQuotes t.lexeme)))
  | TOKEN_TRUE => some (literal TOKEN_TRUE (.bool_value true))
  | TOKEN_FALSE => some (literal TOKEN_FALSE (.bool_value false))
  | _ => none

/-! ## Recursive descent -/

/-- The function `parse_type`. -/
def parse_type (p : Parser) : Option ASTNode × Parser :=
  match p.current_token.type with
  | TOKEN_INT => (some (type_node TYPE_INT), advance p)
  | TOKEN_FLOAT => (some (type_node TYPE_FLOAT), advance p)
  | TOKEN_STRING => (some (type_node TYPE_STRING), advance p)
  | TOKEN_BOOL => (some (type_node TYPE_BOOL), advance p)
  | TOKEN_VOID => (some (type_node TYPE_VOID), advance p)
  | _ => (none, parser_error p)

/-- The loop of `parse_parameters`, with the array built so far.  The result is
the array (`[]` for `NULL`) and `*count`; on a failed `parse_type` the C code
frees the array and returns `NULL` but leaves `*count` as it was. -/
def parse_parameters_loop : Nat → List ASTNode → Parser → Outcome (List ASTNode × Nat)
  | 0, _, _ => .outOfFuel
  | fuel + 1, params, p =>
    if !check p TOKEN_RIGHT_PAREN && !check p TOKEN_EOF then
      let p := if params.length > 0 then consume p TOKEN_COMMA else p
      let p := consume p TOKEN_IDENTIFIER
      let param_name := p.previous_token.lexeme
      let p := consume p TOKEN_COLON
      match parse_type p with
      | (none, p) => .done ([], params.length) p
      | (some param_type, p) =>
        parse_parameters_loop fuel (params ++ [param param_name param_type]) p
    else .done (params, params.length) p

/-- The function `parse_parameters`. -/
def parse_parameters (fuel : Nat) (p : Parser) : Outcome (List ASTNode × Nat) :=
  parse_parameters_loop fuel [] p

/-- The clean-up loop `for (i = 0; i < count; i++) ast_free(array[i]);` reads
`array[i]`: with a `NULL` array and a positive count it reads through `NULL`. -/
def freeArrayReadsNull (array : List ASTNode) (count : Nat) : Bool :=
  decide (array.length < count)

mutual

/-- The function `parse_variable_declaration`. -/
def parse_variable_declaration : Nat → Parser → Outcome (Option ASTNode)
  | 0, _ => .outOfFuel
  | fuel + 1, p =>
    let p := consume p TOKEN_IDENTIFIER
    let name := p.previous_token.lexeme
    let p := consume p TOKEN_COLON
    match parse_type p with
    | (none, p) => .done none p
    | (some decl_type, p) =>
      let p := consume p TOKEN_EQUAL
      match parse_expression fuel p with
      | .done none p => .done none p
      | .done (some init) p =>
        let p := consume p TOKEN_SEMICOLON
        .done (some (var_decl name decl_type (some init))) p
      | .nullDeref => .nullDeref
      | .outOfFuel => .outOfFuel

/-- The function `parse_function_declaration`. -/
def parse_function_declaration : Nat → Parser → Outcome (Option ASTNode)
  | 0, _ => .outOfFuel
  | fuel + 1, p =>
    let p := consume p TOKEN_IDENTIFIER
    let name := p.previous_token.lexeme
    let p := consume p TOKEN_LEFT_PAREN
    match parse_parameters fuel p with
    | .done (params, param_count) p =>
      let p := consume p TOKEN_RIGHT_PAREN
      let p := consume p TOKEN_COLON
      match parse_type p with
      | (none, p) =>
        if freeArrayReadsNull params param_count then .nullDeref else .done none p
      | (some return_type, p) =>
        match parse_block fuel p with
        | .done none p =>
          if freeArrayReadsNull params param_count then .nullDeref else .done none p
        | .done (some body) p =>
          .done (some (func_decl name params param_count return_type body)) p
        | .nullDeref => .nullDeref
        | .outOfFuel => .outOfFuel
    | .nullDeref => .nullDeref
    | .outOfFuel => .outOfFuel

/-- The `while` loop of `parse_block`, with the statements gathered so far. -/
def parse_block_loop : Nat → List ASTNode → Parser → Outcome (List ASTNode)
  | 0, _, _ => .outOfFuel
  | fuel + 1, statements, p =>
    if !check p TOKEN_RIGHT_BRACE && !check p TOKEN_EOF then
      match parse_declaration fuel p with
      | .done (some stmt) p => parse_block_loop fuel (statements ++ [stmt]) p
      | .done none p => parse_block_loop fuel statements (synchronize p)
      | .nullDeref => .nullDeref
      | .outOfFuel => .outOfFuel
    else .done statements p

/-- The function `parse_block`. -/
def parse_block : Nat → Parser → Outcome (Option ASTNode)
  | 0, _ => .outOfFuel
  | fuel + 1, p =>
    let p := consume p TOKEN_LEFT_BRACE
    match parse_block_loop fuel [] p with
    | .done statements p =>
      let p := consume p TOKEN_RIGHT_BRACE
      .done (some (block statements)) p
    | .nullDeref => .nullDeref
    | .outOfFuel => .outOfFuel

/-- The function `parse_if_statement`. -/
def parse_if_statement : Nat → Parser → Outcome (Option ASTNode)
  | 0, _ => .outOfFuel
  | fuel + 1, p =>
    let p := consume p TOKEN_LEFT_PAREN
    match parse_expression fuel p with
    | .done none p => .done none p
    | .done (some condition) p =>
      let p := consume p TOKEN_RIGHT_PAREN
      match parse_block fuel p with
      | .done none p => .done none p
      | .done (some then_branch) p =>
        match match_ p TOKEN_ELSE with
        | (true, p) =>
          match parse_block fuel p with
          | .done none p => .done none p
          | .done (some else_branch) p =>
            .done (some (if_stmt condition then_branch (some else_branch))) p
          | .nullDeref => .nullDeref
          | .outOfFuel => .outOfFuel
        | (false, p) => .done (some (if_stmt condition then_branch none)) p
      | .nullDeref => .nullDeref
      | .outOfFuel => .outOfFuel
    | .nullDeref => .nullDeref
    | .outOfFuel => .outOfFuel

/-- The function `parse_while_statement`. -/
def parse_while_statement : Nat → Parser → Outcome (Option ASTNode)
  | 0, _ => .outOfFuel
  | fuel + 1, p =>
    let p := consume p TOKEN_LEFT_PAREN
    match parse_expression fuel p with
    | .done none p => .done none p
    | .done (some condition) p =>
      let p := consume p TOKEN_RIGHT_PAREN
      match parse_block fuel p with
      | .done none p => .done none p
      | .done (some body) p => .done (some (while_stmt condition body)) p
      | .nullDeref => .nullDeref
      | .outOfFuel => .outOfFuel
    | .nullDeref => .nullDeref
    | .outOfFuel => .outOfFuel

/-- The function `parse_return_statement`. -/
def parse_return_statement : Nat → Parser → Outcome (Option ASTNode)
  | 0, _ => .outOfFuel
  | fuel + 1, p =>
    if !check p TOKEN_SEMICOLON then
      match parse_expression fuel p with
      | .done none p => .done none p
      | .done (some value) p =>
        .done (some (return_stmt (some value))) (consume p TOKEN_SEMICOLON)
      | .nullDeref => .nullDeref
      | .outOfFuel => .outOfFuel
    else .done (some (return_stmt none)) (consume p TOKEN_SEMICOLON)

/-- The function `parse_expression_statement`. -/
def parse_expression_statement : Nat → Parser → Outcome (Option ASTNode)
  | 0, _ => .outOfFuel
  | fuel + 1, p =>
    match parse_expression fuel p with
    | .done none p => .done none p
    | .done (some expr) p => .done (some (expr_stmt expr)) (consume p TOKEN_SEMICOLON)
    | .nullDeref => .nullDeref
    | .outOfFuel => .outOfFuel

/-- The function `parse_statement`. -/
def parse_statement : Nat → Parser → Outcome (Option ASTNode)
  | 0, _ => .outOfFuel
  | fuel + 1, p =>
    match match_ p TOKEN_IF with
    | (true, p) => parse_if_statement fuel p
    | (false, p) =>
      match match_ p TOKEN_WHILE with
      | (true, p) => parse_while_statement fuel p
      | (false, p) =>
        match match_ p TOKEN_RETURN with
        | (true, p) => parse_return_statement fuel p
        | (false, p) =>
          if check p TOKEN_LEFT_BRACE then parse_block fuel p
          else parse_expression_statement fuel p

/-- The function `parse_declaration`. -/
def parse_declaration : Nat → Parser → Outcome (Option ASTNode)
  | 0, _ => .outOfFuel
  | fuel + 1, p =>
    match match_ p TOKEN_LET with
    | (true, p) => parse_variable_declaration fuel p
    | (false, p) =>
      match match_ p TOKEN_FN with
      | (true, p) => parse_function_declaration fuel p
      | (false, p) => parse_statement fuel p

/-- The loop of `parse_argument_list`, with the array built so far; the result
is as for `parse_parameters_loop`. -/
def parse_argument_list_loop : Nat → List ASTNode → Parser → Outcome (List ASTNode × Nat)
  | 0, _, _ => .outOfFuel
  | fuel + 1, args, p =>
    if !check p TOKEN_RIGHT_PAREN && !check p TOKEN_EOF then
      let p := if args.length > 0 then consume p TOKEN_COMMA else p
      match parse_expression fuel p with
      | .done none p => .done ([], args.length) p
      | .done (some arg) p => parse_argument_list_loop fuel (args ++ [arg]) p
      | .nullDeref => .nullDeref
      | .outOfFuel => .outOfFuel
    else .done (args, args.length) p

/-- The function `parse_primary`. -/
def parse_primary : Nat → Parser → Outcome (Option ASTNode)
  | 0, _ => .outOfFuel
  | fuel + 1, p =>
    if check p TOKEN_TRUE || check p TOKEN_FALSE || check p TOKEN_INT_LITERAL ||
        check p TOKEN_FLOAT_LITERAL || check p TOKEN_STRING_LITERAL then
      let p := advance p
      .done (make_literal_node p.previous_token) p
    else if check p TOKEN_IDENTIFIER then
      let p := advance p
      let name := p.previous_token.lexeme
      if check p TOKEN_LEFT_PAREN then
        let p := advance p
        match parse_argument_list_loop fuel [] p with
        | .done (args, arg_count) p =>
          .done (some (call_expr name args arg_count)) (consume p TOKEN_RIGHT_PAREN)
        | .nullDeref => .nullDeref
        | .outOfFuel => .outOfFuel
      else .done (some (var_expr name)) p
    else if check p TOKEN_LEFT_PAREN then
      let p := advance p
      match parse_expression fuel p with
      | .done expr p => .done expr (consume p TOKEN_RIGHT_PAREN)
      | .nullDeref => .nullDeref
      | .outOfFuel => .outOfFuel
    else .done none (parser_error p)

/-- The function `parse_unary`. -/
def parse_unary : Nat → Parser → Outcome (Option ASTNode)
  | 0, _ => .outOfFuel
  | fuel + 1, p =>
    if check p TOKEN_MINUS then
      let p := advance p
      let operator := p.previous_token.type
      match parse_unary fuel p with
      | .done none p => .done none p
      | .done (some operand) p => .done (some (unary_expr operator operand)) p
      | .nullDeref => .nullDeref
      | .outOfFuel => .outOfFuel
    else parse_primary fuel p

/-- The `while` loop of `parse_factor`, entered with the tree built so far. -/
def parse_factor_loop : Nat → Option ASTNode → Parser → Outcome (Option ASTNode)
  | 0, _, _ => .outOfFuel
  | fuel + 1, expr, p =>
    if check p TOKEN_STAR || check p TOKEN_SLASH then
      let p := advance p
      let operator := p.previous_token.type
      match parse_unary fuel p with
      | .done none p => .done none p
      | .done (some right) p => parse_factor_loop fuel (some (binary_expr operator expr right)) p
      | .nullDeref => .nullDeref
      | .outOfFuel => .outOfFuel
    else .done expr p

/-- The function `parse_factor`. -/
def parse_factor : Nat → Parser → Outcome (Option ASTNode)
  | 0, _ => .outOfFuel
  | fuel + 1, p =>
    match parse_unary fuel p with
    | .done expr p => parse_factor_loop fuel expr p
    | .nullDeref => .nullDeref
    | .outOfFuel => .outOfFuel

/-- The `while` loop of `parse_term`. -/
def parse_term_loop : Nat → Option ASTNode → Parser → Outcome (Option ASTNode)
  | 0, _, _ => .outOfFuel
  | fuel + 1, expr, p =>
    if check p TOKEN_PLUS || check p TOKEN_MINUS then
      let p := advance p
      let operator := p.previous_token.type
      match parse_factor fuel p with
      | .done none p => .done none p
      | .done (some right) p => parse_term_loop fuel (some (binary_expr operator expr right)) p
      | .nullDeref => .nullDeref
      | .outOfFuel => .outOfFuel
    else .done expr p

/-- The function `parse_term`. -/
def parse_term : Nat → Parser → Outcome (Option ASTNode)
  | 0, _ => .outOfFuel
  | fuel + 1, p =>
    match parse_factor fuel p with
    | .done expr p => parse_term_loop fuel expr p
    | .nullDeref => .nullDeref
    | .outOfFuel => .outOfFuel

/-- The `while` loop of `parse_comparison`. -/
def parse_comparison_loop : Nat → Option ASTNode → Parser → Outcome (Option ASTNode)
  | 0, _, _ => .outOfFuel
  | fuel + 1, expr, p =>
    if check p TOKEN_GREATER || check p TOKEN_GREATER_EQUAL || check p TOKEN_LESS ||
        check p TOKEN_LESS_EQUAL then
      let p := advance p
      let operator := p.previous_token.type
      match parse_term fuel p with
      | .done none p => .done none p
      | .done (some right) p =>
        parse_comparison_loop fuel (some (binary_expr operator expr right)) p
      | .nullDeref => .nullDeref
      | .outOfFuel => .outOfFuel
    else .done expr p

/-- The function `parse_comparison`. -/
def parse_comparison : Nat → Parser → Outcome (Option ASTNode)
  | 0, _ => .outOfFuel
  | fuel + 1, p =>
    match parse_term fuel p with
    | .done expr p => parse_comparison_loop fuel expr p
    | .nullDeref => .nullDeref
    | .outOfFuel => .outOfFuel

/-- The `while` loop of `parse_equality`. -/
def parse_equality_loop : Nat → Option ASTNode → Parser → Outcome (Option ASTNode)
  | 0, _, _ => .outOfFuel
  | fuel + 1, expr, p =>
    if check p TOKEN_EQUAL_EQUAL || check p TOKEN_BANG_EQUAL then
      let p := advance p
      let operator := p.previous_token.type
      match parse_comparison fuel p with
      | .done none p => .done none p
      | .done (some right) p =>
        parse_equality_loop fuel (some (binary_expr operator expr right)) p
      | .nullDeref => .nullDeref
      | .outOfFuel => .outOfFuel
    else .done expr p

/-- The function `parse_equality`. -/
def parse_equality : Nat → Parser → Outcome (Option ASTNode)
  | 0, _ => .outOfFuel
  | fuel + 1, p =>
    match parse_comparison fuel p with
    | .done expr p => parse_equality_loop fuel expr p
    | .nullDeref => .nullDeref
    | .outOfFuel => .outOfFuel

/-- The function `parse_assignment`.  When `parse_equality` returned `NULL` and
the next token is `=`, the test `expr->node_type != NODE_VAR_EXPR` reads through
`NULL`. -/
def parse_assignment : Nat → Parser → Outcome (Option ASTNode)
  | 0, _ => .outOfFuel
  | fuel + 1, p =>
    match parse_equality fuel p with
    | .done expr p =>
      match match_ p TOKEN_EQUAL with
      | (true, p) =>
        match expr with
        | none => .nullDeref
        | some e =>
          match e with
          | var_expr var_name =>
            match parse_assignment fuel p with
            | .done none p => .done none p
            | .done (some value) p => .done (some (assign_expr var_name value)) p
            | .nullDeref => .nullDeref
            | .outOfFuel => .outOfFuel
          | _ => .done none (parser_error p)
      | (false, p) => .done expr p
    | .nullDeref => .nullDeref
    | .outOfFuel => .outOfFuel

/-- The function `parse_expression`. -/
def parse_expression : Nat → Parser → Outcome (Option ASTNode)
  | 0, _ => .outOfFuel
  | fuel + 1, p => parse_assignment fuel p

end

/-- The function `parse_argument_list`. -/
def parse_argument_list (fuel : Nat) (p : Parser) : Outcome (List ASTNode × Nat) :=
  parse_argument_list_loop fuel [] p

/-- The function `parser_init`.  The `Parser` is an uninitialised local of the
caller, so the first `advance` copies an indeterminate token into
`previous_token`: that token is the argument `junk`. -/
def parser_init (tokens : List Token) (junk : Token) : Parser :=
  advance { lexer := tokens, current_token := junk, previous_token := junk,
            had_error := false, panic_mode := false }

/-- The `while` loop of `parse_program`, with the declarations gathered so far. -/
def parse_program_loop : Nat → List ASTNode → Parser → Outcome (List ASTNode)
  | 0, _, _ => .outOfFuel
  | fuel + 1, declarations, p =>
    if !check p TOKEN_EOF then
      match parse_declaration fuel p with
      | .done (some decl) p => parse_program_loop fuel (declarations ++ [decl]) p
      | .done none p => parse_program_loop fuel declarations (synchronize p)
      | .nullDeref => .nullDeref
      | .outOfFuel => .outOfFuel
    else .done declarations p

/-- The function `parse_program`. -/
def parse_program (fuel : Nat) (p : Parser) : Outcome ASTNode :=
  match parse_program_loop fuel [] p with
  | .done declarations p => .done (block declarations) p
  | .nullDeref => .nullDeref
  | .outOfFuel => .outOfFuel

/-! ## Vocabulary for statements about the parser -/

/-- The kinds of primary operand that are a single token: the five literal
kinds and a variable name. -/
inductive OperandKind
  | int_literal | float_literal | string_literal | true_literal | false_literal | variable
  deriving DecidableEq, Repr

/-- A primary operand: its kind and the lexeme of its token. -/
structure Operand where
  kind : OperandKind
  lexeme : String
  deriving DecidableEq, Repr

/-- The token type the lexer gives an operand of each kind. -/
def OperandKind.tokenType : OperandKind → TokenType
  | .int_literal => TOKEN_INT_LITERAL
  | .float_literal => TOKEN_FLOAT_LITERAL
  | .string_literal => TOKEN_STRING_LITERAL
  | .true_literal => TOKEN_TRUE
  | .false_literal => TOKEN_FALSE
  | .variable => TOKEN_IDENTIFIER

/-- The token of an operand. -/
def Operand.token (o : Operand) : Token := { type := o.kind.tokenType, lexeme := o.lexeme }

/-- The node an operand stands for: what `make_literal_node` builds from its
token, or `make_var_node` from its name. -/
def Operand.node (o : Operand) : ASTNode :=
  match o.kind with
  | .int_literal => literal TOKEN_INT_LITERAL (.int_value (atoi o.lexeme))
  | .float_literal => literal TOKEN_FLOAT_LITERAL (.float_value o.lexeme)
  | .string_literal => literal TOKEN_STRING_LITERAL (.string_value (stripQuotes o.lexeme))
  | .true_literal => literal TOKEN_TRUE (.bool_value true)
  | .false_literal => literal TOKEN_FALSE (.bool_value false)
  | .variable => var_expr o.lexeme

/-- Token types that cannot continue an expression after a complete operand:
everything but the binary operators, `=` and `(`. -/
def endsExpression : TokenType → Bool
  | TOKEN_STAR | TOKEN_SLASH | TOKEN_PLUS | TOKEN_MINUS
  | TOKEN_GREATER | TOKEN_GREATER_EQUAL | TOKEN_LESS | TOKEN_LESS_EQUAL
  | TOKEN_EQUAL_EQUAL | TOKEN_BANG_EQUAL | TOKEN_EQUAL | TOKEN_LEFT_PAREN => false
  | _ => true

/-- The parser state with `cur` as current token, `prev` as previous token and
the tokens `rest` still to be delivered by the lexer. -/
def stateAt (cur prev : Token) (rest : List Token) (he pm : Bool) : Parser :=
  { lexer := rest, current_token := cur, previous_token := prev,
    had_error := he, panic_mode := pm }

/-- The precedence level of a binary operator token, numbered as the grammar
nests them: 1 equality, 2 comparison, 3 term, 4 factor; 0 for any other token. -/
def binaryLevel : TokenType → Nat
  | TOKEN_EQUAL_EQUAL | TOKEN_BANG_EQUAL => 1
  | TOKEN_GREATER | TOKEN_GREATER_EQUAL | TOKEN_LESS | TOKEN_LESS_EQUAL => 2
  | TOKEN_PLUS | TOKEN_MINUS => 3
  | TOKEN_STAR | TOKEN_SLASH => 4
  | _ => 0

/-- The routine `f` returns `r` in state `q` from state `p` whenever it is given
at least `k` units of fuel. -/
def ReturnsFrom {α : Type} (f : Nat → Parser → Outcome α) (k : Nat) (p : Parser) (r : α)
    (q : Parser) : Prop :=
  ∀ n, f (n + k) p = .done r q

/-- The link between the two flags of the parser: `panic_mode` is only ever set
by `parser_error`, together with `had_error`. -/
def Parser.consistent (p : Parser) : Prop :=
  p.panic_mode = true → p.had_error = true

/-- The tokens of the source text `1; )`. -/
def tokens_one_semicolon_paren : List Token :=
  [⟨TOKEN_INT_LITERAL, "1"⟩, ⟨TOKEN_SEMICOLON, ";"⟩, ⟨TOKEN_RIGHT_PAREN, ")"⟩]

/-- The parser state in which `parse_program` stalls on `1; )`: the statement `1;`
has been consumed, `)` is the current token and `;` the previous one. -/
def stalledState : Parser :=
  stateAt ⟨TOKEN_RIGHT_PAREN, ")"⟩ ⟨TOKEN_SEMICOLON, ";"⟩ [] true false

/-! ## Runtime values (`craze_interpreter.h`)

The interpreter computes with C `double`s.  The embedding does not fix their
arithmetic: the carrier `F` and the operations the interpreter uses are the
parameter `DoubleOps F`, and results that depend on a property of `double`s
state it as a hypothesis.  Reference counts are left out: a `Value` is never
modified after its creation, so sharing is not observable.  Of the output
streams only what `builtin_print` writes to `stdout` is kept
(`Interpreter.output`); banners and diagnostics are left out, and so are
`error_msg`, `debug_mode`, `trace_execution` and `allocated_values`. -/

/-- The operations on `double` the interpreter uses. -/
structure DoubleOps (F : Type) where
  /-- The conversion `(double) i`. -/
  ofInt : Int → F
  /-- The C library call `atof`. -/
  atof : String → F
  add : F → F → F
  sub : F → F → F
  mul : F → F → F
  div : F → F → F
  neg : F → F
  /-- The test `r == 0.0`. -/
  isZero : F → Bool
  /-- The test `l < r`. -/
  lt : F → F → Bool
  /-- The test `l > r`. -/
  gt : F → F → Bool
  /-- The test `fabs(l - r) < 1e-10`. -/
  near : F → F → Bool
  /-- The conversion `"%.6g"`. -/
  format : F → String

/-- The enum `ValueType`. -/
inductive ValueType
  | VAL_INT | VAL_FLOAT | VAL_STRING | VAL_BOOL | VAL_VOID | VAL_NULL | VAL_BUILTIN_FN
  deriving DecidableEq, Repr

open ValueType

/-- The three functions a `BuiltinFn` pointer can point to. -/
inductive BuiltinFn
  | builtin_print | builtin_type | builtin_len
  deriving DecidableEq, Repr

/-- The struct `Value`: the tag together with the matching arm of the union. -/
inductive Value (F : Type)
  | int_val (v : Int)
  | float_val (v : F)
  | string_val (s : String)
  | bool_val (b : Bool)
  | void
  | null
  | builtin_fn (function : BuiltinFn) (name : String)
  deriving DecidableEq, Repr

section Runtime

variable {F : Type}

/-- The field `type` of a value. -/
def Value.type : Value F → ValueType
  | .int_val _ => VAL_INT
  | .float_val _ => VAL_FLOAT
  | .string_val _ => VAL_STRING
  | .bool_val _ => VAL_BOOL
  | .void => VAL_VOID
  | .null => VAL_NULL
  | .builtin_fn _ _ => VAL_BUILTIN_FN

/-- The function `value_create_int`; the argument is a C `int`. -/
def value_create_int (value : Int) : Value F := .int_val (wrap32 value)

/-- The function `value_type_to_string`. -/
def value_type_to_string : ValueType → String
  | VAL_INT => "int"
  | VAL_FLOAT => "float"
  | VAL_STRING => "string"
  | VAL_BOOL => "bool"
  | VAL_VOID => "void"
  | VAL_NULL => "null"
  | VAL_BUILTIN_FN => "builtin_function"

/-- What `snprintf(buffer, 256, ...)` leaves in the buffer: the first 255
characters of the text.  The texts written this way are ASCII, so a character
is a byte. -/
def snprintf_256 (text : String) : String :=
  String.mk (text.data.take 255)

/-- The function `value_to_string`, on a possibly `NULL` pointer.  The texts of
an `int`, a `bool`, `void` and `null` are shorter than the buffer; a string is
copied by `strdup`. -/
def value_to_string (fl : DoubleOps F) : Option (Value F) → String
  | none => "null"
  | some (.int_val v) => toString v
  | some (.float_val v) => fl.format v
  | some (.string_val s) => s
  | some (.bool_val b) => if b then "true" else "false"
  | some .void => "void"
  | some .null => "null"
  | some (.builtin_fn _ name) => snprintf_256 ("<builtin function " ++ name ++ ">")

/-! ## Hash tables -/

/-- The function `hash_function`: DJB2 in `unsigned int` arithmetic, reduced
modulo the capacity.  Keys are identifiers, hence ASCII, so a character is its
code. -/
def hash_function (key : String) (capacity : Nat) : Nat :=
  (key.data.foldl (fun hash c => (hash * 33 + c.toNat) % 4294967296) 5381) % capacity

/-- The struct `HashTable`: `buckets[i]` is the chain of entries `(key, value)`
of bucket `i`, first entry first; a stored value is a pointer and may be
`NULL`. -/
structure HashTable (V : Type) where
  buckets : List (List (String × Option V))
  capacity : Nat
  count : Int

/-- The function `hashtable_create`. -/
def hashtable_create {V : Type} (capacity : Nat) : HashTable V :=
  { buckets := List.replicate capacity [], capacity := capacity, count := 0 }

/-- The first entry of a chain with the given key: its value. -/
def chain_find {V : Type} (key : String) : List (String × Option V) → Option (Option V)
  | [] => none
  | (k, v) :: rest => if k = key then some v else chain_find key rest

/-- A chain with the value of the first entry for `key` replaced, if there is
such an entry. -/
def chain_replace {V : Type} (key : String) (value : Option V) :
    List (String × Option V) → Option (List (String × Option V))
  | [] => none
  | (k, v) :: rest =>
    if k = key then some ((k, value) :: rest)
    else (chain_replace key value rest).map (fun rest' => (k, v) :: rest')

/-- The function `hashtable_get`: the value of the first entry with the key in
its bucket, `NULL` if there is none. -/
def hashtable_get {V : Type} (table : HashTable V) (key : String) : Option V :=
  match table with
  | ⟨buckets, capacity, _⟩ =>
    (chain_find key (buckets.getD (hash_function key capacity) [])).join

/-- The function `hashtable_set`. -/
def hashtable_set {V : Type} (table : HashTable V) (key : String) (value : Option V) :
    HashTable V :=
  match table with
  | ⟨buckets, capacity, count⟩ =>
    match chain_replace key value (buckets.getD (hash_function key capacity) []) with
    | some chain' => ⟨buckets.set (hash_function key capacity) chain', capacity, count⟩
    | none =>
      ⟨buckets.set (hash_function key capacity)
        ((key, value) :: buckets.getD (hash_function key capacity) []), capacity, count + 1⟩

/-- The function `hashtable_has`. -/
def hashtable_has {V : Type} (table : HashTable V) (key : String) : Bool :=
  (hashtable_get table key).isSome

/-! ## Environments

An environment is reachable only through `current_env` and `parent` links, and
blocks and calls nest, so the environments form a stack: a chain is the list of
its environments, innermost first, and `parent` is the tail. -/

/-- The struct `Environment` without its `parent` link (`variables_` is the
field `variables`). -/
structure Environment (F : Type) where
  variables_ : HashTable (Value F)
  functions : HashTable ASTNode

/-- The function `environment_create`. -/
def environment_create : Environment F :=
  { variables_ := hashtable_create 32, functions := hashtable_create 16 }

/-- The function `environment_define_var`. -/
def environment_define_var (env : Environment F) (name : String) (value : Option (Value F)) :
    Environment F :=
  match env with
  | ⟨vars, functions⟩ => ⟨hashtable_set vars name value, functions⟩

/-- The function `environment_get_var`, on the chain starting at `env`. -/
def environment_get_var : List (Environment F) → String → Option (Value F)
  | [], _ => none
  | current :: parent, name =>
    match hashtable_get current.variables_ name with
    | some value => some value
    | none => environment_get_var parent name

/-- The function `environment_assign_var`: the returned flag and the chain
afterwards. -/
def environment_assign_var :
    List (Environment F) → String → Option (Value F) → Bool × List (Environment F)
  | [], _, _ => (false, [])
  | current :: parent, name, value =>
    if hashtable_has current.variables_ name then
      (true, environment_define_var current name value :: parent)
    else
      ((environment_assign_var parent name value).1,
        current :: (environment_assign_var parent name value).2)

/-- The function `environment_define_func`: a new entry at the head of the
bucket, without a search for an existing one. -/
def environment_define_func (env : Environment F) (name : String) (func_node : ASTNode) :
    Environment F :=
  match env with
  | ⟨vars, ⟨buckets, capacity, count⟩⟩ =>
    ⟨vars,
      ⟨buckets.set (hash_function name capacity)
        ((name, some func_node) :: buckets.getD (hash_function name capacity) []),
       capacity, count + 1⟩⟩

/-- The first entry with the name in the function table of one environment. -/
def function_entry (env : Environment F) (name : String) : Option (Option ASTNode) :=
  match env with
  | ⟨_, ⟨buckets, capacity, _⟩⟩ =>
    chain_find name (buckets.getD (hash_function name capacity) [])

/-- The function `environment_get_func`: the value of the first entry with the
name, in the first environment of the chain that has one. -/
def environment_get_func : List (Environment F) → String → Option ASTNode
  | [], _ => none
  | current :: parent, name =>
    match function_entry current name with
    | some func_node => func_node
    | none => environment_get_func parent name

/-! ## Interpreter state -/

/-- The struct `Interpreter`.  `envs` is the chain starting at `current_env`;
its last element is `global_env`.  `call_stack` holds the function names of the
frames, innermost first.  `output` is what has been written to `stdout` by
`builtin_print`. -/
structure Interpreter (F : Type) where
  envs : List (Environment F)
  should_return : Bool
  return_value : Option (Value F)
  should_break : Bool
  should_continue : Bool
  error_count : Nat
  has_runtime_error : Bool
  call_stack : List String
  output : String

/-- The function `runtime_error`. -/
def runtime_error (interpreter : Interpreter F) : Interpreter F :=
  { interpreter with has_runtime_error := true,
                     error_count := interpreter.error_count + 1 }

/-- The function `push_call_frame`. -/
def push_call_frame (interpreter : Interpreter F) (function_name : String) : Interpreter F :=
  { interpreter with call_stack := function_name :: interpreter.call_stack }

/-- The function `pop_call_frame`. -/
def pop_call_frame (interpreter : Interpreter F) : Interpreter F :=
  { interpreter with call_stack := interpreter.call_stack.tail }

/-- What an execution routine does: return a result in a new interpreter state,
run into behaviour the C standard leaves undefined (a read through `NULL`, past
an array, of the wrong arm of a union or of freed memory), or not return within the
fuel given. -/
inductive Exec (F : Type) (α : Type)
  | done (result : α) (interpreter : Interpreter F)
  | undefined
  | outOfFuel

/-- The result of the routines that return a `Value *`, which may be `NULL`. -/
abbrev ExecValue (F : Type) := Exec F (Option (Value F))

/-! ## Built-in functions -/

/-- The text `builtin_print` writes: the arguments separated by one space,
then a newline. -/
def print_text (fl : DoubleOps F) : List (Option (Value F)) → String
  | [] => "\n"
  | [a] => value_to_string fl a ++ "\n"
  | a :: rest => value_to_string fl a ++ " " ++ print_text fl rest

/-- The function `builtin_print`. -/
def builtin_print (fl : DoubleOps F) (interpreter : Interpreter F)
    (args : List (Option (Value F))) : ExecValue F :=
  .done (some .void) { interpreter with output := interpreter.output ++ print_text fl args }

/-- The function `builtin_type`. -/
def builtin_type (interpreter : Interpreter F) (args : List (Option (Value F))) : ExecValue F :=
  match args with
  | [a] =>
    match a with
    | some v => .done (some (.string_val (value_type_to_string v.type))) interpreter
    | none => .undefined
  | _ => .done none (runtime_error interpreter)

/-- The function `builtin_len`; `strlen` counts bytes. -/
def builtin_len (interpreter : Interpreter F) (args : List (Option (Value F))) : ExecValue F :=
  match args with
  | [a] =>
    match a with
    | some (.string_val s) => .done (some (value_create_int (s.utf8ByteSize : Int))) interpreter
    | some _ => .done none (runtime_error interpreter)
    | none => .undefined
  | _ => .done none (runtime_error interpreter)

/-- The call through the pointer `builtin->data.builtin_fn.function`. -/
def call_builtin (fl : DoubleOps F) (function : BuiltinFn) (interpreter : Interpreter F)
    (args : List (Option (Value F))) : ExecValue F :=
  match function with
  | .builtin_print => builtin_print fl interpreter args
  | .builtin_type => builtin_type interpreter args
  | .builtin_len => builtin_len interpreter args

/-- The function `register_builtin_functions`, on the global environment. -/
def register_builtin_functions (global_env : Environment F) : Environment F :=
  let e := environment_define_var global_env "print" (some (.builtin_fn .builtin_print "print"))
  let e := environment_define_var e "type" (some (.builtin_fn .builtin_type "type"))
  environment_define_var e "len" (some (.builtin_fn .builtin_len "len"))

/-! ## The lifetime of a built-in value

A `Value` is reference counted.  The `Value` of a built-in is allocated once for each of
the three functions, by `register_builtin_functions`, and is left with one reference, that
of the entry of the global table.  `execute_variable_expr`, `hashtable_set` and
`execute_return_statement` take a reference for the pointer they hand out or store;
`hashtable_set` on a bound name, the destruction of an environment and `value_decref` on
an operand or an argument give one back, and `value_decref` frees the `Value` with its
last reference.  `execute_call_expr` takes none for the pointer `builtin` it gets from
`environment_get_var`, and reads `builtin->data.builtin_fn.function` through it after the
arguments have been evaluated. -/

/-- Whether a pointer is the `Value` of the built-in `function`. -/
def Value.is_builtin (function : BuiltinFn) : Option (Value F) → Bool
  | some (.builtin_fn g _) => decide (g = function)
  | _ => false

/-- Whether an entry of the table holds the `Value` of the built-in `function`. -/
def hashtable_holds_builtin (table : HashTable (Value F)) (function : BuiltinFn) : Bool :=
  table.buckets.any (fun chain => chain.any (fun entry => Value.is_builtin function entry.2))

/-- Whether the `Value` of the built-in `function`, which `execute_call_expr` found under
the name `func_name`, is still referenced when the arguments `args` of the call have been
evaluated, and so has not been freed: the name still resolves to it, or some variable of
the chain of environments, one of the arguments or `return_value` holds it.  A reference
that only a routine further up the C stack holds in a local variable (the left operand of
a binary expression, the result of an earlier statement of a block, the arguments of an
enclosing call) is not followed: where the `Value` lives by such a reference alone, the
model takes the read through `builtin` for a read of freed memory as well. -/
def builtin_referenced (interpreter : Interpreter F) (func_name : String)
    (function : BuiltinFn) (args : List (Option (Value F))) : Bool :=
  Value.is_builtin function (environment_get_var interpreter.envs func_name)
    || interpreter.envs.any (fun env => hashtable_holds_builtin env.variables_ function)
    || args.any (Value.is_builtin function)
    || Value.is_builtin function interpreter.return_value

/-! ## Operators -/

/-- Whether a value is an `int` or a `float`. -/
def Value.isNumeric : Value F → Bool
  | .int_val _ => true
  | .float_val _ => true
  | _ => false

/-- The conversion `(type == VAL_INT) ? (double) int_val : float_val` of a
numeric value. -/
def Value.toDouble (fl : DoubleOps F) : Value F → F
  | .int_val v => fl.ofInt v
  | .float_val v => v
  | _ => fl.ofInt 0

/-- The function `op_add`. -/
def op_add (fl : DoubleOps F) (interpreter : Interpreter F) (left right : Value F) :
    Option (Value F) × Interpreter F :=
  match left, right with
  | .int_val l, .int_val r => (some (value_create_int (l + r)), interpreter)
  | l, r =>
    if l.isNumeric && r.isNumeric then
      (some (.float_val (fl.add (l.toDouble fl) (r.toDouble fl))), interpreter)
    else
      match l, r with
      | .string_val a, .string_val b => (some (.string_val (a ++ b)), interpreter)
      | _, _ => (none, runtime_error interpreter)

/-- The function `op_subtract`. -/
def op_subtract (fl : DoubleOps F) (interpreter : Interpreter F) (left right : Value F) :
    Option (Value F) × Interpreter F :=
  match left, right with
  | .int_val l, .int_val r => (some (value_create_int (l - r)), interpreter)
  | l, r =>
    if l.isNumeric && r.isNumeric then
      (some (.float_val (fl.sub (l.toDouble fl) (r.toDouble fl))), interpreter)
    else (none, runtime_error interpreter)

/-- The function `op_multiply`. -/
def op_multiply (fl : DoubleOps F) (interpreter : Interpreter F) (left right : Value F) :
    Option (Value F) × Interpreter F :=
  match left, right with
  | .int_val l, .int_val r => (some (value_create_int (l * r)), interpreter)
  | l, r =>
    if l.isNumeric && r.isNumeric then
      (some (.float_val (fl.mul (l.toDouble fl) (r.toDouble fl))), interpreter)
    else (none, runtime_error interpreter)

/-- The function `op_divide`. -/
def op_divide (fl : DoubleOps F) (interpreter : Interpreter F) (left right : Value F) :
    Option (Value F) × Interpreter F :=
  if left.isNumeric && right.isNumeric then
    if fl.isZero (right.toDouble fl) then (none, runtime_error interpreter)
    else (some (.float_val (fl.div (left.toDouble fl) (right.toDouble fl))), interpreter)
  else (none, runtime_error interpreter)

/-- The function `op_compare_eq`; it raises no error. -/
def op_compare_eq (fl : DoubleOps F) (left right : Value F) : Value F :=
  match left, right with
  | .int_val l, .int_val r => .bool_val (decide (l = r))
  | .float_val l, .float_val r => .bool_val (fl.near l r)
  | .string_val l, .string_val r => .bool_val (decide (l = r))
  | .bool_val l, .bool_val r => .bool_val (l == r)
  | .void, .void => .bool_val true
  | .null, .null => .bool_val true
  | .int_val l, .float_val r => .bool_val (fl.near (fl.ofInt l) r)
  | .float_val l, .int_val r => .bool_val (fl.near l (fl.ofInt r))
  | _, _ => .bool_val false

/-- The payload `bool_val` of a value known to be a `bool`. -/
def Value.truth : Value F → Bool
  | .bool_val b => b
  | _ => false

/-- The function `op_compare_neq`. -/
def op_compare_neq (fl : DoubleOps F) (interpreter : Interpreter F) (left right : Value F) :
    Option (Value F) × Interpreter F :=
  (some (.bool_val (!(op_compare_eq fl left right).truth)), interpreter)

/-- The function `op_compare_gt`. -/
def op_compare_gt (fl : DoubleOps F) (interpreter : Interpreter F) (left right : Value F) :
    Option (Value F) × Interpreter F :=
  if left.isNumeric && right.isNumeric then
    (some (.bool_val (fl.gt (left.toDouble fl) (right.toDouble fl))), interpreter)
  else (none, runtime_error interpreter)

/-- The function `op_compare_lt`. -/
def op_compare_lt (fl : DoubleOps F) (interpreter : Interpreter F) (left right : Value F) :
    Option (Value F) × Interpreter F :=
  if left.isNumeric && right.isNumeric then
    (some (.bool_val (fl.lt (left.toDouble fl) (right.toDouble fl))), interpreter)
  else (none, runtime_error interpreter)

/-- The function `op_compare_gte`. -/
def op_compare_gte (fl : DoubleOps F) (interpreter : Interpreter F) (left right : Value F) :
    Option (Value F) × Interpreter F :=
  match op_compare_gt fl interpreter left right with
  | (none, interpreter) => (none, interpreter)
  | (some gt_result, interpreter) =>
    (some (.bool_val (gt_result.truth || (op_compare_eq fl left right).truth)), interpreter)

/-- The function `op_compare_lte`. -/
def op_compare_lte (fl : DoubleOps F) (interpreter : Interpreter F) (left right : Value F) :
    Option (Value F) × Interpreter F :=
  match op_compare_lt fl interpreter left right with
  | (none, interpreter) => (none, interpreter)
  | (some lt_result, interpreter) =>
    (some (.bool_val (lt_result.truth || (op_compare_eq fl left right).truth)), interpreter)

/-- The `switch (op)` of `execute_binary_expr`. -/
def binary_switch (fl : DoubleOps F) (interpreter : Interpreter F) (op : TokenType)
    (left right : Value F) : Option (Value F) × Interpreter F :=
  match op with
  | TOKEN_PLUS => op_add fl interpreter left right
  | TOKEN_MINUS => op_subtract fl interpreter left right
  | TOKEN_STAR => op_multiply fl interpreter left right
  | TOKEN_SLASH => op_divide fl interpreter left right
  | TOKEN_EQUAL_EQUAL => (some (op_compare_eq fl left right), interpreter)
  | TOKEN_BANG_EQUAL => op_compare_neq fl interpreter left right
  | TOKEN_GREATER => op_compare_gt fl interpreter left right
  | TOKEN_LESS => op_compare_lt fl interpreter left right
  | TOKEN_GREATER_EQUAL => op_compare_gte fl interpreter left right
  | TOKEN_LESS_EQUAL => op_compare_lte fl interpreter left right
  | _ => (none, runtime_error interpreter)

/-- The `switch (op)` of `execute_unary_expr`. -/
def unary_switch (fl : DoubleOps F) (interpreter : Interpreter F) (op : TokenType)
    (operand : Value F) : Option (Value F) × Interpreter F :=
  match op with
  | TOKEN_MINUS =>
    match operand with
    | .int_val v => (some (value_create_int (-v)), interpreter)
    | .float_val v => (some (.float_val (fl.neg v)), interpreter)
    | _ => (none, runtime_error interpreter)
  | _ => (none, runtime_error interpreter)

/-- The function `execute_literal_expr`, on the fields of a literal node. -/
def execute_literal_expr (fl : DoubleOps F) (interpreter : Interpreter F)
    (literal_type : TokenType) (value : LitValue) : ExecValue F :=
  match literal_type, value with
  | TOKEN_INT_LITERAL, .int_value v => .done (some (value_create_int v)) interpreter
  | TOKEN_FLOAT_LITERAL, .float_value lexeme =>
    .done (some (.float_val (fl.atof lexeme))) interpreter
  | TOKEN_STRING_LITERAL, .string_value s => .done (some (.string_val s)) interpreter
  | TOKEN_TRUE, _ => .done (some (.bool_val true)) interpreter
  | TOKEN_FALSE, _ => .done (some (.bool_val false)) interpreter
  | TOKEN_INT_LITERAL, _ => .undefined
  | TOKEN_FLOAT_LITERAL, _ => .undefined
  | TOKEN_STRING_LITERAL, _ => .undefined
  | _, _ => .done none (runtime_error interpreter)

/-- The function `execute_variable_expr`. -/
def execute_variable_expr (interpreter : Interpreter F) (var_name : String) : ExecValue F :=
  match environment_get_var interpreter.envs var_name with
  | none => .done none (runtime_error interpreter)
  | some value => .done (some value) interpreter

/-- The function `execute_function_decl`. -/
def execute_function_decl (interpreter : Interpreter F) (func_name : String)
    (node : ASTNode) : ExecValue F :=
  match interpreter.envs with
  | [] => .undefined
  | current_env :: parent =>
    .done (some .void)
      { interpreter with envs := environment_define_func current_env func_name node :: parent }

/-- The default value `execute_variable_decl` makes from `node->data_type` when
the declaration has no initializer. -/
def default_value (fl : DoubleOps F) (t : DataType) : Value F :=
  match t with
  | TYPE_INT => value_create_int 0
  | TYPE_FLOAT => .float_val (fl.ofInt 0)
  | TYPE_STRING => .string_val ""
  | TYPE_BOOL => .bool_val false
  | _ => .null


mutual

/-- The function `execute_statement`. -/
def execute_statement (fl : DoubleOps F) :
    Nat → Option ASTNode → Interpreter F → ExecValue F
  | 0, _, _ => .outOfFuel
  | _ + 1, none, interpreter => .done (some .void) interpreter
  | fuel + 1, some node, interpreter =>
    match node with
    | var_decl name _ init => execute_variable_decl fl fuel name init node.data_type interpreter
    | func_decl name _ _ _ _ => execute_function_decl interpreter name node
    | block _ => execute_block fl fuel node interpreter
    | if_stmt condition then_branch else_branch =>
      execute_if_statement fl fuel condition then_branch else_branch interpreter
    | while_stmt condition body =>
      execute_while_loop fl fuel condition body .void interpreter
    | return_stmt value => execute_return_statement fl fuel value interpreter
    | expr_stmt expression => execute_expression fl fuel (some expression) interpreter
    | _ => .done none (runtime_error interpreter)

/-- The function `execute_variable_decl`, on the fields of the node. -/
def execute_variable_decl (fl : DoubleOps F) :
    Nat → String → Option ASTNode → DataType → Interpreter F → ExecValue F
  | 0, _, _, _, _ => .outOfFuel
  | fuel + 1, var_name, init, data_type, interpreter =>
    match interpreter.envs with
    | [] => .undefined
    | current_env :: _ =>
      match hashtable_get current_env.variables_ var_name with
      | some _ => .done none (runtime_error interpreter)
      | none =>
        match init with
        | some init_node =>
          match execute_expression fl fuel (some init_node) interpreter with
          | .done init_value interpreter =>
            if interpreter.has_runtime_error then .done none interpreter
            else
              match interpreter.envs with
              | [] => .undefined
              | current_env :: parent =>
                .done (some .void)
                  { interpreter with
                    envs := environment_define_var current_env var_name init_value :: parent }
          | .undefined => .undefined
          | .outOfFuel => .outOfFuel
        | none =>
          .done (some .void)
            { interpreter with
              envs := environment_define_var current_env var_name
                (some (default_value fl data_type)) :: interpreter.envs.tail }

/-- The function `execute_block`: a new environment, the statement loop, and
the environment dropped again on every way out. -/
def execute_block (fl : DoubleOps F) : Nat → ASTNode → Interpreter F → ExecValue F
  | 0, _, _ => .outOfFuel
  | fuel + 1, node, interpreter =>
    match node with
    | block statements =>
      execute_block_loop fl fuel statements .void
        { interpreter with envs := environment_create :: interpreter.envs }
    | _ => .undefined

/-- The `for` loop of `execute_block` from statement `i` on, with the `result`
so far, followed by the end of the function. -/
def execute_block_loop (fl : DoubleOps F) :
    Nat → List ASTNode → Value F → Interpreter F → ExecValue F
  | 0, _, _, _ => .outOfFuel
  | _ + 1, [], result, interpreter =>
    .done (some result) { interpreter with envs := interpreter.envs.tail }
  | fuel + 1, stmt :: rest, result, interpreter =>
    match execute_statement fl fuel (some stmt) interpreter with
    | .done stmt_result interpreter =>
      if interpreter.has_runtime_error then
        .done none { interpreter with envs := interpreter.envs.tail }
      else
        let result := stmt_result.getD result
        if interpreter.should_return || interpreter.should_break ||
            interpreter.should_continue then
          .done (some result) { interpreter with envs := interpreter.envs.tail }
        else execute_block_loop fl fuel rest result interpreter
    | .undefined => .undefined
    | .outOfFuel => .outOfFuel

/-- The function `execute_if_statement`. -/
def execute_if_statement (fl : DoubleOps F) :
    Nat → ASTNode → ASTNode → Option ASTNode → Interpreter F → ExecValue F
  | 0, _, _, _, _ => .outOfFuel
  | fuel + 1, condition, then_branch, else_branch, interpreter =>
    match execute_expression fl fuel (some condition) interpreter with
    | .done cond interpreter =>
      if interpreter.has_runtime_error then .done none interpreter
      else
        match cond with
        | none => .undefined
        | some (.bool_val b) =>
          if b then
            match execute_statement fl fuel (some then_branch) interpreter with
            | .done then_result interpreter => .done (some (then_result.getD .void)) interpreter
            | .undefined => .undefined
            | .outOfFuel => .outOfFuel
          else
            match else_branch with
            | some else_node =>
              match execute_statement fl fuel (some else_node) interpreter with
              | .done else_result interpreter =>
                .done (some (else_result.getD .void)) interpreter
              | .undefined => .undefined
              | .outOfFuel => .outOfFuel
            | none => .done (some .void) interpreter
        | some _ => .done none (runtime_error interpreter)
    | .undefined => .undefined
    | .outOfFuel => .outOfFuel

/-- The `while (1)` loop of `execute_while_statement`, with the `result` so
far, followed by the end of the function. -/
def execute_while_loop (fl : DoubleOps F) :
    Nat → ASTNode → ASTNode → Value F → Interpreter F → ExecValue F
  | 0, _, _, _, _ => .outOfFuel
  | fuel + 1, condition, body, result, interpreter =>
    match execute_expression fl fuel (some condition) interpreter with
    | .done cond interpreter =>
      if interpreter.has_runtime_error then .done none interpreter
      else
        match cond with
        | none => .undefined
        | some (.bool_val b) =>
          if !b then .done (some result) interpreter
          else
            match execute_statement fl fuel (some body) interpreter with
            | .done body_result interpreter =>
              if interpreter.should_break then
                .done (some result) { interpreter with should_break := false }
              else if interpreter.should_continue then
                execute_while_loop fl fuel condition body result
                  { interpreter with should_continue := false }
              else if interpreter.should_return then
                .done (some (body_result.getD result)) interpreter
              else if interpreter.has_runtime_error then
                .done (some (body_result.getD result)) interpreter
              else
                execute_while_loop fl fuel condition body (body_result.getD result) interpreter
            | .undefined => .undefined
            | .outOfFuel => .outOfFuel
        | some _ => .done none (runtime_error interpreter)
    | .undefined => .undefined
    | .outOfFuel => .outOfFuel

/-- The function `execute_return_statement`. -/
def execute_return_statement (fl : DoubleOps F) :
    Nat → Option ASTNode → Interpreter F → ExecValue F
  | 0, _, _ => .outOfFuel
  | fuel + 1, value, interpreter =>
    match value with
    | some value_node =>
      match execute_expression fl fuel (some value_node) interpreter with
      | .done return_value interpreter =>
        if interpreter.has_runtime_error then .done none interpreter
        else
          .done return_value
            { interpreter with should_return := true, return_value := return_value }
      | .undefined => .undefined
      | .outOfFuel => .outOfFuel
    | none =>
      .done (some .void)
        { interpreter with should_return := true, return_value := some .void }

/-- The function `execute_expression`. -/
def execute_expression (fl : DoubleOps F) :
    Nat → Option ASTNode → Interpreter F → ExecValue F
  | 0, _, _ => .outOfFuel
  | _ + 1, none, interpreter => .done (some .void) interpreter
  | fuel + 1, some node, interpreter =>
    match node with
    | binary_expr operator left right =>
      execute_binary_expr fl fuel operator left right interpreter
    | unary_expr operator operand => execute_unary_expr fl fuel operator operand interpreter
    | assign_expr variable_name value =>
      execute_assignment fl fuel variable_name value interpreter
    | call_expr function_name arguments arg_count =>
      execute_call_expr fl fuel function_name arguments arg_count interpreter
    | var_expr name => execute_variable_expr interpreter name
    | literal literal_type value => execute_literal_expr fl interpreter literal_type value
    | _ => .done none (runtime_error interpreter)

/-- The function `execute_binary_expr`.  Each of the ten operator routines
reads `left->type`; the `default` arm of the switch reads neither operand. -/
def execute_binary_expr (fl : DoubleOps F) :
    Nat → TokenType → Option ASTNode → ASTNode → Interpreter F → ExecValue F
  | 0, _, _, _, _ => .outOfFuel
  | fuel + 1, op, left_node, right_node, interpreter =>
    match execute_expression fl fuel left_node interpreter with
    | .done left interpreter =>
      if interpreter.has_runtime_error then .done none interpreter
      else
        match execute_expression fl fuel (some right_node) interpreter with
        | .done right interpreter =>
          if interpreter.has_runtime_error then .done none interpreter
          else
            match left, right with
            | some l, some r =>
              .done (binary_switch fl interpreter op l r).1 (binary_switch fl interpreter op l r).2
            | _, _ =>
              if binaryLevel op = 0 then .done none (runtime_error interpreter)
              else .undefined
        | .undefined => .undefined
        | .outOfFuel => .outOfFuel
    | .undefined => .undefined
    | .outOfFuel => .outOfFuel

/-- The function `execute_unary_expr`. -/
def execute_unary_expr (fl : DoubleOps F) :
    Nat → TokenType → ASTNode → Interpreter F → ExecValue F
  | 0, _, _, _ => .outOfFuel
  | fuel + 1, op, operand_node, interpreter =>
    match execute_expression fl fuel (some operand_node) interpreter with
    | .done operand interpreter =>
      if interpreter.has_runtime_error then .done none interpreter
      else
        match operand with
        | some v => .done (unary_switch fl interpreter op v).1 (unary_switch fl interpreter op v).2
        | none =>
          if op = TOKEN_MINUS then .undefined else .done none (runtime_error interpreter)
    | .undefined => .undefined
    | .outOfFuel => .outOfFuel

/-- The function `execute_assignment`. -/
def execute_assignment (fl : DoubleOps F) :
    Nat → String → ASTNode → Interpreter F → ExecValue F
  | 0, _, _, _ => .outOfFuel
  | fuel + 1, var_name, value_node, interpreter =>
    match execute_expression fl fuel (some value_node) interpreter with
    | .done value interpreter =>
      if interpreter.has_runtime_error then .done none interpreter
      else
        if (environment_assign_var interpreter.envs var_name value).1 then
          .done value
            { interpreter with
              envs := (environment_assign_var interpreter.envs var_name value).2 }
        else .done none (runtime_error interpreter)
    | .undefined => .undefined
    | .outOfFuel => .outOfFuel

/-- The built-in branch of `execute_call_expr` from argument `i` on: the
remaining argument nodes `arguments`, the number `remaining` of arguments still
to evaluate, and the values `args` so far; then the call of the built-in, whose
address is read through the pointer `builtin` that was found under `func_name`
before the arguments were evaluated: a read of freed memory when an argument
has dropped the last reference to that `Value`. -/
def execute_builtin_call (fl : DoubleOps F) :
    Nat → String → BuiltinFn → List ASTNode → Nat → List (Option (Value F)) →
      Interpreter F → ExecValue F
  | 0, _, _, _, _, _, _ => .outOfFuel
  | _ + 1, func_name, function, _, 0, args, interpreter =>
    if builtin_referenced interpreter func_name function args then
      call_builtin fl function interpreter args
    else .undefined
  | _ + 1, _, _, [], _ + 1, _, _ => .undefined
  | fuel + 1, func_name, function, argument :: arguments, remaining + 1, args, interpreter =>
    match execute_expression fl fuel (some argument) interpreter with
    | .done arg interpreter =>
      if interpreter.has_runtime_error then .done none interpreter
      else
        execute_builtin_call fl fuel func_name function arguments remaining (args ++ [arg])
          interpreter
    | .undefined => .undefined
    | .outOfFuel => .outOfFuel

/-- The user-function branch of `execute_call_expr` from argument `i` on: the
remaining argument nodes and parameters, the number `remaining` of arguments
still to bind, and `function_env` as filled so far; then the call itself. -/
def execute_user_call (fl : DoubleOps F) :
    Nat → String → ASTNode → List ASTNode → List ASTNode → Nat → Environment F →
      Interpreter F → ExecValue F
  | 0, _, _, _, _, _, _, _ => .outOfFuel
  | fuel + 1, func_name, body, _, _, 0, function_env, interpreter =>
    let interpreter := push_call_frame interpreter func_name
    let old_should_return := interpreter.should_return
    let old_return_value := interpreter.return_value
    match execute_block fl fuel body
        { interpreter with envs := function_env :: interpreter.envs,
                           should_return := false, return_value := none } with
    | .done result interpreter =>
      let result :=
        if interpreter.should_return && interpreter.return_value.isSome then
          interpreter.return_value
        else result
      .done (some (result.getD .void))
        (pop_call_frame
          { interpreter with envs := interpreter.envs.tail,
                             should_return := old_should_return,
                             return_value := old_return_value })
    | .undefined => .undefined
    | .outOfFuel => .outOfFuel
  | fuel + 1, func_name, body, argument :: arguments, param_node :: params, remaining + 1,
      function_env, interpreter =>
    match execute_expression fl fuel (some argument) interpreter with
    | .done arg_value interpreter =>
      if interpreter.has_runtime_error then .done none interpreter
      else
        match param_node with
        | param param_name _ =>
          execute_user_call fl fuel func_name body arguments params remaining
            (environment_define_var function_env param_name arg_value) interpreter
        | _ => .undefined
    | .undefined => .undefined
    | .outOfFuel => .outOfFuel
  | _ + 1, _, _, _, _, _ + 1, _, _ => .undefined

/-- The function `execute_call_expr`. -/
def execute_call_expr (fl : DoubleOps F) :
    Nat → String → List ASTNode → Nat → Interpreter F → ExecValue F
  | 0, _, _, _, _ => .outOfFuel
  | fuel + 1, func_name, arguments, arg_count, interpreter =>
    match environment_get_var interpreter.envs func_name with
    | some (.builtin_fn function _) =>
      execute_builtin_call fl fuel func_name function arguments arg_count [] interpreter
    | _ =>
      match environment_get_func interpreter.envs func_name with
      | none => .done none (runtime_error interpreter)
      | some function_node =>
        match function_node with
        | func_decl _ params param_count _ body =>
          if arg_count ≠ param_count then .done none (runtime_error interpreter)
          else
            execute_user_call fl fuel func_name body arguments params arg_count
              environment_create interpreter
        | _ => .undefined

end

/-- The function `execute_program`. -/
def execute_program (fl : DoubleOps F) (fuel : Nat) (node : Option ASTNode)
    (interpreter : Interpreter F) : ExecValue F :=
  match node with
  | none => .done none (runtime_error interpreter)
  | some root =>
    match execute_statement fl fuel (some root) interpreter with
    | .done result interpreter =>
      if interpreter.has_runtime_error then .done none interpreter
      else .done result interpreter
    | .undefined => .undefined
    | .outOfFuel => .outOfFuel

/-- The function `interpreter_init`: the state it leaves in `*interpreter`
(the field `ast_root` is the argument of `interpreter_execute` below). -/
def interpreter_init : Interpreter F :=
  { envs := [register_builtin_functions environment_create],
    should_return := false, return_value := none,
    should_break := false, should_continue := false,
    error_count := 0, has_runtime_error := false,
    call_stack := [], output := "" }

/-- The function `interpreter_execute`, with the `ast_root` of the interpreter:
the `int` it returns. -/
def interpreter_execute (fl : DoubleOps F) (fuel : Nat) (ast_root : Option ASTNode)
    (interpreter : Interpreter F) : Exec F Int :=
  match ast_root with
  | none => .done 0 (runtime_error interpreter)
  | some root =>
    match execute_program fl fuel (some root) interpreter with
    | .done _ interpreter =>
      if interpreter.has_runtime_error then .done 0 interpreter
      else .done 1 interpreter
    | .undefined => .undefined
    | .outOfFuel => .outOfFuel

end Runtime

/-! ## Programs used in the statements -/

/-- The declaration of `fatorial` in `test_program_2`
(`fn fatorial(n: int): int { if (n == 0) { return 1; } else { return n * fatorial(n - 1); } }`)
as the parser builds it. -/
def fatorial_decl : ASTNode :=
  func_decl "fatorial" [param "n" (type_node TYPE_INT)] 1 (type_node TYPE_INT)
    (block
      [if_stmt
        (binary_expr TOKEN_EQUAL_EQUAL (some (var_expr "n"))
          (literal TOKEN_INT_LITERAL (.int_value 0)))
        (block [return_stmt (some (literal TOKEN_INT_LITERAL (.int_value 1)))])
        (some (block
          [return_stmt (some
            (binary_expr TOKEN_STAR (some (var_expr "n"))
              (call_expr "fatorial"
                [binary_expr TOKEN_MINUS (some (var_expr "n"))
                  (literal TOKEN_INT_LITERAL (.int_value 1))] 1)))]))])

/-- The tokens of the declaration of `fatorial` in `test_program_2`. -/
def fatorial_tokens : List Token :=
  [⟨TOKEN_FN, "fn"⟩, ⟨TOKEN_IDENTIFIER, "fatorial"⟩, ⟨TOKEN_LEFT_PAREN, "("⟩,
   ⟨TOKEN_IDENTIFIER, "n"⟩, ⟨TOKEN_COLON, ":"⟩, ⟨TOKEN_INT, "int"⟩, ⟨TOKEN_RIGHT_PAREN, ")"⟩,
   ⟨TOKEN_COLON, ":"⟩, ⟨TOKEN_INT, "int"⟩, ⟨TOKEN_LEFT_BRACE, "\x7b"⟩,
   ⟨TOKEN_IF, "if"⟩, ⟨TOKEN_LEFT_PAREN, "("⟩, ⟨TOKEN_IDENTIFIER, "n"⟩,
   ⟨TOKEN_EQUAL_EQUAL, "=="⟩, ⟨TOKEN_INT_LITERAL, "0"⟩, ⟨TOKEN_RIGHT_PAREN, ")"⟩,
   ⟨TOKEN_LEFT_BRACE, "\x7b"⟩, ⟨TOKEN_RETURN, "return"⟩, ⟨TOKEN_INT_LITERAL, "1"⟩,
   ⟨TOKEN_SEMICOLON, ";"⟩, ⟨TOKEN_RIGHT_BRACE, "\x7d"⟩, ⟨TOKEN_ELSE, "else"⟩,
   ⟨TOKEN_LEFT_BRACE, "\x7b"⟩, ⟨TOKEN_RETURN, "return"⟩, ⟨TOKEN_IDENTIFIER, "n"⟩,
   ⟨TOKEN_STAR, "*"⟩, ⟨TOKEN_IDENTIFIER, "fatorial"⟩, ⟨TOKEN_LEFT_PAREN, "("⟩,
   ⟨TOKEN_IDENTIFIER, "n"⟩, ⟨TOKEN_MINUS, "-"⟩, ⟨TOKEN_INT_LITERAL, "1"⟩,
   ⟨TOKEN_RIGHT_PAREN, ")"⟩, ⟨TOKEN_SEMICOLON, ";"⟩, ⟨TOKEN_RIGHT_BRACE, "\x7d"⟩,
   ⟨TOKEN_RIGHT_BRACE, "\x7d"⟩]

/-- The interpreter state after `interpreter_init` and the execution of the
declaration of `fatorial` at top level (inside the block of the program root). -/
def fatorial_declared {F : Type} : Interpreter F :=
  { (interpreter_init : Interpreter F) with
    envs := [environment_define_func environment_create "fatorial" fatorial_decl,
             register_builtin_functions environment_create] }

/-- The call expression `fatorial(n)` for an integer literal `n`. -/
def fatorial_call (n : Int) : ASTNode :=
  call_expr "fatorial" [literal TOKEN_INT_LITERAL (.int_value n)] 1

/-- The result of an execution: its value and whether a runtime error was
raised; `none` when the execution did not return normally. -/
def Exec.value_and_error {F α : Type} : Exec F α → Option (α × Bool)
  | .done result interpreter => some (result, interpreter.has_runtime_error)
  | .undefined => none
  | .outOfFuel => none

/-! ## Vocabulary for statements about the interpreter -/

/-- A table as `hashtable_create` builds it and `hashtable_set` keeps it: one
chain per bucket index and a positive capacity. -/
def HashTable.WF {V : Type} (table : HashTable V) : Prop :=
  table.buckets.length = table.capacity ∧ 0 < table.capacity

/-- Whether the variable table of an environment binds the name
(`hashtable_has(env->variables, name)`). -/
def Environment.binds {F : Type} (env : Environment F) (name : String) : Bool :=
  hashtable_has env.variables_ name

/-- Whether an integer is a value of the 32-bit `int`. -/
def fitsInt32 (x : Int) : Prop := -2147483648 ≤ x ∧ x ≤ 2147483647

/-- The decimal value of a lexeme of the form `digits` or `digits.digits`. -/
def decimalValue (chars : List Char) : ℚ :=
  let whole := chars.takeWhile (fun c => c != '.')
  let frac := (chars.dropWhile (fun c => c != '.')).drop 1
  (leadingDigits 0 whole : ℚ) + (leadingDigits 0 frac : ℚ) / (10 : ℚ) ^ frac.length

/-- An instance of `DoubleOps` with exact arithmetic on the rationals (no
rounding, no infinities; `format` writes a fraction).  It serves to instantiate
general statements at concrete inputs. -/
def exactArithmetic : DoubleOps ℚ where
  ofInt := fun i => (i : ℚ)
  atof := fun s => decimalValue s.data
  add := fun a b => a + b
  sub := fun a b => a - b
  mul := fun a b => a * b
  div := fun a b => a / b
  neg := fun a => -a
  isZero := fun a => decide (a = 0)
  lt := fun a b => decide (a < b)
  gt := fun a b => decide (a > b)
  near := fun a b => decide (|a - b| < 1 / 10000000000)
  format := fun a => toString a.num ++ "/" ++ toString a.den

/-- The program `5 / 0;` as the parser builds it. -/
def program_five_div_zero : ASTNode :=
  block [expr_stmt (binary_expr TOKEN_SLASH
    (some (literal TOKEN_INT_LITERAL (.int_value 5)))
    (literal TOKEN_INT_LITERAL (.int_value 0)))]

/-- The program `5 / 0.0;` as the parser builds it. -/
def program_five_div_zero_float : ASTNode :=
  block [expr_stmt (binary_expr TOKEN_SLASH
    (some (literal TOKEN_INT_LITERAL (.int_value 5)))
    (literal TOKEN_FLOAT_LITERAL (.float_value "0.0")))]

/-- The program
`let x: int = 0; fn f(): void { x = 5; } print(f());`
as the parser builds it: the body of `f` ends in an assignment and executes no
`return`. -/
def program_call_without_return : ASTNode :=
  block [var_decl "x" (type_node TYPE_INT) (some (literal TOKEN_INT_LITERAL (.int_value 0))),
    func_decl "f" [] 0 (type_node TYPE_VOID)
      (block [expr_stmt (assign_expr "x" (literal TOKEN_INT_LITERAL (.int_value 5)))]),
    expr_stmt (call_expr "print" [call_expr "f" [] 0] 1)]

/-- The tokens of the source text
`let x: int = 0; fn f(): void { x = 5; } print(f());`. -/
def tokens_call_without_return : List Token :=
  [⟨TOKEN_LET, "let"⟩, ⟨TOKEN_IDENTIFIER, "x"⟩, ⟨TOKEN_COLON, ":"⟩, ⟨TOKEN_INT, "int"⟩,
   ⟨TOKEN_EQUAL, "="⟩, ⟨TOKEN_INT_LITERAL, "0"⟩, ⟨TOKEN_SEMICOLON, ";"⟩,
   ⟨TOKEN_FN, "fn"⟩, ⟨TOKEN_IDENTIFIER, "f"⟩, ⟨TOKEN_LEFT_PAREN, "("⟩,
   ⟨TOKEN_RIGHT_PAREN, ")"⟩, ⟨TOKEN_COLON, ":"⟩, ⟨TOKEN_VOID, "void"⟩,
   ⟨TOKEN_LEFT_BRACE, "\x7b"⟩, ⟨TOKEN_IDENTIFIER, "x"⟩, ⟨TOKEN_EQUAL, "="⟩,
   ⟨TOKEN_INT_LITERAL, "5"⟩, ⟨TOKEN_SEMICOLON, ";"⟩, ⟨TOKEN_RIGHT_BRACE, "\x7d"⟩,
   ⟨TOKEN_IDENTIFIER, "print"⟩, ⟨TOKEN_LEFT_PAREN, "("⟩, ⟨TOKEN_IDENTIFIER, "f"⟩,
   ⟨TOKEN_LEFT_PAREN, "("⟩, ⟨TOKEN_RIGHT_PAREN, ")"⟩, ⟨TOKEN_RIGHT_PAREN, ")"⟩,
   ⟨TOKEN_SEMICOLON, ";"⟩]

/-- The interpreter state in which `print(f())` of `program_call_without_return`
is executed: the block of the program root holds `x = 0` and the function `f`. -/
def state_call_without_return {F : Type} : Interpreter F :=
  { (interpreter_init : Interpreter F) with
    envs := [environment_define_func
               (environment_define_var environment_create "x" (some (.int_val 0)))
               "f"
               (func_decl "f" [] 0 (type_node TYPE_VOID)
                 (block [expr_stmt
                   (assign_expr "x" (literal TOKEN_INT_LITERAL (.int_value 5)))])),
             register_builtin_functions environment_create] }

/-- A chain of two environments: an empty inner one, and an outer one that binds
`x` to the `int` 1. -/
def chain_x_outer {F : Type} : List (Environment F) :=
  [environment_create, environment_define_var environment_create "x" (some (.int_val 1))]

/-- The initial interpreter state on the chain `chain_x_outer`. -/
def state_x_outer {F : Type} : Interpreter F :=
  { (interpreter_init : Interpreter F) with envs := chain_x_outer }

/-- The program `test_program_2` as the parser builds it: the declaration of
`fatorial`, `let num: int = 5;`, `let resultado: int = fatorial(num);` and
`print("Fatorial de", num, "é", resultado);`. -/
def test_program_2 : ASTNode :=
  block [fatorial_decl,
    var_decl "num" (type_node TYPE_INT) (some (literal TOKEN_INT_LITERAL (.int_value 5))),
    var_decl "resultado" (type_node TYPE_INT) (some (call_expr "fatorial" [var_expr "num"] 1)),
    expr_stmt (call_expr "print"
      [literal TOKEN_STRING_LITERAL (.string_value "Fatorial de"), var_expr "num",
       literal TOKEN_STRING_LITERAL (.string_value "é"), var_expr "resultado"] 4)]

/-- The tokens of `test_program_2`. -/
def test_program_2_tokens : List Token :=
  fatorial_tokens ++
  [⟨TOKEN_LET, "let"⟩, ⟨TOKEN_IDENTIFIER, "num"⟩, ⟨TOKEN_COLON, ":"⟩, ⟨TOKEN_INT, "int"⟩,
   ⟨TOKEN_EQUAL, "="⟩, ⟨TOKEN_INT_LITERAL, "5"⟩, ⟨TOKEN_SEMICOLON, ";"⟩,
   ⟨TOKEN_LET, "let"⟩, ⟨TOKEN_IDENTIFIER, "resultado"⟩, ⟨TOKEN_COLON, ":"⟩, ⟨TOKEN_INT, "int"⟩,
   ⟨TOKEN_EQUAL, "="⟩, ⟨TOKEN_IDENTIFIER, "fatorial"⟩, ⟨TOKEN_LEFT_PAREN, "("⟩,
   ⟨TOKEN_IDENTIFIER, "num"⟩, ⟨TOKEN_RIGHT_PAREN, ")"⟩, ⟨TOKEN_SEMICOLON, ";"⟩,
   ⟨TOKEN_IDENTIFIER, "print"⟩, ⟨TOKEN_LEFT_PAREN, "("⟩,
   ⟨TOKEN_STRING_LITERAL, "\"Fatorial de\""⟩, ⟨TOKEN_COMMA, ","⟩,
   ⟨TOKEN_IDENTIFIER, "num"⟩, ⟨TOKEN_COMMA, ","⟩,
   ⟨TOKEN_STRING_LITERAL, "\"é\""⟩, ⟨TOKEN_COMMA, ","⟩,
   ⟨TOKEN_IDENTIFIER, "resultado"⟩, ⟨TOKEN_RIGHT_PAREN, ")"⟩, ⟨TOKEN_SEMICOLON, ";"⟩]

/-! ## Vocabulary for shadowing -/

/-- The chain has, above `depth` outer environments, an environment `inner`
whose variable table is well formed and binds `name` (`pre` are the environments
above it), and the lookup of `name` in the outer environments gives
`outer_value`. -/
def Shadowed {F : Type} (name : String) (depth : Nat) (outer_value : Option (Value F))
    (envs : List (Environment F)) : Prop :=
  ∃ pre inner outer, envs = pre ++ inner :: outer ∧ outer.length = depth
    ∧ inner.variables_.WF ∧ inner.binds name = true
    ∧ environment_get_var outer name = outer_value

/-- A step from the chain `envs` to the chain `envs1` keeps the height of the
chain and keeps `name` shadowed over the same outer value. -/
def Frame {F : Type} (name : String) (depth : Nat) (outer_value : Option (Value F))
    (envs envs1 : List (Environment F)) : Prop :=
  envs1.length = envs.length
    ∧ (Shadowed name depth outer_value envs → Shadowed name depth outer_value envs1)

/-- A step from the chain `envs` to the chain `envs1` that ends with the head of
the chain dropped. -/
def FramePop {F : Type} (name : String) (depth : Nat) (outer_value : Option (Value F))
    (envs envs1 : List (Environment F)) : Prop :=
  envs1.length = envs.length - 1
    ∧ (Shadowed name depth outer_value envs →
        ∃ e, Shadowed name depth outer_value (e :: envs1))

/-! ## The semantic analyzer (`craze_semantic.c`)

The analyzer walks the tree with a stack of scopes and counts the errors and
warnings it reports.  The text of the diagnostics goes to `stderr` and is not
modelled, nor are the fields the analyzer only writes (`error_msg`,
`current_function`, `strict_mode`) and the source positions of symbols.  A
`TypeInfo *` is an `Option`: `NULL` is `none`. -/

/-- The enum `ScopeType`. -/
inductive ScopeType
  | SCOPE_GLOBAL | SCOPE_FUNCTION | SCOPE_BLOCK
  deriving DecidableEq, Repr

/-- The enum `SymbolCategory`. -/
inductive SymbolCategory
  | SYMBOL_VARIABLE | SYMBOL_FUNCTION | SYMBOL_PARAMETER
  deriving DecidableEq, Repr

open ScopeType SymbolCategory

/-- The struct `TypeInfo`.  Its field `inner` is `NULL` in every `TypeInfo` the
program makes (`typeinfo_create` is the only place that makes one, and
`typeinfo_copy` copies a `NULL`) and is left out. -/
structure TypeInfo where
  base_type : DataType
  is_array : Int
  is_const : Int
  deriving DecidableEq, Repr

/-- The function `typeinfo_create`. -/
def typeinfo_create (base_type : DataType) : TypeInfo :=
  { base_type := base_type, is_array := 0, is_const := 0 }

/-- The function `typeinfo_copy`. -/
def typeinfo_copy (type_info : Option TypeInfo) : Option TypeInfo :=
  match type_info with
  | none => none
  | some t =>
    some { typeinfo_create t.base_type with is_array := t.is_array, is_const := t.is_const }

/-- An element of `func_info.parameters`: a `SymbolEntry` made by
`symbol_create_variable` that is never inserted into a scope. -/
structure ParameterEntry where
  name : String
  category : SymbolCategory
  type : Option TypeInfo
  deriving DecidableEq, Repr

/-- The union `details` of a `SymbolEntry`; of `func_info` the fields the
analyzer reads. -/
inductive SymbolDetails
  | func_info (parameters : List ParameterEntry) (param_count : Nat)
      (return_type : Option TypeInfo)
  | var_info
  deriving DecidableEq, Repr

/-- The struct `SymbolEntry`.  `scope_depth` is written by `symbol_insert` only
and is `none` before. -/
structure SymbolEntry where
  name : String
  category : SymbolCategory
  type : Option TypeInfo
  scope_depth : Option Int
  details : SymbolDetails
  deriving DecidableEq, Repr

/-- The struct `Scope`: its symbols from the most recent one on; the `parent`
link is the rest of the stack of scopes. -/
structure Scope where
  symbols : List SymbolEntry
  depth : Int
  scope_type : ScopeType
  deriving DecidableEq, Repr

/-- The struct `SemanticAnalyzer` with its `SymbolTable`: `scopes` is
`current_scope` followed by its parents, the last one being `global_scope`. -/
structure SemanticAnalyzer where
  scopes : List Scope
  scope_count : Int
  error_count : Nat
  warning_count : Nat
  current_return_type : Option TypeInfo
  in_function : Bool
  has_return_statement : Bool
  deriving DecidableEq, Repr

/-- The struct `TypeCheckResult` without its message. -/
structure TypeCheckResult where
  type : Option TypeInfo
  is_valid : Bool
  implicit_conversion : Int
  deriving DecidableEq, Repr

/-- The outcome of a routine of the analyzer: its result and the analyzer
afterwards, or a read through `NULL` or of an array element that is not there, or
the end of the fuel. -/
inductive Checked (α : Type)
  | done (result : α) (analyzer : SemanticAnalyzer)
  | undefined
  | outOfFuel
  deriving Repr

/-- The function `semantic_error`. -/
def semantic_error (analyzer : SemanticAnalyzer) : SemanticAnalyzer :=
  { analyzer with error_count := analyzer.error_count + 1 }

/-- The function `semantic_warning`. -/
def semantic_warning (analyzer : SemanticAnalyzer) : SemanticAnalyzer :=
  { analyzer with warning_count := analyzer.warning_count + 1 }

/-- The function `scope_create`, given the stack of scopes that starts at
`parent`. -/
def scope_create (scope_type : ScopeType) (parent : List Scope) : Scope :=
  { symbols := [],
    depth := match parent with
      | [] => 0
      | p :: _ => p.depth + 1,
    scope_type := scope_type }

/-- The function `enter_scope`. -/
def enter_scope (analyzer : SemanticAnalyzer) (scope_type : ScopeType) : SemanticAnalyzer :=
  { analyzer with scopes := scope_create scope_type analyzer.scopes :: analyzer.scopes,
                  scope_count := analyzer.scope_count + 1 }

/-- The function `exit_scope`.  `scope_destroy`, which releases the symbols of the scope
left (and with them the `type` of a function symbol a second time), is not modelled. -/
def exit_scope (analyzer : SemanticAnalyzer) : SemanticAnalyzer :=
  match analyzer.scopes with
  | [] => analyzer
  | _ :: parent => { analyzer with scopes := parent, scope_count := analyzer.scope_count - 1 }

/-- The inner loop of `symbol_lookup`: the first symbol of the list with the
name. -/
def find_symbol (symbols : List SymbolEntry) (name : String) : Option SymbolEntry :=
  symbols.find? (fun symbol => symbol.name == name)

/-- The outer loop of `symbol_lookup`, on the stack of scopes. -/
def lookup_in_scopes : List Scope → String → Option SymbolEntry
  | [], _ => none
  | current :: parent, name =>
    match find_symbol current.symbols name with
    | some symbol => some symbol
    | none => lookup_in_scopes parent name

/-- The function `symbol_lookup`. -/
def symbol_lookup (analyzer : SemanticAnalyzer) (name : String) : Option SymbolEntry :=
  lookup_in_scopes analyzer.scopes name

/-- The function `symbol_lookup_current`. -/
def symbol_lookup_current (analyzer : SemanticAnalyzer) (name : String) :
    Option SymbolEntry :=
  match analyzer.scopes with
  | [] => none
  | current :: _ => find_symbol current.symbols name

/-- The function `symbol_insert`; its return value is not used by the callers. -/
def symbol_insert (analyzer : SemanticAnalyzer) (entry : SymbolEntry) : SemanticAnalyzer :=
  match analyzer.scopes with
  | [] => analyzer
  | current :: parent =>
    { analyzer with
      scopes :=
        { current with
          symbols := { entry with scope_depth := some current.depth } :: current.symbols }
          :: parent }

/-- The function `symbol_create_variable`. -/
def symbol_create_variable (name : String) (type : Option TypeInfo) : SymbolEntry :=
  { name := name, category := SYMBOL_VARIABLE, type := type, scope_depth := none,
    details := .var_info }

/-- The entry `symbol_create_variable` makes for `func_info.parameters`, with
the `category` the caller then writes. -/
def parameter_entry (name : String) (type : Option TypeInfo) : ParameterEntry :=
  { name := name, category := SYMBOL_PARAMETER, type := type }

/-- The function `symbol_create_function`.  In the C program `entry->type` is the pointer
`return_type` itself and only `func_info.return_type` is a copy: `type` is valid as long as
the caller's pointer is (see `visit_function_decl`). -/
def symbol_create_function (name : String) (return_type : Option TypeInfo)
    (params : List ParameterEntry) (param_count : Nat) : SymbolEntry :=
  { name := name, category := SYMBOL_FUNCTION, type := return_type, scope_depth := none,
    details := .func_info params param_count (typeinfo_copy return_type) }

/-- The function `is_numeric_type`. -/
def is_numeric_type (type : Option TypeInfo) : Bool :=
  match type with
  | none => false
  | some t => t.base_type == TYPE_INT || t.base_type == TYPE_FLOAT

/-- The function `are_types_compatible`. -/
def are_types_compatible (expected actual : Option TypeInfo) : Bool :=
  match expected, actual with
  | some e, some a =>
    if e.base_type = a.base_type then true
    else if e.base_type = TYPE_FLOAT ∧ a.base_type = TYPE_INT then true
    else false
  | _, _ => false

/-- The function `are_types_comparable`. -/
def are_types_comparable (left right : Option TypeInfo) : Bool :=
  match left, right with
  | some l, some r =>
    if l.base_type = r.base_type ∧ l.base_type ≠ TYPE_VOID then true
    else if is_numeric_type (some l) && is_numeric_type (some r) then true
    else false
  | _, _ => false

/-- The function `is_comparison_operator`. -/
def is_comparison_operator (op : TokenType) : Bool :=
  op == TOKEN_EQUAL_EQUAL || op == TOKEN_BANG_EQUAL || op == TOKEN_GREATER ||
    op == TOKEN_LESS || op == TOKEN_GREATER_EQUAL || op == TOKEN_LESS_EQUAL

/-- The function `type_from_ast_node`. -/
def type_from_ast_node (node : Option ASTNode) : TypeInfo :=
  match node with
  | some (type_node t) => typeinfo_create t
  | _ => typeinfo_create TYPE_INVALID

/-- The function `check_literal_expression`, on the `literal_type` of the
node. -/
def check_literal_expression (literal_type : TokenType) : TypeCheckResult :=
  match literal_type with
  | TOKEN_INT_LITERAL =>
    { type := some (typeinfo_create TYPE_INT), is_valid := true, implicit_conversion := 0 }
  | TOKEN_FLOAT_LITERAL =>
    { type := some (typeinfo_create TYPE_FLOAT), is_valid := true, implicit_conversion := 0 }
  | TOKEN_STRING_LITERAL =>
    { type := some (typeinfo_create TYPE_STRING), is_valid := true, implicit_conversion := 0 }
  | TOKEN_TRUE =>
    { type := some (typeinfo_create TYPE_BOOL), is_valid := true, implicit_conversion := 0 }
  | TOKEN_FALSE =>
    { type := some (typeinfo_create TYPE_BOOL), is_valid := true, implicit_conversion := 0 }
  | _ =>
    { type := some (typeinfo_create TYPE_INVALID), is_valid := false,
      implicit_conversion := 0 }

/-- The result `check_*` returns on its error paths: not valid, of type
`TYPE_INVALID`. -/
def invalid_result : TypeCheckResult :=
  { type := some (typeinfo_create TYPE_INVALID), is_valid := false, implicit_conversion := 0 }

/-- The function `check_variable_expression`. -/
def check_variable_expression (analyzer : SemanticAnalyzer) (name : String) :
    TypeCheckResult × SemanticAnalyzer :=
  match symbol_lookup analyzer name with
  | none => (invalid_result, semantic_error analyzer)
  | some symbol =>
    ({ type := typeinfo_copy symbol.type, is_valid := true, implicit_conversion := 0 },
      analyzer)
/-- The result `{0}` that `check_binary_expression` and `check_unary_expression`
return for an operator they do not know: not valid, with a `NULL` type, and no
error reported. -/
def zero_result : TypeCheckResult :=
  { type := none, is_valid := false, implicit_conversion := 0 }

/-- The part of `check_binary_expression` after the two operands have been
checked, given their results. -/
def binary_result (analyzer : SemanticAnalyzer) (op : TokenType)
    (left right : TypeCheckResult) : Checked TypeCheckResult :=
  if !left.is_valid || !right.is_valid then .done invalid_result analyzer
  else if op = TOKEN_PLUS ∨ op = TOKEN_MINUS ∨ op = TOKEN_STAR ∨ op = TOKEN_SLASH then
    if is_numeric_type left.type && is_numeric_type right.type then
      match left.type, right.type with
      | some l, some r =>
        if l.base_type = TYPE_INT ∧ r.base_type = TYPE_INT ∧ op ≠ TOKEN_SLASH then
          .done { type := some (typeinfo_create TYPE_INT), is_valid := true,
                  implicit_conversion := 0 } analyzer
        else
          .done { type := some (typeinfo_create TYPE_FLOAT), is_valid := true,
                  implicit_conversion :=
                    (if l.base_type = TYPE_INT then 1 else 0)
                      + (if r.base_type = TYPE_INT then 2 else 0) }
            (if l.base_type = TYPE_INT then semantic_warning analyzer else analyzer)
      | _, _ => .undefined
    else if op = TOKEN_PLUS then
      match left.type with
      | none => .undefined
      | some l =>
        if l.base_type = TYPE_STRING then
          match right.type with
          | none => .undefined
          | some r =>
            if r.base_type = TYPE_STRING then
              .done { type := some (typeinfo_create TYPE_STRING), is_valid := true,
                      implicit_conversion := 0 } analyzer
            else .done invalid_result (semantic_error analyzer)
        else .done invalid_result (semantic_error analyzer)
    else .done invalid_result (semantic_error analyzer)
  else if is_comparison_operator op then
    if are_types_comparable left.type right.type then
      match left.type, right.type with
      | some l, some r =>
        if is_numeric_type (some l) && is_numeric_type (some r)
            && decide (l.base_type ≠ r.base_type) then
          .done { type := some (typeinfo_create TYPE_BOOL), is_valid := true,
                  implicit_conversion := 1 } (semantic_warning analyzer)
        else
          .done { type := some (typeinfo_create TYPE_BOOL), is_valid := true,
                  implicit_conversion := 0 } analyzer
      | _, _ => .undefined
    else .done invalid_result (semantic_error analyzer)
  else .done zero_result analyzer

/-- The part of `check_unary_expression` after the operand has been checked. -/
def unary_result (analyzer : SemanticAnalyzer) (op : TokenType)
    (operand : TypeCheckResult) : Checked TypeCheckResult :=
  if !operand.is_valid then .done invalid_result analyzer
  else if op = TOKEN_MINUS then
    if is_numeric_type operand.type then
      .done { type := typeinfo_copy operand.type, is_valid := true,
              implicit_conversion := 0 } analyzer
    else .done invalid_result (semantic_error analyzer)
  else .done zero_result analyzer

/-- The end of `check_call_expression`: the type of the result. -/
def call_result (is_valid : Bool) (return_type : Option TypeInfo) : TypeCheckResult :=
  if is_valid then
    { type := typeinfo_copy return_type, is_valid := true, implicit_conversion := 0 }
  else invalid_result

mutual

/-- The function `check_expression`. -/
def check_expression : Nat → Option ASTNode → SemanticAnalyzer → Checked TypeCheckResult
  | 0, _, _ => .outOfFuel
  | _ + 1, none, analyzer => .done invalid_result analyzer
  | fuel + 1, some node, analyzer =>
    match node with
    | literal literal_type _ => .done (check_literal_expression literal_type) analyzer
    | var_expr name =>
      .done (check_variable_expression analyzer name).1
        (check_variable_expression analyzer name).2
    | binary_expr operator left right =>
      check_binary_expression fuel operator left right analyzer
    | unary_expr operator operand => check_unary_expression fuel operator operand analyzer
    | call_expr function_name arguments arg_count =>
      check_call_expression fuel function_name arguments arg_count analyzer
    | assign_expr variable_name value => check_assignment fuel variable_name value analyzer
    | _ => .done invalid_result analyzer

/-- The function `check_binary_expression`, on the fields of the node. -/
def check_binary_expression :
    Nat → TokenType → Option ASTNode → ASTNode → SemanticAnalyzer → Checked TypeCheckResult
  | 0, _, _, _, _ => .outOfFuel
  | fuel + 1, op, left_node, right_node, analyzer =>
    match check_expression fuel left_node analyzer with
    | .done left analyzer =>
      match check_expression fuel (some right_node) analyzer with
      | .done right analyzer => binary_result analyzer op left right
      | .undefined => .undefined
      | .outOfFuel => .outOfFuel
    | .undefined => .undefined
    | .outOfFuel => .outOfFuel

/-- The function `check_unary_expression`, on the fields of the node. -/
def check_unary_expression :
    Nat → TokenType → ASTNode → SemanticAnalyzer → Checked TypeCheckResult
  | 0, _, _, _ => .outOfFuel
  | fuel + 1, op, operand_node, analyzer =>
    match check_expression fuel (some operand_node) analyzer with
    | .done operand analyzer => unary_result analyzer op operand
    | .undefined => .undefined
    | .outOfFuel => .outOfFuel

/-- The loop of `check_call_expression` for `print`, from argument `i` on:
`remaining` is `arg_count - i`. -/
def check_print_arguments :
    Nat → List ASTNode → Nat → Option TypeInfo → SemanticAnalyzer → Checked TypeCheckResult
  | 0, _, _, _, _ => .outOfFuel
  | _ + 1, _, 0, return_type, analyzer => .done (call_result true return_type) analyzer
  | _ + 1, [], _ + 1, _, _ => .undefined
  | fuel + 1, argument :: arguments, remaining + 1, return_type, analyzer =>
    match check_expression fuel (some argument) analyzer with
    | .done arg_result analyzer =>
      if !arg_result.is_valid then .done invalid_result analyzer
      else check_print_arguments fuel arguments remaining return_type analyzer
    | .undefined => .undefined
    | .outOfFuel => .outOfFuel

/-- The loop of `check_call_expression` for the other functions, from argument
`i` on, with `result.is_valid` so far. -/
def check_call_arguments :
    Nat → List ASTNode → List ParameterEntry → Nat → Bool → Option TypeInfo →
      SemanticAnalyzer → Checked TypeCheckResult
  | 0, _, _, _, _, _, _ => .outOfFuel
  | _ + 1, _, _, 0, is_valid, return_type, analyzer =>
    .done (call_result is_valid return_type) analyzer
  | fuel + 1, argument :: arguments, parameter :: parameters, remaining + 1, is_valid,
      return_type, analyzer =>
    match check_expression fuel (some argument) analyzer with
    | .done arg_result analyzer =>
      if !are_types_compatible parameter.type arg_result.type then
        check_call_arguments fuel arguments parameters remaining false return_type
          (semantic_error analyzer)
      else
        check_call_arguments fuel arguments parameters remaining is_valid return_type analyzer
    | .undefined => .undefined
    | .outOfFuel => .outOfFuel
  | _ + 1, _, _, _ + 1, _, _, _ => .undefined

/-- The function `check_call_expression`, on the fields of the node. -/
def check_call_expression :
    Nat → String → List ASTNode → Nat → SemanticAnalyzer → Checked TypeCheckResult
  | 0, _, _, _, _ => .outOfFuel
  | fuel + 1, function_name, arguments, arg_count, analyzer =>
    match symbol_lookup analyzer function_name with
    | none => .done invalid_result (semantic_error analyzer)
    | some function =>
      if function.category ≠ SYMBOL_FUNCTION then
        .done invalid_result (semantic_error analyzer)
      else
        match function.details with
        | .var_info => .undefined
        | .func_info parameters param_count return_type =>
          if function_name ≠ "print" ∧ arg_count ≠ param_count then
            .done invalid_result (semantic_error analyzer)
          else if function_name = "print" then
            check_print_arguments fuel arguments arg_count return_type analyzer
          else
            check_call_arguments fuel arguments parameters arg_count true return_type
              analyzer

/-- The function `check_assignment`, on the fields of the node. -/
def check_assignment :
    Nat → String → ASTNode → SemanticAnalyzer → Checked TypeCheckResult
  | 0, _, _, _ => .outOfFuel
  | fuel + 1, variable_name, value_node, analyzer =>
    match symbol_lookup analyzer variable_name with
    | none => .done invalid_result (semantic_error analyzer)
    | some var =>
      if var.category ≠ SYMBOL_VARIABLE then .done invalid_result (semantic_error analyzer)
      else
        match check_expression fuel (some value_node) analyzer with
        | .done value_result analyzer =>
          if !value_result.is_valid then .done invalid_result analyzer
          else if !are_types_compatible var.type value_result.type then
            .done invalid_result (semantic_error analyzer)
          else
            .done { type := typeinfo_copy var.type, is_valid := true,
                    implicit_conversion := 0 } analyzer
        | .undefined => .undefined
        | .outOfFuel => .outOfFuel

end
/-- The first loop of `visit_function_decl`: the entries `params[i]` for the
`remaining` parameter nodes still to read.  `none` when the array holds fewer
nodes than `param_count`, or a node that is not a parameter. -/
def function_parameters : List ASTNode → Nat → Option (List ParameterEntry)
  | _, 0 => some []
  | [], _ + 1 => none
  | node :: nodes, remaining + 1 =>
    match node with
    | param name decl_type =>
      match function_parameters nodes remaining with
      | some entries =>
        some (parameter_entry name (some (type_from_ast_node (some decl_type))) :: entries)
      | none => none
    | _ => none

/-- The second loop of `visit_function_decl`: a copy of each entry of `params`
is inserted into the scope of the function, as a parameter symbol. -/
def insert_parameters (analyzer : SemanticAnalyzer) :
    List ParameterEntry → SemanticAnalyzer
  | [] => analyzer
  | entry :: entries =>
    insert_parameters
      (symbol_insert analyzer
        { symbol_create_variable entry.name (typeinfo_copy entry.type) with
          category := SYMBOL_PARAMETER })
      entries

/-- The function `visit_return_statement` on a `return` without value, and the
part of it before the value is checked: `none` when `current_return_type` is
read through `NULL`. -/
def return_without_check (analyzer : SemanticAnalyzer) (has_value : Bool) :
    Option (Bool × SemanticAnalyzer) :=
  if !analyzer.in_function then some (false, semantic_error analyzer)
  else
    let analyzer := { analyzer with has_return_statement := true }
    match analyzer.current_return_type with
    | none => none
    | some return_type =>
      if return_type.base_type = TYPE_VOID then
        if has_value then some (false, semantic_error analyzer) else some (false, analyzer)
      else if !has_value then some (false, semantic_error analyzer)
      else some (true, analyzer)

/-- The test of the condition of `visit_if_statement` and
`visit_while_statement`, given the result of `check_expression`. -/
def condition_checked (analyzer : SemanticAnalyzer) (condition : TypeCheckResult) :
    Option SemanticAnalyzer :=
  if condition.is_valid then
    match condition.type with
    | none => none
    | some t => if t.base_type ≠ TYPE_BOOL then some (semantic_error analyzer) else some analyzer
  else some analyzer

/-- The function `visit_variable_decl`, on the fields of the node. -/
def visit_variable_decl :
    Nat → String → ASTNode → Option ASTNode → SemanticAnalyzer → Checked Unit
  | 0, _, _, _, _ => .outOfFuel
  | fuel + 1, name, decl_type, init, analyzer =>
    match symbol_lookup_current analyzer name with
    | some _ => .done () (semantic_error analyzer)
    | none =>
      match check_expression fuel init analyzer with
      | .done init_result analyzer =>
        let declared_type := type_from_ast_node (some decl_type)
        if !init_result.is_valid then .done () analyzer
        else if !are_types_compatible (some declared_type) init_result.type then
          .done () (semantic_error analyzer)
        else
          .done ()
            (symbol_insert analyzer
              (symbol_create_variable name (typeinfo_copy (some declared_type))))
      | .undefined => .undefined
      | .outOfFuel => .outOfFuel

/-- The function `visit_return_statement`, on the field of the node. -/
def visit_return_statement :
    Nat → Option ASTNode → SemanticAnalyzer → Checked Unit
  | 0, _, _ => .outOfFuel
  | fuel + 1, value, analyzer =>
    match return_without_check analyzer value.isSome with
    | none => .undefined
    | some (false, analyzer) => .done () analyzer
    | some (true, analyzer) =>
      match check_expression fuel value analyzer with
      | .done result analyzer =>
        if result.is_valid && !are_types_compatible analyzer.current_return_type result.type
        then .done () (semantic_error analyzer)
        else .done () analyzer
      | .undefined => .undefined
      | .outOfFuel => .outOfFuel

mutual

/-- The function `visit_node`.  `stray_stmt_count` gives, for an expression
statement node, the `int` found where a block node keeps `stmt_count`: the
parser never writes those bytes of such a node. -/
def visit_node (stray_stmt_count : ASTNode → Int) :
    Nat → Option ASTNode → SemanticAnalyzer → Checked Unit
  | 0, _, _ => .outOfFuel
  | _ + 1, none, analyzer => .done () analyzer
  | fuel + 1, some node, analyzer =>
    match node with
    | var_decl name decl_type init =>
      visit_variable_decl fuel name decl_type init analyzer
    | func_decl name params param_count return_type body =>
      visit_function_decl stray_stmt_count fuel name params param_count return_type body
        analyzer
    | if_stmt condition then_branch else_branch =>
      visit_if_statement stray_stmt_count fuel condition then_branch else_branch analyzer
    | while_stmt condition body =>
      visit_while_statement stray_stmt_count fuel condition body analyzer
    | return_stmt value => visit_return_statement fuel value analyzer
    | block statements => visit_block stray_stmt_count fuel statements analyzer
    | expr_stmt _ => visit_expression_statement stray_stmt_count fuel node analyzer
    | _ => .done () analyzer

/-- The function `visit_function_decl`, on the fields of the node.  The release of memory
is not part of the model: the `typeinfo_free(return_type)` at the end leaves the field
`type` of the function symbol dangling in the C program, where the model keeps the value;
`func_info.return_type`, which the check of a call reads, is a copy and stays valid. -/
def visit_function_decl (stray_stmt_count : ASTNode → Int) :
    Nat → String → List ASTNode → Nat → ASTNode → ASTNode → SemanticAnalyzer →
      Checked Unit
  | 0, _, _, _, _, _, _ => .outOfFuel
  | fuel + 1, name, params, param_count, return_type_node, body, analyzer =>
    match symbol_lookup_current analyzer name with
    | some _ => .done () (semantic_error analyzer)
    | none =>
      let return_type := type_from_ast_node (some return_type_node)
      let analyzer :=
        { analyzer with in_function := true, has_return_statement := false,
                        current_return_type := some return_type }
      match function_parameters params param_count with
      | none => .undefined
      | some entries =>
        let analyzer :=
          symbol_insert analyzer
            (symbol_create_function name (some return_type) entries param_count)
        let analyzer := enter_scope analyzer SCOPE_FUNCTION
        let analyzer := insert_parameters analyzer entries
        match visit_node stray_stmt_count fuel (some body) analyzer with
        | .done _ analyzer =>
          let analyzer :=
            if return_type.base_type ≠ TYPE_VOID ∧ analyzer.has_return_statement = false then
              semantic_error analyzer
            else analyzer
          let analyzer := exit_scope analyzer
          .done () { analyzer with in_function := false, current_return_type := none }
        | .undefined => .undefined
        | .outOfFuel => .outOfFuel

/-- The function `visit_if_statement`, on the fields of the node. -/
def visit_if_statement (stray_stmt_count : ASTNode → Int) :
    Nat → ASTNode → ASTNode → Option ASTNode → SemanticAnalyzer → Checked Unit
  | 0, _, _, _, _ => .outOfFuel
  | fuel + 1, condition, then_branch, else_branch, analyzer =>
    match check_expression fuel (some condition) analyzer with
    | .done condition_result analyzer =>
      match condition_checked analyzer condition_result with
      | none => .undefined
      | some analyzer =>
        match visit_node stray_stmt_count fuel (some then_branch) analyzer with
        | .done _ analyzer =>
          match else_branch with
          | some else_node => visit_node stray_stmt_count fuel (some else_node) analyzer
          | none => .done () analyzer
        | .undefined => .undefined
        | .outOfFuel => .outOfFuel
    | .undefined => .undefined
    | .outOfFuel => .outOfFuel

/-- The function `visit_while_statement`, on the fields of the node. -/
def visit_while_statement (stray_stmt_count : ASTNode → Int) :
    Nat → ASTNode → ASTNode → SemanticAnalyzer → Checked Unit
  | 0, _, _, _ => .outOfFuel
  | fuel + 1, condition, body, analyzer =>
    match check_expression fuel (some condition) analyzer with
    | .done condition_result analyzer =>
      match condition_checked analyzer condition_result with
      | none => .undefined
      | some analyzer => visit_node stray_stmt_count fuel (some body) analyzer
    | .undefined => .undefined
    | .outOfFuel => .outOfFuel

/-- The function `visit_block`, on the statements of the node. -/
def visit_block (stray_stmt_count : ASTNode → Int) :
    Nat → List ASTNode → SemanticAnalyzer → Checked Unit
  | 0, _, _ => .outOfFuel
  | fuel + 1, statements, analyzer =>
    visit_block_loop stray_stmt_count fuel statements (enter_scope analyzer SCOPE_BLOCK)

/-- The `for` loop of `visit_block` from statement `i` on, followed by
`exit_scope`. -/
def visit_block_loop (stray_stmt_count : ASTNode → Int) :
    Nat → List ASTNode → SemanticAnalyzer → Checked Unit
  | 0, _, _ => .outOfFuel
  | _ + 1, [], analyzer => .done () (exit_scope analyzer)
  | fuel + 1, stmt :: rest, analyzer =>
    match visit_node stray_stmt_count fuel (some stmt) analyzer with
    | .done _ analyzer => visit_block_loop stray_stmt_count fuel rest analyzer
    | .undefined => .undefined
    | .outOfFuel => .outOfFuel

/-- The function `visit_expression_statement`.  It reads the node through the
arm `block` of the union: `stmt_count` is the stray `int`, and `statements[0]`
reads the head of the expression node as a pointer and `check_expression` reads
through that. -/
def visit_expression_statement (stray_stmt_count : ASTNode → Int) :
    Nat → ASTNode → SemanticAnalyzer → Checked Unit
  | 0, _, _ => .outOfFuel
  | _ + 1, node, analyzer =>
    if stray_stmt_count node > 0 then .undefined else .done () analyzer

end

/-- The function `semantic_register_builtins`. -/
def semantic_register_builtins (analyzer : SemanticAnalyzer) : SemanticAnalyzer :=
  let analyzer :=
    symbol_insert analyzer
      (symbol_create_function "print" (some (typeinfo_create TYPE_VOID))
        [parameter_entry "value" (some (typeinfo_create TYPE_STRING))] 1)
  let analyzer :=
    symbol_insert analyzer
      (symbol_create_function "type" (some (typeinfo_create TYPE_STRING))
        [parameter_entry "value" (some (typeinfo_create TYPE_STRING))] 1)
  symbol_insert analyzer
    (symbol_create_function "len" (some (typeinfo_create TYPE_INT))
      [parameter_entry "text" (some (typeinfo_create TYPE_STRING))] 1)

/-- The function `semantic_init`: the analyzer it leaves in `*analyzer` (the
field `ast_root` is the argument of `semantic_analyze` below). -/
def semantic_init : SemanticAnalyzer :=
  semantic_register_builtins
    { scopes := [scope_create SCOPE_GLOBAL []], scope_count := 1,
      error_count := 0, warning_count := 0, current_return_type := none,
      in_function := false, has_return_statement := false }

/-- The function `semantic_analyze`, with the `ast_root` of the analyzer: the
`int` it returns. -/
def semantic_analyze (stray_stmt_count : ASTNode → Int) (fuel : Nat)
    (ast_root : Option ASTNode) (analyzer : SemanticAnalyzer) : Checked Int :=
  match ast_root with
  | none => .done 0 analyzer
  | some root =>
    match visit_node stray_stmt_count fuel (some root) analyzer with
    | .done _ analyzer => .done (if analyzer.error_count = 0 then 1 else 0) analyzer
    | .undefined => .undefined
    | .outOfFuel => .outOfFuel

/-! ## Vocabulary for statements about the analyzer -/

/-- The analyzer `after` differs from `before` at most in its two counters,
which have not gone down. -/
def CountsOnly (before after : SemanticAnalyzer) : Prop :=
  after = { before with error_count := after.error_count,
                        warning_count := after.warning_count }
    ∧ before.error_count ≤ after.error_count
    ∧ before.warning_count ≤ after.warning_count

/-! ## Programs used in the statements about the analyzer -/

/-- The expression `3.14 + 10` as the parser builds it. -/
def expression_float_plus_int : ASTNode :=
  binary_expr TOKEN_PLUS (some (literal TOKEN_FLOAT_LITERAL (.float_value "3.14")))
    (literal TOKEN_INT_LITERAL (.int_value 10))

/-- The program `let z: float = 3.14 + 10;` as the parser builds it. -/
def program_float_plus_int : ASTNode :=
  block [var_decl "z" (type_node TYPE_FLOAT) (some expression_float_plus_int)]

/-- The tokens of the source text `let z: float = 3.14 + 10;`. -/
def tokens_float_plus_int : List Token :=
  [⟨TOKEN_LET, "let"⟩, ⟨TOKEN_IDENTIFIER, "z"⟩, ⟨TOKEN_COLON, ":"⟩, ⟨TOKEN_FLOAT, "float"⟩,
   ⟨TOKEN_EQUAL, "="⟩, ⟨TOKEN_FLOAT_LITERAL, "3.14"⟩, ⟨TOKEN_PLUS, "+"⟩,
   ⟨TOKEN_INT_LITERAL, "10"⟩, ⟨TOKEN_SEMICOLON, ";"⟩]

/-- The program `let i: int = 1; let f: float = i;` as the parser builds it. -/
def program_widening_declaration : ASTNode :=
  block [var_decl "i" (type_node TYPE_INT) (some (literal TOKEN_INT_LITERAL (.int_value 1))),
    var_decl "f" (type_node TYPE_FLOAT) (some (var_expr "i"))]

/-- The tokens of the source text `let i: int = 1; let f: float = i;`. -/
def tokens_widening_declaration : List Token :=
  [⟨TOKEN_LET, "let"⟩, ⟨TOKEN_IDENTIFIER, "i"⟩, ⟨TOKEN_COLON, ":"⟩, ⟨TOKEN_INT, "int"⟩,
   ⟨TOKEN_EQUAL, "="⟩, ⟨TOKEN_INT_LITERAL, "1"⟩, ⟨TOKEN_SEMICOLON, ";"⟩,
   ⟨TOKEN_LET, "let"⟩, ⟨TOKEN_IDENTIFIER, "f"⟩, ⟨TOKEN_COLON, ":"⟩, ⟨TOKEN_FLOAT, "float"⟩,
   ⟨TOKEN_EQUAL, "="⟩, ⟨TOKEN_IDENTIFIER, "i"⟩, ⟨TOKEN_SEMICOLON, ";"⟩]

/-- The analyzer in which `let f: float = i;` of `program_widening_declaration`
is visited: the scope of the program block holds the variable `i` of type `int`. -/
def analyzer_i_declared : SemanticAnalyzer :=
  symbol_insert (enter_scope semantic_init SCOPE_BLOCK)
    (symbol_create_variable "i" (some (typeinfo_create TYPE_INT)))

/-- The program `let r: bool = "a" < "b";` as the parser builds it. -/
def program_string_less : ASTNode :=
  block [var_decl "r" (type_node TYPE_BOOL)
    (some (binary_expr TOKEN_LESS (some (literal TOKEN_STRING_LITERAL (.string_value "a")))
      (literal TOKEN_STRING_LITERAL (.string_value "b"))))]

/-- The tokens of the source text `let r: bool = "a" < "b";`. -/
def tokens_string_less : List Token :=
  [⟨TOKEN_LET, "let"⟩, ⟨TOKEN_IDENTIFIER, "r"⟩, ⟨TOKEN_COLON, ":"⟩, ⟨TOKEN_BOOL, "bool"⟩,
   ⟨TOKEN_EQUAL, "="⟩, ⟨TOKEN_STRING_LITERAL, "\"a\""⟩, ⟨TOKEN_LESS, "<"⟩,
   ⟨TOKEN_STRING_LITERAL, "\"b\""⟩, ⟨TOKEN_SEMICOLON, ";"⟩]

/-- The program `fn f(a: int): int { let b: int = a = 1; return a; }` as the parser
builds it. -/
def program_assign_parameter : ASTNode :=
  block [func_decl "f" [param "a" (type_node TYPE_INT)] 1 (type_node TYPE_INT)
    (block [var_decl "b" (type_node TYPE_INT)
        (some (assign_expr "a" (literal TOKEN_INT_LITERAL (.int_value 1)))),
      return_stmt (some (var_expr "a"))])]

/-- The tokens of the source text
`fn f(a: int): int { let b: int = a = 1; return a; }`. -/
def tokens_assign_parameter : List Token :=
  [⟨TOKEN_FN, "fn"⟩, ⟨TOKEN_IDENTIFIER, "f"⟩, ⟨TOKEN_LEFT_PAREN, "("⟩,
   ⟨TOKEN_IDENTIFIER, "a"⟩, ⟨TOKEN_COLON, ":"⟩, ⟨TOKEN_INT, "int"⟩, ⟨TOKEN_RIGHT_PAREN, ")"⟩,
   ⟨TOKEN_COLON, ":"⟩, ⟨TOKEN_INT, "int"⟩, ⟨TOKEN_LEFT_BRACE, "\x7b"⟩,
   ⟨TOKEN_LET, "let"⟩, ⟨TOKEN_IDENTIFIER, "b"⟩, ⟨TOKEN_COLON, ":"⟩, ⟨TOKEN_INT, "int"⟩,
   ⟨TOKEN_EQUAL, "="⟩, ⟨TOKEN_IDENTIFIER, "a"⟩, ⟨TOKEN_EQUAL, "="⟩,
   ⟨TOKEN_INT_LITERAL, "1"⟩, ⟨TOKEN_SEMICOLON, ";"⟩,
   ⟨TOKEN_RETURN, "return"⟩, ⟨TOKEN_IDENTIFIER, "a"⟩, ⟨TOKEN_SEMICOLON, ";"⟩,
   ⟨TOKEN_RIGHT_BRACE, "\x7d"⟩]

/-- The analyzer in which the body of `f` in `program_assign_parameter` is
visited: `visit_function_decl` has inserted `f` into the scope of the program
block, entered the scope of the function and inserted the parameter `a`, and
`visit_block` has entered the scope of the body. -/
def analyzer_in_body_of_f : SemanticAnalyzer :=
  enter_scope
    (insert_parameters
      (enter_scope
        (symbol_insert
          { enter_scope semantic_init SCOPE_BLOCK with
            in_function := true, has_return_statement := false,
            current_return_type := some (typeinfo_create TYPE_INT) }
          (symbol_create_function "f" (some (typeinfo_create TYPE_INT))
            [parameter_entry "a" (some (typeinfo_create TYPE_INT))] 1))
        SCOPE_FUNCTION)
      [parameter_entry "a" (some (typeinfo_create TYPE_INT))])
    SCOPE_BLOCK

/-- The arguments of a call, each checked on its own in the analyzer
`analyzer`, have the results `results`. -/
def ArgumentsChecked (fuel : Nat) (analyzer : SemanticAnalyzer) (arguments : List ASTNode)
    (results : List TypeCheckResult) : Prop :=
  List.Forall₂
    (fun argument result =>
      ∃ analyzer1, check_expression fuel (some argument) analyzer = .done result analyzer1)
    arguments results

/-- The type of every argument is assignable to the type of the corresponding
parameter, in the sense of `are_types_compatible`. -/
def ArgumentsAssignable (parameters : List ParameterEntry)
    (results : List TypeCheckResult) : Prop :=
  List.Forall₂
    (fun (parameter : ParameterEntry) (result : TypeCheckResult) =>
      are_types_compatible parameter.type result.type = true)
    parameters results

/-- The program `let a: int = 42; let t: string = type(a);` as the parser builds it. -/
def program_type_of_int : ASTNode :=
  block [var_decl "a" (type_node TYPE_INT) (some (literal TOKEN_INT_LITERAL (.int_value 42))),
    var_decl "t" (type_node TYPE_STRING) (some (call_expr "type" [var_expr "a"] 1))]

/-- The tokens of the source text `let a: int = 42; let t: string = type(a);`. -/
def tokens_type_of_int : List Token :=
  [⟨TOKEN_LET, "let"⟩, ⟨TOKEN_IDENTIFIER, "a"⟩, ⟨TOKEN_COLON, ":"⟩, ⟨TOKEN_INT, "int"⟩,
   ⟨TOKEN_EQUAL, "="⟩, ⟨TOKEN_INT_LITERAL, "42"⟩, ⟨TOKEN_SEMICOLON, ";"⟩,
   ⟨TOKEN_LET, "let"⟩, ⟨TOKEN_IDENTIFIER, "t"⟩, ⟨TOKEN_COLON, ":"⟩,
   ⟨TOKEN_STRING, "string"⟩, ⟨TOKEN_EQUAL, "="⟩, ⟨TOKEN_IDENTIFIER, "type"⟩,
   ⟨TOKEN_LEFT_PAREN, "("⟩, ⟨TOKEN_IDENTIFIER, "a"⟩, ⟨TOKEN_RIGHT_PAREN, ")"⟩,
   ⟨TOKEN_SEMICOLON, ";"⟩]

/-- The analyzer in which `let t: string = type(a);` of `program_type_of_int` is
visited: the scope of the program block holds the variable `a` of type `int`. -/
def analyzer_a_declared : SemanticAnalyzer :=
  symbol_insert (enter_scope semantic_init SCOPE_BLOCK)
    (symbol_create_variable "a" (some (typeinfo_create TYPE_INT)))

/-- The program `fn outer(): int { fn inner(): int { return 1; } return 2; }` as the
parser builds it. -/
def program_return_after_nested : ASTNode :=
  block [func_decl "outer" [] 0 (type_node TYPE_INT)
    (block [func_decl "inner" [] 0 (type_node TYPE_INT)
        (block [return_stmt (some (literal TOKEN_INT_LITERAL (.int_value 1)))]),
      return_stmt (some (literal TOKEN_INT_LITERAL (.int_value 2)))])]

/-- The tokens of the source text
`fn outer(): int { fn inner(): int { return 1; } return 2; }`. -/
def tokens_return_after_nested : List Token :=
  [⟨TOKEN_FN, "fn"⟩, ⟨TOKEN_IDENTIFIER, "outer"⟩, ⟨TOKEN_LEFT_PAREN, "("⟩,
   ⟨TOKEN_RIGHT_PAREN, ")"⟩, ⟨TOKEN_COLON, ":"⟩, ⟨TOKEN_INT, "int"⟩,
   ⟨TOKEN_LEFT_BRACE, "\x7b"⟩, ⟨TOKEN_FN, "fn"⟩, ⟨TOKEN_IDENTIFIER, "inner"⟩,
   ⟨TOKEN_LEFT_PAREN, "("⟩, ⟨TOKEN_RIGHT_PAREN, ")"⟩, ⟨TOKEN_COLON, ":"⟩, ⟨TOKEN_INT, "int"⟩,
   ⟨TOKEN_LEFT_BRACE, "\x7b"⟩, ⟨TOKEN_RETURN, "return"⟩, ⟨TOKEN_INT_LITERAL, "1"⟩,
   ⟨TOKEN_SEMICOLON, ";"⟩, ⟨TOKEN_RIGHT_BRACE, "\x7d"⟩, ⟨TOKEN_RETURN, "return"⟩,
   ⟨TOKEN_INT_LITERAL, "2"⟩, ⟨TOKEN_SEMICOLON, ";"⟩, ⟨TOKEN_RIGHT_BRACE, "\x7d"⟩]

/-- The program `fn outer(): int { return 2; }`. -/
def program_return_alone : ASTNode :=
  block [func_decl "outer" [] 0 (type_node TYPE_INT)
    (block [return_stmt (some (literal TOKEN_INT_LITERAL (.int_value 2)))])]

/-- The program `fn outer(): int { return 1; fn inner(): void { } }` as the parser
builds it. -/
def program_return_before_nested : ASTNode :=
  block [func_decl "outer" [] 0 (type_node TYPE_INT)
    (block [return_stmt (some (literal TOKEN_INT_LITERAL (.int_value 1))),
      func_decl "inner" [] 0 (type_node TYPE_VOID) (block [])])]

/-- The tokens of the source text `fn outer(): int { return 1; fn inner(): void { } }`. -/
def tokens_return_before_nested : List Token :=
  [⟨TOKEN_FN, "fn"⟩, ⟨TOKEN_IDENTIFIER, "outer"⟩, ⟨TOKEN_LEFT_PAREN, "("⟩,
   ⟨TOKEN_RIGHT_PAREN, ")"⟩, ⟨TOKEN_COLON, ":"⟩, ⟨TOKEN_INT, "int"⟩,
   ⟨TOKEN_LEFT_BRACE, "\x7b"⟩, ⟨TOKEN_RETURN, "return"⟩, ⟨TOKEN_INT_LITERAL, "1"⟩,
   ⟨TOKEN_SEMICOLON, ";"⟩, ⟨TOKEN_FN, "fn"⟩, ⟨TOKEN_IDENTIFIER, "inner"⟩,
   ⟨TOKEN_LEFT_PAREN, "("⟩, ⟨TOKEN_RIGHT_PAREN, ")"⟩, ⟨TOKEN_COLON, ":"⟩, ⟨TOKEN_VOID, "void"⟩,
   ⟨TOKEN_LEFT_BRACE, "\x7b"⟩, ⟨TOKEN_RIGHT_BRACE, "\x7d"⟩, ⟨TOKEN_RIGHT_BRACE, "\x7d"⟩]

/-- The program `fn teste(): int { let x: int = 10; }` of `test_error_cases`
(`source3`) as the parser builds it. -/
def program_without_return : ASTNode :=
  block [func_decl "teste" [] 0 (type_node TYPE_INT)
    (block [var_decl "x" (type_node TYPE_INT)
      (some (literal TOKEN_INT_LITERAL (.int_value 10)))])]

/-- The tokens of the source text `fn teste(): int { let x: int = 10; }`. -/
def tokens_without_return : List Token :=
  [⟨TOKEN_FN, "fn"⟩, ⟨TOKEN_IDENTIFIER, "teste"⟩, ⟨TOKEN_LEFT_PAREN, "("⟩,
   ⟨TOKEN_RIGHT_PAREN, ")"⟩, ⟨TOKEN_COLON, ":"⟩, ⟨TOKEN_INT, "int"⟩,
   ⟨TOKEN_LEFT_BRACE, "\x7b"⟩, ⟨TOKEN_LET, "let"⟩, ⟨TOKEN_IDENTIFIER, "x"⟩, ⟨TOKEN_COLON, ":"⟩,
   ⟨TOKEN_INT, "int"⟩, ⟨TOKEN_EQUAL, "="⟩, ⟨TOKEN_INT_LITERAL, "10"⟩, ⟨TOKEN_SEMICOLON, ";"⟩,
   ⟨TOKEN_RIGHT_BRACE, "\x7d"⟩]

/-! ## The lexer (`craze_lexer.c`)

The source is a NUL-terminated buffer of `char`s.  It is modelled by the list
of the characters before the terminating NUL, one list element per `char`; a
read at the index after the last character gives the NUL.  The pointers `start`
and `current` are offsets into the buffer.  The counters `line` and `column`
and the length of a token are C `int`s.  The allocation in `make_token` is
taken to succeed. -/

/-- The NUL character. -/
def NUL : Char := Char.ofNat 0

/-- The struct `Token` with all its fields: `token` holds `type` and `lexeme`,
the fields the parser reads. -/
structure SourceToken where
  token : Token
  length : Int
  line : Int
  column : Int
  deriving DecidableEq, Repr

/-- The struct `Lexer`. -/
structure Lexer where
  source : List Char
  start : Nat
  current : Nat
  line : Int
  column : Int
  deriving DecidableEq, Repr

/-- The function `is_alpha`. -/
def is_alpha (c : Char) : Bool :=
  (decide ('a' ≤ c) && decide (c ≤ 'z')) || (decide ('A' ≤ c) && decide (c ≤ 'Z')) || c == '_'

/-- The function `is_digit`. -/
def is_digit (c : Char) : Bool :=
  decide ('0' ≤ c) && decide (c ≤ '9')

/-- The function `is_alphanumeric`. -/
def is_alphanumeric (c : Char) : Bool :=
  is_alpha c || is_digit c

/-- The function `check_keyword`: `lexeme` is the text at the pointer passed,
of which `memcmp` reads the first characters. -/
def check_keyword (lexeme : List Char) (length : Int) : TokenType :=
  let c := lexeme.headD NUL
  if c = 'b' then
    if length = 4 ∧ lexeme.take 4 = "bool".toList then TOKEN_BOOL else TOKEN_IDENTIFIER
  else if c = 'e' then
    if length = 4 ∧ lexeme.take 4 = "else".toList then TOKEN_ELSE else TOKEN_IDENTIFIER
  else if c = 'f' then
    if length = 2 ∧ lexeme.take 2 = "fn".toList then TOKEN_FN
    else if length = 5 ∧ lexeme.take 5 = "false".toList then TOKEN_FALSE
    else if length = 5 ∧ lexeme.take 5 = "float".toList then TOKEN_FLOAT
    else TOKEN_IDENTIFIER
  else if c = 'i' then
    if length = 2 ∧ lexeme.take 2 = "if".toList then TOKEN_IF
    else if length = 3 ∧ lexeme.take 3 = "int".toList then TOKEN_INT
    else TOKEN_IDENTIFIER
  else if c = 'l' then
    if length = 3 ∧ lexeme.take 3 = "let".toList then TOKEN_LET else TOKEN_IDENTIFIER
  else if c = 'r' then
    if length = 6 ∧ lexeme.take 6 = "return".toList then TOKEN_RETURN else TOKEN_IDENTIFIER
  else if c = 's' then
    if length = 6 ∧ lexeme.take 6 = "string".toList then TOKEN_STRING else TOKEN_IDENTIFIER
  else if c = 't' then
    if length = 4 ∧ lexeme.take 4 = "true".toList then TOKEN_TRUE else TOKEN_IDENTIFIER
  else if c = 'v' then
    if length = 4 ∧ lexeme.take 4 = "void".toList then TOKEN_VOID else TOKEN_IDENTIFIER
  else if c = 'w' then
    if length = 5 ∧ lexeme.take 5 = "while".toList then TOKEN_WHILE else TOKEN_IDENTIFIER
  else TOKEN_IDENTIFIER

namespace Lexer

/-- The function `peek`. -/
def peek (lexer : Lexer) : Char :=
  lexer.source.getD lexer.current NUL

/-- The function `is_at_end`. -/
def is_at_end (lexer : Lexer) : Bool :=
  lexer.peek == NUL

/-- The function `advance`: the character returned and the lexer after it. -/
def advance (lexer : Lexer) : Char × Lexer :=
  (lexer.peek, { lexer with column := wrap32 (lexer.column + 1), current := lexer.current + 1 })

/-- The function `peek_next`. -/
def peek_next (lexer : Lexer) : Char :=
  if lexer.is_at_end then NUL else lexer.source.getD (lexer.current + 1) NUL

/-- The function `match`: the returned flag and the lexer after it. -/
def match_ (lexer : Lexer) (expected : Char) : Bool × Lexer :=
  if lexer.is_at_end then (false, lexer)
  else if lexer.peek ≠ expected then (false, lexer)
  else (true, { lexer with current := lexer.current + 1, column := wrap32 (lexer.column + 1) })

/-- The function `make_token`. -/
def make_token (lexer : Lexer) (type : TokenType) : SourceToken :=
  let length := wrap32 ((lexer.current : Int) - (lexer.start : Int))
  { token := { type := type,
               lexeme := String.mk ((lexer.source.drop lexer.start).take length.toNat) },
    length := length,
    line := lexer.line,
    column := wrap32 (lexer.column - length) }

/-- The function `error_token`. -/
def error_token (lexer : Lexer) (message : String) : SourceToken :=
  { token := { type := TOKEN_ERROR, lexeme := message },
    length := message.utf8ByteSize,
    line := lexer.line,
    column := lexer.column }

/-- A loop `while (p(peek(lexer))) advance(lexer);`.  Every iteration consumes
a character that is not the NUL, so `fuel` iterations suffice when `fuel`
exceeds the length of the source; the callers pass such a bound. -/
def advance_while (p : Char → Bool) : Nat → Lexer → Lexer
  | 0, lexer => lexer
  | fuel + 1, lexer =>
    if p lexer.peek then advance_while p fuel lexer.advance.2 else lexer

/-- The `for (;;)` loop of `skip_whitespace_and_comments`; the inner loop of a
comment is `advance_while` on `peek(lexer) != '\n' && !is_at_end(lexer)`. -/
def skip_loop : Nat → Lexer → Lexer
  | 0, lexer => lexer
  | fuel + 1, lexer =>
    let c := lexer.peek
    if c = ' ' ∨ c = '\r' ∨ c = '\t' then skip_loop fuel lexer.advance.2
    else if c = '\n' then
      skip_loop fuel
        (advance { lexer with line := wrap32 (lexer.line + 1), column := 0 }).2
    else if c = '#' then
      skip_loop fuel
        (advance_while (fun c => c != '\n' && c != NUL) (lexer.source.length + 1) lexer)
    else lexer

/-- The function `skip_whitespace_and_comments`. -/
def skip_whitespace_and_comments (lexer : Lexer) : Lexer :=
  skip_loop (lexer.source.length + 1) lexer

/-- The function `identifier`: the token and the lexer after it. -/
def identifier (lexer : Lexer) : SourceToken × Lexer :=
  let lexer := advance_while is_alphanumeric (lexer.source.length + 1) lexer
  let length := wrap32 ((lexer.current : Int) - (lexer.start : Int))
  (make_token lexer (check_keyword (lexer.source.drop lexer.start) length), lexer)

/-- The function `number`. -/
def number (lexer : Lexer) : SourceToken × Lexer :=
  let lexer := advance_while is_digit (lexer.source.length + 1) lexer
  if lexer.peek = '.' ∧ is_digit lexer.peek_next = true then
    let lexer := lexer.advance.2
    let lexer := advance_while is_digit (lexer.source.length + 1) lexer
    (make_token lexer TOKEN_FLOAT_LITERAL, lexer)
  else (make_token lexer TOKEN_INT_LITERAL, lexer)

/-- The `while` loop of `string`: the error token if the loop returns one, and
the lexer after the loop. -/
def string_loop : Nat → Lexer → Option SourceToken × Lexer
  | 0, lexer => (none, lexer)
  | fuel + 1, lexer =>
    if lexer.peek ≠ '"' ∧ lexer.is_at_end = false then
      if lexer.peek = '\n' then
        (some (error_token lexer "String não pode conter quebra de linha"), lexer)
      else string_loop fuel lexer.advance.2
    else (none, lexer)

/-- The function `string`. -/
def string (lexer : Lexer) : SourceToken × Lexer :=
  match string_loop (lexer.source.length + 1) lexer with
  | (some token, lexer) => (token, lexer)
  | (none, lexer) =>
    if lexer.is_at_end then (error_token lexer "String não fechada", lexer)
    else
      let lexer := lexer.advance.2
      (make_token lexer TOKEN_STRING_LITERAL, lexer)

/-- An operator of one or two characters: the test `match(lexer, '=')`
chooses between the token types `two` and `one`; `none` for `one` is the error
token of a lone `!`. -/
def operator_token (lexer : Lexer) (two : TokenType) (one : Option TokenType) :
    SourceToken × Lexer :=
  match lexer.match_ '=' with
  | (true, lexer) => (make_token lexer two, lexer)
  | (false, lexer) =>
    match one with
    | some type => (make_token lexer type, lexer)
    | none => (error_token lexer "Caractere '!' inesperado", lexer)

/-- The part of `lexer_next_token` after `char c = advance(lexer);`. -/
def scan_token (c : Char) (lexer : Lexer) : SourceToken × Lexer :=
  if is_alpha c then identifier lexer
  else if is_digit c then number lexer
  else if c = '"' then string lexer
  else if c = '(' then (make_token lexer TOKEN_LEFT_PAREN, lexer)
  else if c = ')' then (make_token lexer TOKEN_RIGHT_PAREN, lexer)
  else if c = '\x7b' then (make_token lexer TOKEN_LEFT_BRACE, lexer)
  else if c = '\x7d' then (make_token lexer TOKEN_RIGHT_BRACE, lexer)
  else if c = ':' then (make_token lexer TOKEN_COLON, lexer)
  else if c = ',' then (make_token lexer TOKEN_COMMA, lexer)
  else if c = ';' then (make_token lexer TOKEN_SEMICOLON, lexer)
  else if c = '+' then (make_token lexer TOKEN_PLUS, lexer)
  else if c = '-' then (make_token lexer TOKEN_MINUS, lexer)
  else if c = '*' then (make_token lexer TOKEN_STAR, lexer)
  else if c = '/' then (make_token lexer TOKEN_SLASH, lexer)
  else if c = '=' then operator_token lexer TOKEN_EQUAL_EQUAL (some TOKEN_EQUAL)
  else if c = '!' then operator_token lexer TOKEN_BANG_EQUAL none
  else if c = '>' then operator_token lexer TOKEN_GREATER_EQUAL (some TOKEN_GREATER)
  else if c = '<' then operator_token lexer TOKEN_LESS_EQUAL (some TOKEN_LESS)
  else (error_token lexer "Caractere inesperado", lexer)

/-- The lexer at the start of a token: after `skip_whitespace_and_comments` and
`lexer->start = lexer->current;`. -/
def token_start (lexer : Lexer) : Lexer :=
  { skip_whitespace_and_comments lexer with
    start := (skip_whitespace_and_comments lexer).current }

/-- The function `lexer_next_token`: the token and the lexer after the call. -/
def lexer_next_token (lexer : Lexer) : SourceToken × Lexer :=
  let lexer := token_start lexer
  if lexer.is_at_end then (make_token lexer TOKEN_EOF, lexer)
  else scan_token lexer.advance.1 lexer.advance.2

end Lexer

/-- The function `lexer_init`. -/
def lexer_init (source : List Char) : Lexer :=
  { source := source, start := 0, current := 0, line := 1, column := 1 }

/-- The lexer after `calls` calls of `lexer_next_token`. -/
def lexer_after : Nat → Lexer → Lexer
  | 0, lexer => lexer
  | calls + 1, lexer => lexer_after calls lexer.lexer_next_token.2

/-- The token the call number `calls + 1` of `lexer_next_token` returns. -/
def lexer_call (calls : Nat) (lexer : Lexer) : SourceToken :=
  (lexer_after calls lexer).lexer_next_token.1

/-- The tokens `lexer_next_token` returns in at most `calls` calls, up to the
first `TOKEN_EOF`, which is left out: the stream as the parser reads it. -/
def lexer_stream : Nat → Lexer → List Token
  | 0, _ => []
  | calls + 1, lexer =>
    if lexer.lexer_next_token.1.token.type = TOKEN_EOF then []
    else lexer.lexer_next_token.1.token :: lexer_stream calls lexer.lexer_next_token.2

/-- The stream of tokens of a source text. -/
def source_tokens (source : String) : List Token :=
  lexer_stream (source.toList.length + 1) (lexer_init source.toList)

/-- The index of the terminating NUL of the buffer. -/
def nul_index (source : List Char) : Nat :=
  (source.takeWhile (fun c => c != NUL)).length

/-! ## Vocabulary for statements about the lexer -/

/-- A step of the lexer from `lexer` to `after`: the source is the same, the
cursor has not moved back, and it is not past the terminating NUL if it was not
before. -/
def Lexer.Forward (lexer after : Lexer) : Prop :=
  after.source = lexer.source ∧ lexer.current ≤ after.current
    ∧ (lexer.current ≤ nul_index lexer.source → after.current ≤ nul_index lexer.source)

/-- The part of the source from the cursor on. -/
def Lexer.rest (lexer : Lexer) : List Char :=
  lexer.source.drop lexer.current

/-- The lexer `after` is the lexer `lexer` with the cursor moved: nothing but
`current` and `column` differs. -/
def Lexer.SameToken (lexer after : Lexer) : Prop :=
  after.source = lexer.source ∧ after.start = lexer.start ∧ after.line = lexer.line

/-- The characters between `start` and the cursor are `text`. -/
def Lexer.Consumed (lexer : Lexer) (text : List Char) : Prop :=
  lexer.source.drop lexer.start = text ++ lexer.rest
    ∧ lexer.current = lexer.start + text.length

/-- Whether a character can stand inside a string literal: it is not the
closing quote, not the NUL and not a newline. -/
def in_string (c : Char) : Bool :=
  c != '"' && c != NUL && c != '\n'

/-- One plus the number of newline characters among the first `index`
characters of the source: the line of the character at `index`. -/
def line_at (source : List Char) (index : Nat) : Int :=
  1 + ((source.take index).count '\n' : Nat)

/-- One plus the number of characters between the start of the line and the
character at `index`: its column. -/
def column_at (source : List Char) (index : Nat) : Int :=
  1 + (((source.take index).reverse.takeWhile (fun c => c != '\n')).length : Nat)

/-- The counters `line` and `column` of the lexer are those of the character
at the cursor. -/
def Lexer.Tracked (lexer : Lexer) : Prop :=
  lexer.current ≤ lexer.source.length
    ∧ lexer.line = line_at lexer.source lexer.current
    ∧ lexer.column = column_at lexer.source lexer.current

/-- A scan from `lexer` to `after` inside one line: the cursor has moved
forward, `line` is the same and `column` has grown by the number of characters
passed, and the counters are still those of the cursor if they were. -/
def Lexer.Run (lexer after : Lexer) : Prop :=
  lexer.SameToken after ∧ lexer.current ≤ after.current
    ∧ (lexer.Tracked →
        after.Tracked ∧ after.column = lexer.column + ((after.current : Int) - lexer.current))

/-- The keys stored in a table, bucket after bucket. -/
def HashTable.keys {V : Type} (table : HashTable V) : List String :=
  (table.buckets.map (fun chain => chain.map Prod.fst)).flatten

/-- Every entry of a table is in the bucket of its key, as `hashtable_set`
puts it. -/
def HashTable.Placed {V : Type} (table : HashTable V) : Prop :=
  ∀ index chain, table.buckets[index]? = some chain →
    ∀ entry ∈ chain, hash_function entry.1 table.capacity = index

/-! ## Vocabulary for statements about error tokens in the parser -/

/-- A token of type `TOKEN_ERROR` stands in the stream before its end: before the
first `TOKEN_EOF` and before the tokens run out. -/
def error_ahead : List Token → Bool
  | [] => false
  | t :: rest =>
    if t.type = TOKEN_ERROR then true
    else if t.type = TOKEN_EOF then false
    else error_ahead rest

/-- The token types the parser asks for by name in `check`, `match` and `consume`:
all but `TOKEN_ERROR` and `TOKEN_EOF`. -/
def ordinary (t : TokenType) : Bool :=
  t != TOKEN_ERROR && t != TOKEN_EOF

/-- An error has been reported, or an error token is still to be read: it is the
current token or the lexer will deliver it before the end of the stream. -/
def Parser.pending (p : Parser) : Bool :=
  p.had_error || error_ahead (p.current_token :: p.lexer)

/-- The state of a parser that has not lost an error token: its flags are
consistent, and the error is reported or still ahead. -/
def Parser.Alerted (p : Parser) : Prop :=
  p.consistent ∧ p.pending = true

/-- A parsing routine that returns a node keeps the parser alerted, and returns
`NULL` only with an error reported. -/
@[reducible] def ParsesAlerted (f : Parser → Outcome (Option ASTNode)) : Prop :=
  ∀ p r q, f p = .done r q → p.Alerted →
    q.Alerted ∧ (r = none → q.had_error = true)

/-- A loop that extends the tree `acc` keeps the parser alerted, and returns
`NULL` only with an error reported, if that was so of the tree it was given. -/
@[reducible] def LoopsAlerted (f : Option ASTNode → Parser → Outcome (Option ASTNode)) :
    Prop :=
  ∀ acc p r q, f acc p = .done r q → p.Alerted →
    q.Alerted ∧ ((acc = none → p.had_error = true) → r = none → q.had_error = true)

/-- A loop that gathers nodes keeps the parser alerted. -/
@[reducible] def CollectsAlerted {α : Type} (f : List ASTNode → Parser → Outcome α) : Prop :=
  ∀ acc p r q, f acc p = .done r q → p.Alerted → q.Alerted

/-- All the routines of the recursive descent keep the parser alerted when given
`fuel` units of fuel. -/
structure AlertedAt (fuel : Nat) : Prop where
  variable_declaration : ParsesAlerted (parse_variable_declaration fuel)
  function_declaration : ParsesAlerted (parse_function_declaration fuel)
  block_loop : CollectsAlerted (parse_block_loop fuel)
  block : ParsesAlerted (parse_block fuel)
  if_statement : ParsesAlerted (parse_if_statement fuel)
  while_statement : ParsesAlerted (parse_while_statement fuel)
  return_statement : ParsesAlerted (parse_return_statement fuel)
  expression_statement : ParsesAlerted (parse_expression_statement fuel)
  statement : ParsesAlerted (parse_statement fuel)
  declaration : ParsesAlerted (parse_declaration fuel)
  argument_list_loop : CollectsAlerted (parse_argument_list_loop fuel)
  primary : ParsesAlerted (parse_primary fuel)
  unary : ParsesAlerted (parse_unary fuel)
  factor_loop : LoopsAlerted (parse_factor_loop fuel)
  factor : ParsesAlerted (parse_factor fuel)
  term_loop : LoopsAlerted (parse_term_loop fuel)
  term : ParsesAlerted (parse_term fuel)
  comparison_loop : LoopsAlerted (parse_comparison_loop fuel)
  comparison : ParsesAlerted (parse_comparison fuel)
  equality_loop : LoopsAlerted (parse_equality_loop fuel)
  equality : ParsesAlerted (parse_equality fuel)
  assignment : ParsesAlerted (parse_assignment fuel)
  expression : ParsesAlerted (parse_expression fuel)

/-- The test `if (program && !parser.had_error)` of `main`: semantic analysis, and
after it interpretation, run only inside it. -/
def main_runs_analysis (program : Option ASTNode) (parser : Parser) : Bool :=
  program.isSome && !parser.had_error

/-- The source `test_program_4` of `tests/test_interpreter.c`. -/
def test_program_4 : String :=
  "let i: int = 0;\nwhile (i < 5) \x7b\n    if (i % 2 == 0) \x7b\n        print(i, \"é par\");\n    \x7d else \x7b\n        print(i, \"é ímpar\");\n    \x7d\n    i = i + 1;\n\x7d"

/-- The tokens the lexer produces for `test_program_4`. -/
def tokens_test_program_4 : List Token :=
  [⟨TOKEN_LET, "let"⟩, ⟨TOKEN_IDENTIFIER, "i"⟩, ⟨TOKEN_COLON, ":"⟩, ⟨TOKEN_INT, "int"⟩,
   ⟨TOKEN_EQUAL, "="⟩, ⟨TOKEN_INT_LITERAL, "0"⟩, ⟨TOKEN_SEMICOLON, ";"⟩,
   ⟨TOKEN_WHILE, "while"⟩, ⟨TOKEN_LEFT_PAREN, "("⟩, ⟨TOKEN_IDENTIFIER, "i"⟩,
   ⟨TOKEN_LESS, "<"⟩, ⟨TOKEN_INT_LITERAL, "5"⟩, ⟨TOKEN_RIGHT_PAREN, ")"⟩,
   ⟨TOKEN_LEFT_BRACE, "\x7b"⟩, ⟨TOKEN_IF, "if"⟩, ⟨TOKEN_LEFT_PAREN, "("⟩,
   ⟨TOKEN_IDENTIFIER, "i"⟩, ⟨TOKEN_ERROR, "Caractere inesperado"⟩,
   ⟨TOKEN_INT_LITERAL, "2"⟩, ⟨TOKEN_EQUAL_EQUAL, "=="⟩, ⟨TOKEN_INT_LITERAL, "0"⟩,
   ⟨TOKEN_RIGHT_PAREN, ")"⟩, ⟨TOKEN_LEFT_BRACE, "\x7b"⟩, ⟨TOKEN_IDENTIFIER, "print"⟩,
   ⟨TOKEN_LEFT_PAREN, "("⟩, ⟨TOKEN_IDENTIFIER, "i"⟩, ⟨TOKEN_COMMA, ","⟩,
   ⟨TOKEN_STRING_LITERAL, "\"é par\""⟩, ⟨TOKEN_RIGHT_PAREN, ")"⟩, ⟨TOKEN_SEMICOLON, ";"⟩,
   ⟨TOKEN_RIGHT_BRACE, "\x7d"⟩, ⟨TOKEN_ELSE, "else"⟩, ⟨TOKEN_LEFT_BRACE, "\x7b"⟩,
   ⟨TOKEN_IDENTIFIER, "print"⟩, ⟨TOKEN_LEFT_PAREN, "("⟩, ⟨TOKEN_IDENTIFIER, "i"⟩,
   ⟨TOKEN_COMMA, ","⟩, ⟨TOKEN_STRING_LITERAL, "\"é ímpar\""⟩, ⟨TOKEN_RIGHT_PAREN, ")"⟩,
   ⟨TOKEN_SEMICOLON, ";"⟩, ⟨TOKEN_RIGHT_BRACE, "\x7d"⟩, ⟨TOKEN_IDENTIFIER, "i"⟩,
   ⟨TOKEN_EQUAL, "="⟩, ⟨TOKEN_IDENTIFIER, "i"⟩, ⟨TOKEN_PLUS, "+"⟩,
   ⟨TOKEN_INT_LITERAL, "1"⟩, ⟨TOKEN_SEMICOLON, ";"⟩, ⟨TOKEN_RIGHT_BRACE, "\x7d"⟩]

/-! ## Vocabulary for statements about `synchronize` -/

/-- The number of tokens the parser has not consumed yet: the current token, unless it is
`TOKEN_EOF`, and those the lexer still holds. -/
def Parser.remaining (p : Parser) : Nat :=
  p.lexer.length + (if p.current_token.type = TOKEN_EOF then 0 else 1)

/-- The two tests on which the loop of `synchronize` returns before it calls `advance`: the
previous token is `;`, or the current token starts a declaration or statement. -/
def Parser.at_boundary (p : Parser) : Bool :=
  p.previous_token.type == TOKEN_SEMICOLON
    || p.current_token.type == TOKEN_LET || p.current_token.type == TOKEN_FN
    || p.current_token.type == TOKEN_IF || p.current_token.type == TOKEN_WHILE
    || p.current_token.type == TOKEN_RETURN

/-- The tokens of the source text `= 5;`. -/
def tokens_equal_five : List Token :=
  [⟨TOKEN_EQUAL, "="⟩, ⟨TOKEN_INT_LITERAL, "5"⟩, ⟨TOKEN_SEMICOLON, ";"⟩]

/-- The statement `y = 1;` as the parser builds it. -/
def statement_y_assign : ASTNode :=
  expr_stmt (assign_expr "y" (literal TOKEN_INT_LITERAL (.int_value 1)))

/-- The statement `len(5);` as the parser builds it. -/
def statement_len_five : ASTNode :=
  expr_stmt (call_expr "len" [literal TOKEN_INT_LITERAL (.int_value 5)] 1)

/-- The tokens of the source text `y = 1;`. -/
def tokens_y_assign : List Token :=
  [⟨TOKEN_IDENTIFIER, "y"⟩, ⟨TOKEN_EQUAL, "="⟩, ⟨TOKEN_INT_LITERAL, "1"⟩, ⟨TOKEN_SEMICOLON, ";"⟩]

/-- The tokens of the source text `len(5);`. -/
def tokens_len_five : List Token :=
  [⟨TOKEN_IDENTIFIER, "len"⟩, ⟨TOKEN_LEFT_PAREN, "("⟩, ⟨TOKEN_INT_LITERAL, "5"⟩,
   ⟨TOKEN_RIGHT_PAREN, ")"⟩, ⟨TOKEN_SEMICOLON, ";"⟩]

/-- The program `let b: bool = "a" < "b";` as the parser builds it. -/
def program_b_string_less : ASTNode :=
  block [var_decl "b" (type_node TYPE_BOOL)
    (some (binary_expr TOKEN_LESS (some (literal TOKEN_STRING_LITERAL (.string_value "a")))
      (literal TOKEN_STRING_LITERAL (.string_value "b"))))]

/-- The tokens of the source text `let b: bool = "a" < "b";`. -/
def tokens_b_string_less : List Token :=
  [⟨TOKEN_LET, "let"⟩, ⟨TOKEN_IDENTIFIER, "b"⟩, ⟨TOKEN_COLON, ":"⟩, ⟨TOKEN_BOOL, "bool"⟩,
   ⟨TOKEN_EQUAL, "="⟩, ⟨TOKEN_STRING_LITERAL, "\"a\""⟩, ⟨TOKEN_LESS, "<"⟩,
   ⟨TOKEN_STRING_LITERAL, "\"b\""⟩, ⟨TOKEN_SEMICOLON, ";"⟩]

/-- The ordering operators `<`, `>`, `<=`, `>=`. -/
def is_ordering_operator (op : TokenType) : Bool :=
  op == TOKEN_LESS || op == TOKEN_GREATER || op == TOKEN_LESS_EQUAL || op == TOKEN_GREATER_EQUAL

/-- The declaration `let f: float = 1;` as the parser builds it. -/
def decl_float_from_int : ASTNode :=
  var_decl "f" (type_node TYPE_FLOAT) (some (literal TOKEN_INT_LITERAL (.int_value 1)))

/-- The program `let f: float = 1; print(type(f)); print(f + 1);` as the parser builds
it. -/
def program_float_from_int : ASTNode :=
  block [decl_float_from_int,
    expr_stmt (call_expr "print" [call_expr "type" [var_expr "f"] 1] 1),
    expr_stmt (call_expr "print"
      [binary_expr TOKEN_PLUS (some (var_expr "f")) (literal TOKEN_INT_LITERAL (.int_value 1))]
      1)]

/-- The tokens of the source text `let f: float = 1; print(type(f)); print(f + 1);`. -/
def tokens_float_from_int : List Token :=
  [⟨TOKEN_LET, "let"⟩, ⟨TOKEN_IDENTIFIER, "f"⟩, ⟨TOKEN_COLON, ":"⟩, ⟨TOKEN_FLOAT, "float"⟩,
   ⟨TOKEN_EQUAL, "="⟩, ⟨TOKEN_INT_LITERAL, "1"⟩, ⟨TOKEN_SEMICOLON, ";"⟩,
   ⟨TOKEN_IDENTIFIER, "print"⟩, ⟨TOKEN_LEFT_PAREN, "("⟩, ⟨TOKEN_IDENTIFIER, "type"⟩,
   ⟨TOKEN_LEFT_PAREN, "("⟩, ⟨TOKEN_IDENTIFIER, "f"⟩, ⟨TOKEN_RIGHT_PAREN, ")"⟩,
   ⟨TOKEN_RIGHT_PAREN, ")"⟩, ⟨TOKEN_SEMICOLON, ";"⟩, ⟨TOKEN_IDENTIFIER, "print"⟩,
   ⟨TOKEN_LEFT_PAREN, "("⟩, ⟨TOKEN_IDENTIFIER, "f"⟩, ⟨TOKEN_PLUS, "+"⟩,
   ⟨TOKEN_INT_LITERAL, "1"⟩, ⟨TOKEN_RIGHT_PAREN, ")"⟩, ⟨TOKEN_SEMICOLON, ";"⟩]

/-- The interpreter after `let f: float = 1;` at the top level of a program: the global
environment with the built-ins, and above it the environment of the top-level block with
the binding of `f`. -/
def state_float_from_int {F : Type} : Interpreter F :=
  { (interpreter_init : Interpreter F) with
    envs := [environment_define_var environment_create "f" (some (.int_val 1)),
             register_builtin_functions environment_create] }

/-- The declaration `fn print(a: int): int { return a + 1; }` as the parser builds it: a user
function under the name of a built-in, whose result tells its execution from that of the
built-in. -/
def successor_print_decl : ASTNode :=
  func_decl "print" [param "a" (type_node TYPE_INT)] 1 (type_node TYPE_INT)
    (block [return_stmt (some (binary_expr TOKEN_PLUS (some (var_expr "a"))
      (literal TOKEN_INT_LITERAL (.int_value 1))))])

/-- The call `print(7);` as the parser builds it. -/
def print_seven : ASTNode :=
  expr_stmt (call_expr "print" [literal TOKEN_INT_LITERAL (.int_value 7)] 1)

/-- The program `fn print(a: int): int { return a + 1; } print(7);` as the parser builds
it. -/
def program_successor_print : ASTNode :=
  block [successor_print_decl, print_seven]

/-- The tokens of the source text `fn print(a: int): int { return a + 1; } print(7);`. -/
def tokens_successor_print : List Token :=
  [⟨TOKEN_FN, "fn"⟩, ⟨TOKEN_IDENTIFIER, "print"⟩, ⟨TOKEN_LEFT_PAREN, "("⟩,
   ⟨TOKEN_IDENTIFIER, "a"⟩, ⟨TOKEN_COLON, ":"⟩, ⟨TOKEN_INT, "int"⟩, ⟨TOKEN_RIGHT_PAREN, ")"⟩,
   ⟨TOKEN_COLON, ":"⟩, ⟨TOKEN_INT, "int"⟩, ⟨TOKEN_LEFT_BRACE, "\x7b"⟩,
   ⟨TOKEN_RETURN, "return"⟩, ⟨TOKEN_IDENTIFIER, "a"⟩, ⟨TOKEN_PLUS, "+"⟩,
   ⟨TOKEN_INT_LITERAL, "1"⟩, ⟨TOKEN_SEMICOLON, ";"⟩, ⟨TOKEN_RIGHT_BRACE, "\x7d"⟩,
   ⟨TOKEN_IDENTIFIER, "print"⟩, ⟨TOKEN_LEFT_PAREN, "("⟩, ⟨TOKEN_INT_LITERAL, "7"⟩,
   ⟨TOKEN_RIGHT_PAREN, ")"⟩, ⟨TOKEN_SEMICOLON, ";"⟩]

/-- The program `fn print(a: int): int { return a + 1; } { let print: int = 0; print(7); }`
as the parser builds it: in the inner block the variable `print` shadows the built-in. -/
def program_shadowed_print : ASTNode :=
  block [successor_print_decl,
    block
      [var_decl "print" (type_node TYPE_INT) (some (literal TOKEN_INT_LITERAL (.int_value 0))),
       print_seven]]

/-- The tokens of the source text
`fn print(a: int): int { return a + 1; } { let print: int = 0; print(7); }`. -/
def tokens_shadowed_print : List Token :=
  [⟨TOKEN_FN, "fn"⟩, ⟨TOKEN_IDENTIFIER, "print"⟩, ⟨TOKEN_LEFT_PAREN, "("⟩,
   ⟨TOKEN_IDENTIFIER, "a"⟩, ⟨TOKEN_COLON, ":"⟩, ⟨TOKEN_INT, "int"⟩, ⟨TOKEN_RIGHT_PAREN, ")"⟩,
   ⟨TOKEN_COLON, ":"⟩, ⟨TOKEN_INT, "int"⟩, ⟨TOKEN_LEFT_BRACE, "\x7b"⟩,
   ⟨TOKEN_RETURN, "return"⟩, ⟨TOKEN_IDENTIFIER, "a"⟩, ⟨TOKEN_PLUS, "+"⟩,
   ⟨TOKEN_INT_LITERAL, "1"⟩, ⟨TOKEN_SEMICOLON, ";"⟩, ⟨TOKEN_RIGHT_BRACE, "\x7d"⟩,
   ⟨TOKEN_LEFT_BRACE, "\x7b"⟩, ⟨TOKEN_LET, "let"⟩, ⟨TOKEN_IDENTIFIER, "print"⟩,
   ⟨TOKEN_COLON, ":"⟩, ⟨TOKEN_INT, "int"⟩, ⟨TOKEN_EQUAL, "="⟩, ⟨TOKEN_INT_LITERAL, "0"⟩,
   ⟨TOKEN_SEMICOLON, ";"⟩, ⟨TOKEN_IDENTIFIER, "print"⟩, ⟨TOKEN_LEFT_PAREN, "("⟩,
   ⟨TOKEN_INT_LITERAL, "7"⟩, ⟨TOKEN_RIGHT_PAREN, ")"⟩, ⟨TOKEN_SEMICOLON, ";"⟩,
   ⟨TOKEN_RIGHT_BRACE, "\x7d"⟩]

/-- The assignment `print = 1` as the parser builds it. -/
def print_becomes_one : ASTNode :=
  assign_expr "print" (literal TOKEN_INT_LITERAL (.int_value 1))

/-- The statement `print(print = 1);` as the parser builds it: the argument of the call
assigns to the name under which the built-in was found. -/
def statement_print_rebound : ASTNode :=
  expr_stmt (call_expr "print" [print_becomes_one] 1)

/-- The program `print(print = 1);` as the parser builds it. -/
def program_print_rebound : ASTNode :=
  block [statement_print_rebound]

/-- The tokens of the source text `print(print = 1);`. -/
def tokens_print_rebound : List Token :=
  [⟨TOKEN_IDENTIFIER, "print"⟩, ⟨TOKEN_LEFT_PAREN, "("⟩, ⟨TOKEN_IDENTIFIER, "print"⟩,
   ⟨TOKEN_EQUAL, "="⟩, ⟨TOKEN_INT_LITERAL, "1"⟩, ⟨TOKEN_RIGHT_PAREN, ")"⟩,
   ⟨TOKEN_SEMICOLON, ";"⟩]

/-- The program `let p: int = print; print(print = 1);` as the parser builds it: when the
argument assigns to `print`, the variable `p` still holds the built-in. -/
def program_print_kept : ASTNode :=
  block [var_decl "p" (type_node TYPE_INT) (some (var_expr "print")),
    statement_print_rebound]

/-- The tokens of the source text `let p: int = print; print(print = 1);`. -/
def tokens_print_kept : List Token :=
  [⟨TOKEN_LET, "let"⟩, ⟨TOKEN_IDENTIFIER, "p"⟩, ⟨TOKEN_COLON, ":"⟩, ⟨TOKEN_INT, "int"⟩,
   ⟨TOKEN_EQUAL, "="⟩, ⟨TOKEN_IDENTIFIER, "print"⟩, ⟨TOKEN_SEMICOLON, ";"⟩,
   ⟨TOKEN_IDENTIFIER, "print"⟩, ⟨TOKEN_LEFT_PAREN, "("⟩, ⟨TOKEN_IDENTIFIER, "print"⟩,
   ⟨TOKEN_EQUAL, "="⟩, ⟨TOKEN_INT_LITERAL, "1"⟩, ⟨TOKEN_RIGHT_PAREN, ")"⟩,
   ⟨TOKEN_SEMICOLON, ";"⟩]

/-- The state in which the statements of the top-level block are executed: the state of
`interpreter_init` with the environment of the block in front of the global one. -/
def state_in_block {F : Type} : Interpreter F :=
  { (interpreter_init : Interpreter F) with
    envs := environment_create :: (interpreter_init : Interpreter F).envs }

/-! ## The driver (`craze_main.c`) -/

/-- What `execute_craze_file` has done when it returns: the `int` it returns, and the state
each stage it has run has left (`none` for a stage it has not run). -/
structure FileRun (F : Type) where
  exit_code : Int
  parser : Option Parser
  analyzer : Option SemanticAnalyzer
  interpreter : Option (Interpreter F)

/-- What `execute_craze_file` does: return, run into undefined behaviour in one of the
stages, or not return within the fuel given to the stages. -/
inductive FileOutcome (F : Type)
  | done (run : FileRun F)
  | undefined
  | outOfFuel

/-- The function `execute_craze_file`, given what `read_file` returned (`none` for `NULL`,
a file that cannot be opened).  `junk` is the indeterminate token of the uninitialised
parser and `stray_stmt_count` the stray `int` the analyzer reads in expression
statements. -/
def execute_craze_file {F : Type} (fl : DoubleOps F) (stray_stmt_count : ASTNode → Int)
    (junk : Token) (fuel : Nat) (source : Option String) : FileOutcome F :=
  match source with
  | none => .done ⟨1, none, none, none⟩
  | some text =>
    match parse_program fuel (parser_init (source_tokens text) junk) with
    | .done program parser =>
      if main_runs_analysis (some program) parser then
        match semantic_analyze stray_stmt_count fuel (some program) semantic_init with
        | .done semantic_ok analyzer =>
          if semantic_ok ≠ 0 ∧ analyzer.error_count = 0 then
            match interpreter_execute fl fuel (some program) interpreter_init with
            | .done result interpreter =>
              .done ⟨if result ≠ 0 then 0 else 1, some parser, some analyzer,
                some interpreter⟩
            | .undefined => .undefined
            | .outOfFuel => .outOfFuel
          else .done ⟨1, some parser, some analyzer, none⟩
        | .undefined => .undefined
        | .outOfFuel => .outOfFuel
      else .done ⟨1, some parser, none, none⟩
    | .nullDeref => .undefined
    | .outOfFuel => .outOfFuel

/-- The tokens of the source text `let a: int = 1;`. -/
def tokens_let_a : List Token :=
  [⟨TOKEN_LET, "let"⟩, ⟨TOKEN_IDENTIFIER, "a"⟩, ⟨TOKEN_COLON, ":"⟩, ⟨TOKEN_INT, "int"⟩,
   ⟨TOKEN_EQUAL, "="⟩, ⟨TOKEN_INT_LITERAL, "1"⟩, ⟨TOKEN_SEMICOLON, ";"⟩]

/-- The program `let a: int = 1;` as the parser builds it. -/
def program_let_a : ASTNode :=
  block [var_decl "a" (type_node TYPE_INT) (some (literal TOKEN_INT_LITERAL (.int_value 1)))]

/-! ## Vocabulary for statements about the nodes of a tree -/

mutual

/-- The nodes of a tree: the node itself and the nodes of its children. -/
def ASTNode.nodes : ASTNode → List ASTNode
  | var_decl name type initializer =>
    var_decl name type initializer :: (type.nodes ++ nodes_of_optional initializer)
  | func_decl name params param_count return_type body =>
    func_decl name params param_count return_type body
      :: (nodes_of_array params ++ return_type.nodes ++ body.nodes)
  | param name type => param name type :: type.nodes
  | if_stmt condition then_branch else_branch =>
    if_stmt condition then_branch else_branch
      :: (condition.nodes ++ then_branch.nodes ++ nodes_of_optional else_branch)
  | while_stmt condition body => while_stmt condition body :: (condition.nodes ++ body.nodes)
  | return_stmt value => return_stmt value :: nodes_of_optional value
  | expr_stmt expression => expr_stmt expression :: expression.nodes
  | block statements => block statements :: nodes_of_array statements
  | binary_expr operator left right =>
    binary_expr operator left right :: (nodes_of_optional left ++ right.nodes)
  | unary_expr operator operand => unary_expr operator operand :: operand.nodes
  | assign_expr variable_name value => assign_expr variable_name value :: value.nodes
  | call_expr function_name arguments arg_count =>
    call_expr function_name arguments arg_count :: nodes_of_array arguments
  | var_expr name => [var_expr name]
  | literal literal_type value => [literal literal_type value]
  | type_node type => [type_node type]

/-- The nodes of the trees of an array of children. -/
def nodes_of_array : List ASTNode → List ASTNode
  | [] => []
  | node :: rest => node.nodes ++ nodes_of_array rest

/-- The nodes of a child that may be `NULL`. -/
def nodes_of_optional : Option ASTNode → List ASTNode
  | none => []
  | some node => node.nodes

end

/-- Whether `node->node_type` is `NODE_LITERAL` or `NODE_TYPE`, the two kinds of node
whose constructor writes `data_type`. -/
def ASTNode.is_literal_or_type : ASTNode → Bool
  | literal _ _ => true
  | type_node _ => true
  | _ => false

/-- A literal node holds one of the five literal token types and a type node one of the
five types of the language: the nodes `make_literal_node` and `parse_type` make. -/
def ASTNode.well_made : ASTNode → Bool
  | literal literal_type _ =>
    literal_type == TOKEN_INT_LITERAL || literal_type == TOKEN_FLOAT_LITERAL
      || literal_type == TOKEN_STRING_LITERAL || literal_type == TOKEN_TRUE
      || literal_type == TOKEN_FALSE
  | type_node type => type != TYPE_INVALID
  | _ => true

/-- Every node of the tree is well made. -/
def ASTNode.well_made_tree (node : ASTNode) : Bool :=
  node.nodes.all ASTNode.well_made

/-- The tokens of the source text `1;`. -/
def tokens_one_semicolon : List Token :=
  [⟨TOKEN_INT_LITERAL, "1"⟩, ⟨TOKEN_SEMICOLON, ";"⟩]

/-- Every node of a child that may be `NULL` is well made. -/
def well_made_optional (node : Option ASTNode) : Bool :=
  (nodes_of_optional node).all ASTNode.well_made

/-- Every node of the trees of an array is well made. -/
def well_made_array (nodes : List ASTNode) : Bool :=
  (nodes_of_array nodes).all ASTNode.well_made

/-- A parsing routine returns only trees whose nodes are well made. -/
@[reducible] def ParsesWellMade (f : Parser → Outcome (Option ASTNode)) : Prop :=
  ∀ p r q, f p = .done r q → well_made_optional r = true

/-- A loop that extends the tree `acc` returns a tree whose nodes are well made when those
of `acc` are. -/
@[reducible] def LoopsWellMade (f : Option ASTNode → Parser → Outcome (Option ASTNode)) :
    Prop :=
  ∀ acc p r q, f acc p = .done r q → well_made_optional acc = true →
    well_made_optional r = true

/-- A loop that gathers statements returns trees whose nodes are well made when those
gathered before are. -/
@[reducible] def CollectsWellMade (f : List ASTNode → Parser → Outcome (List ASTNode)) :
    Prop :=
  ∀ acc p r q, f acc p = .done r q → well_made_array acc = true → well_made_array r = true

/-- A loop that gathers arguments or parameters returns trees whose nodes are well made
when those gathered before are. -/
@[reducible] def GathersWellMade
    (f : List ASTNode → Parser → Outcome (List ASTNode × Nat)) : Prop :=
  ∀ acc p array count q, f acc p = .done (array, count) q → well_made_array acc = true →
    well_made_array array = true

/-- All the routines of the recursive descent return only trees whose nodes are well made,
when given `fuel` units of fuel. -/
structure WellMadeAt (fuel : Nat) : Prop where
  variable_declaration : ParsesWellMade (parse_variable_declaration fuel)
  function_declaration : ParsesWellMade (parse_function_declaration fuel)
  block_loop : CollectsWellMade (parse_block_loop fuel)
  block : ParsesWellMade (parse_block fuel)
  if_statement : ParsesWellMade (parse_if_statement fuel)
  while_statement : ParsesWellMade (parse_while_statement fuel)
  return_statement : ParsesWellMade (parse_return_statement fuel)
  expression_statement : ParsesWellMade (parse_expression_statement fuel)
  statement : ParsesWellMade (parse_statement fuel)
  declaration : ParsesWellMade (parse_declaration fuel)
  argument_list_loop : GathersWellMade (parse_argument_list_loop fuel)
  primary : ParsesWellMade (parse_primary fuel)
  unary : ParsesWellMade (parse_unary fuel)
  factor_loop : LoopsWellMade (parse_factor_loop fuel)
  factor : ParsesWellMade (parse_factor fuel)
  term_loop : LoopsWellMade (parse_term_loop fuel)
  term : ParsesWellMade (parse_term fuel)
  comparison_loop : LoopsWellMade (parse_comparison_loop fuel)
  comparison : ParsesWellMade (parse_comparison fuel)
  equality_loop : LoopsWellMade (parse_equality_loop fuel)
  equality : ParsesWellMade (parse_equality fuel)
  assignment : ParsesWellMade (parse_assignment fuel)
  expression : ParsesWellMade (parse_expression fuel)

/-! ## Vocabulary for statements about the state a routine of the interpreter leaves -/

/-- What every routine of the interpreter keeps from the state `st` it starts in to the
state `st1` it returns in: the call stack is the same, a runtime error that had been raised
is still recorded, and the flags `should_break` and `should_continue` are still clear if
they were. -/
def Interpreter.Steps {F : Type} (st st1 : Interpreter F) : Prop :=
  st1.call_stack = st.call_stack
  ∧ (st.has_runtime_error = true → st1.has_runtime_error = true)
  ∧ (st.should_break = false → st1.should_break = false)
  ∧ (st.should_continue = false → st1.should_continue = false)

/-- What every routine that evaluates an expression keeps in addition: the flag
`should_return` and the slot `return_value`. -/
def Interpreter.Evaluates {F : Type} (st st1 : Interpreter F) : Prop :=
  st.Steps st1 ∧ st1.should_return = st.should_return ∧ st1.return_value = st.return_value

/-- All the routines of the interpreter keep what `Steps` lists, and those that evaluate an
expression what `Evaluates` lists, when given `fuel` units of fuel. -/
structure KeepsAt {F : Type} (fl : DoubleOps F) (fuel : Nat) : Prop where
  statement : ∀ node st r st1, execute_statement fl fuel node st = .done r st1 → st.Steps st1
  variable_decl : ∀ name init dt st r st1,
    execute_variable_decl fl fuel name init dt st = .done r st1 → st.Steps st1
  block : ∀ node st r st1, execute_block fl fuel node st = .done r st1 → st.Steps st1
  block_loop : ∀ stmts res st r st1,
    execute_block_loop fl fuel stmts res st = .done r st1 → st.Steps st1
  if_statement : ∀ c t e st r st1,
    execute_if_statement fl fuel c t e st = .done r st1 → st.Steps st1
  while_loop : ∀ c b res st r st1,
    execute_while_loop fl fuel c b res st = .done r st1 → st.Steps st1
  return_statement : ∀ value st r st1,
    execute_return_statement fl fuel value st = .done r st1 → st.Steps st1
  expression : ∀ node st r st1,
    execute_expression fl fuel node st = .done r st1 → st.Evaluates st1
  binary_expr : ∀ op l rn st r st1,
    execute_binary_expr fl fuel op l rn st = .done r st1 → st.Evaluates st1
  unary_expr : ∀ op operand st r st1,
    execute_unary_expr fl fuel op operand st = .done r st1 → st.Evaluates st1
  assignment : ∀ name value st r st1,
    execute_assignment fl fuel name value st = .done r st1 → st.Evaluates st1
  builtin_call : ∀ name function arguments remaining args st r st1,
    execute_builtin_call fl fuel name function arguments remaining args st = .done r st1 →
      st.Evaluates st1
  user_call : ∀ func_name body arguments params remaining function_env st r st1,
    execute_user_call fl fuel func_name body arguments params remaining function_env st
      = .done r st1 → st.Evaluates st1
  call_expr : ∀ name arguments arg_count st r st1,
    execute_call_expr fl fuel name arguments arg_count st = .done r st1 → st.Evaluates st1
/-- The declaration `fn f(a: int): int { return a; }` as the parser builds it. -/
def decl_return_a : ASTNode :=
  func_decl "f" [param "a" (type_node TYPE_INT)] 1 (type_node TYPE_INT)
    (block [return_stmt (some (var_expr "a"))])

/-- The interpreter state after `interpreter_init` and the declaration
`fn f(a: int): int { return a; }`. -/
def state_return_a {F : Type} : Interpreter F :=
  { (interpreter_init : Interpreter F) with
    envs := [environment_define_func (register_builtin_functions environment_create)
      "f" decl_return_a] }

/-! ## The fail-fast run -/

/-- Modelled from the spec: what a routine yields in a fail-fast run: what the routine of
the interpreter yields, or the report that a routine was entered after a runtime error
had been raised. -/
inductive FailFast (F : Type) (α : Type)
  | done (result : α) (interpreter : Interpreter F)
  | undefined
  | outOfFuel
  | enteredAfterError

/-- Modelled from the spec: what a routine of the interpreter yields, as the yield of a
fail-fast run in which no routine was entered after a runtime error. -/
def FailFast.ran {F : Type} {α : Type} : Exec F α → FailFast F α
  | .done result interpreter => .done result interpreter
  | .undefined => .undefined
  | .outOfFuel => .outOfFuel

/-- Modelled from the spec: the yield of the routines that return a `Value *`. -/
abbrev FailFastValue (F : Type) := FailFast F (Option (Value F))

/-- The states in which a run starts: no runtime error raised, no `break` and no
`continue` pending. -/
def Interpreter.Calm {F : Type} (st : Interpreter F) : Prop :=
  st.has_runtime_error = false ∧ st.should_break = false ∧ st.should_continue = false

section FailFastRun

variable {F : Type}

mutual

/-- Modelled from the spec: the routine `execute_statement` of a fail-fast run: it reports
`enteredAfterError` when it, or a routine it calls, is entered after a runtime error has
been raised. -/
def fail_fast_statement (fl : DoubleOps F) :
    Nat → Option ASTNode → Interpreter F → FailFastValue F
  | 0, _, _ => .outOfFuel
  | _ + 1, none, interpreter =>
    if interpreter.has_runtime_error then .enteredAfterError
    else .done (some .void) interpreter
  | fuel + 1, some node, interpreter =>
    if interpreter.has_runtime_error then .enteredAfterError else
    match node with
    | var_decl name _ init =>
      fail_fast_variable_decl fl fuel name init node.data_type interpreter
    | func_decl name _ _ _ _ => .ran (execute_function_decl interpreter name node)
    | block _ => fail_fast_block fl fuel node interpreter
    | if_stmt condition then_branch else_branch =>
      fail_fast_if_statement fl fuel condition then_branch else_branch interpreter
    | while_stmt condition body =>
      fail_fast_while_loop fl fuel condition body .void interpreter
    | return_stmt value => fail_fast_return_statement fl fuel value interpreter
    | expr_stmt expression => fail_fast_expression fl fuel (some expression) interpreter
    | _ => .done none (runtime_error interpreter)

/-- Modelled from the spec: the routine `execute_variable_decl` of a fail-fast run: it reports
`enteredAfterError` when it, or a routine it calls, is entered after a runtime error has
been raised. -/
def fail_fast_variable_decl (fl : DoubleOps F) :
    Nat → String → Option ASTNode → DataType → Interpreter F → FailFastValue F
  | 0, _, _, _, _ => .outOfFuel
  | fuel + 1, var_name, init, data_type, interpreter =>
    if interpreter.has_runtime_error then .enteredAfterError else
    match interpreter.envs with
    | [] => .undefined
    | current_env :: _ =>
      match hashtable_get current_env.variables_ var_name with
      | some _ => .done none (runtime_error interpreter)
      | none =>
        match init with
        | some init_node =>
          match fail_fast_expression fl fuel (some init_node) interpreter with
          | .done init_value interpreter =>
            if interpreter.has_runtime_error then .done none interpreter
            else
              match interpreter.envs with
              | [] => .undefined
              | current_env :: parent =>
                .done (some .void)
                  { interpreter with
                    envs := environment_define_var current_env var_name init_value :: parent }
          | .undefined => .undefined
          | .outOfFuel => .outOfFuel
          | .enteredAfterError => .enteredAfterError
        | none =>
          .done (some .void)
            { interpreter with
              envs := environment_define_var current_env var_name
                (some (default_value fl data_type)) :: interpreter.envs.tail }

/-- Modelled from the spec: the routine `execute_block` of a fail-fast run: it reports
`enteredAfterError` when it, or a routine it calls, is entered after a runtime error has
been raised. -/
def fail_fast_block (fl : DoubleOps F) : Nat → ASTNode → Interpreter F → FailFastValue F
  | 0, _, _ => .outOfFuel
  | fuel + 1, node, interpreter =>
    if interpreter.has_runtime_error then .enteredAfterError else
    match node with
    | block statements =>
      fail_fast_block_loop fl fuel statements .void
        { interpreter with envs := environment_create :: interpreter.envs }
    | _ => .undefined

/-- Modelled from the spec: the routine `execute_block_loop` of a fail-fast run: it reports
`enteredAfterError` when it, or a routine it calls, is entered after a runtime error has
been raised. -/
def fail_fast_block_loop (fl : DoubleOps F) :
    Nat → List ASTNode → Value F → Interpreter F → FailFastValue F
  | 0, _, _, _ => .outOfFuel
  | _ + 1, [], result, interpreter =>
    if interpreter.has_runtime_error then .enteredAfterError else
    .done (some result) { interpreter with envs := interpreter.envs.tail }
  | fuel + 1, stmt :: rest, result, interpreter =>
    if interpreter.has_runtime_error then .enteredAfterError else
    match fail_fast_statement fl fuel (some stmt) interpreter with
    | .done stmt_result interpreter =>
      if interpreter.has_runtime_error then
        .done none { interpreter with envs := interpreter.envs.tail }
      else
        let result := stmt_result.getD result
        if interpreter.should_return || interpreter.should_break ||
            interpreter.should_continue then
          .done (some result) { interpreter with envs := interpreter.envs.tail }
        else fail_fast_block_loop fl fuel rest result interpreter
    | .undefined => .undefined
    | .outOfFuel => .outOfFuel
    | .enteredAfterError => .enteredAfterError

/-- Modelled from the spec: the routine `execute_if_statement` of a fail-fast run: it reports
`enteredAfterError` when it, or a routine it calls, is entered after a runtime error has
been raised. -/
def fail_fast_if_statement (fl : DoubleOps F) :
    Nat → ASTNode → ASTNode → Option ASTNode → Interpreter F → FailFastValue F
  | 0, _, _, _, _ => .outOfFuel
  | fuel + 1, condition, then_branch, else_branch, interpreter =>
    if interpreter.has_runtime_error then .enteredAfterError else
    match fail_fast_expression fl fuel (some condition) interpreter with
    | .done cond interpreter =>
      if interpreter.has_runtime_error then .done none interpreter
      else
        match cond with
        | none => .undefined
        | some (.bool_val b) =>
          if b then
            match fail_fast_statement fl fuel (some then_branch) interpreter with
            | .done then_result interpreter => .done (some (then_result.getD .void)) interpreter
            | .undefined => .undefined
            | .outOfFuel => .outOfFuel
            | .enteredAfterError => .enteredAfterError
          else
            match else_branch with
            | some else_node =>
              match fail_fast_statement fl fuel (some else_node) interpreter with
              | .done else_result interpreter =>
                .done (some (else_result.getD .void)) interpreter
              | .undefined => .undefined
              | .outOfFuel => .outOfFuel
              | .enteredAfterError => .enteredAfterError
            | none => .done (some .void) interpreter
        | some _ => .done none (runtime_error interpreter)
    | .undefined => .undefined
    | .outOfFuel => .outOfFuel
    | .enteredAfterError => .enteredAfterError

/-- Modelled from the spec: the routine `execute_while_loop` of a fail-fast run: it reports
`enteredAfterError` when it, or a routine it calls, is entered after a runtime error has
been raised. -/
def fail_fast_while_loop (fl : DoubleOps F) :
    Nat → ASTNode → ASTNode → Value F → Interpreter F → FailFastValue F
  | 0, _, _, _, _ => .outOfFuel
  | fuel + 1, condition, body, result, interpreter =>
    if interpreter.has_runtime_error then .enteredAfterError else
    match fail_fast_expression fl fuel (some condition) interpreter with
    | .done cond interpreter =>
      if interpreter.has_runtime_error then .done none interpreter
      else
        match cond with
        | none => .undefined
        | some (.bool_val b) =>
          if !b then .done (some result) interpreter
          else
            match fail_fast_statement fl fuel (some body) interpreter with
            | .done body_result interpreter =>
              if interpreter.should_break then
                .done (some result) { interpreter with should_break := false }
              else if interpreter.should_continue then
                fail_fast_while_loop fl fuel condition body result
                  { interpreter with should_continue := false }
              else if interpreter.should_return then
                .done (some (body_result.getD result)) interpreter
              else if interpreter.has_runtime_error then
                .done (some (body_result.getD result)) interpreter
              else
                fail_fast_while_loop fl fuel condition body (body_result.getD result) interpreter
            | .undefined => .undefined
            | .outOfFuel => .outOfFuel
            | .enteredAfterError => .enteredAfterError
        | some _ => .done none (runtime_error interpreter)
    | .undefined => .undefined
    | .outOfFuel => .outOfFuel
    | .enteredAfterError => .enteredAfterError

/-- Modelled from the spec: the routine `execute_return_statement` of a fail-fast run: it reports
`enteredAfterError` when it, or a routine it calls, is entered after a runtime error has
been raised. -/
def fail_fast_return_statement (fl : DoubleOps F) :
    Nat → Option ASTNode → Interpreter F → FailFastValue F
  | 0, _, _ => .outOfFuel
  | fuel + 1, value, interpreter =>
    if interpreter.has_runtime_error then .enteredAfterError else
    match value with
    | some value_node =>
      match fail_fast_expression fl fuel (some value_node) interpreter with
      | .done return_value interpreter =>
        if interpreter.has_runtime_error then .done none interpreter
        else
          .done return_value
            { interpreter with should_return := true, return_value := return_value }
      | .undefined => .undefined
      | .outOfFuel => .outOfFuel
      | .enteredAfterError => .enteredAfterError
    | none =>
      .done (some .void)
        { interpreter with should_return := true, return_value := some .void }

/-- Modelled from the spec: the routine `execute_expression` of a fail-fast run: it reports
`enteredAfterError` when it, or a routine it calls, is entered after a runtime error has
been raised. -/
def fail_fast_expression (fl : DoubleOps F) :
    Nat → Option ASTNode → Interpreter F → FailFastValue F
  | 0, _, _ => .outOfFuel
  | _ + 1, none, interpreter =>
    if interpreter.has_runtime_error then .enteredAfterError
    else .done (some .void) interpreter
  | fuel + 1, some node, interpreter =>
    if interpreter.has_runtime_error then .enteredAfterError else
    match node with
    | binary_expr operator left right =>
      fail_fast_binary_expr fl fuel operator left right interpreter
    | unary_expr operator operand => fail_fast_unary_expr fl fuel operator operand interpreter
    | assign_expr variable_name value =>
      fail_fast_assignment fl fuel variable_name value interpreter
    | call_expr function_name arguments arg_count =>
      fail_fast_call_expr fl fuel function_name arguments arg_count interpreter
    | var_expr name => .ran (execute_variable_expr interpreter name)
    | literal literal_type value => .ran (execute_literal_expr fl interpreter literal_type value)
    | _ => .done none (runtime_error interpreter)

/-- Modelled from the spec: the routine `execute_binary_expr` of a fail-fast run: it reports
`enteredAfterError` when it, or a routine it calls, is entered after a runtime error has
been raised. -/
def fail_fast_binary_expr (fl : DoubleOps F) :
    Nat → TokenType → Option ASTNode → ASTNode → Interpreter F → FailFastValue F
  | 0, _, _, _, _ => .outOfFuel
  | fuel + 1, op, left_node, right_node, interpreter =>
    if interpreter.has_runtime_error then .enteredAfterError else
    match fail_fast_expression fl fuel left_node interpreter with
    | .done left interpreter =>
      if interpreter.has_runtime_error then .done none interpreter
      else
        match fail_fast_expression fl fuel (some right_node) interpreter with
        | .done right interpreter =>
          if interpreter.has_runtime_error then .done none interpreter
          else
            match left, right with
            | some l, some r =>
              .done (binary_switch fl interpreter op l r).1 (binary_switch fl interpreter op l r).2
            | _, _ =>
              if binaryLevel op = 0 then .done none (runtime_error interpreter)
              else .undefined
        | .undefined => .undefined
        | .outOfFuel => .outOfFuel
        | .enteredAfterError => .enteredAfterError
    | .undefined => .undefined
    | .outOfFuel => .outOfFuel
    | .enteredAfterError => .enteredAfterError

/-- Modelled from the spec: the routine `execute_unary_expr` of a fail-fast run: it reports
`enteredAfterError` when it, or a routine it calls, is entered after a runtime error has
been raised. -/
def fail_fast_unary_expr (fl : DoubleOps F) :
    Nat → TokenType → ASTNode → Interpreter F → FailFastValue F
  | 0, _, _, _ => .outOfFuel
  | fuel + 1, op, operand_node, interpreter =>
    if interpreter.has_runtime_error then .enteredAfterError else
    match fail_fast_expression fl fuel (some operand_node) interpreter with
    | .done operand interpreter =>
      if interpreter.has_runtime_error then .done none interpreter
      else
        match operand with
        | some v => .done (unary_switch fl interpreter op v).1 (unary_switch fl interpreter op v).2
        | none =>
          if op = TOKEN_MINUS then .undefined else .done none (runtime_error interpreter)
    | .undefined => .undefined
    | .outOfFuel => .outOfFuel
    | .enteredAfterError => .enteredAfterError

/-- Modelled from the spec: the routine `execute_assignment` of a fail-fast run: it reports
`enteredAfterError` when it, or a routine it calls, is entered after a runtime error has
been raised. -/
def fail_fast_assignment (fl : DoubleOps F) :
    Nat → String → ASTNode → Interpreter F → FailFastValue F
  | 0, _, _, _ => .outOfFuel
  | fuel + 1, var_name, value_node, interpreter =>
    if interpreter.has_runtime_error then .enteredAfterError else
    match fail_fast_expression fl fuel (some value_node) interpreter with
    | .done value interpreter =>
      if interpreter.has_runtime_error then .done none interpreter
      else
        if (environment_assign_var interpreter.envs var_name value).1 then
          .done value
            { interpreter with
              envs := (environment_assign_var interpreter.envs var_name value).2 }
        else .done none (runtime_error interpreter)
    | .undefined => .undefined
    | .outOfFuel => .outOfFuel
    | .enteredAfterError => .enteredAfterError

/-- Modelled from the spec: the routine `execute_builtin_call` of a fail-fast run: it reports
`enteredAfterError` when it, or a routine it calls, is entered after a runtime error has
been raised. -/
def fail_fast_builtin_call (fl : DoubleOps F) :
    Nat → String → BuiltinFn → List ASTNode → Nat → List (Option (Value F)) →
      Interpreter F → FailFastValue F
  | 0, _, _, _, _, _, _ => .outOfFuel
  | _ + 1, func_name, function, _, 0, args, interpreter =>
    if interpreter.has_runtime_error then .enteredAfterError
    else if builtin_referenced interpreter func_name function args then
      .ran (call_builtin fl function interpreter args)
    else .undefined
  | _ + 1, _, _, [], _ + 1, _, interpreter =>
    if interpreter.has_runtime_error then .enteredAfterError
    else .undefined
  | fuel + 1, func_name, function, argument :: arguments, remaining + 1, args, interpreter =>
    if interpreter.has_runtime_error then .enteredAfterError else
    match fail_fast_expression fl fuel (some argument) interpreter with
    | .done arg interpreter =>
      if interpreter.has_runtime_error then .done none interpreter
      else
        fail_fast_builtin_call fl fuel func_name function arguments remaining (args ++ [arg])
          interpreter
    | .undefined => .undefined
    | .outOfFuel => .outOfFuel
    | .enteredAfterError => .enteredAfterError

/-- Modelled from the spec: the routine `execute_user_call` of a fail-fast run: it reports
`enteredAfterError` when it, or a routine it calls, is entered after a runtime error has
been raised. -/
def fail_fast_user_call (fl : DoubleOps F) :
    Nat → String → ASTNode → List ASTNode → List ASTNode → Nat → Environment F →
      Interpreter F → FailFastValue F
  | 0, _, _, _, _, _, _, _ => .outOfFuel
  | fuel + 1, func_name, body, _, _, 0, function_env, interpreter =>
    if interpreter.has_runtime_error then .enteredAfterError else
    let interpreter := push_call_frame interpreter func_name
    let old_should_return := interpreter.should_return
    let old_return_value := interpreter.return_value
    match fail_fast_block fl fuel body
        { interpreter with envs := function_env :: interpreter.envs,
                           should_return := false, return_value := none } with
    | .done result interpreter =>
      let result :=
        if interpreter.should_return && interpreter.return_value.isSome then
          interpreter.return_value
        else result
      .done (some (result.getD .void))
        (pop_call_frame
          { interpreter with envs := interpreter.envs.tail,
                             should_return := old_should_return,
                             return_value := old_return_value })
    | .undefined => .undefined
    | .outOfFuel => .outOfFuel
    | .enteredAfterError => .enteredAfterError
  | fuel + 1, func_name, body, argument :: arguments, param_node :: params, remaining + 1,
      function_env, interpreter =>
    if interpreter.has_runtime_error then .enteredAfterError else
    match fail_fast_expression fl fuel (some argument) interpreter with
    | .done arg_value interpreter =>
      if interpreter.has_runtime_error then .done none interpreter
      else
        match param_node with
        | param param_name _ =>
          fail_fast_user_call fl fuel func_name body arguments params remaining
            (environment_define_var function_env param_name arg_value) interpreter
        | _ => .undefined
    | .undefined => .undefined
    | .outOfFuel => .outOfFuel
    | .enteredAfterError => .enteredAfterError
  | _ + 1, _, _, _, _, _ + 1, _, interpreter =>
    if interpreter.has_runtime_error then .enteredAfterError
    else .undefined

/-- Modelled from the spec: the routine `execute_call_expr` of a fail-fast run: it reports
`enteredAfterError` when it, or a routine it calls, is entered after a runtime error has
been raised. -/
def fail_fast_call_expr (fl : DoubleOps F) :
    Nat → String → List ASTNode → Nat → Interpreter F → FailFastValue F
  | 0, _, _, _, _ => .outOfFuel
  | fuel + 1, func_name, arguments, arg_count, interpreter =>
    if interpreter.has_runtime_error then .enteredAfterError else
    match environment_get_var interpreter.envs func_name with
    | some (.builtin_fn function _) =>
      fail_fast_builtin_call fl fuel func_name function arguments arg_count [] interpreter
    | _ =>
      match environment_get_func interpreter.envs func_name with
      | none => .done none (runtime_error interpreter)
      | some function_node =>
        match function_node with
        | func_decl _ params param_count _ body =>
          if arg_count ≠ param_count then .done none (runtime_error interpreter)
          else
            fail_fast_user_call fl fuel func_name body arguments params arg_count
              environment_create interpreter
        | _ => .undefined

end

end FailFastRun

/-- At the fuel given, each routine of a fail-fast run started in a calm state yields what
the routine of the interpreter yields: no routine is entered after a runtime error. -/
structure FailFastAt {F : Type} (fl : DoubleOps F) (fuel : Nat) : Prop where
  statement : ∀ node st, st.Calm →
    fail_fast_statement fl fuel node st = .ran (execute_statement fl fuel node st)
  variable_decl : ∀ name init dt st, st.Calm →
    fail_fast_variable_decl fl fuel name init dt st
      = .ran (execute_variable_decl fl fuel name init dt st)
  block : ∀ node st, st.Calm →
    fail_fast_block fl fuel node st = .ran (execute_block fl fuel node st)
  block_loop : ∀ stmts res st, st.Calm →
    fail_fast_block_loop fl fuel stmts res st = .ran (execute_block_loop fl fuel stmts res st)
  if_statement : ∀ c t e st, st.Calm →
    fail_fast_if_statement fl fuel c t e st = .ran (execute_if_statement fl fuel c t e st)
  while_loop : ∀ c b res st, st.Calm →
    fail_fast_while_loop fl fuel c b res st = .ran (execute_while_loop fl fuel c b res st)
  return_statement : ∀ value st, st.Calm →
    fail_fast_return_statement fl fuel value st
      = .ran (execute_return_statement fl fuel value st)
  expression : ∀ node st, st.Calm →
    fail_fast_expression fl fuel node st = .ran (execute_expression fl fuel node st)
  binary_expr : ∀ op l rn st, st.Calm →
    fail_fast_binary_expr fl fuel op l rn st = .ran (execute_binary_expr fl fuel op l rn st)
  unary_expr : ∀ op operand st, st.Calm →
    fail_fast_unary_expr fl fuel op operand st
      = .ran (execute_unary_expr fl fuel op operand st)
  assignment : ∀ name value st, st.Calm →
    fail_fast_assignment fl fuel name value st
      = .ran (execute_assignment fl fuel name value st)
  builtin_call : ∀ name function arguments remaining args st, st.Calm →
    fail_fast_builtin_call fl fuel name function arguments remaining args st
      = .ran (execute_builtin_call fl fuel name function arguments remaining args st)
  user_call : ∀ func_name body arguments params remaining function_env st, st.Calm →
    fail_fast_user_call fl fuel func_name body arguments params remaining function_env st
      = .ran (execute_user_call fl fuel func_name body arguments params remaining
          function_env st)
  call_expr : ∀ name arguments arg_count st, st.Calm →
    fail_fast_call_expr fl fuel name arguments arg_count st
      = .ran (execute_call_expr fl fuel name arguments arg_count st)

/-- The program `print(1); print("a" < "b"); print(2);` as the parser builds it. -/
def program_print_after_error : ASTNode :=
  block [expr_stmt (call_expr "print" [literal TOKEN_INT_LITERAL (.int_value 1)] 1),
    expr_stmt (call_expr "print"
      [binary_expr TOKEN_LESS (some (literal TOKEN_STRING_LITERAL (.string_value "a")))
        (literal TOKEN_STRING_LITERAL (.string_value "b"))] 1),
    expr_stmt (call_expr "print" [literal TOKEN_INT_LITERAL (.int_value 2)] 1)]

/-- The tokens of the source text `print(1); print("a" < "b"); print(2);`. -/
def tokens_print_after_error : List Token :=
  [⟨TOKEN_IDENTIFIER, "print"⟩, ⟨TOKEN_LEFT_PAREN, "("⟩, ⟨TOKEN_INT_LITERAL, "1"⟩,
   ⟨TOKEN_RIGHT_PAREN, ")"⟩, ⟨TOKEN_SEMICOLON, ";"⟩, ⟨TOKEN_IDENTIFIER, "print"⟩,
   ⟨TOKEN_LEFT_PAREN, "("⟩, ⟨TOKEN_STRING_LITERAL, "\"a\""⟩, ⟨TOKEN_LESS, "<"⟩,
   ⟨TOKEN_STRING_LITERAL, "\"b\""⟩, ⟨TOKEN_RIGHT_PAREN, ")"⟩, ⟨TOKEN_SEMICOLON, ";"⟩,
   ⟨TOKEN_IDENTIFIER, "print"⟩, ⟨TOKEN_LEFT_PAREN, "("⟩, ⟨TOKEN_INT_LITERAL, "2"⟩,
   ⟨TOKEN_RIGHT_PAREN, ")"⟩, ⟨TOKEN_SEMICOLON, ";"⟩]

/-- The program `let x: int = 10; let x: int = 20;` of `test_error_cases`, as the parser
builds it. -/
def program_x_redeclared : ASTNode :=
  block [var_decl "x" (type_node TYPE_INT) (some (literal TOKEN_INT_LITERAL (.int_value 10))),
    var_decl "x" (type_node TYPE_INT) (some (literal TOKEN_INT_LITERAL (.int_value 20)))]

/-- The tokens of the source text of `program_x_redeclared`. -/
def tokens_x_redeclared : List Token :=
  [⟨TOKEN_LET, "let"⟩, ⟨TOKEN_IDENTIFIER, "x"⟩, ⟨TOKEN_COLON, ":"⟩, ⟨TOKEN_INT, "int"⟩,
   ⟨TOKEN_EQUAL, "="⟩, ⟨TOKEN_INT_LITERAL, "10"⟩, ⟨TOKEN_SEMICOLON, ";"⟩, ⟨TOKEN_LET, "let"⟩,
   ⟨TOKEN_IDENTIFIER, "x"⟩, ⟨TOKEN_COLON, ":"⟩, ⟨TOKEN_INT, "int"⟩, ⟨TOKEN_EQUAL, "="⟩,
   ⟨TOKEN_INT_LITERAL, "20"⟩, ⟨TOKEN_SEMICOLON, ";"⟩]

/-- The program
`let x: int = 1; { let x: string = "a"; let y: string = x; } let z: int = x;`
as the parser builds it: the block declares `x` again, as a string. -/
def program_x_shadowed : ASTNode :=
  block [var_decl "x" (type_node TYPE_INT) (some (literal TOKEN_INT_LITERAL (.int_value 1))),
    block [var_decl "x" (type_node TYPE_STRING)
        (some (literal TOKEN_STRING_LITERAL (.string_value "a"))),
      var_decl "y" (type_node TYPE_STRING) (some (var_expr "x"))],
    var_decl "z" (type_node TYPE_INT) (some (var_expr "x"))]

/-- The tokens of the source text of `program_x_shadowed`. -/
def tokens_x_shadowed : List Token :=
  [⟨TOKEN_LET, "let"⟩, ⟨TOKEN_IDENTIFIER, "x"⟩, ⟨TOKEN_COLON, ":"⟩, ⟨TOKEN_INT, "int"⟩,
   ⟨TOKEN_EQUAL, "="⟩, ⟨TOKEN_INT_LITERAL, "1"⟩, ⟨TOKEN_SEMICOLON, ";"⟩,
   ⟨TOKEN_LEFT_BRACE, "\x7b"⟩, ⟨TOKEN_LET, "let"⟩, ⟨TOKEN_IDENTIFIER, "x"⟩, ⟨TOKEN_COLON, ":"⟩,
   ⟨TOKEN_STRING, "string"⟩, ⟨TOKEN_EQUAL, "="⟩, ⟨TOKEN_STRING_LITERAL, "\"a\""⟩,
   ⟨TOKEN_SEMICOLON, ";"⟩, ⟨TOKEN_LET, "let"⟩, ⟨TOKEN_IDENTIFIER, "y"⟩, ⟨TOKEN_COLON, ":"⟩,
   ⟨TOKEN_STRING, "string"⟩, ⟨TOKEN_EQUAL, "="⟩, ⟨TOKEN_IDENTIFIER, "x"⟩,
   ⟨TOKEN_SEMICOLON, ";"⟩, ⟨TOKEN_RIGHT_BRACE, "\x7d"⟩, ⟨TOKEN_LET, "let"⟩,
   ⟨TOKEN_IDENTIFIER, "z"⟩, ⟨TOKEN_COLON, ":"⟩, ⟨TOKEN_INT, "int"⟩, ⟨TOKEN_EQUAL, "="⟩,
   ⟨TOKEN_IDENTIFIER, "x"⟩, ⟨TOKEN_SEMICOLON, ";"⟩]

/-- The declaration `fn f(): void { }` as the parser builds it. -/
def decl_f_void : ASTNode :=
  func_decl "f" [] 0 (type_node TYPE_VOID) (block [])

/-- The declaration `fn f(a: int): int { return a; }` as the parser builds it. -/
def decl_f_int : ASTNode :=
  func_decl "f" [param "a" (type_node TYPE_INT)] 1 (type_node TYPE_INT)
    (block [return_stmt (some (var_expr "a"))])

/-- The call `f(2)` as the parser builds it. -/
def call_f_two : ASTNode :=
  call_expr "f" [literal TOKEN_INT_LITERAL (.int_value 2)] 1

/-- The fields of a function symbol that stay readable after `visit_function_decl` has
returned: all but `type`, which points to the return type that the function has released
at its end. -/
def SymbolEntry.declares_function (entry : SymbolEntry) (name : String)
    (parameters : List ParameterEntry) (param_count : Nat) (return_type : TypeInfo)
    (depth : Int) : Prop :=
  entry.name = name ∧ entry.category = SYMBOL_FUNCTION
    ∧ entry.details = .func_info parameters param_count (typeinfo_copy (some return_type))
    ∧ entry.scope_depth = some depth

/-- The stack of scopes holds no symbol of the name in the scopes `inner`. -/
def unbound_in (inner : List Scope) (name : String) : Prop :=
  ∀ scope ∈ inner, find_symbol scope.symbols name = none

/-! # Theorems -/

/-! ## The parser on operands and operator chains -/

theorem ReturnsFrom.mono {α : Type} {f : Nat → Parser → Outcome α} {k : Nat} {p : Parser}
    {r : α} {q : Parser} (h : ReturnsFrom f k p r q) (j : Nat) :
    ReturnsFrom f (k + j) p r q := by
  intro n
  have := h (n + j)
  rwa [Nat.add_assoc, Nat.add_comm j k] at this

theorem endsExpression_check (p : Parser) (h : endsExpression p.current_token.type = true) :
    check p TOKEN_STAR = false ∧ check p TOKEN_SLASH = false ∧ check p TOKEN_PLUS = false ∧
    check p TOKEN_MINUS = false ∧ check p TOKEN_GREATER = false ∧
    check p TOKEN_GREATER_EQUAL = false ∧ check p TOKEN_LESS = false ∧
    check p TOKEN_LESS_EQUAL = false ∧ check p TOKEN_EQUAL_EQUAL = false ∧
    check p TOKEN_BANG_EQUAL = false ∧ check p TOKEN_EQUAL = false ∧
    check p TOKEN_LEFT_PAREN = false := by
  unfold check
  cases hT : p.current_token.type <;> simp_all [endsExpression]

theorem parse_primary_operand (n : Nat) (o : Operand) (p : Parser)
    (hcur : p.current_token = o.token)
    (hnext : check (advance p) TOKEN_LEFT_PAREN = false) :
    parse_primary (n + 1) p = .done (some o.node) (advance p) := by
  obtain ⟨k, l⟩ := o
  cases k <;>
    simp_all [parse_primary, check, Operand.token, OperandKind.tokenType, Operand.node,
      make_literal_node, advance]

theorem parse_unary_operand (o : Operand) (p : Parser)
    (hcur : p.current_token = o.token)
    (hnext : check (advance p) TOKEN_LEFT_PAREN = false) :
    ReturnsFrom parse_unary 2 p (some o.node) (advance p) := by
  intro n
  have h : check p TOKEN_MINUS = false := by
    obtain ⟨k, l⟩ := o
    cases k <;> simp [check, hcur, Operand.token, OperandKind.tokenType]
  rw [parse_unary, h]
  simp [parse_primary_operand n o p hcur hnext]

theorem parse_unary_minus (k : Nat) (p q : Parser) (r : ASTNode)
    (hop : check p TOKEN_MINUS = true)
    (h : ReturnsFrom parse_unary k (advance p) (some r) q) :
    ReturnsFrom parse_unary (k + 1) p (some (unary_expr TOKEN_MINUS r)) q := by
  intro n
  have hty : p.current_token.type = TOKEN_MINUS := by simpa [check] using hop
  rw [← Nat.add_assoc, parse_unary]
  simp only [hop, if_true, h n]
  simp [advance, hty]

/-! ### The factor level -/

theorem parse_factor_pass (k : Nat) (p q : Parser) (e : Option ASTNode)
    (h : ReturnsFrom parse_unary k p e q)
    (hno : (check q TOKEN_STAR || check q TOKEN_SLASH) = false) :
    ReturnsFrom parse_factor (k + 2) p e q := by
  intro n
  rw [show n + (k + 2) = (n + 1 + k) + 1 by omega, parse_factor]
  simp only [h (n + 1)]
  rw [show n + 1 + k = (n + k) + 1 by omega, parse_factor_loop]
  simp only [hno]
  simp

theorem parse_factor_one (k : Nat) (p p1 q : Parser) (e : Option ASTNode) (r : ASTNode)
    (h : ReturnsFrom parse_unary k p e p1)
    (hop : (check p1 TOKEN_STAR || check p1 TOKEN_SLASH) = true)
    (hr : ReturnsFrom parse_unary k (advance p1) (some r) q)
    (hno : (check q TOKEN_STAR || check q TOKEN_SLASH) = false) :
    ReturnsFrom parse_factor (k + 3) p
      (some (binary_expr p1.current_token.type e r)) q := by
  intro n
  rw [show n + (k + 3) = (n + 2 + k) + 1 by omega, parse_factor]
  simp only [h (n + 2)]
  rw [show n + 2 + k = (n + 1 + k) + 1 by omega, parse_factor_loop]
  simp only [hop, if_true, hr (n + 1)]
  rw [show n + 1 + k = (n + k) + 1 by omega, parse_factor_loop]
  simp only [hno]
  simp [advance]

theorem parse_factor_two (k : Nat) (p p1 p2 q : Parser) (e : Option ASTNode)
    (r1 r2 : ASTNode)
    (h : ReturnsFrom parse_unary k p e p1)
    (hop1 : (check p1 TOKEN_STAR || check p1 TOKEN_SLASH) = true)
    (hr1 : ReturnsFrom parse_unary k (advance p1) (some r1) p2)
    (hop2 : (check p2 TOKEN_STAR || check p2 TOKEN_SLASH) = true)
    (hr2 : ReturnsFrom parse_unary k (advance p2) (some r2) q)
    (hno : (check q TOKEN_STAR || check q TOKEN_SLASH) = false) :
    ReturnsFrom parse_factor (k + 4) p
      (some (binary_expr p2.current_token.type
        (some (binary_expr p1.current_token.type e r1)) r2)) q := by
  intro n
  rw [show n + (k + 4) = (n + 3 + k) + 1 by omega, parse_factor]
  simp only [h (n + 3)]
  rw [show n + 3 + k = (n + 2 + k) + 1 by omega, parse_factor_loop]
  simp only [hop1, if_true, hr1 (n + 2)]
  rw [show n + 2 + k = (n + 1 + k) + 1 by omega, parse_factor_loop]
  simp only [hop2, if_true, hr2 (n + 1)]
  rw [show n + 1 + k = (n + k) + 1 by omega, parse_factor_loop]
  simp only [hno]
  simp [advance]

/-! ### The term level -/

theorem parse_term_pass (k : Nat) (p q : Parser) (e : Option ASTNode)
    (h : ReturnsFrom parse_factor k p e q)
    (hno : (check q TOKEN_PLUS || check q TOKEN_MINUS) = false) :
    ReturnsFrom parse_term (k + 2) p e q := by
  intro n
  rw [show n + (k + 2) = (n + 1 + k) + 1 by omega, parse_term]
  simp only [h (n + 1)]
  rw [show n + 1 + k = (n + k) + 1 by omega, parse_term_loop]
  simp only [hno]
  simp

theorem parse_term_one (k : Nat) (p p1 q : Parser) (e : Option ASTNode) (r : ASTNode)
    (h : ReturnsFrom parse_factor k p e p1)
    (hop : (check p1 TOKEN_PLUS || check p1 TOKEN_MINUS) = true)
    (hr : ReturnsFrom parse_factor k (advance p1) (some r) q)
    (hno : (check q TOKEN_PLUS || check q TOKEN_MINUS) = false) :
    ReturnsFrom parse_term (k + 3) p
      (some (binary_expr p1.current_token.type e r)) q := by
  intro n
  rw [show n + (k + 3) = (n + 2 + k) + 1 by omega, parse_term]
  simp only [h (n + 2)]
  rw [show n + 2 + k = (n + 1 + k) + 1 by omega, parse_term_loop]
  simp only [hop, if_true, hr (n + 1)]
  rw [show n + 1 + k = (n + k) + 1 by omega, parse_term_loop]
  simp only [hno]
  simp [advance]

theorem parse_term_two (k : Nat) (p p1 p2 q : Parser) (e : Option ASTNode)
    (r1 r2 : ASTNode)
    (h : ReturnsFrom parse_factor k p e p1)
    (hop1 : (check p1 TOKEN_PLUS || check p1 TOKEN_MINUS) = true)
    (hr1 : ReturnsFrom parse_factor k (advance p1) (some r1) p2)
    (hop2 : (check p2 TOKEN_PLUS || check p2 TOKEN_MINUS) = true)
    (hr2 : ReturnsFrom parse_factor k (advance p2) (some r2) q)
    (hno : (check q TOKEN_PLUS || check q TOKEN_MINUS) = false) :
    ReturnsFrom parse_term (k + 4) p
      (some (binary_expr p2.current_token.type
        (some (binary_expr p1.current_token.type e r1)) r2)) q := by
  intro n
  rw [show n + (k + 4) = (n + 3 + k) + 1 by omega, parse_term]
  simp only [h (n + 3)]
  rw [show n + 3 + k = (n + 2 + k) + 1 by omega, parse_term_loop]
  simp only [hop1, if_true, hr1 (n + 2)]
  rw [show n + 2 + k = (n + 1 + k) + 1 by omega, parse_term_loop]
  simp only [hop2, if_true, hr2 (n + 1)]
  rw [show n + 1 + k = (n + k) + 1 by omega, parse_term_loop]
  simp only [hno]
  simp [advance]

/-! ### The comparison level -/

theorem parse_comparison_pass (k : Nat) (p q : Parser) (e : Option ASTNode)
    (h : ReturnsFrom parse_term k p e q)
    (hno : (check q TOKEN_GREATER || check q TOKEN_GREATER_EQUAL || check q TOKEN_LESS ||
        check q TOKEN_LESS_EQUAL) = false) :
    ReturnsFrom parse_comparison (k + 2) p e q := by
  intro n
  rw [show n + (k + 2) = (n + 1 + k) + 1 by omega, parse_comparison]
  simp only [h (n + 1)]
  rw [show n + 1 + k = (n + k) + 1 by omega, parse_comparison_loop]
  simp only [hno]
  simp

theorem parse_comparison_one (k : Nat) (p p1 q : Parser) (e : Option ASTNode) (r : ASTNode)
    (h : ReturnsFrom parse_term k p e p1)
    (hop : (check p1 TOKEN_GREATER || check p1 TOKEN_GREATER_EQUAL || check p1 TOKEN_LESS ||
        check p1 TOKEN_LESS_EQUAL) = true)
    (hr : ReturnsFrom parse_term k (advance p1) (some r) q)
    (hno : (check q TOKEN_GREATER || check q TOKEN_GREATER_EQUAL || check q TOKEN_LESS ||
        check q TOKEN_LESS_EQUAL) = false) :
    ReturnsFrom parse_comparison (k + 3) p
      (some (binary_expr p1.current_token.type e r)) q := by
  intro n
  rw [show n + (k + 3) = (n + 2 + k) + 1 by omega, parse_comparison]
  simp only [h (n + 2)]
  rw [show n + 2 + k = (n + 1 + k) + 1 by omega, parse_comparison_loop]
  simp only [hop, if_true, hr (n + 1)]
  rw [show n + 1 + k = (n + k) + 1 by omega, parse_comparison_loop]
  simp only [hno]
  simp [advance]

theorem parse_comparison_two (k : Nat) (p p1 p2 q : Parser) (e : Option ASTNode)
    (r1 r2 : ASTNode)
    (h : ReturnsFrom parse_term k p e p1)
    (hop1 : (check p1 TOKEN_GREATER || check p1 TOKEN_GREATER_EQUAL || check p1 TOKEN_LESS ||
        check p1 TOKEN_LESS_EQUAL) = true)
    (hr1 : ReturnsFrom parse_term k (advance p1) (some r1) p2)
    (hop2 : (check p2 TOKEN_GREATER || check p2 TOKEN_GREATER_EQUAL || check p2 TOKEN_LESS ||
        check p2 TOKEN_LESS_EQUAL) = true)
    (hr2 : ReturnsFrom parse_term k (advance p2) (some r2) q)
    (hno : (check q TOKEN_GREATER || check q TOKEN_GREATER_EQUAL || check q TOKEN_LESS ||
        check q TOKEN_LESS_EQUAL) = false) :
    ReturnsFrom parse_comparison (k + 4) p
      (some (binary_expr p2.current_token.type
        (some (binary_expr p1.current_token.type e r1)) r2)) q := by
  intro n
  rw [show n + (k + 4) = (n + 3 + k) + 1 by omega, parse_comparison]
  simp only [h (n + 3)]
  rw [show n + 3 + k = (n + 2 + k) + 1 by omega, parse_comparison_loop]
  simp only [hop1, if_true, hr1 (n + 2)]
  rw [show n + 2 + k = (n + 1 + k) + 1 by omega, parse_comparison_loop]
  simp only [hop2, if_true, hr2 (n + 1)]
  rw [show n + 1 + k = (n + k) + 1 by omega, parse_comparison_loop]
  simp only [hno]
  simp [advance]

/-! ### The equality level -/

theorem parse_equality_pass (k : Nat) (p q : Parser) (e : Option ASTNode)
    (h : ReturnsFrom parse_comparison k p e q)
    (hno : (check q TOKEN_EQUAL_EQUAL || check q TOKEN_BANG_EQUAL) = false) :
    ReturnsFrom parse_equality (k + 2) p e q := by
  intro n
  rw [show n + (k + 2) = (n + 1 + k) + 1 by omega, parse_equality]
  simp only [h (n + 1)]
  rw [show n + 1 + k = (n + k) + 1 by omega, parse_equality_loop]
  simp only [hno]
  simp

theorem parse_equality_one (k : Nat) (p p1 q : Parser) (e : Option ASTNode) (r : ASTNode)
    (h : ReturnsFrom parse_comparison k p e p1)
    (hop : (check p1 TOKEN_EQUAL_EQUAL || check p1 TOKEN_BANG_EQUAL) = true)
    (hr : ReturnsFrom parse_comparison k (advance p1) (some r) q)
    (hno : (check q TOKEN_EQUAL_EQUAL || check q TOKEN_BANG_EQUAL) = false) :
    ReturnsFrom parse_equality (k + 3) p
      (some (binary_expr p1.current_token.type e r)) q := by
  intro n
  rw [show n + (k + 3) = (n + 2 + k) + 1 by omega, parse_equality]
  simp only [h (n + 2)]
  rw [show n + 2 + k = (n + 1 + k) + 1 by omega, parse_equality_loop]
  simp only [hop, if_true, hr (n + 1)]
  rw [show n + 1 + k = (n + k) + 1 by omega, parse_equality_loop]
  simp only [hno]
  simp [advance]

theorem parse_equality_two (k : Nat) (p p1 p2 q : Parser) (e : Option ASTNode)
    (r1 r2 : ASTNode)
    (h : ReturnsFrom parse_comparison k p e p1)
    (hop1 : (check p1 TOKEN_EQUAL_EQUAL || check p1 TOKEN_BANG_EQUAL) = true)
    (hr1 : ReturnsFrom parse_comparison k (advance p1) (some r1) p2)
    (hop2 : (check p2 TOKEN_EQUAL_EQUAL || check p2 TOKEN_BANG_EQUAL) = true)
    (hr2 : ReturnsFrom parse_comparison k (advance p2) (some r2) q)
    (hno : (check q TOKEN_EQUAL_EQUAL || check q TOKEN_BANG_EQUAL) = false) :
    ReturnsFrom parse_equality (k + 4) p
      (some (binary_expr p2.current_token.type
        (some (binary_expr p1.current_token.type e r1)) r2)) q := by
  intro n
  rw [show n + (k + 4) = (n + 3 + k) + 1 by omega, parse_equality]
  simp only [h (n + 3)]
  rw [show n + 3 + k = (n + 2 + k) + 1 by omega, parse_equality_loop]
  simp only [hop1, if_true, hr1 (n + 2)]
  rw [show n + 2 + k = (n + 1 + k) + 1 by omega, parse_equality_loop]
  simp only [hop2, if_true, hr2 (n + 1)]
  rw [show n + 1 + k = (n + k) + 1 by omega, parse_equality_loop]
  simp only [hno]
  simp [advance]

/-! ### Assignment and expression -/

theorem parse_assignment_pass (k : Nat) (p q : Parser) (e : Option ASTNode)
    (h : ReturnsFrom parse_equality k p e q) (hno : check q TOKEN_EQUAL = false) :
    ReturnsFrom parse_assignment (k + 1) p e q := by
  intro n
  rw [← Nat.add_assoc, parse_assignment]
  simp only [h n, match_, hno]
  simp

theorem parse_assignment_assign (k : Nat) (p p1 q : Parser) (x : String) (v : ASTNode)
    (h : ReturnsFrom parse_equality k p (some (var_expr x)) p1)
    (hop : check p1 TOKEN_EQUAL = true)
    (hv : ReturnsFrom parse_assignment k (advance p1) (some v) q) :
    ReturnsFrom parse_assignment (k + 1) p (some (assign_expr x v)) q := by
  intro n
  rw [← Nat.add_assoc, parse_assignment]
  simp only [h n, match_, hop, if_true, hv n]

theorem parse_expression_of_assignment (k : Nat) (p q : Parser) (e : Option ASTNode)
    (h : ReturnsFrom parse_assignment k p e q) :
    ReturnsFrom parse_expression (k + 1) p e q := by
  intro n
  rw [← Nat.add_assoc, parse_expression]
  exact h n

/-! ### A single operand at every level -/

theorem operand_factor (o : Operand) (p : Parser) (hcur : p.current_token = o.token)
    (hend : binaryLevel (advance p).current_token.type < 4)
    (hparen : check (advance p) TOKEN_LEFT_PAREN = false) :
    ReturnsFrom parse_factor 4 p (some o.node) (advance p) := by
  refine parse_factor_pass 2 p _ _ (parse_unary_operand o p hcur hparen) ?_
  revert hend
  unfold check
  cases (advance p).current_token.type <;> simp [binaryLevel]

theorem operand_term (o : Operand) (p : Parser) (hcur : p.current_token = o.token)
    (hend : binaryLevel (advance p).current_token.type < 3)
    (hparen : check (advance p) TOKEN_LEFT_PAREN = false) :
    ReturnsFrom parse_term 6 p (some o.node) (advance p) := by
  refine parse_term_pass 4 p _ _ (operand_factor o p hcur (by omega) hparen) ?_
  revert hend
  unfold check
  cases (advance p).current_token.type <;> simp [binaryLevel]

theorem operand_comparison (o : Operand) (p : Parser) (hcur : p.current_token = o.token)
    (hend : binaryLevel (advance p).current_token.type < 2)
    (hparen : check (advance p) TOKEN_LEFT_PAREN = false) :
    ReturnsFrom parse_comparison 8 p (some o.node) (advance p) := by
  refine parse_comparison_pass 6 p _ _ (operand_term o p hcur (by omega) hparen) ?_
  revert hend
  unfold check
  cases (advance p).current_token.type <;> simp [binaryLevel]

theorem operand_equality (o : Operand) (p : Parser) (hcur : p.current_token = o.token)
    (hend : binaryLevel (advance p).current_token.type < 1)
    (hparen : check (advance p) TOKEN_LEFT_PAREN = false) :
    ReturnsFrom parse_equality 10 p (some o.node) (advance p) := by
  refine parse_equality_pass 8 p _ _ (operand_comparison o p hcur (by omega) hparen) ?_
  revert hend
  unfold check
  cases (advance p).current_token.type <;> simp [binaryLevel]

theorem advance_stateAt (cur prev : Token) (rest : List Token) (he pm : Bool) :
    advance (stateAt cur prev rest he pm)
      = stateAt (lexer_next_token rest).1 cur (lexer_next_token rest).2 he pm := rfl

theorem endsExpression_level (t : TokenType) (h : endsExpression t = true) :
    binaryLevel t = 0 ∧ t ≠ TOKEN_EQUAL ∧ t ≠ TOKEN_LEFT_PAREN := by
  cases t <;> simp_all [endsExpression, binaryLevel]

/-- From the equality level up to `parse_expression`, when the token after the
parsed tree ends the expression. -/
theorem expression_of_equality (k : Nat) (p q : Parser) (e : Option ASTNode)
    (h : ReturnsFrom parse_equality k p e q)
    (hend : endsExpression q.current_token.type = true) :
    ReturnsFrom parse_expression (k + 2) p e q :=
  parse_expression_of_assignment (k + 1) p q e
    (parse_assignment_pass k p q e h (endsExpression_check q hend).2.2.2.2.2.2.2.2.2.2.1)

theorem expression_of_comparison (k : Nat) (p q : Parser) (e : Option ASTNode)
    (h : ReturnsFrom parse_comparison k p e q)
    (hend : endsExpression q.current_token.type = true) :
    ReturnsFrom parse_expression (k + 4) p e q := by
  have hE := endsExpression_check q hend
  refine expression_of_equality (k + 2) p q e (parse_equality_pass k p q e h ?_) hend
  simp [hE]

theorem expression_of_term (k : Nat) (p q : Parser) (e : Option ASTNode)
    (h : ReturnsFrom parse_term k p e q)
    (hend : endsExpression q.current_token.type = true) :
    ReturnsFrom parse_expression (k + 6) p e q := by
  have hE := endsExpression_check q hend
  refine expression_of_comparison (k + 2) p q e (parse_comparison_pass k p q e h ?_) hend
  simp [hE]

theorem expression_of_factor (k : Nat) (p q : Parser) (e : Option ASTNode)
    (h : ReturnsFrom parse_factor k p e q)
    (hend : endsExpression q.current_token.type = true) :
    ReturnsFrom parse_expression (k + 8) p e q := by
  have hE := endsExpression_check q hend
  refine expression_of_term (k + 2) p q e (parse_term_pass k p q e h ?_) hend
  simp [hE]

/-! ## Two operators of different levels -/

theorem binaryLevel_check (p : Parser) :
    (binaryLevel p.current_token.type = 4 →
      (check p TOKEN_STAR || check p TOKEN_SLASH) = true) ∧
    (binaryLevel p.current_token.type = 3 →
      (check p TOKEN_PLUS || check p TOKEN_MINUS) = true) ∧
    (binaryLevel p.current_token.type = 2 →
      (check p TOKEN_GREATER || check p TOKEN_GREATER_EQUAL || check p TOKEN_LESS ||
        check p TOKEN_LESS_EQUAL) = true) ∧
    (binaryLevel p.current_token.type = 1 →
      (check p TOKEN_EQUAL_EQUAL || check p TOKEN_BANG_EQUAL) = true) ∧
    (binaryLevel p.current_token.type ≠ 0 → check p TOKEN_LEFT_PAREN = false) := by
  unfold check
  cases p.current_token.type <;> simp [binaryLevel]

theorem binaryLevel_check_false (p : Parser) :
    (binaryLevel p.current_token.type ≠ 4 →
      (check p TOKEN_STAR || check p TOKEN_SLASH) = false) ∧
    (binaryLevel p.current_token.type ≠ 3 →
      (check p TOKEN_PLUS || check p TOKEN_MINUS) = false) ∧
    (binaryLevel p.current_token.type ≠ 2 →
      (check p TOKEN_GREATER || check p TOKEN_GREATER_EQUAL || check p TOKEN_LESS ||
        check p TOKEN_LESS_EQUAL) = false) ∧
    (binaryLevel p.current_token.type ≠ 1 →
      (check p TOKEN_EQUAL_EQUAL || check p TOKEN_BANG_EQUAL) = false) := by
  unfold check
  cases p.current_token.type <;> simp [binaryLevel]

/-- The chain `a op1 b op2 c` with `op2` of a higher level than `op1`. -/
theorem rising_level_chain (a b c : Operand) (op1 op2 : TokenType) (l1 l2 : String)
    (prev : Token) (rest : List Token) (he pm : Bool)
    (hlow : 0 < binaryLevel op1) (hlevel : binaryLevel op1 < binaryLevel op2)
    (hend : endsExpression (lexer_next_token rest).1.type = true) :
    ReturnsFrom parse_expression 14
      (stateAt a.token prev (⟨op1, l1⟩ :: b.token :: ⟨op2, l2⟩ :: c.token :: rest) he pm)
      (some (binary_expr op1 (some a.node) (binary_expr op2 (some b.node) c.node)))
      (stateAt (lexer_next_token rest).1 c.token (lexer_next_token rest).2 he pm) := by
  obtain ⟨hl, -, hp⟩ := endsExpression_level _ hend
  have hpar : ∀ (cur prev' : Token),
      check (advance (stateAt cur prev' rest he pm)) TOKEN_LEFT_PAREN = false := by
    intro cur prev'
    simpa [check, advance, stateAt] using hp
  have hlev : ∀ (cur prev' : Token),
      binaryLevel (advance (stateAt cur prev' rest he pm)).current_token.type = 0 := by
    intro cur prev'
    simpa [advance, stateAt] using hl
  have hc1 : binaryLevel op1 = 1 ∨ binaryLevel op1 = 2 ∨ binaryLevel op1 = 3 ∨
      binaryLevel op1 = 4 := by
    revert hlow
    cases op1 <;> simp [binaryLevel]
  have hc2 : binaryLevel op2 = 1 ∨ binaryLevel op2 = 2 ∨ binaryLevel op2 = 3 ∨
      binaryLevel op2 = 4 := by
    have : binaryLevel op2 ≠ 0 := by omega
    revert this
    cases op2 <;> simp [binaryLevel]
  have s1 := binaryLevel_check
    (stateAt ⟨op1, l1⟩ a.token (b.token :: ⟨op2, l2⟩ :: c.token :: rest) he pm)
  have s3 := binaryLevel_check (stateAt ⟨op2, l2⟩ b.token (c.token :: rest) he pm)
  have f5 := binaryLevel_check_false
    (stateAt (lexer_next_token rest).1 c.token (lexer_next_token rest).2 he pm)
  have l5 : binaryLevel (stateAt (lexer_next_token rest).1 c.token (lexer_next_token rest).2
      he pm).current_token.type = 0 := hl
  have hp1 : check (advance (stateAt a.token prev
      (⟨op1, l1⟩ :: b.token :: ⟨op2, l2⟩ :: c.token :: rest) he pm)) TOKEN_LEFT_PAREN
      = false := s1.2.2.2.2 (by show binaryLevel op1 ≠ 0; omega)
  have hp3 : check (advance (stateAt b.token ⟨op1, l1⟩
      (⟨op2, l2⟩ :: c.token :: rest) he pm)) TOKEN_LEFT_PAREN = false :=
    s3.2.2.2.2 (by show binaryLevel op2 ≠ 0; omega)
  have hl1 : binaryLevel (advance (stateAt a.token prev
      (⟨op1, l1⟩ :: b.token :: ⟨op2, l2⟩ :: c.token :: rest) he pm)).current_token.type
      = binaryLevel op1 := rfl
  have hl3 : binaryLevel (advance (stateAt b.token ⟨op1, l1⟩
      (⟨op2, l2⟩ :: c.token :: rest) he pm)).current_token.type = binaryLevel op2 := rfl
  rcases hc1 with h1 | h1 | h1 | h1 <;> rcases hc2 with h2 | h2 | h2 | h2 <;>
    first | (exfalso; omega) | skip
  · -- levels 1 and 2
    have hb := operand_term b _ rfl (by rw [hl3, h2]; decide) hp3
    have hc := operand_term c (stateAt c.token ⟨op2, l2⟩ rest he pm) rfl (by rw [hlev]; decide) (hpar _ _)
    have hbc := parse_comparison_one 6 _ _ _ _ _ hb (s3.2.2.1 h2) hc
      (f5.2.2.1 (by rw [l5]; decide))
    have ha := operand_comparison a _ rfl (by rw [hl1, h1]; decide) hp1
    have := parse_equality_one 9 _ _ _ _ _ (ha.mono 1) (s1.2.2.2.1 h1) hbc
      (f5.2.2.2 (by rw [l5]; decide))
    exact expression_of_equality 12 _ _ _ this hend
  · -- levels 1 and 3
    have hb := operand_factor b _ rfl (by rw [hl3, h2]; decide) hp3
    have hc := operand_factor c (stateAt c.token ⟨op2, l2⟩ rest he pm) rfl (by rw [hlev]; decide) (hpar _ _)
    have hbc := parse_term_one 4 _ _ _ _ _ hb (s3.2.1 h2) hc
      (f5.2.1 (by rw [l5]; decide))
    have hbc := parse_comparison_pass 7 _ _ _ hbc (f5.2.2.1 (by rw [l5]; decide))
    have ha := operand_comparison a _ rfl (by rw [hl1, h1]; decide) hp1
    have := parse_equality_one 9 _ _ _ _ _ (ha.mono 1) (s1.2.2.2.1 h1) hbc
      (f5.2.2.2 (by rw [l5]; decide))
    exact expression_of_equality 12 _ _ _ this hend
  · -- levels 1 and 4
    have hb := parse_unary_operand b _ rfl hp3
    have hc := parse_unary_operand c (stateAt c.token ⟨op2, l2⟩ rest he pm) rfl (hpar _ _)
    have hbc := parse_factor_one 2 _ _ _ _ _ hb (s3.1 h2) hc
      (f5.1 (by rw [l5]; decide))
    have hbc := parse_term_pass 5 _ _ _ hbc (f5.2.1 (by rw [l5]; decide))
    have hbc := parse_comparison_pass 7 _ _ _ hbc (f5.2.2.1 (by rw [l5]; decide))
    have ha := operand_comparison a _ rfl (by rw [hl1, h1]; decide) hp1
    have := parse_equality_one 9 _ _ _ _ _ (ha.mono 1) (s1.2.2.2.1 h1) hbc
      (f5.2.2.2 (by rw [l5]; decide))
    exact expression_of_equality 12 _ _ _ this hend
  · -- levels 2 and 3
    have hb := operand_factor b _ rfl (by rw [hl3, h2]; decide) hp3
    have hc := operand_factor c (stateAt c.token ⟨op2, l2⟩ rest he pm) rfl (by rw [hlev]; decide) (hpar _ _)
    have hbc := parse_term_one 4 _ _ _ _ _ hb (s3.2.1 h2) hc
      (f5.2.1 (by rw [l5]; decide))
    have ha := operand_term a _ rfl (by rw [hl1, h1]; decide) hp1
    have := parse_comparison_one 7 _ _ _ _ _ (ha.mono 1) (s1.2.2.1 h1) hbc
      (f5.2.2.1 (by rw [l5]; decide))
    exact expression_of_comparison 10 _ _ _ this hend
  · -- levels 2 and 4
    have hb := parse_unary_operand b _ rfl hp3
    have hc := parse_unary_operand c (stateAt c.token ⟨op2, l2⟩ rest he pm) rfl (hpar _ _)
    have hbc := parse_factor_one 2 _ _ _ _ _ hb (s3.1 h2) hc
      (f5.1 (by rw [l5]; decide))
    have hbc := parse_term_pass 5 _ _ _ hbc (f5.2.1 (by rw [l5]; decide))
    have ha := operand_term a _ rfl (by rw [hl1, h1]; decide) hp1
    have := parse_comparison_one 7 _ _ _ _ _ (ha.mono 1) (s1.2.2.1 h1) hbc
      (f5.2.2.1 (by rw [l5]; decide))
    exact expression_of_comparison 10 _ _ _ this hend
  · -- levels 3 and 4
    have hb := parse_unary_operand b _ rfl hp3
    have hc := parse_unary_operand c (stateAt c.token ⟨op2, l2⟩ rest he pm) rfl (hpar _ _)
    have hbc := parse_factor_one 2 _ _ _ _ _ hb (s3.1 h2) hc
      (f5.1 (by rw [l5]; decide))
    have ha := operand_factor a _ rfl (by rw [hl1, h1]; decide) hp1
    have := parse_term_one 5 _ _ _ _ _ (ha.mono 1) (s1.2.1 h1) hbc
      (f5.2.1 (by rw [l5]; decide))
    exact expression_of_term 8 _ _ _ this hend

/-- The chain `a op2 b op1 c` with `op2` of a higher level than `op1`. -/
theorem falling_level_chain (a b c : Operand) (op1 op2 : TokenType) (l1 l2 : String)
    (prev : Token) (rest : List Token) (he pm : Bool)
    (hlow : 0 < binaryLevel op1) (hlevel : binaryLevel op1 < binaryLevel op2)
    (hend : endsExpression (lexer_next_token rest).1.type = true) :
    ReturnsFrom parse_expression 14
      (stateAt a.token prev (⟨op2, l2⟩ :: b.token :: ⟨op1, l1⟩ :: c.token :: rest) he pm)
      (some (binary_expr op1 (some (binary_expr op2 (some a.node) b.node)) c.node))
      (stateAt (lexer_next_token rest).1 c.token (lexer_next_token rest).2 he pm) := by
  obtain ⟨hl, -, hp⟩ := endsExpression_level _ hend
  have hpar : ∀ (cur prev' : Token),
      check (advance (stateAt cur prev' rest he pm)) TOKEN_LEFT_PAREN = false := by
    intro cur prev'
    simpa [check, advance, stateAt] using hp
  have hlev : ∀ (cur prev' : Token),
      binaryLevel (advance (stateAt cur prev' rest he pm)).current_token.type = 0 := by
    intro cur prev'
    simpa [advance, stateAt] using hl
  have hc1 : binaryLevel op1 = 1 ∨ binaryLevel op1 = 2 ∨ binaryLevel op1 = 3 ∨
      binaryLevel op1 = 4 := by
    revert hlow
    cases op1 <;> simp [binaryLevel]
  have hc2 : binaryLevel op2 = 1 ∨ binaryLevel op2 = 2 ∨ binaryLevel op2 = 3 ∨
      binaryLevel op2 = 4 := by
    have : binaryLevel op2 ≠ 0 := by omega
    revert this
    cases op2 <;> simp [binaryLevel]
  have s1 := binaryLevel_check
    (stateAt ⟨op2, l2⟩ a.token (b.token :: ⟨op1, l1⟩ :: c.token :: rest) he pm)
  have s3 := binaryLevel_check (stateAt ⟨op1, l1⟩ b.token (c.token :: rest) he pm)
  have f3 := binaryLevel_check_false (stateAt ⟨op1, l1⟩ b.token (c.token :: rest) he pm)
  have f5 := binaryLevel_check_false
    (stateAt (lexer_next_token rest).1 c.token (lexer_next_token rest).2 he pm)
  have l3 : binaryLevel (stateAt ⟨op1, l1⟩ b.token (c.token :: rest) he pm).current_token.type
      = binaryLevel op1 := rfl
  have l5 : binaryLevel (stateAt (lexer_next_token rest).1 c.token (lexer_next_token rest).2
      he pm).current_token.type = 0 := hl
  have hp1 : check (advance (stateAt a.token prev
      (⟨op2, l2⟩ :: b.token :: ⟨op1, l1⟩ :: c.token :: rest) he pm)) TOKEN_LEFT_PAREN
      = false := s1.2.2.2.2 (by show binaryLevel op2 ≠ 0; omega)
  have hp3 : check (advance (stateAt b.token ⟨op2, l2⟩
      (⟨op1, l1⟩ :: c.token :: rest) he pm)) TOKEN_LEFT_PAREN = false :=
    s3.2.2.2.2 (by show binaryLevel op1 ≠ 0; omega)
  have hl1 : binaryLevel (advance (stateAt a.token prev
      (⟨op2, l2⟩ :: b.token :: ⟨op1, l1⟩ :: c.token :: rest) he pm)).current_token.type
      = binaryLevel op2 := rfl
  have hl3 : binaryLevel (advance (stateAt b.token ⟨op2, l2⟩
      (⟨op1, l1⟩ :: c.token :: rest) he pm)).current_token.type = binaryLevel op1 := rfl
  rcases hc1 with h1 | h1 | h1 | h1 <;> rcases hc2 with h2 | h2 | h2 | h2 <;>
    first | (exfalso; omega) | skip
  · -- levels 1 and 2
    have ha := operand_term a _ rfl (by rw [hl1, h2]; decide) hp1
    have hb := operand_term b _ rfl (by rw [hl3, h1]; decide) hp3
    have hab := parse_comparison_one 6 _ _ _ _ _ ha (s1.2.2.1 h2) hb
      (f3.2.2.1 (by rw [l3, h1]; decide))
    have hc := operand_comparison c (stateAt c.token ⟨op1, l1⟩ rest he pm) rfl (by rw [hlev]; decide) (hpar _ _)
    have := parse_equality_one 9 _ _ _ _ _ hab (s3.2.2.2.1 h1) (hc.mono 1)
      (f5.2.2.2 (by rw [l5]; decide))
    exact expression_of_equality 12 _ _ _ this hend
  · -- levels 1 and 3
    have ha := operand_factor a _ rfl (by rw [hl1, h2]; decide) hp1
    have hb := operand_factor b _ rfl (by rw [hl3, h1]; decide) hp3
    have hab := parse_term_one 4 _ _ _ _ _ ha (s1.2.1 h2) hb
      (f3.2.1 (by rw [l3, h1]; decide))
    have hab := parse_comparison_pass 7 _ _ _ hab (f3.2.2.1 (by rw [l3, h1]; decide))
    have hc := operand_comparison c (stateAt c.token ⟨op1, l1⟩ rest he pm) rfl (by rw [hlev]; decide) (hpar _ _)
    have := parse_equality_one 9 _ _ _ _ _ hab (s3.2.2.2.1 h1) (hc.mono 1)
      (f5.2.2.2 (by rw [l5]; decide))
    exact expression_of_equality 12 _ _ _ this hend
  · -- levels 1 and 4
    have ha := parse_unary_operand a _ rfl hp1
    have hb := parse_unary_operand b _ rfl hp3
    have hab := parse_factor_one 2 _ _ _ _ _ ha (s1.1 h2) hb
      (f3.1 (by rw [l3, h1]; decide))
    have hab := parse_term_pass 5 _ _ _ hab (f3.2.1 (by rw [l3, h1]; decide))
    have hab := parse_comparison_pass 7 _ _ _ hab (f3.2.2.1 (by rw [l3, h1]; decide))
    have hc := operand_comparison c (stateAt c.token ⟨op1, l1⟩ rest he pm) rfl (by rw [hlev]; decide) (hpar _ _)
    have := parse_equality_one 9 _ _ _ _ _ hab (s3.2.2.2.1 h1) (hc.mono 1)
      (f5.2.2.2 (by rw [l5]; decide))
    exact expression_of_equality 12 _ _ _ this hend
  · -- levels 2 and 3
    have ha := operand_factor a _ rfl (by rw [hl1, h2]; decide) hp1
    have hb := operand_factor b _ rfl (by rw [hl3, h1]; decide) hp3
    have hab := parse_term_one 4 _ _ _ _ _ ha (s1.2.1 h2) hb
      (f3.2.1 (by rw [l3, h1]; decide))
    have hc := operand_term c (stateAt c.token ⟨op1, l1⟩ rest he pm) rfl (by rw [hlev]; decide) (hpar _ _)
    have := parse_comparison_one 7 _ _ _ _ _ hab (s3.2.2.1 h1) (hc.mono 1)
      (f5.2.2.1 (by rw [l5]; decide))
    exact expression_of_comparison 10 _ _ _ this hend
  · -- levels 2 and 4
    have ha := parse_unary_operand a _ rfl hp1
    have hb := parse_unary_operand b _ rfl hp3
    have hab := parse_factor_one 2 _ _ _ _ _ ha (s1.1 h2) hb
      (f3.1 (by rw [l3, h1]; decide))
    have hab := parse_term_pass 5 _ _ _ hab (f3.2.1 (by rw [l3, h1]; decide))
    have hc := operand_term c (stateAt c.token ⟨op1, l1⟩ rest he pm) rfl (by rw [hlev]; decide) (hpar _ _)
    have := parse_comparison_one 7 _ _ _ _ _ hab (s3.2.2.1 h1) (hc.mono 1)
      (f5.2.2.1 (by rw [l5]; decide))
    exact expression_of_comparison 10 _ _ _ this hend
  · -- levels 3 and 4
    have ha := parse_unary_operand a _ rfl hp1
    have hb := parse_unary_operand b _ rfl hp3
    have hab := parse_factor_one 2 _ _ _ _ _ ha (s1.1 h2) hb
      (f3.1 (by rw [l3, h1]; decide))
    have hc := operand_factor c (stateAt c.token ⟨op1, l1⟩ rest he pm) rfl (by rw [hlev]; decide) (hpar _ _)
    have := parse_term_one 5 _ _ _ _ _ hab (s3.2.1 h1) (hc.mono 1)
      (f5.2.1 (by rw [l5]; decide))
    exact expression_of_term 8 _ _ _ this hend

/-- The chain `-a op b`. -/
theorem minus_left_chain (a b : Operand) (op : TokenType) (l1 l2 : String)
    (prev : Token) (rest : List Token) (he pm : Bool) (hbin : binaryLevel op ≠ 0)
    (hend : endsExpression (lexer_next_token rest).1.type = true) :
    ReturnsFrom parse_expression 14
      (stateAt ⟨TOKEN_MINUS, l1⟩ prev (a.token :: ⟨op, l2⟩ :: b.token :: rest) he pm)
      (some (binary_expr op (some (unary_expr TOKEN_MINUS a.node)) b.node))
      (stateAt (lexer_next_token rest).1 b.token (lexer_next_token rest).2 he pm) := by
  obtain ⟨hl, -, hp⟩ := endsExpression_level _ hend
  have hpar : ∀ (cur prev' : Token),
      check (advance (stateAt cur prev' rest he pm)) TOKEN_LEFT_PAREN = false := by
    intro cur prev'
    simpa [check, advance, stateAt] using hp
  have hlev : ∀ (cur prev' : Token),
      binaryLevel (advance (stateAt cur prev' rest he pm)).current_token.type = 0 := by
    intro cur prev'
    simpa [advance, stateAt] using hl
  have hc1 : binaryLevel op = 1 ∨ binaryLevel op = 2 ∨ binaryLevel op = 3 ∨
      binaryLevel op = 4 := by
    revert hbin
    cases op <;> simp [binaryLevel]
  have s2 := binaryLevel_check (stateAt ⟨op, l2⟩ a.token (b.token :: rest) he pm)
  have f2 := binaryLevel_check_false (stateAt ⟨op, l2⟩ a.token (b.token :: rest) he pm)
  have f4 := binaryLevel_check_false
    (stateAt (lexer_next_token rest).1 b.token (lexer_next_token rest).2 he pm)
  have l2' : binaryLevel (stateAt ⟨op, l2⟩ a.token (b.token :: rest) he pm).current_token.type
      = binaryLevel op := rfl
  have l4 : binaryLevel (stateAt (lexer_next_token rest).1 b.token (lexer_next_token rest).2
      he pm).current_token.type = 0 := hl
  have hp2 : check (advance (stateAt a.token ⟨TOKEN_MINUS, l1⟩
      (⟨op, l2⟩ :: b.token :: rest) he pm)) TOKEN_LEFT_PAREN = false := s2.2.2.2.2 hbin
  have hneg := parse_unary_minus 2
    (stateAt ⟨TOKEN_MINUS, l1⟩ prev (a.token :: ⟨op, l2⟩ :: b.token :: rest) he pm)
    (stateAt ⟨op, l2⟩ a.token (b.token :: rest) he pm) a.node rfl
    (parse_unary_operand a _ rfl hp2)
  rcases hc1 with h1 | h1 | h1 | h1
  · -- level 1
    have hab := hneg
    have hab := parse_factor_pass 3 _ _ _ hab (f2.1 (by rw [l2', h1]; decide))
    have hab := parse_term_pass 5 _ _ _ hab (f2.2.1 (by rw [l2', h1]; decide))
    have hab := parse_comparison_pass 7 _ _ _ hab (f2.2.2.1 (by rw [l2', h1]; decide))
    have hb := operand_comparison b (stateAt b.token ⟨op, l2⟩ rest he pm) rfl (by rw [hlev]; decide) (hpar _ _)
    have := parse_equality_one 9 _ _ _ _ _ hab (s2.2.2.2.1 h1) (hb.mono 1)
      (f4.2.2.2 (by rw [l4]; decide))
    exact expression_of_equality 12 _ _ _ this hend
  · -- level 2
    have hab := hneg
    have hab := parse_factor_pass 3 _ _ _ hab (f2.1 (by rw [l2', h1]; decide))
    have hab := parse_term_pass 5 _ _ _ hab (f2.2.1 (by rw [l2', h1]; decide))
    have hb := operand_term b (stateAt b.token ⟨op, l2⟩ rest he pm) rfl (by rw [hlev]; decide) (hpar _ _)
    have := parse_comparison_one 7 _ _ _ _ _ hab (s2.2.2.1 h1) (hb.mono 1)
      (f4.2.2.1 (by rw [l4]; decide))
    exact expression_of_comparison 10 _ _ _ this hend
  · -- level 3
    have hab := hneg
    have hab := parse_factor_pass 3 _ _ _ hab (f2.1 (by rw [l2', h1]; decide))
    have hb := operand_factor b (stateAt b.token ⟨op, l2⟩ rest he pm) rfl (by rw [hlev]; decide) (hpar _ _)
    have := parse_term_one 5 _ _ _ _ _ hab (s2.2.1 h1) (hb.mono 1)
      (f4.2.1 (by rw [l4]; decide))
    exact expression_of_term 8 _ _ _ this hend
  · -- level 4
    have hab := hneg
    have hb := parse_unary_operand b (stateAt b.token ⟨op, l2⟩ rest he pm) rfl (hpar _ _)
    have := parse_factor_one 3 _ _ _ _ _ hab (s2.1 h1) (hb.mono 1)
      (f4.1 (by rw [l4]; decide))
    exact expression_of_factor 6 _ _ _ this hend

/-- The chain `a op -b`. -/
theorem minus_right_chain (a b : Operand) (op : TokenType) (l1 l2 : String)
    (prev : Token) (rest : List Token) (he pm : Bool) (hbin : binaryLevel op ≠ 0)
    (hend : endsExpression (lexer_next_token rest).1.type = true) :
    ReturnsFrom parse_expression 14
      (stateAt a.token prev (⟨op, l1⟩ :: ⟨TOKEN_MINUS, l2⟩ :: b.token :: rest) he pm)
      (some (binary_expr op (some a.node) (unary_expr TOKEN_MINUS b.node)))
      (stateAt (lexer_next_token rest).1 b.token (lexer_next_token rest).2 he pm) := by
  obtain ⟨hl, -, hp⟩ := endsExpression_level _ hend
  have hpar : ∀ (cur prev' : Token),
      check (advance (stateAt cur prev' rest he pm)) TOKEN_LEFT_PAREN = false := by
    intro cur prev'
    simpa [check, advance, stateAt] using hp
  have hlev : ∀ (cur prev' : Token),
      binaryLevel (advance (stateAt cur prev' rest he pm)).current_token.type = 0 := by
    intro cur prev'
    simpa [advance, stateAt] using hl
  have hc1 : binaryLevel op = 1 ∨ binaryLevel op = 2 ∨ binaryLevel op = 3 ∨
      binaryLevel op = 4 := by
    revert hbin
    cases op <;> simp [binaryLevel]
  have s1 := binaryLevel_check
    (stateAt ⟨op, l1⟩ a.token (⟨TOKEN_MINUS, l2⟩ :: b.token :: rest) he pm)
  have f4 := binaryLevel_check_false
    (stateAt (lexer_next_token rest).1 b.token (lexer_next_token rest).2 he pm)
  have l4 : binaryLevel (stateAt (lexer_next_token rest).1 b.token (lexer_next_token rest).2
      he pm).current_token.type = 0 := hl
  have hp1 : check (advance (stateAt a.token prev
      (⟨op, l1⟩ :: ⟨TOKEN_MINUS, l2⟩ :: b.token :: rest) he pm)) TOKEN_LEFT_PAREN
      = false := s1.2.2.2.2 hbin
  have hl1 : binaryLevel (advance (stateAt a.token prev
      (⟨op, l1⟩ :: ⟨TOKEN_MINUS, l2⟩ :: b.token :: rest) he pm)).current_token.type
      = binaryLevel op := rfl
  have hneg := parse_unary_minus 2
    (stateAt ⟨TOKEN_MINUS, l2⟩ ⟨op, l1⟩ (b.token :: rest) he pm)
    (stateAt (lexer_next_token rest).1 b.token (lexer_next_token rest).2 he pm) b.node rfl
    (parse_unary_operand b _ rfl (hpar _ _))
  rcases hc1 with h1 | h1 | h1 | h1
  · -- level 1
    have hnb := hneg
    have hnb := parse_factor_pass 3 _ _ _ hnb (f4.1 (by rw [l4]; decide))
    have hnb := parse_term_pass 5 _ _ _ hnb (f4.2.1 (by rw [l4]; decide))
    have hnb := parse_comparison_pass 7 _ _ _ hnb (f4.2.2.1 (by rw [l4]; decide))
    have ha := operand_comparison a _ rfl (by rw [hl1, h1]; decide) hp1
    have := parse_equality_one 9 _ _ _ _ _ (ha.mono 1) (s1.2.2.2.1 h1) hnb
      (f4.2.2.2 (by rw [l4]; decide))
    exact expression_of_equality 12 _ _ _ this hend
  · -- level 2
    have hnb := hneg
    have hnb := parse_factor_pass 3 _ _ _ hnb (f4.1 (by rw [l4]; decide))
    have hnb := parse_term_pass 5 _ _ _ hnb (f4.2.1 (by rw [l4]; decide))
    have ha := operand_term a _ rfl (by rw [hl1, h1]; decide) hp1
    have := parse_comparison_one 7 _ _ _ _ _ (ha.mono 1) (s1.2.2.1 h1) hnb
      (f4.2.2.1 (by rw [l4]; decide))
    exact expression_of_comparison 10 _ _ _ this hend
  · -- level 3
    have hnb := hneg
    have hnb := parse_factor_pass 3 _ _ _ hnb (f4.1 (by rw [l4]; decide))
    have ha := operand_factor a _ rfl (by rw [hl1, h1]; decide) hp1
    have := parse_term_one 5 _ _ _ _ _ (ha.mono 1) (s1.2.1 h1) hnb
      (f4.2.1 (by rw [l4]; decide))
    exact expression_of_term 8 _ _ _ this hend
  · -- level 4
    have hnb := hneg
    have ha := parse_unary_operand a _ rfl hp1
    have := parse_factor_one 3 _ _ _ _ _ (ha.mono 1) (s1.1 h1) hnb
      (f4.1 (by rw [l4]; decide))
    exact expression_of_factor 6 _ _ _ this hend

/-! ## Operator precedence -/

/-- C1. For all primary operands `a`, `b`, `c` (literals or variable names), followed by
any token that ends the expression, `parse_expression` returns
`a + b * c` as `Binary(+, a, Binary(*, b, c))`,
`a * b + c` as `Binary(+, Binary(*, a, b), c)`,
`a < b + c` as `Binary(<, a, Binary(+, b, c))`,
`a == b < c` as `Binary(==, a, Binary(<, b, c))` and
`-a * b` as `Binary(*, Unary(-, a), b)`,
consuming exactly the tokens of the expression and reporting no error.  In general, for
every two binary operators `op1`, `op2` with `op2` of a higher level than `op1` (levels as
`binaryLevel` numbers them: equality, comparison, term, factor), it returns
`a op1 b op2 c` as `Binary(op1, a, Binary(op2, b, c))` and
`a op2 b op1 c` as `Binary(op1, Binary(op2, a, b), c)`, and for every binary operator `op`
it returns `-a op b` as `Binary(op, Unary(-, a), b)` and `a op -b` as
`Binary(op, a, Unary(-, b))`: the operator of the higher level is the deeper one. -/
theorem parse_expression_precedence (n : Nat) (a b c : Operand) (l1 l2 : String)
    (prev : Token) (rest : List Token) (he pm : Bool)
    (hend : endsExpression (lexer_next_token rest).1.type = true) :
    parse_expression (n + 20)
        (stateAt a.token prev
          (⟨TOKEN_PLUS, l1⟩ :: b.token :: ⟨TOKEN_STAR, l2⟩ :: c.token :: rest) he pm)
      = .done (some (binary_expr TOKEN_PLUS (some a.node)
          (binary_expr TOKEN_STAR (some b.node) c.node)))
          (stateAt (lexer_next_token rest).1 c.token (lexer_next_token rest).2 he pm)
    ∧ parse_expression (n + 20)
        (stateAt a.token prev
          (⟨TOKEN_STAR, l1⟩ :: b.token :: ⟨TOKEN_PLUS, l2⟩ :: c.token :: rest) he pm)
      = .done (some (binary_expr TOKEN_PLUS
          (some (binary_expr TOKEN_STAR (some a.node) b.node)) c.node))
          (stateAt (lexer_next_token rest).1 c.token (lexer_next_token rest).2 he pm)
    ∧ parse_expression (n + 20)
        (stateAt a.token prev
          (⟨TOKEN_LESS, l1⟩ :: b.token :: ⟨TOKEN_PLUS, l2⟩ :: c.token :: rest) he pm)
      = .done (some (binary_expr TOKEN_LESS (some a.node)
          (binary_expr TOKEN_PLUS (some b.node) c.node)))
          (stateAt (lexer_next_token rest).1 c.token (lexer_next_token rest).2 he pm)
    ∧ parse_expression (n + 20)
        (stateAt a.token prev
          (⟨TOKEN_EQUAL_EQUAL, l1⟩ :: b.token :: ⟨TOKEN_LESS, l2⟩ :: c.token :: rest) he pm)
      = .done (some (binary_expr TOKEN_EQUAL_EQUAL (some a.node)
          (binary_expr TOKEN_LESS (some b.node) c.node)))
          (stateAt (lexer_next_token rest).1 c.token (lexer_next_token rest).2 he pm)
    ∧ parse_expression (n + 20)
        (stateAt ⟨TOKEN_MINUS, l1⟩ prev (a.token :: ⟨TOKEN_STAR, l2⟩ :: b.token :: rest) he pm)
      = .done (some (binary_expr TOKEN_STAR
          (some (unary_expr TOKEN_MINUS a.node)) b.node))
          (stateAt (lexer_next_token rest).1 b.token (lexer_next_token rest).2 he pm)
    ∧ (∀ op1 op2 : TokenType, 0 < binaryLevel op1 → binaryLevel op1 < binaryLevel op2 →
        parse_expression (n + 20)
            (stateAt a.token prev
              (⟨op1, l1⟩ :: b.token :: ⟨op2, l2⟩ :: c.token :: rest) he pm)
          = .done (some (binary_expr op1 (some a.node)
              (binary_expr op2 (some b.node) c.node)))
              (stateAt (lexer_next_token rest).1 c.token (lexer_next_token rest).2 he pm)
        ∧ parse_expression (n + 20)
            (stateAt a.token prev
              (⟨op2, l1⟩ :: b.token :: ⟨op1, l2⟩ :: c.token :: rest) he pm)
          = .done (some (binary_expr op1
              (some (binary_expr op2 (some a.node) b.node)) c.node))
              (stateAt (lexer_next_token rest).1 c.token (lexer_next_token rest).2 he pm))
    ∧ (∀ op : TokenType, binaryLevel op ≠ 0 →
        parse_expression (n + 20)
            (stateAt ⟨TOKEN_MINUS, l1⟩ prev (a.token :: ⟨op, l2⟩ :: b.token :: rest) he pm)
          = .done (some (binary_expr op (some (unary_expr TOKEN_MINUS a.node)) b.node))
              (stateAt (lexer_next_token rest).1 b.token (lexer_next_token rest).2 he pm)
        ∧ parse_expression (n + 20)
            (stateAt a.token prev (⟨op, l1⟩ :: ⟨TOKEN_MINUS, l2⟩ :: b.token :: rest) he pm)
          = .done (some (binary_expr op (some a.node) (unary_expr TOKEN_MINUS b.node)))
              (stateAt (lexer_next_token rest).1 b.token (lexer_next_token rest).2 he pm))
    := by
  obtain ⟨hl, -, hp⟩ := endsExpression_level _ hend
  have hpar : ∀ (cur prev' : Token),
      check (advance (stateAt cur prev' rest he pm)) TOKEN_LEFT_PAREN = false := by
    intro cur prev'
    simpa [check, advance, stateAt] using hp
  have hlev : ∀ (cur prev' : Token),
      binaryLevel (advance (stateAt cur prev' rest he pm)).current_token.type = 0 := by
    intro cur prev'
    simpa [advance, stateAt] using hl
  have hE := endsExpression_check
    (stateAt (lexer_next_token rest).1 c.token (lexer_next_token rest).2 he pm) hend
  have hEb := endsExpression_check
    (stateAt (lexer_next_token rest).1 b.token (lexer_next_token rest).2 he pm) hend
  refine ⟨?_, ?_, ?_, ?_, ?_, ?_, ?_⟩
  · -- a + b * c
    have hbc := parse_factor_one 2
      (stateAt b.token ⟨TOKEN_PLUS, l1⟩ (⟨TOKEN_STAR, l2⟩ :: c.token :: rest) he pm)
      (stateAt ⟨TOKEN_STAR, l2⟩ b.token (c.token :: rest) he pm)
      (stateAt (lexer_next_token rest).1 c.token (lexer_next_token rest).2 he pm)
      (some b.node) c.node
      (parse_unary_operand b _ rfl rfl) rfl
      (parse_unary_operand c _ rfl (hpar _ _)) (by simp [advance_stateAt, hE])
    have ha := operand_factor a
      (stateAt a.token prev
        (⟨TOKEN_PLUS, l1⟩ :: b.token :: ⟨TOKEN_STAR, l2⟩ :: c.token :: rest) he pm)
      rfl (by simp [binaryLevel, advance, stateAt, lexer_next_token]) rfl
    have ht := parse_term_one 5 _ _ _ _ _ (ha.mono 1) rfl hbc (by simp [advance_stateAt, hE])
    have := (expression_of_term 8 _ _ _ ht hend).mono 6 n
    simpa using this
  · -- a * b + c
    have hab := parse_factor_one 2
      (stateAt a.token prev
        (⟨TOKEN_STAR, l1⟩ :: b.token :: ⟨TOKEN_PLUS, l2⟩ :: c.token :: rest) he pm)
      (stateAt ⟨TOKEN_STAR, l1⟩ a.token (b.token :: ⟨TOKEN_PLUS, l2⟩ :: c.token :: rest) he pm)
      (stateAt ⟨TOKEN_PLUS, l2⟩ b.token (c.token :: rest) he pm)
      (some a.node) b.node
      (parse_unary_operand a _ rfl rfl) rfl
      (parse_unary_operand b _ rfl rfl) rfl
    have hc := operand_factor c
      (stateAt c.token ⟨TOKEN_PLUS, l2⟩ rest he pm) rfl
      (by rw [hlev]; decide) (hpar _ _)
    have ht := parse_term_one 5 _ _ _ _ _ hab rfl (hc.mono 1) (by simp [advance_stateAt, hE])
    have := (expression_of_term 8 _ _ _ ht hend).mono 6 n
    simpa using this
  · -- a < b + c
    have ha := operand_term a
      (stateAt a.token prev
        (⟨TOKEN_LESS, l1⟩ :: b.token :: ⟨TOKEN_PLUS, l2⟩ :: c.token :: rest) he pm)
      rfl (by simp [binaryLevel, advance, stateAt, lexer_next_token]) rfl
    have hb := operand_factor b
      (stateAt b.token ⟨TOKEN_LESS, l1⟩ (⟨TOKEN_PLUS, l2⟩ :: c.token :: rest) he pm)
      rfl (by simp [binaryLevel, advance, stateAt, lexer_next_token]) rfl
    have hc := operand_factor c
      (stateAt c.token ⟨TOKEN_PLUS, l2⟩ rest he pm) rfl
      (by rw [hlev]; decide) (hpar _ _)
    have hbc := parse_term_one 4 _ _ _ _ _ hb rfl hc (by simp [advance_stateAt, hE])
    have hcmp := parse_comparison_one 7 _ _ _ _ _ (ha.mono 1) rfl hbc (by simp [advance_stateAt, hE])
    have := (expression_of_comparison 10 _ _ _ hcmp hend).mono 6 n
    simpa using this
  · -- a == b < c
    have ha := operand_comparison a
      (stateAt a.token prev
        (⟨TOKEN_EQUAL_EQUAL, l1⟩ :: b.token :: ⟨TOKEN_LESS, l2⟩ :: c.token :: rest) he pm)
      rfl (by simp [binaryLevel, advance, stateAt, lexer_next_token]) rfl
    have hb := operand_term b
      (stateAt b.token ⟨TOKEN_EQUAL_EQUAL, l1⟩ (⟨TOKEN_LESS, l2⟩ :: c.token :: rest) he pm)
      rfl (by simp [binaryLevel, advance, stateAt, lexer_next_token]) rfl
    have hc := operand_term c
      (stateAt c.token ⟨TOKEN_LESS, l2⟩ rest he pm) rfl
      (by rw [hlev]; decide) (hpar _ _)
    have hbc := parse_comparison_one 6 _ _ _ _ _ hb rfl hc (by simp [advance_stateAt, hE])
    have heq := parse_equality_one 9 _ _ _ _ _ (ha.mono 1) rfl hbc (by simp [advance_stateAt, hE])
    have := (expression_of_equality 12 _ _ _ heq hend).mono 6 n
    simpa using this
  · -- -a * b
    have hneg := parse_unary_minus 2
      (stateAt ⟨TOKEN_MINUS, l1⟩ prev (a.token :: ⟨TOKEN_STAR, l2⟩ :: b.token :: rest) he pm)
      (stateAt ⟨TOKEN_STAR, l2⟩ a.token (b.token :: rest) he pm) a.node rfl
      (parse_unary_operand a _ rfl rfl)
    have hb := parse_unary_operand b
      (stateAt b.token ⟨TOKEN_STAR, l2⟩ rest he pm) rfl (hpar _ _)
    have hf := parse_factor_one 3 _ _ _ _ _ hneg rfl (hb.mono 1) (by simp [advance_stateAt, hEb])
    have := (expression_of_factor 6 _ _ _ hf hend).mono 6 n
    simpa using this
  · -- two binary operators of different levels
    intro op1 op2 hlow hlevel
    refine ⟨?_, ?_⟩
    · have := (rising_level_chain a b c op1 op2 l1 l2 prev rest he pm hlow hlevel hend).mono
        6 n
      simpa using this
    · have := (falling_level_chain a b c op1 op2 l2 l1 prev rest he pm hlow hlevel hend).mono
        6 n
      simpa using this
  · -- unary minus next to a binary operator
    intro op hbin
    refine ⟨?_, ?_⟩
    · have := (minus_left_chain a b op l1 l2 prev rest he pm hbin hend).mono 6 n
      simpa using this
    · have := (minus_right_chain a b op l1 l2 prev rest he pm hbin hend).mono 6 n
      simpa using this

/-- C1, at a concrete input: `x + 2 * y ;` parses to `Binary(+, x, Binary(*, 2, y))` and
the parser stops at the `;`. -/
theorem parse_expression_precedence_witness :
    endsExpression (lexer_next_token [⟨TOKEN_SEMICOLON, ";"⟩]).1.type = true ∧
    parse_expression 20
        (stateAt ⟨TOKEN_IDENTIFIER, "x"⟩ eofToken
          [⟨TOKEN_PLUS, "+"⟩, ⟨TOKEN_INT_LITERAL, "2"⟩, ⟨TOKEN_STAR, "*"⟩,
            ⟨TOKEN_IDENTIFIER, "y"⟩, ⟨TOKEN_SEMICOLON, ";"⟩] false false)
      = .done (some (binary_expr TOKEN_PLUS (some (var_expr "x"))
          (binary_expr TOKEN_STAR (some (literal TOKEN_INT_LITERAL (.int_value 2)))
            (var_expr "y"))))
          (stateAt ⟨TOKEN_SEMICOLON, ";"⟩ ⟨TOKEN_IDENTIFIER, "y"⟩ [] false false) :=
  ⟨by decide,
   (parse_expression_precedence 0 ⟨.variable, "x"⟩ ⟨.int_literal, "2"⟩ ⟨.variable, "y"⟩
      "+" "*" eofToken [⟨TOKEN_SEMICOLON, ";"⟩] false false (by decide)).1⟩

/-! ## Left associativity -/

/-- The chain `a op1 b op2 c` at the level of its two operators. -/
theorem same_level_chain (a b c : Operand) (op1 op2 : TokenType) (l1 l2 : String)
    (prev : Token) (rest : List Token) (he pm : Bool)
    (hlevel : binaryLevel op1 = binaryLevel op2) (hbin : binaryLevel op1 ≠ 0)
    (hend : endsExpression (lexer_next_token rest).1.type = true) :
    ReturnsFrom parse_expression 24
      (stateAt a.token prev (⟨op1, l1⟩ :: b.token :: ⟨op2, l2⟩ :: c.token :: rest) he pm)
      (some (binary_expr op2 (some (binary_expr op1 (some a.node) b.node)) c.node))
      (stateAt (lexer_next_token rest).1 c.token (lexer_next_token rest).2 he pm) := by
  obtain ⟨hl, -, hp⟩ := endsExpression_level _ hend
  have hE := endsExpression_check
    (stateAt (lexer_next_token rest).1 c.token (lexer_next_token rest).2 he pm) hend
  have hpar : check (advance (stateAt c.token ⟨op2, l2⟩ rest he pm)) TOKEN_LEFT_PAREN = false := by
    simpa [check, advance, stateAt] using hp
  have hlev : binaryLevel (advance (stateAt c.token ⟨op2, l2⟩ rest he pm)).current_token.type
      = 0 := by
    simpa [advance, stateAt] using hl
  have hbin2 : binaryLevel op2 ≠ 0 := hlevel ▸ hbin
  have c1 := binaryLevel_check
    (stateAt ⟨op1, l1⟩ a.token (b.token :: ⟨op2, l2⟩ :: c.token :: rest) he pm)
  have c2 := binaryLevel_check (stateAt ⟨op2, l2⟩ b.token (c.token :: rest) he pm)
  have hl1 : binaryLevel (advance (stateAt a.token prev
      (⟨op1, l1⟩ :: b.token :: ⟨op2, l2⟩ :: c.token :: rest) he pm)).current_token.type
      = binaryLevel op1 := rfl
  have hl2 : binaryLevel (advance (stateAt b.token ⟨op1, l1⟩
      (⟨op2, l2⟩ :: c.token :: rest) he pm)).current_token.type = binaryLevel op2 := rfl
  have hp1 : check (advance (stateAt a.token prev
      (⟨op1, l1⟩ :: b.token :: ⟨op2, l2⟩ :: c.token :: rest) he pm)) TOKEN_LEFT_PAREN
      = false := c1.2.2.2.2 hbin
  have hp2 : check (advance (stateAt b.token ⟨op1, l1⟩
      (⟨op2, l2⟩ :: c.token :: rest) he pm)) TOKEN_LEFT_PAREN = false := c2.2.2.2.2 hbin2
  have hcases : binaryLevel op1 = 1 ∨ binaryLevel op1 = 2 ∨ binaryLevel op1 = 3 ∨
      binaryLevel op1 = 4 := by
    revert hbin
    cases op1 <;> simp [binaryLevel]
  rcases hcases with h | h | h | h
  · have ha := operand_comparison a _ rfl (by rw [hl1, h]; decide) hp1
    have hb := operand_comparison b _ rfl (by rw [hl2, ← hlevel, h]; decide) hp2
    have hc := operand_comparison c _ rfl (by rw [hlev]; decide) hpar
    have := parse_equality_two 8 _ _ _ _ _ _ _ ha (c1.2.2.2.1 h) hb
      (c2.2.2.2.1 (hlevel ▸ h)) hc (by simp [advance_stateAt, hE])
    exact (expression_of_equality 12 _ _ _ this hend).mono 10
  · have ha := operand_term a _ rfl (by rw [hl1, h]; decide) hp1
    have hb := operand_term b _ rfl (by rw [hl2, ← hlevel, h]; decide) hp2
    have hc := operand_term c _ rfl (by rw [hlev]; decide) hpar
    have := parse_comparison_two 6 _ _ _ _ _ _ _ ha (c1.2.2.1 h) hb
      (c2.2.2.1 (hlevel ▸ h)) hc (by simp [advance_stateAt, hE])
    exact (expression_of_comparison 10 _ _ _ this hend).mono 10
  · have ha := operand_factor a _ rfl (by rw [hl1, h]; decide) hp1
    have hb := operand_factor b _ rfl (by rw [hl2, ← hlevel, h]; decide) hp2
    have hc := operand_factor c _ rfl (by rw [hlev]; decide) hpar
    have := parse_term_two 4 _ _ _ _ _ _ _ ha (c1.2.1 h) hb
      (c2.2.1 (hlevel ▸ h)) hc (by simp [advance_stateAt, hE])
    exact (expression_of_term 8 _ _ _ this hend).mono 10
  · have ha := parse_unary_operand a _ rfl hp1
    have hb := parse_unary_operand b _ rfl hp2
    have hc := parse_unary_operand c _ rfl hpar
    have := parse_factor_two 2 _ _ _ _ _ _ _ ha (c1.1 h) hb
      (c2.1 (hlevel ▸ h)) hc (by simp [advance_stateAt, hE])
    exact (expression_of_factor 6 _ _ _ this hend).mono 10

/-- C2. For every two binary operators `op1`, `op2` of the same precedence level and all
primary operands `a`, `b`, `c`, followed by any token that ends the expression,
`parse_expression` returns `a op1 b op2 c` as `Binary(op2, Binary(op1, a, b), c)`: every
binary operator is left-associative. -/
theorem binary_operators_left_associative (n : Nat) (a b c : Operand) (op1 op2 : TokenType)
    (l1 l2 : String) (prev : Token) (rest : List Token) (he pm : Bool)
    (hlevel : binaryLevel op1 = binaryLevel op2) (hbin : binaryLevel op1 ≠ 0)
    (hend : endsExpression (lexer_next_token rest).1.type = true) :
    parse_expression (n + 24)
        (stateAt a.token prev (⟨op1, l1⟩ :: b.token :: ⟨op2, l2⟩ :: c.token :: rest) he pm)
      = .done (some (binary_expr op2 (some (binary_expr op1 (some a.node) b.node)) c.node))
          (stateAt (lexer_next_token rest).1 c.token (lexer_next_token rest).2 he pm) :=
  same_level_chain a b c op1 op2 l1 l2 prev rest he pm hlevel hbin hend n

/-- C2, at a concrete input: `a - b + c ;` parses to `Binary(+, Binary(-, a, b), c)`. -/
theorem binary_operators_left_associative_witness :
    parse_expression 24
        (stateAt ⟨TOKEN_IDENTIFIER, "a"⟩ eofToken
          [⟨TOKEN_MINUS, "-"⟩, ⟨TOKEN_IDENTIFIER, "b"⟩, ⟨TOKEN_PLUS, "+"⟩,
            ⟨TOKEN_IDENTIFIER, "c"⟩, ⟨TOKEN_SEMICOLON, ";"⟩] false false)
      = .done (some (binary_expr TOKEN_PLUS
          (some (binary_expr TOKEN_MINUS (some (var_expr "a")) (var_expr "b")))
          (var_expr "c")))
          (stateAt ⟨TOKEN_SEMICOLON, ";"⟩ ⟨TOKEN_IDENTIFIER, "c"⟩ [] false false) :=
  binary_operators_left_associative 0 ⟨.variable, "a"⟩ ⟨.variable, "b"⟩ ⟨.variable, "c"⟩
    TOKEN_MINUS TOKEN_PLUS "-" "+" eofToken [⟨TOKEN_SEMICOLON, ";"⟩] false false
    (by decide) (by decide) (by decide)

/-! ## The error flags -/

theorem consistent_advance (p : Parser) (h : p.consistent) : (advance p).consistent := h

theorem consistent_parser_error (p : Parser) (h : p.consistent) :
    (parser_error p).consistent := by
  unfold parser_error
  split
  · exact h
  · intro _; rfl

theorem synchronize_loop_flags (fuel : Nat) (p : Parser) :
    (synchronize_loop fuel p).had_error = p.had_error ∧
    (synchronize_loop fuel p).panic_mode = p.panic_mode := by
  induction fuel generalizing p with
  | zero => exact ⟨rfl, rfl⟩
  | succ n ih =>
    rw [synchronize_loop]
    split
    · split
      · exact ⟨rfl, rfl⟩
      · split <;> first | exact ⟨rfl, rfl⟩ | exact ih (advance p)
    · exact ⟨rfl, rfl⟩

theorem consistent_synchronize (p : Parser) : (synchronize p).consistent := by
  intro h
  have := (synchronize_loop_flags (p.lexer.length + 1) { p with panic_mode := false }).2
  unfold synchronize at h
  rw [this] at h
  simp at h

theorem consistent_consume (p : Parser) (t : TokenType) (h : p.consistent) :
    (consume p t).consistent := by
  unfold consume
  split
  · exact h
  · exact consistent_synchronize _

theorem consistent_match (p : Parser) (t : TokenType) (h : p.consistent) :
    (match_ p t).2.consistent := by
  unfold match_
  split <;> exact h

theorem consistent_of_match (p : Parser) (t : TokenType) (b : Bool) (q : Parser)
    (h : match_ p t = (b, q)) (hc : p.consistent) : q.consistent := by
  have := consistent_match p t hc
  rwa [h] at this

theorem consistent_step_parse_argument_list_loop (n : Nat)
    (ih0 : ∀ (acc : List ASTNode) (p : Parser) (r : List ASTNode × Nat) (q : Parser),
      parse_argument_list_loop n acc p = .done r q → p.consistent → q.consistent)
    (ih1 : ∀ (p : Parser) (r : Option ASTNode) (q : Parser),
      parse_expression n p = .done r q → p.consistent → q.consistent)
    : ∀ (acc : List ASTNode) (p : Parser) (r : List ASTNode × Nat) (q : Parser),
      parse_argument_list_loop (n + 1) acc p = .done r q → p.consistent → q.consistent := by
  have hadv := consistent_advance
  have hcons := consistent_consume
  have herr := consistent_parser_error
  have hmatch := consistent_of_match
  intro acc p r q h hc
  have hcomma : (if acc.length > 0 then consume p TOKEN_COMMA else p).consistent := by
    split
    · exact hcons p TOKEN_COMMA hc
    · exact hc
  rw [parse_argument_list_loop] at h
  try dsimp only at h
  repeat' split at h
  all_goals first
    | (simp at h; done)
    | (simp only [Outcome.done.injEq] at h; obtain ⟨-, rfl⟩ := h; solve_by_elim)
    | solve_by_elim

theorem consistent_step_parse_primary (n : Nat)
    (ih0 : ∀ (acc : List ASTNode) (p : Parser) (r : List ASTNode × Nat) (q : Parser),
      parse_argument_list_loop n acc p = .done r q → p.consistent → q.consistent)
    (ih1 : ∀ (p : Parser) (r : Option ASTNode) (q : Parser),
      parse_expression n p = .done r q → p.consistent → q.consistent)
    : ∀ (p : Parser) (r : Option ASTNode) (q : Parser),
      parse_primary (n + 1) p = .done r q → p.consistent → q.consistent := by
  have hadv := consistent_advance
  have hcons := consistent_consume
  have herr := consistent_parser_error
  have hmatch := consistent_of_match
  intro p r q h hc
  rw [parse_primary] at h
  try dsimp only at h
  repeat' split at h
  all_goals first
    | (simp at h; done)
    | (simp only [Outcome.done.injEq] at h; obtain ⟨-, rfl⟩ := h; solve_by_elim)
    | solve_by_elim

theorem consistent_step_parse_unary (n : Nat)
    (ih0 : ∀ (p : Parser) (r : Option ASTNode) (q : Parser),
      parse_unary n p = .done r q → p.consistent → q.consistent)
    (ih1 : ∀ (p : Parser) (r : Option ASTNode) (q : Parser),
      parse_primary n p = .done r q → p.consistent → q.consistent)
    : ∀ (p : Parser) (r : Option ASTNode) (q : Parser),
      parse_unary (n + 1) p = .done r q → p.consistent → q.consistent := by
  have hadv := consistent_advance
  have hcons := consistent_consume
  have herr := consistent_parser_error
  have hmatch := consistent_of_match
  intro p r q h hc
  rw [parse_unary] at h
  try dsimp only at h
  repeat' split at h
  all_goals first
    | (simp at h; done)
    | (simp only [Outcome.done.injEq] at h; obtain ⟨-, rfl⟩ := h; solve_by_elim)
    | solve_by_elim

theorem consistent_step_parse_factor_loop (n : Nat)
    (ih0 : ∀ (p : Parser) (r : Option ASTNode) (q : Parser),
      parse_unary n p = .done r q → p.consistent → q.consistent)
    (ih1 : ∀ (acc : Option ASTNode) (p : Parser) (r : Option ASTNode) (q : Parser),
      parse_factor_loop n acc p = .done r q → p.consistent → q.consistent)
    : ∀ (acc : Option ASTNode) (p : Parser) (r : Option ASTNode) (q : Parser),
      parse_factor_loop (n + 1) acc p = .done r q → p.consistent → q.consistent := by
  have hadv := consistent_advance
  have hcons := consistent_consume
  have herr := consistent_parser_error
  have hmatch := consistent_of_match
  intro acc p r q h hc
  rw [parse_factor_loop] at h
  try dsimp only at h
  repeat' split at h
  all_goals first
    | (simp at h; done)
    | (simp only [Outcome.done.injEq] at h; obtain ⟨-, rfl⟩ := h; solve_by_elim)
    | solve_by_elim

theorem consistent_step_parse_factor (n : Nat)
    (ih0 : ∀ (p : Parser) (r : Option ASTNode) (q : Parser),
      parse_unary n p = .done r q → p.consistent → q.consistent)
    (ih1 : ∀ (acc : Option ASTNode) (p : Parser) (r : Option ASTNode) (q : Parser),
      parse_factor_loop n acc p = .done r q → p.consistent → q.consistent)
    : ∀ (p : Parser) (r : Option ASTNode) (q : Parser),
      parse_factor (n + 1) p = .done r q → p.consistent → q.consistent := by
  have hadv := consistent_advance
  have hcons := consistent_consume
  have herr := consistent_parser_error
  have hmatch := consistent_of_match
  intro p r q h hc
  rw [parse_factor] at h
  try dsimp only at h
  repeat' split at h
  all_goals first
    | (simp at h; done)
    | (simp only [Outcome.done.injEq] at h; obtain ⟨-, rfl⟩ := h; solve_by_elim)
    | solve_by_elim

theorem consistent_step_parse_term_loop (n : Nat)
    (ih0 : ∀ (p : Parser) (r : Option ASTNode) (q : Parser),
      parse_factor n p = .done r q → p.consistent → q.consistent)
    (ih1 : ∀ (acc : Option ASTNode) (p : Parser) (r : Option ASTNode) (q : Parser),
      parse_term_loop n acc p = .done r q → p.consistent → q.consistent)
    : ∀ (acc : Option ASTNode) (p : Parser) (r : Option ASTNode) (q : Parser),
      parse_term_loop (n + 1) acc p = .done r q → p.consistent → q.consistent := by
  have hadv := consistent_advance
  have hcons := consistent_consume
  have herr := consistent_parser_error
  have hmatch := consistent_of_match
  intro acc p r q h hc
  rw [parse_term_loop] at h
  try dsimp only at h
  repeat' split at h
  all_goals first
    | (simp at h; done)
    | (simp only [Outcome.done.injEq] at h; obtain ⟨-, rfl⟩ := h; solve_by_elim)
    | solve_by_elim

theorem consistent_step_parse_term (n : Nat)
    (ih0 : ∀ (p : Parser) (r : Option ASTNode) (q : Parser),
      parse_factor n p = .done r q → p.consistent → q.consistent)
    (ih1 : ∀ (acc : Option ASTNode) (p : Parser) (r : Option ASTNode) (q : Parser),
      parse_term_loop n acc p = .done r q → p.consistent → q.consistent)
    : ∀ (p : Parser) (r : Option ASTNode) (q : Parser),
      parse_term (n + 1) p = .done r q → p.consistent → q.consistent := by
  have hadv := consistent_advance
  have hcons := consistent_consume
  have herr := consistent_parser_error
  have hmatch := consistent_of_match
  intro p r q h hc
  rw [parse_term] at h
  try dsimp only at h
  repeat' split at h
  all_goals first
    | (simp at h; done)
    | (simp only [Outcome.done.injEq] at h; obtain ⟨-, rfl⟩ := h; solve_by_elim)
    | solve_by_elim

theorem consistent_step_parse_comparison_loop (n : Nat)
    (ih0 : ∀ (p : Parser) (r : Option ASTNode) (q : Parser),
      parse_term n p = .done r q → p.consistent → q.consistent)
    (ih1 : ∀ (acc : Option ASTNode) (p : Parser) (r : Option ASTNode) (q : Parser),
      parse_comparison_loop n acc p = .done r q → p.consistent → q.consistent)
    : ∀ (acc : Option ASTNode) (p : Parser) (r : Option ASTNode) (q : Parser),
      parse_comparison_loop (n + 1) acc p = .done r q → p.consistent → q.consistent := by
  have hadv := consistent_advance
  have hcons := consistent_consume
  have herr := consistent_parser_error
  have hmatch := consistent_of_match
  intro acc p r q h hc
  rw [parse_comparison_loop] at h
  try dsimp only at h
  repeat' split at h
  all_goals first
    | (simp at h; done)
    | (simp only [Outcome.done.injEq] at h; obtain ⟨-, rfl⟩ := h; solve_by_elim)
    | solve_by_elim

theorem consistent_step_parse_comparison (n : Nat)
    (ih0 : ∀ (p : Parser) (r : Option ASTNode) (q : Parser),
      parse_term n p = .done r q → p.consistent → q.consistent)
    (ih1 : ∀ (acc : Option ASTNode) (p : Parser) (r : Option ASTNode) (q : Parser),
      parse_comparison_loop n acc p = .done r q → p.consistent → q.consistent)
    : ∀ (p : Parser) (r : Option ASTNode) (q : Parser),
      parse_comparison (n + 1) p = .done r q → p.consistent → q.consistent := by
  have hadv := consistent_advance
  have hcons := consistent_consume
  have herr := consistent_parser_error
  have hmatch := consistent_of_match
  intro p r q h hc
  rw [parse_comparison] at h
  try dsimp only at h
  repeat' split at h
  all_goals first
    | (simp at h; done)
    | (simp only [Outcome.done.injEq] at h; obtain ⟨-, rfl⟩ := h; solve_by_elim)
    | solve_by_elim

theorem consistent_step_parse_equality_loop (n : Nat)
    (ih0 : ∀ (p : Parser) (r : Option ASTNode) (q : Parser),
      parse_comparison n p = .done r q → p.consistent → q.consistent)
    (ih1 : ∀ (acc : Option ASTNode) (p : Parser) (r : Option ASTNode) (q : Parser),
      parse_equality_loop n acc p = .done r q → p.consistent → q.consistent)
    : ∀ (acc : Option ASTNode) (p : Parser) (r : Option ASTNode) (q : Parser),
      parse_equality_loop (n + 1) acc p = .done r q → p.consistent → q.consistent := by
  have hadv := consistent_advance
  have hcons := consistent_consume
  have herr := consistent_parser_error
  have hmatch := consistent_of_match
  intro acc p r q h hc
  rw [parse_equality_loop] at h
  try dsimp only at h
  repeat' split at h
  all_goals first
    | (simp at h; done)
    | (simp only [Outcome.done.injEq] at h; obtain ⟨-, rfl⟩ := h; solve_by_elim)
    | solve_by_elim

theorem consistent_step_parse_equality (n : Nat)
    (ih0 : ∀ (p : Parser) (r : Option ASTNode) (q : Parser),
      parse_comparison n p = .done r q → p.consistent → q.consistent)
    (ih1 : ∀ (acc : Option ASTNode) (p : Parser) (r : Option ASTNode) (q : Parser),
      parse_equality_loop n acc p = .done r q → p.consistent → q.consistent)
    : ∀ (p : Parser) (r : Option ASTNode) (q : Parser),
      parse_equality (n + 1) p = .done r q → p.consistent → q.consistent := by
  have hadv := consistent_advance
  have hcons := consistent_consume
  have herr := consistent_parser_error
  have hmatch := consistent_of_match
  intro p r q h hc
  rw [parse_equality] at h
  try dsimp only at h
  repeat' split at h
  all_goals first
    | (simp at h; done)
    | (simp only [Outcome.done.injEq] at h; obtain ⟨-, rfl⟩ := h; solve_by_elim)
    | solve_by_elim

theorem consistent_step_parse_assignment (n : Nat)
    (ih0 : ∀ (p : Parser) (r : Option ASTNode) (q : Parser),
      parse_equality n p = .done r q → p.consistent → q.consistent)
    (ih1 : ∀ (p : Parser) (r : Option ASTNode) (q : Parser),
      parse_assignment n p = .done r q → p.consistent → q.consistent)
    : ∀ (p : Parser) (r : Option ASTNode) (q : Parser),
      parse_assignment (n + 1) p = .done r q → p.consistent → q.consistent := by
  have hadv := consistent_advance
  have hcons := consistent_consume
  have herr := consistent_parser_error
  have hmatch := consistent_of_match
  intro p r q h hc
  rw [parse_assignment] at h
  try dsimp only at h
  repeat' split at h
  all_goals first
    | (simp at h; done)
    | (have h2 := ih0 _ _ _ (by assumption) hc
       have h1 := hmatch _ _ _ _ (by assumption) h2
       simp only [Outcome.done.injEq] at h
       obtain ⟨-, rfl⟩ := h
       first | exact h1 | exact herr _ h1 | exact ih1 _ _ _ (by assumption) h1)

theorem consistent_step_parse_expression (n : Nat)
    (ih0 : ∀ (p : Parser) (r : Option ASTNode) (q : Parser),
      parse_assignment n p = .done r q → p.consistent → q.consistent)
    : ∀ (p : Parser) (r : Option ASTNode) (q : Parser),
      parse_expression (n + 1) p = .done r q → p.consistent → q.consistent := by
  have hadv := consistent_advance
  have hcons := consistent_consume
  have herr := consistent_parser_error
  have hmatch := consistent_of_match
  intro p r q h hc
  rw [parse_expression] at h
  try dsimp only at h
  repeat' split at h
  all_goals first
    | (simp at h; done)
    | (simp only [Outcome.done.injEq] at h; obtain ⟨-, rfl⟩ := h; solve_by_elim)
    | solve_by_elim

/-- Every routine of the expression grammar keeps the error flags consistent. -/
theorem expression_consistent (fuel : Nat) :
    (∀ (acc : List ASTNode) (p : Parser) (r : List ASTNode × Nat) (q : Parser),
      parse_argument_list_loop fuel acc p = .done r q → p.consistent → q.consistent) ∧
    (∀ (p : Parser) (r : Option ASTNode) (q : Parser),
      parse_primary fuel p = .done r q → p.consistent → q.consistent) ∧
    (∀ (p : Parser) (r : Option ASTNode) (q : Parser),
      parse_unary fuel p = .done r q → p.consistent → q.consistent) ∧
    (∀ (acc : Option ASTNode) (p : Parser) (r : Option ASTNode) (q : Parser),
      parse_factor_loop fuel acc p = .done r q → p.consistent → q.consistent) ∧
    (∀ (p : Parser) (r : Option ASTNode) (q : Parser),
      parse_factor fuel p = .done r q → p.consistent → q.consistent) ∧
    (∀ (acc : Option ASTNode) (p : Parser) (r : Option ASTNode) (q : Parser),
      parse_term_loop fuel acc p = .done r q → p.consistent → q.consistent) ∧
    (∀ (p : Parser) (r : Option ASTNode) (q : Parser),
      parse_term fuel p = .done r q → p.consistent → q.consistent) ∧
    (∀ (acc : Option ASTNode) (p : Parser) (r : Option ASTNode) (q : Parser),
      parse_comparison_loop fuel acc p = .done r q → p.consistent → q.consistent) ∧
    (∀ (p : Parser) (r : Option ASTNode) (q : Parser),
      parse_comparison fuel p = .done r q → p.consistent → q.consistent) ∧
    (∀ (acc : Option ASTNode) (p : Parser) (r : Option ASTNode) (q : Parser),
      parse_equality_loop fuel acc p = .done r q → p.consistent → q.consistent) ∧
    (∀ (p : Parser) (r : Option ASTNode) (q : Parser),
      parse_equality fuel p = .done r q → p.consistent → q.consistent) ∧
    (∀ (p : Parser) (r : Option ASTNode) (q : Parser),
      parse_assignment fuel p = .done r q → p.consistent → q.consistent) ∧
    (∀ (p : Parser) (r : Option ASTNode) (q : Parser),
      parse_expression fuel p = .done r q → p.consistent → q.consistent) := by
  induction fuel with
  | zero =>
    refine ⟨?_, ?_, ?_, ?_, ?_, ?_, ?_, ?_, ?_, ?_, ?_, ?_, ?_⟩
    · intro acc p r q h
      rw [parse_argument_list_loop] at h
      cases h
    · intro p r q h
      rw [parse_primary] at h
      cases h
    · intro p r q h
      rw [parse_unary] at h
      cases h
    · intro acc p r q h
      rw [parse_factor_loop] at h
      cases h
    · intro p r q h
      rw [parse_factor] at h
      cases h
    · intro acc p r q h
      rw [parse_term_loop] at h
      cases h
    · intro p r q h
      rw [parse_term] at h
      cases h
    · intro acc p r q h
      rw [parse_comparison_loop] at h
      cases h
    · intro p r q h
      rw [parse_comparison] at h
      cases h
    · intro acc p r q h
      rw [parse_equality_loop] at h
      cases h
    · intro p r q h
      rw [parse_equality] at h
      cases h
    · intro p r q h
      rw [parse_assignment] at h
      cases h
    · intro p r q h
      rw [parse_expression] at h
      cases h
  | succ n ih =>
    obtain ⟨h_argument_list_loop, h_primary, h_unary, h_factor_loop, h_factor, h_term_loop, h_term, h_comparison_loop, h_comparison, h_equality_loop, h_equality, h_assignment, h_expression⟩ := ih
    exact ⟨consistent_step_parse_argument_list_loop n h_argument_list_loop h_expression,
      consistent_step_parse_primary n h_argument_list_loop h_expression,
      consistent_step_parse_unary n h_unary h_primary,
      consistent_step_parse_factor_loop n h_unary h_factor_loop,
      consistent_step_parse_factor n h_unary h_factor_loop,
      consistent_step_parse_term_loop n h_factor h_term_loop,
      consistent_step_parse_term n h_factor h_term_loop,
      consistent_step_parse_comparison_loop n h_term h_comparison_loop,
      consistent_step_parse_comparison n h_term h_comparison_loop,
      consistent_step_parse_equality_loop n h_comparison h_equality_loop,
      consistent_step_parse_equality n h_comparison h_equality_loop,
      consistent_step_parse_assignment n h_equality h_assignment,
      consistent_step_parse_expression n h_assignment⟩

/-! ## Assignment -/

/-- The two-operand expression `a op b`, for a binary operator of any level, as
`parse_equality` returns it. -/
theorem binary_at_equality (a b : Operand) (op : TokenType) (l : String)
    (prev : Token) (rest : List Token) (he pm : Bool)
    (hbin : binaryLevel op ≠ 0)
    (hend : endsExpression (lexer_next_token rest).1.type = true) :
    ReturnsFrom parse_equality 11
      (stateAt a.token prev (⟨op, l⟩ :: b.token :: rest) he pm)
      (some (binary_expr op (some a.node) b.node))
      (stateAt (lexer_next_token rest).1 b.token (lexer_next_token rest).2 he pm) := by
  obtain ⟨hl, -, hp⟩ := endsExpression_level _ hend
  have hE := endsExpression_check
    (stateAt (lexer_next_token rest).1 b.token (lexer_next_token rest).2 he pm) hend
  have hpar : check (advance (stateAt b.token ⟨op, l⟩ rest he pm)) TOKEN_LEFT_PAREN = false := by
    simpa [check, advance, stateAt] using hp
  have hlev : binaryLevel (advance (stateAt b.token ⟨op, l⟩ rest he pm)).current_token.type
      = 0 := by
    simpa [advance, stateAt] using hl
  have c1 := binaryLevel_check (stateAt ⟨op, l⟩ a.token (b.token :: rest) he pm)
  have hl1 : binaryLevel (advance (stateAt a.token prev
      (⟨op, l⟩ :: b.token :: rest) he pm)).current_token.type = binaryLevel op := rfl
  have hp1 : check (advance (stateAt a.token prev (⟨op, l⟩ :: b.token :: rest) he pm))
      TOKEN_LEFT_PAREN = false := c1.2.2.2.2 hbin
  have hcases : binaryLevel op = 1 ∨ binaryLevel op = 2 ∨ binaryLevel op = 3 ∨
      binaryLevel op = 4 := by
    revert hbin
    cases op <;> simp [binaryLevel]
  rcases hcases with h | h | h | h
  · have ha := operand_comparison a _ rfl (by rw [hl1, h]; decide) hp1
    have hb := operand_comparison b _ rfl (by rw [hlev]; decide) hpar
    exact parse_equality_one 8 _ _ _ _ _ ha (c1.2.2.2.1 h) hb (by simp [advance_stateAt, hE])
  · have ha := operand_term a _ rfl (by rw [hl1, h]; decide) hp1
    have hb := operand_term b _ rfl (by rw [hlev]; decide) hpar
    have := parse_comparison_one 6 _ _ _ _ _ ha (c1.2.2.1 h) hb (by simp [advance_stateAt, hE])
    exact parse_equality_pass 9 _ _ _ this (by simp [advance_stateAt, hE])
  · have ha := operand_factor a _ rfl (by rw [hl1, h]; decide) hp1
    have hb := operand_factor b _ rfl (by rw [hlev]; decide) hpar
    have := parse_term_one 4 _ _ _ _ _ ha (c1.2.1 h) hb (by simp [advance_stateAt, hE])
    have := parse_comparison_pass 7 _ _ _ this (by simp [advance_stateAt, hE])
    exact parse_equality_pass 9 _ _ _ this (by simp [advance_stateAt, hE])
  · have ha := parse_unary_operand a _ rfl hp1
    have hb := parse_unary_operand b _ rfl hpar
    have := parse_factor_one 2 _ _ _ _ _ ha (c1.1 h) hb (by simp [advance_stateAt, hE])
    have := parse_term_pass 5 _ _ _ this (by simp [advance_stateAt, hE])
    have := parse_comparison_pass 7 _ _ _ this (by simp [advance_stateAt, hE])
    exact parse_equality_pass 9 _ _ _ this (by simp [advance_stateAt, hE])

/-- When the tree to the left of `=` is not a bare variable reference,
`parse_assignment` reports an error and returns `NULL`. -/
theorem parse_assignment_reject (n : Nat) (p p1 : Parser) (e : ASTNode)
    (hleft : parse_equality n p = .done (some e) p1)
    (hop : check p1 TOKEN_EQUAL = true) (hvar : e.isVarExpr = false)
    (hc : p.consistent) :
    parse_assignment (n + 1) p = .done none (parser_error (advance p1)) ∧
    (parser_error (advance p1)).had_error = true := by
  constructor
  · rw [parse_assignment]
    simp only [hleft, match_, hop, if_true]
    cases e <;> simp_all [ASTNode.isVarExpr]
  · have h1 : p1.consistent := (expression_consistent n).2.2.2.2.2.2.2.2.2.2.1 p _ p1 hleft hc
    have h2 : (advance p1).consistent := consistent_advance p1 h1
    unfold parser_error
    split
    · exact h2 ‹_›
    · rfl

/-- C3. `parse_assignment` (through `parse_expression`) returns `x = y = e` as
`Assign(x, Assign(y, e))` and `x = a op b`, for every binary operator `op`, as
`Assign(x, Binary(op, a, b))`: assignment is right-associative and binds weaker than every
binary operator.  Whenever the tree parsed to the left of `=` is anything other than a bare
variable reference, it returns no node and `had_error` is set afterwards; so for `1 = 2;`,
`a + b = c;` and `f() = 1;`. -/
theorem parse_assignment_contract (n : Nat) (x y l1 l2 : String) (e a b : Operand)
    (op : TokenType) (prev : Token) (rest : List Token) (he pm : Bool)
    (hbin : binaryLevel op ≠ 0)
    (hend : endsExpression (lexer_next_token rest).1.type = true) :
    parse_expression (n + 16)
        (stateAt ⟨TOKEN_IDENTIFIER, x⟩ prev
          (⟨TOKEN_EQUAL, l1⟩ :: ⟨TOKEN_IDENTIFIER, y⟩ :: ⟨TOKEN_EQUAL, l2⟩ :: e.token :: rest)
          he pm)
      = .done (some (assign_expr x (assign_expr y e.node)))
          (stateAt (lexer_next_token rest).1 e.token (lexer_next_token rest).2 he pm)
    ∧ parse_expression (n + 16)
        (stateAt ⟨TOKEN_IDENTIFIER, x⟩ prev
          (⟨TOKEN_EQUAL, l1⟩ :: a.token :: ⟨op, l2⟩ :: b.token :: rest) he pm)
      = .done (some (assign_expr x (binary_expr op (some a.node) b.node)))
          (stateAt (lexer_next_token rest).1 b.token (lexer_next_token rest).2 he pm)
    ∧ (∀ (fuel : Nat) (p p1 : Parser) (left : ASTNode),
        parse_equality fuel p = .done (some left) p1 → check p1 TOKEN_EQUAL = true →
        left.isVarExpr = false → p.consistent →
        ∃ q, parse_assignment (fuel + 1) p = .done none q ∧ q.had_error = true)
    ∧ (∃ q, parse_expression 16
        (parser_init [⟨TOKEN_INT_LITERAL, "1"⟩, ⟨TOKEN_EQUAL, "="⟩, ⟨TOKEN_INT_LITERAL, "2"⟩,
          ⟨TOKEN_SEMICOLON, ";"⟩] prev) = .done none q ∧ q.had_error = true)
    ∧ (∃ q, parse_expression 16
        (parser_init [⟨TOKEN_IDENTIFIER, "a"⟩, ⟨TOKEN_PLUS, "+"⟩, ⟨TOKEN_IDENTIFIER, "b"⟩,
          ⟨TOKEN_EQUAL, "="⟩, ⟨TOKEN_IDENTIFIER, "c"⟩, ⟨TOKEN_SEMICOLON, ";"⟩] prev)
          = .done none q ∧ q.had_error = true)
    ∧ (∃ q, parse_expression 16
        (parser_init [⟨TOKEN_IDENTIFIER, "f"⟩, ⟨TOKEN_LEFT_PAREN, "("⟩,
          ⟨TOKEN_RIGHT_PAREN, ")"⟩, ⟨TOKEN_EQUAL, "="⟩, ⟨TOKEN_INT_LITERAL, "1"⟩,
          ⟨TOKEN_SEMICOLON, ";"⟩] prev) = .done none q ∧ q.had_error = true) := by
  obtain ⟨hl, -, hp⟩ := endsExpression_level _ hend
  have hE := endsExpression_check
    (stateAt (lexer_next_token rest).1 e.token (lexer_next_token rest).2 he pm) hend
  have hpar : ∀ (cur prev' : Token),
      check (advance (stateAt cur prev' rest he pm)) TOKEN_LEFT_PAREN = false := by
    intro cur prev'
    simpa [check, advance, stateAt] using hp
  have hlev : ∀ (cur prev' : Token),
      binaryLevel (advance (stateAt cur prev' rest he pm)).current_token.type = 0 := by
    intro cur prev'
    simpa [advance, stateAt] using hl
  have hvar : ∀ (name : String) (prev' : Token) (l : String) (ts : List Token),
      ReturnsFrom parse_equality 10
        (stateAt ⟨TOKEN_IDENTIFIER, name⟩ prev' (⟨TOKEN_EQUAL, l⟩ :: ts) he pm)
        (some (var_expr name)) (stateAt ⟨TOKEN_EQUAL, l⟩ ⟨TOKEN_IDENTIFIER, name⟩ ts he pm) :=
    fun name prev' l ts =>
      operand_equality ⟨.variable, name⟩ _ rfl
        (by simp [binaryLevel, advance, stateAt, lexer_next_token]) rfl
  refine ⟨?_, ?_, ?_, ?_, ?_, ?_⟩
  · have he' := operand_equality e (stateAt e.token ⟨TOKEN_EQUAL, l2⟩ rest he pm) rfl
      (by rw [hlev]; decide) (hpar _ _)
    have h3 := parse_assignment_pass 10 _ _ _ he' (by simp [advance_stateAt, hE])
    have h2 := parse_assignment_assign 11 _ _ _ y e.node
      ((hvar y ⟨TOKEN_EQUAL, l1⟩ l2 (e.token :: rest)).mono 1) rfl h3
    have h1 := parse_assignment_assign 12 _ _ _ x _
      ((hvar x prev l1 (⟨TOKEN_IDENTIFIER, y⟩ :: ⟨TOKEN_EQUAL, l2⟩ :: e.token :: rest)).mono 2)
      rfl h2
    have := (parse_expression_of_assignment 13 _ _ _ h1).mono 2 n
    simpa using this
  · have hb := binary_at_equality a b op l2 ⟨TOKEN_EQUAL, l1⟩ rest he pm hbin hend
    have hEb := endsExpression_check
      (stateAt (lexer_next_token rest).1 b.token (lexer_next_token rest).2 he pm) hend
    have h2 := parse_assignment_pass 11 _ _ _ hb hEb.2.2.2.2.2.2.2.2.2.2.1
    have h1 := parse_assignment_assign 12 _ _ _ x _
      ((hvar x prev l1 (a.token :: ⟨op, l2⟩ :: b.token :: rest)).mono 2) rfl h2
    have := (parse_expression_of_assignment 13 _ _ _ h1).mono 2 n
    simpa using this
  · intro fuel p p1 left hleft hop hnv hc
    exact ⟨_, parse_assignment_reject fuel p p1 left hleft hop hnv hc⟩
  · exact ⟨_, rfl, rfl⟩
  · exact ⟨_, rfl, rfl⟩
  · exact ⟨_, rfl, rfl⟩

/-- C3, at a concrete input: `x = y = 5 ;` parses to `Assign(x, Assign(y, 5))`. -/
theorem parse_assignment_contract_witness :
    parse_expression 16
        (stateAt ⟨TOKEN_IDENTIFIER, "x"⟩ eofToken
          [⟨TOKEN_EQUAL, "="⟩, ⟨TOKEN_IDENTIFIER, "y"⟩, ⟨TOKEN_EQUAL, "="⟩,
            ⟨TOKEN_INT_LITERAL, "5"⟩, ⟨TOKEN_SEMICOLON, ";"⟩] false false)
      = .done (some (assign_expr "x"
          (assign_expr "y" (literal TOKEN_INT_LITERAL (.int_value 5)))))
          (stateAt ⟨TOKEN_SEMICOLON, ";"⟩ ⟨TOKEN_INT_LITERAL, "5"⟩ [] false false) :=
  (parse_assignment_contract 0 "x" "y" "=" "=" ⟨.int_literal, "5"⟩ ⟨.variable, "a"⟩
    ⟨.variable, "b"⟩ TOKEN_PLUS eofToken [⟨TOKEN_SEMICOLON, ";"⟩] false false
    (by decide) (by decide)).1

/-! ## Termination of `parse_program` -/

/-- In the stalled state a declaration fails without consuming a token. -/
theorem stalled_declaration (m : Nat) :
    parse_declaration (m + 11) stalledState = .done none (parser_error stalledState) := by
  simp [parse_declaration, parse_statement, parse_expression_statement, parse_expression,
    parse_assignment, parse_equality, parse_equality_loop, parse_comparison,
    parse_comparison_loop, parse_term, parse_term_loop, parse_factor, parse_factor_loop,
    parse_unary, parse_primary, match_, check, stalledState, stateAt, parser_error]

theorem stalled_declaration_any (n : Nat) :
    parse_declaration n stalledState = .outOfFuel ∨
    parse_declaration n stalledState = .done none (parser_error stalledState) := by
  by_cases h : 11 ≤ n
  · obtain ⟨m, rfl⟩ := Nat.exists_eq_add_of_le h
    right
    rw [Nat.add_comm]
    exact stalled_declaration m
  · left
    have : n < 11 := by omega
    interval_cases n <;> rfl

theorem stalled_synchronize : synchronize (parser_error stalledState) = stalledState := rfl

theorem stalled_loop (fuel : Nat) (declarations : List ASTNode) :
    parse_program_loop fuel declarations stalledState = .outOfFuel := by
  induction fuel with
  | zero => rfl
  | succ n ih =>
    rw [parse_program_loop]
    have hcheck : (!check stalledState TOKEN_EOF) = true := rfl
    simp only [hcheck, if_true]
    rcases stalled_declaration_any n with h | h
    · rw [h]
    · rw [h]
      simp only [stalled_synchronize]
      exact ih

/-- One iteration of the loop of `parse_program` on `1; )`, from the initial state. -/
theorem first_iteration (fuel : Nat) (junk : Token) :
    parse_program_loop (fuel + 13) [] (parser_init tokens_one_semicolon_paren junk)
      = parse_program_loop (fuel + 12)
          [expr_stmt (literal TOKEN_INT_LITERAL (.int_value 1))]
          (stateAt ⟨TOKEN_RIGHT_PAREN, ")"⟩ ⟨TOKEN_SEMICOLON, ";"⟩ [] false false) := by
  rw [parse_program_loop]
  simp [parse_declaration, parse_statement, parse_expression_statement, parse_expression,
    parse_assignment, parse_equality, parse_equality_loop, parse_comparison,
    parse_comparison_loop, parse_term, parse_term_loop, parse_factor, parse_factor_loop,
    parse_unary, parse_primary, match_, check, stateAt, parser_error, parser_init,
    tokens_one_semicolon_paren, advance, lexer_next_token, consume, make_literal_node]
  rfl

theorem second_iteration (fuel : Nat) (declarations : List ASTNode) :
    parse_program_loop (fuel + 12) declarations
        (stateAt ⟨TOKEN_RIGHT_PAREN, ")"⟩ ⟨TOKEN_SEMICOLON, ";"⟩ [] false false)
      = parse_program_loop (fuel + 11) declarations stalledState := by
  rw [parse_program_loop]
  simp [parse_declaration, parse_statement, parse_expression_statement, parse_expression,
    parse_assignment, parse_equality, parse_equality_loop, parse_comparison,
    parse_comparison_loop, parse_term, parse_term_loop, parse_factor, parse_factor_loop,
    parse_unary, parse_primary, match_, check, stateAt, parser_error]
  rfl

/-- C4, refuted on the source text `1; )`.  After the statement `1;` the parser is in a
state whose current token `)` is not the end of the input, in which `parse_declaration`
fails without consuming a token and `synchronize` returns at once because the previous
token is `;`: the loop of `parse_program` comes back to the very same state, and
`parse_program` does not return, whatever the fuel. -/
theorem parse_program_stalls (fuel : Nat) (junk : Token) :
    parse_program fuel (parser_init tokens_one_semicolon_paren junk) = .outOfFuel
    ∧ check stalledState TOKEN_EOF = false
    ∧ (∀ m, parse_declaration (m + 11) stalledState = .done none (parser_error stalledState))
    ∧ synchronize (parser_error stalledState) = stalledState := by
  refine ⟨?_, rfl, stalled_declaration, rfl⟩
  unfold parse_program
  by_cases h : 13 ≤ fuel
  · obtain ⟨m, rfl⟩ := Nat.exists_eq_add_of_le h
    rw [Nat.add_comm, first_iteration, second_iteration, stalled_loop]
  · have : fuel < 13 := by omega
    interval_cases fuel <;> rfl

/-! ## Hash tables -/

theorem chain_find_replace {V : Type} (key : String) (value : Option V)
    (chain chain' : List (String × Option V))
    (h : chain_replace key value chain = some chain') :
    chain_find key chain' = some value ∧
    ∀ k, k ≠ key → chain_find k chain' = chain_find k chain := by
  induction chain generalizing chain' with
  | nil => simp [chain_replace] at h
  | cons entry rest ih =>
    obtain ⟨k0, v0⟩ := entry
    by_cases hk : k0 = key
    · subst hk
      simp only [chain_replace, if_true, Option.some.injEq] at h
      subst h
      refine ⟨by simp [chain_find], ?_⟩
      intro k hne
      simp [chain_find, Ne.symm hne]
    · simp only [chain_replace, hk, if_false, Option.map_eq_some'] at h
      obtain ⟨rest', hr, rfl⟩ := h
      obtain ⟨h1, h2⟩ := ih rest' hr
      refine ⟨by simp [chain_find, hk, h1], ?_⟩
      intro k hne
      by_cases hk0 : k0 = k
      · simp [chain_find, hk0]
      · simp [chain_find, hk0, h2 k hne]

theorem chain_find_of_replace_none {V : Type} (key : String) (value : Option V)
    (chain : List (String × Option V)) (h : chain_replace key value chain = none) :
    chain_find key chain = none := by
  induction chain with
  | nil => rfl
  | cons entry rest ih =>
    obtain ⟨k0, v0⟩ := entry
    by_cases hk : k0 = key
    · simp [chain_replace, hk] at h
    · simp only [chain_replace, hk, if_false, Option.map_eq_none'] at h
      simp [chain_find, hk, ih h]

theorem hashtable_create_wf {V : Type} (capacity : Nat) (h : 0 < capacity) :
    (hashtable_create capacity : HashTable V).WF := by
  simp [HashTable.WF, hashtable_create, h]

theorem hashtable_set_wf {V : Type} (table : HashTable V) (key : String) (value : Option V)
    (h : table.WF) : (hashtable_set table key value).WF := by
  obtain ⟨buckets, capacity, count⟩ := table
  simp only [HashTable.WF] at h
  simp only [hashtable_set]
  split <;> simpa [HashTable.WF] using h

theorem hashtable_get_create {V : Type} (capacity : Nat) (key : String) :
    hashtable_get (hashtable_create capacity : HashTable V) key = none := by
  simp only [hashtable_get, hashtable_create, List.getD_eq_getElem?_getD]
  by_cases h : hash_function key capacity < capacity
  · simp [List.getElem?_replicate, h, chain_find]
  · simp [List.getElem?_replicate, h, chain_find]

theorem hashtable_get_set_same {V : Type} (table : HashTable V) (key : String)
    (value : Option V) (h : table.WF) :
    hashtable_get (hashtable_set table key value) key = value := by
  obtain ⟨buckets, capacity, count⟩ := table
  simp only [HashTable.WF] at h
  have hlt : hash_function key capacity < buckets.length := by
    rw [h.1]
    exact Nat.mod_lt _ h.2
  simp only [hashtable_set]
  split
  · rename_i chain' hrep
    simp [hashtable_get, List.getD_eq_getElem?_getD, hlt,
      (chain_find_replace key value _ chain' hrep).1]
  · simp [hashtable_get, List.getD_eq_getElem?_getD, hlt, chain_find]

theorem hashtable_get_set_other {V : Type} (table : HashTable V) (key other : String)
    (value : Option V) (hne : other ≠ key) :
    hashtable_get (hashtable_set table key value) other = hashtable_get table other := by
  obtain ⟨buckets, capacity, count⟩ := table
  simp only [hashtable_set]
  by_cases hidx : hash_function key capacity = hash_function other capacity
  · by_cases hlt : hash_function other capacity < buckets.length
    · split
      · rename_i chain' hrep
        have := (chain_find_replace key value _ chain' hrep).2 other hne
        simp only [hashtable_get, hidx, List.getD_eq_getElem?_getD] at this ⊢
        simp [hlt, this]
      · simp only [hashtable_get, hidx, List.getD_eq_getElem?_getD]
        simp [hlt, chain_find, Ne.symm hne]
    · have hnone : buckets[hash_function other capacity]? = none :=
        List.getElem?_eq_none (by omega)
      split <;>
        simp [hashtable_get, hidx, List.getD_eq_getElem?_getD, List.getElem?_set, hlt, hnone]
  · split <;>
      simp [hashtable_get, List.getD_eq_getElem?_getD, List.getElem?_set, hidx]

theorem hashtable_set_capacity {V : Type} (table : HashTable V) (key : String)
    (value : Option V) : (hashtable_set table key value).capacity = table.capacity := by
  obtain ⟨buckets, capacity, count⟩ := table
  simp only [hashtable_set]
  split <;> rfl

/-! ## Lookups in environments -/

theorem environment_create_variables {F : Type} :
    (environment_create : Environment F).variables_ = hashtable_create 32 := rfl

theorem environment_define_var_variables {F : Type} (env : Environment F) (name : String)
    (value : Option (Value F)) :
    (environment_define_var env name value).variables_
      = hashtable_set env.variables_ name value := by
  cases env
  rfl

theorem environment_define_func_variables {F : Type} (env : Environment F) (name : String)
    (node : ASTNode) :
    (environment_define_func env name node).variables_ = env.variables_ := by
  obtain ⟨vars, ⟨buckets, capacity, count⟩⟩ := env
  rfl

theorem getD_replicate_nil {α : Type} (capacity index : Nat) :
    (List.replicate capacity ([] : List α)).getD index [] = [] := by
  simp only [List.getD_eq_getElem?_getD, List.getElem?_replicate]
  split <;> rfl

theorem function_entry_create {F : Type} (name : String) :
    function_entry (environment_create : Environment F) name = none := by
  show chain_find name ((List.replicate 16 []).getD (hash_function name 16) []) = none
  rw [getD_replicate_nil]
  rfl

theorem function_entry_define_var {F : Type} (env : Environment F) (name other : String)
    (value : Option (Value F)) :
    function_entry (environment_define_var env name value) other = function_entry env other := by
  obtain ⟨vars, ⟨buckets, capacity, count⟩⟩ := env
  rfl

theorem function_entry_define_func_same {F : Type} (env : Environment F) (name : String)
    (node : ASTNode) (h : env.functions.WF) :
    function_entry (environment_define_func env name node) name = some (some node) := by
  obtain ⟨vars, ⟨buckets, capacity, count⟩⟩ := env
  simp only [HashTable.WF] at h
  have hlt : hash_function name capacity < buckets.length := by
    rw [h.1]
    exact Nat.mod_lt _ h.2
  simp [function_entry, environment_define_func, List.getD_eq_getElem?_getD, hlt, chain_find]

theorem function_entry_define_func_other {F : Type} (env : Environment F)
    (name other : String) (node : ASTNode) (hne : other ≠ name) :
    function_entry (environment_define_func env name node) other = function_entry env other := by
  obtain ⟨vars, ⟨buckets, capacity, count⟩⟩ := env
  simp only [function_entry, environment_define_func, List.getD_eq_getElem?_getD]
  by_cases hidx : hash_function name capacity = hash_function other capacity
  · by_cases hlt : hash_function other capacity < buckets.length
    · simp [hidx, hlt, chain_find, Ne.symm hne]
    · have hnone : buckets[hash_function other capacity]? = none :=
        List.getElem?_eq_none (by omega)
      simp [hidx, hlt, hnone, List.getElem?_set]
  · simp [List.getElem?_set, hidx]

theorem environment_create_wf {F : Type} :
    (environment_create : Environment F).variables_.WF
    ∧ (environment_create : Environment F).functions.WF :=
  ⟨hashtable_create_wf 32 (by decide), hashtable_create_wf 16 (by decide)⟩

theorem environment_define_func_functions_wf {F : Type} (env : Environment F) (name : String)
    (node : ASTNode) (h : env.functions.WF) :
    (environment_define_func env name node).functions.WF := by
  obtain ⟨vars, ⟨buckets, capacity, count⟩⟩ := env
  simpa [HashTable.WF, environment_define_func] using h

theorem environment_define_var_functions {F : Type} (env : Environment F) (name : String)
    (value : Option (Value F)) :
    (environment_define_var env name value).functions = env.functions := by
  cases env
  rfl

/-! ## Arithmetic operators -/

theorem wrap32_of_fits (x : Int) (h : fitsInt32 x) : wrap32 x = x := by
  unfold fitsInt32 at h
  unfold wrap32
  omega

/-- C9. At run time, on `int` operands `+`, `-` and `*` yield the `int` that is the exact
result whenever it fits the 32-bit signed range; on two numeric operands of which at least
one is a `float` they yield a `float`; `+` on two strings yields their concatenation, left
operand first; every other combination of operand types raises a runtime error and yields
no value. -/
theorem arithmetic_operators_contract {F : Type} (fl : DoubleOps F) (st : Interpreter F)
    (a b : Int) (l r : Value F) (s t : String) :
    (fitsInt32 (a + b) → op_add fl st (.int_val a) (.int_val b) = (some (.int_val (a + b)), st))
    ∧ (fitsInt32 (a - b) →
        op_subtract fl st (.int_val a) (.int_val b) = (some (.int_val (a - b)), st))
    ∧ (fitsInt32 (a * b) →
        op_multiply fl st (.int_val a) (.int_val b) = (some (.int_val (a * b)), st))
    ∧ (l.isNumeric = true → r.isNumeric = true → (l.type = VAL_FLOAT ∨ r.type = VAL_FLOAT) →
        op_add fl st l r = (some (.float_val (fl.add (l.toDouble fl) (r.toDouble fl))), st)
        ∧ op_subtract fl st l r
            = (some (.float_val (fl.sub (l.toDouble fl) (r.toDouble fl))), st)
        ∧ op_multiply fl st l r
            = (some (.float_val (fl.mul (l.toDouble fl) (r.toDouble fl))), st))
    ∧ op_add fl st (.string_val s) (.string_val t) = (some (.string_val (s ++ t)), st)
    ∧ (¬ (l.isNumeric = true ∧ r.isNumeric = true) →
        ¬ (l.type = VAL_STRING ∧ r.type = VAL_STRING) →
        op_add fl st l r = (none, runtime_error st))
    ∧ (¬ (l.isNumeric = true ∧ r.isNumeric = true) →
        op_subtract fl st l r = (none, runtime_error st)
        ∧ op_multiply fl st l r = (none, runtime_error st))
    ∧ (runtime_error st).has_runtime_error = true := by
  refine ⟨?_, ?_, ?_, ?_, ?_, ?_, ?_, rfl⟩
  · intro h
    simp [op_add, value_create_int, wrap32_of_fits _ h]
  · intro h
    simp [op_subtract, value_create_int, wrap32_of_fits _ h]
  · intro h
    simp [op_multiply, value_create_int, wrap32_of_fits _ h]
  · intro hl hr hf
    cases l <;> cases r <;>
      simp_all [op_add, op_subtract, op_multiply, Value.isNumeric, Value.type, Value.toDouble]
  · simp [op_add, Value.isNumeric]
  · intro hn hs
    cases l <;> cases r <;>
      simp_all [op_add, Value.isNumeric, Value.type]
  · intro hn
    cases l <;> cases r <;>
      simp_all [op_subtract, op_multiply, Value.isNumeric]

/-- C9, at concrete inputs: `2 + 3` is the `int` 5, and `1 + "a"` raises a runtime error. -/
theorem arithmetic_operators_contract_witness :
    op_add exactArithmetic interpreter_init (.int_val 2) (.int_val 3)
      = (some (.int_val 5), interpreter_init)
    ∧ op_add exactArithmetic interpreter_init (.int_val 1) (.string_val "a")
      = (none, runtime_error interpreter_init) :=
  ⟨(arithmetic_operators_contract exactArithmetic interpreter_init 2 3
      (.int_val 1) (.string_val "a") "" "").1 (by unfold fitsInt32; omega),
   (arithmetic_operators_contract exactArithmetic interpreter_init 2 3
      (.int_val 1) (.string_val "a") "" "").2.2.2.2.2.1
      (by simp [Value.isNumeric]) (by simp [Value.type])⟩

/-! ## Division -/

theorem wrap32_zero : wrap32 0 = 0 := by decide

theorem wrap32_five : wrap32 5 = 5 := by decide

/-- C10. On numeric operands `/` yields a `float`, also when both operands are `int`; when
the right operand is zero as a `double` (`r == 0.0`), in particular when it is the `int` 0,
it raises a runtime error and yields no value; and `interpreter_execute` returns 0
(failure) on the programs `5 / 0;` and `5 / 0.0;`.  The two facts about `double`s used are
hypotheses: `(double) 0 == 0.0` and `atof("0.0") == 0.0`. -/
theorem divide_contract {F : Type} (fl : DoubleOps F) (st : Interpreter F)
    (l r : Value F) (a b : Int) (n : Nat)
    (hzero : fl.isZero (fl.ofInt 0) = true)
    (hlit : fl.isZero (fl.atof "0.0") = true) :
    (l.isNumeric = true → r.isNumeric = true → fl.isZero (r.toDouble fl) = false →
        op_divide fl st l r
          = (some (.float_val (fl.div (l.toDouble fl) (r.toDouble fl))), st))
    ∧ (fl.isZero (fl.ofInt b) = false →
        op_divide fl st (.int_val a) (.int_val b)
          = (some (.float_val (fl.div (fl.ofInt a) (fl.ofInt b))), st))
    ∧ (l.isNumeric = true → r.isNumeric = true → fl.isZero (r.toDouble fl) = true →
        op_divide fl st l r = (none, runtime_error st))
    ∧ (l.isNumeric = true → op_divide fl st l (.int_val 0) = (none, runtime_error st))
    ∧ (runtime_error st).has_runtime_error = true
    ∧ (∃ st', interpreter_execute fl (n + 8) (some program_five_div_zero) interpreter_init
          = .done 0 st' ∧ st'.has_runtime_error = true)
    ∧ (∃ st', interpreter_execute fl (n + 8) (some program_five_div_zero_float)
          interpreter_init = .done 0 st' ∧ st'.has_runtime_error = true) := by
  refine ⟨?_, ?_, ?_, ?_, rfl, ?_, ?_⟩
  · intro hl hr hz
    simp [op_divide, hl, hr, hz]
  · intro hz
    simp [op_divide, Value.isNumeric, Value.toDouble, hz]
  · intro hl hr hz
    simp [op_divide, hl, hr, hz]
  · intro hl
    simp [op_divide, hl, Value.isNumeric, Value.toDouble, hzero]
  · simp [interpreter_execute, execute_program, execute_statement, execute_block,
      execute_block_loop, execute_expression, execute_binary_expr, execute_literal_expr,
      program_five_div_zero, interpreter_init, binary_switch, op_divide, value_create_int,
      wrap32_zero, wrap32_five, Value.isNumeric, Value.toDouble, hzero, runtime_error]
  · simp [interpreter_execute, execute_program, execute_statement, execute_block,
      execute_block_loop, execute_expression, execute_binary_expr, execute_literal_expr,
      program_five_div_zero_float, interpreter_init, binary_switch, op_divide,
      value_create_int, wrap32_five, Value.isNumeric, Value.toDouble, hlit, runtime_error]

/-- C10, with exact rational arithmetic in the place of `double`: `5 / 0` raises a runtime
error and `interpreter_execute` fails on the program `5 / 0;`. -/
theorem divide_contract_witness :
    op_divide exactArithmetic interpreter_init (.int_val 5) (.int_val 0)
      = (none, runtime_error interpreter_init)
    ∧ ∃ st', interpreter_execute exactArithmetic 8 (some program_five_div_zero) interpreter_init
          = .done 0 st' ∧ st'.has_runtime_error = true :=
  have h := divide_contract exactArithmetic interpreter_init (.int_val 5) (.int_val 0) 5 0 0
    (by simp [exactArithmetic])
    (by simp [exactArithmetic, decimalValue, leadingDigits, digitVal])
  ⟨h.2.2.2.1 rfl, h.2.2.2.2.2.1⟩

/-! ## Assignment to a variable -/

theorem environment_assign_var_unbound {F : Type} (chain : List (Environment F))
    (name : String) (value : Option (Value F))
    (h : ∀ env ∈ chain, env.binds name = false) :
    environment_assign_var chain name value = (false, chain) := by
  induction chain with
  | nil => rfl
  | cons env rest ih =>
    have h1 : hashtable_has env.variables_ name = false := h env (List.mem_cons_self _ _)
    have h2 := ih (fun x hx => h x (List.mem_cons_of_mem _ hx))
    simp [environment_assign_var, h1, h2]

theorem environment_assign_var_bound {F : Type} (pre post : List (Environment F))
    (env : Environment F) (name : String) (value : Option (Value F))
    (hpre : ∀ x ∈ pre, x.binds name = false) (henv : env.binds name = true) :
    environment_assign_var (pre ++ env :: post) name value
      = (true, pre ++ environment_define_var env name value :: post) := by
  induction pre with
  | nil =>
    have h1 : hashtable_has env.variables_ name = true := henv
    simp [environment_assign_var, h1]
  | cons x rest ih =>
    have h1 : hashtable_has x.variables_ name = false := hpre x (List.mem_cons_self _ _)
    have h2 := ih (fun y hy => hpre y (List.mem_cons_of_mem _ hy))
    simp [environment_assign_var, h1, h2]

theorem environment_define_var_get {F : Type} (env : Environment F) (name : String)
    (value : Option (Value F)) :
    (env.variables_.WF →
      hashtable_get (environment_define_var env name value).variables_ name = value)
    ∧ (∀ other, other ≠ name →
        hashtable_get (environment_define_var env name value).variables_ other
          = hashtable_get env.variables_ other)
    ∧ (environment_define_var env name value).functions = env.functions := by
  obtain ⟨vars, functions⟩ := env
  refine ⟨fun h => hashtable_get_set_same vars name value h,
    fun other hne => hashtable_get_set_other vars name other value hne, rfl⟩

/-- C8. `environment_assign_var(env, name, v)` on a chain in which `env` is the innermost
environment that binds `name` (none of the environments `pre` before it does) rebinds `name`
to `v` in that environment, leaves every other binding of that environment, its function
table and every other environment of the chain as they were, and returns 1; on a chain in
which no environment binds `name` it returns 0 and changes nothing.  `execute_assignment`
then raises a runtime error and yields no value in the second case, and in the first
yields the assigned value, in the state with the rebound chain. -/
theorem environment_assign_var_contract {F : Type} (fl : DoubleOps F)
    (pre post : List (Environment F)) (env : Environment F) (name : String)
    (v : Option (Value F)) (fuel : Nat) (value_node : ASTNode) (st st1 : Interpreter F)
    (hpre : ∀ x ∈ pre, x.binds name = false) (henv : env.binds name = true)
    (hwf : env.variables_.WF)
    (hvalue : execute_expression fl fuel (some value_node) st = .done v st1)
    (hok : st1.has_runtime_error = false) :
    environment_assign_var (pre ++ env :: post) name v
        = (true, pre ++ environment_define_var env name v :: post)
    ∧ hashtable_get (environment_define_var env name v).variables_ name = v
    ∧ (∀ other, other ≠ name →
        hashtable_get (environment_define_var env name v).variables_ other
          = hashtable_get env.variables_ other)
    ∧ (environment_define_var env name v).functions = env.functions
    ∧ environment_assign_var pre name v = (false, pre)
    ∧ (st1.envs = pre →
        execute_assignment fl (fuel + 1) name value_node st = .done none (runtime_error st1)
        ∧ (runtime_error st1).has_runtime_error = true)
    ∧ (st1.envs = pre ++ env :: post →
        execute_assignment fl (fuel + 1) name value_node st
          = .done v { st1 with envs := pre ++ environment_define_var env name v :: post }) := by
  have hb := environment_assign_var_bound pre post env name v hpre henv
  have hu := environment_assign_var_unbound pre name v hpre
  have hg := environment_define_var_get env name v
  refine ⟨hb, hg.1 hwf, hg.2.1, hg.2.2, hu, ?_, ?_⟩
  · intro he
    refine ⟨?_, rfl⟩
    rw [execute_assignment]
    simp only [hvalue, hok, he, hu]
    simp
  · intro he
    rw [execute_assignment]
    simp only [hvalue, hok, he, hb]
    simp

/-- C8, at a concrete input: in a chain whose inner environment is empty and whose outer
environment binds `x`, the assignment `x = 2` rebinds `x` in the outer environment and
evaluates to 2. -/
theorem environment_assign_var_contract_witness :
    execute_assignment exactArithmetic 2 "x" (literal TOKEN_INT_LITERAL (.int_value 2))
        state_x_outer
      = .done (some (.int_val 2))
          { (state_x_outer : Interpreter ℚ) with
            envs := [environment_create,
              environment_define_var
                (environment_define_var environment_create "x" (some (.int_val 1)))
                "x" (some (.int_val 2))] } :=
  (environment_assign_var_contract exactArithmetic [environment_create] []
    (environment_define_var environment_create "x" (some (.int_val 1))) "x"
    (some (.int_val 2)) 1 (literal TOKEN_INT_LITERAL (.int_value 2))
    state_x_outer state_x_outer
    (by simp [Environment.binds, hashtable_has, environment_create_variables,
      hashtable_get_create])
    (by simp [Environment.binds, hashtable_has, environment_define_var_variables,
      environment_create_variables, hashtable_get_set_same, hashtable_create_wf])
    (by simp [environment_define_var_variables, environment_create_variables,
      hashtable_set_wf, hashtable_create_wf])
    (by
      have h2 : wrap32 2 = 2 := by decide
      simp [execute_expression, execute_literal_expr, value_create_int, h2])
    rfl).2.2.2.2.2.2 rfl

/-! ## The value of a call -/

/-- C6, refuted on `let x: int = 0; fn f(): void { x = 5; } print(f());`.  The source text
parses without error to `program_call_without_return`.  The body of `f` executes no
`return`, yet the call `f()` evaluates to the `int` 5, the value of the assignment that
ends the body, and not to `void`: the program prints `5`. -/
theorem call_without_return_yields_last_value {F : Type} (fl : DoubleOps F) (n : Nat) :
    (∃ p, parse_program 40 (parser_init tokens_call_without_return eofToken)
        = .done program_call_without_return p ∧ p.had_error = false)
    ∧ (∃ st', execute_expression fl (n + 10) (some (call_expr "f" [] 0))
          state_call_without_return = .done (some (.int_val 5)) st'
        ∧ st'.should_return = false ∧ st'.has_runtime_error = false)
    ∧ (∃ r st', execute_program fl (n + 20) (some program_call_without_return)
          interpreter_init = .done r st'
        ∧ st'.output = "5\n" ∧ st'.has_runtime_error = false) := by
  have h5 : wrap32 5 = 5 := by decide
  have h0 : wrap32 0 = 0 := by decide
  have hs : toString (5 : Int) = "5" := by decide
  refine ⟨⟨_, rfl, rfl⟩, ?_, ?_⟩
  · simp [state_call_without_return, execute_statement, execute_block, execute_block_loop,
      execute_expression, execute_literal_expr,
      execute_call_expr, execute_user_call, execute_assignment,
      interpreter_init, register_builtin_functions, environment_get_var, environment_get_func,
      environment_assign_var, hashtable_has,
      environment_create_variables, environment_define_var_variables,
      environment_define_func_variables, function_entry_create, function_entry_define_var,
      function_entry_define_func_same, function_entry_define_func_other,
      hashtable_get_create, hashtable_get_set_same, hashtable_get_set_other,
      hashtable_set_wf, hashtable_create_wf, environment_create_wf,
      environment_define_var_functions,
      value_create_int, push_call_frame, pop_call_frame, h5]
  · simp [program_call_without_return, execute_program, execute_statement, execute_block,
      execute_block_loop, execute_variable_decl, execute_expression, execute_literal_expr,
      execute_function_decl, execute_call_expr, execute_builtin_call, builtin_referenced,
      Value.is_builtin, execute_user_call,
      execute_assignment,
      interpreter_init, register_builtin_functions, environment_get_var, environment_get_func,
      environment_assign_var, hashtable_has,
      environment_create_variables, environment_define_var_variables,
      environment_define_func_variables, function_entry_create, function_entry_define_var,
      function_entry_define_func_same, function_entry_define_func_other,
      hashtable_get_create, hashtable_get_set_same, hashtable_get_set_other,
      hashtable_set_wf, hashtable_create_wf, environment_create_wf,
      environment_define_var_functions,
      value_create_int, push_call_frame, pop_call_frame, call_builtin, builtin_print,
      print_text, value_to_string, h5, h0, hs]
    exact ⟨_, _, ⟨rfl, rfl⟩, rfl, rfl⟩

/-! ## Recursion: `fatorial` -/

theorem factorial_fits (k : Nat) (hk : k ≤ 12) : fitsInt32 (k.factorial : Int) := by
  have h1 : k.factorial ≤ Nat.factorial 12 := Nat.factorial_le hk
  have h2 : Nat.factorial 12 = 479001600 := by decide
  unfold fitsInt32
  omega

theorem fatorial_base {F : Type} (fl : DoubleOps F) (q : Nat) (arg : ASTNode)
    (st : Interpreter F)
    (hfun : environment_get_func st.envs "fatorial" = some fatorial_decl)
    (hvar : environment_get_var st.envs "fatorial" = none)
    (hok : st.has_runtime_error = false)
    (harg : execute_expression fl (q + 13) (some arg) st = .done (some (.int_val 0)) st) :
    execute_call_expr fl (q + 15) "fatorial" [arg] 1 st
        = .done (some (.int_val 1)) st := by
  have h0 : wrap32 0 = 0 := by decide
  have h1 : wrap32 1 = 1 := by decide
  obtain ⟨envs, sr, rv, sb, sc, ec, hre, cs, out⟩ := st
  simp only at hfun hvar hok harg
  subst hok
  simp only [execute_call_expr, execute_user_call, hfun, hvar, fatorial_decl, harg]
  simp [execute_statement, execute_block, execute_block_loop, execute_if_statement,
      execute_return_statement,
      execute_expression, execute_binary_expr, execute_literal_expr, execute_variable_expr,
      environment_get_var, binary_switch, op_compare_eq,
      environment_create_variables, environment_define_var_variables,
      hashtable_get_create, hashtable_get_set_same, hashtable_create_wf,
      value_create_int, push_call_frame, pop_call_frame, h0, h1]

theorem fatorial_call_spec {F : Type} (fl : DoubleOps F) (k : Nat) :
    k ≤ 12 → ∀ (q : Nat) (arg : ASTNode) (st : Interpreter F),
      environment_get_func st.envs "fatorial" = some fatorial_decl →
      environment_get_var st.envs "fatorial" = none →
      st.has_runtime_error = false →
      (∀ j, execute_expression fl (j + 3) (some arg) st = .done (some (.int_val k)) st) →
      execute_call_expr fl (16 * k + 15 + q) "fatorial" [arg] 1 st
        = .done (some (.int_val (k.factorial : Int))) st := by
  have h0 : wrap32 0 = 0 := by decide
  have h1 : wrap32 1 = 1 := by decide
  induction k with
  | zero =>
    intro _ q arg st hfun hvar hok harg
    have h := fatorial_base fl q arg st hfun hvar hok (by simpa using harg (q + 10))
    rw [show 16 * 0 + 15 + q = q + 15 by omega]
    simpa using h
  | succ k ih =>
    intro hk q arg st hfun hvar hok harg
    obtain ⟨envs, sr, rv, sb, sc, ec, hre, cs, out⟩ := st
    simp only at hfun hvar hok harg
    subst hok
    have hsub : wrap32 (k : Int) = k := by
      apply wrap32_of_fits
      unfold fitsInt32
      omega
    have hmul : wrap32 (((k : Int) + 1) * (k.factorial : Int)) = ((k + 1).factorial : Int) := by
      have hf := factorial_fits (k + 1) hk
      rw [Nat.factorial_succ] at hf ⊢
      push_cast at hf ⊢
      exact wrap32_of_fits _ hf
    have hne : ¬ ((k : Int) + 1 = 0) := by omega
    have hinner := ih (by omega) (q + 1)
      (binary_expr TOKEN_MINUS (some (var_expr "n")) (literal TOKEN_INT_LITERAL (.int_value 1)))
      { envs := environment_create :: environment_create ::
          environment_define_var environment_create "n" (some (.int_val ((k : Int) + 1))) :: envs,
        should_return := false, return_value := none, should_break := sb,
        should_continue := sc, error_count := ec, has_runtime_error := false,
        call_stack := "fatorial" :: cs, output := out }
      (by
        simp [environment_get_func, function_entry_create, function_entry_define_var, hfun])
      (by
        simp [environment_get_var, environment_create_variables,
          environment_define_var_variables, hashtable_get_create, hashtable_get_set_other,
          hashtable_create_wf, hvar])
      rfl
      (by
        intro j
        simp [execute_expression, execute_binary_expr, execute_literal_expr,
          execute_variable_expr, environment_get_var, binary_switch, op_subtract,
          environment_create_variables, environment_define_var_variables,
          hashtable_get_create, hashtable_get_set_same, hashtable_create_wf,
          value_create_int, h1, hsub])
    have ha := harg (16 * k + 15 + (q + 1) + 10)
    rw [show 16 * (k + 1) + 15 + q = (16 * k + 15 + (q + 1)) + 15 by omega]
    rw [show 16 * k + 15 + (q + 1) + 10 + 3 = (16 * k + 15 + (q + 1)) + 13 by omega] at ha
    generalize 16 * k + 15 + (q + 1) = Q at hinner ha
    push_cast at ha
    simp only [execute_call_expr, execute_user_call, hfun, hvar, fatorial_decl, ha]
    simp [execute_statement, execute_block, execute_block_loop, execute_if_statement,
      execute_return_statement,
      execute_expression, execute_binary_expr, execute_literal_expr, execute_variable_expr,
      environment_get_var, binary_switch, op_compare_eq, op_multiply,
      environment_create_variables, environment_define_var_variables,
      hashtable_get_create, hashtable_get_set_same, hashtable_create_wf,
      value_create_int, push_call_frame, pop_call_frame, h0, h1, hne, hinner, hmul]

theorem test_program_2_parses : ∃ p, parse_program 60 (parser_init test_program_2_tokens eofToken)
        = .done test_program_2 p ∧ p.had_error = false := ⟨_, rfl, rfl⟩

theorem fatorial_declaration_executes {F : Type} (fl : DoubleOps F) (q : Nat) :
  execute_statement fl (q + 1) (some fatorial_decl)
        { (interpreter_init : Interpreter F) with
          envs := environment_create :: (interpreter_init : Interpreter F).envs }
      = .done (some .void) fatorial_declared := by
  simp [execute_statement, fatorial_decl, execute_function_decl, fatorial_declared, interpreter_init]

theorem fatorial_call_literal {F : Type} (fl : DoubleOps F) (n : Int) (h0 : 0 ≤ n) (h12 : n ≤ 12) (q : Nat) :
   execute_expression fl (16 * n.toNat + 16 + q) (some (fatorial_call n)) fatorial_declared
        = .done (some (.int_val (n.toNat.factorial : Int))) fatorial_declared := by
  obtain ⟨k, rfl⟩ := Int.eq_ofNat_of_zero_le h0
  have hk : k ≤ 12 := by omega
  have hw : wrap32 (k : Int) = k := by
    apply wrap32_of_fits
    unfold fitsInt32
    omega
  have h := fatorial_call_spec fl k hk q (literal TOKEN_INT_LITERAL (.int_value (k : Int)))
    fatorial_declared
    (by
      simp [fatorial_declared, environment_get_func, function_entry_define_func_same,
        environment_create_wf])
    (by
      simp [fatorial_declared, interpreter_init, register_builtin_functions,
        environment_get_var, environment_create_variables,
        environment_define_var_variables, environment_define_func_variables,
        hashtable_get_create, hashtable_get_set_other, hashtable_set_wf,
        hashtable_create_wf])
    rfl
    (by
      intro j
      simp [execute_expression, execute_literal_expr, value_create_int, hw])
  rw [show 16 * (k : Int).toNat + 16 + q = (16 * k + 15 + q) + 1 by simp; omega]
  simp only [fatorial_call, execute_expression, Int.toNat_ofNat]
  exact h

theorem test_program_2_prints {F : Type} (fl : DoubleOps F) (q : Nat) :
    ∃ r st', execute_program fl (q + 120) (some test_program_2) interpreter_init = .done r st'
      ∧ st'.output = "Fatorial de 5 é 120\n" ∧ st'.has_runtime_error = false := by
  have h5 : wrap32 5 = 5 := by decide
  have hs5 : toString (5 : Int) = "5" := by decide
  have hs120 : toString (120 : Int) = "120" := by decide
  have hwf : ∀ V : Type, (hashtable_create 32 : HashTable V).WF :=
    fun _ => hashtable_create_wf 32 (by decide)
  have hstate : ∀ st : Interpreter F,
      st = (⟨[environment_define_var
                (environment_define_func environment_create "fatorial" fatorial_decl)
                "num" (some (.int_val 5)),
              register_builtin_functions environment_create],
            false, none, false, false, 0, false, [], ""⟩ : Interpreter F) →
      ∀ e, execute_call_expr fl (q + 95 + e) "fatorial" [var_expr "num"] 1 st
        = .done (some (.int_val 120)) st := by
    intro st hst e
    have h := fatorial_call_spec fl 5 (by decide) (q + e) (var_expr "num") st
      (by
        subst hst
        simp [environment_get_func, function_entry_define_var,
          function_entry_define_func_same, environment_create_wf])
      (by
        subst hst
        simp [register_builtin_functions,
          environment_get_var, environment_create_variables,
          environment_define_var_variables, environment_define_func_variables,
          hashtable_get_create, hashtable_get_set_other, hashtable_set_wf,
          hashtable_create_wf])
      (by subst hst; rfl)
      (by
        intro j
        subst hst
        simp [execute_expression, execute_variable_expr, environment_get_var,
          environment_create_variables,
          environment_define_var_variables, environment_define_func_variables,
          hashtable_get_create, hashtable_get_set_same, hashtable_set_wf,
          hashtable_create_wf])
    rw [show q + 95 + e = 16 * 5 + 15 + (q + e) by omega]
    exact h
  have hcall := hstate _ rfl
  rw [show q + 120 = (q + 95) + 25 by omega]
  generalize q + 95 = Q at hcall
  simp only [register_builtin_functions, fatorial_decl] at hcall
  simp [test_program_2, fatorial_decl, execute_program, execute_statement, execute_block,
      execute_block_loop, execute_variable_decl, execute_expression, execute_literal_expr,
      execute_variable_expr, execute_function_decl,
      interpreter_init, register_builtin_functions, environment_get_var, hashtable_has,
      environment_create_variables, environment_define_var_variables,
      environment_define_func_variables,
      hashtable_get_create, hashtable_get_set_same, hashtable_get_set_other,
      hashtable_set_wf, hashtable_create_wf,
      value_create_int, h5, hcall]
  simp [execute_call_expr, execute_builtin_call, builtin_referenced,
      Value.is_builtin, execute_expression, execute_literal_expr,
      execute_variable_expr,
      environment_get_var, environment_create_variables, environment_define_var_variables,
      environment_define_func_variables,
      hashtable_get_create, hashtable_get_set_same, hashtable_get_set_other,
      hashtable_set_wf, hashtable_create_wf,
      call_builtin, builtin_print,
      print_text, value_to_string, hs5, hs120, hwf]
  exact ⟨_, _, ⟨rfl, rfl⟩, rfl, rfl⟩

/-- C5. With `fatorial` declared as in `test_program_2`, for every `int` `n` with
`0 <= n <= 12` the call `fatorial(n)` returns, from `16 * n + 16` units of fuel on, the
`int` `n!` and leaves the interpreter state, which has no runtime error, as it was; in
particular `fatorial(5)` is 120 and `fatorial(10)` is 3628800.  The state in which the call
is evaluated is the one the declaration produces at top level, the source text of
`test_program_2` parses to the program executed here, and that program prints
`Fatorial de 5 é 120`. -/
theorem fatorial_computes_factorial {F : Type} (fl : DoubleOps F) (n : Int)
    (h0 : 0 ≤ n) (h12 : n ≤ 12) (q : Nat) :
    execute_expression fl (16 * n.toNat + 16 + q) (some (fatorial_call n)) fatorial_declared
        = .done (some (.int_val (n.toNat.factorial : Int))) fatorial_declared
    ∧ (fatorial_declared : Interpreter F).has_runtime_error = false
    ∧ execute_expression fl (96 + q) (some (fatorial_call 5)) fatorial_declared
        = .done (some (.int_val 120)) fatorial_declared
    ∧ execute_expression fl (176 + q) (some (fatorial_call 10)) fatorial_declared
        = .done (some (.int_val 3628800)) fatorial_declared
    ∧ execute_statement fl (q + 1) (some fatorial_decl)
        { (interpreter_init : Interpreter F) with
          envs := environment_create :: (interpreter_init : Interpreter F).envs }
        = .done (some .void) fatorial_declared
    ∧ (∃ p, parse_program 60 (parser_init test_program_2_tokens eofToken)
        = .done test_program_2 p ∧ p.had_error = false)
    ∧ (∃ r st', execute_program fl (q + 120) (some test_program_2) interpreter_init
          = .done r st'
        ∧ st'.output = "Fatorial de 5 é 120\n" ∧ st'.has_runtime_error = false) := by
  refine ⟨fatorial_call_literal fl n h0 h12 q, rfl, ?_, ?_,
    fatorial_declaration_executes fl q, test_program_2_parses, test_program_2_prints fl q⟩
  · have h := fatorial_call_literal fl 5 (by decide) (by decide) q
    have hf : ((5 : Int).toNat.factorial : Int) = 120 := by decide
    have hq : 16 * (5 : Int).toNat + 16 + q = 96 + q := by
      have : (5 : Int).toNat = 5 := by decide
      omega
    rw [hf, hq] at h
    exact h
  · have h := fatorial_call_literal fl 10 (by decide) (by decide) q
    have hf : ((10 : Int).toNat.factorial : Int) = 3628800 := by decide
    have hq : 16 * (10 : Int).toNat + 16 + q = 176 + q := by
      have : (10 : Int).toNat = 10 := by decide
      omega
    rw [hf, hq] at h
    exact h

theorem fatorial_computes_factorial_witness :
    (0 : Int) ≤ 7 ∧ (7 : Int) ≤ 12
    ∧ execute_expression exactArithmetic (16 * (7 : Int).toNat + 16 + 0)
        (some (fatorial_call 7)) fatorial_declared
        = .done (some (.int_val ((7 : Int).toNat.factorial : Int))) fatorial_declared :=
  ⟨by decide, by decide,
    (fatorial_computes_factorial exactArithmetic 7 (by decide) (by decide) 0).1⟩

/-! ## Shadowing -/

section Shadowing

variable {F : Type} {x : String} {d : Nat} {v : Option (Value F)}

theorem Shadowed.length_le {envs : List (Environment F)} (h : Shadowed x d v envs) :
    d + 1 ≤ envs.length := by
  obtain ⟨pre, inner, outer, rfl, hlen, -⟩ := h
  simp [hlen]

theorem Shadowed.cons {envs : List (Environment F)} (h : Shadowed x d v envs)
    (e : Environment F) : Shadowed x d v (e :: envs) := by
  obtain ⟨pre, inner, outer, rfl, hlen, hwf, hb, hv⟩ := h
  exact ⟨e :: pre, inner, outer, rfl, hlen, hwf, hb, hv⟩

theorem Shadowed.tail {envs : List (Environment F)} (h : Shadowed x d v envs)
    (hlen : d + 2 ≤ envs.length) : Shadowed x d v envs.tail := by
  obtain ⟨pre, inner, outer, rfl, hl, hwf, hb, hv⟩ := h
  cases pre with
  | nil => simp [hl] at hlen
  | cons p pre => exact ⟨pre, inner, outer, rfl, hl, hwf, hb, hv⟩

theorem Shadowed.head_unbound {cur : Environment F} {parent : List (Environment F)}
    (h : Shadowed x d v (cur :: parent)) (hcur : hashtable_get cur.variables_ x = none) :
    d + 2 ≤ (cur :: parent).length := by
  obtain ⟨pre, inner, outer, heq, hl, hwf, hb, hv⟩ := h
  cases pre with
  | nil =>
    simp only [List.nil_append, List.cons.injEq] at heq
    obtain ⟨rfl, rfl⟩ := heq
    simp [Environment.binds, hashtable_has, hcur] at hb
  | cons p pre =>
    rw [heq]
    simp [hl]

theorem Shadowed.replace_head {cur cur1 : Environment F} {parent : List (Environment F)}
    (h : Shadowed x d v (cur :: parent))
    (hkeep : d + 2 ≤ (cur :: parent).length ∨
      (cur.variables_.WF → cur.binds x = true → cur1.variables_.WF ∧ cur1.binds x = true)) :
    Shadowed x d v (cur1 :: parent) := by
  obtain ⟨pre, inner, outer, heq, hl, hwf, hb, hv⟩ := h
  cases pre with
  | nil =>
    simp only [List.nil_append, List.cons.injEq] at heq
    obtain ⟨rfl, rfl⟩ := heq
    rcases hkeep with hk | hk
    · simp [hl] at hk
    · obtain ⟨h1, h2⟩ := hk hwf hb
      exact ⟨[], cur1, parent, rfl, hl, h1, h2, hv⟩
  | cons p pre =>
    simp only [List.cons_append, List.cons.injEq] at heq
    obtain ⟨rfl, rfl⟩ := heq
    exact ⟨cur1 :: pre, inner, outer, rfl, hl, hwf, hb, hv⟩

theorem binds_define_var (env : Environment F) (name : String) (value : Value F)
    (hwf : env.variables_.WF) (hb : env.binds x = true) :
    (environment_define_var env name (some value)).variables_.WF
      ∧ (environment_define_var env name (some value)).binds x = true := by
  refine ⟨?_, ?_⟩
  · rw [environment_define_var_variables]
    exact hashtable_set_wf _ _ _ hwf
  · by_cases hname : x = name
    · subst hname
      simp [Environment.binds, hashtable_has, environment_define_var_variables,
        hashtable_get_set_same _ _ _ hwf]
    · simpa [Environment.binds, hashtable_has, environment_define_var_variables,
        hashtable_get_set_other _ _ _ _ hname] using hb

theorem binds_define_var_other (env : Environment F) (name : String)
    (value : Option (Value F)) (hname : name ≠ x)
    (hwf : env.variables_.WF) (hb : env.binds x = true) :
    (environment_define_var env name value).variables_.WF
      ∧ (environment_define_var env name value).binds x = true := by
  refine ⟨?_, ?_⟩
  · rw [environment_define_var_variables]
    exact hashtable_set_wf _ _ _ hwf
  · simpa [Environment.binds, hashtable_has, environment_define_var_variables,
      hashtable_get_set_other _ _ _ _ (Ne.symm hname)] using hb

theorem environment_assign_var_length (chain : List (Environment F)) (name : String)
    (value : Option (Value F)) :
    (environment_assign_var chain name value).2.length = chain.length := by
  induction chain with
  | nil => rfl
  | cons env rest ih =>
    rw [environment_assign_var]
    split <;> simp [ih]

theorem environment_assign_var_other (chain : List (Environment F)) (name : String)
    (value : Option (Value F)) (hname : name ≠ x) :
    environment_get_var (environment_assign_var chain name value).2 x
      = environment_get_var chain x := by
  induction chain with
  | nil => rfl
  | cons env rest ih =>
    rw [environment_assign_var]
    split
    · simp [environment_get_var, environment_define_var_variables,
        hashtable_get_set_other _ _ _ _ (Ne.symm hname)]
    · simp [environment_get_var, ih]

theorem Shadowed.assign {envs : List (Environment F)} (h : Shadowed x d v envs)
    (name : String) (value : Value F) :
    Shadowed x d v (environment_assign_var envs name (some value)).2 := by
  obtain ⟨pre, inner, outer, rfl, hl, hwf, hb, hv⟩ := h
  induction pre with
  | nil =>
    rw [List.nil_append, environment_assign_var]
    split
    · obtain ⟨h1, h2⟩ := binds_define_var inner name value hwf hb
      exact ⟨[], _, outer, rfl, hl, h1, h2, hv⟩
    · rename_i hnot
      have hname : name ≠ x := by
        rintro rfl
        exact hnot hb
      refine ⟨[], inner, _, rfl, ?_, hwf, hb, ?_⟩
      · rw [environment_assign_var_length, hl]
      · rw [environment_assign_var_other _ _ _ hname, hv]
  | cons p pre ih =>
    rw [List.cons_append, environment_assign_var]
    split
    · exact ⟨_ :: pre, inner, outer, rfl, hl, hwf, hb, hv⟩
    · exact Shadowed.cons ih p

theorem Frame.refl (envs : List (Environment F)) : Frame x d v envs envs :=
  ⟨rfl, id⟩

theorem Frame.trans {a b c : List (Environment F)} (h1 : Frame x d v a b)
    (h2 : Frame x d v b c) : Frame x d v a c :=
  ⟨h2.1.trans h1.1, fun h => h2.2 (h1.2 h)⟩

theorem Frame.then_pop {a b : List (Environment F)} (h1 : Frame x d v a b) :
    FramePop x d v a b.tail := by
  refine ⟨by simp [h1.1], fun h => ?_⟩
  have h2 := h1.2 h
  have hl := h2.length_le
  cases b with
  | nil => simp at hl
  | cons e rest => exact ⟨e, h2⟩

theorem FramePop.after {a b c : List (Environment F)} (h1 : Frame x d v a b)
    (h2 : FramePop x d v b c) : FramePop x d v a c :=
  ⟨by rw [h2.1, h1.1], fun h => h2.2 (h1.2 h)⟩

theorem FramePop.of_push {a c : List (Environment F)} (e : Environment F)
    (h : FramePop x d v (e :: a) c) : Frame x d v a c := by
  refine ⟨by simpa using h.1, fun hs => ?_⟩
  obtain ⟨e1, h1⟩ := h.2 (hs.cons e)
  have hl := hs.length_le
  have := h1.tail (by simp [h.1]; omega)
  simpa using this

end Shadowing

/-! ## Values of expressions

An expression that ends without a runtime error has a value, and the operator
routines and the built-in functions leave the chain of environments alone. -/

section NonNull

variable {F : Type} (fl : DoubleOps F)

theorem op_add_ok (st : Interpreter F) (l r : Value F) :
    (op_add fl st l r).2.envs = st.envs
      ∧ ((op_add fl st l r).2.has_runtime_error = false → (op_add fl st l r).1.isSome = true) := by
  unfold op_add
  repeat' split
  all_goals simp [runtime_error]

theorem op_subtract_ok (st : Interpreter F) (l r : Value F) :
    (op_subtract fl st l r).2.envs = st.envs
      ∧ ((op_subtract fl st l r).2.has_runtime_error = false →
          (op_subtract fl st l r).1.isSome = true) := by
  unfold op_subtract
  repeat' split
  all_goals simp [runtime_error]

theorem op_multiply_ok (st : Interpreter F) (l r : Value F) :
    (op_multiply fl st l r).2.envs = st.envs
      ∧ ((op_multiply fl st l r).2.has_runtime_error = false →
          (op_multiply fl st l r).1.isSome = true) := by
  unfold op_multiply
  repeat' split
  all_goals simp [runtime_error]

theorem op_divide_ok (st : Interpreter F) (l r : Value F) :
    (op_divide fl st l r).2.envs = st.envs
      ∧ ((op_divide fl st l r).2.has_runtime_error = false →
          (op_divide fl st l r).1.isSome = true) := by
  unfold op_divide
  repeat' split
  all_goals simp [runtime_error]

theorem op_compare_gt_ok (st : Interpreter F) (l r : Value F) :
    (op_compare_gt fl st l r).2.envs = st.envs
      ∧ ((op_compare_gt fl st l r).2.has_runtime_error = false →
          (op_compare_gt fl st l r).1.isSome = true) := by
  unfold op_compare_gt
  repeat' split
  all_goals simp [runtime_error]

theorem op_compare_lt_ok (st : Interpreter F) (l r : Value F) :
    (op_compare_lt fl st l r).2.envs = st.envs
      ∧ ((op_compare_lt fl st l r).2.has_runtime_error = false →
          (op_compare_lt fl st l r).1.isSome = true) := by
  unfold op_compare_lt
  repeat' split
  all_goals simp [runtime_error]

theorem op_compare_gte_ok (st : Interpreter F) (l r : Value F) :
    (op_compare_gte fl st l r).2.envs = st.envs
      ∧ ((op_compare_gte fl st l r).2.has_runtime_error = false →
          (op_compare_gte fl st l r).1.isSome = true) := by
  unfold op_compare_gte op_compare_gt
  by_cases h : (l.isNumeric && r.isNumeric) = true <;> simp [h, runtime_error]

theorem op_compare_lte_ok (st : Interpreter F) (l r : Value F) :
    (op_compare_lte fl st l r).2.envs = st.envs
      ∧ ((op_compare_lte fl st l r).2.has_runtime_error = false →
          (op_compare_lte fl st l r).1.isSome = true) := by
  unfold op_compare_lte op_compare_lt
  by_cases h : (l.isNumeric && r.isNumeric) = true <;> simp [h, runtime_error]

theorem binary_switch_ok (st : Interpreter F) (op : TokenType) (l r : Value F) :
    (binary_switch fl st op l r).2.envs = st.envs
      ∧ ((binary_switch fl st op l r).2.has_runtime_error = false →
          (binary_switch fl st op l r).1.isSome = true) := by
  cases op
  case TOKEN_PLUS => exact op_add_ok fl st l r
  case TOKEN_MINUS => exact op_subtract_ok fl st l r
  case TOKEN_STAR => exact op_multiply_ok fl st l r
  case TOKEN_SLASH => exact op_divide_ok fl st l r
  case TOKEN_GREATER => exact op_compare_gt_ok fl st l r
  case TOKEN_LESS => exact op_compare_lt_ok fl st l r
  case TOKEN_GREATER_EQUAL => exact op_compare_gte_ok fl st l r
  case TOKEN_LESS_EQUAL => exact op_compare_lte_ok fl st l r
  all_goals simp [binary_switch, op_compare_neq, runtime_error]

theorem unary_switch_ok (st : Interpreter F) (op : TokenType) (operand : Value F) :
    (unary_switch fl st op operand).2.envs = st.envs
      ∧ ((unary_switch fl st op operand).2.has_runtime_error = false →
          (unary_switch fl st op operand).1.isSome = true) := by
  unfold unary_switch
  repeat' split
  all_goals simp [runtime_error]

theorem call_builtin_ok (function : BuiltinFn) (st : Interpreter F)
    (args : List (Option (Value F))) (r : Option (Value F)) (st1 : Interpreter F)
    (h : call_builtin fl function st args = .done r st1) :
    st1.envs = st.envs ∧ (st1.has_runtime_error = false → r.isSome = true) := by
  cases function
  · simp only [call_builtin, builtin_print, Exec.done.injEq] at h
    obtain ⟨rfl, rfl⟩ := h
    simp
  · simp only [call_builtin, builtin_type] at h
    repeat' split at h
    all_goals first
      | (cases h; done)
      | (cases h; simp [runtime_error])
  · simp only [call_builtin, builtin_len] at h
    repeat' split at h
    all_goals first
      | (cases h; done)
      | (cases h; simp [runtime_error])

end NonNull

section NonNullInduction

variable {F : Type} (fl : DoubleOps F)

theorem non_null_all (n : Nat) :
    (∀ node st r st1, execute_expression fl n node st = .done r st1 →
        st1.has_runtime_error = false → r.isSome = true)
    ∧ (∀ op l rn st r st1, execute_binary_expr fl n op l rn st = .done r st1 →
        st1.has_runtime_error = false → r.isSome = true)
    ∧ (∀ op operand st r st1, execute_unary_expr fl n op operand st = .done r st1 →
        st1.has_runtime_error = false → r.isSome = true)
    ∧ (∀ name value st r st1, execute_assignment fl n name value st = .done r st1 →
        st1.has_runtime_error = false → r.isSome = true)
    ∧ (∀ name function arguments remaining args st r st1,
        execute_builtin_call fl n name function arguments remaining args st = .done r st1 →
        st1.has_runtime_error = false → r.isSome = true)
    ∧ (∀ func_name body arguments params remaining function_env st r st1,
        execute_user_call fl n func_name body arguments params remaining function_env st
          = .done r st1 →
        st1.has_runtime_error = false → r.isSome = true)
    ∧ (∀ name arguments arg_count st r st1,
        execute_call_expr fl n name arguments arg_count st = .done r st1 →
        st1.has_runtime_error = false → r.isSome = true) := by
  induction n with
  | zero =>
    refine ⟨?_, ?_, ?_, ?_, ?_, ?_, ?_⟩
    · intro node st r st1 h; rw [execute_expression] at h; cases h
    · intro op l rn st r st1 h; rw [execute_binary_expr] at h; cases h
    · intro op operand st r st1 h; rw [execute_unary_expr] at h; cases h
    · intro name value st r st1 h; rw [execute_assignment] at h; cases h
    · intro name function arguments remaining args st r st1 h
      rw [execute_builtin_call] at h; cases h
    · intro func_name body arguments params remaining function_env st r st1 h
      rw [execute_user_call] at h; cases h
    · intro name arguments arg_count st r st1 h; rw [execute_call_expr] at h; cases h
  | succ n ih =>
    obtain ⟨ihE, ihB, ihU, ihA, ihBC, ihUC, ihC⟩ := ih
    refine ⟨?_, ?_, ?_, ?_, ?_, ?_, ?_⟩
    · intro node st r st1 h hok
      cases node with
      | none =>
        simp only [execute_expression, Exec.done.injEq] at h
        simp [← h.1]
      | some nd =>
        simp only [execute_expression] at h
        split at h
        · exact ihB _ _ _ _ _ _ h hok
        · exact ihU _ _ _ _ _ h hok
        · exact ihA _ _ _ _ _ h hok
        · exact ihC _ _ _ _ _ _ h hok
        · simp only [execute_variable_expr] at h
          split at h
          · cases h; simp [runtime_error] at hok
          · cases h; rfl
        · simp only [execute_literal_expr] at h
          split at h
          all_goals first
            | (cases h; done)
            | (cases h; rfl)
            | (cases h; simp [runtime_error] at hok; done)
        · cases h; simp [runtime_error] at hok
    · intro op l rn st r st1 h hok
      simp only [execute_binary_expr] at h
      repeat' split at h
      all_goals first
        | (cases h; done)
        | (cases h; simp_all [runtime_error]; done)
        | (cases h; exact (binary_switch_ok fl _ _ _ _).2 hok)
    · intro op operand st r st1 h hok
      simp only [execute_unary_expr] at h
      repeat' split at h
      all_goals first
        | (cases h; done)
        | (cases h; simp_all [runtime_error]; done)
        | (cases h; exact (unary_switch_ok fl _ _ _).2 hok)
    · intro name value st r st1 h hok
      simp only [execute_assignment] at h
      split at h
      · rename_i val st2 hv
        repeat' split at h
        all_goals first
          | (cases h; done)
          | (cases h; simp_all [runtime_error]; done)
          | (cases h; exact ihE _ _ _ _ hv hok)
      · cases h
      · cases h
    · intro name function arguments remaining args st r st1 h hok
      cases remaining with
      | zero =>
        simp only [execute_builtin_call] at h
        split at h
        · exact (call_builtin_ok fl _ _ _ _ _ h).2 hok
        · cases h
      | succ k =>
        cases arguments with
        | nil => simp only [execute_builtin_call] at h; cases h
        | cons a rest =>
          simp only [execute_builtin_call] at h
          repeat' split at h
          all_goals first
            | (cases h; done)
            | (cases h; simp_all [runtime_error]; done)
            | exact ihBC _ _ _ _ _ _ _ _ h hok
    · intro func_name body arguments params remaining function_env st r st1 h hok
      cases remaining with
      | zero =>
        simp only [execute_user_call] at h
        repeat' split at h
        all_goals first
          | (cases h; done)
          | (cases h; rfl)
      | succ k =>
        cases arguments with
        | nil => simp only [execute_user_call] at h; cases h
        | cons a rest =>
          cases params with
          | nil => simp only [execute_user_call] at h; cases h
          | cons p ps =>
            simp only [execute_user_call] at h
            repeat' split at h
            all_goals first
              | (cases h; done)
              | (cases h; simp_all [runtime_error]; done)
              | exact ihUC _ _ _ _ _ _ _ _ _ h hok
    · intro name arguments arg_count st r st1 h hok
      simp only [execute_call_expr] at h
      repeat' split at h
      all_goals first
        | (cases h; done)
        | (cases h; simp_all [runtime_error]; done)
        | exact ihBC _ _ _ _ _ _ _ _ h hok
        | exact ihUC _ _ _ _ _ _ _ _ _ h hok

end NonNullInduction

section FrameInduction

variable {F : Type} (fl : DoubleOps F) (x : String) (d : Nat) (v : Option (Value F))

theorem Frame.define_var {envs : List (Environment F)} {cur0 cur2 : Environment F}
    {t0 parent2 : List (Environment F)} (name : String) (value : Option (Value F))
    (f1 : Frame x d v envs (cur2 :: parent2)) (h0 : envs = cur0 :: t0)
    (hget : hashtable_get cur0.variables_ name = none) :
    Frame x d v envs (environment_define_var cur2 name value :: parent2) := by
  refine ⟨by simpa using f1.1, fun hs => ?_⟩
  have h2 := f1.2 hs
  apply h2.replace_head
  by_cases hname : name = x
  · left
    subst hname
    rw [h0] at hs
    have := hs.head_unbound hget
    have hl := f1.1
    rw [h0] at hl
    rw [hl]
    exact this
  · right
    exact binds_define_var_other _ _ _ hname

theorem Frame.define_func (cur : Environment F) (parent : List (Environment F))
    (name : String) (node : ASTNode) :
    Frame x d v (cur :: parent) (environment_define_func cur name node :: parent) := by
  refine ⟨rfl, fun hs => hs.replace_head (Or.inr ?_)⟩
  intro hwf hb
  simp only [Environment.binds, environment_define_func_variables] at hb ⊢
  exact ⟨hwf, hb⟩

theorem Frame.of_assign (envs : List (Environment F)) (name : String) (value : Value F) :
    Frame x d v envs (environment_assign_var envs name (some value)).2 :=
  ⟨environment_assign_var_length _ _ _, fun hs => hs.assign name value⟩

end FrameInduction

section FrameAll

variable {F : Type} (fl : DoubleOps F) (x : String) (d : Nat) (v : Option (Value F))

theorem frame_all (n : Nat) :
    (∀ node st r st1, execute_statement fl n node st = .done r st1 →
        Frame x d v st.envs st1.envs)
    ∧ (∀ name init dt st r st1, execute_variable_decl fl n name init dt st = .done r st1 →
        Frame x d v st.envs st1.envs)
    ∧ (∀ node st r st1, execute_block fl n node st = .done r st1 →
        Frame x d v st.envs st1.envs)
    ∧ (∀ stmts res st r st1, execute_block_loop fl n stmts res st = .done r st1 →
        FramePop x d v st.envs st1.envs)
    ∧ (∀ c t e st r st1, execute_if_statement fl n c t e st = .done r st1 →
        Frame x d v st.envs st1.envs)
    ∧ (∀ c b res st r st1, execute_while_loop fl n c b res st = .done r st1 →
        Frame x d v st.envs st1.envs)
    ∧ (∀ value st r st1, execute_return_statement fl n value st = .done r st1 →
        Frame x d v st.envs st1.envs)
    ∧ (∀ node st r st1, execute_expression fl n node st = .done r st1 →
        Frame x d v st.envs st1.envs)
    ∧ (∀ op l rn st r st1, execute_binary_expr fl n op l rn st = .done r st1 →
        Frame x d v st.envs st1.envs)
    ∧ (∀ op operand st r st1, execute_unary_expr fl n op operand st = .done r st1 →
        Frame x d v st.envs st1.envs)
    ∧ (∀ name value st r st1, execute_assignment fl n name value st = .done r st1 →
        Frame x d v st.envs st1.envs)
    ∧ (∀ name function arguments remaining args st r st1,
        execute_builtin_call fl n name function arguments remaining args st = .done r st1 →
        Frame x d v st.envs st1.envs)
    ∧ (∀ func_name body arguments params remaining function_env st r st1,
        execute_user_call fl n func_name body arguments params remaining function_env st
          = .done r st1 →
        Frame x d v st.envs st1.envs)
    ∧ (∀ name arguments arg_count st r st1,
        execute_call_expr fl n name arguments arg_count st = .done r st1 →
        Frame x d v st.envs st1.envs) := by
  induction n with
  | zero =>
    refine ⟨?_, ?_, ?_, ?_, ?_, ?_, ?_, ?_, ?_, ?_, ?_, ?_, ?_, ?_⟩
    · intro node st r st1 h; rw [execute_statement] at h; cases h
    · intro name init dt st r st1 h; rw [execute_variable_decl] at h; cases h
    · intro node st r st1 h; rw [execute_block] at h; cases h
    · intro stmts res st r st1 h; rw [execute_block_loop] at h; cases h
    · intro c t e st r st1 h; rw [execute_if_statement] at h; cases h
    · intro c b res st r st1 h; rw [execute_while_loop] at h; cases h
    · intro value st r st1 h; rw [execute_return_statement] at h; cases h
    · intro node st r st1 h; rw [execute_expression] at h; cases h
    · intro op l rn st r st1 h; rw [execute_binary_expr] at h; cases h
    · intro op operand st r st1 h; rw [execute_unary_expr] at h; cases h
    · intro name value st r st1 h; rw [execute_assignment] at h; cases h
    · intro name function arguments remaining args st r st1 h
      rw [execute_builtin_call] at h; cases h
    · intro func_name body arguments params remaining function_env st r st1 h
      rw [execute_user_call] at h; cases h
    · intro name arguments arg_count st r st1 h; rw [execute_call_expr] at h; cases h
  | succ n ih =>
    obtain ⟨ihS, ihVD, ihB, ihBL, ihIF, ihW, ihR, ihE, ihBE, ihU, ihA, ihBC, ihUC, ihC⟩ := ih
    refine ⟨?_, ?_, ?_, ?_, ?_, ?_, ?_, ?_, ?_, ?_, ?_, ?_, ?_, ?_⟩
    · -- execute_statement
      intro node st r st1 h
      cases node with
      | none =>
        simp only [execute_statement] at h
        cases h
        exact Frame.refl _
      | some nd =>
        simp only [execute_statement] at h
        split at h
        · exact ihVD _ _ _ _ _ _ h
        · simp only [execute_function_decl] at h
          split at h
          · cases h
          · rename_i cur parent heq
            cases h
            rw [heq]
            exact Frame.define_func x d v cur parent _ _
        · exact ihB _ _ _ _ h
        · exact ihIF _ _ _ _ _ _ h
        · exact ihW _ _ _ _ _ _ h
        · exact ihR _ _ _ _ h
        · exact ihE _ _ _ _ h
        · cases h
          exact Frame.refl _
    · -- execute_variable_decl
      intro name init dt st r st1 h
      simp only [execute_variable_decl] at h
      split at h
      · cases h
      · rename_i cur0 t0 heq0
        split at h
        · cases h
          exact Frame.refl _
        · rename_i hget
          split at h
          · split at h
            · rename_i init_value st2 hv
              have f1 := ihE _ _ _ _ hv
              split at h
              · cases h
                exact f1
              · split at h
                · cases h
                · rename_i cur2 parent2 heq2
                  cases h
                  rw [heq2] at f1
                  exact Frame.define_var x d v name _ f1 heq0 hget
            · cases h
            · cases h
          · cases h
            have f1 : Frame x d v st.envs (cur0 :: t0) := heq0 ▸ Frame.refl _
            have := Frame.define_var x d v name (some (default_value fl dt)) f1 heq0 hget
            simpa [heq0] using this
    · -- execute_block
      intro node st r st1 h
      simp only [execute_block] at h
      split at h
      · exact FramePop.of_push _ (ihBL _ _ _ _ _ h)
      · cases h
    · -- execute_block_loop
      intro stmts res st r st1 h
      cases stmts with
      | nil =>
        simp only [execute_block_loop] at h
        cases h
        exact (Frame.refl _).then_pop
      | cons s rest =>
        simp only [execute_block_loop] at h
        split at h
        · rename_i sr st2 hs
          have f1 := ihS _ _ _ _ hs
          split at h
          · cases h
            exact f1.then_pop
          · split at h
            · cases h
              exact f1.then_pop
            · exact FramePop.after f1 (ihBL _ _ _ _ _ h)
        · cases h
        · cases h
    · -- execute_if_statement
      intro c t e st r st1 h
      simp only [execute_if_statement] at h
      split at h
      · rename_i cond st2 hc
        have f1 := ihE _ _ _ _ hc
        split at h
        · cases h
          exact f1
        · split at h
          · cases h
          · split at h
            · split at h
              · rename_i tr st3 ht
                cases h
                exact f1.trans (ihS _ _ _ _ ht)
              · cases h
              · cases h
            · split at h
              · split at h
                · rename_i er st3 he
                  cases h
                  exact f1.trans (ihS _ _ _ _ he)
                · cases h
                · cases h
              · cases h
                exact f1
          · cases h
            exact f1
      · cases h
      · cases h
    · -- execute_while_loop
      intro c b res st r st1 h
      simp only [execute_while_loop] at h
      split at h
      · rename_i cond st2 hc
        have f1 := ihE _ _ _ _ hc
        split at h
        · cases h
          exact f1
        · split at h
          · cases h
          · split at h
            · cases h
              exact f1
            · split at h
              · rename_i br st3 hb
                have f2 := f1.trans (ihS _ _ _ _ hb)
                split at h
                · cases h
                  exact f2
                · split at h
                  · have f3 := ihW _ _ _ _ _ _ h
                    exact f2.trans f3
                  · split at h
                    · cases h
                      exact f2
                    · split at h
                      · cases h
                        exact f2
                      · exact f2.trans (ihW _ _ _ _ _ _ h)
              · cases h
              · cases h
          · cases h
            exact f1
      · cases h
      · cases h
    · -- execute_return_statement
      intro value st r st1 h
      simp only [execute_return_statement] at h
      split at h
      · split at h
        · rename_i rv st2 hv
          have f1 := ihE _ _ _ _ hv
          split at h
          · cases h
            exact f1
          · cases h
            exact f1
        · cases h
        · cases h
      · cases h
        exact Frame.refl _
    · -- execute_expression
      intro node st r st1 h
      cases node with
      | none =>
        simp only [execute_expression] at h
        cases h
        exact Frame.refl _
      | some nd =>
        simp only [execute_expression] at h
        split at h
        · exact ihBE _ _ _ _ _ _ h
        · exact ihU _ _ _ _ _ h
        · exact ihA _ _ _ _ _ h
        · exact ihC _ _ _ _ _ _ h
        · simp only [execute_variable_expr] at h
          split at h
          · cases h
            exact Frame.refl _
          · cases h
            exact Frame.refl _
        · simp only [execute_literal_expr] at h
          split at h
          all_goals first
            | (cases h; done)
            | (cases h; exact Frame.refl _)
        · cases h
          exact Frame.refl _
    · -- execute_binary_expr
      intro op l rn st r st1 h
      simp only [execute_binary_expr] at h
      split at h
      · rename_i lv st2 hl
        have f1 := ihE _ _ _ _ hl
        split at h
        · cases h
          exact f1
        · split at h
          · rename_i rv st3 hr
            have f2 := f1.trans (ihE _ _ _ _ hr)
            split at h
            · cases h
              exact f2
            · split at h
              · cases h
                rw [(binary_switch_ok fl _ _ _ _).1]
                exact f2
              · split at h
                · cases h
                  exact f2
                · cases h
          · cases h
          · cases h
      · cases h
      · cases h
    · -- execute_unary_expr
      intro op operand st r st1 h
      simp only [execute_unary_expr] at h
      split at h
      · rename_i ov st2 ho
        have f1 := ihE _ _ _ _ ho
        split at h
        · cases h
          exact f1
        · split at h
          · cases h
            rw [(unary_switch_ok fl _ _ _).1]
            exact f1
          · split at h
            · cases h
            · cases h
              exact f1
      · cases h
      · cases h
    · -- execute_assignment
      intro name value st r st1 h
      simp only [execute_assignment] at h
      split at h
      · rename_i val st2 hv
        have f1 := ihE _ _ _ _ hv
        split at h
        · cases h
          exact f1
        · rename_i hok
          have hsome := (non_null_all fl n).1 _ _ _ _ hv (by simpa using hok)
          obtain ⟨w, rfl⟩ := Option.isSome_iff_exists.mp hsome
          split at h
          · cases h
            exact f1.trans (Frame.of_assign x d v _ _ _)
          · cases h
            exact f1
      · cases h
      · cases h
    · -- execute_builtin_call
      intro name function arguments remaining args st r st1 h
      cases remaining with
      | zero =>
        simp only [execute_builtin_call] at h
        split at h
        · have := (call_builtin_ok fl _ _ _ _ _ h).1
          rw [this]
          exact Frame.refl _
        · cases h
      | succ k =>
        cases arguments with
        | nil => simp only [execute_builtin_call] at h; cases h
        | cons a rest =>
          simp only [execute_builtin_call] at h
          split at h
          · rename_i av st2 ha
            have f1 := ihE _ _ _ _ ha
            split at h
            · cases h
              exact f1
            · exact f1.trans (ihBC _ _ _ _ _ _ _ _ h)
          · cases h
          · cases h
    · -- execute_user_call
      intro func_name body arguments params remaining function_env st r st1 h
      cases remaining with
      | zero =>
        simp only [execute_user_call] at h
        split at h
        · rename_i br st2 hb
          cases h
          have f1 := ihB _ _ _ _ hb
          exact FramePop.of_push function_env f1.then_pop
        · cases h
        · cases h
      | succ k =>
        cases arguments with
        | nil => simp only [execute_user_call] at h; cases h
        | cons a rest =>
          cases params with
          | nil => simp only [execute_user_call] at h; cases h
          | cons p ps =>
            simp only [execute_user_call] at h
            split at h
            · rename_i av st2 ha
              have f1 := ihE _ _ _ _ ha
              split at h
              · cases h
                exact f1
              · split at h
                · exact f1.trans (ihUC _ _ _ _ _ _ _ _ _ h)
                · cases h
            · cases h
            · cases h
    · -- execute_call_expr
      intro name arguments arg_count st r st1 h
      simp only [execute_call_expr] at h
      split at h
      · exact ihBC _ _ _ _ _ _ _ _ h
      · split at h
        · cases h
          exact Frame.refl _
        · split at h
          · split at h
            · cases h
              exact Frame.refl _
            · exact ihUC _ _ _ _ _ _ _ _ _ h
          · cases h

end FrameAll

section ShadowingContract

variable {F : Type} (fl : DoubleOps F)

theorem shadowed_block_exit (x : String) (inner : Environment F)
    (outer : List (Environment F)) (fuel : Nat) (rest : List ASTNode) (res : Value F)
    (s : Interpreter F) (r : Option (Value F)) (s2 : Interpreter F)
    (henvs : s.envs = inner :: outer) (hwf : inner.variables_.WF)
    (hb : inner.binds x = true)
    (hrun : execute_block_loop fl fuel rest res s = .done r s2) :
    s2.envs.length = outer.length
      ∧ environment_get_var s2.envs x = environment_get_var outer x := by
  have hf := (frame_all fl x outer.length (environment_get_var outer x) fuel).2.2.2.1
    _ _ _ _ _ hrun
  have hs : Shadowed x outer.length (environment_get_var outer x) s.envs :=
    ⟨[], inner, outer, henvs, rfl, hwf, hb, rfl⟩
  obtain ⟨hl, hp⟩ := hf
  have hlen : s2.envs.length = outer.length := by
    rw [hl, henvs]
    simp
  obtain ⟨e, pre, inner1, outer1, heq, hl1, -, -, hv⟩ := hp hs
  refine ⟨hlen, ?_⟩
  cases pre with
  | nil =>
    simp only [List.nil_append, List.cons.injEq] at heq
    rw [heq.2]
    exact hv
  | cons p pre =>
    have := congrArg List.length heq
    simp [hl1, hlen] at this
    omega

theorem environment_assign_var_keeps_outer (x : String) (pre : List (Environment F))
    (inner : Environment F) (outer : List (Environment F)) (value : Option (Value F))
    (hb : inner.binds x = true) :
    ∃ top, environment_assign_var (pre ++ inner :: outer) x value = (true, top ++ outer)
      ∧ top.length = pre.length + 1 := by
  induction pre with
  | nil =>
    have h1 : hashtable_has inner.variables_ x = true := hb
    exact ⟨[environment_define_var inner x value], by simp [environment_assign_var, h1], rfl⟩
  | cons p pre ih =>
    obtain ⟨top, h1, h2⟩ := ih
    by_cases hp : hashtable_has p.variables_ x = true
    · exact ⟨environment_define_var p x value :: pre ++ [inner],
        by simp [environment_assign_var, hp], by simp⟩
    · exact ⟨p :: top, by simp [environment_assign_var, hp, h1], by simp [h2]⟩

end ShadowingContract

/-- C7. A block whose first statement declares `x`, here with a literal initializer of
value `w`, entered in a state `st` without runtime error, whatever the enclosing chain
`st.envs` binds.  The declaration is accepted in the fresh environment of the block and
binds `x` there.  An assignment to `x` on a chain in which some environment `inner` above
the chain `outer` binds `x` succeeds and leaves `outer` untouched; executed right after the
declaration it rebinds `x` in the environment of the block, where `x` then reads as the
assigned value.  Whatever statements `rest` follow the declaration, when the block returns
the chain has its height back and `x` looks up as in `st.envs` before the block was
entered.  The block of the declaration followed by the assignment of a literal of value
`w2` to `x` returns from 7 units of fuel on, with the value `w2` and the state `st` itself.
Values are data here: the reference counts of the C values are outside the model. -/
theorem shadowing_contract {F : Type} (fl : DoubleOps F) (x : String) (tn : ASTNode)
    (lt : TokenType) (lv : LitValue) (w : Value F)
    (lt2 : TokenType) (lv2 : LitValue) (w2 : Value F) (st : Interpreter F)
    (hlit : ∀ s, execute_literal_expr fl s lt lv = .done (some w) s)
    (hlit2 : ∀ s, execute_literal_expr fl s lt2 lv2 = .done (some w2) s)
    (hok : st.has_runtime_error = false) (hret : st.should_return = false)
    (hbrk : st.should_break = false) (hcont : st.should_continue = false) :
    (∀ j, execute_statement fl (j + 3) (some (var_decl x tn (some (literal lt lv))))
        { st with envs := environment_create :: st.envs }
      = .done (some .void)
          { st with envs := environment_define_var environment_create x (some w) :: st.envs })
    ∧ (∀ (pre : List (Environment F)) (inner : Environment F) (outer : List (Environment F))
        (value : Option (Value F)), inner.binds x = true →
        ∃ top, environment_assign_var (pre ++ inner :: outer) x value = (true, top ++ outer)
          ∧ top.length = pre.length + 1)
    ∧ (∀ j, execute_expression fl (j + 3) (some (assign_expr x (literal lt2 lv2)))
        { st with envs := environment_define_var environment_create x (some w) :: st.envs }
      = .done (some w2)
          { st with
            envs :=
              environment_define_var (environment_define_var environment_create x (some w))
                x (some w2) :: st.envs })
    ∧ environment_get_var
        (environment_define_var (environment_define_var environment_create x (some w))
          x (some w2) :: st.envs) x = some w2
    ∧ (∀ rest fuel r st2,
        execute_block fl fuel (block (var_decl x tn (some (literal lt lv)) :: rest)) st
          = .done r st2 →
        st2.envs.length = st.envs.length
          ∧ environment_get_var st2.envs x = environment_get_var st.envs x)
    ∧ (∀ j, execute_block fl (j + 7)
        (block [var_decl x tn (some (literal lt lv)),
          expr_stmt (assign_expr x (literal lt2 lv2))]) st
      = .done (some w2) st) := by
  have hwf : ∀ V : Type, (hashtable_create 32 : HashTable V).WF :=
    fun _ => hashtable_create_wf 32 (by decide)
  have hdecl : ∀ j, execute_statement fl (j + 3) (some (var_decl x tn (some (literal lt lv))))
        { st with envs := environment_create :: st.envs }
      = .done (some .void)
          { st with
            envs := environment_define_var environment_create x (some w) :: st.envs } := by
    intro j
    simp [execute_statement, execute_variable_decl, execute_expression, hlit, hok,
      environment_create_variables, hashtable_get_create]
  refine ⟨hdecl, ?_, ?_, ?_, ?_, ?_⟩
  · intro pre inner outer value hb
    exact environment_assign_var_keeps_outer x pre inner outer value hb
  · intro j
    simp [execute_expression, execute_assignment, hlit2, hok, environment_assign_var,
      hashtable_has, environment_create_variables, environment_define_var_variables,
      hashtable_get_set_same, hwf]
  · simp [environment_get_var, environment_create_variables,
      environment_define_var_variables, hashtable_get_set_same, hashtable_set_wf, hwf]
  · intro rest fuel r st2 h
    have hexit := shadowed_block_exit fl x
      (environment_define_var environment_create x (some w)) st.envs
    have hb : (environment_define_var (environment_create : Environment F) x (some w)).binds x
        = true := by
      simp [Environment.binds, hashtable_has, environment_create_variables,
        environment_define_var_variables, hashtable_get_set_same, hwf]
    have hw : (environment_define_var (environment_create : Environment F) x
        (some w)).variables_.WF := by
      simp [environment_create_variables, environment_define_var_variables,
        hashtable_set_wf, hwf]
    match fuel, h with
    | 0, h => rw [execute_block] at h; cases h
    | 1, h => simp only [execute_block, execute_block_loop] at h; cases h
    | 2, h =>
      simp only [execute_block, execute_block_loop, execute_statement] at h
      cases h
    | 3, h =>
      simp only [execute_block, execute_block_loop, execute_statement,
        execute_variable_decl] at h
      cases h
    | 4, h =>
      simp [execute_block, execute_block_loop, execute_statement,
        execute_variable_decl, execute_expression, environment_create_variables,
        hashtable_get_create] at h
    | k + 5, h =>
      simp only [execute_block, execute_block_loop, hdecl k] at h
      simp only [hok, Bool.false_eq_true, if_false] at h
      split at h
      · cases h
        exact ⟨rfl, rfl⟩
      · exact hexit _ _ _ _ _ _ rfl hw hb h
  · intro j
    clear hdecl
    obtain ⟨envs, sr, rv, sb, sc, ec, hre, cs, out⟩ := st
    simp only at hok hret hbrk hcont
    subst hok hret hbrk hcont
    simp [execute_block, execute_block_loop, execute_statement, execute_variable_decl,
      execute_expression, execute_assignment, hlit, hlit2, environment_assign_var,
      hashtable_has, environment_create_variables, environment_define_var_variables,
      hashtable_get_create, hashtable_get_set_same, hwf]

theorem shadowing_contract_witness :
    environment_get_var (state_x_outer : Interpreter ℚ).envs "x" = some (.int_val 1)
    ∧ execute_block exactArithmetic (0 + 7)
        (block [var_decl "x" (type_node TYPE_INT)
            (some (literal TOKEN_INT_LITERAL (.int_value 2))),
          expr_stmt (assign_expr "x" (literal TOKEN_INT_LITERAL (.int_value 3)))])
        state_x_outer
      = .done (some (value_create_int 3)) state_x_outer :=
  ⟨by
    simp [state_x_outer, chain_x_outer, environment_get_var, environment_create_variables,
      environment_define_var_variables, hashtable_get_create, hashtable_get_set_same,
      hashtable_create_wf],
   (shadowing_contract exactArithmetic "x" (type_node TYPE_INT)
      TOKEN_INT_LITERAL (.int_value 2) (value_create_int 2)
      TOKEN_INT_LITERAL (.int_value 3) (value_create_int 3) state_x_outer
      (fun _ => rfl) (fun _ => rfl) rfl rfl rfl rfl).2.2.2.2.2 0⟩

/-! ## Comparison operators at run time -/

/-- C11. On two `int` values `a` and `b` the switch of `execute_binary_expr` gives, without
runtime error, the `bool` of `a = b` for `==`, of `a ≠ b` for `!=` (the negation of `==`),
of `a < b` and `a > b` for `<` and `>`, and for `<=` and `>=` the `bool` of `<` and `>`
or-ed with that of `==`, which is the `bool` of `a ≤ b` and `a ≥ b`.  The ordering
operators compare the operands as doubles: that the conversion of 32-bit integers to
`double` keeps their order is the hypothesis on `fl`.  Applied to an operand that is
neither `int` nor `float`, each of `<`, `>`, `<=`, `>=` raises a runtime error and yields
no value. -/
theorem comparison_operators_contract {F : Type} (fl : DoubleOps F) (st : Interpreter F)
    (a b : Int) (ha : fitsInt32 a) (hb : fitsInt32 b)
    (hgt : ∀ x y, fitsInt32 x → fitsInt32 y →
      fl.gt (fl.ofInt x) (fl.ofInt y) = decide (y < x))
    (hlt : ∀ x y, fitsInt32 x → fitsInt32 y →
      fl.lt (fl.ofInt x) (fl.ofInt y) = decide (x < y)) :
    binary_switch fl st TOKEN_EQUAL_EQUAL (.int_val a) (.int_val b)
        = (some (.bool_val (decide (a = b))), st)
    ∧ binary_switch fl st TOKEN_BANG_EQUAL (.int_val a) (.int_val b)
        = (some (.bool_val (decide (a ≠ b))), st)
    ∧ binary_switch fl st TOKEN_LESS (.int_val a) (.int_val b)
        = (some (.bool_val (decide (a < b))), st)
    ∧ binary_switch fl st TOKEN_GREATER (.int_val a) (.int_val b)
        = (some (.bool_val (decide (a > b))), st)
    ∧ binary_switch fl st TOKEN_LESS_EQUAL (.int_val a) (.int_val b)
        = (some (.bool_val (decide (a < b) || decide (a = b))), st)
    ∧ binary_switch fl st TOKEN_GREATER_EQUAL (.int_val a) (.int_val b)
        = (some (.bool_val (decide (a > b) || decide (a = b))), st)
    ∧ (decide (a < b) || decide (a = b)) = decide (a ≤ b)
    ∧ (decide (a > b) || decide (a = b)) = decide (a ≥ b)
    ∧ (∀ (l r : Value F) (op : TokenType),
        (l.type ≠ VAL_INT ∧ l.type ≠ VAL_FLOAT) ∨ (r.type ≠ VAL_INT ∧ r.type ≠ VAL_FLOAT) →
        op = TOKEN_LESS ∨ op = TOKEN_GREATER ∨ op = TOKEN_LESS_EQUAL
          ∨ op = TOKEN_GREATER_EQUAL →
        binary_switch fl st op l r = (none, runtime_error st)) := by
  refine ⟨?_, ?_, ?_, ?_, ?_, ?_, ?_, ?_, ?_⟩
  · simp [binary_switch, op_compare_eq]
  · simp [binary_switch, op_compare_neq, op_compare_eq, Value.truth]
  · simp [binary_switch, op_compare_lt, Value.isNumeric, Value.toDouble, hlt a b ha hb]
  · simp [binary_switch, op_compare_gt, Value.isNumeric, Value.toDouble, hgt a b ha hb]
  · simp [binary_switch, op_compare_lte, op_compare_lt, op_compare_eq, Value.isNumeric,
      Value.toDouble, Value.truth, hlt a b ha hb]
  · simp [binary_switch, op_compare_gte, op_compare_gt, op_compare_eq, Value.isNumeric,
      Value.toDouble, Value.truth, hgt a b ha hb]
  · by_cases h1 : a < b <;> by_cases h2 : a = b <;> simp [h1, h2] <;> omega
  · by_cases h1 : a > b <;> by_cases h2 : a = b <;> simp [h1, h2] <;> omega
  · intro l r op hnon hop
    have hnum : (l.isNumeric && r.isNumeric) = false := by
      cases l <;> cases r <;> simp [Value.isNumeric, Value.type] at hnon ⊢
    rcases hop with rfl | rfl | rfl | rfl
    · simp [binary_switch, op_compare_lt, hnum]
    · simp [binary_switch, op_compare_gt, hnum]
    · simp [binary_switch, op_compare_lte, op_compare_lt, hnum]
    · simp [binary_switch, op_compare_gte, op_compare_gt, hnum]

theorem comparison_operators_contract_witness :
    fitsInt32 3 ∧ fitsInt32 5
    ∧ binary_switch exactArithmetic (interpreter_init : Interpreter ℚ) TOKEN_LESS_EQUAL
        (.int_val 3) (.int_val 5)
      = (some (.bool_val (decide ((3 : Int) < 5) || decide ((3 : Int) = 5))), interpreter_init) :=
  ⟨by unfold fitsInt32; decide, by unfold fitsInt32; decide,
    (comparison_operators_contract exactArithmetic interpreter_init 3 5
      (by unfold fitsInt32; decide) (by unfold fitsInt32; decide)
      (by intro x y _ _; simp [exactArithmetic])
      (by intro x y _ _; simp [exactArithmetic])).2.2.2.2.1⟩

/-! ## The expression checker changes the counters only -/

theorem counts_only_refl (st : SemanticAnalyzer) : CountsOnly st st :=
  ⟨rfl, le_refl _, le_refl _⟩

theorem counts_only_trans {a b c : SemanticAnalyzer} (h1 : CountsOnly a b)
    (h2 : CountsOnly b c) : CountsOnly a c := by
  obtain ⟨e1, l1, w1⟩ := h1
  obtain ⟨e2, l2, w2⟩ := h2
  refine ⟨?_, le_trans l1 l2, le_trans w1 w2⟩
  rw [e2, e1]

theorem counts_only_error (st : SemanticAnalyzer) : CountsOnly st (semantic_error st) :=
  ⟨rfl, Nat.le_succ _, le_refl _⟩

theorem counts_only_warning (st : SemanticAnalyzer) : CountsOnly st (semantic_warning st) :=
  ⟨rfl, le_refl _, Nat.le_succ _⟩

theorem binary_result_counts (st : SemanticAnalyzer) (op : TokenType)
    (l r res : TypeCheckResult) (st1 : SemanticAnalyzer)
    (h : binary_result st op l r = .done res st1) : CountsOnly st st1 := by
  unfold binary_result at h
  repeat' split at h
  all_goals first
    | (cases h; done)
    | (cases h; exact counts_only_refl _)
    | (cases h; exact counts_only_error _)
    | (cases h; exact counts_only_warning _)

theorem unary_result_counts (st : SemanticAnalyzer) (op : TokenType)
    (operand res : TypeCheckResult) (st1 : SemanticAnalyzer)
    (h : unary_result st op operand = .done res st1) : CountsOnly st st1 := by
  unfold unary_result at h
  repeat' split at h
  all_goals first
    | (cases h; done)
    | (cases h; exact counts_only_refl _)
    | (cases h; exact counts_only_error _)

theorem check_counts_all (n : Nat) :
    (∀ node st r st1, check_expression n node st = .done r st1 → CountsOnly st st1)
    ∧ (∀ op l rn st r st1, check_binary_expression n op l rn st = .done r st1 →
        CountsOnly st st1)
    ∧ (∀ op operand st r st1, check_unary_expression n op operand st = .done r st1 →
        CountsOnly st st1)
    ∧ (∀ arguments remaining return_type st r st1,
        check_print_arguments n arguments remaining return_type st = .done r st1 →
        CountsOnly st st1)
    ∧ (∀ arguments parameters remaining is_valid return_type st r st1,
        check_call_arguments n arguments parameters remaining is_valid return_type st
          = .done r st1 →
        CountsOnly st st1)
    ∧ (∀ name arguments arg_count st r st1,
        check_call_expression n name arguments arg_count st = .done r st1 →
        CountsOnly st st1)
    ∧ (∀ name value st r st1, check_assignment n name value st = .done r st1 →
        CountsOnly st st1) := by
  induction n with
  | zero =>
    refine ⟨?_, ?_, ?_, ?_, ?_, ?_, ?_⟩
    · intro node st r st1 h; rw [check_expression] at h; cases h
    · intro op l rn st r st1 h; rw [check_binary_expression] at h; cases h
    · intro op operand st r st1 h; rw [check_unary_expression] at h; cases h
    · intro arguments remaining return_type st r st1 h
      rw [check_print_arguments] at h; cases h
    · intro arguments parameters remaining is_valid return_type st r st1 h
      rw [check_call_arguments] at h; cases h
    · intro name arguments arg_count st r st1 h; rw [check_call_expression] at h; cases h
    · intro name value st r st1 h; rw [check_assignment] at h; cases h
  | succ n ih =>
    obtain ⟨ihE, ihB, ihU, ihP, ihCA, ihC, ihA⟩ := ih
    refine ⟨?_, ?_, ?_, ?_, ?_, ?_, ?_⟩
    · -- check_expression
      intro node st r st1 h
      cases node with
      | none =>
        simp only [check_expression] at h
        cases h
        exact counts_only_refl _
      | some nd =>
        simp only [check_expression] at h
        split at h
        · cases h
          exact counts_only_refl _
        · simp only [check_variable_expression] at h
          split at h
          · cases h
            exact counts_only_error _
          · cases h
            exact counts_only_refl _
        · exact ihB _ _ _ _ _ _ h
        · exact ihU _ _ _ _ _ h
        · exact ihC _ _ _ _ _ _ h
        · exact ihA _ _ _ _ _ h
        · cases h
          exact counts_only_refl _
    · -- check_binary_expression
      intro op l rn st r st1 h
      simp only [check_binary_expression] at h
      split at h
      · rename_i lr st2 hl
        split at h
        · rename_i rr st3 hr
          exact counts_only_trans (ihE _ _ _ _ hl)
            (counts_only_trans (ihE _ _ _ _ hr) (binary_result_counts _ _ _ _ _ _ h))
        · cases h
        · cases h
      · cases h
      · cases h
    · -- check_unary_expression
      intro op operand st r st1 h
      simp only [check_unary_expression] at h
      split at h
      · rename_i orr st2 ho
        exact counts_only_trans (ihE _ _ _ _ ho) (unary_result_counts _ _ _ _ _ h)
      · cases h
      · cases h
    · -- check_print_arguments
      intro arguments remaining return_type st r st1 h
      cases remaining with
      | zero =>
        simp only [check_print_arguments] at h
        cases h
        exact counts_only_refl _
      | succ k =>
        cases arguments with
        | nil => simp only [check_print_arguments] at h; cases h
        | cons a rest =>
          simp only [check_print_arguments] at h
          split at h
          · rename_i ar st2 ha
            have c1 := ihE _ _ _ _ ha
            split at h
            · cases h
              exact c1
            · exact counts_only_trans c1 (ihP _ _ _ _ _ _ h)
          · cases h
          · cases h
    · -- check_call_arguments
      intro arguments parameters remaining is_valid return_type st r st1 h
      cases remaining with
      | zero =>
        simp only [check_call_arguments] at h
        cases h
        exact counts_only_refl _
      | succ k =>
        cases arguments with
        | nil => simp only [check_call_arguments] at h; cases h
        | cons a rest =>
          cases parameters with
          | nil => simp only [check_call_arguments] at h; cases h
          | cons p ps =>
            simp only [check_call_arguments] at h
            split at h
            · rename_i ar st2 ha
              have c1 := ihE _ _ _ _ ha
              split at h
              · exact counts_only_trans c1
                  (counts_only_trans (counts_only_error _) (ihCA _ _ _ _ _ _ _ _ h))
              · exact counts_only_trans c1 (ihCA _ _ _ _ _ _ _ _ h)
            · cases h
            · cases h
    · -- check_call_expression
      intro name arguments arg_count st r st1 h
      simp only [check_call_expression] at h
      repeat' split at h
      all_goals first
        | (cases h; done)
        | (cases h; exact counts_only_error _)
        | exact ihP _ _ _ _ _ _ h
        | exact ihCA _ _ _ _ _ _ _ _ h
    · -- check_assignment
      intro name value st r st1 h
      simp only [check_assignment] at h
      split at h
      · cases h
        exact counts_only_error _
      · split at h
        · cases h
          exact counts_only_error _
        · split at h
          · rename_i vr st2 hv
            have c1 := ihE _ _ _ _ hv
            repeat' split at h
            all_goals first
              | (cases h; exact c1)
              | (cases h; exact counts_only_trans c1 (counts_only_error _))
          · cases h
          · cases h

/-! ## Declarations of variables -/

theorem typeinfo_copy_create (t : DataType) :
    typeinfo_copy (some (typeinfo_create t)) = some (typeinfo_create t) := rfl

theorem symbol_lookup_current_insert (st : SemanticAnalyzer) (x : String)
    (type : Option TypeInfo) (h : st.scopes ≠ []) :
    ∃ entry, symbol_lookup_current (symbol_insert st (symbol_create_variable x type)) x
        = some entry
      ∧ entry.name = x ∧ entry.type = type ∧ entry.category = SYMBOL_VARIABLE := by
  obtain ⟨scopes, sc, ec, wc, crt, inf, hrs⟩ := st
  cases scopes with
  | nil => exact absurd rfl h
  | cons current parent =>
    refine ⟨{ symbol_create_variable x type with scope_depth := some current.depth },
      ?_, rfl, rfl, rfl⟩
    simp only [symbol_insert, symbol_lookup_current, find_symbol, symbol_create_variable]
    rw [List.find?_cons_of_pos]
    simp

/-- C12. A declaration `let x: T = e` where `x` is not declared in the current scope and
the check of `e` gives a valid result of type `U` (`tu.base_type`).  When `U = T`, or
`T = float` and `U = int`, `visit_variable_decl` reports no error and inserts `x` as a
variable of type `T` into the current scope; in every other case it reports exactly one
error and the current scope still has no `x`.  Errors are counted from the analyzer `st1`
that the check of `e` leaves, which differs from `st` in its counters only. -/
theorem visit_variable_decl_contract (fuel : Nat) (x : String) (T : DataType) (e : ASTNode)
    (st st1 : SemanticAnalyzer) (r : TypeCheckResult) (tu : TypeInfo)
    (hnew : symbol_lookup_current st x = none)
    (he : check_expression fuel (some e) st = .done r st1)
    (hvalid : r.is_valid = true) (htype : r.type = some tu) :
    CountsOnly st st1
    ∧ ((tu.base_type = T ∨ (T = TYPE_FLOAT ∧ tu.base_type = TYPE_INT)) →
        visit_variable_decl (fuel + 1) x (type_node T) (some e) st
          = .done ()
              (symbol_insert st1 (symbol_create_variable x (some (typeinfo_create T))))
        ∧ (symbol_insert st1
            (symbol_create_variable x (some (typeinfo_create T)))).error_count
            = st1.error_count
        ∧ (st.scopes ≠ [] →
            ∃ entry,
              symbol_lookup_current
                  (symbol_insert st1 (symbol_create_variable x (some (typeinfo_create T)))) x
                = some entry
              ∧ entry.name = x ∧ entry.type = some (typeinfo_create T)
              ∧ entry.category = SYMBOL_VARIABLE))
    ∧ (¬ (tu.base_type = T ∨ (T = TYPE_FLOAT ∧ tu.base_type = TYPE_INT)) →
        visit_variable_decl (fuel + 1) x (type_node T) (some e) st
          = .done () (semantic_error st1)
        ∧ (semantic_error st1).error_count = st1.error_count + 1
        ∧ (semantic_error st1).scopes = st.scopes
        ∧ symbol_lookup_current (semantic_error st1) x = none) := by
  have hc := (check_counts_all fuel).1 _ _ _ _ he
  have hscopes : st1.scopes = st.scopes := by
    rw [hc.1]
  refine ⟨hc, ?_, ?_⟩
  · intro hcompat
    have hok : are_types_compatible (some (typeinfo_create T)) (some tu) = true := by
      rcases hcompat with h | ⟨h1, h2⟩
      · simp [are_types_compatible, typeinfo_create, h]
      · simp [are_types_compatible, typeinfo_create, h1, h2]
    refine ⟨?_, ?_, ?_⟩
    · simp [visit_variable_decl, hnew, he, hvalid, htype, type_from_ast_node, hok,
        typeinfo_copy_create]
    · cases hs : st1.scopes <;> simp [symbol_insert, hs]
    · intro hne
      exact symbol_lookup_current_insert st1 x _ (by rw [hscopes]; exact hne)
  · intro hcompat
    have hno : are_types_compatible (some (typeinfo_create T)) (some tu) = false := by
      simp only [not_or, not_and] at hcompat
      obtain ⟨h1, h2⟩ := hcompat
      simp only [are_types_compatible, typeinfo_create]
      rw [if_neg (fun h => h1 h.symm)]
      by_cases hT : T = TYPE_FLOAT
      · simp [hT, h2 hT]
      · simp [hT]
    refine ⟨?_, rfl, hscopes, ?_⟩
    · simp [visit_variable_decl, hnew, he, hvalid, htype, type_from_ast_node, hno]
    · have : symbol_lookup_current (semantic_error st1) x = symbol_lookup_current st x := by
        simp only [symbol_lookup_current, semantic_error, hscopes]
      rw [this, hnew]

theorem visit_variable_decl_contract_witness :
    symbol_lookup_current semantic_init "x" = none
    ∧ visit_variable_decl (1 + 1) "x" (type_node TYPE_INT)
        (some (literal TOKEN_STRING_LITERAL (.string_value "string"))) semantic_init
      = .done () (semantic_error semantic_init) :=
  ⟨by decide,
    ((visit_variable_decl_contract 1 "x" TYPE_INT
        (literal TOKEN_STRING_LITERAL (.string_value "string")) semantic_init semantic_init
        (check_literal_expression TOKEN_STRING_LITERAL) (typeinfo_create TYPE_STRING)
        (by decide) rfl rfl rfl).2.2 (by decide)).1⟩

/-! ## Binary expressions in the analyzer -/

theorem check_binary_expression_of_operands (fuel : Nat) (op : TokenType)
    (l : Option ASTNode) (r : ASTNode) (st st1 st2 : SemanticAnalyzer)
    (rl rr : TypeCheckResult)
    (hl : check_expression fuel l st = .done rl st1)
    (hr : check_expression fuel (some r) st1 = .done rr st2) :
    check_binary_expression (fuel + 1) op l r st = binary_result st2 op rl rr := by
  simp [check_binary_expression, hl, hr]

/-- C13. An arithmetic expression (`+ - * /`) whose operands check as valid, of types
`tl` and `tr`.  With two numeric operands `check_binary_expression` accepts it without
error, with type `int` when both operands are `int` and the operator is not `/`, and with
type `float` in every other case (so `int / int` is `float`).  With an operand that is not
numeric it accepts the expression, with type `string`, only for `+` on two strings; every
other case is one error and the invalid result. -/
theorem check_binary_arithmetic_contract (fuel : Nat) (op : TokenType)
    (l : Option ASTNode) (r : ASTNode) (st st1 st2 : SemanticAnalyzer)
    (rl rr : TypeCheckResult) (tl tr : TypeInfo)
    (hop : op = TOKEN_PLUS ∨ op = TOKEN_MINUS ∨ op = TOKEN_STAR ∨ op = TOKEN_SLASH)
    (hl : check_expression fuel l st = .done rl st1)
    (hr : check_expression fuel (some r) st1 = .done rr st2)
    (hlv : rl.is_valid = true) (hrv : rr.is_valid = true)
    (hlt : rl.type = some tl) (hrt : rr.type = some tr) :
    ((tl.base_type = TYPE_INT ∨ tl.base_type = TYPE_FLOAT) →
      (tr.base_type = TYPE_INT ∨ tr.base_type = TYPE_FLOAT) →
      (tl.base_type = TYPE_INT ∧ tr.base_type = TYPE_INT ∧ op ≠ TOKEN_SLASH →
        check_binary_expression (fuel + 1) op l r st
          = .done { type := some (typeinfo_create TYPE_INT), is_valid := true,
                    implicit_conversion := 0 } st2)
      ∧ (¬ (tl.base_type = TYPE_INT ∧ tr.base_type = TYPE_INT ∧ op ≠ TOKEN_SLASH) →
        check_binary_expression (fuel + 1) op l r st
          = .done { type := some (typeinfo_create TYPE_FLOAT), is_valid := true,
                    implicit_conversion :=
                      (if tl.base_type = TYPE_INT then 1 else 0)
                        + (if tr.base_type = TYPE_INT then 2 else 0) }
              (if tl.base_type = TYPE_INT then semantic_warning st2 else st2)))
    ∧ (¬ ((tl.base_type = TYPE_INT ∨ tl.base_type = TYPE_FLOAT)
          ∧ (tr.base_type = TYPE_INT ∨ tr.base_type = TYPE_FLOAT)) →
      (op = TOKEN_PLUS ∧ tl.base_type = TYPE_STRING ∧ tr.base_type = TYPE_STRING →
        check_binary_expression (fuel + 1) op l r st
          = .done { type := some (typeinfo_create TYPE_STRING), is_valid := true,
                    implicit_conversion := 0 } st2)
      ∧ (¬ (op = TOKEN_PLUS ∧ tl.base_type = TYPE_STRING ∧ tr.base_type = TYPE_STRING) →
        check_binary_expression (fuel + 1) op l r st
          = .done invalid_result (semantic_error st2))) := by
  rw [check_binary_expression_of_operands fuel op l r st st1 st2 rl rr hl hr]
  obtain ⟨bl, al, cl⟩ := tl
  obtain ⟨br, ar, cr⟩ := tr
  refine ⟨fun hnl hnr => ⟨fun hint => ?_, fun hint => ?_⟩,
    fun hnon => ⟨fun hs => ?_, fun hs => ?_⟩⟩
  · obtain ⟨h1, h2, h3⟩ := hint
    simp only at h1 h2
    subst h1 h2
    rcases hop with rfl | rfl | rfl | rfl <;>
      simp [binary_result, hlv, hrv, hlt, hrt, is_numeric_type] at h3 ⊢
  · simp only at hnl hnr hint
    simp only [binary_result, hlv, hrv, hlt, hrt]
    have h1 : is_numeric_type (some ⟨bl, al, cl⟩) = true := by
      rcases hnl with h | h <;> simp [is_numeric_type, h]
    have h2 : is_numeric_type (some ⟨br, ar, cr⟩) = true := by
      rcases hnr with h | h <;> simp [is_numeric_type, h]
    simp only [h1, h2, hop, hint]
    simp
  · obtain ⟨rfl, h1, h2⟩ := hs
    simp only at h1 h2
    subst h1 h2
    simp [binary_result, hlv, hrv, hlt, hrt, is_numeric_type]
  · simp only at hnon hs
    rcases hop with rfl | rfl | rfl | rfl <;> cases bl <;> cases br <;>
      simp [binary_result, hlv, hrv, hlt, hrt, is_numeric_type] at hnon hs ⊢

theorem check_binary_arithmetic_contract_witness :
    check_binary_expression (1 + 1) TOKEN_SLASH
        (some (literal TOKEN_INT_LITERAL (.int_value 6)))
        (literal TOKEN_INT_LITERAL (.int_value 3)) semantic_init
      = .done { type := some (typeinfo_create TYPE_FLOAT), is_valid := true,
                implicit_conversion :=
                  (if (typeinfo_create TYPE_INT).base_type = TYPE_INT then 1 else 0)
                    + (if (typeinfo_create TYPE_INT).base_type = TYPE_INT then 2 else 0) }
          (if (typeinfo_create TYPE_INT).base_type = TYPE_INT
            then semantic_warning semantic_init else semantic_init) :=
  ((check_binary_arithmetic_contract 1 TOKEN_SLASH
      (some (literal TOKEN_INT_LITERAL (.int_value 6)))
      (literal TOKEN_INT_LITERAL (.int_value 3)) semantic_init semantic_init semantic_init
      (check_literal_expression TOKEN_INT_LITERAL) (check_literal_expression TOKEN_INT_LITERAL)
      (typeinfo_create TYPE_INT) (typeinfo_create TYPE_INT)
      (by decide) rfl rfl rfl rfl rfl rfl).1 (by decide) (by decide)).2 (by decide)

/-- C14, refuted on `let z: float = 3.14 + 10;`.  The source text parses without error to
`program_float_plus_int`.  The expression `3.14 + 10` has numeric operands, the right one
of type `int`, and the result type `float`; `check_binary_expression` records the
conversion of the right operand in `implicit_conversion` (the value 2) and emits no
warning: the analyzer is left as it was, and the analysis of the program ends with
`warning_count` 0.  The branch for an `int` on the left does emit the warning, as
`10 + 3.14` shows. -/
theorem right_int_operand_raises_no_warning (stray_stmt_count : ASTNode → Int) (n : Nat) :
    (∃ p, parse_program 40 (parser_init tokens_float_plus_int eofToken)
        = .done program_float_plus_int p ∧ p.had_error = false)
    ∧ check_expression (n + 3) (some expression_float_plus_int) semantic_init
        = .done { type := some (typeinfo_create TYPE_FLOAT), is_valid := true,
                  implicit_conversion := 2 } semantic_init
    ∧ (∃ st', semantic_analyze stray_stmt_count (n + 8) (some program_float_plus_int)
          semantic_init = .done 1 st'
        ∧ st'.warning_count = 0 ∧ st'.error_count = 0)
    ∧ check_expression (n + 3)
        (some (binary_expr TOKEN_PLUS (some (literal TOKEN_INT_LITERAL (.int_value 10)))
          (literal TOKEN_FLOAT_LITERAL (.float_value "3.14")))) semantic_init
        = .done { type := some (typeinfo_create TYPE_FLOAT), is_valid := true,
                  implicit_conversion := 1 } (semantic_warning semantic_init) := by
  refine ⟨⟨_, rfl, rfl⟩, ?_, ?_, ?_⟩
  · simp [expression_float_plus_int, check_expression, check_binary_expression,
      binary_result, check_literal_expression, is_numeric_type, typeinfo_create]
  · simp [program_float_plus_int, expression_float_plus_int, semantic_analyze, visit_node,
      visit_block, visit_block_loop, visit_variable_decl, check_expression,
      check_binary_expression, binary_result, check_literal_expression, is_numeric_type,
      typeinfo_create, typeinfo_copy, type_from_ast_node, are_types_compatible,
      symbol_lookup_current, enter_scope, exit_scope, scope_create, find_symbol,
      symbol_insert, symbol_create_variable, semantic_init, semantic_register_builtins]
  · simp [check_expression, check_binary_expression,
      binary_result, check_literal_expression, is_numeric_type, typeinfo_create]

/-! ## Widening in a declaration -/

/-- Counterexample to C15: the source text `let i: int = 1; let f: float = i;` parses to
`program_widening_declaration`, its analysis succeeds with no error and with
`warning_count` 0, and the visit of `let f: float = i;` does not end with one warning
more than before. -/
theorem widening_declaration_counterexample :
    (∃ p, parse_program 40 (parser_init tokens_widening_declaration eofToken)
        = .done program_widening_declaration p ∧ p.had_error = false)
    ∧ (∃ st', semantic_analyze (fun _ => 0) 8 (some program_widening_declaration)
          semantic_init = .done 1 st'
        ∧ st'.error_count = 0 ∧ st'.warning_count = 0)
    ∧ ¬ (∃ st', visit_variable_decl 2 "f" (type_node TYPE_FLOAT) (some (var_expr "i"))
          analyzer_i_declared = .done () st'
        ∧ st'.warning_count = analyzer_i_declared.warning_count + 1) := by
  refine ⟨⟨_, rfl, rfl⟩, ⟨_, rfl, rfl, rfl⟩, ?_⟩
  rintro ⟨st', h, hw⟩
  have hrun : visit_variable_decl 2 "f" (type_node TYPE_FLOAT) (some (var_expr "i"))
      analyzer_i_declared
      = .done () (symbol_insert analyzer_i_declared
          (symbol_create_variable "f" (some (typeinfo_create TYPE_FLOAT)))) := rfl
  rw [hrun] at h
  cases h
  revert hw
  decide

/-- C15, amended.  A declaration `let f: float = v;` where `v` resolves to a symbol of type
`int` and `f` is not declared in the current scope: `visit_variable_decl` inserts `f` as a
variable of type `float`, reports no error and emits no warning; both counters are as
before. -/
theorem widening_declaration_is_silent (n : Nat) (f v : String) (st : SemanticAnalyzer)
    (entry : SymbolEntry) (ti : TypeInfo)
    (hnew : symbol_lookup_current st f = none)
    (hv : symbol_lookup st v = some entry) (hti : entry.type = some ti)
    (hint : ti.base_type = TYPE_INT) :
    visit_variable_decl (n + 2) f (type_node TYPE_FLOAT) (some (var_expr v)) st
      = .done ()
          (symbol_insert st (symbol_create_variable f (some (typeinfo_create TYPE_FLOAT))))
    ∧ (symbol_insert st
        (symbol_create_variable f (some (typeinfo_create TYPE_FLOAT)))).error_count
        = st.error_count
    ∧ (symbol_insert st
        (symbol_create_variable f (some (typeinfo_create TYPE_FLOAT)))).warning_count
        = st.warning_count := by
  refine ⟨?_, ?_, ?_⟩
  · simp [visit_variable_decl, hnew, check_expression, check_variable_expression, hv, hti,
      typeinfo_copy, type_from_ast_node, are_types_compatible, typeinfo_create, hint]
  · cases hs : st.scopes <;> simp [symbol_insert, hs]
  · cases hs : st.scopes <;> simp [symbol_insert, hs]

theorem widening_declaration_is_silent_witness :
    symbol_lookup_current analyzer_i_declared "f" = none
    ∧ visit_variable_decl (0 + 2) "f" (type_node TYPE_FLOAT) (some (var_expr "i"))
        analyzer_i_declared
      = .done ()
          (symbol_insert analyzer_i_declared
            (symbol_create_variable "f" (some (typeinfo_create TYPE_FLOAT)))) :=
  ⟨by decide,
    (widening_declaration_is_silent 0 "f" "i" analyzer_i_declared
      { symbol_create_variable "i" (some (typeinfo_create TYPE_INT)) with
        scope_depth := some 1 }
      (typeinfo_create TYPE_INT) (by decide) (by decide) rfl rfl).1⟩

/-! ## Comparisons in the analyzer -/

theorem is_comparison_operator_cases (op : TokenType) (h : is_comparison_operator op = true) :
    op = TOKEN_EQUAL_EQUAL ∨ op = TOKEN_BANG_EQUAL ∨ op = TOKEN_GREATER ∨ op = TOKEN_LESS
      ∨ op = TOKEN_GREATER_EQUAL ∨ op = TOKEN_LESS_EQUAL := by
  simp only [is_comparison_operator, Bool.or_eq_true, beq_iff_eq] at h
  tauto

/-- C16. A comparison (`== != > < >= <=`) whose operands have been checked with the results
`rl` and `rr`.  When an operand is not valid, `check_binary_expression` returns the invalid
result and reports nothing.  When both are valid, of types `tl` and `tr`: if the types are
the same and not `void`, or both numeric, the comparison is accepted with type `bool` and
`error_count` is unchanged (a warning is emitted when the two types differ); otherwise
exactly one error is reported and the result is the invalid result.  Hence the comparison
is accepted with type `bool` iff both operands are valid and their types are comparable. -/
theorem check_comparison_contract (fuel : Nat) (op : TokenType)
    (l : Option ASTNode) (r : ASTNode) (st st1 st2 : SemanticAnalyzer)
    (rl rr : TypeCheckResult) (tl tr : TypeInfo)
    (hop : is_comparison_operator op = true)
    (hl : check_expression fuel l st = .done rl st1)
    (hr : check_expression fuel (some r) st1 = .done rr st2)
    (hlt : rl.type = some tl) (hrt : rr.type = some tr) :
    (¬ (rl.is_valid = true ∧ rr.is_valid = true) →
      check_binary_expression (fuel + 1) op l r st = .done invalid_result st2)
    ∧ (rl.is_valid = true ∧ rr.is_valid = true →
      (((tl.base_type = tr.base_type ∧ tl.base_type ≠ TYPE_VOID)
          ∨ ((tl.base_type = TYPE_INT ∨ tl.base_type = TYPE_FLOAT)
            ∧ (tr.base_type = TYPE_INT ∨ tr.base_type = TYPE_FLOAT))) →
        check_binary_expression (fuel + 1) op l r st
          = .done { type := some (typeinfo_create TYPE_BOOL), is_valid := true,
                    implicit_conversion := if tl.base_type = tr.base_type then 0 else 1 }
              (if tl.base_type = tr.base_type then st2 else semantic_warning st2)
        ∧ (if tl.base_type = tr.base_type then st2 else semantic_warning st2).error_count
            = st2.error_count)
      ∧ (¬ ((tl.base_type = tr.base_type ∧ tl.base_type ≠ TYPE_VOID)
          ∨ ((tl.base_type = TYPE_INT ∨ tl.base_type = TYPE_FLOAT)
            ∧ (tr.base_type = TYPE_INT ∨ tr.base_type = TYPE_FLOAT))) →
        check_binary_expression (fuel + 1) op l r st
          = .done invalid_result (semantic_error st2)
        ∧ (semantic_error st2).error_count = st2.error_count + 1))
    ∧ ((∃ ic st3, check_binary_expression (fuel + 1) op l r st
          = .done { type := some (typeinfo_create TYPE_BOOL), is_valid := true,
                    implicit_conversion := ic } st3)
        ↔ (rl.is_valid = true ∧ rr.is_valid = true
          ∧ ((tl.base_type = tr.base_type ∧ tl.base_type ≠ TYPE_VOID)
            ∨ ((tl.base_type = TYPE_INT ∨ tl.base_type = TYPE_FLOAT)
              ∧ (tr.base_type = TYPE_INT ∨ tr.base_type = TYPE_FLOAT))))) := by
  rw [check_binary_expression_of_operands fuel op l r st st1 st2 rl rr hl hr]
  obtain ⟨bl, al, cl⟩ := tl
  obtain ⟨br, ar, cr⟩ := tr
  have hop6 := is_comparison_operator_cases op hop
  have h1 : ¬ (rl.is_valid = true ∧ rr.is_valid = true) →
      binary_result st2 op rl rr = .done invalid_result st2 := by
    intro hv
    have : (!rl.is_valid || !rr.is_valid) = true := by
      cases h1 : rl.is_valid <;> cases h2 : rr.is_valid <;> simp_all
    simp [binary_result, this]
  have h2 : rl.is_valid = true ∧ rr.is_valid = true →
      ((bl = br ∧ bl ≠ TYPE_VOID)
          ∨ ((bl = TYPE_INT ∨ bl = TYPE_FLOAT) ∧ (br = TYPE_INT ∨ br = TYPE_FLOAT))) →
      binary_result st2 op rl rr
        = .done { type := some (typeinfo_create TYPE_BOOL), is_valid := true,
                  implicit_conversion := if bl = br then 0 else 1 }
            (if bl = br then st2 else semantic_warning st2) := by
    rintro ⟨hlv, hrv⟩ hc
    rcases hop6 with rfl | rfl | rfl | rfl | rfl | rfl <;> cases bl <;> cases br <;>
      simp [binary_result, hlv, hrv, hlt, hrt, is_numeric_type, are_types_comparable,
        is_comparison_operator] at hc ⊢
  have h3 : rl.is_valid = true ∧ rr.is_valid = true →
      ¬ ((bl = br ∧ bl ≠ TYPE_VOID)
          ∨ ((bl = TYPE_INT ∨ bl = TYPE_FLOAT) ∧ (br = TYPE_INT ∨ br = TYPE_FLOAT))) →
      binary_result st2 op rl rr = .done invalid_result (semantic_error st2) := by
    rintro ⟨hlv, hrv⟩ hc
    rcases hop6 with rfl | rfl | rfl | rfl | rfl | rfl <;> cases bl <;> cases br <;>
      simp [binary_result, hlv, hrv, hlt, hrt, is_numeric_type, are_types_comparable,
        is_comparison_operator] at hc ⊢
  refine ⟨h1, fun hv => ⟨fun hc => ⟨h2 hv hc, ?_⟩, fun hc => ⟨h3 hv hc, rfl⟩⟩, ?_⟩
  · split <;> rfl
  · constructor
    · rintro ⟨ic, st3, h⟩
      by_cases hv : rl.is_valid = true ∧ rr.is_valid = true
      · refine ⟨hv.1, hv.2, ?_⟩
        by_contra hc
        rw [h3 hv hc] at h
        simp [invalid_result] at h
      · rw [h1 hv] at h
        simp [invalid_result] at h
    · rintro ⟨hlv, hrv, hc⟩
      exact ⟨_, _, h2 ⟨hlv, hrv⟩ hc⟩

theorem check_comparison_contract_witness :
    check_binary_expression (1 + 1) TOKEN_EQUAL_EQUAL
        (some (literal TOKEN_INT_LITERAL (.int_value 1)))
        (literal TOKEN_STRING_LITERAL (.string_value "a")) semantic_init
      = .done invalid_result (semantic_error semantic_init)
    ∧ (semantic_error semantic_init).error_count = semantic_init.error_count + 1 :=
  ((check_comparison_contract 1 TOKEN_EQUAL_EQUAL
      (some (literal TOKEN_INT_LITERAL (.int_value 1)))
      (literal TOKEN_STRING_LITERAL (.string_value "a")) semantic_init semantic_init
      semantic_init (check_literal_expression TOKEN_INT_LITERAL)
      (check_literal_expression TOKEN_STRING_LITERAL)
      (typeinfo_create TYPE_INT) (typeinfo_create TYPE_STRING)
      (by decide) rfl rfl rfl rfl).2.1 ⟨rfl, rfl⟩).2 (by decide)

/-! ## Operators on two strings -/

/-- Counterexample to C17: the source text `let r: bool = "a" < "b";` parses to
`program_string_less`; `check_binary_expression` accepts the comparison `"a" < "b"` of two
strings with type `bool` and reports no error, and the analysis of the program succeeds
with `error_count` 0. -/
theorem string_comparison_counterexample :
    (∃ p, parse_program 40 (parser_init tokens_string_less eofToken)
        = .done program_string_less p ∧ p.had_error = false)
    ∧ check_binary_expression 2 TOKEN_LESS
        (some (literal TOKEN_STRING_LITERAL (.string_value "a")))
        (literal TOKEN_STRING_LITERAL (.string_value "b")) semantic_init
      = .done { type := some (typeinfo_create TYPE_BOOL), is_valid := true,
                implicit_conversion := 0 } semantic_init
    ∧ semantic_init.error_count = 0
    ∧ (∃ st', semantic_analyze (fun _ => 0) 8 (some program_string_less) semantic_init
          = .done 1 st' ∧ st'.error_count = 0) :=
  ⟨⟨_, rfl, rfl⟩, rfl, rfl, ⟨_, rfl, rfl⟩⟩

/-- C17, amended.  A binary expression whose operands both check as valid with type
`string`: `check_binary_expression` accepts `+` with type `string`; it rejects `-`, `*` and
`/` with exactly one error; and it accepts each of the six comparison operators with type
`bool`, without error or warning. -/
theorem check_binary_strings_contract (fuel : Nat) (op : TokenType)
    (l : Option ASTNode) (r : ASTNode) (st st1 st2 : SemanticAnalyzer)
    (rl rr : TypeCheckResult) (tl tr : TypeInfo)
    (hl : check_expression fuel l st = .done rl st1)
    (hr : check_expression fuel (some r) st1 = .done rr st2)
    (hlv : rl.is_valid = true) (hrv : rr.is_valid = true)
    (hlt : rl.type = some tl) (hrt : rr.type = some tr)
    (hls : tl.base_type = TYPE_STRING) (hrs : tr.base_type = TYPE_STRING) :
    (op = TOKEN_PLUS →
      check_binary_expression (fuel + 1) op l r st
        = .done { type := some (typeinfo_create TYPE_STRING), is_valid := true,
                  implicit_conversion := 0 } st2)
    ∧ (op = TOKEN_MINUS ∨ op = TOKEN_STAR ∨ op = TOKEN_SLASH →
      check_binary_expression (fuel + 1) op l r st
        = .done invalid_result (semantic_error st2)
      ∧ (semantic_error st2).error_count = st2.error_count + 1)
    ∧ (is_comparison_operator op = true →
      check_binary_expression (fuel + 1) op l r st
        = .done { type := some (typeinfo_create TYPE_BOOL), is_valid := true,
                  implicit_conversion := 0 } st2) := by
  rw [check_binary_expression_of_operands fuel op l r st st1 st2 rl rr hl hr]
  obtain ⟨bl, al, cl⟩ := tl
  obtain ⟨br, ar, cr⟩ := tr
  simp only at hls hrs
  subst hls hrs
  refine ⟨?_, ?_, ?_⟩
  · rintro rfl
    simp [binary_result, hlv, hrv, hlt, hrt, is_numeric_type]
  · intro hop
    refine ⟨?_, rfl⟩
    rcases hop with rfl | rfl | rfl <;>
      simp [binary_result, hlv, hrv, hlt, hrt, is_numeric_type]
  · intro hop
    rcases is_comparison_operator_cases op hop with rfl | rfl | rfl | rfl | rfl | rfl <;>
      simp [binary_result, hlv, hrv, hlt, hrt, is_numeric_type, are_types_comparable,
        is_comparison_operator]

theorem check_binary_strings_contract_witness :
    check_binary_expression (1 + 1) TOKEN_EQUAL_EQUAL
        (some (literal TOKEN_STRING_LITERAL (.string_value "a")))
        (literal TOKEN_STRING_LITERAL (.string_value "b")) semantic_init
      = .done { type := some (typeinfo_create TYPE_BOOL), is_valid := true,
                implicit_conversion := 0 } semantic_init :=
  (check_binary_strings_contract 1 TOKEN_EQUAL_EQUAL
      (some (literal TOKEN_STRING_LITERAL (.string_value "a")))
      (literal TOKEN_STRING_LITERAL (.string_value "b")) semantic_init semantic_init
      semantic_init (check_literal_expression TOKEN_STRING_LITERAL)
      (check_literal_expression TOKEN_STRING_LITERAL)
      (typeinfo_create TYPE_STRING) (typeinfo_create TYPE_STRING)
      rfl rfl rfl rfl rfl rfl rfl rfl).2.2 (by decide)

/-! ## Assignment to a parameter -/

theorem check_assignment_not_variable (fuel : Nat) (name : String) (value : ASTNode)
    (st : SemanticAnalyzer) (entry : SymbolEntry)
    (hfound : symbol_lookup st name = some entry)
    (hcat : entry.category ≠ SYMBOL_VARIABLE) :
    check_assignment (fuel + 1) name value st = .done invalid_result (semantic_error st) := by
  simp [check_assignment, hfound, hcat]

/-- C18, refuted on `fn f(a: int): int { let b: int = a = 1; return a; }`.  The source text
parses without error to `program_assign_parameter`.  In the body of `f` the name `a`
resolves to the parameter of `f`, of type `int`, to which the `int` value `1` is
assignable; `check_assignment` rejects the assignment `a = 1` with one error and the
invalid result, and the analysis of the program fails with `error_count` 1. -/
theorem assignment_to_parameter_is_rejected (stray_stmt_count : ASTNode → Int) (n : Nat) :
    (∃ p, parse_program 60 (parser_init tokens_assign_parameter eofToken)
        = .done program_assign_parameter p ∧ p.had_error = false)
    ∧ (∃ entry, symbol_lookup analyzer_in_body_of_f "a" = some entry
        ∧ entry.category = SYMBOL_PARAMETER
        ∧ entry.type = some (typeinfo_create TYPE_INT)
        ∧ are_types_compatible entry.type
            (check_literal_expression TOKEN_INT_LITERAL).type = true)
    ∧ check_assignment (n + 2) "a" (literal TOKEN_INT_LITERAL (.int_value 1))
        analyzer_in_body_of_f
      = .done invalid_result (semantic_error analyzer_in_body_of_f)
    ∧ (semantic_error analyzer_in_body_of_f).error_count
        = analyzer_in_body_of_f.error_count + 1
    ∧ (∃ st', semantic_analyze stray_stmt_count (n + 12) (some program_assign_parameter)
          semantic_init = .done 0 st'
        ∧ st'.error_count = 1) := by
  refine ⟨⟨_, rfl, rfl⟩, ⟨_, rfl, rfl, rfl, rfl⟩, ?_, rfl, ?_⟩
  · exact check_assignment_not_variable (n + 1) "a" _ analyzer_in_body_of_f
      { symbol_create_variable "a" (some (typeinfo_create TYPE_INT)) with
        category := SYMBOL_PARAMETER, scope_depth := some 2 } rfl (by decide)
  · simp [program_assign_parameter, semantic_analyze, visit_node, visit_function_decl,
      function_parameters, insert_parameters, parameter_entry, symbol_create_function,
      visit_block, visit_block_loop, visit_variable_decl, visit_return_statement,
      return_without_check, check_expression, check_assignment, check_variable_expression,
      check_literal_expression, symbol_lookup, lookup_in_scopes, invalid_result,
      semantic_error,
      typeinfo_create, typeinfo_copy, type_from_ast_node, are_types_compatible,
      symbol_lookup_current, enter_scope, exit_scope, scope_create, find_symbol,
      symbol_insert, symbol_create_variable, semantic_init, semantic_register_builtins]

/-! ## The expression checker: more fuel, and other counters -/

theorem counts_only_scopes {a b : SemanticAnalyzer} (h : CountsOnly a b) :
    b.scopes = a.scopes := by
  rw [h.1]

theorem check_fuel_succ_all (n : Nat) :
    (∀ node st r st1, check_expression n node st = .done r st1 →
        check_expression (n + 1) node st = .done r st1)
    ∧ (∀ op l rn st r st1, check_binary_expression n op l rn st = .done r st1 →
        check_binary_expression (n + 1) op l rn st = .done r st1)
    ∧ (∀ op operand st r st1, check_unary_expression n op operand st = .done r st1 →
        check_unary_expression (n + 1) op operand st = .done r st1)
    ∧ (∀ arguments remaining return_type st r st1,
        check_print_arguments n arguments remaining return_type st = .done r st1 →
        check_print_arguments (n + 1) arguments remaining return_type st = .done r st1)
    ∧ (∀ arguments parameters remaining is_valid return_type st r st1,
        check_call_arguments n arguments parameters remaining is_valid return_type st
          = .done r st1 →
        check_call_arguments (n + 1) arguments parameters remaining is_valid return_type st
          = .done r st1)
    ∧ (∀ name arguments arg_count st r st1,
        check_call_expression n name arguments arg_count st = .done r st1 →
        check_call_expression (n + 1) name arguments arg_count st = .done r st1)
    ∧ (∀ name value st r st1, check_assignment n name value st = .done r st1 →
        check_assignment (n + 1) name value st = .done r st1) := by
  induction n with
  | zero =>
    refine ⟨?_, ?_, ?_, ?_, ?_, ?_, ?_⟩
    · intro node st r st1 h; rw [check_expression] at h; cases h
    · intro op l rn st r st1 h; rw [check_binary_expression] at h; cases h
    · intro op operand st r st1 h; rw [check_unary_expression] at h; cases h
    · intro arguments remaining return_type st r st1 h
      rw [check_print_arguments] at h; cases h
    · intro arguments parameters remaining is_valid return_type st r st1 h
      rw [check_call_arguments] at h; cases h
    · intro name arguments arg_count st r st1 h; rw [check_call_expression] at h; cases h
    · intro name value st r st1 h; rw [check_assignment] at h; cases h
  | succ n ih =>
    obtain ⟨ihE, ihB, ihU, ihP, ihCA, ihC, ihA⟩ := ih
    refine ⟨?_, ?_, ?_, ?_, ?_, ?_, ?_⟩
    · -- check_expression
      intro node st r st1 h
      cases node with
      | none =>
        simp only [check_expression] at h ⊢
        exact h
      | some nd =>
        cases nd <;> simp only [check_expression] at h ⊢
        all_goals first
          | exact h
          | exact ihB _ _ _ _ _ _ h
          | exact ihU _ _ _ _ _ h
          | exact ihC _ _ _ _ _ _ h
          | exact ihA _ _ _ _ _ h
    · -- check_binary_expression
      intro op l rn st r st1 h
      simp only [check_binary_expression] at h ⊢
      split at h
      · rename_i lr st2 hl
        rw [ihE _ _ _ _ hl]
        split at h
        · rename_i rr st3 hr
          rw [ihE _ _ _ _ hr]
          exact h
        · cases h
        · cases h
      · cases h
      · cases h
    · -- check_unary_expression
      intro op operand st r st1 h
      simp only [check_unary_expression] at h ⊢
      split at h
      · rename_i orr st2 ho
        rw [ihE _ _ _ _ ho]
        exact h
      · cases h
      · cases h
    · -- check_print_arguments
      intro arguments remaining return_type st r st1 h
      cases remaining with
      | zero =>
        simp only [check_print_arguments] at h ⊢
        exact h
      | succ k =>
        cases arguments with
        | nil => simp only [check_print_arguments] at h; cases h
        | cons a rest =>
          simp only [check_print_arguments] at h ⊢
          split at h
          · rename_i ar st2 ha
            rw [ihE _ _ _ _ ha]
            by_cases hv : (!ar.is_valid) = true
            · simp only [if_pos hv] at h ⊢
              exact h
            · simp only [if_neg hv] at h ⊢
              exact ihP _ _ _ _ _ _ h
          · cases h
          · cases h
    · -- check_call_arguments
      intro arguments parameters remaining is_valid return_type st r st1 h
      cases remaining with
      | zero =>
        simp only [check_call_arguments] at h ⊢
        exact h
      | succ k =>
        cases arguments with
        | nil => simp only [check_call_arguments] at h; cases h
        | cons a rest =>
          cases parameters with
          | nil => simp only [check_call_arguments] at h; cases h
          | cons p ps =>
            simp only [check_call_arguments] at h ⊢
            split at h
            · rename_i ar st2 ha
              rw [ihE _ _ _ _ ha]
              by_cases hv : (!are_types_compatible p.type ar.type) = true
              · simp only [if_pos hv] at h ⊢
                exact ihCA _ _ _ _ _ _ _ _ h
              · simp only [if_neg hv] at h ⊢
                exact ihCA _ _ _ _ _ _ _ _ h
            · cases h
            · cases h
    · -- check_call_expression
      intro name arguments arg_count st r st1 h
      simp only [check_call_expression] at h ⊢
      cases hs : symbol_lookup st name with
      | none =>
        simp only [hs] at h ⊢
        exact h
      | some f =>
        simp only [hs] at h ⊢
        by_cases hc : f.category ≠ SYMBOL_FUNCTION
        · simp only [if_pos hc] at h ⊢
          exact h
        · simp only [if_neg hc] at h ⊢
          cases hd : f.details with
          | var_info =>
            simp only [hd] at h
            cases h
          | func_info parameters param_count return_type =>
            simp only [hd] at h ⊢
            by_cases h1 : name ≠ "print" ∧ arg_count ≠ param_count
            · simp only [if_pos h1] at h ⊢
              exact h
            · simp only [if_neg h1] at h ⊢
              by_cases h2 : name = "print"
              · simp only [if_pos h2] at h ⊢
                exact ihP _ _ _ _ _ _ h
              · simp only [if_neg h2] at h ⊢
                exact ihCA _ _ _ _ _ _ _ _ h
    · -- check_assignment
      intro name value st r st1 h
      simp only [check_assignment] at h ⊢
      cases hs : symbol_lookup st name with
      | none =>
        simp only [hs] at h ⊢
        exact h
      | some f =>
        simp only [hs] at h ⊢
        by_cases hc : f.category ≠ SYMBOL_VARIABLE
        · simp only [if_pos hc] at h ⊢
          exact h
        · simp only [if_neg hc] at h ⊢
          split at h
          · rename_i vr st2 hv
            rw [ihE _ _ _ _ hv]
            exact h
          · cases h
          · cases h

theorem check_expression_fuel_add (n k : Nat) (node : Option ASTNode)
    (st st1 : SemanticAnalyzer) (r : TypeCheckResult)
    (h : check_expression n node st = .done r st1) :
    check_expression (n + k) node st = .done r st1 := by
  induction k with
  | zero => exact h
  | succ k ih => exact (check_fuel_succ_all (n + k)).1 _ _ _ _ ih

theorem binary_result_any (st st' : SemanticAnalyzer) (op : TokenType)
    (l r res : TypeCheckResult) (st1 : SemanticAnalyzer)
    (h : binary_result st op l r = .done res st1) :
    ∃ st1', binary_result st' op l r = .done res st1' := by
  obtain ⟨lt, lv, lc⟩ := l
  obtain ⟨rt, rv, rc⟩ := r
  cases lt <;> cases rt <;> simp only [binary_result] at h ⊢ <;> split_ifs at h ⊢ <;>
    first
      | (cases h; done)
      | (cases h; exact ⟨_, rfl⟩)

theorem unary_result_any (st st' : SemanticAnalyzer) (op : TokenType)
    (operand res : TypeCheckResult) (st1 : SemanticAnalyzer)
    (h : unary_result st op operand = .done res st1) :
    ∃ st1', unary_result st' op operand = .done res st1' := by
  simp only [unary_result] at h ⊢
  split_ifs at h ⊢ <;>
    first
      | (cases h; done)
      | (cases h; exact ⟨_, rfl⟩)

theorem check_scopes_all (n : Nat) :
    (∀ node st st' r st1, st'.scopes = st.scopes →
        check_expression n node st = .done r st1 →
        ∃ st1', check_expression n node st' = .done r st1')
    ∧ (∀ op l rn st st' r st1, st'.scopes = st.scopes →
        check_binary_expression n op l rn st = .done r st1 →
        ∃ st1', check_binary_expression n op l rn st' = .done r st1')
    ∧ (∀ op operand st st' r st1, st'.scopes = st.scopes →
        check_unary_expression n op operand st = .done r st1 →
        ∃ st1', check_unary_expression n op operand st' = .done r st1')
    ∧ (∀ arguments remaining return_type st st' r st1, st'.scopes = st.scopes →
        check_print_arguments n arguments remaining return_type st = .done r st1 →
        ∃ st1', check_print_arguments n arguments remaining return_type st' = .done r st1')
    ∧ (∀ arguments parameters remaining is_valid return_type st st' r st1,
        st'.scopes = st.scopes →
        check_call_arguments n arguments parameters remaining is_valid return_type st
          = .done r st1 →
        ∃ st1', check_call_arguments n arguments parameters remaining is_valid return_type st'
          = .done r st1')
    ∧ (∀ name arguments arg_count st st' r st1, st'.scopes = st.scopes →
        check_call_expression n name arguments arg_count st = .done r st1 →
        ∃ st1', check_call_expression n name arguments arg_count st' = .done r st1')
    ∧ (∀ name value st st' r st1, st'.scopes = st.scopes →
        check_assignment n name value st = .done r st1 →
        ∃ st1', check_assignment n name value st' = .done r st1') := by
  induction n with
  | zero =>
    refine ⟨?_, ?_, ?_, ?_, ?_, ?_, ?_⟩
    · intro node st st' r st1 _ h; rw [check_expression] at h; cases h
    · intro op l rn st st' r st1 _ h; rw [check_binary_expression] at h; cases h
    · intro op operand st st' r st1 _ h; rw [check_unary_expression] at h; cases h
    · intro arguments remaining return_type st st' r st1 _ h
      rw [check_print_arguments] at h; cases h
    · intro arguments parameters remaining is_valid return_type st st' r st1 _ h
      rw [check_call_arguments] at h; cases h
    · intro name arguments arg_count st st' r st1 _ h
      rw [check_call_expression] at h; cases h
    · intro name value st st' r st1 _ h; rw [check_assignment] at h; cases h
  | succ n ih =>
    obtain ⟨ihE, ihB, ihU, ihP, ihCA, ihC, ihA⟩ := ih
    have hcE := (check_counts_all n).1
    refine ⟨?_, ?_, ?_, ?_, ?_, ?_, ?_⟩
    · -- check_expression
      intro node st st' r st1 hsc h
      cases node with
      | none =>
        simp only [check_expression] at h ⊢
        cases h
        exact ⟨_, rfl⟩
      | some nd =>
        cases nd <;> simp only [check_expression] at h ⊢
        all_goals first
          | exact ihB _ _ _ _ _ _ _ hsc h
          | exact ihU _ _ _ _ _ _ hsc h
          | exact ihC _ _ _ _ _ _ _ hsc h
          | exact ihA _ _ _ _ _ _ hsc h
          | (cases h; exact ⟨_, rfl⟩)
          | (simp only [check_variable_expression, symbol_lookup, hsc] at h ⊢
             cases hs : lookup_in_scopes st.scopes _ <;> simp only [hs] at h ⊢ <;>
               cases h <;> exact ⟨_, rfl⟩)
    · -- check_binary_expression
      intro op l rn st st' r st1 hsc h
      simp only [check_binary_expression] at h ⊢
      split at h
      · rename_i lr st2 hl
        obtain ⟨st2', hl'⟩ := ihE _ _ _ _ _ hsc hl
        have hsc2 : st2'.scopes = st2.scopes := by
          rw [counts_only_scopes (hcE _ _ _ _ hl'), counts_only_scopes (hcE _ _ _ _ hl), hsc]
        rw [hl']
        split at h
        · rename_i rr st3 hr
          obtain ⟨st3', hr'⟩ := ihE _ _ _ _ _ hsc2 hr
          rw [hr']
          exact binary_result_any _ _ _ _ _ _ _ h
        · cases h
        · cases h
      · cases h
      · cases h
    · -- check_unary_expression
      intro op operand st st' r st1 hsc h
      simp only [check_unary_expression] at h ⊢
      split at h
      · rename_i orr st2 ho
        obtain ⟨st2', ho'⟩ := ihE _ _ _ _ _ hsc ho
        rw [ho']
        exact unary_result_any _ _ _ _ _ _ h
      · cases h
      · cases h
    · -- check_print_arguments
      intro arguments remaining return_type st st' r st1 hsc h
      cases remaining with
      | zero =>
        simp only [check_print_arguments] at h ⊢
        cases h
        exact ⟨_, rfl⟩
      | succ k =>
        cases arguments with
        | nil => simp only [check_print_arguments] at h; cases h
        | cons a rest =>
          simp only [check_print_arguments] at h ⊢
          split at h
          · rename_i ar st2 ha
            obtain ⟨st2', ha'⟩ := ihE _ _ _ _ _ hsc ha
            have hsc2 : st2'.scopes = st2.scopes := by
              rw [counts_only_scopes (hcE _ _ _ _ ha'), counts_only_scopes (hcE _ _ _ _ ha),
                hsc]
            rw [ha']
            by_cases hv : (!ar.is_valid) = true
            · simp only [if_pos hv] at h ⊢
              cases h
              exact ⟨_, rfl⟩
            · simp only [if_neg hv] at h ⊢
              exact ihP _ _ _ _ _ _ _ hsc2 h
          · cases h
          · cases h
    · -- check_call_arguments
      intro arguments parameters remaining is_valid return_type st st' r st1 hsc h
      cases remaining with
      | zero =>
        simp only [check_call_arguments] at h ⊢
        cases h
        exact ⟨_, rfl⟩
      | succ k =>
        cases arguments with
        | nil => simp only [check_call_arguments] at h; cases h
        | cons a rest =>
          cases parameters with
          | nil => simp only [check_call_arguments] at h; cases h
          | cons p ps =>
            simp only [check_call_arguments] at h ⊢
            split at h
            · rename_i ar st2 ha
              obtain ⟨st2', ha'⟩ := ihE _ _ _ _ _ hsc ha
              have hsc2 : st2'.scopes = st2.scopes := by
                rw [counts_only_scopes (hcE _ _ _ _ ha'),
                  counts_only_scopes (hcE _ _ _ _ ha), hsc]
              rw [ha']
              by_cases hv : (!are_types_compatible p.type ar.type) = true
              · simp only [if_pos hv] at h ⊢
                exact ihCA _ _ _ _ _ _ _ _ _ (by simpa [semantic_error] using hsc2) h
              · simp only [if_neg hv] at h ⊢
                exact ihCA _ _ _ _ _ _ _ _ _ hsc2 h
            · cases h
            · cases h
    · -- check_call_expression
      intro name arguments arg_count st st' r st1 hsc h
      simp only [check_call_expression, symbol_lookup, hsc] at h ⊢
      cases hs : lookup_in_scopes st.scopes name with
      | none =>
        simp only [hs] at h ⊢
        cases h
        exact ⟨_, rfl⟩
      | some f =>
        simp only [hs] at h ⊢
        by_cases hc : f.category ≠ SYMBOL_FUNCTION
        · simp only [if_pos hc] at h ⊢
          cases h
          exact ⟨_, rfl⟩
        · simp only [if_neg hc] at h ⊢
          cases hd : f.details with
          | var_info =>
            simp only [hd] at h
            cases h
          | func_info parameters param_count return_type =>
            simp only [hd] at h ⊢
            by_cases h1 : name ≠ "print" ∧ arg_count ≠ param_count
            · simp only [if_pos h1] at h ⊢
              cases h
              exact ⟨_, rfl⟩
            · simp only [if_neg h1] at h ⊢
              by_cases h2 : name = "print"
              · simp only [if_pos h2] at h ⊢
                exact ihP _ _ _ _ _ _ _ hsc h
              · simp only [if_neg h2] at h ⊢
                exact ihCA _ _ _ _ _ _ _ _ _ hsc h
    · -- check_assignment
      intro name value st st' r st1 hsc h
      simp only [check_assignment, symbol_lookup, hsc] at h ⊢
      cases hs : lookup_in_scopes st.scopes name with
      | none =>
        simp only [hs] at h ⊢
        cases h
        exact ⟨_, rfl⟩
      | some f =>
        simp only [hs] at h ⊢
        by_cases hc : f.category ≠ SYMBOL_VARIABLE
        · simp only [if_pos hc] at h ⊢
          cases h
          exact ⟨_, rfl⟩
        · simp only [if_neg hc] at h ⊢
          split at h
          · rename_i vr st2 hv
            obtain ⟨st2', hv'⟩ := ihE _ _ _ _ _ hsc hv
            rw [hv']
            simp only []
            split_ifs at h ⊢ <;> (cases h; exact ⟨_, rfl⟩)
          · cases h
          · cases h

/-! ## Calls in the analyzer -/

theorem check_call_arguments_loop (fuel : Nat) (st : SemanticAnalyzer)
    (return_type : Option TypeInfo) :
    ∀ (arguments : List ASTNode) (results : List TypeCheckResult)
      (parameters : List ParameterEntry) (cur : SemanticAnalyzer) (is_valid : Bool),
      ArgumentsChecked fuel st arguments results → parameters.length = arguments.length →
      cur.scopes = st.scopes →
      ∃ st', CountsOnly cur st'
        ∧ (ArgumentsAssignable parameters results →
            check_call_arguments (fuel + arguments.length + 1) arguments parameters
                arguments.length is_valid return_type cur
              = .done (call_result is_valid return_type) st')
        ∧ (¬ ArgumentsAssignable parameters results →
            check_call_arguments (fuel + arguments.length + 1) arguments parameters
                arguments.length is_valid return_type cur
              = .done (call_result false return_type) st'
            ∧ cur.error_count < st'.error_count) := by
  intro arguments
  induction arguments with
  | nil =>
    intro results parameters cur is_valid hargs hlen hsc
    cases hargs
    cases parameters with
    | cons p ps => simp at hlen
    | nil =>
      refine ⟨cur, counts_only_refl _, ?_, ?_⟩
      · intro _
        simp [check_call_arguments]
      · intro hno
        exact absurd List.Forall₂.nil hno
  | cons a rest ih =>
    intro results parameters cur is_valid hargs hlen hsc
    cases hargs with
    | cons hhead htail =>
      rename_i r rs
      cases parameters with
      | nil => simp at hlen
      | cons p ps =>
        obtain ⟨st1, ha⟩ := hhead
        obtain ⟨c1, hc⟩ := (check_scopes_all fuel).1 _ _ cur _ _ hsc ha
        have hc' := check_expression_fuel_add fuel (rest.length + 1) _ _ _ _ hc
        have hcnt := (check_counts_all fuel).1 _ _ _ _ hc
        have hsc1 : c1.scopes = st.scopes := by
          rw [counts_only_scopes hcnt, hsc]
        have hlen' : ps.length = rest.length := by simpa using hlen
        have hstep : ∀ v, check_call_arguments (fuel + (a :: rest).length + 1) (a :: rest)
            (p :: ps) (a :: rest).length v return_type cur
            = if !are_types_compatible p.type r.type then
                check_call_arguments (fuel + rest.length + 1) rest ps rest.length false
                  return_type (semantic_error c1)
              else
                check_call_arguments (fuel + rest.length + 1) rest ps rest.length v
                  return_type c1 := by
          intro v
          show check_call_arguments (fuel + (rest.length + 1) + 1) (a :: rest) (p :: ps)
            (rest.length + 1) v return_type cur = _
          rw [check_call_arguments]
          have e : fuel + (rest.length + 1) = fuel + rest.length + 1 := by omega
          rw [hc']
          simp only [e]
        by_cases hcomp : are_types_compatible p.type r.type = true
        · obtain ⟨st', hco, hyes, hno⟩ := ih rs ps c1 is_valid htail hlen' hsc1
          refine ⟨st', counts_only_trans hcnt hco, ?_, ?_⟩
          · intro hall
            cases hall with
            | cons _ hrest =>
              rw [hstep, hcomp]
              simpa using hyes hrest
          · intro hnall
            have hnrest : ¬ ArgumentsAssignable ps rs := fun hrest =>
              hnall (List.Forall₂.cons hcomp hrest)
            rw [hstep, hcomp]
            obtain ⟨h1, h2⟩ := hno hnrest
            refine ⟨by simpa using h1, lt_of_le_of_lt hcnt.2.1 h2⟩
        · have hcomp' : are_types_compatible p.type r.type = false := by
            simpa using hcomp
          obtain ⟨st', hco, hyes, hno⟩ :=
            ih rs ps (semantic_error c1) false htail hlen' (by simpa [semantic_error] using hsc1)
          have hres : check_call_arguments (fuel + rest.length + 1) rest ps rest.length false
              return_type (semantic_error c1) = .done (call_result false return_type) st' := by
            by_cases hrest : ArgumentsAssignable ps rs
            · exact hyes hrest
            · exact (hno hrest).1
          have hle : (semantic_error c1).error_count ≤ st'.error_count := hco.2.1
          have hlt : cur.error_count < st'.error_count := by
            have h1 : cur.error_count ≤ c1.error_count := hcnt.2.1
            have h2 : (semantic_error c1).error_count = c1.error_count + 1 := rfl
            omega
          refine ⟨st', counts_only_trans hcnt (counts_only_trans (counts_only_error _) hco),
            ?_, ?_⟩
          · intro hall
            cases hall with
            | cons hh _ => rw [hh] at hcomp'; cases hcomp'
          · intro _
            rw [hstep, hcomp']
            exact ⟨by simpa using hres, hlt⟩

theorem check_print_arguments_loop (fuel : Nat) (st : SemanticAnalyzer)
    (return_type : Option TypeInfo) :
    ∀ (arguments : List ASTNode) (results : List TypeCheckResult) (cur : SemanticAnalyzer),
      ArgumentsChecked fuel st arguments results → cur.scopes = st.scopes →
      ∃ st', CountsOnly cur st'
        ∧ ((∀ result ∈ results, result.is_valid = true) →
            check_print_arguments (fuel + arguments.length + 1) arguments arguments.length
                return_type cur
              = .done (call_result true return_type) st')
        ∧ (¬ (∀ result ∈ results, result.is_valid = true) →
            check_print_arguments (fuel + arguments.length + 1) arguments arguments.length
                return_type cur
              = .done invalid_result st') := by
  intro arguments
  induction arguments with
  | nil =>
    intro results cur hargs hsc
    cases hargs
    refine ⟨cur, counts_only_refl _, ?_, ?_⟩
    · intro _
      simp [check_print_arguments]
    · intro hno
      exact absurd (by simp) hno
  | cons a rest ih =>
    intro results cur hargs hsc
    cases hargs with
    | cons hhead htail =>
      rename_i r rs
      obtain ⟨st1, ha⟩ := hhead
      obtain ⟨c1, hc⟩ := (check_scopes_all fuel).1 _ _ cur _ _ hsc ha
      have hc' := check_expression_fuel_add fuel (rest.length + 1) _ _ _ _ hc
      have hcnt := (check_counts_all fuel).1 _ _ _ _ hc
      have hsc1 : c1.scopes = st.scopes := by
        rw [counts_only_scopes hcnt, hsc]
      have hstep : check_print_arguments (fuel + (a :: rest).length + 1) (a :: rest)
          (a :: rest).length return_type cur
          = if !r.is_valid then .done invalid_result c1
            else check_print_arguments (fuel + rest.length + 1) rest rest.length
              return_type c1 := by
        show check_print_arguments (fuel + (rest.length + 1) + 1) (a :: rest)
          (rest.length + 1) return_type cur = _
        rw [check_print_arguments]
        have e : fuel + (rest.length + 1) = fuel + rest.length + 1 := by omega
        rw [hc']
        simp only [e]
      by_cases hv : r.is_valid = true
      · obtain ⟨st', hco, hyes, hno⟩ := ih rs c1 htail hsc1
        refine ⟨st', counts_only_trans hcnt hco, ?_, ?_⟩
        · intro hall
          rw [hstep, hv]
          simpa using hyes (fun x hx => hall x (List.mem_cons_of_mem _ hx))
        · intro hnall
          have hnrest : ¬ (∀ result ∈ rs, result.is_valid = true) := by
            intro hrest
            apply hnall
            intro x hx
            rcases List.mem_cons.1 hx with rfl | hx
            · exact hv
            · exact hrest x hx
          rw [hstep, hv]
          simpa using hno hnrest
      · have hv' : r.is_valid = false := by simpa using hv
        refine ⟨c1, hcnt, ?_, ?_⟩
        · intro hall
          exact absurd (hall r (List.mem_cons_self _ _)) hv
        · intro _
          rw [hstep, hv']
          simp

/-- C19. A call `name(arguments)` checked in the analyzer `st`.  When `name` does not
resolve to a function symbol, `check_call_expression` reports an error and returns the
invalid result.  When it resolves to a function with the parameters `parameters`: for a
callee other than `print`, a number of arguments different from `param_count` is an error;
with the same number, the call is accepted, with the return type of the function, iff the
type of every argument is assignable to the type of the corresponding parameter, and it is
rejected with an error otherwise; for `print`, whatever the number of arguments and their
types, the call is accepted iff every argument checks as valid.  `results` are the results
of the checks of the arguments. -/
theorem check_call_expression_contract (fuel : Nat) (name : String)
    (arguments : List ASTNode) (st : SemanticAnalyzer) :
    ((∀ function, symbol_lookup st name = some function →
          function.category ≠ SYMBOL_FUNCTION) →
      ∀ arg_count, check_call_expression (fuel + 1) name arguments arg_count st
        = .done invalid_result (semantic_error st))
    ∧ (∀ function parameters param_count return_type,
        symbol_lookup st name = some function → function.category = SYMBOL_FUNCTION →
        function.details = .func_info parameters param_count return_type →
        (name ≠ "print" → arguments.length ≠ param_count →
          check_call_expression (fuel + 1) name arguments arguments.length st
            = .done invalid_result (semantic_error st))
        ∧ (∀ results, ArgumentsChecked fuel st arguments results →
            (name ≠ "print" → arguments.length = param_count →
              parameters.length = param_count →
              ∃ st', CountsOnly st st'
                ∧ (ArgumentsAssignable parameters results →
                    check_call_expression (fuel + arguments.length + 2) name arguments
                        arguments.length st
                      = .done { type := typeinfo_copy return_type, is_valid := true,
                                implicit_conversion := 0 } st')
                ∧ (¬ ArgumentsAssignable parameters results →
                    check_call_expression (fuel + arguments.length + 2) name arguments
                        arguments.length st
                      = .done invalid_result st'
                    ∧ st.error_count < st'.error_count))
            ∧ (name = "print" →
              ∃ st', CountsOnly st st'
                ∧ ((∀ result ∈ results, result.is_valid = true) →
                    check_call_expression (fuel + arguments.length + 2) name arguments
                        arguments.length st
                      = .done { type := typeinfo_copy return_type, is_valid := true,
                                implicit_conversion := 0 } st')
                ∧ (¬ (∀ result ∈ results, result.is_valid = true) →
                    check_call_expression (fuel + arguments.length + 2) name arguments
                        arguments.length st
                      = .done invalid_result st')))) := by
  refine ⟨?_, ?_⟩
  · intro hnot arg_count
    simp only [check_call_expression]
    cases hs : symbol_lookup st name with
    | none => rfl
    | some f => simp [hnot f hs]
  · intro f parameters param_count return_type hs hcat hdet
    refine ⟨?_, ?_⟩
    · intro hname hcount
      simp [check_call_expression, hs, hcat, hdet, hname, hcount]
    · intro results hargs
      refine ⟨?_, ?_⟩
      · intro hname hcount hplen
        obtain ⟨st', hco, hyes, hno⟩ :=
          check_call_arguments_loop fuel st return_type arguments results parameters st true
            hargs (by rw [hplen, hcount]) rfl
        have hcall : check_call_expression (fuel + arguments.length + 2) name arguments
            arguments.length st
            = check_call_arguments (fuel + arguments.length + 1) arguments parameters
                arguments.length true return_type st := by
          simp [check_call_expression, hs, hcat, hdet, hname, hcount]
        refine ⟨st', hco, ?_, ?_⟩
        · intro hall
          rw [hcall, hyes hall]
          simp [call_result]
        · intro hnall
          rw [hcall, (hno hnall).1]
          exact ⟨by simp [call_result], (hno hnall).2⟩
      · intro hname
        subst hname
        obtain ⟨st', hco, hyes, hno⟩ :=
          check_print_arguments_loop fuel st return_type arguments results st hargs rfl
        have hcall : check_call_expression (fuel + arguments.length + 2) "print" arguments
            arguments.length st
            = check_print_arguments (fuel + arguments.length + 1) arguments
                arguments.length return_type st := by
          simp [check_call_expression, hs, hcat, hdet]
        refine ⟨st', hco, ?_, ?_⟩
        · intro hall
          rw [hcall, hyes hall]
          simp [call_result]
        · intro hnall
          rw [hcall, hno hnall]

theorem check_call_expression_contract_witness :
    ∃ st', check_call_expression (1 + [literal TOKEN_INT_LITERAL (.int_value 7)].length + 2)
        "len" [literal TOKEN_INT_LITERAL (.int_value 7)]
        [literal TOKEN_INT_LITERAL (.int_value 7)].length semantic_init
      = .done invalid_result st'
      ∧ semantic_init.error_count < st'.error_count := by
  obtain ⟨st', _, _, hno⟩ :=
    (((check_call_expression_contract 1 "len" [literal TOKEN_INT_LITERAL (.int_value 7)]
        semantic_init).2
      { symbol_create_function "len" (some (typeinfo_create TYPE_INT))
          [parameter_entry "text" (some (typeinfo_create TYPE_STRING))] 1 with
        scope_depth := some 0 }
      [parameter_entry "text" (some (typeinfo_create TYPE_STRING))] 1
      (some (typeinfo_create TYPE_INT)) rfl rfl rfl).2
      [check_literal_expression TOKEN_INT_LITERAL]
      (List.Forall₂.cons ⟨semantic_init, rfl⟩ List.Forall₂.nil)).1 (by decide) rfl rfl
  refine ⟨st', hno ?_⟩
  intro hall
  cases hall with
  | cons h _ => exact absurd h (by decide)

/-! ## The builtin `type` in the analyzer -/

/-- C20, refuted on `let a: int = 42; let t: string = type(a);`.  The source text parses
without error to `program_type_of_int`.  `semantic_register_builtins` gives `type` one
parameter of type `string`, so `check_call_expression` rejects `type(a)` for the `int`
variable `a` with one error, and likewise `type` of an `int`, a `float` and a `bool`
literal; only `type` of a string is accepted, with type `string`.  The analysis of the
program fails with `error_count` 1. -/
theorem type_of_int_is_rejected (stray_stmt_count : ASTNode → Int) (n : Nat) :
    (∃ p, parse_program 40 (parser_init tokens_type_of_int eofToken)
        = .done program_type_of_int p ∧ p.had_error = false)
    ∧ check_call_expression (n + 3) "type" [var_expr "a"] 1 analyzer_a_declared
        = .done invalid_result (semantic_error analyzer_a_declared)
    ∧ (semantic_error analyzer_a_declared).error_count
        = analyzer_a_declared.error_count + 1
    ∧ (∀ literal_type value,
        literal_type = TOKEN_INT_LITERAL ∨ literal_type = TOKEN_FLOAT_LITERAL
          ∨ literal_type = TOKEN_TRUE ∨ literal_type = TOKEN_FALSE →
        check_call_expression (n + 3) "type" [literal literal_type value] 1 semantic_init
          = .done invalid_result (semantic_error semantic_init))
    ∧ (∀ value,
        check_call_expression (n + 3) "type" [literal TOKEN_STRING_LITERAL value] 1
            semantic_init
          = .done { type := some (typeinfo_create TYPE_STRING), is_valid := true,
                    implicit_conversion := 0 } semantic_init)
    ∧ (∃ st', semantic_analyze stray_stmt_count (n + 10) (some program_type_of_int)
          semantic_init = .done 0 st'
        ∧ st'.error_count = 1) := by
  have hlookup : ∀ st : SemanticAnalyzer, st.scopes = semantic_init.scopes →
      symbol_lookup st "type"
        = some { symbol_create_function "type" (some (typeinfo_create TYPE_STRING))
                   [parameter_entry "value" (some (typeinfo_create TYPE_STRING))] 1 with
                 scope_depth := some 0 } := by
    intro st h
    simp only [symbol_lookup, h]
    rfl
  have hlookup_a : symbol_lookup analyzer_a_declared "type"
        = some { symbol_create_function "type" (some (typeinfo_create TYPE_STRING))
                   [parameter_entry "value" (some (typeinfo_create TYPE_STRING))] 1 with
                 scope_depth := some 0 } := rfl
  have hvar : symbol_lookup analyzer_a_declared "a"
        = some { symbol_create_variable "a" (some (typeinfo_create TYPE_INT)) with
                 scope_depth := some 1 } := rfl
  refine ⟨⟨_, rfl, rfl⟩, ?_, rfl, ?_, ?_, ?_⟩
  · simp [check_call_expression, check_call_arguments, check_expression,
      check_variable_expression, hlookup_a, hvar, symbol_create_function,
      symbol_create_variable, parameter_entry, typeinfo_copy, typeinfo_create,
      are_types_compatible, call_result]
  · intro literal_type value hlit
    rcases hlit with rfl | rfl | rfl | rfl <;>
      simp [check_call_expression, check_call_arguments, check_expression,
        check_literal_expression, hlookup semantic_init rfl, symbol_create_function,
        parameter_entry, typeinfo_copy, typeinfo_create, are_types_compatible, call_result]
  · intro value
    simp [check_call_expression, check_call_arguments, check_expression,
      check_literal_expression, hlookup semantic_init rfl, symbol_create_function,
      parameter_entry, typeinfo_copy, typeinfo_create, are_types_compatible, call_result]
  · simp [program_type_of_int, semantic_analyze, visit_node,
      visit_block, visit_block_loop, visit_variable_decl, check_expression,
      check_call_expression, check_call_arguments, check_variable_expression,
      check_literal_expression, symbol_lookup, lookup_in_scopes, invalid_result,
      semantic_error, call_result, symbol_create_function, parameter_entry,
      typeinfo_create, typeinfo_copy, type_from_ast_node, are_types_compatible,
      symbol_lookup_current, enter_scope, exit_scope, scope_create, find_symbol,
      symbol_insert, symbol_create_variable, semantic_init, semantic_register_builtins]

/-! ## Returns and nested function declarations -/

theorem visit_return_statement_outside (fuel : Nat) (value : Option ASTNode)
    (st : SemanticAnalyzer) (h : st.in_function = false) :
    visit_return_statement (fuel + 1) value st = .done () (semantic_error st) := by
  simp [visit_return_statement, return_without_check, h]

/-- C21, refuted on `fn outer(): int { fn inner(): int { return 1; } return 2; }`.  The
source text parses without error to `program_return_after_nested`.  The statement
`return 2;` stands in the body of `outer` and carries an `int` value for the return type
`int`, yet the analysis reports one error: `visit_function_decl` leaves `in_function`
false when it has visited `inner`, and `visit_return_statement` then takes `return 2;`
for a return outside of any function.  Without the nested declaration the same function is
accepted. -/
theorem return_after_nested_function_is_rejected (stray_stmt_count : ASTNode → Int)
    (n : Nat) :
    (∃ p, parse_program 60 (parser_init tokens_return_after_nested eofToken)
        = .done program_return_after_nested p ∧ p.had_error = false)
    ∧ (∃ st', semantic_analyze stray_stmt_count (n + 16) (some program_return_after_nested)
          semantic_init = .done 0 st'
        ∧ st'.error_count = 1)
    ∧ (∃ st', semantic_analyze stray_stmt_count (n + 16) (some program_return_alone)
          semantic_init = .done 1 st'
        ∧ st'.error_count = 0) := by
  refine ⟨⟨_, rfl, rfl⟩, ?_, ?_⟩
  · simp [program_return_after_nested, semantic_analyze, visit_node, visit_function_decl,
      function_parameters, insert_parameters, symbol_create_function,
      visit_block, visit_block_loop, visit_return_statement,
      return_without_check, check_expression, check_literal_expression,
      symbol_lookup, lookup_in_scopes, semantic_error,
      typeinfo_create, typeinfo_copy, type_from_ast_node, are_types_compatible,
      symbol_lookup_current, enter_scope, exit_scope, scope_create, find_symbol,
      symbol_insert, semantic_init, semantic_register_builtins]
  · simp [program_return_alone, semantic_analyze, visit_node, visit_function_decl,
      function_parameters, insert_parameters, symbol_create_function,
      visit_block, visit_block_loop, visit_return_statement,
      return_without_check, check_expression, check_literal_expression,
      symbol_lookup, lookup_in_scopes, semantic_error,
      typeinfo_create, typeinfo_copy, type_from_ast_node, are_types_compatible,
      symbol_lookup_current, enter_scope, exit_scope, scope_create, find_symbol,
      symbol_insert, semantic_init, semantic_register_builtins]

/-- C22, refuted on `fn outer(): int { return 1; fn inner(): void { } }`.  The source text
parses without error to `program_return_before_nested`.  The body of `outer` contains the
statement `return 1;`, yet the analysis reports one error, the missing return of `outer`:
`visit_function_decl` clears `has_return_statement` when it starts on `inner`.  The first
half of the claim holds on the program of the test: `fn teste(): int { let x: int = 10; }`
gets exactly one error. -/
theorem return_before_nested_function_is_forgotten (stray_stmt_count : ASTNode → Int)
    (n : Nat) :
    (∃ p, parse_program 60 (parser_init tokens_return_before_nested eofToken)
        = .done program_return_before_nested p ∧ p.had_error = false)
    ∧ (∃ st', semantic_analyze stray_stmt_count (n + 16) (some program_return_before_nested)
          semantic_init = .done 0 st'
        ∧ st'.error_count = 1)
    ∧ (∃ p, parse_program 60 (parser_init tokens_without_return eofToken)
        = .done program_without_return p ∧ p.had_error = false)
    ∧ (∃ st', semantic_analyze stray_stmt_count (n + 16) (some program_without_return)
          semantic_init = .done 0 st'
        ∧ st'.error_count = 1) := by
  refine ⟨⟨_, rfl, rfl⟩, ?_, ⟨_, rfl, rfl⟩, ?_⟩
  · simp [program_return_before_nested, semantic_analyze, visit_node, visit_function_decl,
      function_parameters, insert_parameters, symbol_create_function,
      visit_block, visit_block_loop, visit_return_statement,
      return_without_check, check_expression, check_literal_expression,
      symbol_lookup, lookup_in_scopes, semantic_error,
      typeinfo_create, typeinfo_copy, type_from_ast_node, are_types_compatible,
      symbol_lookup_current, enter_scope, exit_scope, scope_create, find_symbol,
      symbol_insert, semantic_init, semantic_register_builtins]
  · simp [program_without_return, semantic_analyze, visit_node, visit_function_decl,
      function_parameters, insert_parameters, symbol_create_function,
      visit_block, visit_block_loop, visit_variable_decl,
      check_expression, check_literal_expression,
      symbol_lookup, lookup_in_scopes, semantic_error, symbol_create_variable,
      typeinfo_create, typeinfo_copy, type_from_ast_node, are_types_compatible,
      symbol_lookup_current, enter_scope, exit_scope, scope_create, find_symbol,
      symbol_insert, semantic_init, semantic_register_builtins]

/-! ## The visitor keeps the enclosing scopes -/

theorem symbol_insert_scopes (st : SemanticAnalyzer) (entry : SymbolEntry) (h : Scope)
    (t : List Scope) (hs : st.scopes = h :: t) :
    (symbol_insert st entry).scopes
      = { h with symbols := { entry with scope_depth := some h.depth } :: h.symbols } :: t := by
  simp [symbol_insert, hs]

theorem insert_parameters_scopes (entries : List ParameterEntry) :
    ∀ (st : SemanticAnalyzer) (h : Scope) (t : List Scope), st.scopes = h :: t →
      ∃ h', (insert_parameters st entries).scopes = h' :: t := by
  induction entries with
  | nil => intro st h t hs; exact ⟨h, hs⟩
  | cons e rest ih =>
    intro st h t hs
    simp only [insert_parameters]
    exact ih _ _ t (symbol_insert_scopes st _ h t hs)

theorem visit_variable_decl_scopes (n : Nat) (name : String) (decl_type : ASTNode)
    (init : Option ASTNode) (st st' : SemanticAnalyzer) (h : Scope) (t : List Scope)
    (hv : visit_variable_decl n name decl_type init st = .done () st')
    (hs : st.scopes = h :: t) : ∃ h', st'.scopes = h' :: t := by
  cases n with
  | zero => simp [visit_variable_decl] at hv
  | succ n =>
    simp only [visit_variable_decl] at hv
    split at hv
    · cases hv
      exact ⟨h, hs⟩
    · split at hv
      · rename_i r st1 he
        have hsc := counts_only_scopes ((check_counts_all n).1 _ _ _ _ he)
        split at hv
        · cases hv
          exact ⟨h, by rw [hsc, hs]⟩
        · split at hv
          · cases hv
            exact ⟨h, by simp [semantic_error, hsc, hs]⟩
          · cases hv
            exact ⟨_, symbol_insert_scopes st1 _ h t (by rw [hsc, hs])⟩
      · cases hv
      · cases hv

theorem visit_return_statement_scopes (n : Nat) (value : Option ASTNode)
    (st st' : SemanticAnalyzer)
    (hv : visit_return_statement n value st = .done () st') : st'.scopes = st.scopes := by
  cases n with
  | zero => simp [visit_return_statement] at hv
  | succ n =>
    simp only [visit_return_statement, return_without_check] at hv
    split at hv
    · cases hv
    · rename_i st1 heq
      cases hv
      split at heq
      · cases heq; rfl
      · split at heq
        · cases heq
        · split at heq
          · split at heq <;> (cases heq; rfl)
          · split at heq <;> cases heq
            rfl
    · rename_i st1 heq
      have h1 : st1.scopes = st.scopes := by
        split at heq
        · cases heq
        · split at heq
          · cases heq
          · split at heq
            · split at heq <;> cases heq
            · split at heq <;> cases heq
              rfl
      split at hv
      · rename_i r st2 he
        have hsc := counts_only_scopes ((check_counts_all n).1 _ _ _ _ he)
        split at hv <;> cases hv
        · simp [semantic_error, hsc, h1]
        · rw [hsc, h1]
      · cases hv
      · cases hv

theorem condition_checked_scopes (st st' : SemanticAnalyzer) (r : TypeCheckResult)
    (h : condition_checked st r = some st') : st'.scopes = st.scopes := by
  simp only [condition_checked] at h
  split at h
  · split at h
    · cases h
    · split at h <;> (cases h; rfl)
  · cases h
    rfl

theorem visit_function_decl_scopes_step (stray_stmt_count : ASTNode → Int) (n : Nat)
    (ihN : ∀ node st st' h t, visit_node stray_stmt_count n node st = .done () st' →
        st.scopes = h :: t → ∃ h', st'.scopes = h' :: t)
    (name : String) (params : List ASTNode) (param_count : Nat)
    (return_type body : ASTNode) (st st' : SemanticAnalyzer) (h : Scope) (t : List Scope)
    (hnew : symbol_lookup_current st name = none)
    (hv : visit_function_decl stray_stmt_count (n + 1) name params param_count return_type
        body st = .done () st')
    (hs : st.scopes = h :: t) :
    ∃ entries, function_parameters params param_count = some entries
      ∧ st'.scopes
        = { h with
            symbols :=
              { symbol_create_function name (some (type_from_ast_node (some return_type)))
                  entries param_count with scope_depth := some h.depth } :: h.symbols } :: t := by
  simp only [visit_function_decl, hnew] at hv
  split at hv
  · cases hv
  · rename_i entries hp
    refine ⟨entries, hp, ?_⟩
    split at hv
    · rename_i u st2 hb
      cases hv
      have h1 := symbol_insert_scopes
        { st with in_function := true, has_return_statement := false,
                  current_return_type := some (type_from_ast_node (some return_type)) }
        (symbol_create_function name (some (type_from_ast_node (some return_type)))
          entries param_count) h t hs
      obtain ⟨fs, h2⟩ := insert_parameters_scopes entries
        (enter_scope (symbol_insert
          { st with in_function := true, has_return_statement := false,
                    current_return_type :=
                      some (type_from_ast_node (some return_type)) }
          (symbol_create_function name (some (type_from_ast_node (some return_type)))
            entries param_count)) SCOPE_FUNCTION) _ _ rfl
      obtain ⟨fs', h3⟩ := ihN _ _ _ _ _ hb h2
      split <;> simp [exit_scope, semantic_error, h3, h1]
    · cases hv
    · cases hv

theorem visit_scopes_all (stray_stmt_count : ASTNode → Int) (n : Nat) :
    (∀ node st st' h t, visit_node stray_stmt_count n node st = .done () st' →
        st.scopes = h :: t → ∃ h', st'.scopes = h' :: t)
    ∧ (∀ name params param_count return_type body st st' h t,
        visit_function_decl stray_stmt_count n name params param_count return_type body st
          = .done () st' →
        st.scopes = h :: t → ∃ h', st'.scopes = h' :: t)
    ∧ (∀ condition then_branch else_branch st st' h t,
        visit_if_statement stray_stmt_count n condition then_branch else_branch st
          = .done () st' →
        st.scopes = h :: t → ∃ h', st'.scopes = h' :: t)
    ∧ (∀ condition body st st' h t,
        visit_while_statement stray_stmt_count n condition body st = .done () st' →
        st.scopes = h :: t → ∃ h', st'.scopes = h' :: t)
    ∧ (∀ statements st st' h t,
        visit_block stray_stmt_count n statements st = .done () st' →
        st.scopes = h :: t → ∃ h', st'.scopes = h' :: t)
    ∧ (∀ statements st st' h t,
        visit_block_loop stray_stmt_count n statements st = .done () st' →
        st.scopes = h :: t → st'.scopes = t)
    ∧ (∀ node st st' h t,
        visit_expression_statement stray_stmt_count n node st = .done () st' →
        st.scopes = h :: t → ∃ h', st'.scopes = h' :: t) := by
  induction n with
  | zero =>
    refine ⟨?_, ?_, ?_, ?_, ?_, ?_, ?_⟩
    · intro node st st' h t hv; rw [visit_node] at hv; cases hv
    · intro name params param_count return_type body st st' h t hv
      rw [visit_function_decl] at hv; cases hv
    · intro condition then_branch else_branch st st' h t hv
      rw [visit_if_statement] at hv; cases hv
    · intro condition body st st' h t hv; rw [visit_while_statement] at hv; cases hv
    · intro statements st st' h t hv; rw [visit_block] at hv; cases hv
    · intro statements st st' h t hv; rw [visit_block_loop] at hv; cases hv
    · intro node st st' h t hv; rw [visit_expression_statement] at hv; cases hv
  | succ n ih =>
    obtain ⟨ihN, ihF, ihI, ihW, ihB, ihL, ihE⟩ := ih
    refine ⟨?_, ?_, ?_, ?_, ?_, ?_, ?_⟩
    · -- visit_node
      intro node st st' h t hv hs
      cases node with
      | none =>
        simp only [visit_node] at hv
        cases hv
        exact ⟨h, hs⟩
      | some nd =>
        cases nd <;> simp only [visit_node] at hv
        all_goals first
          | exact visit_variable_decl_scopes _ _ _ _ _ _ h t hv hs
          | exact ihF _ _ _ _ _ _ _ h t hv hs
          | exact ihI _ _ _ _ _ h t hv hs
          | exact ihW _ _ _ _ h t hv hs
          | exact ihB _ _ _ h t hv hs
          | exact ihE _ _ _ h t hv hs
          | exact ⟨h, by rw [visit_return_statement_scopes _ _ _ _ hv, hs]⟩
          | (cases hv; exact ⟨h, hs⟩)
    · -- visit_function_decl
      intro name params param_count return_type body st st' h t hv hs
      cases hnew : symbol_lookup_current st name with
      | some e =>
        simp only [visit_function_decl, hnew] at hv
        cases hv
        exact ⟨h, hs⟩
      | none =>
        obtain ⟨entries, _, hsc⟩ := visit_function_decl_scopes_step stray_stmt_count n ihN
          name params param_count return_type body st st' h t hnew hv hs
        exact ⟨_, hsc⟩
    · -- visit_if_statement
      intro condition then_branch else_branch st st' h t hv hs
      simp only [visit_if_statement] at hv
      split at hv
      · rename_i r st1 he
        have hsc := counts_only_scopes ((check_counts_all n).1 _ _ _ _ he)
        split at hv
        · cases hv
        · rename_i st2 hc
          have hsc2 := condition_checked_scopes _ _ _ hc
          split at hv
          · rename_i u st3 ht
            obtain ⟨h3, hs3⟩ := ihN _ _ _ _ _ ht (by rw [hsc2, hsc, hs])
            split at hv
            · exact ihN _ _ _ _ _ hv hs3
            · cases hv
              exact ⟨h3, hs3⟩
          · cases hv
          · cases hv
      · cases hv
      · cases hv
    · -- visit_while_statement
      intro condition body st st' h t hv hs
      simp only [visit_while_statement] at hv
      split at hv
      · rename_i r st1 he
        have hsc := counts_only_scopes ((check_counts_all n).1 _ _ _ _ he)
        split at hv
        · cases hv
        · rename_i st2 hc
          have hsc2 := condition_checked_scopes _ _ _ hc
          exact ihN _ _ _ _ _ hv (by rw [hsc2, hsc, hs])
      · cases hv
      · cases hv
    · -- visit_block
      intro statements st st' h t hv hs
      simp only [visit_block] at hv
      have := ihL _ _ _ (scope_create SCOPE_BLOCK st.scopes) st.scopes hv rfl
      exact ⟨h, by rw [this, hs]⟩
    · -- visit_block_loop
      intro statements st st' h t hv hs
      cases statements with
      | nil =>
        simp only [visit_block_loop] at hv
        cases hv
        simp [exit_scope, hs]
      | cons s rest =>
        simp only [visit_block_loop] at hv
        split at hv
        · rename_i u st1 h1
          obtain ⟨h', hs'⟩ := ihN _ _ _ _ _ h1 hs
          exact ihL _ _ _ _ _ hv hs'
        · cases hv
        · cases hv
    · -- visit_expression_statement
      intro node st st' h t hv hs
      simp only [visit_expression_statement] at hv
      split at hv
      · cases hv
      · cases hv
        exact ⟨h, hs⟩

/-! ## Redeclaration and shadowing -/

theorem lookup_in_scopes_inserted (entry : SymbolEntry) (h : Scope) (t : List Scope) :
    lookup_in_scopes
        ({ h with symbols := { entry with scope_depth := some h.depth } :: h.symbols } :: t)
        entry.name
      = some { entry with scope_depth := some h.depth } := by
  simp [lookup_in_scopes, find_symbol]

theorem find_symbol_inserted (entry : SymbolEntry) (h : Scope) :
    find_symbol ({ entry with scope_depth := some h.depth } :: h.symbols) entry.name
      = some { entry with scope_depth := some h.depth } := by
  simp [find_symbol]

theorem lookup_in_scopes_unbound (inner rest : List Scope) (name : String)
    (h : unbound_in inner name) :
    lookup_in_scopes (inner ++ rest) name = lookup_in_scopes rest name := by
  induction inner with
  | nil => rfl
  | cons s inner ih =>
    have hs : find_symbol s.symbols name = none := h s (List.mem_cons_self _ _)
    have hrest : unbound_in inner name := fun x hx => h x (List.mem_cons_of_mem _ hx)
    simp only [List.cons_append, lookup_in_scopes, hs]
    exact ih hrest

theorem insert_parameters_error_count (entries : List ParameterEntry) :
    ∀ st : SemanticAnalyzer, (insert_parameters st entries).error_count = st.error_count := by
  induction entries with
  | nil => intro st; rfl
  | cons e rest ih =>
    intro st
    simp only [insert_parameters]
    rw [ih]
    cases hs : st.scopes <;> simp [symbol_insert, hs]

theorem insert_parameters_tail (entries : List ParameterEntry) :
    ∀ st : SemanticAnalyzer, (insert_parameters st entries).scopes.tail = st.scopes.tail := by
  induction entries with
  | nil => intro st; rfl
  | cons e rest ih =>
    intro st
    simp only [insert_parameters]
    rw [ih]
    cases hs : st.scopes <;> simp [symbol_insert, hs]

theorem declares_function_create (name : String) (entries : List ParameterEntry)
    (param_count : Nat) (return_type : TypeInfo) (depth : Int) :
    SymbolEntry.declares_function
      { symbol_create_function name (some return_type) entries param_count with
        scope_depth := some depth }
      name entries param_count return_type depth :=
  ⟨rfl, rfl, rfl, rfl⟩

theorem visit_function_decl_fresh (stray_stmt_count : ASTNode → Int) (fuel : Nat)
    (x : String) (params : List ASTNode) (param_count : Nat) (return_type body : ASTNode)
    (st : SemanticAnalyzer) (entries : List ParameterEntry)
    (hnew : symbol_lookup_current st x = none)
    (hp : function_parameters params param_count = some entries) :
    visit_function_decl stray_stmt_count (fuel + 1) x params param_count return_type body st
      = match visit_node stray_stmt_count fuel (some body)
          (insert_parameters
            (enter_scope
              (symbol_insert
                { st with in_function := true, has_return_statement := false,
                          current_return_type := some (type_from_ast_node (some return_type)) }
                (symbol_create_function x (some (type_from_ast_node (some return_type)))
                  entries param_count))
              SCOPE_FUNCTION)
            entries) with
        | .done _ analyzer =>
          .done ()
            { exit_scope
                (if (type_from_ast_node (some return_type)).base_type ≠ TYPE_VOID
                    ∧ analyzer.has_return_statement = false then
                  semantic_error analyzer
                else analyzer) with
              in_function := false, current_return_type := none }
        | .undefined => .undefined
        | .outOfFuel => .outOfFuel := by
  rw [visit_function_decl]
  simp only [hnew, hp] <;> rfl

/-- C23. A declaration of the name `x` in the analyzer `st`.  When the current scope
already declares `x`, a variable declaration and a function declaration of `x` each report
exactly one error and leave the scopes as they are, so `x` still resolves to the existing
symbol.  When the current scope does not declare `x` (an enclosing scope may), a variable
declaration with a valid initializer of an assignable type reports no error and inserts the
variable; a function declaration, whatever its body, reports no error of its own and
inserts the function before it visits the body (the declaration is the visit of the body in
the state entered that way, followed by the check for a missing return); in both cases `x`
then resolves to the new symbol, in the current scope and from every scope nested in it
that does not declare `x` itself, and the enclosing scopes are as they were.  Of a function
symbol the fields read by a call are stated (name, category, parameters, the copy of the
return type), not the field `type`.  The program of `test_error_cases` gets exactly one
error; in `let x: int = 1; { let x: string = "a"; let y: string = x; } let z: int = x;`
the block's `x` is the string and the `x` after the block is the `int` again: no error; a
second `fn f(): void { }` in the scope of the first gets one error, while in a block nested
in that scope `fn f(a: int): int { return a; }` gets none and `f(2)` is then a call of the
inner `f`. -/
theorem redeclaration_contract (stray_stmt_count : ASTNode → Int) (fuel : Nat) (x : String)
    (st : SemanticAnalyzer) :
    (∀ existing, symbol_lookup_current st x = some existing →
      (∀ decl_type init,
        visit_variable_decl (fuel + 1) x decl_type init st = .done () (semantic_error st))
      ∧ (∀ params param_count return_type body,
        visit_function_decl stray_stmt_count (fuel + 1) x params param_count return_type
            body st
          = .done () (semantic_error st))
      ∧ (semantic_error st).error_count = st.error_count + 1
      ∧ (semantic_error st).scopes = st.scopes
      ∧ symbol_lookup_current (semantic_error st) x = some existing
      ∧ symbol_lookup (semantic_error st) x = some existing)
    ∧ (symbol_lookup_current st x = none → ∀ h t, st.scopes = h :: t →
      (∀ T e r st1 tu, check_expression fuel (some e) st = .done r st1 →
        r.is_valid = true → r.type = some tu →
        (tu.base_type = T ∨ (T = TYPE_FLOAT ∧ tu.base_type = TYPE_INT)) →
        ∃ st', visit_variable_decl (fuel + 1) x (type_node T) (some e) st = .done () st'
          ∧ st'.error_count = st1.error_count
          ∧ symbol_lookup st' x
            = some { symbol_create_variable x (some (typeinfo_create T)) with
                     scope_depth := some h.depth }
          ∧ symbol_lookup_current st' x
            = some { symbol_create_variable x (some (typeinfo_create T)) with
                     scope_depth := some h.depth }
          ∧ st'.scopes.tail = t
          ∧ (∀ inner, unbound_in inner x →
              lookup_in_scopes (inner ++ st'.scopes) x
                = some { symbol_create_variable x (some (typeinfo_create T)) with
                         scope_depth := some h.depth }))
      ∧ (∀ params param_count return_type body entries,
        function_parameters params param_count = some entries →
        ∃ entry declared,
          entry.declares_function x entries param_count
            (type_from_ast_node (some return_type)) h.depth
          ∧ declared.scopes = { h with symbols := entry :: h.symbols } :: t
          ∧ declared.error_count = st.error_count
          ∧ symbol_lookup_current declared x = some entry
          ∧ (∀ inner, unbound_in inner x →
              lookup_in_scopes (inner ++ declared.scopes) x = some entry)
          ∧ (insert_parameters (enter_scope declared SCOPE_FUNCTION) entries).error_count
              = st.error_count
          ∧ (insert_parameters (enter_scope declared SCOPE_FUNCTION) entries).scopes.tail
              = declared.scopes
          ∧ visit_function_decl stray_stmt_count (fuel + 1) x params param_count return_type
              body st
            = match visit_node stray_stmt_count fuel (some body)
                (insert_parameters (enter_scope declared SCOPE_FUNCTION) entries) with
              | .done _ analyzer =>
                .done ()
                  { exit_scope
                      (if (type_from_ast_node (some return_type)).base_type ≠ TYPE_VOID
                          ∧ analyzer.has_return_statement = false then
                        semantic_error analyzer
                      else analyzer) with
                    in_function := false, current_return_type := none }
              | .undefined => .undefined
              | .outOfFuel => .outOfFuel)
      ∧ (∀ params param_count return_type body st',
        visit_function_decl stray_stmt_count (fuel + 1) x params param_count return_type
            body st
          = .done () st' →
        ∃ entries entry, function_parameters params param_count = some entries
          ∧ entry.declares_function x entries param_count
              (type_from_ast_node (some return_type)) h.depth
          ∧ st'.scopes = { h with symbols := entry :: h.symbols } :: t
          ∧ symbol_lookup st' x = some entry
          ∧ symbol_lookup_current st' x = some entry
          ∧ (∀ inner, unbound_in inner x →
              lookup_in_scopes (inner ++ st'.scopes) x = some entry)))
    ∧ source_tokens "let x: int = 10;\nlet x: int = 20;" = tokens_x_redeclared
    ∧ (∃ p, parse_program 40 (parser_init tokens_x_redeclared eofToken)
        = .done program_x_redeclared p ∧ p.had_error = false)
    ∧ (∃ st', semantic_analyze stray_stmt_count (fuel + 8) (some program_x_redeclared)
          semantic_init = .done 0 st'
        ∧ st'.error_count = 1)
    ∧ source_tokens
        "let x: int = 1; \x7b let x: string = \"a\"; let y: string = x; \x7d let z: int = x;"
        = tokens_x_shadowed
    ∧ (∃ p, parse_program 60 (parser_init tokens_x_shadowed eofToken)
        = .done program_x_shadowed p ∧ p.had_error = false)
    ∧ (∃ st', semantic_analyze stray_stmt_count (fuel + 12) (some program_x_shadowed)
          semantic_init = .done 1 st'
        ∧ st'.error_count = 0)
    ∧ (∃ st1, visit_node stray_stmt_count (fuel + 8) (some decl_f_void)
          (enter_scope semantic_init SCOPE_BLOCK) = .done () st1
        ∧ st1.error_count = 0
        ∧ visit_node stray_stmt_count (fuel + 8) (some decl_f_void) st1
            = .done () (semantic_error st1)
        ∧ check_expression (fuel + 8) (some call_f_two) st1
            = .done invalid_result (semantic_error st1)
        ∧ ∃ st2, visit_node stray_stmt_count (fuel + 8) (some decl_f_int)
              (enter_scope st1 SCOPE_BLOCK) = .done () st2
            ∧ st2.error_count = 0
            ∧ check_expression (fuel + 8) (some call_f_two) st2
                = .done { type := some (typeinfo_create TYPE_INT), is_valid := true,
                          implicit_conversion := 0 } st2) := by
  refine ⟨?_, ?_, by decide, ⟨_, rfl, rfl⟩, ?_, by decide, ⟨_, rfl, rfl⟩, ?_, ?_⟩
  · intro existing hcur
    refine ⟨?_, ?_, rfl, rfl, ?_, ?_⟩
    · intro decl_type init
      simp [visit_variable_decl, hcur]
    · intro params param_count return_type body
      simp [visit_function_decl, hcur]
    · simpa [symbol_lookup_current, semantic_error] using hcur
    · cases hs : st.scopes with
      | nil => simp [symbol_lookup_current, hs] at hcur
      | cons h t =>
        simp only [symbol_lookup_current, hs] at hcur
        simp [symbol_lookup, semantic_error, hs, lookup_in_scopes, hcur]
  · intro hnew h t hs
    refine ⟨?_, ?_, ?_⟩
    · intro T e r st1 tu he hvalid htype hcompat
      have hsc := counts_only_scopes ((check_counts_all fuel).1 _ _ _ _ he)
      have hok : are_types_compatible (some (typeinfo_create T)) (some tu) = true := by
        rcases hcompat with h1 | ⟨h1, h2⟩
        · simp [are_types_compatible, typeinfo_create, h1]
        · simp [are_types_compatible, typeinfo_create, h1, h2]
      have hscopes := symbol_insert_scopes st1
        (symbol_create_variable x (some (typeinfo_create T))) h t (by rw [hsc, hs])
      refine ⟨symbol_insert st1 (symbol_create_variable x (some (typeinfo_create T))),
        ?_, ?_, ?_, ?_, ?_, ?_⟩
      · simp [visit_variable_decl, hnew, he, hvalid, htype, type_from_ast_node, hok,
          typeinfo_copy_create]
      · cases hs1 : st1.scopes <;> simp [symbol_insert, hs1]
      · rw [symbol_lookup, hscopes]
        exact lookup_in_scopes_inserted (symbol_create_variable x (some (typeinfo_create T)))
          h t
      · rw [symbol_lookup_current, hscopes]
        exact find_symbol_inserted (symbol_create_variable x (some (typeinfo_create T))) h
      · rw [hscopes]
        rfl
      · intro inner hin
        rw [lookup_in_scopes_unbound inner _ x hin, hscopes]
        exact lookup_in_scopes_inserted (symbol_create_variable x (some (typeinfo_create T)))
          h t
    · intro params param_count return_type body entries hp
      have hscopes := symbol_insert_scopes
        { st with in_function := true, has_return_statement := false,
                  current_return_type := some (type_from_ast_node (some return_type)) }
        (symbol_create_function x (some (type_from_ast_node (some return_type))) entries
          param_count) h t hs
      refine ⟨_, _, declares_function_create x entries param_count _ h.depth, hscopes, ?_, ?_,
        ?_, ?_, ?_, visit_function_decl_fresh stray_stmt_count fuel x params param_count
          return_type body st entries hnew hp⟩
      · simp [symbol_insert, hs]
      · rw [symbol_lookup_current, hscopes]
        exact find_symbol_inserted
          (symbol_create_function x (some (type_from_ast_node (some return_type))) entries
            param_count) h
      · intro inner hin
        rw [lookup_in_scopes_unbound inner _ x hin, hscopes]
        exact lookup_in_scopes_inserted
          (symbol_create_function x (some (type_from_ast_node (some return_type))) entries
            param_count) h t
      · rw [insert_parameters_error_count]
        simp [enter_scope, symbol_insert, hs]
      · rw [insert_parameters_tail]
        rfl
    · intro params param_count return_type body st' hv
      obtain ⟨entries, hp, hscopes⟩ := visit_function_decl_scopes_step stray_stmt_count fuel
        (visit_scopes_all stray_stmt_count fuel).1 x params param_count return_type body
        st st' h t hnew hv hs
      refine ⟨entries, _, hp, declares_function_create x entries param_count _ h.depth,
        hscopes, ?_, ?_, ?_⟩
      · rw [symbol_lookup, hscopes]
        exact lookup_in_scopes_inserted
          (symbol_create_function x (some (type_from_ast_node (some return_type))) entries
            param_count) h t
      · rw [symbol_lookup_current, hscopes]
        exact find_symbol_inserted
          (symbol_create_function x (some (type_from_ast_node (some return_type))) entries
            param_count) h
      · intro inner hin
        rw [lookup_in_scopes_unbound inner _ x hin, hscopes]
        exact lookup_in_scopes_inserted
          (symbol_create_function x (some (type_from_ast_node (some return_type))) entries
            param_count) h t
  · simp [program_x_redeclared, semantic_analyze, visit_node,
      visit_block, visit_block_loop, visit_variable_decl, check_expression,
      check_literal_expression, symbol_lookup, lookup_in_scopes,
      semantic_error, typeinfo_create, typeinfo_copy, type_from_ast_node, are_types_compatible,
      symbol_lookup_current, enter_scope, exit_scope, scope_create, find_symbol,
      symbol_insert, symbol_create_variable, semantic_init, semantic_register_builtins]
  · simp [program_x_shadowed, semantic_analyze, visit_node,
      visit_block, visit_block_loop, visit_variable_decl, check_expression,
      check_literal_expression, check_variable_expression, symbol_lookup, lookup_in_scopes,
      semantic_error, typeinfo_create, typeinfo_copy, type_from_ast_node, are_types_compatible,
      symbol_lookup_current, enter_scope, exit_scope, scope_create, find_symbol,
      symbol_insert, symbol_create_variable, semantic_init, semantic_register_builtins,
      symbol_create_function]
  · have hf : visit_node stray_stmt_count (fuel + 8) (some decl_f_void)
        (enter_scope semantic_init SCOPE_BLOCK)
      = .done ()
          { symbol_insert (enter_scope semantic_init SCOPE_BLOCK)
              (symbol_create_function "f" (some (typeinfo_create TYPE_VOID)) [] 0) with
            in_function := false, has_return_statement := false,
            current_return_type := none } := by
      simp [decl_f_void, visit_node, visit_function_decl,
        function_parameters, insert_parameters, symbol_create_function,
        visit_block, visit_block_loop, symbol_lookup, lookup_in_scopes, semantic_error,
        typeinfo_create, typeinfo_copy, type_from_ast_node,
        symbol_lookup_current, enter_scope, exit_scope, scope_create, find_symbol,
        symbol_insert, semantic_init, semantic_register_builtins]
    refine ⟨_, hf, rfl, ?_, ?_, ?_⟩
    · simp [decl_f_void, visit_node, visit_function_decl,
        symbol_create_function, semantic_error,
        typeinfo_create, typeinfo_copy,
        symbol_lookup_current, enter_scope, scope_create, find_symbol,
        symbol_insert, semantic_init, semantic_register_builtins]
    · simp [call_f_two, check_expression, check_call_expression,
        symbol_create_function, semantic_error, symbol_lookup, lookup_in_scopes,
        typeinfo_create, typeinfo_copy, invalid_result,
        symbol_lookup_current, enter_scope, scope_create, find_symbol,
        symbol_insert, semantic_init, semantic_register_builtins]
    · simp [decl_f_int, call_f_two, visit_node, visit_function_decl,
        function_parameters, insert_parameters, symbol_create_function, parameter_entry,
        visit_block, visit_block_loop, visit_return_statement, return_without_check,
        check_expression, check_variable_expression, check_call_expression,
        check_call_arguments, check_literal_expression, call_result,
        symbol_lookup, lookup_in_scopes, semantic_error, symbol_create_variable,
        typeinfo_create, typeinfo_copy, type_from_ast_node, are_types_compatible,
        symbol_lookup_current, enter_scope, exit_scope, scope_create, find_symbol,
        symbol_insert, semantic_init, semantic_register_builtins]

theorem redeclaration_contract_witness :
    symbol_lookup_current analyzer_i_declared "i"
      = some { symbol_create_variable "i" (some (typeinfo_create TYPE_INT)) with
               scope_depth := some 1 }
    ∧ visit_variable_decl (1 + 1) "i" (type_node TYPE_INT)
        (some (literal TOKEN_INT_LITERAL (.int_value 20))) analyzer_i_declared
      = .done () (semantic_error analyzer_i_declared)
    ∧ symbol_lookup (enter_scope analyzer_i_declared SCOPE_BLOCK) "i"
      = some { symbol_create_variable "i" (some (typeinfo_create TYPE_INT)) with
               scope_depth := some 1 }
    ∧ symbol_lookup_current (enter_scope analyzer_i_declared SCOPE_BLOCK) "i" = none
    ∧ ∃ st', visit_variable_decl (1 + 1) "i" (type_node TYPE_STRING)
          (some (literal TOKEN_STRING_LITERAL (.string_value "a")))
          (enter_scope analyzer_i_declared SCOPE_BLOCK) = .done () st'
        ∧ st'.error_count = 0
        ∧ symbol_lookup st' "i"
          = some { symbol_create_variable "i" (some (typeinfo_create TYPE_STRING)) with
                   scope_depth := some 2 }
        ∧ symbol_lookup_current st' "i"
          = some { symbol_create_variable "i" (some (typeinfo_create TYPE_STRING)) with
                   scope_depth := some 2 }
        ∧ st'.scopes.tail = analyzer_i_declared.scopes
        ∧ (∀ inner, unbound_in inner "i" →
            lookup_in_scopes (inner ++ st'.scopes) "i"
              = some { symbol_create_variable "i" (some (typeinfo_create TYPE_STRING)) with
                       scope_depth := some 2 }) :=
  ⟨rfl,
    ((redeclaration_contract (fun _ => 0) 1 "i" analyzer_i_declared).1
      { symbol_create_variable "i" (some (typeinfo_create TYPE_INT)) with
        scope_depth := some 1 } rfl).1 _ _,
    rfl, rfl,
    ((redeclaration_contract (fun _ => 0) 1 "i"
        (enter_scope analyzer_i_declared SCOPE_BLOCK)).2.1 rfl
      (scope_create SCOPE_BLOCK analyzer_i_declared.scopes) analyzer_i_declared.scopes rfl).1
      TYPE_STRING (literal TOKEN_STRING_LITERAL (.string_value "a"))
      (check_literal_expression TOKEN_STRING_LITERAL)
      (enter_scope analyzer_i_declared SCOPE_BLOCK) (typeinfo_create TYPE_STRING)
      rfl rfl rfl (Or.inl rfl)⟩

/-! ## The lexer: the cursor -/

theorem getD_nul_index (source : List Char) : source.getD (nul_index source) NUL = NUL := by
  induction source with
  | nil => rfl
  | cons c cs ih =>
    by_cases hc : c = NUL
    · simp [nul_index, List.takeWhile, hc]
    · have : (c != NUL) = true := by simpa using hc
      simp only [nul_index, List.takeWhile, this, List.length_cons, List.getD_cons_succ]
      exact ih

theorem nul_index_le_length (source : List Char) : nul_index source ≤ source.length := by
  unfold nul_index
  exact (List.takeWhile_sublist _).length_le

theorem Lexer.lt_nul_index (lexer : Lexer) (hpeek : lexer.peek ≠ NUL)
    (h : lexer.current ≤ nul_index lexer.source) : lexer.current < nul_index lexer.source := by
  rcases Nat.lt_or_ge lexer.current (nul_index lexer.source) with hlt | hge
  · exact hlt
  · have heq : lexer.current = nul_index lexer.source := Nat.le_antisymm h hge
    exact absurd (by rw [Lexer.peek, heq, getD_nul_index]) hpeek

theorem Lexer.Forward.forward_refl (lexer : Lexer) : lexer.Forward lexer :=
  ⟨rfl, Nat.le_refl _, fun h => h⟩

theorem Lexer.Forward.forward_trans {a b c : Lexer} (h1 : a.Forward b) (h2 : b.Forward c) :
    a.Forward c := by
  obtain ⟨s1, c1, n1⟩ := h1
  obtain ⟨s2, c2, n2⟩ := h2
  refine ⟨by rw [s2, s1], Nat.le_trans c1 c2, fun h => ?_⟩
  have := n2 (by rw [s1]; exact n1 h)
  rwa [s1] at this

theorem Lexer.Forward.of_start (lexer : Lexer) (start : Nat) :
    lexer.Forward { lexer with start := start } :=
  ⟨rfl, Nat.le_refl _, fun h => h⟩

theorem Lexer.forward_advance (lexer : Lexer) (hpeek : lexer.peek ≠ NUL) :
    lexer.Forward lexer.advance.2 :=
  ⟨rfl, Nat.le_succ _, fun h => lexer.lt_nul_index hpeek h⟩

theorem Lexer.forward_advance_while (p : Char → Bool) (hp : p NUL = false) (fuel : Nat) :
    ∀ lexer : Lexer, lexer.Forward (Lexer.advance_while p fuel lexer) := by
  induction fuel with
  | zero => intro lexer; exact Lexer.Forward.forward_refl _
  | succ fuel ih =>
    intro lexer
    simp only [Lexer.advance_while]
    split
    · rename_i hpk
      have hne : lexer.peek ≠ NUL := fun h => by rw [h, hp] at hpk; cases hpk
      exact (lexer.forward_advance hne).forward_trans (ih _)
    · exact Lexer.Forward.forward_refl _

theorem Lexer.forward_skip_loop (fuel : Nat) :
    ∀ lexer : Lexer, lexer.Forward (Lexer.skip_loop fuel lexer) := by
  induction fuel with
  | zero => intro lexer; exact Lexer.Forward.forward_refl _
  | succ fuel ih =>
    intro lexer
    simp only [Lexer.skip_loop]
    split
    · rename_i hc
      have hne : lexer.peek ≠ NUL := by
        intro h
        rw [h] at hc
        revert hc
        decide
      exact (lexer.forward_advance hne).forward_trans (ih _)
    · split
      · rename_i hc
        have hne : lexer.peek ≠ NUL := by
          intro h
          rw [h] at hc
          revert hc
          decide
        have h1 : lexer.Forward
            (Lexer.advance { lexer with line := wrap32 (lexer.line + 1), column := 0 }).2 :=
          ⟨rfl, Nat.le_succ _, fun h => lexer.lt_nul_index hne h⟩
        exact h1.forward_trans (ih _)
      · split
        · exact (Lexer.forward_advance_while _ (by decide) _ lexer).forward_trans (ih _)
        · exact Lexer.Forward.forward_refl _

theorem Lexer.forward_string_loop (fuel : Nat) :
    ∀ lexer : Lexer, lexer.Forward (Lexer.string_loop fuel lexer).2 := by
  induction fuel with
  | zero => intro lexer; exact Lexer.Forward.forward_refl _
  | succ fuel ih =>
    intro lexer
    simp only [Lexer.string_loop]
    split
    · rename_i hc
      split
      · exact Lexer.Forward.forward_refl _
      · have hne : lexer.peek ≠ NUL := by
          intro h
          have := hc.2
          simp [Lexer.is_at_end, h] at this
        exact (lexer.forward_advance hne).forward_trans (ih _)
    · exact Lexer.Forward.forward_refl _

theorem Lexer.forward_match (lexer : Lexer) (expected : Char) :
    lexer.Forward (lexer.match_ expected).2 := by
  simp only [Lexer.match_]
  split
  · exact Lexer.Forward.forward_refl _
  · rename_i hend
    split
    · exact Lexer.Forward.forward_refl _
    · have hne : lexer.peek ≠ NUL := by
        intro h
        simp [Lexer.is_at_end, h] at hend
      exact ⟨rfl, Nat.le_succ _, fun h => lexer.lt_nul_index hne h⟩

theorem Lexer.forward_identifier (lexer : Lexer) : lexer.Forward lexer.identifier.2 := by
  simp only [Lexer.identifier]
  exact Lexer.forward_advance_while _ (by decide) _ lexer

theorem Lexer.forward_number (lexer : Lexer) : lexer.Forward lexer.number.2 := by
  simp only [Lexer.number]
  have h1 := Lexer.forward_advance_while is_digit (by decide) (lexer.source.length + 1) lexer
  split
  · rename_i hc
    have hne : (Lexer.advance_while is_digit (lexer.source.length + 1) lexer).peek ≠ NUL := by
      rw [hc.1]
      decide
    exact h1.forward_trans (((Lexer.forward_advance _ hne)).forward_trans
      (Lexer.forward_advance_while is_digit (by decide) _ _))
  · exact h1

theorem Lexer.forward_string (lexer : Lexer) : lexer.Forward lexer.string.2 := by
  have h1 := Lexer.forward_string_loop (lexer.source.length + 1) lexer
  simp only [Lexer.string]
  split
  · rename_i tok l2 heq
    rw [heq] at h1
    exact h1
  · rename_i l2 heq
    rw [heq] at h1
    split
    · exact h1
    · rename_i hend
      have hne : l2.peek ≠ NUL := by
        intro h
        simp [Lexer.is_at_end, h] at hend
      exact h1.forward_trans (l2.forward_advance hne)

theorem Lexer.forward_operator_token (lexer : Lexer) (two : TokenType)
    (one : Option TokenType) : lexer.Forward (lexer.operator_token two one).2 := by
  have h1 := lexer.forward_match '='
  simp only [Lexer.operator_token]
  split
  · rename_i l2 heq
    rw [heq] at h1
    exact h1
  · rename_i l2 heq
    rw [heq] at h1
    split <;> exact h1

theorem ite_ne_of {α : Type} (c : Prop) [Decidable c] (a b x : α) (ha : a ≠ x)
    (hb : b ≠ x) : (if c then a else b) ≠ x := by
  split
  · exact ha
  · exact hb

theorem ite_ind {α : Type} (P : α → Prop) (c : Prop) [Decidable c] (a b : α)
    (ha : c → P a) (hb : ¬ c → P b) : P (if c then a else b) := by
  split
  · rename_i h
    exact ha h
  · rename_i h
    exact hb h

theorem check_keyword_ne_eof (lexeme : List Char) (length : Int) :
    check_keyword lexeme length ≠ TOKEN_EOF := by
  unfold check_keyword
  repeat' apply ite_ne_of
  all_goals decide

theorem Lexer.operator_token_ne_eof (lexer : Lexer) (two : TokenType)
    (one : Option TokenType) (h2 : two ≠ TOKEN_EOF) (h1 : one ≠ some TOKEN_EOF) :
    (lexer.operator_token two one).1.token.type ≠ TOKEN_EOF := by
  simp only [Lexer.operator_token]
  split
  · exact h2
  · split
    · rename_i type
      intro h
      apply h1
      simp only [Lexer.make_token] at h
      rw [h]
    · simp [Lexer.error_token]

theorem Lexer.number_ne_eof (lexer : Lexer) : lexer.number.1.token.type ≠ TOKEN_EOF := by
  simp only [Lexer.number]
  split <;> simp [Lexer.make_token]

theorem Lexer.string_ne_eof (lexer : Lexer) : lexer.string.1.token.type ≠ TOKEN_EOF := by
  simp only [Lexer.string]
  split
  · rename_i tok l2 heq
    have : ∀ fuel (l : Lexer) tok l2, Lexer.string_loop fuel l = (some tok, l2) →
        tok.token.type ≠ TOKEN_EOF := by
      intro fuel
      induction fuel with
      | zero => intro l tok l2 h; simp [Lexer.string_loop] at h
      | succ fuel ih =>
        intro l tok l2 h
        simp only [Lexer.string_loop] at h
        split at h
        · split at h
          · cases h
            simp [Lexer.error_token]
          · exact ih _ _ _ h
        · cases h
    exact this _ _ _ _ heq
  · split <;> simp [Lexer.make_token, Lexer.error_token]

theorem Lexer.scan_token_ind (K : SourceToken × Lexer → Prop) (c : Char) (a : Lexer)
    (hident : is_alpha c = true → K a.identifier)
    (hnumber : is_alpha c = false → is_digit c = true → K a.number)
    (hstring : c = '"' → K a.string)
    (hsingle : ∀ type, type ≠ TOKEN_EOF → type ≠ TOKEN_ERROR → K (a.make_token type, a))
    (hoperator : ∀ two one, two ≠ TOKEN_EOF → two ≠ TOKEN_ERROR → one ≠ some TOKEN_EOF →
      one ≠ some TOKEN_ERROR → K (a.operator_token two one))
    (herror : K (a.error_token "Caractere inesperado", a)) :
    K (Lexer.scan_token c a) := by
  unfold Lexer.scan_token
  refine ite_ind K _ _ _ (fun h => hident h) (fun h1 => ?_)
  refine ite_ind K _ _ _ (fun h => hnumber (by simpa using h1) h) (fun _ => ?_)
  refine ite_ind K _ _ _ (fun h => hstring h) (fun _ => ?_)
  refine ite_ind K _ _ _ (fun _ => hsingle _ (by decide) (by decide)) (fun _ => ?_)
  refine ite_ind K _ _ _ (fun _ => hsingle _ (by decide) (by decide)) (fun _ => ?_)
  refine ite_ind K _ _ _ (fun _ => hsingle _ (by decide) (by decide)) (fun _ => ?_)
  refine ite_ind K _ _ _ (fun _ => hsingle _ (by decide) (by decide)) (fun _ => ?_)
  refine ite_ind K _ _ _ (fun _ => hsingle _ (by decide) (by decide)) (fun _ => ?_)
  refine ite_ind K _ _ _ (fun _ => hsingle _ (by decide) (by decide)) (fun _ => ?_)
  refine ite_ind K _ _ _ (fun _ => hsingle _ (by decide) (by decide)) (fun _ => ?_)
  refine ite_ind K _ _ _ (fun _ => hsingle _ (by decide) (by decide)) (fun _ => ?_)
  refine ite_ind K _ _ _ (fun _ => hsingle _ (by decide) (by decide)) (fun _ => ?_)
  refine ite_ind K _ _ _ (fun _ => hsingle _ (by decide) (by decide)) (fun _ => ?_)
  refine ite_ind K _ _ _ (fun _ => hsingle _ (by decide) (by decide)) (fun _ => ?_)
  refine ite_ind K _ _ _
    (fun _ => hoperator _ _ (by decide) (by decide) (by decide) (by decide)) (fun _ => ?_)
  refine ite_ind K _ _ _
    (fun _ => hoperator _ _ (by decide) (by decide) (by decide) (by decide)) (fun _ => ?_)
  refine ite_ind K _ _ _
    (fun _ => hoperator _ _ (by decide) (by decide) (by decide) (by decide)) (fun _ => ?_)
  refine ite_ind K _ _ _
    (fun _ => hoperator _ _ (by decide) (by decide) (by decide) (by decide)) (fun _ => ?_)
  exact herror

theorem Lexer.forward_token_start (lexer : Lexer) : lexer.Forward lexer.token_start :=
  (Lexer.forward_skip_loop _ lexer).forward_trans (Lexer.Forward.of_start _ _)

theorem Lexer.peek_with_start (lexer : Lexer) (start : Nat) :
    Lexer.peek { lexer with start := start } = lexer.peek := rfl

theorem Lexer.token_start_at_end (lexer : Lexer) (hend : lexer.is_at_end = true)
    (hstart : lexer.start = lexer.current) : lexer.token_start = lexer := by
  have hpeek : lexer.peek = NUL := by simpa [Lexer.is_at_end] using hend
  have hskip : Lexer.skip_whitespace_and_comments lexer = lexer := by
    simp only [Lexer.skip_whitespace_and_comments, Lexer.skip_loop, hpeek]
    simp [NUL]
  simp only [Lexer.token_start, hskip]
  cases lexer
  simp only at hstart
  simp [hstart]

/-- What one call of `lexer_next_token` does to the cursor: it moves forward,
not past the terminating NUL, and by at least one character unless the call
returns `TOKEN_EOF`, in which case the lexer is at the end and the next call
returns the same. -/
theorem Lexer.next_token_forward (lexer : Lexer) :
    lexer.Forward lexer.lexer_next_token.2
    ∧ (lexer.lexer_next_token.1.token.type ≠ TOKEN_EOF →
        lexer.current < lexer.lexer_next_token.2.current)
    ∧ (lexer.lexer_next_token.1.token.type = TOKEN_EOF →
        lexer.lexer_next_token.2.lexer_next_token = lexer.lexer_next_token) := by
  have hstart := lexer.forward_token_start
  have hstart_eq : lexer.token_start.start = lexer.token_start.current := rfl
  generalize hs : lexer.token_start = s at hstart hstart_eq
  have hval : lexer.lexer_next_token
      = if s.is_at_end then (s.make_token TOKEN_EOF, s)
        else Lexer.scan_token s.advance.1 s.advance.2 := by
    simp only [Lexer.lexer_next_token, hs]
  rw [hval]
  by_cases hend : s.is_at_end = true
  · rw [if_pos hend]
    refine ⟨hstart, fun h => absurd rfl h, fun _ => ?_⟩
    simp only [Lexer.lexer_next_token, Lexer.token_start_at_end s hend hstart_eq]
    rw [if_pos hend]
  · rw [if_neg hend]
    have hne : s.peek ≠ NUL := by
      intro h
      simp [Lexer.is_at_end, h] at hend
    have hbase : lexer.Forward s.advance.2 := hstart.forward_trans (s.forward_advance hne)
    have hlt : lexer.current < s.advance.2.current := Nat.lt_succ_of_le hstart.2.1
    generalize s.advance.2 = a at hbase hlt
    generalize s.advance.1 = c
    have key : ∀ r : SourceToken × Lexer, a.Forward r.2 → r.1.token.type ≠ TOKEN_EOF →
        lexer.Forward r.2 ∧ (r.1.token.type ≠ TOKEN_EOF → lexer.current < r.2.current)
          ∧ (r.1.token.type = TOKEN_EOF → r.2.lexer_next_token = r) := by
      intro r hf hne'
      exact ⟨hbase.forward_trans hf, fun _ => Nat.lt_of_lt_of_le hlt hf.2.1, fun h => absurd h hne'⟩
    refine Lexer.scan_token_ind
      (fun r => lexer.Forward r.2 ∧ (r.1.token.type ≠ TOKEN_EOF → lexer.current < r.2.current)
          ∧ (r.1.token.type = TOKEN_EOF → r.2.lexer_next_token = r)) c a ?_ ?_ ?_ ?_ ?_ ?_
    · intro _
      exact key _ (Lexer.forward_identifier a)
        (by simp only [Lexer.identifier, Lexer.make_token]; exact check_keyword_ne_eof _ _)
    · intro _ _
      exact key _ (Lexer.forward_number a) (Lexer.number_ne_eof a)
    · intro _
      exact key _ (Lexer.forward_string a) (Lexer.string_ne_eof a)
    · intro type h1 _
      exact key (_, a) (Lexer.Forward.forward_refl a) h1
    · intro two one h1 _ h2 _
      exact key _ (Lexer.forward_operator_token a _ _)
        (Lexer.operator_token_ne_eof a _ _ h1 h2)
    · exact key (_, a) (Lexer.Forward.forward_refl a) (by simp [Lexer.error_token])

theorem lexer_after_succ (calls : Nat) (lexer : Lexer) :
    lexer_after (calls + 1) lexer = (lexer_after calls lexer).lexer_next_token.2 := by
  induction calls generalizing lexer with
  | zero => rfl
  | succ n ih =>
    show lexer_after (n + 1) lexer.lexer_next_token.2 = _
    rw [ih]
    rfl

theorem lexer_after_forward (calls : Nat) (lexer : Lexer) :
    lexer.Forward (lexer_after calls lexer) := by
  induction calls with
  | zero => exact Lexer.Forward.forward_refl _
  | succ n ih =>
    rw [lexer_after_succ]
    exact ih.forward_trans (Lexer.next_token_forward _).1

theorem lexer_after_eof (lexer : Lexer)
    (h : lexer.lexer_next_token.1.token.type = TOKEN_EOF) (calls : Nat) :
    (lexer_after calls lexer).lexer_next_token = lexer.lexer_next_token := by
  induction calls with
  | zero => rfl
  | succ n ih =>
    rw [lexer_after_succ, ih]
    exact (Lexer.next_token_forward lexer).2.2 h

theorem lexer_call_eof_later (lexer : Lexer) (calls later : Nat) (hle : calls ≤ later)
    (h : (lexer_call calls lexer).token.type = TOKEN_EOF) :
    (lexer_call later lexer).token.type = TOKEN_EOF := by
  obtain ⟨k, rfl⟩ := Nat.exists_eq_add_of_le hle
  have hsplit : ∀ (k n : Nat) (l : Lexer),
      lexer_after (n + k) l = lexer_after k (lexer_after n l) := by
    intro k n
    induction n with
    | zero => intro l; simp [lexer_after]
    | succ n ih =>
      intro l
      have : n + 1 + k = (n + k) + 1 := by omega
      rw [this]
      show lexer_after (n + k) l.lexer_next_token.2 = _
      rw [ih]
      rfl
  unfold lexer_call at h ⊢
  rw [hsplit, lexer_after_eof _ h]
  exact h

theorem lexer_after_progress (calls : Nat) (lexer : Lexer)
    (h : (lexer_call calls lexer).token.type ≠ TOKEN_EOF) :
    lexer.current + (calls + 1) ≤ (lexer_after (calls + 1) lexer).current := by
  induction calls with
  | zero =>
    exact (Lexer.next_token_forward lexer).2.1 h
  | succ n ih =>
    have hprev : (lexer_call n lexer).token.type ≠ TOKEN_EOF := fun he =>
      h (lexer_call_eof_later lexer n (n + 1) (Nat.le_succ _) he)
    have h1 := ih hprev
    rw [lexer_after_succ (n + 1)]
    have h2 := (Lexer.next_token_forward (lexer_after (n + 1) lexer)).2.1 h
    omega

/-- C24. For every source and every number of earlier calls of `lexer_next_token`: the
cursor is not past the terminating NUL before the call and not after it; a call that does
not return `TOKEN_EOF` moves the cursor forward by at least one character; once a call has
returned `TOKEN_EOF`, every later call returns `TOKEN_EOF`; and the call number
`length(source) + 1`, if not an earlier one, returns `TOKEN_EOF`. -/
theorem lexer_next_token_terminates (source : List Char) (calls : Nat) :
    (lexer_after calls (lexer_init source)).source = source
    ∧ (lexer_after calls (lexer_init source)).current ≤ nul_index source
    ∧ (lexer_after calls (lexer_init source)).lexer_next_token.2.current ≤ nul_index source
    ∧ ((lexer_call calls (lexer_init source)).token.type ≠ TOKEN_EOF →
        (lexer_after calls (lexer_init source)).current
          < (lexer_after calls (lexer_init source)).lexer_next_token.2.current)
    ∧ ((lexer_call calls (lexer_init source)).token.type = TOKEN_EOF →
        ∀ later, calls ≤ later →
          (lexer_call later (lexer_init source)).token.type = TOKEN_EOF)
    ∧ (source.length ≤ calls →
        (lexer_call calls (lexer_init source)).token.type = TOKEN_EOF) := by
  have hf := lexer_after_forward calls (lexer_init source)
  have hf1 := lexer_after_forward (calls + 1) (lexer_init source)
  rw [lexer_after_succ] at hf1
  have h0 : (lexer_init source).current ≤ nul_index (lexer_init source).source :=
    Nat.zero_le _
  refine ⟨hf.1, hf.2.2 h0, hf1.2.2 h0, ?_, ?_, ?_⟩
  · intro h
    exact (Lexer.next_token_forward _).2.1 h
  · intro h later hle
    exact lexer_call_eof_later _ calls later hle h
  · intro hlen
    by_contra hne
    have hprog := lexer_after_progress calls (lexer_init source) hne
    rw [lexer_after_succ] at hprog
    have hbound := hf1.2.2 h0
    have hle := nul_index_le_length source
    have hz : (lexer_init source).current = 0 := rfl
    have hsrc : (lexer_init source).source = source := rfl
    rw [hsrc] at hbound
    omega

/-! ## The lexer: what a scan consumes -/

theorem Lexer.peek_eq_head (lexer : Lexer) : lexer.peek = lexer.rest.headD NUL := by
  simp only [Lexer.peek, Lexer.rest, List.getD_eq_getElem?_getD, List.headD_eq_head?_getD,
    List.head?_drop]

theorem Lexer.rest_cons (lexer : Lexer) (c : Char) (cs : List Char)
    (h : lexer.rest = c :: cs) :
    lexer.peek = c ∧ lexer.advance.1 = c ∧ lexer.advance.2.rest = cs
      ∧ lexer.current < lexer.source.length := by
  have hp : lexer.peek = c := by rw [Lexer.peek_eq_head, h]; rfl
  refine ⟨hp, hp, ?_, ?_⟩
  · simp only [Lexer.rest, Lexer.advance] at h ⊢
    rw [← List.drop_drop, h]
    rfl
  · by_contra hge
    simp only [Lexer.rest] at h
    rw [List.drop_eq_nil_of_le (Nat.le_of_not_lt hge)] at h
    cases h

theorem Lexer.rest_of_peek (lexer : Lexer) (h : lexer.peek ≠ NUL) :
    ∃ cs, lexer.rest = lexer.peek :: cs := by
  rw [Lexer.peek_eq_head] at h ⊢
  cases hr : lexer.rest with
  | nil => rw [hr] at h; exact absurd rfl h
  | cons c cs => exact ⟨cs, rfl⟩

theorem Lexer.SameToken.same_token_refl (lexer : Lexer) : lexer.SameToken lexer := ⟨rfl, rfl, rfl⟩

theorem Lexer.SameToken.same_token_trans {a b c : Lexer} (h1 : a.SameToken b) (h2 : b.SameToken c) :
    a.SameToken c :=
  ⟨h2.1.trans h1.1, h2.2.1.trans h1.2.1, h2.2.2.trans h1.2.2⟩

theorem Lexer.same_token_advance (lexer : Lexer) : lexer.SameToken lexer.advance.2 :=
  ⟨rfl, rfl, rfl⟩

/-- The loop `while (p(peek(lexer))) advance(lexer);`, for a test `p` that fails on the
NUL and with the fuel the callers give it: it consumes the longest run of characters
satisfying `p` and stops at the first character that does not, which shows the fuel is
not exhausted. -/
theorem Lexer.advance_while_spec (p : Char → Bool) (hp : p NUL = false) (fuel : Nat) :
    ∀ lexer : Lexer, lexer.source.length - lexer.current < fuel →
      lexer.SameToken (Lexer.advance_while p fuel lexer)
      ∧ (Lexer.advance_while p fuel lexer).current
          = lexer.current + (lexer.rest.takeWhile p).length
      ∧ (Lexer.advance_while p fuel lexer).rest = lexer.rest.dropWhile p
      ∧ p (Lexer.advance_while p fuel lexer).peek = false := by
  induction fuel with
  | zero => intro lexer h; omega
  | succ fuel ih =>
    intro lexer hfuel
    simp only [Lexer.advance_while]
    by_cases hpk : p lexer.peek = true
    · rw [if_pos hpk]
      have hne : lexer.peek ≠ NUL := fun h => by rw [h, hp] at hpk; cases hpk
      obtain ⟨cs, hrest⟩ := lexer.rest_of_peek hne
      obtain ⟨_, _, hadv, hlt⟩ := lexer.rest_cons _ _ hrest
      have hfuel' : lexer.advance.2.source.length - lexer.advance.2.current < fuel := by
        show lexer.source.length - (lexer.current + 1) < fuel
        omega
      obtain ⟨h1, h2, h3, h4⟩ := ih lexer.advance.2 hfuel'
      refine ⟨(lexer.same_token_advance).same_token_trans h1, ?_, ?_, h4⟩
      · rw [h2, hadv, hrest, List.takeWhile_cons_of_pos hpk]
        show lexer.current + 1 + _ = _
        simp only [List.length_cons]
        omega
      · rw [h3, hadv, hrest, List.dropWhile_cons_of_pos hpk]
    · rw [if_neg hpk]
      have hpk' : p lexer.peek = false := by simpa using hpk
      refine ⟨Lexer.SameToken.same_token_refl _, ?_, ?_, hpk'⟩
      · cases hr : lexer.rest with
        | nil => simp
        | cons c cs =>
          have hc : lexer.peek = c := (lexer.rest_cons c cs hr).1
          rw [hc] at hpk'
          simp [List.takeWhile, hpk']
      · cases hr : lexer.rest with
        | nil => simp
        | cons c cs =>
          have hc : lexer.peek = c := (lexer.rest_cons c cs hr).1
          rw [hc] at hpk'
          simp [List.dropWhile, hpk']

theorem Lexer.fuel_enough (lexer : Lexer) :
    lexer.source.length - lexer.current < lexer.source.length + 1 := by
  omega

theorem char_le_iff (a b : Char) : a ≤ b ↔ a.toNat ≤ b.toNat := by
  rw [Char.le_def]
  exact Iff.rfl

theorem char_eq_iff (a b : Char) : a = b ↔ a.toNat = b.toNat := by
  constructor
  · intro h; rw [h]
  · intro h
    apply Char.ext
    apply UInt32.ext
    exact h

theorem is_digit_iff (c : Char) : is_digit c = true ↔ 48 ≤ c.toNat ∧ c.toNat ≤ 57 := by
  simp only [is_digit, Bool.and_eq_true, decide_eq_true_eq, char_le_iff]
  rfl

theorem is_alpha_iff (c : Char) :
    is_alpha c = true
      ↔ (97 ≤ c.toNat ∧ c.toNat ≤ 122) ∨ (65 ≤ c.toNat ∧ c.toNat ≤ 90) ∨ c.toNat = 95 := by
  simp only [is_alpha, Bool.or_eq_true, Bool.and_eq_true, decide_eq_true_eq, char_le_iff,
    beq_iff_eq, char_eq_iff, or_assoc]
  rfl

theorem is_digit_not_alpha (c : Char) (h : is_digit c = true) : is_alpha c = false := by
  rw [is_digit_iff] at h
  cases ha : is_alpha c with
  | false => rfl
  | true =>
    rw [is_alpha_iff] at ha
    omega

theorem Lexer.consumed_start (lexer : Lexer) (h : lexer.start = lexer.current) :
    lexer.Consumed [] := by
  simp [Lexer.Consumed, Lexer.rest, h]

theorem Lexer.consumed_advance (lexer : Lexer) (text : List Char) (c : Char)
    (cs : List Char) (h : lexer.Consumed text) (hrest : lexer.rest = c :: cs) :
    lexer.advance.2.Consumed (text ++ [c]) := by
  obtain ⟨h1, h2⟩ := h
  refine ⟨?_, ?_⟩
  · rw [(lexer.rest_cons c cs hrest).2.2.1]
    show lexer.source.drop lexer.start = _
    rw [h1, hrest]
    simp
  · show lexer.current + 1 = lexer.start + (text ++ [c]).length
    rw [h2]
    simp
    omega

theorem Lexer.consumed_advance_while (p : Char → Bool) (hp : p NUL = false) (lexer : Lexer)
    (text : List Char) (h : lexer.Consumed text) :
    (Lexer.advance_while p (lexer.source.length + 1) lexer).Consumed
      (text ++ lexer.rest.takeWhile p) := by
  obtain ⟨h1, h2⟩ := h
  obtain ⟨hs, hc, hr, _⟩ := Lexer.advance_while_spec p hp _ lexer lexer.fuel_enough
  refine ⟨?_, ?_⟩
  · rw [hs.1, hs.2.1, hr, h1, List.append_assoc, List.takeWhile_append_dropWhile]
  · rw [hc, hs.2.1, h2, List.length_append]
    omega

theorem Lexer.consumed_length_le (lexer : Lexer) (text : List Char)
    (h : lexer.Consumed text) : text.length ≤ lexer.source.length := by
  have := congrArg List.length h.1
  simp only [List.length_drop, List.length_append] at this
  omega

theorem Lexer.make_token_consumed (lexer : Lexer) (text : List Char) (type : TokenType)
    (h : lexer.Consumed text) (hbound : lexer.source.length < 2147483647) :
    (lexer.make_token type).token = ⟨type, String.mk text⟩
      ∧ (lexer.make_token type).length = text.length := by
  have hle := lexer.consumed_length_le text h
  obtain ⟨h1, h2⟩ := h
  have hlen : wrap32 ((lexer.current : Int) - (lexer.start : Int)) = (text.length : Int) := by
    rw [h2]
    have : ((lexer.start + text.length : Nat) : Int) - (lexer.start : Int)
        = (text.length : Int) := by
      push_cast
      omega
    rw [this]
    apply wrap32_of_fits
    unfold fitsInt32
    constructor <;> omega
  simp only [Lexer.make_token, hlen, Int.toNat_ofNat, h1, List.take_left', and_true]

theorem Lexer.peek_next_eq (lexer : Lexer) (c d : Char) (more : List Char)
    (h : lexer.rest = c :: d :: more) (hc : c ≠ NUL) : lexer.peek_next = d := by
  have hp := (lexer.rest_cons c (d :: more) h).1
  have hend : lexer.is_at_end = false := by
    simp [Lexer.is_at_end, hp, hc]
  simp only [Lexer.peek_next, hend]
  have h2 := (lexer.rest_cons c (d :: more) h).2.2.1
  have := (lexer.advance.2.rest_cons d more h2).1
  simpa [Lexer.peek, Lexer.advance] using this

theorem Lexer.peek_next_single (lexer : Lexer) (c : Char) (h : lexer.rest = [c]) :
    lexer.peek_next = NUL := by
  simp only [Lexer.peek_next]
  split
  · rfl
  · have h2 := (lexer.rest_cons c [] h).2.2.1
    have : lexer.advance.2.peek = NUL := by
      rw [Lexer.peek_eq_head, h2]
      rfl
    simpa [Lexer.peek, Lexer.advance] using this

theorem Lexer.next_token_of_rest (lexer : Lexer) (c : Char) (cs : List Char)
    (h : lexer.token_start.rest = c :: cs) (hc : c ≠ NUL) :
    lexer.lexer_next_token = Lexer.scan_token c lexer.token_start.advance.2
      ∧ lexer.token_start.advance.2.Consumed [c]
      ∧ lexer.token_start.advance.2.rest = cs
      ∧ lexer.token_start.advance.2.source = lexer.source := by
  obtain ⟨hp, ha, hr, _⟩ := lexer.token_start.rest_cons c cs h
  have hend : lexer.token_start.is_at_end = false := by
    simp [Lexer.is_at_end, hp, hc]
  refine ⟨?_, ?_, hr, ?_⟩
  · simp only [Lexer.lexer_next_token, hend, ha]
    rfl
  · exact lexer.token_start.consumed_advance [] c cs (lexer.token_start.consumed_start rfl) h
  · exact lexer.forward_token_start.1

/-- C25. The next token starts with the digit `digit`, followed in the source by `rest`.
When the run of digits is followed by `.` and a digit, `lexer_next_token` returns a
`TOKEN_FLOAT_LITERAL` whose lexeme is the run, the `.` and the longest run of digits after
it.  In every other case it returns a `TOKEN_INT_LITERAL` whose lexeme is the longest run
of digits, and what follows the run, a `.` included, is still to be read.  So `3.` gives
the int literal `3` and an error token, and `1.2.3` starts with the float literal `1.2`. -/
theorem number_contract (lexer : Lexer) (digit : Char) (rest : List Char)
    (hbound : lexer.source.length < 2147483647)
    (hnext : lexer.token_start.rest = digit :: rest) (hdigit : is_digit digit = true) :
    (∀ d more, rest.dropWhile is_digit = '.' :: d :: more → is_digit d = true →
      lexer.lexer_next_token.1.token
        = ⟨TOKEN_FLOAT_LITERAL,
            String.mk (digit :: rest.takeWhile is_digit
              ++ '.' :: (d :: more).takeWhile is_digit)⟩
      ∧ lexer.lexer_next_token.2.rest = (d :: more).dropWhile is_digit)
    ∧ ((∀ d more, rest.dropWhile is_digit = '.' :: d :: more → is_digit d = false) →
      lexer.lexer_next_token.1.token
        = ⟨TOKEN_INT_LITERAL, String.mk (digit :: rest.takeWhile is_digit)⟩
      ∧ lexer.lexer_next_token.2.rest = rest.dropWhile is_digit)
    ∧ source_tokens "3."
      = [⟨TOKEN_INT_LITERAL, "3"⟩, ⟨TOKEN_ERROR, "Caractere inesperado"⟩]
    ∧ source_tokens "1.2.3"
      = [⟨TOKEN_FLOAT_LITERAL, "1.2"⟩, ⟨TOKEN_ERROR, "Caractere inesperado"⟩,
         ⟨TOKEN_INT_LITERAL, "3"⟩] := by
  have hne : digit ≠ NUL := by
    intro h
    rw [h] at hdigit
    revert hdigit
    decide
  obtain ⟨hval, hcons, hrest, hsrc⟩ := lexer.next_token_of_rest digit rest hnext hne
  generalize lexer.token_start.advance.2 = a at hval hcons hrest hsrc
  have hscan : Lexer.scan_token digit a = a.number := by
    simp [Lexer.scan_token, is_digit_not_alpha digit hdigit, hdigit]
  rw [hval, hscan]
  have hb := Lexer.consumed_advance_while is_digit (by decide) a [digit] hcons
  obtain ⟨hbs, _, hbr, _⟩ := Lexer.advance_while_spec is_digit (by decide) _ a a.fuel_enough
  rw [hrest] at hb hbr
  generalize hbdef : Lexer.advance_while is_digit (a.source.length + 1) a = b
    at hb hbs hbr
  have hbsrc : b.source.length < 2147483647 := by rw [hbs.1, hsrc]; exact hbound
  refine ⟨?_, ?_, by decide, by decide⟩
  · intro d more hdrop hd
    rw [hdrop] at hbr
    have hcond : b.peek = '.' ∧ is_digit b.peek_next = true := by
      refine ⟨(b.rest_cons _ _ hbr).1, ?_⟩
      rw [b.peek_next_eq '.' d more hbr (by decide)]
      exact hd
    have hc1 := b.consumed_advance _ '.' (d :: more) hb hbr
    have hr1 := (b.rest_cons _ _ hbr).2.2.1
    have he := Lexer.consumed_advance_while is_digit (by decide) b.advance.2 _ hc1
    obtain ⟨hes, _, her, _⟩ :=
      Lexer.advance_while_spec is_digit (by decide) _ b.advance.2 b.advance.2.fuel_enough
    rw [hr1] at he her
    have hesrc : (Lexer.advance_while is_digit (b.advance.2.source.length + 1)
        b.advance.2).source.length < 2147483647 := by
      rw [hes.1]
      exact hbsrc
    have hnum : a.number
        = (Lexer.make_token
            (Lexer.advance_while is_digit (b.advance.2.source.length + 1) b.advance.2)
            TOKEN_FLOAT_LITERAL,
          Lexer.advance_while is_digit (b.advance.2.source.length + 1) b.advance.2) := by
      simp only [Lexer.number, hbdef]
      rw [if_pos hcond]
    rw [hnum]
    refine ⟨?_, her⟩
    rw [(Lexer.make_token_consumed _ _ TOKEN_FLOAT_LITERAL he hesrc).1]
    simp
  · intro hnot
    have hcond : ¬ (b.peek = '.' ∧ is_digit b.peek_next = true) := by
      rintro ⟨h1, h2⟩
      cases hr : b.rest with
      | nil =>
        rw [Lexer.peek_eq_head, hr] at h1
        revert h1
        decide
      | cons c cs =>
        have hc := (b.rest_cons c cs hr).1
        rw [hc] at h1
        subst h1
        cases cs with
        | nil =>
          rw [b.peek_next_single _ hr] at h2
          revert h2
          decide
        | cons d more =>
          rw [b.peek_next_eq _ d more hr (by decide)] at h2
          rw [hbr] at hr
          rw [hnot d more hr] at h2
          cases h2
    have hnum : a.number = (Lexer.make_token b TOKEN_INT_LITERAL, b) := by
      simp only [Lexer.number, hbdef]
      rw [if_neg hcond]
    rw [hnum]
    refine ⟨?_, hbr⟩
    rw [(Lexer.make_token_consumed _ _ TOKEN_INT_LITERAL hb hbsrc).1]
    simp

theorem number_contract_witness :
    (lexer_init "3.".toList).lexer_next_token.1.token = ⟨TOKEN_INT_LITERAL, "3"⟩ :=
  ((number_contract (lexer_init "3.".toList) '3' ['.'] (by decide) (by decide)
      (by decide)).2.1 (by
        intro d more h
        have h1 : List.dropWhile is_digit ['.'] = ['.'] := by decide
        rw [h1] at h
        cases h)).1

/-! ## The lexer: string literals -/

theorem in_string_false (c : Char) (h : in_string c = false) :
    c = '"' ∨ c = NUL ∨ c = '\n' := by
  simp only [in_string, Bool.and_eq_false_iff, bne_eq_false_iff_eq] at h
  tauto

/-- The `while` loop of `string` with the fuel `string` gives it: it consumes the longest
run of characters that can stand inside a string literal, and returns an error token
exactly when it stops at a newline. -/
theorem Lexer.string_loop_spec (fuel : Nat) :
    ∀ lexer : Lexer, lexer.source.length - lexer.current < fuel →
      lexer.SameToken (Lexer.string_loop fuel lexer).2
      ∧ (Lexer.string_loop fuel lexer).2.current
          = lexer.current + (lexer.rest.takeWhile in_string).length
      ∧ (Lexer.string_loop fuel lexer).2.rest = lexer.rest.dropWhile in_string
      ∧ in_string (Lexer.string_loop fuel lexer).2.peek = false
      ∧ (Lexer.string_loop fuel lexer).1
          = if (Lexer.string_loop fuel lexer).2.peek = '\n' then
              some (Lexer.error_token (Lexer.string_loop fuel lexer).2
                "String não pode conter quebra de linha")
            else none := by
  induction fuel with
  | zero => intro lexer h; omega
  | succ fuel ih =>
    intro lexer hfuel
    simp only [Lexer.string_loop]
    by_cases hin : in_string lexer.peek = true
    · have hcond : lexer.peek ≠ '"' ∧ lexer.is_at_end = false := by
        simp only [in_string, Bool.and_eq_true, bne_iff_ne, ne_eq] at hin
        exact ⟨hin.1.1, by simp [Lexer.is_at_end, hin.1.2]⟩
      have hnl : lexer.peek ≠ '\n' := by
        simp only [in_string, Bool.and_eq_true, bne_iff_ne, ne_eq] at hin
        exact hin.2
      rw [if_pos hcond, if_neg hnl]
      have hne : lexer.peek ≠ NUL := by
        simp only [in_string, Bool.and_eq_true, bne_iff_ne, ne_eq] at hin
        exact hin.1.2
      obtain ⟨cs, hrest⟩ := lexer.rest_of_peek hne
      obtain ⟨_, _, hadv, hlt⟩ := lexer.rest_cons _ _ hrest
      have hfuel' : lexer.advance.2.source.length - lexer.advance.2.current < fuel := by
        show lexer.source.length - (lexer.current + 1) < fuel
        omega
      obtain ⟨h1, h2, h3, h4, h5⟩ := ih lexer.advance.2 hfuel'
      refine ⟨(lexer.same_token_advance).same_token_trans h1, ?_, ?_, h4, h5⟩
      · rw [h2, hadv, hrest, List.takeWhile_cons_of_pos hin]
        show lexer.current + 1 + _ = _
        simp only [List.length_cons]
        omega
      · rw [h3, hadv, hrest, List.dropWhile_cons_of_pos hin]
    · have hin' : in_string lexer.peek = false := by simpa using hin
      have htake : lexer.rest.takeWhile in_string = [] := by
        cases hr : lexer.rest with
        | nil => rfl
        | cons c cs =>
          have hc : lexer.peek = c := (lexer.rest_cons c cs hr).1
          rw [hc] at hin'
          simp [List.takeWhile, hin']
      have hdrop : lexer.rest.dropWhile in_string = lexer.rest := by
        cases hr : lexer.rest with
        | nil => rfl
        | cons c cs =>
          have hc : lexer.peek = c := (lexer.rest_cons c cs hr).1
          rw [hc] at hin'
          simp [List.dropWhile, hin']
      by_cases hcond : lexer.peek ≠ '"' ∧ lexer.is_at_end = false
      · rw [if_pos hcond]
        have hnl : lexer.peek = '\n' := by
          rcases in_string_false _ hin' with h | h | h
          · exact absurd h hcond.1
          · have := hcond.2
            simp [Lexer.is_at_end, h] at this
          · exact h
        rw [if_pos hnl]
        refine ⟨Lexer.SameToken.same_token_refl _, by simp [htake], hdrop.symm, hin', ?_⟩
        simp [hnl]
      · rw [if_neg hcond]
        have hnl : lexer.peek ≠ '\n' := by
          intro h
          apply hcond
          rw [h]
          refine ⟨by decide, ?_⟩
          simp [Lexer.is_at_end, h, NUL]
        refine ⟨Lexer.SameToken.same_token_refl _, by simp [htake], hdrop.symm, hin', ?_⟩
        simp [hnl]

theorem Lexer.consumed_string_loop (lexer : Lexer) (text : List Char)
    (h : lexer.Consumed text) :
    (Lexer.string_loop (lexer.source.length + 1) lexer).2.Consumed
      (text ++ lexer.rest.takeWhile in_string) := by
  obtain ⟨h1, h2⟩ := h
  obtain ⟨hs, hc, hr, _⟩ := Lexer.string_loop_spec _ lexer lexer.fuel_enough
  refine ⟨?_, ?_⟩
  · rw [hs.1, hs.2.1, hr, h1, List.append_assoc, List.takeWhile_append_dropWhile]
  · rw [hc, hs.2.1, h2, List.length_append]
    omega

theorem dropWhile_in_string_head (rest : List Char) :
    rest.dropWhile in_string = []
      ∨ ∃ c more, rest.dropWhile in_string = c :: more ∧ (c = '"' ∨ c = NUL ∨ c = '\n') := by
  cases h : rest.dropWhile in_string with
  | nil => exact Or.inl rfl
  | cons c more =>
    refine Or.inr ⟨c, more, rfl, ?_⟩
    have := List.head?_dropWhile_not in_string rest
    rw [h] at this
    simp only [List.head?_cons, Option.all_some, Bool.not_eq_eq_eq_not, Bool.not_true] at this
    exact in_string_false c this

/-- C26. The next token starts with `"`, followed in the source by `rest`.  The lexer
reads the longest run of characters that are neither `"`, nor a newline, nor the end of
the source.  When a `"` comes next, `lexer_next_token` returns a `TOKEN_STRING_LITERAL`
whose lexeme runs from the opening to the closing quote, both included; when a newline
comes next, or the source ends, it returns a `TOKEN_ERROR` token.  There is no other
case. -/
theorem string_contract (lexer : Lexer) (rest : List Char)
    (hbound : lexer.source.length < 2147483647)
    (hnext : lexer.token_start.rest = '"' :: rest) :
    (∀ more, rest.dropWhile in_string = '"' :: more →
      lexer.lexer_next_token.1.token
        = ⟨TOKEN_STRING_LITERAL, String.mk ('"' :: rest.takeWhile in_string ++ ['"'])⟩
      ∧ lexer.lexer_next_token.2.rest = more)
    ∧ (∀ more, rest.dropWhile in_string = '\n' :: more →
      lexer.lexer_next_token.1.token
        = ⟨TOKEN_ERROR, "String não pode conter quebra de linha"⟩)
    ∧ ((rest.dropWhile in_string = [] ∨ ∃ more, rest.dropWhile in_string = NUL :: more) →
      lexer.lexer_next_token.1.token = ⟨TOKEN_ERROR, "String não fechada"⟩)
    ∧ (rest.dropWhile in_string = []
      ∨ ∃ c more, rest.dropWhile in_string = c :: more ∧ (c = '"' ∨ c = NUL ∨ c = '\n')) := by
  obtain ⟨hval, hcons, hrest, hsrc⟩ :=
    lexer.next_token_of_rest '"' rest hnext (by decide)
  generalize lexer.token_start.advance.2 = a at hval hcons hrest hsrc
  have hscan : Lexer.scan_token '"' a = a.string := by
    have h1 : is_alpha '"' = false := by decide
    have h2 : is_digit '"' = false := by decide
    simp [Lexer.scan_token, h1, h2]
  rw [hval, hscan]
  have hb := Lexer.consumed_string_loop a ['"'] hcons
  obtain ⟨hbs, _, hbr, _, hb1⟩ := Lexer.string_loop_spec _ a a.fuel_enough
  rw [hrest] at hb hbr
  generalize hbdef : Lexer.string_loop (a.source.length + 1) a = r at hb hbs hbr hb1
  obtain ⟨tok, b⟩ := r
  simp only at hb hbs hbr hb1
  have hbsrc : b.source.length < 2147483647 := by rw [hbs.1, hsrc]; exact hbound
  refine ⟨?_, ?_, ?_, dropWhile_in_string_head rest⟩
  · intro more hdrop
    rw [hdrop] at hbr
    have hpeek := (b.rest_cons _ _ hbr).1
    have htok : tok = none := by
      rw [hb1, hpeek]
      simp
    have hend : b.is_at_end = false := by
      simp [Lexer.is_at_end, hpeek, NUL]
    have hstr : a.string = (Lexer.make_token b.advance.2 TOKEN_STRING_LITERAL, b.advance.2) := by
      simp only [Lexer.string, hbdef, htok, hend]
      rfl
    rw [hstr]
    have hc1 := b.consumed_advance _ '"' more hb hbr
    refine ⟨?_, (b.rest_cons _ _ hbr).2.2.1⟩
    rw [(Lexer.make_token_consumed _ _ TOKEN_STRING_LITERAL hc1 hbsrc).1]
    simp
  · intro more hdrop
    rw [hdrop] at hbr
    have hpeek := (b.rest_cons _ _ hbr).1
    have htok : tok = some (Lexer.error_token b "String não pode conter quebra de linha") := by
      rw [hb1, hpeek]
      simp
    have hstr : a.string
        = (Lexer.error_token b "String não pode conter quebra de linha", b) := by
      simp only [Lexer.string, hbdef, htok]
    rw [hstr]
    rfl
  · intro hdrop
    have hpeek : b.peek = NUL := by
      rcases hdrop with h | ⟨more, h⟩
      · rw [h] at hbr
        rw [Lexer.peek_eq_head, hbr]
        rfl
      · rw [h] at hbr
        exact (b.rest_cons _ _ hbr).1
    have htok : tok = none := by
      rw [hb1, hpeek]
      simp [NUL]
    have hend : b.is_at_end = true := by
      simp [Lexer.is_at_end, hpeek]
    have hstr : a.string = (Lexer.error_token b "String não fechada", b) := by
      simp only [Lexer.string, hbdef, htok, hend]
      rfl
    rw [hstr]
    rfl

theorem string_contract_witness :
    (lexer_init "\"abc".toList).lexer_next_token.1.token
      = ⟨TOKEN_ERROR, "String não fechada"⟩ :=
  (string_contract (lexer_init "\"abc".toList) ['a', 'b', 'c'] (by decide) (by decide)).2.2.1
    (Or.inl (by decide))

/-! ## The lexer: lines and columns -/

theorem Lexer.take_succ_of_rest (lexer : Lexer) (c : Char) (cs : List Char)
    (h : lexer.rest = c :: cs) :
    lexer.source.take (lexer.current + 1) = lexer.source.take lexer.current ++ [c] := by
  rw [List.take_succ]
  have : lexer.source[lexer.current]? = some c := by
    have h1 : (lexer.source.drop lexer.current).head? = some c := by
      have : lexer.source.drop lexer.current = c :: cs := h
      rw [this]
      rfl
    rwa [List.head?_drop] at h1
  rw [this]
  rfl

theorem line_column_bounds (source : List Char) (index : Nat) :
    1 ≤ line_at source index ∧ line_at source index ≤ index + 1
      ∧ 1 ≤ column_at source index ∧ column_at source index ≤ index + 1 := by
  have h1 : (source.take index).count '\n' ≤ index :=
    Nat.le_trans (List.count_le_length _ _) (List.length_take_le _ _)
  have h2 : ((source.take index).reverse.takeWhile (fun c => c != '\n')).length ≤ index := by
    refine Nat.le_trans (List.takeWhile_sublist _).length_le ?_
    rw [List.length_reverse]
    exact List.length_take_le _ _
  unfold line_at column_at
  omega

theorem Lexer.position_succ (lexer : Lexer) (c : Char) (cs : List Char)
    (h : lexer.rest = c :: cs) :
    (c ≠ '\n' →
      line_at lexer.source (lexer.current + 1) = line_at lexer.source lexer.current
      ∧ column_at lexer.source (lexer.current + 1)
          = column_at lexer.source lexer.current + 1)
    ∧ (c = '\n' →
      line_at lexer.source (lexer.current + 1) = line_at lexer.source lexer.current + 1
      ∧ column_at lexer.source (lexer.current + 1) = 1) := by
  have ht := lexer.take_succ_of_rest c cs h
  refine ⟨fun hc => ?_, fun hc => ?_⟩
  · have hb : (c != '\n') = true := by simpa using hc
    constructor
    · unfold line_at
      rw [ht, List.count_append]
      simp [List.count_cons, hc]
    · unfold column_at
      rw [ht, List.reverse_append]
      simp only [List.reverse_cons, List.reverse_nil, List.nil_append, List.singleton_append]
      simp only [List.takeWhile, hb, List.length_cons]
      push_cast
      ring
  · subst hc
    constructor
    · unfold line_at
      rw [ht, List.count_append]
      simp
      ring
    · unfold column_at
      rw [ht, List.reverse_append]
      simp [List.takeWhile]

theorem Lexer.Run.run_refl (lexer : Lexer) : lexer.Run lexer :=
  ⟨Lexer.SameToken.same_token_refl _, Nat.le_refl _, fun h => ⟨h, by simp⟩⟩

theorem Lexer.Run.run_trans {a b c : Lexer} (h1 : a.Run b) (h2 : b.Run c) : a.Run c := by
  obtain ⟨s1, c1, t1⟩ := h1
  obtain ⟨s2, c2, t2⟩ := h2
  refine ⟨s1.same_token_trans s2, Nat.le_trans c1 c2, fun h => ?_⟩
  obtain ⟨tb, cb⟩ := t1 h
  obtain ⟨tc, cc⟩ := t2 tb
  refine ⟨tc, ?_⟩
  rw [cc, cb]
  ring

theorem Lexer.run_advance (lexer : Lexer) (c : Char) (cs : List Char)
    (hbound : lexer.source.length < 2147483647)
    (h : lexer.rest = c :: cs) (hc : c ≠ '\n') : lexer.Run lexer.advance.2 := by
  refine ⟨lexer.same_token_advance, Nat.le_succ _, fun ht => ?_⟩
  obtain ⟨hle, hline, hcol⟩ := ht
  have hlt := (lexer.rest_cons c cs h).2.2.2
  obtain ⟨hl1, hc1⟩ := (lexer.position_succ c cs h).1 hc
  obtain ⟨_, _, hb3, hb4⟩ := line_column_bounds lexer.source lexer.current
  have hw : wrap32 (lexer.column + 1) = lexer.column + 1 := by
    apply wrap32_of_fits
    unfold fitsInt32
    rw [hcol]
    constructor <;> omega
  refine ⟨⟨?_, ?_, ?_⟩, ?_⟩
  · show lexer.current + 1 ≤ lexer.source.length
    omega
  · show lexer.line = line_at lexer.source (lexer.current + 1)
    rw [hl1, hline]
  · show wrap32 (lexer.column + 1) = column_at lexer.source (lexer.current + 1)
    rw [hw, hc1, hcol]
  · show wrap32 (lexer.column + 1) = lexer.column + (((lexer.current + 1 : Nat) : Int) - _)
    rw [hw]
    push_cast
    ring

theorem Lexer.tracked_newline (lexer : Lexer) (cs : List Char)
    (hbound : lexer.source.length < 2147483647)
    (h : lexer.rest = '\n' :: cs) (ht : lexer.Tracked) :
    (Lexer.advance { lexer with line := wrap32 (lexer.line + 1), column := 0 }).2.Tracked := by
  obtain ⟨hle, hline, hcol⟩ := ht
  have hlt := (lexer.rest_cons _ cs h).2.2.2
  obtain ⟨hl1, hc1⟩ := (lexer.position_succ _ cs h).2 rfl
  obtain ⟨hb1, hb2, _, _⟩ := line_column_bounds lexer.source lexer.current
  have hw : wrap32 (lexer.line + 1) = lexer.line + 1 := by
    apply wrap32_of_fits
    unfold fitsInt32
    rw [hline]
    constructor <;> omega
  refine ⟨?_, ?_, ?_⟩
  · show lexer.current + 1 ≤ lexer.source.length
    omega
  · show wrap32 (lexer.line + 1) = line_at lexer.source (lexer.current + 1)
    rw [hw, hl1, hline]
  · show wrap32 ((0 : Int) + 1) = column_at lexer.source (lexer.current + 1)
    rw [hc1]
    decide

theorem Lexer.run_advance_while (p : Char → Bool) (hp : p NUL = false)
    (hnl : p '\n' = false) (fuel : Nat) :
    ∀ lexer : Lexer, lexer.source.length < 2147483647 →
      lexer.Run (Lexer.advance_while p fuel lexer) := by
  induction fuel with
  | zero => intro lexer _; exact Lexer.Run.run_refl _
  | succ fuel ih =>
    intro lexer hbound
    simp only [Lexer.advance_while]
    split
    · rename_i hpk
      have hne : lexer.peek ≠ NUL := fun h => by rw [h, hp] at hpk; cases hpk
      have hne2 : lexer.peek ≠ '\n' := fun h => by rw [h, hnl] at hpk; cases hpk
      obtain ⟨cs, hrest⟩ := lexer.rest_of_peek hne
      exact (lexer.run_advance _ cs hbound hrest hne2).run_trans (ih _ hbound)
    · exact Lexer.Run.run_refl _

theorem Lexer.run_string_loop (fuel : Nat) :
    ∀ lexer : Lexer, lexer.source.length < 2147483647 →
      lexer.Run (Lexer.string_loop fuel lexer).2 := by
  induction fuel with
  | zero => intro lexer _; exact Lexer.Run.run_refl _
  | succ fuel ih =>
    intro lexer hbound
    simp only [Lexer.string_loop]
    split
    · rename_i hc
      split
      · exact Lexer.Run.run_refl _
      · rename_i hnl
        have hne : lexer.peek ≠ NUL := by
          intro h
          have := hc.2
          simp [Lexer.is_at_end, h] at this
        obtain ⟨cs, hrest⟩ := lexer.rest_of_peek hne
        exact (lexer.run_advance _ cs hbound hrest hnl).run_trans (ih _ hbound)
    · exact Lexer.Run.run_refl _

theorem Lexer.run_match (lexer : Lexer) (hbound : lexer.source.length < 2147483647) :
    lexer.Run (lexer.match_ '=').2 := by
  simp only [Lexer.match_]
  split
  · exact Lexer.Run.run_refl _
  · rename_i hend
    split
    · exact Lexer.Run.run_refl _
    · rename_i hpk
      have hpk' : lexer.peek = '=' := by simpa using hpk
      have hne : lexer.peek ≠ NUL := by rw [hpk']; decide
      obtain ⟨cs, hrest⟩ := lexer.rest_of_peek hne
      have := lexer.run_advance _ cs hbound hrest (by rw [hpk']; decide)
      exact this

theorem Lexer.tracked_skip_loop (fuel : Nat) :
    ∀ lexer : Lexer, lexer.source.length < 2147483647 → lexer.Tracked →
      (Lexer.skip_loop fuel lexer).Tracked
      ∧ (Lexer.skip_loop fuel lexer).source = lexer.source := by
  induction fuel with
  | zero => intro lexer _ h; exact ⟨h, rfl⟩
  | succ fuel ih =>
    intro lexer hbound ht
    simp only [Lexer.skip_loop]
    split
    · rename_i hc
      have hne : lexer.peek ≠ NUL := by
        intro h
        rw [h] at hc
        revert hc
        decide
      have hne2 : lexer.peek ≠ '\n' := by
        intro h
        rw [h] at hc
        revert hc
        decide
      obtain ⟨cs, hrest⟩ := lexer.rest_of_peek hne
      have hrun := lexer.run_advance _ cs hbound hrest hne2
      exact ih _ hbound (hrun.2.2 ht).1
    · split
      · rename_i hc
        have hne : lexer.peek ≠ NUL := by rw [hc]; decide
        obtain ⟨cs, hrest⟩ := lexer.rest_of_peek hne
        rw [hc] at hrest
        exact ih _ hbound (lexer.tracked_newline cs hbound hrest ht)
      · split
        · have hrun := Lexer.run_advance_while (fun c => c != '\n' && c != NUL) (by decide)
            (by decide) (lexer.source.length + 1) lexer hbound
          have h1 := ih (Lexer.advance_while (fun c => c != '\n' && c != NUL)
            (lexer.source.length + 1) lexer) (by rw [hrun.1.1]; exact hbound) (hrun.2.2 ht).1
          exact ⟨h1.1, h1.2.trans hrun.1.1⟩
        · exact ⟨ht, rfl⟩

/-- The loop of `skip_whitespace_and_comments` with the fuel the function gives it stops
at a character that is neither white space nor the start of a comment: the fuel is not
exhausted. -/
theorem Lexer.skip_loop_exit (fuel : Nat) :
    ∀ lexer : Lexer, lexer.source.length - lexer.current < fuel →
      (Lexer.skip_loop fuel lexer).peek ≠ ' ' ∧ (Lexer.skip_loop fuel lexer).peek ≠ '\r'
      ∧ (Lexer.skip_loop fuel lexer).peek ≠ '\t' ∧ (Lexer.skip_loop fuel lexer).peek ≠ '\n'
      ∧ (Lexer.skip_loop fuel lexer).peek ≠ '#' := by
  induction fuel with
  | zero => intro lexer h; omega
  | succ fuel ih =>
    intro lexer hfuel
    simp only [Lexer.skip_loop]
    split
    · rename_i hc
      have hne : lexer.peek ≠ NUL := by
        intro h
        rw [h] at hc
        revert hc
        decide
      obtain ⟨cs, hrest⟩ := lexer.rest_of_peek hne
      have hlt := (lexer.rest_cons _ cs hrest).2.2.2
      apply ih
      show lexer.source.length - (lexer.current + 1) < fuel
      omega
    · rename_i hc1
      split
      · rename_i hc
        have hne : lexer.peek ≠ NUL := by rw [hc]; decide
        obtain ⟨cs, hrest⟩ := lexer.rest_of_peek hne
        have hlt := (lexer.rest_cons _ cs hrest).2.2.2
        apply ih
        show lexer.source.length - (lexer.current + 1) < fuel
        omega
      · rename_i hc2
        split
        · rename_i hc
          have hne : lexer.peek ≠ NUL := by rw [hc]; decide
          obtain ⟨cs, hrest⟩ := lexer.rest_of_peek hne
          have hlt := (lexer.rest_cons _ cs hrest).2.2.2
          obtain ⟨hs, hcur, _, _⟩ := Lexer.advance_while_spec
            (fun c => c != '\n' && c != NUL) (by decide) _ lexer lexer.fuel_enough
          apply ih
          rw [hs.1, hcur, hrest, hc]
          have : List.takeWhile (fun c => c != '\n' && c != NUL) ('#' :: cs)
              = '#' :: List.takeWhile (fun c => c != '\n' && c != NUL) cs := by
            rw [List.takeWhile_cons_of_pos (by decide)]
          rw [this, List.length_cons]
          omega
        · rename_i hc3
          simp only [not_or] at hc1
          exact ⟨hc1.1, hc1.2.1, hc1.2.2, hc2, hc3⟩

theorem Lexer.run_identifier (lexer : Lexer) (hbound : lexer.source.length < 2147483647) :
    lexer.Run lexer.identifier.2 := by
  simp only [Lexer.identifier]
  exact Lexer.run_advance_while _ (by decide) (by decide) _ lexer hbound

theorem Lexer.run_number (lexer : Lexer) (hbound : lexer.source.length < 2147483647) :
    lexer.Run lexer.number.2 := by
  simp only [Lexer.number]
  have h1 := Lexer.run_advance_while is_digit (by decide) (by decide)
    (lexer.source.length + 1) lexer hbound
  have hsrc : (Lexer.advance_while is_digit (lexer.source.length + 1) lexer).source.length
      < 2147483647 := by
    rw [h1.1.1]
    exact hbound
  split
  · rename_i hc
    have hne : (Lexer.advance_while is_digit (lexer.source.length + 1) lexer).peek ≠ NUL := by
      rw [hc.1]
      decide
    obtain ⟨cs, hrest⟩ := Lexer.rest_of_peek _ hne
    have h2 := Lexer.run_advance _ _ cs hsrc hrest (by rw [hc.1]; decide)
    exact h1.run_trans (h2.run_trans
      (Lexer.run_advance_while is_digit (by decide) (by decide) _ _ hsrc))
  · exact h1

theorem Lexer.run_string (lexer : Lexer) (hbound : lexer.source.length < 2147483647) :
    lexer.Run lexer.string.2 := by
  have h1 := Lexer.run_string_loop (lexer.source.length + 1) lexer hbound
  obtain ⟨_, _, _, _, htok⟩ := Lexer.string_loop_spec _ lexer lexer.fuel_enough
  simp only [Lexer.string]
  split
  · rename_i tok l2 heq
    rw [heq] at h1
    exact h1
  · rename_i l2 heq
    rw [heq] at h1 htok
    simp only at htok
    split
    · exact h1
    · rename_i hend
      have hne : l2.peek ≠ NUL := by
        intro h
        simp [Lexer.is_at_end, h] at hend
      have hnl : l2.peek ≠ '\n' := by
        intro h
        rw [if_pos h] at htok
        cases htok
      obtain ⟨cs, hrest⟩ := l2.rest_of_peek hne
      have hsrc : l2.source.length < 2147483647 := by
        rw [h1.1.1]
        exact hbound
      exact h1.run_trans (l2.run_advance _ cs hsrc hrest hnl)

theorem Lexer.run_operator_token (lexer : Lexer) (two : TokenType) (one : Option TokenType)
    (hbound : lexer.source.length < 2147483647) :
    lexer.Run (lexer.operator_token two one).2 := by
  have h1 := lexer.run_match hbound
  simp only [Lexer.operator_token]
  split
  · rename_i l2 heq
    rw [heq] at h1
    exact h1
  · rename_i l2 heq
    rw [heq] at h1
    split <;> exact h1

theorem Lexer.scan_token_made (c : Char) (a : Lexer) (hbound : a.source.length < 2147483647) :
    a.Run (Lexer.scan_token c a).2
    ∧ ((Lexer.scan_token c a).1.token.type ≠ TOKEN_ERROR →
        (Lexer.scan_token c a).1
          = (Lexer.scan_token c a).2.make_token (Lexer.scan_token c a).1.token.type) := by
  refine Lexer.scan_token_ind
    (fun r => a.Run r.2 ∧ (r.1.token.type ≠ TOKEN_ERROR → r.1 = r.2.make_token r.1.token.type))
    c a ?_ ?_ ?_ ?_ ?_ ?_
  · intro _
    exact ⟨a.run_identifier hbound, fun _ => rfl⟩
  · intro _ _
    refine ⟨a.run_number hbound, fun _ => ?_⟩
    simp only [Lexer.number]
    split <;> rfl
  · intro _
    refine ⟨a.run_string hbound, fun hne => ?_⟩
    have herr : ∀ fuel (l : Lexer) tok l2, Lexer.string_loop fuel l = (some tok, l2) →
        tok.token.type = TOKEN_ERROR := by
      intro fuel
      induction fuel with
      | zero => intro l tok l2 h; simp [Lexer.string_loop] at h
      | succ fuel ih =>
        intro l tok l2 h
        simp only [Lexer.string_loop] at h
        split at h
        · split at h
          · cases h
            rfl
          · exact ih _ _ _ h
        · cases h
    simp only [Lexer.string] at hne ⊢
    split
    · rename_i tok l2 heq
      rw [heq] at hne
      exact absurd (herr _ _ _ _ heq) hne
    · rename_i l2 heq
      rw [heq] at hne
      simp only at hne ⊢
      split
      · rename_i hend
        rw [if_pos hend] at hne
        exact absurd rfl hne
      · rfl
  · intro type _ _
    exact ⟨Lexer.Run.run_refl a, fun _ => rfl⟩
  · intro two one _ _ _ _
    refine ⟨a.run_operator_token two one hbound, fun hne => ?_⟩
    simp only [Lexer.operator_token] at hne ⊢
    split
    · rfl
    · rename_i l2 heq
      rw [heq] at hne
      simp only at hne ⊢
      split
      · rfl
      · exact absurd rfl hne
  · exact ⟨Lexer.Run.run_refl a, fun hne => absurd rfl hne⟩

theorem Lexer.tracked_token_start (lexer : Lexer) (hbound : lexer.source.length < 2147483647)
    (ht : lexer.Tracked) :
    lexer.token_start.Tracked ∧ lexer.token_start.source = lexer.source
      ∧ lexer.token_start.start = lexer.token_start.current
      ∧ lexer.token_start.peek ≠ '\n' := by
  obtain ⟨h1, h2⟩ := Lexer.tracked_skip_loop (lexer.source.length + 1) lexer hbound ht
  have h3 := Lexer.skip_loop_exit (lexer.source.length + 1) lexer lexer.fuel_enough
  exact ⟨h1, h2, rfl, h3.2.2.2.1⟩

/-- One call of `lexer_next_token` in a lexer whose counters are those of the cursor:
they are so again after the call, and a token that is neither `TOKEN_ERROR` nor
`TOKEN_EOF` starts at `start`, has the line and column of that character, the length
`current - start`, and the characters between the two as its lexeme. -/
theorem Lexer.next_token_tracked (lexer : Lexer) (hbound : lexer.source.length < 2147483647)
    (ht : lexer.Tracked) :
    lexer.lexer_next_token.2.Tracked
    ∧ lexer.lexer_next_token.2.source = lexer.source
    ∧ (lexer.lexer_next_token.1.token.type ≠ TOKEN_ERROR →
        lexer.lexer_next_token.1.token.type ≠ TOKEN_EOF →
        lexer.lexer_next_token.1.line
            = line_at lexer.source lexer.lexer_next_token.2.start
        ∧ lexer.lexer_next_token.1.column
            = column_at lexer.source lexer.lexer_next_token.2.start
        ∧ lexer.lexer_next_token.1.token.lexeme
            = String.mk ((lexer.source.drop lexer.lexer_next_token.2.start).take
                lexer.lexer_next_token.1.length.toNat)
        ∧ 0 < lexer.lexer_next_token.1.length
        ∧ (lexer.lexer_next_token.2.current : Int)
            = lexer.lexer_next_token.2.start + lexer.lexer_next_token.1.length) := by
  obtain ⟨hts, hsrc, hstart, hnl⟩ := lexer.tracked_token_start hbound ht
  generalize hs : lexer.token_start = s at hts hsrc hstart hnl
  have hval : lexer.lexer_next_token
      = if s.is_at_end then (s.make_token TOKEN_EOF, s)
        else Lexer.scan_token s.advance.1 s.advance.2 := by
    simp only [Lexer.lexer_next_token, hs]
  rw [hval]
  by_cases hend : s.is_at_end = true
  · rw [if_pos hend]
    exact ⟨hts, hsrc, fun _ h => absurd rfl h⟩
  · rw [if_neg hend]
    have hne : s.peek ≠ NUL := by
      intro h
      simp [Lexer.is_at_end, h] at hend
    obtain ⟨cs, hrest⟩ := s.rest_of_peek hne
    have hsb : s.source.length < 2147483647 := by rw [hsrc]; exact hbound
    have hrun0 := s.run_advance _ cs hsb hrest hnl
    have hcur0 : s.advance.2.current = s.current + 1 := rfl
    generalize s.advance.2 = a at hrun0 hcur0
    generalize s.advance.1 = c
    have hab : a.source.length < 2147483647 := by rw [hrun0.1.1]; exact hsb
    obtain ⟨hrun1, hmade⟩ := Lexer.scan_token_made c a hab
    generalize Lexer.scan_token c a = r at hrun1 hmade
    have hrun := hrun0.run_trans hrun1
    obtain ⟨⟨hrs, hrst, hrl⟩, hrc, hrt⟩ := hrun
    obtain ⟨htr, hcol⟩ := hrt hts
    have hge : s.current + 1 ≤ r.2.current := by
      rw [← hcur0]
      exact hrun1.2.1
    have hlen_le : r.2.current ≤ lexer.source.length := by
      have := htr.1
      rwa [hrs, hsrc] at this
    have hlen : wrap32 ((r.2.current : Int) - (r.2.start : Int))
        = (r.2.current : Int) - (s.current : Int) := by
      rw [hrst, hstart]
      apply wrap32_of_fits
      unfold fitsInt32
      constructor <;> omega
    refine ⟨htr, by rw [hrs, hsrc], fun herr _ => ?_⟩
    rw [hmade herr]
    simp only [Lexer.make_token, hlen]
    obtain ⟨_, _, hb3, hb4⟩ := line_column_bounds s.source s.current
    have hscol := hts.2.2
    refine ⟨?_, ?_, ?_, ?_, ?_⟩
    · rw [hrl, hts.2.1, hrst, hstart, hsrc]
    · rw [hcol, hrst, hstart, ← hsrc, ← hscol]
      have : s.column + ((r.2.current : Int) - (s.current : Int))
          - ((r.2.current : Int) - (s.current : Int)) = s.column := by ring
      rw [this]
      apply wrap32_of_fits
      unfold fitsInt32
      rw [hscol]
      constructor <;> omega
    · rw [hrs, hsrc]
    · omega
    · rw [hrst, hstart]
      ring

theorem lexer_after_tracked (source : List Char) (hbound : source.length < 2147483647)
    (calls : Nat) :
    (lexer_after calls (lexer_init source)).Tracked
      ∧ (lexer_after calls (lexer_init source)).source = source := by
  induction calls with
  | zero =>
    refine ⟨⟨Nat.zero_le _, ?_, ?_⟩, rfl⟩
    · simp [lexer_after, lexer_init, line_at]
    · simp [lexer_after, lexer_init, column_at]
  | succ n ih =>
    rw [lexer_after_succ]
    have hb : (lexer_after n (lexer_init source)).source.length < 2147483647 := by
      rw [ih.2]
      exact hbound
    have := Lexer.next_token_tracked _ hb ih.1
    exact ⟨this.1, this.2.1.trans ih.2⟩

/-- C27. For every source shorter than 2^31 - 1 characters and every call of
`lexer_next_token` that returns a token other than `TOKEN_ERROR` and `TOKEN_EOF`: the token
starts at the offset `start` of the lexer after the call; its `line` is 1 plus the number
of newline characters before that character; its `column` is 1 plus the number of
characters between the start of the line and that character; its length is positive and
the cursor stands right after the token; and its lexeme is the substring of the source of
that length starting there. -/
theorem token_position_contract (source : List Char) (calls : Nat)
    (hbound : source.length < 2147483647)
    (herror : (lexer_call calls (lexer_init source)).token.type ≠ TOKEN_ERROR)
    (heof : (lexer_call calls (lexer_init source)).token.type ≠ TOKEN_EOF) :
    (lexer_call calls (lexer_init source)).line
        = 1 + ((source.take (lexer_after (calls + 1) (lexer_init source)).start).count '\n'
                : Nat)
    ∧ (lexer_call calls (lexer_init source)).column
        = 1 + (((source.take (lexer_after (calls + 1) (lexer_init source)).start).reverse.takeWhile
                  (fun c => c != '\n')).length : Nat)
    ∧ (lexer_call calls (lexer_init source)).token.lexeme
        = String.mk ((source.drop (lexer_after (calls + 1) (lexer_init source)).start).take
            (lexer_call calls (lexer_init source)).length.toNat)
    ∧ 0 < (lexer_call calls (lexer_init source)).length
    ∧ ((lexer_after (calls + 1) (lexer_init source)).current : Int)
        = (lexer_after (calls + 1) (lexer_init source)).start
          + (lexer_call calls (lexer_init source)).length := by
  obtain ⟨ht, hsrc⟩ := lexer_after_tracked source hbound calls
  have hb : (lexer_after calls (lexer_init source)).source.length < 2147483647 := by
    rw [hsrc]
    exact hbound
  have h := (Lexer.next_token_tracked _ hb ht).2.2 herror heof
  rw [hsrc] at h
  rw [lexer_after_succ]
  exact h

theorem token_position_contract_witness :
    (lexer_call 2 (lexer_init "a\n  b # c\n 1.2.3".toList)).line
        = 1 + ((("a\n  b # c\n 1.2.3".toList).take
            (lexer_after (2 + 1) (lexer_init "a\n  b # c\n 1.2.3".toList)).start).count '\n'
                : Nat) :=
  (token_position_contract "a\n  b # c\n 1.2.3".toList 2 (by decide) (by decide)
    (by decide)).1

/-! ## Hash tables: the count -/

theorem chain_find_none_iff {V : Type} (key : String) (chain : List (String × Option V)) :
    chain_find key chain = none ↔ key ∉ chain.map Prod.fst := by
  induction chain with
  | nil => simp [chain_find]
  | cons entry rest ih =>
    obtain ⟨k0, v0⟩ := entry
    by_cases hk : k0 = key
    · simp [chain_find, hk]
    · have hk' : ¬ key = k0 := fun h => hk h.symm
      simp [chain_find, hk, hk', ih]

theorem chain_replace_keys {V : Type} (key : String) (value : Option V)
    (chain chain' : List (String × Option V))
    (h : chain_replace key value chain = some chain') :
    chain'.map Prod.fst = chain.map Prod.fst := by
  induction chain generalizing chain' with
  | nil => simp [chain_replace] at h
  | cons entry rest ih =>
    obtain ⟨k0, v0⟩ := entry
    by_cases hk : k0 = key
    · simp only [chain_replace, hk, if_true, Option.some.injEq] at h
      subst h
      simp [hk]
    · simp only [chain_replace, hk, if_false, Option.map_eq_some'] at h
      obtain ⟨rest', hr, rfl⟩ := h
      simp [ih rest' hr]

theorem chain_replace_none_iff {V : Type} (key : String) (value : Option V)
    (chain : List (String × Option V)) :
    chain_replace key value chain = none ↔ key ∉ chain.map Prod.fst := by
  induction chain with
  | nil => simp [chain_replace]
  | cons entry rest ih =>
    obtain ⟨k0, v0⟩ := entry
    by_cases hk : k0 = key
    · simp [chain_replace, hk]
    · have hk' : ¬ key = k0 := fun h => hk h.symm
      simp [chain_replace, hk, hk', ih]

theorem HashTable.mem_keys_iff {V : Type} (table : HashTable V) (key : String) :
    key ∈ table.keys
      ↔ ∃ (index : Nat) (chain : List (String × Option V)),
          table.buckets[index]? = some chain ∧ key ∈ chain.map Prod.fst := by
  simp only [HashTable.keys, List.mem_flatten, List.mem_map]
  constructor
  · rintro ⟨l, ⟨chain, hmem, rfl⟩, hk⟩
    obtain ⟨index, hi⟩ := List.mem_iff_getElem?.1 hmem
    exact ⟨index, chain, hi, by simpa using hk⟩
  · rintro ⟨index, chain, hi, hk⟩
    exact ⟨chain.map Prod.fst, ⟨chain, List.mem_iff_getElem?.2 ⟨index, hi⟩, rfl⟩,
      by simpa using hk⟩

theorem HashTable.mem_keys_bucket {V : Type} (table : HashTable V) (key : String)
    (hwf : table.WF) (hplaced : table.Placed) :
    key ∈ table.keys
      ↔ key ∈ (table.buckets.getD (hash_function key table.capacity) []).map Prod.fst := by
  rw [HashTable.mem_keys_iff]
  constructor
  · rintro ⟨index, chain, hi, hk⟩
    obtain ⟨entry, he, rfl⟩ := List.mem_map.1 hk
    have := hplaced index chain hi entry he
    rw [this, List.getD_eq_getElem?_getD, hi]
    exact hk
  · intro hk
    have hlt : hash_function key table.capacity < table.buckets.length := by
      rw [hwf.1]
      exact Nat.mod_lt _ hwf.2
    refine ⟨hash_function key table.capacity, _, List.getElem?_eq_getElem hlt, ?_⟩
    rw [List.getD_eq_getElem?_getD, List.getElem?_eq_getElem hlt] at hk
    exact hk

theorem hashtable_create_placed {V : Type} (capacity : Nat) :
    (hashtable_create capacity : HashTable V).Placed := by
  intro index chain hi entry he
  simp only [hashtable_create, List.getElem?_replicate] at hi
  split at hi
  · cases hi
    cases he
  · cases hi

theorem hashtable_set_buckets {V : Type} (table : HashTable V) (key : String)
    (value : Option V) :
    ∃ chain', (hashtable_set table key value).buckets
        = table.buckets.set (hash_function key table.capacity) chain'
      ∧ (hashtable_set table key value).capacity = table.capacity
      ∧ ((key ∈ (table.buckets.getD (hash_function key table.capacity) []).map Prod.fst →
          chain'.map Prod.fst
            = (table.buckets.getD (hash_function key table.capacity) []).map Prod.fst
          ∧ (hashtable_set table key value).count = table.count)
        ∧ (key ∉ (table.buckets.getD (hash_function key table.capacity) []).map Prod.fst →
          chain'.map Prod.fst
            = key :: (table.buckets.getD (hash_function key table.capacity) []).map Prod.fst
          ∧ (hashtable_set table key value).count = table.count + 1)) := by
  obtain ⟨buckets, capacity, count⟩ := table
  simp only [hashtable_set]
  cases hrep : chain_replace key value (buckets.getD (hash_function key capacity) []) with
  | some chain' =>
    refine ⟨chain', rfl, rfl, fun _ => ⟨chain_replace_keys _ _ _ _ hrep, rfl⟩, fun hno => ?_⟩
    have := (chain_replace_none_iff key value _).2 hno
    rw [hrep] at this
    cases this
  | none =>
    refine ⟨_, rfl, rfl, fun hin => ?_, fun _ => ⟨rfl, rfl⟩⟩
    have := (chain_replace_none_iff key value _).1 hrep
    exact absurd hin this

theorem hashtable_set_keys {V : Type} (table : HashTable V) (key : String)
    (value : Option V) (hwf : table.WF) (hplaced : table.Placed) :
    (hashtable_set table key value).Placed
    ∧ (∀ other, other ∈ (hashtable_set table key value).keys
        ↔ other = key ∨ other ∈ table.keys)
    ∧ (hashtable_set table key value).count
        = table.count + (if key ∈ table.keys then 0 else 1) := by
  obtain ⟨chain', hb, hcap, hin, hout⟩ := hashtable_set_buckets table key value
  have hlt : hash_function key table.capacity < table.buckets.length := by
    rw [hwf.1]
    exact Nat.mod_lt _ hwf.2
  have hold : table.buckets[hash_function key table.capacity]?
      = some (table.buckets.getD (hash_function key table.capacity) []) := by
    rw [List.getD_eq_getElem?_getD, List.getElem?_eq_getElem hlt]
    rfl
  have hkeys' : ∀ other, other ∈ chain'.map Prod.fst ↔ other = key
      ∨ other ∈ (table.buckets.getD (hash_function key table.capacity) []).map Prod.fst := by
    intro other
    by_cases hk : key ∈ (table.buckets.getD (hash_function key table.capacity) []).map Prod.fst
    · rw [(hin hk).1]
      constructor
      · exact Or.inr
      · rintro (rfl | h)
        · exact hk
        · exact h
    · rw [(hout hk).1, List.mem_cons]
  refine ⟨?_, ?_, ?_⟩
  · intro index chain hi entry he
    rw [hcap]
    rw [hb] at hi
    by_cases hidx : hash_function key table.capacity = index
    · subst hidx
      have hi' : chain' = chain := by
        simpa [List.getElem?_set, hlt] using hi
      subst hi'
      have hmem : entry.1 ∈ chain'.map Prod.fst := List.mem_map.2 ⟨entry, he, rfl⟩
      rcases (hkeys' entry.1).1 hmem with h | h
      · rw [h]
      · obtain ⟨e2, he2, heq⟩ := List.mem_map.1 h
        have := hplaced _ _ hold e2 he2
        rw [← heq, this]
    · have hi' : table.buckets[index]? = some chain := by
        simpa [List.getElem?_set, hidx] using hi
      exact hplaced index chain hi' entry he
  · intro other
    rw [HashTable.mem_keys_iff, HashTable.mem_keys_iff, hb]
    constructor
    · rintro ⟨index, chain, hi, hk⟩
      by_cases hidx : hash_function key table.capacity = index
      · subst hidx
        have hi' : chain' = chain := by
          simpa [List.getElem?_set, hlt] using hi
        subst hi'
        rcases (hkeys' other).1 hk with h | h
        · exact Or.inl h
        · exact Or.inr ⟨_, _, hold, h⟩
      · have hi' : table.buckets[index]? = some chain := by
          simpa [List.getElem?_set, hidx] using hi
        exact Or.inr ⟨index, chain, hi', hk⟩
    · rintro (rfl | ⟨index, chain, hi, hk⟩)
      · refine ⟨hash_function other table.capacity, chain', ?_, (hkeys' other).2 (Or.inl rfl)⟩
        rw [List.getElem?_set]
        simp [hlt]
      · by_cases hidx : hash_function key table.capacity = index
        · subst hidx
          refine ⟨hash_function key table.capacity, chain', ?_,
            (hkeys' other).2 (Or.inr ?_)⟩
          · rw [List.getElem?_set]
            simp [hlt]
          · rw [hold] at hi
            cases hi
            exact hk
        · refine ⟨index, chain, ?_, hk⟩
          rw [List.getElem?_set]
          simp [hidx, hi]
  · have hiff := HashTable.mem_keys_bucket table key hwf hplaced
    by_cases hk : key ∈ table.keys
    · rw [if_pos hk, (hin (hiff.1 hk)).2]
      simp
    · rw [if_neg hk, (hout (fun h => hk (hiff.2 h))).2]

/-- C30. A table with one chain per bucket index, a positive capacity and every entry in
the bucket of its key (as `hashtable_create` builds it and `hashtable_set` keeps it).
After `hashtable_set(t, k, v)`: `hashtable_get(t, k)` returns `v`; `hashtable_get` returns
for every other key what it returned before, whatever its bucket; `count` has grown by one
if `k` was not stored and is unchanged if it was; the number of distinct keys stored has
changed in the same way, so `count` is still that number if it was before; and the table
is again of that kind. -/
theorem hashtable_set_contract {V : Type} (table : HashTable V) (key : String)
    (value : Option V) (hwf : table.WF) (hplaced : table.Placed) :
    hashtable_get (hashtable_set table key value) key = value
    ∧ (∀ other, other ≠ key →
        hashtable_get (hashtable_set table key value) other = hashtable_get table other)
    ∧ (hashtable_set table key value).count
        = table.count + (if key ∈ table.keys then 0 else 1)
    ∧ ((hashtable_set table key value).keys.toFinset.card : Int)
        = table.keys.toFinset.card + (if key ∈ table.keys then 0 else 1)
    ∧ (table.count = table.keys.toFinset.card →
        (hashtable_set table key value).count
          = (hashtable_set table key value).keys.toFinset.card)
    ∧ (hashtable_set table key value).WF
    ∧ (hashtable_set table key value).Placed := by
  obtain ⟨hp, hmem, hcount⟩ := hashtable_set_keys table key value hwf hplaced
  have hfin : (hashtable_set table key value).keys.toFinset
      = insert key table.keys.toFinset := by
    ext other
    simp only [List.mem_toFinset, Finset.mem_insert]
    exact hmem other
  have hcard : ((hashtable_set table key value).keys.toFinset.card : Int)
      = table.keys.toFinset.card + (if key ∈ table.keys then 0 else 1) := by
    rw [hfin]
    by_cases hk : key ∈ table.keys
    · rw [if_pos hk, Finset.insert_eq_of_mem (List.mem_toFinset.2 hk)]
      simp
    · rw [if_neg hk, Finset.card_insert_of_not_mem (fun h => hk (List.mem_toFinset.1 h))]
      push_cast
      rfl
  refine ⟨hashtable_get_set_same table key value hwf,
    fun other hne => hashtable_get_set_other table key other value hne,
    hcount, hcard, fun h => ?_, hashtable_set_wf table key value hwf, hp⟩
  rw [hcount, hcard, h]

theorem hashtable_set_contract_witness :
    hashtable_get (hashtable_set (hashtable_create 8 : HashTable Int) "var1" (some 100)) "var1"
      = some 100 :=
  (hashtable_set_contract (hashtable_create 8 : HashTable Int) "var1" (some 100)
    (hashtable_create_wf 8 (by decide)) (hashtable_create_placed 8)).1

/-! ## The built-in `print` -/

theorem intercalate_go_append (s : String) (rest : List String) :
    ∀ acc x : String,
      String.intercalate.go (acc ++ x) s rest = acc ++ String.intercalate.go x s rest := by
  induction rest with
  | nil => intro acc x; rfl
  | cons b bs ih =>
    intro acc x
    simp only [String.intercalate.go]
    rw [String.append_assoc, String.append_assoc, ih acc (x ++ (s ++ b)),
      ← String.append_assoc x s b]

theorem print_text_cons {F : Type} (fl : DoubleOps F) (rest : List (Option (Value F))) :
    ∀ a, print_text fl (a :: rest)
      = String.intercalate.go (value_to_string fl a) " " (rest.map (value_to_string fl))
          ++ "\n" := by
  induction rest with
  | nil => intro a; rfl
  | cons b bs ih =>
    intro a
    show value_to_string fl a ++ " " ++ print_text fl (b :: bs) = _
    rw [ih b]
    simp only [List.map_cons, String.intercalate.go]
    rw [intercalate_go_append]
    simp only [String.append_assoc]

theorem snprintf_256_short (text : String) (h : text.length ≤ 255) :
    snprintf_256 text = text := by
  unfold snprintf_256
  have : text.data.take 255 = text.data := List.take_of_length_le h
  rw [this]

/-- C29. For every list of arguments `builtin_print` returns a void value and leaves the
interpreter as it was but for the output, to which it has added the display forms of the
arguments in order, separated by one space, and one newline after them (for no argument,
the newline alone); no runtime error is raised.  The display form of an `int` is its
decimal notation, of a `bool` `true` or `false`, of a string its content, of void `void`,
and of a built-in `<builtin function NAME>` (when that text fits the buffer of
`value_to_string`, as it does for the three built-ins). -/
theorem builtin_print_contract {F : Type} (fl : DoubleOps F) (st : Interpreter F)
    (args : List (Option (Value F))) :
    builtin_print fl st args
      = .done (some .void)
          { st with
            output := st.output
              ++ (" ".intercalate (args.map (value_to_string fl)) ++ "\n") }
    ∧ ({ st with
          output := st.output
            ++ (" ".intercalate (args.map (value_to_string fl)) ++ "\n") }
        : Interpreter F).has_runtime_error = st.has_runtime_error
    ∧ " ".intercalate (([] : List (Option (Value F))).map (value_to_string fl)) ++ "\n" = "\n"
    ∧ (∀ v : Int, value_to_string fl (some (.int_val v)) = toString v)
    ∧ (∀ b : Bool, value_to_string fl (some (.bool_val b)) = if b then "true" else "false")
    ∧ (∀ s : String, value_to_string fl (some (.string_val s)) = s)
    ∧ value_to_string fl (some .void) = "void"
    ∧ (∀ function name, name.length ≤ 236 →
        value_to_string fl (some (.builtin_fn function name))
          = "<builtin function " ++ name ++ ">")
    ∧ value_to_string fl (some (.builtin_fn .builtin_print "print"))
        = "<builtin function print>" := by
  have htext : print_text fl args
      = " ".intercalate (args.map (value_to_string fl)) ++ "\n" := by
    cases args with
    | nil => rfl
    | cons a rest => exact print_text_cons fl rest a
  refine ⟨?_, rfl, rfl, fun _ => rfl, fun _ => rfl, fun _ => rfl, rfl, ?_, ?_⟩
  · simp only [builtin_print, htext]
  · intro function name hlen
    simp only [value_to_string]
    apply snprintf_256_short
    simp only [String.length_append]
    have : "<builtin function ".length = 18 := by decide
    have : ">".length = 1 := by decide
    omega
  · simp only [value_to_string]
    apply snprintf_256_short
    decide

theorem builtin_print_contract_witness :
    "print".length ≤ 236
    ∧ value_to_string exactArithmetic (some (.builtin_fn .builtin_print "print"))
        = "<builtin function " ++ "print" ++ ">" :=
  ⟨by decide,
   (builtin_print_contract exactArithmetic interpreter_init []).2.2.2.2.2.2.2.1
     .builtin_print "print" (by decide)⟩

/-! ## Error tokens in the parser -/

theorem alerted_advance (p : Parser) (h : p.Alerted)
    (herror : p.current_token.type ≠ TOKEN_ERROR) (heof : p.current_token.type ≠ TOKEN_EOF) :
    (advance p).Alerted := by
  obtain ⟨hc, hp⟩ := h
  refine ⟨hc, ?_⟩
  simp only [Parser.pending, Bool.or_eq_true] at hp ⊢
  rcases hp with hp | hp
  · exact Or.inl hp
  · right
    simp only [error_ahead, herror, heof, if_false] at hp
    cases hl : p.lexer with
    | nil => rw [hl] at hp; cases hp
    | cons t ts =>
      rw [hl] at hp
      simpa only [advance, hl, lexer_next_token] using hp

theorem ordinary_of_check (p : Parser) (t : TokenType) (hc : check p t = true)
    (ht : ordinary t = true) :
    p.current_token.type ≠ TOKEN_ERROR ∧ p.current_token.type ≠ TOKEN_EOF := by
  simp only [check, beq_iff_eq] at hc
  rw [hc]
  revert ht
  cases t <;> decide

theorem alerted_advance_check (p : Parser) (t : TokenType) (h : p.Alerted)
    (hc : check p t = true) (ht : ordinary t = true) : (advance p).Alerted :=
  alerted_advance p h (ordinary_of_check p t hc ht).1 (ordinary_of_check p t hc ht).2

theorem alerted_advance_or2 (p : Parser) (t1 t2 : TokenType) (h : p.Alerted)
    (hc : (check p t1 || check p t2) = true)
    (h1 : ordinary t1 = true) (h2 : ordinary t2 = true) : (advance p).Alerted := by
  simp only [Bool.or_eq_true] at hc
  rcases hc with hc | hc
  · exact alerted_advance_check p t1 h hc h1
  · exact alerted_advance_check p t2 h hc h2

theorem alerted_advance_or4 (p : Parser) (t1 t2 t3 t4 : TokenType) (h : p.Alerted)
    (hc : (check p t1 || check p t2 || check p t3 || check p t4) = true)
    (h1 : ordinary t1 = true) (h2 : ordinary t2 = true) (h3 : ordinary t3 = true)
    (h4 : ordinary t4 = true) : (advance p).Alerted := by
  simp only [Bool.or_eq_true] at hc
  rcases hc with ((hc | hc) | hc) | hc
  · exact alerted_advance_check p t1 h hc h1
  · exact alerted_advance_check p t2 h hc h2
  · exact alerted_advance_check p t3 h hc h3
  · exact alerted_advance_check p t4 h hc h4

theorem alerted_advance_or5 (p : Parser) (t1 t2 t3 t4 t5 : TokenType) (h : p.Alerted)
    (hc : (check p t1 || check p t2 || check p t3 || check p t4 || check p t5) = true)
    (h1 : ordinary t1 = true) (h2 : ordinary t2 = true) (h3 : ordinary t3 = true)
    (h4 : ordinary t4 = true) (h5 : ordinary t5 = true) : (advance p).Alerted := by
  simp only [Bool.or_eq_true] at hc
  rcases hc with (((hc | hc) | hc) | hc) | hc
  · exact alerted_advance_check p t1 h hc h1
  · exact alerted_advance_check p t2 h hc h2
  · exact alerted_advance_check p t3 h hc h3
  · exact alerted_advance_check p t4 h hc h4
  · exact alerted_advance_check p t5 h hc h5

theorem alerted_of_had_error (p : Parser) (hc : p.consistent) (he : p.had_error = true) :
    p.Alerted :=
  ⟨hc, by simp only [Parser.pending, he, Bool.true_or]⟩

theorem had_error_parser_error (p : Parser) (h : p.Alerted) :
    (parser_error p).had_error = true := by
  unfold parser_error
  split
  · rename_i hpanic
    exact h.1 hpanic
  · rfl

theorem alerted_parser_error (p : Parser) (h : p.Alerted) : (parser_error p).Alerted :=
  alerted_of_had_error _ (consistent_parser_error p h.1) (had_error_parser_error p h)

theorem had_error_synchronize (p : Parser) (he : p.had_error = true) :
    (synchronize p).had_error = true := by
  unfold synchronize
  rw [(synchronize_loop_flags _ _).1]
  exact he

theorem alerted_synchronize (p : Parser) (he : p.had_error = true) :
    (synchronize p).Alerted :=
  alerted_of_had_error _ (consistent_synchronize p) (had_error_synchronize p he)

theorem alerted_consume (p : Parser) (t : TokenType) (h : p.Alerted)
    (ht : ordinary t = true) : (consume p t).Alerted := by
  unfold consume
  split
  · rename_i hc
    exact alerted_advance_check p t h hc ht
  · exact alerted_synchronize _ (had_error_parser_error p h)

theorem had_error_consume (p : Parser) (t : TokenType) (he : p.had_error = true) :
    (consume p t).had_error = true := by
  unfold consume
  split
  · exact he
  · apply had_error_synchronize
    unfold parser_error
    split
    · exact he
    · rfl

theorem alerted_of_match (p : Parser) (t : TokenType) (b : Bool) (q : Parser)
    (hm : match_ p t = (b, q)) (h : p.Alerted) (ht : ordinary t = true) : q.Alerted := by
  unfold match_ at hm
  split at hm
  · rename_i hc
    cases hm
    exact alerted_advance_check p t h hc ht
  · cases hm
    exact h

theorem alerted_of_parse_type (p : Parser) (r : Option ASTNode) (q : Parser)
    (ht : parse_type p = (r, q)) (h : p.Alerted) : q.Alerted := by
  unfold parse_type at ht
  split at ht <;> cases ht
  case h_6 => exact alerted_parser_error p h
  all_goals
    rename_i htype
    exact alerted_advance p h (by rw [htype]; decide) (by rw [htype]; decide)

theorem had_error_of_parse_type (p : Parser) (q : Parser)
    (ht : parse_type p = (none, q)) (h : p.Alerted) : q.had_error = true := by
  unfold parse_type at ht
  split at ht <;> cases ht
  exact had_error_parser_error p h

theorem alerted_comma (p : Parser) (c : Prop) [Decidable c] (h : p.Alerted) :
    (if c then consume p TOKEN_COMMA else p).Alerted := by
  split
  · exact alerted_consume p _ h rfl
  · exact h

theorem literal_node_of_check (p : Parser)
    (hc : (check p TOKEN_TRUE || check p TOKEN_FALSE || check p TOKEN_INT_LITERAL ||
        check p TOKEN_FLOAT_LITERAL || check p TOKEN_STRING_LITERAL) = true) :
    make_literal_node (advance p).previous_token ≠ none := by
  simp only [Bool.or_eq_true, check, beq_iff_eq] at hc
  have hprev : (advance p).previous_token = p.current_token := rfl
  rw [hprev]
  unfold make_literal_node
  rcases hc with (((hc | hc) | hc) | hc) | hc <;> rw [hc] <;> simp

theorem had_error_of_match (p : Parser) (t : TokenType) (b : Bool) (q : Parser)
    (hm : match_ p t = (b, q)) (he : p.had_error = true) : q.had_error = true := by
  unfold match_ at hm
  split at hm <;> cases hm <;> exact he

theorem alerted_parse_parameters_loop (fuel : Nat) :
    CollectsAlerted (parse_parameters_loop fuel) := by
  induction fuel with
  | zero =>
    intro acc p r q h
    rw [parse_parameters_loop] at h
    cases h
  | succ n ih =>
    intro acc p r q h hp
    rw [parse_parameters_loop] at h
    try dsimp only at h
    repeat' split at h
    all_goals try (simp only [Outcome.done.injEq] at h; obtain ⟨rfl, rfl⟩ := h)
    all_goals
      repeat' first
        | assumption
        | refine alerted_consume _ _ ?_ (by rfl)
        | refine alerted_comma _ _ ?_
        | refine alerted_of_parse_type _ _ _ (by assumption) ?_
        | refine ih _ _ _ _ (by assumption) ?_

theorem alerted_parse_parameters (fuel : Nat) (p : Parser) (r : List ASTNode × Nat)
    (q : Parser) (h : parse_parameters fuel p = .done r q) (hp : p.Alerted) : q.Alerted :=
  alerted_parse_parameters_loop fuel [] p r q h hp

theorem alerted_step_parse_variable_declaration (n : Nat) (ih : AlertedAt n) :
    ParsesAlerted (parse_variable_declaration (n + 1)) := by
  intro p r q h hp
  rw [parse_variable_declaration] at h
  try dsimp only at h
  repeat' split at h
  all_goals try (simp at h; done)
  all_goals try (simp only [Outcome.done.injEq] at h; obtain ⟨rfl, rfl⟩ := h)
  all_goals refine ⟨?_, fun hn => ?_⟩
  all_goals try (cases hn; done)
  all_goals try subst hn
  all_goals
    repeat' first
      | assumption
      | refine alerted_consume _ _ ?_ (by rfl)
      | refine alerted_comma _ _ ?_
      | refine alerted_parser_error _ ?_
      | refine alerted_synchronize _ ?_
      | refine alerted_of_match _ _ _ _ (by assumption) ?_ (by rfl)
      | refine alerted_of_parse_type _ _ _ (by assumption) ?_
      | refine alerted_advance_check _ _ ?_ (by assumption) (by rfl)
      | refine alerted_advance_or2 _ _ _ ?_ (by assumption) (by rfl) (by rfl)
      | refine alerted_advance_or4 _ _ _ _ _ ?_ (by assumption) (by rfl) (by rfl) (by rfl) (by rfl)
      | refine alerted_advance_or5 _ _ _ _ _ _ ?_ (by assumption) (by rfl) (by rfl) (by rfl) (by rfl)
          (by rfl)
      | refine had_error_parser_error _ ?_
      | refine had_error_consume _ _ ?_
      | refine had_error_of_parse_type _ _ (by assumption) ?_
      | refine had_error_of_match _ _ _ _ (by assumption) ?_
      | refine (ih.expression _ _ _ (by assumption) ?_).1
      | refine (ih.expression _ _ _ (by assumption) ?_).2 rfl
      | refine (ih.expression _ _ _ (by assumption) ?_).2 (by assumption)

theorem alerted_step_parse_function_declaration (n : Nat) (ih : AlertedAt n) :
    ParsesAlerted (parse_function_declaration (n + 1)) := by
  intro p r q h hp
  rw [parse_function_declaration] at h
  try dsimp only at h
  repeat' split at h
  all_goals try (simp at h; done)
  all_goals try (simp only [Outcome.done.injEq] at h; obtain ⟨rfl, rfl⟩ := h)
  all_goals refine ⟨?_, fun hn => ?_⟩
  all_goals try (cases hn; done)
  all_goals try subst hn
  all_goals
    repeat' first
      | assumption
      | refine alerted_consume _ _ ?_ (by rfl)
      | refine alerted_comma _ _ ?_
      | refine alerted_parser_error _ ?_
      | refine alerted_synchronize _ ?_
      | refine alerted_of_match _ _ _ _ (by assumption) ?_ (by rfl)
      | refine alerted_of_parse_type _ _ _ (by assumption) ?_
      | refine alerted_advance_check _ _ ?_ (by assumption) (by rfl)
      | refine alerted_advance_or2 _ _ _ ?_ (by assumption) (by rfl) (by rfl)
      | refine alerted_advance_or4 _ _ _ _ _ ?_ (by assumption) (by rfl) (by rfl) (by rfl) (by rfl)
      | refine alerted_advance_or5 _ _ _ _ _ _ ?_ (by assumption) (by rfl) (by rfl) (by rfl) (by rfl)
          (by rfl)
      | refine had_error_parser_error _ ?_
      | refine had_error_consume _ _ ?_
      | refine had_error_of_parse_type _ _ (by assumption) ?_
      | refine had_error_of_match _ _ _ _ (by assumption) ?_
      | refine alerted_parse_parameters _ _ _ _ (by assumption) ?_
      | refine (ih.block _ _ _ (by assumption) ?_).1
      | refine (ih.block _ _ _ (by assumption) ?_).2 rfl
      | refine (ih.block _ _ _ (by assumption) ?_).2 (by assumption)

theorem alerted_step_parse_block_loop (n : Nat) (ih : AlertedAt n) :
    CollectsAlerted (parse_block_loop (n + 1)) := by
  intro acc p r q h hp
  rw [parse_block_loop] at h
  try dsimp only at h
  repeat' split at h
  all_goals try (simp at h; done)
  all_goals try (simp only [Outcome.done.injEq] at h; obtain ⟨rfl, rfl⟩ := h)
  all_goals
    repeat' first
      | assumption
      | refine alerted_consume _ _ ?_ (by rfl)
      | refine alerted_comma _ _ ?_
      | refine alerted_parser_error _ ?_
      | refine alerted_synchronize _ ?_
      | refine alerted_of_match _ _ _ _ (by assumption) ?_ (by rfl)
      | refine alerted_of_parse_type _ _ _ (by assumption) ?_
      | refine alerted_advance_check _ _ ?_ (by assumption) (by rfl)
      | refine alerted_advance_or2 _ _ _ ?_ (by assumption) (by rfl) (by rfl)
      | refine alerted_advance_or4 _ _ _ _ _ ?_ (by assumption) (by rfl) (by rfl) (by rfl) (by rfl)
      | refine alerted_advance_or5 _ _ _ _ _ _ ?_ (by assumption) (by rfl) (by rfl) (by rfl) (by rfl)
          (by rfl)
      | refine had_error_parser_error _ ?_
      | refine had_error_consume _ _ ?_
      | refine had_error_of_parse_type _ _ (by assumption) ?_
      | refine had_error_of_match _ _ _ _ (by assumption) ?_
      | refine (ih.declaration _ _ _ (by assumption) ?_).1
      | refine (ih.declaration _ _ _ (by assumption) ?_).2 rfl
      | refine (ih.declaration _ _ _ (by assumption) ?_).2 (by assumption)
      | refine ih.block_loop _ _ _ _ (by assumption) ?_

theorem alerted_step_parse_block (n : Nat) (ih : AlertedAt n) :
    ParsesAlerted (parse_block (n + 1)) := by
  intro p r q h hp
  rw [parse_block] at h
  try dsimp only at h
  repeat' split at h
  all_goals try (simp at h; done)
  all_goals try (simp only [Outcome.done.injEq] at h; obtain ⟨rfl, rfl⟩ := h)
  all_goals refine ⟨?_, fun hn => ?_⟩
  all_goals try (cases hn; done)
  all_goals try subst hn
  all_goals
    repeat' first
      | assumption
      | refine alerted_consume _ _ ?_ (by rfl)
      | refine alerted_comma _ _ ?_
      | refine alerted_parser_error _ ?_
      | refine alerted_synchronize _ ?_
      | refine alerted_of_match _ _ _ _ (by assumption) ?_ (by rfl)
      | refine alerted_of_parse_type _ _ _ (by assumption) ?_
      | refine alerted_advance_check _ _ ?_ (by assumption) (by rfl)
      | refine alerted_advance_or2 _ _ _ ?_ (by assumption) (by rfl) (by rfl)
      | refine alerted_advance_or4 _ _ _ _ _ ?_ (by assumption) (by rfl) (by rfl) (by rfl) (by rfl)
      | refine alerted_advance_or5 _ _ _ _ _ _ ?_ (by assumption) (by rfl) (by rfl) (by rfl) (by rfl)
          (by rfl)
      | refine had_error_parser_error _ ?_
      | refine had_error_consume _ _ ?_
      | refine had_error_of_parse_type _ _ (by assumption) ?_
      | refine had_error_of_match _ _ _ _ (by assumption) ?_
      | refine ih.block_loop _ _ _ _ (by assumption) ?_

theorem alerted_step_parse_if_statement (n : Nat) (ih : AlertedAt n) :
    ParsesAlerted (parse_if_statement (n + 1)) := by
  intro p r q h hp
  rw [parse_if_statement] at h
  try dsimp only at h
  repeat' split at h
  all_goals try (simp at h; done)
  all_goals try (simp only [Outcome.done.injEq] at h; obtain ⟨rfl, rfl⟩ := h)
  all_goals refine ⟨?_, fun hn => ?_⟩
  all_goals try (cases hn; done)
  all_goals try subst hn
  all_goals
    repeat' first
      | assumption
      | refine alerted_consume _ _ ?_ (by rfl)
      | refine alerted_comma _ _ ?_
      | refine alerted_parser_error _ ?_
      | refine alerted_synchronize _ ?_
      | refine alerted_of_match _ _ _ _ (by assumption) ?_ (by rfl)
      | refine alerted_of_parse_type _ _ _ (by assumption) ?_
      | refine alerted_advance_check _ _ ?_ (by assumption) (by rfl)
      | refine alerted_advance_or2 _ _ _ ?_ (by assumption) (by rfl) (by rfl)
      | refine alerted_advance_or4 _ _ _ _ _ ?_ (by assumption) (by rfl) (by rfl) (by rfl) (by rfl)
      | refine alerted_advance_or5 _ _ _ _ _ _ ?_ (by assumption) (by rfl) (by rfl) (by rfl) (by rfl)
          (by rfl)
      | refine had_error_parser_error _ ?_
      | refine had_error_consume _ _ ?_
      | refine had_error_of_parse_type _ _ (by assumption) ?_
      | refine had_error_of_match _ _ _ _ (by assumption) ?_
      | refine (ih.expression _ _ _ (by assumption) ?_).1
      | refine (ih.expression _ _ _ (by assumption) ?_).2 rfl
      | refine (ih.expression _ _ _ (by assumption) ?_).2 (by assumption)
      | refine (ih.block _ _ _ (by assumption) ?_).1
      | refine (ih.block _ _ _ (by assumption) ?_).2 rfl
      | refine (ih.block _ _ _ (by assumption) ?_).2 (by assumption)

theorem alerted_step_parse_while_statement (n : Nat) (ih : AlertedAt n) :
    ParsesAlerted (parse_while_statement (n + 1)) := by
  intro p r q h hp
  rw [parse_while_statement] at h
  try dsimp only at h
  repeat' split at h
  all_goals try (simp at h; done)
  all_goals try (simp only [Outcome.done.injEq] at h; obtain ⟨rfl, rfl⟩ := h)
  all_goals refine ⟨?_, fun hn => ?_⟩
  all_goals try (cases hn; done)
  all_goals try subst hn
  all_goals
    repeat' first
      | assumption
      | refine alerted_consume _ _ ?_ (by rfl)
      | refine alerted_comma _ _ ?_
      | refine alerted_parser_error _ ?_
      | refine alerted_synchronize _ ?_
      | refine alerted_of_match _ _ _ _ (by assumption) ?_ (by rfl)
      | refine alerted_of_parse_type _ _ _ (by assumption) ?_
      | refine alerted_advance_check _ _ ?_ (by assumption) (by rfl)
      | refine alerted_advance_or2 _ _ _ ?_ (by assumption) (by rfl) (by rfl)
      | refine alerted_advance_or4 _ _ _ _ _ ?_ (by assumption) (by rfl) (by rfl) (by rfl) (by rfl)
      | refine alerted_advance_or5 _ _ _ _ _ _ ?_ (by assumption) (by rfl) (by rfl) (by rfl) (by rfl)
          (by rfl)
      | refine had_error_parser_error _ ?_
      | refine had_error_consume _ _ ?_
      | refine had_error_of_parse_type _ _ (by assumption) ?_
      | refine had_error_of_match _ _ _ _ (by assumption) ?_
      | refine (ih.expression _ _ _ (by assumption) ?_).1
      | refine (ih.expression _ _ _ (by assumption) ?_).2 rfl
      | refine (ih.expression _ _ _ (by assumption) ?_).2 (by assumption)
      | refine (ih.block _ _ _ (by assumption) ?_).1
      | refine (ih.block _ _ _ (by assumption) ?_).2 rfl
      | refine (ih.block _ _ _ (by assumption) ?_).2 (by assumption)

theorem alerted_step_parse_return_statement (n : Nat) (ih : AlertedAt n) :
    ParsesAlerted (parse_return_statement (n + 1)) := by
  intro p r q h hp
  rw [parse_return_statement] at h
  try dsimp only at h
  repeat' split at h
  all_goals try (simp at h; done)
  all_goals try (simp only [Outcome.done.injEq] at h; obtain ⟨rfl, rfl⟩ := h)
  all_goals refine ⟨?_, fun hn => ?_⟩
  all_goals try (cases hn; done)
  all_goals try subst hn
  all_goals
    repeat' first
      | assumption
      | refine alerted_consume _ _ ?_ (by rfl)
      | refine alerted_comma _ _ ?_
      | refine alerted_parser_error _ ?_
      | refine alerted_synchronize _ ?_
      | refine alerted_of_match _ _ _ _ (by assumption) ?_ (by rfl)
      | refine alerted_of_parse_type _ _ _ (by assumption) ?_
      | refine alerted_advance_check _ _ ?_ (by assumption) (by rfl)
      | refine alerted_advance_or2 _ _ _ ?_ (by assumption) (by rfl) (by rfl)
      | refine alerted_advance_or4 _ _ _ _ _ ?_ (by assumption) (by rfl) (by rfl) (by rfl) (by rfl)
      | refine alerted_advance_or5 _ _ _ _ _ _ ?_ (by assumption) (by rfl) (by rfl) (by rfl) (by rfl)
          (by rfl)
      | refine had_error_parser_error _ ?_
      | refine had_error_consume _ _ ?_
      | refine had_error_of_parse_type _ _ (by assumption) ?_
      | refine had_error_of_match _ _ _ _ (by assumption) ?_
      | refine (ih.expression _ _ _ (by assumption) ?_).1
      | refine (ih.expression _ _ _ (by assumption) ?_).2 rfl
      | refine (ih.expression _ _ _ (by assumption) ?_).2 (by assumption)

theorem alerted_step_parse_expression_statement (n : Nat) (ih : AlertedAt n) :
    ParsesAlerted (parse_expression_statement (n + 1)) := by
  intro p r q h hp
  rw [parse_expression_statement] at h
  try dsimp only at h
  repeat' split at h
  all_goals try (simp at h; done)
  all_goals try (simp only [Outcome.done.injEq] at h; obtain ⟨rfl, rfl⟩ := h)
  all_goals refine ⟨?_, fun hn => ?_⟩
  all_goals try (cases hn; done)
  all_goals try subst hn
  all_goals
    repeat' first
      | assumption
      | refine alerted_consume _ _ ?_ (by rfl)
      | refine alerted_comma _ _ ?_
      | refine alerted_parser_error _ ?_
      | refine alerted_synchronize _ ?_
      | refine alerted_of_match _ _ _ _ (by assumption) ?_ (by rfl)
      | refine alerted_of_parse_type _ _ _ (by assumption) ?_
      | refine alerted_advance_check _ _ ?_ (by assumption) (by rfl)
      | refine alerted_advance_or2 _ _ _ ?_ (by assumption) (by rfl) (by rfl)
      | refine alerted_advance_or4 _ _ _ _ _ ?_ (by assumption) (by rfl) (by rfl) (by rfl) (by rfl)
      | refine alerted_advance_or5 _ _ _ _ _ _ ?_ (by assumption) (by rfl) (by rfl) (by rfl) (by rfl)
          (by rfl)
      | refine had_error_parser_error _ ?_
      | refine had_error_consume _ _ ?_
      | refine had_error_of_parse_type _ _ (by assumption) ?_
      | refine had_error_of_match _ _ _ _ (by assumption) ?_
      | refine (ih.expression _ _ _ (by assumption) ?_).1
      | refine (ih.expression _ _ _ (by assumption) ?_).2 rfl
      | refine (ih.expression _ _ _ (by assumption) ?_).2 (by assumption)

theorem alerted_step_parse_statement (n : Nat) (ih : AlertedAt n) :
    ParsesAlerted (parse_statement (n + 1)) := by
  intro p r q h hp
  rw [parse_statement] at h
  try dsimp only at h
  repeat' split at h
  all_goals try (simp at h; done)
  all_goals try (simp only [Outcome.done.injEq] at h; obtain ⟨rfl, rfl⟩ := h)
  all_goals refine ⟨?_, fun hn => ?_⟩
  all_goals try (cases hn; done)
  all_goals try subst hn
  all_goals
    repeat' first
      | assumption
      | refine alerted_consume _ _ ?_ (by rfl)
      | refine alerted_comma _ _ ?_
      | refine alerted_parser_error _ ?_
      | refine alerted_synchronize _ ?_
      | refine alerted_of_match _ _ _ _ (by assumption) ?_ (by rfl)
      | refine alerted_of_parse_type _ _ _ (by assumption) ?_
      | refine alerted_advance_check _ _ ?_ (by assumption) (by rfl)
      | refine alerted_advance_or2 _ _ _ ?_ (by assumption) (by rfl) (by rfl)
      | refine alerted_advance_or4 _ _ _ _ _ ?_ (by assumption) (by rfl) (by rfl) (by rfl) (by rfl)
      | refine alerted_advance_or5 _ _ _ _ _ _ ?_ (by assumption) (by rfl) (by rfl) (by rfl) (by rfl)
          (by rfl)
      | refine had_error_parser_error _ ?_
      | refine had_error_consume _ _ ?_
      | refine had_error_of_parse_type _ _ (by assumption) ?_
      | refine had_error_of_match _ _ _ _ (by assumption) ?_
      | refine (ih.if_statement _ _ _ (by assumption) ?_).1
      | refine (ih.if_statement _ _ _ (by assumption) ?_).2 rfl
      | refine (ih.if_statement _ _ _ (by assumption) ?_).2 (by assumption)
      | refine (ih.while_statement _ _ _ (by assumption) ?_).1
      | refine (ih.while_statement _ _ _ (by assumption) ?_).2 rfl
      | refine (ih.while_statement _ _ _ (by assumption) ?_).2 (by assumption)
      | refine (ih.return_statement _ _ _ (by assumption) ?_).1
      | refine (ih.return_statement _ _ _ (by assumption) ?_).2 rfl
      | refine (ih.return_statement _ _ _ (by assumption) ?_).2 (by assumption)
      | refine (ih.block _ _ _ (by assumption) ?_).1
      | refine (ih.block _ _ _ (by assumption) ?_).2 rfl
      | refine (ih.block _ _ _ (by assumption) ?_).2 (by assumption)
      | refine (ih.expression_statement _ _ _ (by assumption) ?_).1
      | refine (ih.expression_statement _ _ _ (by assumption) ?_).2 rfl
      | refine (ih.expression_statement _ _ _ (by assumption) ?_).2 (by assumption)

theorem alerted_step_parse_declaration (n : Nat) (ih : AlertedAt n) :
    ParsesAlerted (parse_declaration (n + 1)) := by
  intro p r q h hp
  rw [parse_declaration] at h
  try dsimp only at h
  repeat' split at h
  all_goals try (simp at h; done)
  all_goals try (simp only [Outcome.done.injEq] at h; obtain ⟨rfl, rfl⟩ := h)
  all_goals refine ⟨?_, fun hn => ?_⟩
  all_goals try (cases hn; done)
  all_goals try subst hn
  all_goals
    repeat' first
      | assumption
      | refine alerted_consume _ _ ?_ (by rfl)
      | refine alerted_comma _ _ ?_
      | refine alerted_parser_error _ ?_
      | refine alerted_synchronize _ ?_
      | refine alerted_of_match _ _ _ _ (by assumption) ?_ (by rfl)
      | refine alerted_of_parse_type _ _ _ (by assumption) ?_
      | refine alerted_advance_check _ _ ?_ (by assumption) (by rfl)
      | refine alerted_advance_or2 _ _ _ ?_ (by assumption) (by rfl) (by rfl)
      | refine alerted_advance_or4 _ _ _ _ _ ?_ (by assumption) (by rfl) (by rfl) (by rfl) (by rfl)
      | refine alerted_advance_or5 _ _ _ _ _ _ ?_ (by assumption) (by rfl) (by rfl) (by rfl) (by rfl)
          (by rfl)
      | refine had_error_parser_error _ ?_
      | refine had_error_consume _ _ ?_
      | refine had_error_of_parse_type _ _ (by assumption) ?_
      | refine had_error_of_match _ _ _ _ (by assumption) ?_
      | refine (ih.variable_declaration _ _ _ (by assumption) ?_).1
      | refine (ih.variable_declaration _ _ _ (by assumption) ?_).2 rfl
      | refine (ih.variable_declaration _ _ _ (by assumption) ?_).2 (by assumption)
      | refine (ih.function_declaration _ _ _ (by assumption) ?_).1
      | refine (ih.function_declaration _ _ _ (by assumption) ?_).2 rfl
      | refine (ih.function_declaration _ _ _ (by assumption) ?_).2 (by assumption)
      | refine (ih.statement _ _ _ (by assumption) ?_).1
      | refine (ih.statement _ _ _ (by assumption) ?_).2 rfl
      | refine (ih.statement _ _ _ (by assumption) ?_).2 (by assumption)

theorem alerted_step_parse_argument_list_loop (n : Nat) (ih : AlertedAt n) :
    CollectsAlerted (parse_argument_list_loop (n + 1)) := by
  intro acc p r q h hp
  rw [parse_argument_list_loop] at h
  try dsimp only at h
  repeat' split at h
  all_goals try (simp at h; done)
  all_goals try (simp only [Outcome.done.injEq] at h; obtain ⟨rfl, rfl⟩ := h)
  all_goals
    repeat' first
      | assumption
      | refine alerted_consume _ _ ?_ (by rfl)
      | refine alerted_comma _ _ ?_
      | refine alerted_parser_error _ ?_
      | refine alerted_synchronize _ ?_
      | refine alerted_of_match _ _ _ _ (by assumption) ?_ (by rfl)
      | refine alerted_of_parse_type _ _ _ (by assumption) ?_
      | refine alerted_advance_check _ _ ?_ (by assumption) (by rfl)
      | refine alerted_advance_or2 _ _ _ ?_ (by assumption) (by rfl) (by rfl)
      | refine alerted_advance_or4 _ _ _ _ _ ?_ (by assumption) (by rfl) (by rfl) (by rfl) (by rfl)
      | refine alerted_advance_or5 _ _ _ _ _ _ ?_ (by assumption) (by rfl) (by rfl) (by rfl) (by rfl)
          (by rfl)
      | refine had_error_parser_error _ ?_
      | refine had_error_consume _ _ ?_
      | refine had_error_of_parse_type _ _ (by assumption) ?_
      | refine had_error_of_match _ _ _ _ (by assumption) ?_
      | refine (ih.expression _ _ _ (by assumption) ?_).1
      | refine (ih.expression _ _ _ (by assumption) ?_).2 rfl
      | refine (ih.expression _ _ _ (by assumption) ?_).2 (by assumption)
      | refine ih.argument_list_loop _ _ _ _ (by assumption) ?_

theorem alerted_step_parse_primary (n : Nat) (ih : AlertedAt n) :
    ParsesAlerted (parse_primary (n + 1)) := by
  intro p r q h hp
  rw [parse_primary] at h
  try dsimp only at h
  repeat' split at h
  all_goals try (simp at h; done)
  all_goals try (simp only [Outcome.done.injEq] at h; obtain ⟨rfl, rfl⟩ := h)
  all_goals refine ⟨?_, fun hn => ?_⟩
  all_goals try (exfalso; exact literal_node_of_check _ (by assumption) hn)
  all_goals try (cases hn; done)
  all_goals try subst hn
  all_goals
    repeat' first
      | assumption
      | refine alerted_consume _ _ ?_ (by rfl)
      | refine alerted_comma _ _ ?_
      | refine alerted_parser_error _ ?_
      | refine alerted_synchronize _ ?_
      | refine alerted_of_match _ _ _ _ (by assumption) ?_ (by rfl)
      | refine alerted_of_parse_type _ _ _ (by assumption) ?_
      | refine alerted_advance_check _ _ ?_ (by assumption) (by rfl)
      | refine alerted_advance_or2 _ _ _ ?_ (by assumption) (by rfl) (by rfl)
      | refine alerted_advance_or4 _ _ _ _ _ ?_ (by assumption) (by rfl) (by rfl) (by rfl) (by rfl)
      | refine alerted_advance_or5 _ _ _ _ _ _ ?_ (by assumption) (by rfl) (by rfl) (by rfl) (by rfl)
          (by rfl)
      | refine had_error_parser_error _ ?_
      | refine had_error_consume _ _ ?_
      | refine had_error_of_parse_type _ _ (by assumption) ?_
      | refine had_error_of_match _ _ _ _ (by assumption) ?_
      | refine ih.argument_list_loop _ _ _ _ (by assumption) ?_
      | refine (ih.expression _ _ _ (by assumption) ?_).1
      | refine (ih.expression _ _ _ (by assumption) ?_).2 rfl
      | refine (ih.expression _ _ _ (by assumption) ?_).2 (by assumption)

theorem alerted_step_parse_unary (n : Nat) (ih : AlertedAt n) :
    ParsesAlerted (parse_unary (n + 1)) := by
  intro p r q h hp
  rw [parse_unary] at h
  try dsimp only at h
  repeat' split at h
  all_goals try (simp at h; done)
  all_goals try (simp only [Outcome.done.injEq] at h; obtain ⟨rfl, rfl⟩ := h)
  all_goals refine ⟨?_, fun hn => ?_⟩
  all_goals try (cases hn; done)
  all_goals try subst hn
  all_goals
    repeat' first
      | assumption
      | refine alerted_consume _ _ ?_ (by rfl)
      | refine alerted_comma _ _ ?_
      | refine alerted_parser_error _ ?_
      | refine alerted_synchronize _ ?_
      | refine alerted_of_match _ _ _ _ (by assumption) ?_ (by rfl)
      | refine alerted_of_parse_type _ _ _ (by assumption) ?_
      | refine alerted_advance_check _ _ ?_ (by assumption) (by rfl)
      | refine alerted_advance_or2 _ _ _ ?_ (by assumption) (by rfl) (by rfl)
      | refine alerted_advance_or4 _ _ _ _ _ ?_ (by assumption) (by rfl) (by rfl) (by rfl) (by rfl)
      | refine alerted_advance_or5 _ _ _ _ _ _ ?_ (by assumption) (by rfl) (by rfl) (by rfl) (by rfl)
          (by rfl)
      | refine had_error_parser_error _ ?_
      | refine had_error_consume _ _ ?_
      | refine had_error_of_parse_type _ _ (by assumption) ?_
      | refine had_error_of_match _ _ _ _ (by assumption) ?_
      | refine (ih.unary _ _ _ (by assumption) ?_).1
      | refine (ih.unary _ _ _ (by assumption) ?_).2 rfl
      | refine (ih.unary _ _ _ (by assumption) ?_).2 (by assumption)
      | refine (ih.primary _ _ _ (by assumption) ?_).1
      | refine (ih.primary _ _ _ (by assumption) ?_).2 rfl
      | refine (ih.primary _ _ _ (by assumption) ?_).2 (by assumption)

theorem alerted_step_parse_factor_loop (n : Nat) (ih : AlertedAt n) :
    LoopsAlerted (parse_factor_loop (n + 1)) := by
  intro acc p r q h hp
  rw [parse_factor_loop] at h
  try dsimp only at h
  repeat' split at h
  all_goals try (simp at h; done)
  all_goals try (simp only [Outcome.done.injEq] at h; obtain ⟨rfl, rfl⟩ := h)
  all_goals refine ⟨?_, fun hacc hn => ?_⟩
  all_goals try (exact hacc hn)
  all_goals try subst hn
  all_goals
    repeat' first
      | assumption
      | refine alerted_consume _ _ ?_ (by rfl)
      | refine alerted_comma _ _ ?_
      | refine alerted_parser_error _ ?_
      | refine alerted_synchronize _ ?_
      | refine alerted_of_match _ _ _ _ (by assumption) ?_ (by rfl)
      | refine alerted_of_parse_type _ _ _ (by assumption) ?_
      | refine alerted_advance_check _ _ ?_ (by assumption) (by rfl)
      | refine alerted_advance_or2 _ _ _ ?_ (by assumption) (by rfl) (by rfl)
      | refine alerted_advance_or4 _ _ _ _ _ ?_ (by assumption) (by rfl) (by rfl) (by rfl) (by rfl)
      | refine alerted_advance_or5 _ _ _ _ _ _ ?_ (by assumption) (by rfl) (by rfl) (by rfl) (by rfl)
          (by rfl)
      | refine had_error_parser_error _ ?_
      | refine had_error_consume _ _ ?_
      | refine had_error_of_parse_type _ _ (by assumption) ?_
      | refine had_error_of_match _ _ _ _ (by assumption) ?_
      | refine (ih.unary _ _ _ (by assumption) ?_).1
      | refine (ih.unary _ _ _ (by assumption) ?_).2 rfl
      | refine (ih.unary _ _ _ (by assumption) ?_).2 (by assumption)
      | refine (ih.factor_loop _ _ _ _ (by assumption) ?_).1
      | refine (ih.factor_loop (some _) _ _ _ (by assumption) ?_).2 (fun e => Option.noConfusion e) rfl
      | refine (ih.factor_loop _ _ _ _ (by assumption) ?_).2 (fun he => ?_) rfl

theorem alerted_step_parse_factor (n : Nat) (ih : AlertedAt n) :
    ParsesAlerted (parse_factor (n + 1)) := by
  intro p r q h hp
  rw [parse_factor] at h
  try dsimp only at h
  repeat' split at h
  all_goals try (simp at h; done)
  all_goals try (simp only [Outcome.done.injEq] at h; obtain ⟨rfl, rfl⟩ := h)
  all_goals refine ⟨?_, fun hn => ?_⟩
  all_goals try (cases hn; done)
  all_goals try subst hn
  all_goals
    repeat' first
      | assumption
      | refine alerted_consume _ _ ?_ (by rfl)
      | refine alerted_comma _ _ ?_
      | refine alerted_parser_error _ ?_
      | refine alerted_synchronize _ ?_
      | refine alerted_of_match _ _ _ _ (by assumption) ?_ (by rfl)
      | refine alerted_of_parse_type _ _ _ (by assumption) ?_
      | refine alerted_advance_check _ _ ?_ (by assumption) (by rfl)
      | refine alerted_advance_or2 _ _ _ ?_ (by assumption) (by rfl) (by rfl)
      | refine alerted_advance_or4 _ _ _ _ _ ?_ (by assumption) (by rfl) (by rfl) (by rfl) (by rfl)
      | refine alerted_advance_or5 _ _ _ _ _ _ ?_ (by assumption) (by rfl) (by rfl) (by rfl) (by rfl)
          (by rfl)
      | refine had_error_parser_error _ ?_
      | refine had_error_consume _ _ ?_
      | refine had_error_of_parse_type _ _ (by assumption) ?_
      | refine had_error_of_match _ _ _ _ (by assumption) ?_
      | refine (ih.unary _ _ _ (by assumption) ?_).1
      | refine (ih.unary _ _ _ (by assumption) ?_).2 rfl
      | refine (ih.unary _ _ _ (by assumption) ?_).2 (by assumption)
      | refine (ih.factor_loop _ _ _ _ (by assumption) ?_).1
      | refine (ih.factor_loop (some _) _ _ _ (by assumption) ?_).2 (fun e => Option.noConfusion e) rfl
      | refine (ih.factor_loop _ _ _ _ (by assumption) ?_).2 (fun he => ?_) rfl

theorem alerted_step_parse_term_loop (n : Nat) (ih : AlertedAt n) :
    LoopsAlerted (parse_term_loop (n + 1)) := by
  intro acc p r q h hp
  rw [parse_term_loop] at h
  try dsimp only at h
  repeat' split at h
  all_goals try (simp at h; done)
  all_goals try (simp only [Outcome.done.injEq] at h; obtain ⟨rfl, rfl⟩ := h)
  all_goals refine ⟨?_, fun hacc hn => ?_⟩
  all_goals try (exact hacc hn)
  all_goals try subst hn
  all_goals
    repeat' first
      | assumption
      | refine alerted_consume _ _ ?_ (by rfl)
      | refine alerted_comma _ _ ?_
      | refine alerted_parser_error _ ?_
      | refine alerted_synchronize _ ?_
      | refine alerted_of_match _ _ _ _ (by assumption) ?_ (by rfl)
      | refine alerted_of_parse_type _ _ _ (by assumption) ?_
      | refine alerted_advance_check _ _ ?_ (by assumption) (by rfl)
      | refine alerted_advance_or2 _ _ _ ?_ (by assumption) (by rfl) (by rfl)
      | refine alerted_advance_or4 _ _ _ _ _ ?_ (by assumption) (by rfl) (by rfl) (by rfl) (by rfl)
      | refine alerted_advance_or5 _ _ _ _ _ _ ?_ (by assumption) (by rfl) (by rfl) (by rfl) (by rfl)
          (by rfl)
      | refine had_error_parser_error _ ?_
      | refine had_error_consume _ _ ?_
      | refine had_error_of_parse_type _ _ (by assumption) ?_
      | refine had_error_of_match _ _ _ _ (by assumption) ?_
      | refine (ih.factor _ _ _ (by assumption) ?_).1
      | refine (ih.factor _ _ _ (by assumption) ?_).2 rfl
      | refine (ih.factor _ _ _ (by assumption) ?_).2 (by assumption)
      | refine (ih.term_loop _ _ _ _ (by assumption) ?_).1
      | refine (ih.term_loop (some _) _ _ _ (by assumption) ?_).2 (fun e => Option.noConfusion e) rfl
      | refine (ih.term_loop _ _ _ _ (by assumption) ?_).2 (fun he => ?_) rfl

theorem alerted_step_parse_term (n : Nat) (ih : AlertedAt n) :
    ParsesAlerted (parse_term (n + 1)) := by
  intro p r q h hp
  rw [parse_term] at h
  try dsimp only at h
  repeat' split at h
  all_goals try (simp at h; done)
  all_goals try (simp only [Outcome.done.injEq] at h; obtain ⟨rfl, rfl⟩ := h)
  all_goals refine ⟨?_, fun hn => ?_⟩
  all_goals try (cases hn; done)
  all_goals try subst hn
  all_goals
    repeat' first
      | assumption
      | refine alerted_consume _ _ ?_ (by rfl)
      | refine alerted_comma _ _ ?_
      | refine alerted_parser_error _ ?_
      | refine alerted_synchronize _ ?_
      | refine alerted_of_match _ _ _ _ (by assumption) ?_ (by rfl)
      | refine alerted_of_parse_type _ _ _ (by assumption) ?_
      | refine alerted_advance_check _ _ ?_ (by assumption) (by rfl)
      | refine alerted_advance_or2 _ _ _ ?_ (by assumption) (by rfl) (by rfl)
      | refine alerted_advance_or4 _ _ _ _ _ ?_ (by assumption) (by rfl) (by rfl) (by rfl) (by rfl)
      | refine alerted_advance_or5 _ _ _ _ _ _ ?_ (by assumption) (by rfl) (by rfl) (by rfl) (by rfl)
          (by rfl)
      | refine had_error_parser_error _ ?_
      | refine had_error_consume _ _ ?_
      | refine had_error_of_parse_type _ _ (by assumption) ?_
      | refine had_error_of_match _ _ _ _ (by assumption) ?_
      | refine (ih.factor _ _ _ (by assumption) ?_).1
      | refine (ih.factor _ _ _ (by assumption) ?_).2 rfl
      | refine (ih.factor _ _ _ (by assumption) ?_).2 (by assumption)
      | refine (ih.term_loop _ _ _ _ (by assumption) ?_).1
      | refine (ih.term_loop (some _) _ _ _ (by assumption) ?_).2 (fun e => Option.noConfusion e) rfl
      | refine (ih.term_loop _ _ _ _ (by assumption) ?_).2 (fun he => ?_) rfl

theorem alerted_step_parse_comparison_loop (n : Nat) (ih : AlertedAt n) :
    LoopsAlerted (parse_comparison_loop (n + 1)) := by
  intro acc p r q h hp
  rw [parse_comparison_loop] at h
  try dsimp only at h
  repeat' split at h
  all_goals try (simp at h; done)
  all_goals try (simp only [Outcome.done.injEq] at h; obtain ⟨rfl, rfl⟩ := h)
  all_goals refine ⟨?_, fun hacc hn => ?_⟩
  all_goals try (exact hacc hn)
  all_goals try subst hn
  all_goals
    repeat' first
      | assumption
      | refine alerted_consume _ _ ?_ (by rfl)
      | refine alerted_comma _ _ ?_
      | refine alerted_parser_error _ ?_
      | refine alerted_synchronize _ ?_
      | refine alerted_of_match _ _ _ _ (by assumption) ?_ (by rfl)
      | refine alerted_of_parse_type _ _ _ (by assumption) ?_
      | refine alerted_advance_check _ _ ?_ (by assumption) (by rfl)
      | refine alerted_advance_or2 _ _ _ ?_ (by assumption) (by rfl) (by rfl)
      | refine alerted_advance_or4 _ _ _ _ _ ?_ (by assumption) (by rfl) (by rfl) (by rfl) (by rfl)
      | refine alerted_advance_or5 _ _ _ _ _ _ ?_ (by assumption) (by rfl) (by rfl) (by rfl) (by rfl)
          (by rfl)
      | refine had_error_parser_error _ ?_
      | refine had_error_consume _ _ ?_
      | refine had_error_of_parse_type _ _ (by assumption) ?_
      | refine had_error_of_match _ _ _ _ (by assumption) ?_
      | refine (ih.term _ _ _ (by assumption) ?_).1
      | refine (ih.term _ _ _ (by assumption) ?_).2 rfl
      | refine (ih.term _ _ _ (by assumption) ?_).2 (by assumption)
      | refine (ih.comparison_loop _ _ _ _ (by assumption) ?_).1
      | refine (ih.comparison_loop (some _) _ _ _ (by assumption) ?_).2 (fun e => Option.noConfusion e) rfl
      | refine (ih.comparison_loop _ _ _ _ (by assumption) ?_).2 (fun he => ?_) rfl

theorem alerted_step_parse_comparison (n : Nat) (ih : AlertedAt n) :
    ParsesAlerted (parse_comparison (n + 1)) := by
  intro p r q h hp
  rw [parse_comparison] at h
  try dsimp only at h
  repeat' split at h
  all_goals try (simp at h; done)
  all_goals try (simp only [Outcome.done.injEq] at h; obtain ⟨rfl, rfl⟩ := h)
  all_goals refine ⟨?_, fun hn => ?_⟩
  all_goals try (cases hn; done)
  all_goals try subst hn
  all_goals
    repeat' first
      | assumption
      | refine alerted_consume _ _ ?_ (by rfl)
      | refine alerted_comma _ _ ?_
      | refine alerted_parser_error _ ?_
      | refine alerted_synchronize _ ?_
      | refine alerted_of_match _ _ _ _ (by assumption) ?_ (by rfl)
      | refine alerted_of_parse_type _ _ _ (by assumption) ?_
      | refine alerted_advance_check _ _ ?_ (by assumption) (by rfl)
      | refine alerted_advance_or2 _ _ _ ?_ (by assumption) (by rfl) (by rfl)
      | refine alerted_advance_or4 _ _ _ _ _ ?_ (by assumption) (by rfl) (by rfl) (by rfl) (by rfl)
      | refine alerted_advance_or5 _ _ _ _ _ _ ?_ (by assumption) (by rfl) (by rfl) (by rfl) (by rfl)
          (by rfl)
      | refine had_error_parser_error _ ?_
      | refine had_error_consume _ _ ?_
      | refine had_error_of_parse_type _ _ (by assumption) ?_
      | refine had_error_of_match _ _ _ _ (by assumption) ?_
      | refine (ih.term _ _ _ (by assumption) ?_).1
      | refine (ih.term _ _ _ (by assumption) ?_).2 rfl
      | refine (ih.term _ _ _ (by assumption) ?_).2 (by assumption)
      | refine (ih.comparison_loop _ _ _ _ (by assumption) ?_).1
      | refine (ih.comparison_loop (some _) _ _ _ (by assumption) ?_).2 (fun e => Option.noConfusion e) rfl
      | refine (ih.comparison_loop _ _ _ _ (by assumption) ?_).2 (fun he => ?_) rfl

theorem alerted_step_parse_equality_loop (n : Nat) (ih : AlertedAt n) :
    LoopsAlerted (parse_equality_loop (n + 1)) := by
  intro acc p r q h hp
  rw [parse_equality_loop] at h
  try dsimp only at h
  repeat' split at h
  all_goals try (simp at h; done)
  all_goals try (simp only [Outcome.done.injEq] at h; obtain ⟨rfl, rfl⟩ := h)
  all_goals refine ⟨?_, fun hacc hn => ?_⟩
  all_goals try (exact hacc hn)
  all_goals try subst hn
  all_goals
    repeat' first
      | assumption
      | refine alerted_consume _ _ ?_ (by rfl)
      | refine alerted_comma _ _ ?_
      | refine alerted_parser_error _ ?_
      | refine alerted_synchronize _ ?_
      | refine alerted_of_match _ _ _ _ (by assumption) ?_ (by rfl)
      | refine alerted_of_parse_type _ _ _ (by assumption) ?_
      | refine alerted_advance_check _ _ ?_ (by assumption) (by rfl)
      | refine alerted_advance_or2 _ _ _ ?_ (by assumption) (by rfl) (by rfl)
      | refine alerted_advance_or4 _ _ _ _ _ ?_ (by assumption) (by rfl) (by rfl) (by rfl) (by rfl)
      | refine alerted_advance_or5 _ _ _ _ _ _ ?_ (by assumption) (by rfl) (by rfl) (by rfl) (by rfl)
          (by rfl)
      | refine had_error_parser_error _ ?_
      | refine had_error_consume _ _ ?_
      | refine had_error_of_parse_type _ _ (by assumption) ?_
      | refine had_error_of_match _ _ _ _ (by assumption) ?_
      | refine (ih.comparison _ _ _ (by assumption) ?_).1
      | refine (ih.comparison _ _ _ (by assumption) ?_).2 rfl
      | refine (ih.comparison _ _ _ (by assumption) ?_).2 (by assumption)
      | refine (ih.equality_loop _ _ _ _ (by assumption) ?_).1
      | refine (ih.equality_loop (some _) _ _ _ (by assumption) ?_).2 (fun e => Option.noConfusion e) rfl
      | refine (ih.equality_loop _ _ _ _ (by assumption) ?_).2 (fun he => ?_) rfl

theorem alerted_step_parse_equality (n : Nat) (ih : AlertedAt n) :
    ParsesAlerted (parse_equality (n + 1)) := by
  intro p r q h hp
  rw [parse_equality] at h
  try dsimp only at h
  repeat' split at h
  all_goals try (simp at h; done)
  all_goals try (simp only [Outcome.done.injEq] at h; obtain ⟨rfl, rfl⟩ := h)
  all_goals refine ⟨?_, fun hn => ?_⟩
  all_goals try (cases hn; done)
  all_goals try subst hn
  all_goals
    repeat' first
      | assumption
      | refine alerted_consume _ _ ?_ (by rfl)
      | refine alerted_comma _ _ ?_
      | refine alerted_parser_error _ ?_
      | refine alerted_synchronize _ ?_
      | refine alerted_of_match _ _ _ _ (by assumption) ?_ (by rfl)
      | refine alerted_of_parse_type _ _ _ (by assumption) ?_
      | refine alerted_advance_check _ _ ?_ (by assumption) (by rfl)
      | refine alerted_advance_or2 _ _ _ ?_ (by assumption) (by rfl) (by rfl)
      | refine alerted_advance_or4 _ _ _ _ _ ?_ (by assumption) (by rfl) (by rfl) (by rfl) (by rfl)
      | refine alerted_advance_or5 _ _ _ _ _ _ ?_ (by assumption) (by rfl) (by rfl) (by rfl) (by rfl)
          (by rfl)
      | refine had_error_parser_error _ ?_
      | refine had_error_consume _ _ ?_
      | refine had_error_of_parse_type _ _ (by assumption) ?_
      | refine had_error_of_match _ _ _ _ (by assumption) ?_
      | refine (ih.comparison _ _ _ (by assumption) ?_).1
      | refine (ih.comparison _ _ _ (by assumption) ?_).2 rfl
      | refine (ih.comparison _ _ _ (by assumption) ?_).2 (by assumption)
      | refine (ih.equality_loop _ _ _ _ (by assumption) ?_).1
      | refine (ih.equality_loop (some _) _ _ _ (by assumption) ?_).2 (fun e => Option.noConfusion e) rfl
      | refine (ih.equality_loop _ _ _ _ (by assumption) ?_).2 (fun he => ?_) rfl

theorem alerted_step_parse_assignment (n : Nat) (ih : AlertedAt n) :
    ParsesAlerted (parse_assignment (n + 1)) := by
  intro p r q h hp
  rw [parse_assignment] at h
  try dsimp only at h
  repeat' split at h
  all_goals try (simp at h; done)
  all_goals try (simp only [Outcome.done.injEq] at h; obtain ⟨rfl, rfl⟩ := h)
  all_goals refine ⟨?_, fun hn => ?_⟩
  all_goals try (cases hn; done)
  all_goals try subst hn
  all_goals
    repeat' first
      | assumption
      | refine alerted_consume _ _ ?_ (by rfl)
      | refine alerted_comma _ _ ?_
      | refine alerted_parser_error _ ?_
      | refine alerted_synchronize _ ?_
      | refine alerted_of_match _ _ _ _ (by assumption) ?_ (by rfl)
      | refine alerted_of_parse_type _ _ _ (by assumption) ?_
      | refine alerted_advance_check _ _ ?_ (by assumption) (by rfl)
      | refine alerted_advance_or2 _ _ _ ?_ (by assumption) (by rfl) (by rfl)
      | refine alerted_advance_or4 _ _ _ _ _ ?_ (by assumption) (by rfl) (by rfl) (by rfl) (by rfl)
      | refine alerted_advance_or5 _ _ _ _ _ _ ?_ (by assumption) (by rfl) (by rfl) (by rfl) (by rfl)
          (by rfl)
      | refine had_error_parser_error _ ?_
      | refine had_error_consume _ _ ?_
      | refine had_error_of_parse_type _ _ (by assumption) ?_
      | refine had_error_of_match _ _ _ _ (by assumption) ?_
      | refine (ih.equality _ _ _ (by assumption) ?_).1
      | refine (ih.equality _ _ _ (by assumption) ?_).2 rfl
      | refine (ih.equality _ _ _ (by assumption) ?_).2 (by assumption)
      | refine (ih.assignment _ _ _ (by assumption) ?_).1
      | refine (ih.assignment _ _ _ (by assumption) ?_).2 rfl
      | refine (ih.assignment _ _ _ (by assumption) ?_).2 (by assumption)

theorem alerted_step_parse_expression (n : Nat) (ih : AlertedAt n) :
    ParsesAlerted (parse_expression (n + 1)) := by
  intro p r q h hp
  rw [parse_expression] at h
  try dsimp only at h
  repeat' split at h
  all_goals try (simp at h; done)
  all_goals try (simp only [Outcome.done.injEq] at h; obtain ⟨rfl, rfl⟩ := h)
  all_goals refine ⟨?_, fun hn => ?_⟩
  all_goals try (cases hn; done)
  all_goals try subst hn
  all_goals
    repeat' first
      | assumption
      | refine alerted_consume _ _ ?_ (by rfl)
      | refine alerted_comma _ _ ?_
      | refine alerted_parser_error _ ?_
      | refine alerted_synchronize _ ?_
      | refine alerted_of_match _ _ _ _ (by assumption) ?_ (by rfl)
      | refine alerted_of_parse_type _ _ _ (by assumption) ?_
      | refine alerted_advance_check _ _ ?_ (by assumption) (by rfl)
      | refine alerted_advance_or2 _ _ _ ?_ (by assumption) (by rfl) (by rfl)
      | refine alerted_advance_or4 _ _ _ _ _ ?_ (by assumption) (by rfl) (by rfl) (by rfl) (by rfl)
      | refine alerted_advance_or5 _ _ _ _ _ _ ?_ (by assumption) (by rfl) (by rfl) (by rfl) (by rfl)
          (by rfl)
      | refine had_error_parser_error _ ?_
      | refine had_error_consume _ _ ?_
      | refine had_error_of_parse_type _ _ (by assumption) ?_
      | refine had_error_of_match _ _ _ _ (by assumption) ?_
      | refine (ih.assignment _ _ _ (by assumption) ?_).1
      | refine (ih.assignment _ _ _ (by assumption) ?_).2 rfl
      | refine (ih.assignment _ _ _ (by assumption) ?_).2 (by assumption)

theorem alerted_all (fuel : Nat) : AlertedAt fuel := by
  induction fuel with
  | zero =>
    constructor
    · intro p r q h
      rw [parse_variable_declaration] at h
      cases h
    · intro p r q h
      rw [parse_function_declaration] at h
      cases h
    · intro acc p r q h
      rw [parse_block_loop] at h
      cases h
    · intro p r q h
      rw [parse_block] at h
      cases h
    · intro p r q h
      rw [parse_if_statement] at h
      cases h
    · intro p r q h
      rw [parse_while_statement] at h
      cases h
    · intro p r q h
      rw [parse_return_statement] at h
      cases h
    · intro p r q h
      rw [parse_expression_statement] at h
      cases h
    · intro p r q h
      rw [parse_statement] at h
      cases h
    · intro p r q h
      rw [parse_declaration] at h
      cases h
    · intro acc p r q h
      rw [parse_argument_list_loop] at h
      cases h
    · intro p r q h
      rw [parse_primary] at h
      cases h
    · intro p r q h
      rw [parse_unary] at h
      cases h
    · intro acc p r q h
      rw [parse_factor_loop] at h
      cases h
    · intro p r q h
      rw [parse_factor] at h
      cases h
    · intro acc p r q h
      rw [parse_term_loop] at h
      cases h
    · intro p r q h
      rw [parse_term] at h
      cases h
    · intro acc p r q h
      rw [parse_comparison_loop] at h
      cases h
    · intro p r q h
      rw [parse_comparison] at h
      cases h
    · intro acc p r q h
      rw [parse_equality_loop] at h
      cases h
    · intro p r q h
      rw [parse_equality] at h
      cases h
    · intro p r q h
      rw [parse_assignment] at h
      cases h
    · intro p r q h
      rw [parse_expression] at h
      cases h
  | succ n ih =>
    exact
      ⟨alerted_step_parse_variable_declaration n ih,
       alerted_step_parse_function_declaration n ih,
       alerted_step_parse_block_loop n ih,
       alerted_step_parse_block n ih,
       alerted_step_parse_if_statement n ih,
       alerted_step_parse_while_statement n ih,
       alerted_step_parse_return_statement n ih,
       alerted_step_parse_expression_statement n ih,
       alerted_step_parse_statement n ih,
       alerted_step_parse_declaration n ih,
       alerted_step_parse_argument_list_loop n ih,
       alerted_step_parse_primary n ih,
       alerted_step_parse_unary n ih,
       alerted_step_parse_factor_loop n ih,
       alerted_step_parse_factor n ih,
       alerted_step_parse_term_loop n ih,
       alerted_step_parse_term n ih,
       alerted_step_parse_comparison_loop n ih,
       alerted_step_parse_comparison n ih,
       alerted_step_parse_equality_loop n ih,
       alerted_step_parse_equality n ih,
       alerted_step_parse_assignment n ih,
       alerted_step_parse_expression n ih⟩

theorem alerted_parse_program_loop (fuel : Nat) :
    ∀ (declarations : List ASTNode) (p : Parser) (r : List ASTNode) (q : Parser),
      parse_program_loop fuel declarations p = .done r q → p.Alerted →
        q.Alerted ∧ check q TOKEN_EOF = true := by
  induction fuel with
  | zero =>
    intro acc p r q h
    rw [parse_program_loop] at h
    cases h
  | succ n ih =>
    intro acc p r q h hp
    rw [parse_program_loop] at h
    split at h
    · split at h
      · rename_i heq
        exact ih _ _ _ _ h ((alerted_all n).declaration _ _ _ heq hp).1
      · rename_i heq
        have hd := (alerted_all n).declaration _ _ _ heq hp
        exact ih _ _ _ _ h (alerted_synchronize _ (hd.2 rfl))
      · cases h
      · cases h
    · rename_i hc
      simp only [Outcome.done.injEq] at h
      obtain ⟨-, rfl⟩ := h
      refine ⟨hp, ?_⟩
      simpa using hc

theorem error_ahead_of_mem (tokens : List Token)
    (heof : ∀ t ∈ tokens, t.type ≠ TOKEN_EOF) (herror : ∃ t ∈ tokens, t.type = TOKEN_ERROR) :
    error_ahead tokens = true := by
  induction tokens with
  | nil =>
    obtain ⟨t, ht, -⟩ := herror
    cases ht
  | cons a rest ih =>
    unfold error_ahead
    by_cases ha : a.type = TOKEN_ERROR
    · simp only [ha, if_true]
    · have hne : a.type ≠ TOKEN_EOF := heof a (List.mem_cons_self _ _)
      simp only [ha, hne, if_false]
      apply ih
      · intro t ht
        exact heof t (List.mem_cons_of_mem _ ht)
      · obtain ⟨t, ht, hty⟩ := herror
        rcases List.mem_cons.mp ht with rfl | ht
        · exact absurd hty ha
        · exact ⟨t, ht, hty⟩

theorem lexer_stream_no_eof (calls : Nat) :
    ∀ (lexer : Lexer), ∀ t ∈ lexer_stream calls lexer, t.type ≠ TOKEN_EOF := by
  induction calls with
  | zero =>
    intro lexer t ht
    simp [lexer_stream] at ht
  | succ n ih =>
    intro lexer t ht
    rw [lexer_stream] at ht
    split at ht
    · cases ht
    · rename_i hne
      rcases List.mem_cons.mp ht with rfl | ht
      · exact hne
      · exact ih _ t ht

theorem alerted_parser_init (tokens : List Token) (junk : Token)
    (h : error_ahead tokens = true) : (parser_init tokens junk).Alerted := by
  refine And.intro (fun hpanic => ?_) ?_
  · exact absurd hpanic (by simp [parser_init, advance])
  cases tokens with
  | nil => cases h
  | cons t ts =>
    simp only [Parser.pending, Bool.or_eq_true]
    right
    exact h

theorem had_error_at_eof (p : Parser) (h : p.Alerted) (hc : check p TOKEN_EOF = true) :
    p.had_error = true := by
  have hp := h.2
  simp only [check, beq_iff_eq] at hc
  simp only [Parser.pending, Bool.or_eq_true, error_ahead, hc] at hp
  rcases hp with hp | hp
  · exact hp
  · simp at hp

theorem parse_program_let_junk (fuel : Nat) (lexeme : String) (rest : List Token)
    (junk1 junk2 : Token) :
    parse_program fuel (parser_init (⟨TOKEN_LET, lexeme⟩ :: rest) junk1)
      = parse_program fuel (parser_init (⟨TOKEN_LET, lexeme⟩ :: rest) junk2) := by
  cases fuel with
  | zero => rfl
  | succ n =>
    cases n with
    | zero => rfl
    | succ m =>
      simp [parse_program, parse_program_loop, parse_declaration, match_, check, parser_init,
        advance, lexer_next_token]

/-- C28. When the lexer produces a `TOKEN_ERROR` token for a source, `parse_program`, if
it returns, returns with `had_error` set (and with `TOKEN_EOF` as current token), so the
test with which `main` guards semantic analysis and interpretation fails.  It does return
for `test_program_4`, the source with `if (i % 2 == 0)`, whose `%` the lexer turns into an
error token, as it does a lone `!` and an unclosed string. -/
theorem error_token_contract (source : String) (junk : Token) (fuel : Nat)
    (program : ASTNode) (p : Parser)
    (herror : ∃ t ∈ source_tokens source, t.type = TOKEN_ERROR)
    (hreturn : parse_program fuel (parser_init (source_tokens source) junk)
      = .done program p) :
    p.had_error = true
    ∧ p.current_token.type = TOKEN_EOF
    ∧ main_runs_analysis (some program) p = false
    ∧ (∃ t ∈ source_tokens "if (i % 2 == 0)", t.type = TOKEN_ERROR)
    ∧ (∃ t ∈ source_tokens "!", t.type = TOKEN_ERROR)
    ∧ (∃ t ∈ source_tokens "let s: string = \"abc", t.type = TOKEN_ERROR)
    ∧ (∃ t ∈ source_tokens test_program_4, t.type = TOKEN_ERROR)
    ∧ (∃ ast q, parse_program 33 (parser_init (source_tokens test_program_4) junk)
        = .done ast q) := by
  have htokens : source_tokens test_program_4 = tokens_test_program_4 := by
    set_option maxRecDepth 100000 in decide
  have hahead : error_ahead (source_tokens source) = true :=
    error_ahead_of_mem _ (lexer_stream_no_eof _ _) herror
  have hinit := alerted_parser_init _ junk hahead
  unfold parse_program at hreturn
  split at hreturn
  · rename_i declarations q hloop
    simp only [Outcome.done.injEq] at hreturn
    obtain ⟨-, rfl⟩ := hreturn
    have hq := alerted_parse_program_loop fuel [] _ _ _ hloop hinit
    have he := had_error_at_eof _ hq.1 hq.2
    refine ⟨he, ?_, ?_, ?_, ?_, ?_, ?_, ?_⟩
    · simpa [check] using hq.2
    · simp [main_runs_analysis, he]
    · decide
    · decide
    · decide
    · rw [htokens]
      decide
    · rw [htokens]
      have hjunk : parse_program 33 (parser_init tokens_test_program_4 junk)
          = parse_program 33 (parser_init tokens_test_program_4 eofToken) :=
        parse_program_let_junk 33 "let" tokens_test_program_4.tail junk eofToken
      rw [hjunk]
      exact ⟨_, _, rfl⟩
  · cases hreturn
  · cases hreturn

theorem error_token_contract_witness :
    (∃ t ∈ source_tokens "!", t.type = TOKEN_ERROR)
    ∧ parse_program 12 (parser_init (source_tokens "!") eofToken)
        = .done (block [])
            (stateAt eofToken ⟨TOKEN_ERROR, "Caractere '!' inesperado"⟩ [] true false)
    ∧ (stateAt eofToken ⟨TOKEN_ERROR, "Caractere '!' inesperado"⟩ [] true false).had_error
        = true :=
  have htokens : source_tokens "!" = [⟨TOKEN_ERROR, "Caractere '!' inesperado"⟩] := by decide
  have hreturn : parse_program 12 (parser_init (source_tokens "!") eofToken)
      = .done (block [])
          (stateAt eofToken ⟨TOKEN_ERROR, "Caractere '!' inesperado"⟩ [] true false) := by
    rw [htokens]
    rfl
  ⟨by decide, hreturn,
   (error_token_contract "!" eofToken 12 (block []) _ (by decide) hreturn).1⟩

/-! ## Progress of `synchronize` -/

theorem remaining_advance_le (p : Parser) : (advance p).remaining ≤ p.remaining := by
  unfold Parser.remaining advance lexer_next_token
  cases hl : p.lexer with
  | nil =>
    simp only [List.length_nil, eofToken, if_true]
    exact Nat.zero_le _
  | cons t ts =>
    simp only [List.length_cons]
    split <;> split <;> omega

theorem remaining_advance_lt (p : Parser) (h : p.current_token.type ≠ TOKEN_EOF) :
    (advance p).remaining < p.remaining := by
  unfold Parser.remaining advance lexer_next_token
  cases hl : p.lexer with
  | nil => simp [eofToken, h]
  | cons t ts =>
    simp only [List.length_cons, h, if_false]
    split <;> omega

theorem remaining_synchronize_loop_le (fuel : Nat) :
    ∀ p : Parser, (synchronize_loop fuel p).remaining ≤ p.remaining := by
  induction fuel with
  | zero => intro p; exact Nat.le_refl _
  | succ n ih =>
    intro p
    rw [synchronize_loop]
    split
    · split
      · exact Nat.le_refl _
      · split <;>
          first
            | exact Nat.le_refl _
            | exact Nat.le_trans (ih (advance p)) (remaining_advance_le p)
    · exact Nat.le_refl _

theorem synchronize_loop_at_boundary (fuel : Nat) (p : Parser)
    (h : p.at_boundary = true) : synchronize_loop fuel p = p := by
  cases fuel with
  | zero => rfl
  | succ n =>
    rw [synchronize_loop]
    simp only [Parser.at_boundary, Bool.or_eq_true, beq_iff_eq] at h
    split
    · split
      · rfl
      · rename_i hprev
        simp only [beq_iff_eq] at hprev
        rcases h with ((((h | h) | h) | h) | h) | h
        · exact absurd h hprev
        all_goals simp only [h]
    · rfl

theorem synchronize_loop_off_boundary (fuel : Nat) (p : Parser)
    (heof : p.current_token.type ≠ TOKEN_EOF) (h : p.at_boundary = false) :
    synchronize_loop (fuel + 1) p = synchronize_loop fuel (advance p) := by
  rw [synchronize_loop]
  simp only [Parser.at_boundary, Bool.or_eq_false_iff, beq_eq_false_iff_ne, ne_eq] at h
  obtain ⟨⟨⟨⟨⟨h1, h2⟩, h3⟩, h4⟩, h5⟩, h6⟩ := h
  have hne : (p.current_token.type != TOKEN_EOF) = true := by simpa using heof
  have hprev : (p.previous_token.type == TOKEN_SEMICOLON) = false := by simpa using h1
  simp only [hne, hprev, if_true, Bool.false_eq_true, if_false]

/-- C32, refuted on the state the parser is in after `1;` of the source `1; )`.  With a
current token other than `TOKEN_EOF`, `synchronize` consumes no token at all when the
previous token is `;` or the current token is `let`, `fn`, `if`, `while` or `return`: it
returns the state it was given, with the panic flag cleared.  Only in every other state
does the number of tokens not yet consumed go down. -/
theorem synchronize_may_consume_nothing (p : Parser)
    (heof : p.current_token.type ≠ TOKEN_EOF) :
    (p.at_boundary = true → synchronize p = { p with panic_mode := false })
    ∧ (p.at_boundary = true → (synchronize p).remaining = p.remaining)
    ∧ (p.at_boundary = false → (synchronize p).remaining < p.remaining)
    ∧ stalledState.current_token.type ≠ TOKEN_EOF
    ∧ stalledState.at_boundary = true
    ∧ synchronize stalledState = stalledState := by
  have hstop : p.at_boundary = true → synchronize p = { p with panic_mode := false } := by
    intro h
    unfold synchronize
    exact synchronize_loop_at_boundary _ _ h
  refine ⟨hstop, ?_, ?_, by decide, by decide, rfl⟩
  · intro h
    rw [hstop h]
    rfl
  · intro h
    unfold synchronize
    rw [synchronize_loop_off_boundary _ { p with panic_mode := false } heof h]
    exact Nat.lt_of_le_of_lt (remaining_synchronize_loop_le _ _)
      (remaining_advance_lt { p with panic_mode := false } heof)

theorem synchronize_may_consume_nothing_witness :
    stalledState.current_token.type ≠ TOKEN_EOF
    ∧ stalledState.at_boundary = true
    ∧ synchronize stalledState = { stalledState with panic_mode := false } :=
  ⟨by decide, by decide,
   (synchronize_may_consume_nothing stalledState (by decide)).1 (by decide)⟩

/-! ## The left operand of an assignment -/

theorem parse_assignment_of_null (fuel : Nat) (p q : Parser)
    (hleft : parse_equality fuel p = .done none q) (hop : check q TOKEN_EQUAL = true) :
    parse_assignment (fuel + 1) p = .nullDeref := by
  rw [parse_assignment]
  simp only [hleft, match_, hop, if_true]

theorem parse_program_equal_five (n : Nat) (junk : Token) :
    parse_program (n + 12) (parser_init tokens_equal_five junk) = .nullDeref := by
  simp [parse_program, parse_program_loop, parse_declaration, parse_statement,
    parse_expression_statement, parse_expression,
    parse_assignment, parse_equality, parse_equality_loop, parse_comparison,
    parse_comparison_loop, parse_term, parse_term_loop, parse_factor, parse_factor_loop,
    parse_unary, parse_primary, match_, check, parser_error, parser_init,
    tokens_equal_five, advance, lexer_next_token]

/-- C37, refuted on the source text `= 5;`.  `parse_primary` reports an error at `=` and
returns `NULL` without consuming it, the loops above it pass the `NULL` on, and
`parse_assignment`, which finds `=` as next token, reads `expr->node_type` through that
`NULL`: whenever `parse_equality` returns `NULL` in front of `=`, `parse_assignment` reads
through `NULL`, and `parse_program` on `= 5;` does so with every fuel that lets it get
there; it never returns a tree or an error. -/
theorem parse_assignment_reads_null (n : Nat) (junk : Token) :
    source_tokens "= 5;" = tokens_equal_five
    ∧ parse_program (n + 12) (parser_init tokens_equal_five junk) = .nullDeref
    ∧ (∀ fuel, parse_program fuel (parser_init tokens_equal_five junk) = .nullDeref
        ∨ parse_program fuel (parser_init tokens_equal_five junk) = .outOfFuel)
    ∧ (∀ fuel p q, parse_equality fuel p = .done none q → check q TOKEN_EQUAL = true →
        parse_assignment (fuel + 1) p = .nullDeref) := by
  refine ⟨by decide, parse_program_equal_five n junk, ?_, parse_assignment_of_null⟩
  intro fuel
  by_cases h : 12 ≤ fuel
  · obtain ⟨m, rfl⟩ := Nat.exists_eq_add_of_le h
    left
    rw [Nat.add_comm]
    exact parse_program_equal_five m junk
  · right
    have : fuel < 12 := by omega
    interval_cases fuel <;> rfl

theorem parse_assignment_reads_null_witness :
    parse_equality 10 (parser_init tokens_equal_five eofToken)
        = .done none (parser_error (parser_init tokens_equal_five eofToken))
    ∧ check (parser_error (parser_init tokens_equal_five eofToken)) TOKEN_EQUAL = true
    ∧ parse_assignment 11 (parser_init tokens_equal_five eofToken) = .nullDeref :=
  ⟨rfl, rfl,
   (parse_assignment_reads_null 0 eofToken).2.2.2 10 _ _ rfl rfl⟩

/-! ## Expression statements in the analyzer -/

theorem visit_expression_statement_skips (stray_stmt_count : ASTNode → Int) (fuel : Nat)
    (node : ASTNode) (st : SemanticAnalyzer) :
    visit_expression_statement stray_stmt_count (fuel + 1) node st
      = if stray_stmt_count node > 0 then .undefined else .done () st := by
  rw [visit_expression_statement]

/-- C33, refuted on the programs `y = 1;` (with `y` undeclared) and `len(5);`.  Both parse
without error into one expression statement, and `check_expression` does report an error
for each of the two expressions.  But `visit_expression_statement` never passes the
expression of the node to it: it reads the node through the arm `block` of the union.
When the stray `stmt_count` it finds there is not positive, it does nothing, and
`semantic_analyze` accepts the program with no error; when it is positive, it reads the
head of the expression node as an array of statements, which is undefined.  In neither case
is `error_count` increased. -/
theorem expression_statement_is_not_checked (stray_stmt_count : ASTNode → Int) (n : Nat) :
    (∃ p, parse_program 20 (parser_init tokens_y_assign eofToken)
        = .done (block [statement_y_assign]) p ∧ p.had_error = false)
    ∧ (∃ p, parse_program 40 (parser_init tokens_len_five eofToken)
        = .done (block [statement_len_five]) p ∧ p.had_error = false)
    ∧ (∃ r st', check_expression (n + 4)
          (some (assign_expr "y" (literal TOKEN_INT_LITERAL (.int_value 1)))) semantic_init
          = .done r st' ∧ r.is_valid = false ∧ st'.error_count = 1)
    ∧ (∃ r st', check_expression (n + 6)
          (some (call_expr "len" [literal TOKEN_INT_LITERAL (.int_value 5)] 1)) semantic_init
          = .done r st' ∧ r.is_valid = false ∧ st'.error_count = 1)
    ∧ (∀ fuel node st, visit_expression_statement stray_stmt_count (fuel + 1) node st
        = if stray_stmt_count node > 0 then .undefined else .done () st)
    ∧ (stray_stmt_count statement_y_assign ≤ 0 →
        ∃ st', semantic_analyze stray_stmt_count (n + 5) (some (block [statement_y_assign]))
            semantic_init = .done 1 st'
          ∧ st'.error_count = 0)
    ∧ (0 < stray_stmt_count statement_y_assign →
        semantic_analyze stray_stmt_count (n + 5) (some (block [statement_y_assign]))
          semantic_init = .undefined)
    ∧ (stray_stmt_count statement_len_five ≤ 0 →
        ∃ st', semantic_analyze stray_stmt_count (n + 5) (some (block [statement_len_five]))
            semantic_init = .done 1 st'
          ∧ st'.error_count = 0)
    ∧ (0 < stray_stmt_count statement_len_five →
        semantic_analyze stray_stmt_count (n + 5) (some (block [statement_len_five]))
          semantic_init = .undefined) := by
  refine ⟨⟨_, rfl, rfl⟩, ⟨_, rfl, rfl⟩, ?_, ?_,
    visit_expression_statement_skips stray_stmt_count, ?_, ?_, ?_, ?_⟩
  · simp [check_expression, check_assignment, check_literal_expression, symbol_lookup,
      lookup_in_scopes, find_symbol, semantic_error, semantic_init,
      semantic_register_builtins, symbol_insert, scope_create, typeinfo_create,
      symbol_create_function, parameter_entry]
    exact ⟨_, _, ⟨rfl, rfl⟩, rfl, rfl⟩
  · simp [check_expression, check_call_expression, check_call_arguments,
      check_literal_expression, symbol_lookup,
      lookup_in_scopes, find_symbol, semantic_error, semantic_init,
      semantic_register_builtins, symbol_insert, scope_create, typeinfo_create,
      symbol_create_function, parameter_entry, are_types_compatible, call_result,
      typeinfo_copy]
    exact ⟨_, _, ⟨rfl, rfl⟩, rfl, rfl⟩
  · intro h
    have h' : ¬ 0 < stray_stmt_count statement_y_assign := by omega
    simp only [statement_y_assign] at h' ⊢
    simp [semantic_analyze, visit_node, visit_block, visit_block_loop,
      visit_expression_statement, enter_scope, exit_scope, scope_create,
      semantic_init, semantic_register_builtins, symbol_insert, h']
  · intro h
    simp only [statement_y_assign] at h ⊢
    simp [semantic_analyze, visit_node, visit_block, visit_block_loop,
      visit_expression_statement, h]
  · intro h
    have h' : ¬ 0 < stray_stmt_count statement_len_five := by omega
    simp only [statement_len_five] at h' ⊢
    simp [semantic_analyze, visit_node, visit_block, visit_block_loop,
      visit_expression_statement, enter_scope, exit_scope, scope_create,
      semantic_init, semantic_register_builtins, symbol_insert, h']
  · intro h
    simp only [statement_len_five] at h ⊢
    simp [semantic_analyze, visit_node, visit_block, visit_block_loop,
      visit_expression_statement, h]

theorem expression_statement_is_not_checked_witness :
    (fun _ : ASTNode => (0 : Int)) statement_y_assign ≤ 0
    ∧ ∃ st', semantic_analyze (fun _ => 0) 5 (some (block [statement_y_assign])) semantic_init
          = .done 1 st'
        ∧ st'.error_count = 0 :=
  ⟨Int.le_refl 0,
   (expression_statement_is_not_checked (fun _ => 0) 0).2.2.2.2.2.1 (Int.le_refl 0)⟩

/-! ## Accepted by the analyzer, rejected at run time -/

theorem ordering_of_non_numeric {F : Type} (fl : DoubleOps F) (st : Interpreter F)
    (op : TokenType) (l r : Value F) (hop : is_ordering_operator op = true)
    (h : (l.isNumeric && r.isNumeric) = false) :
    binary_switch fl st op l r = (none, runtime_error st) := by
  simp only [is_ordering_operator, Bool.or_eq_true, beq_iff_eq] at hop
  rcases hop with ((rfl | rfl) | rfl) | rfl <;>
    simp [binary_switch, op_compare_lt, op_compare_gt, op_compare_lte, op_compare_gte, h]

/-- C38.  The program `let b: bool = "a" < "b";` parses without error, `semantic_analyze`
accepts it with no error, and `interpreter_execute` fails on it with a runtime error.  In
general `check_binary_expression` accepts each ordering operator `<`, `>`, `<=`, `>=` on
two valid operands that are both `string` or both `bool`, with type `bool` and without an
error, while at run time each of them raises a runtime error and yields no value as soon
as one operand is not an `int` or a `float`. -/
theorem accepted_comparison_fails_at_runtime {F : Type} (fl : DoubleOps F)
    (stray_stmt_count : ASTNode → Int) (n : Nat) :
    source_tokens "let b: bool = \"a\" < \"b\";" = tokens_b_string_less
    ∧ (∃ p, parse_program 40 (parser_init tokens_b_string_less eofToken)
        = .done program_b_string_less p ∧ p.had_error = false)
    ∧ (∃ st', semantic_analyze stray_stmt_count (n + 8) (some program_b_string_less)
          semantic_init = .done 1 st' ∧ st'.error_count = 0)
    ∧ (∃ st', interpreter_execute fl (n + 8) (some program_b_string_less) interpreter_init
          = .done 0 st' ∧ st'.has_runtime_error = true ∧ st'.error_count = 1)
    ∧ (∀ (fuel : Nat) (op : TokenType) (l : Option ASTNode) (r : ASTNode)
        (st st1 st2 : SemanticAnalyzer) (rl rr : TypeCheckResult) (tl tr : TypeInfo),
        check_expression fuel l st = .done rl st1 →
        check_expression fuel (some r) st1 = .done rr st2 →
        rl.is_valid = true → rr.is_valid = true → rl.type = some tl → rr.type = some tr →
        (tl.base_type = TYPE_STRING ∧ tr.base_type = TYPE_STRING
          ∨ tl.base_type = TYPE_BOOL ∧ tr.base_type = TYPE_BOOL) →
        is_ordering_operator op = true →
        check_binary_expression (fuel + 1) op l r st
          = .done { type := some (typeinfo_create TYPE_BOOL), is_valid := true,
                    implicit_conversion := 0 } st2)
    ∧ (∀ (st : Interpreter F) (op : TokenType) (l r : Value F),
        is_ordering_operator op = true → (l.isNumeric && r.isNumeric) = false →
        binary_switch fl st op l r = (none, runtime_error st)
        ∧ (runtime_error st).has_runtime_error = true)
    ∧ (∀ (st : Interpreter F) (l r : Value F), (l.isNumeric && r.isNumeric) = false →
        op_compare_lt fl st l r = (none, runtime_error st)
        ∧ op_compare_gt fl st l r = (none, runtime_error st)) := by
  refine ⟨by decide, ⟨_, rfl, rfl⟩, ?_, ?_, ?_, ?_, ?_⟩
  · simp [program_b_string_less, semantic_analyze, visit_node, visit_block, visit_block_loop,
      visit_variable_decl, check_expression, check_binary_expression,
      check_literal_expression, binary_result, is_numeric_type, are_types_comparable,
      is_comparison_operator, are_types_compatible, type_from_ast_node,
      symbol_lookup_current, enter_scope, exit_scope, scope_create, find_symbol,
      symbol_insert, symbol_create_variable, typeinfo_create, typeinfo_copy,
      semantic_init, semantic_register_builtins]
  · simp [interpreter_execute, execute_program, execute_statement, execute_block,
      execute_block_loop, execute_variable_decl, execute_expression, execute_binary_expr,
      execute_literal_expr, program_b_string_less, interpreter_init, binary_switch,
      op_compare_lt, Value.isNumeric, runtime_error, environment_create_variables,
      hashtable_get_create]
  · intro fuel op l r st st1 st2 rl rr tl tr hl hr hlv hrv hlt hrt hty hop
    rw [check_binary_expression_of_operands fuel op l r st st1 st2 rl rr hl hr]
    obtain ⟨bl, al, cl⟩ := tl
    obtain ⟨br, ar, cr⟩ := tr
    simp only [is_ordering_operator, Bool.or_eq_true, beq_iff_eq] at hop
    simp only at hty
    rcases hty with ⟨rfl, rfl⟩ | ⟨rfl, rfl⟩ <;>
      rcases hop with ((rfl | rfl) | rfl) | rfl <;>
        simp [binary_result, hlv, hrv, hlt, hrt, is_numeric_type, are_types_comparable,
          is_comparison_operator]
  · intro st op l r hop h
    exact ⟨ordering_of_non_numeric fl st op l r hop h, rfl⟩
  · intro st l r h
    simp [op_compare_lt, op_compare_gt, h]

theorem accepted_comparison_fails_at_runtime_witness :
    is_ordering_operator TOKEN_LESS = true
    ∧ ((Value.string_val "a" : Value ℚ).isNumeric && (Value.string_val "b" : Value ℚ).isNumeric)
        = false
    ∧ binary_switch exactArithmetic interpreter_init TOKEN_LESS (.string_val "a")
        (.string_val "b") = (none, runtime_error interpreter_init) :=
  ⟨rfl, rfl,
   ((accepted_comparison_fails_at_runtime exactArithmetic (fun _ => 0) 0).2.2.2.2.2.1
      interpreter_init TOKEN_LESS (.string_val "a") (.string_val "b") rfl rfl).1⟩

/-! ## The value a declaration binds -/

theorem execute_variable_decl_binds {F : Type} (fl : DoubleOps F) (fuel : Nat)
    (name : String) (init : ASTNode) (declared : DataType) (st st1 : Interpreter F)
    (value : Option (Value F)) (current : Environment F) (parent : List (Environment F))
    (current1 : Environment F) (parent1 : List (Environment F))
    (henv : st.envs = current :: parent)
    (hfree : hashtable_get current.variables_ name = none)
    (hinit : execute_expression fl fuel (some init) st = .done value st1)
    (hok : st1.has_runtime_error = false)
    (henv1 : st1.envs = current1 :: parent1) :
    execute_variable_decl fl (fuel + 1) name (some init) declared st
      = .done (some .void)
          { st1 with envs := environment_define_var current1 name value :: parent1 } := by
  rw [execute_variable_decl]
  simp only [henv, hfree, hinit, hok, henv1, Bool.false_eq_true, if_false]

/-- C39.  A declaration with an initializer binds the value of the initializer as it is,
whatever the declared type: `execute_variable_decl` does not read the declared type on
that path.  So after `let f: float = 1;`, which the analyzer accepts without error, `f` is
bound to the `int` 1: `type(f)` yields the string `int`, `f + 1` yields the `int` 2, and
the program `let f: float = 1; print(type(f)); print(f + 1);` prints `int` and `2`. -/
theorem variable_decl_binds_unconverted {F : Type} (fl : DoubleOps F)
    (stray_stmt_count : ASTNode → Int) (n : Nat) :
    (∀ (fuel : Nat) (name : String) (init : ASTNode) (declared : DataType)
        (st st1 : Interpreter F) (value : Option (Value F)) (current current1 : Environment F)
        (parent parent1 : List (Environment F)),
        st.envs = current :: parent → hashtable_get current.variables_ name = none →
        execute_expression fl fuel (some init) st = .done value st1 →
        st1.has_runtime_error = false → st1.envs = current1 :: parent1 →
        current1.variables_.WF →
        execute_variable_decl fl (fuel + 1) name (some init) declared st
          = .done (some .void)
              { st1 with envs := environment_define_var current1 name value :: parent1 }
        ∧ environment_get_var (environment_define_var current1 name value :: parent1) name
          = (match value with
             | some v => some v
             | none => environment_get_var parent1 name))
    ∧ source_tokens "let f: float = 1; print(type(f)); print(f + 1);" = tokens_float_from_int
    ∧ (∃ p, parse_program 40 (parser_init tokens_float_from_int eofToken)
        = .done program_float_from_int p ∧ p.had_error = false)
    ∧ (∃ st', semantic_analyze stray_stmt_count (n + 6) (some (block [decl_float_from_int]))
          semantic_init = .done 1 st' ∧ st'.error_count = 0)
    ∧ execute_statement fl (n + 3) (some decl_float_from_int)
          { (interpreter_init : Interpreter F) with
            envs := environment_create :: (interpreter_init : Interpreter F).envs }
        = .done (some .void) state_float_from_int
    ∧ environment_get_var (state_float_from_int : Interpreter F).envs "f" = some (.int_val 1)
    ∧ execute_expression fl (n + 5) (some (call_expr "type" [var_expr "f"] 1))
          state_float_from_int
        = .done (some (.string_val "int")) state_float_from_int
    ∧ execute_expression fl (n + 4)
          (some (binary_expr TOKEN_PLUS (some (var_expr "f"))
            (literal TOKEN_INT_LITERAL (.int_value 1)))) state_float_from_int
        = .done (some (.int_val 2)) state_float_from_int
    ∧ (∃ st', interpreter_execute fl (n + 12) (some program_float_from_int) interpreter_init
          = .done 1 st' ∧ st'.output = "int\n2\n") := by
  have h1 : wrap32 1 = 1 := by decide
  have h2 : wrap32 2 = 2 := by decide
  have hs : toString (2 : Int) = "2" := by decide
  have hwf : ∀ V : Type, (hashtable_create 32 : HashTable V).WF :=
    fun _ => hashtable_create_wf 32 (by decide)
  refine ⟨?_, by decide, ⟨_, rfl, rfl⟩, ?_, ?_, ?_, ?_, ?_, ?_⟩
  · intro fuel name init declared st st1 value current current1 parent parent1
      henv hfree hinit hok henv1 hwf
    refine ⟨execute_variable_decl_binds fl fuel name init declared st st1 value current
      parent current1 parent1 henv hfree hinit hok henv1, ?_⟩
    rw [environment_get_var, (environment_define_var_get current1 name value).1 hwf]
    all_goals cases value <;> rfl
  · simp [decl_float_from_int, semantic_analyze, visit_node, visit_block, visit_block_loop,
      visit_variable_decl, check_expression, check_literal_expression,
      are_types_compatible, type_from_ast_node,
      symbol_lookup_current, enter_scope, exit_scope, scope_create, find_symbol,
      symbol_insert, symbol_create_variable, typeinfo_create, typeinfo_copy,
      semantic_init, semantic_register_builtins]
  · simp [decl_float_from_int, state_float_from_int, execute_statement,
      execute_variable_decl, execute_expression, execute_literal_expr, ASTNode.data_type,
      interpreter_init, environment_create_variables, hashtable_get_create,
      value_create_int, h1]
  · simp [state_float_from_int, interpreter_init, register_builtin_functions,
      environment_get_var, environment_create_variables, environment_define_var_variables,
      hashtable_get_set_same, hwf]
  · simp [state_float_from_int, execute_expression, execute_call_expr, execute_builtin_call, builtin_referenced,
      Value.is_builtin,
      execute_variable_expr, call_builtin, builtin_type, value_type_to_string, Value.type,
      interpreter_init, register_builtin_functions,
      environment_get_var, environment_create_variables, environment_define_var_variables,
      hashtable_get_create, hashtable_get_set_same, hashtable_get_set_other,
      hashtable_set_wf, hwf]
  · simp [state_float_from_int, execute_expression, execute_binary_expr,
      execute_variable_expr, execute_literal_expr, binary_switch, op_add,
      interpreter_init, register_builtin_functions,
      environment_get_var, environment_create_variables, environment_define_var_variables,
      hashtable_get_create, hashtable_get_set_same, hashtable_get_set_other,
      hashtable_set_wf, hwf, value_create_int, h1, h2]
  · simp [program_float_from_int, decl_float_from_int, interpreter_execute, execute_program,
      execute_statement, execute_block,
      execute_block_loop, execute_variable_decl, execute_expression, execute_literal_expr,
      execute_call_expr, execute_builtin_call, builtin_referenced,
      Value.is_builtin, execute_variable_expr, execute_binary_expr,
      binary_switch, op_add, call_builtin, builtin_type, builtin_print, print_text,
      value_to_string, value_type_to_string, Value.type,
      interpreter_init, register_builtin_functions, environment_get_var,
      environment_create_variables, environment_define_var_variables,
      hashtable_get_create, hashtable_get_set_same, hashtable_get_set_other,
      hashtable_set_wf, hwf, value_create_int, h1, h2, hs]

theorem variable_decl_binds_unconverted_witness :
    execute_variable_decl exactArithmetic 3 "f"
        (some (literal TOKEN_INT_LITERAL (.int_value 1))) TYPE_FLOAT interpreter_init
      = .done (some .void)
          { (interpreter_init : Interpreter ℚ) with
            envs := [environment_define_var (register_builtin_functions environment_create)
                      "f" (some (.int_val 1))] } :=
  ((variable_decl_binds_unconverted exactArithmetic (fun _ => 0) 0).1 2 "f"
    (literal TOKEN_INT_LITERAL (.int_value 1)) TYPE_FLOAT interpreter_init interpreter_init
    (some (.int_val 1)) (register_builtin_functions environment_create)
    (register_builtin_functions environment_create) [] [] rfl
    (by
      simp [register_builtin_functions, environment_create_variables,
        environment_define_var_variables, hashtable_get_create, hashtable_get_set_other])
    (by
      have h1 : wrap32 1 = 1 := by decide
      simp [execute_expression, execute_literal_expr, value_create_int, h1])
    rfl rfl
    (by
      simp only [register_builtin_functions, environment_create_variables,
        environment_define_var_variables]
      exact hashtable_set_wf _ _ _ (hashtable_set_wf _ _ _ (hashtable_set_wf _ _ _
        (hashtable_create_wf 32 (by decide)))))).1

/-! ## Built-ins and user functions of the same name -/

theorem builtin_referenced_bound {F : Type} (st : Interpreter F) (name : String)
    (function : BuiltinFn) (label : String) (args : List (Option (Value F)))
    (h : environment_get_var st.envs name = some (.builtin_fn function label)) :
    builtin_referenced st name function args = true := by
  simp [builtin_referenced, h, Value.is_builtin]

theorem chain_find_holds {F : Type} (function : BuiltinFn) (key : String) :
    ∀ chain : List (String × Option (Value F)),
      Value.is_builtin function (chain_find key chain).join = true →
      chain.any (fun entry => Value.is_builtin function entry.2) = true
  | [], h => by simp [chain_find, Value.is_builtin] at h
  | (k, v) :: rest, h => by
    rw [chain_find] at h
    rw [List.any_cons]
    by_cases hk : k = key
    · rw [if_pos hk] at h
      simp only [Option.join, Option.some_bind, id] at h
      simp [h]
    · rw [if_neg hk] at h
      simp [chain_find_holds function key rest h]

theorem hashtable_holds_builtin_of_get {F : Type} (table : HashTable (Value F))
    (key : String) (function : BuiltinFn)
    (h : Value.is_builtin function (hashtable_get table key) = true) :
    hashtable_holds_builtin table function = true := by
  obtain ⟨buckets, capacity, count⟩ := table
  simp only [hashtable_get] at h
  simp only [hashtable_holds_builtin]
  by_cases hlt : hash_function key capacity < buckets.length
  · rw [List.any_eq_true]
    refine ⟨buckets[hash_function key capacity], List.getElem_mem _, ?_⟩
    apply chain_find_holds function key
    simpa [List.getD_eq_getElem?_getD, hlt] using h
  · have hnone : buckets.getD (hash_function key capacity) [] = [] := by
      simp [List.getD_eq_getElem?_getD, List.getElem?_eq_none (Nat.le_of_not_lt hlt)]
    rw [hnone] at h
    simp [chain_find, Value.is_builtin] at h

theorem hashtable_holds_builtin_create {F : Type} (capacity : Nat) (function : BuiltinFn) :
    hashtable_holds_builtin (hashtable_create capacity : HashTable (Value F)) function
      = false := by
  simp [hashtable_holds_builtin, hashtable_create]

theorem hash_print : hash_function "print" 32 = 18 := by rfl

theorem hash_type : hash_function "type" 32 = 7 := by rfl

theorem hash_len : hash_function "len" 32 = 4 := by rfl

theorem hashtable_create_buckets {V : Type} :
    (hashtable_create 32 : HashTable V) = ⟨List.replicate 32 [], 32, 0⟩ := by
  rfl

theorem builtin_table_print {V : Type} (v : Option V) :
    hashtable_set (hashtable_create 32 : HashTable V) "print" v
      = ⟨(List.replicate 32 []).set 18 [("print", v)], 32, 1⟩ := by
  rw [hashtable_create_buckets]
  simp [-List.reduceReplicate, hashtable_set, chain_replace, hash_print,
    List.getD_eq_getElem?_getD, List.getElem?_replicate]

theorem builtin_table_type {V : Type} (v w : Option V) :
    hashtable_set (⟨(List.replicate 32 []).set 18 [("print", v)], 32, 1⟩ : HashTable V)
        "type" w
      = ⟨((List.replicate 32 []).set 18 [("print", v)]).set 7 [("type", w)], 32, 2⟩ := by
  simp [-List.reduceReplicate, hashtable_set, chain_replace, hash_type,
    List.getD_eq_getElem?_getD, List.getElem?_set, List.getElem?_replicate]

theorem builtin_table_len {V : Type} (v w x : Option V) :
    hashtable_set
        (⟨((List.replicate 32 []).set 18 [("print", v)]).set 7 [("type", w)], 32, 2⟩ :
          HashTable V)
        "len" x
      = ⟨(((List.replicate 32 []).set 18 [("print", v)]).set 7 [("type", w)]).set 4
          [("len", x)], 32, 3⟩ := by
  simp [-List.reduceReplicate, hashtable_set, chain_replace, hash_len,
    List.getD_eq_getElem?_getD, List.getElem?_set, List.getElem?_replicate]

theorem builtin_table_print_again {V : Type} (v w x y : Option V) :
    hashtable_set
        (⟨(((List.replicate 32 []).set 18 [("print", v)]).set 7 [("type", w)]).set 4
          [("len", x)], 32, 3⟩ : HashTable V)
        "print" y
      = ⟨(((List.replicate 32 []).set 18 [("print", y)]).set 7 [("type", w)]).set 4
          [("len", x)], 32, 3⟩ := by
  simp [-List.reduceReplicate, hashtable_set, chain_replace, hash_print,
    List.getD_eq_getElem?_getD, List.getElem?_set, List.getElem?_replicate]
  rw [List.set_comm _ _ _ (by decide : (4 : Nat) ≠ 18),
    List.set_comm _ _ _ (by decide : (7 : Nat) ≠ 18), List.set_set]

theorem rebound_table_holds_no_print {F : Type} (v : Option (Value F))
    (hv : Value.is_builtin .builtin_print v = false) :
    hashtable_holds_builtin
      (hashtable_set
        (hashtable_set
          (hashtable_set
            (hashtable_set (hashtable_create 32 : HashTable (Value F)) "print"
              (some (.builtin_fn .builtin_print "print")))
            "type" (some (.builtin_fn .builtin_type "type")))
          "len" (some (.builtin_fn .builtin_len "len")))
        "print" v)
      .builtin_print = false := by
  rw [builtin_table_print, builtin_table_type, builtin_table_len, builtin_table_print_again]
  rw [← Bool.not_eq_true]
  intro h
  simp only [hashtable_holds_builtin, List.any_eq_true] at h
  obtain ⟨chain, hchain, e, he, hb⟩ := h
  rcases List.mem_or_eq_of_mem_set hchain with h1 | rfl
  · rcases List.mem_or_eq_of_mem_set h1 with h2 | rfl
    · rcases List.mem_or_eq_of_mem_set h2 with h3 | rfl
      · have := List.eq_of_mem_replicate h3
        subst this
        simp at he
      · simp only [List.mem_singleton] at he
        subst he
        simp [hv] at hb
    · simp only [List.mem_singleton] at he
      subst he
      simp [Value.is_builtin] at hb
  · simp only [List.mem_singleton] at he
    subst he
    simp [Value.is_builtin] at hb

theorem execute_call_expr_builtin {F : Type} (fl : DoubleOps F) (fuel : Nat) (name : String)
    (arguments : List ASTNode) (arg_count : Nat) (st : Interpreter F)
    (function : BuiltinFn) (label : String)
    (h : environment_get_var st.envs name = some (.builtin_fn function label)) :
    execute_call_expr fl (fuel + 1) name arguments arg_count st
      = execute_builtin_call fl fuel name function arguments arg_count [] st := by
  rw [execute_call_expr]
  simp only [h]

theorem execute_call_expr_user {F : Type} (fl : DoubleOps F) (fuel : Nat) (name : String)
    (arguments : List ASTNode) (st : Interpreter F)
    (func_name : String) (params : List ASTNode) (param_count : Nat)
    (return_type body : ASTNode)
    (hvar : ∀ function label,
      environment_get_var st.envs name ≠ some (.builtin_fn function label))
    (hfun : environment_get_func st.envs name
      = some (func_decl func_name params param_count return_type body)) :
    execute_call_expr fl (fuel + 1) name arguments param_count st
      = execute_user_call fl fuel name body arguments params param_count
          environment_create st := by
  rw [execute_call_expr]
  split
  · rename_i function label heq
    exact absurd heq (hvar function label)
  · simp only [hfun, ne_eq, not_true_eq_false, if_false]

theorem builtin_call_no_argument {F : Type} (fl : DoubleOps F) (fuel : Nat) (name : String)
    (st : Interpreter F) (function : BuiltinFn) (label : String)
    (h : environment_get_var st.envs name = some (.builtin_fn function label)) :
    execute_call_expr fl (fuel + 2) name [] 0 st = call_builtin fl function st [] := by
  rw [execute_call_expr_builtin fl (fuel + 1) name [] 0 st function label h,
    execute_builtin_call, builtin_referenced_bound st name function label [] h, if_pos rfl]

theorem builtin_call_one_argument {F : Type} (fl : DoubleOps F) (fuel : Nat) (name : String)
    (argument : ASTNode) (st st1 : Interpreter F) (function : BuiltinFn) (label : String)
    (value : Option (Value F))
    (h : environment_get_var st.envs name = some (.builtin_fn function label))
    (harg : execute_expression fl (fuel + 1) (some argument) st = .done value st1)
    (hok : st1.has_runtime_error = false)
    (hlive : builtin_referenced st1 name function [value] = true) :
    execute_call_expr fl (fuel + 3) name [argument] 1 st
      = call_builtin fl function st1 [value] := by
  rw [execute_call_expr_builtin fl (fuel + 2) name [argument] 1 st function label h,
    execute_builtin_call]
  simp only [harg, hok, Bool.false_eq_true, if_false]
  rw [execute_builtin_call]
  simp only [List.nil_append, hlive, if_true]

/-- C40, refuted on the program `print(print = 1);`.  `execute_call_expr` looks the callee
up in the variables first: when the name resolves through the chain of environments to a
built-in value, the built-in branch is taken, whatever the function tables hold under the
name, and only when it resolves to no built-in value is the function table read and the
user function called.  In the initial state `print`, `type` and `len` resolve to the
built-ins.  A call without arguments of such a name is the call of the built-in, and so is
a call with one argument whose evaluation raises no error and leaves the built-in value
referenced.  So in `fn print(a: int): int { return a + 1; } print(7);` the call prints `7`
and yields `void`: the body of the user function is not executed; in
`fn print(a: int): int { return a + 1; } { let print: int = 0; print(7); }` the variable
shadows the built-in, nothing is printed and the call yields 8, the result of the body.

But the built-in is not always invoked.  The pointer to the built-in value is taken before
the arguments are evaluated, without a reference, and the address of the function is read
through it afterwards.  `print(print = 1);` parses without error and the analyzer, which
does not check an expression statement, accepts it; its argument raises no error and
rebinds `print`, which gives back the only reference to the built-in value: no variable, no
argument and no return value holds it any more, it has been freed, and the call reads freed
memory, which is undefined.  In `let p: int = print; print(print = 1);` the variable `p`
keeps the value alive and the call prints `1`. -/
theorem call_of_builtin_name {F : Type} (fl : DoubleOps F)
    (stray_stmt_count : ASTNode → Int) (n : Nat) :
    (∀ (fuel : Nat) (name : String) (arguments : List ASTNode) (arg_count : Nat)
        (st : Interpreter F) (function : BuiltinFn) (label : String),
        environment_get_var st.envs name = some (.builtin_fn function label) →
        execute_call_expr fl (fuel + 1) name arguments arg_count st
          = execute_builtin_call fl fuel name function arguments arg_count [] st)
    ∧ (∀ (fuel : Nat) (name : String) (st : Interpreter F) (function : BuiltinFn)
        (label : String),
        environment_get_var st.envs name = some (.builtin_fn function label) →
        execute_call_expr fl (fuel + 2) name [] 0 st = call_builtin fl function st [])
    ∧ (∀ (fuel : Nat) (name : String) (argument : ASTNode) (st st1 : Interpreter F)
        (function : BuiltinFn) (label : String) (value : Option (Value F)),
        environment_get_var st.envs name = some (.builtin_fn function label) →
        execute_expression fl (fuel + 1) (some argument) st = .done value st1 →
        st1.has_runtime_error = false →
        builtin_referenced st1 name function [value] = true →
        execute_call_expr fl (fuel + 3) name [argument] 1 st
          = call_builtin fl function st1 [value])
    ∧ (∀ (name : String) (function : BuiltinFn) (label : String)
        (args : List (Option (Value F))) (st : Interpreter F),
        environment_get_var st.envs name = some (.builtin_fn function label) →
        builtin_referenced st name function args = true)
    ∧ (∀ (fuel : Nat) (name : String) (arguments : List ASTNode) (st : Interpreter F)
        (func_name : String) (params : List ASTNode) (param_count : Nat)
        (return_type body : ASTNode),
        (∀ function label,
          environment_get_var st.envs name ≠ some (.builtin_fn function label)) →
        environment_get_func st.envs name
          = some (func_decl func_name params param_count return_type body) →
        execute_call_expr fl (fuel + 1) name arguments param_count st
          = execute_user_call fl fuel name body arguments params param_count
              environment_create st)
    ∧ environment_get_var (interpreter_init : Interpreter F).envs "print"
        = some (.builtin_fn .builtin_print "print")
    ∧ environment_get_var (interpreter_init : Interpreter F).envs "type"
        = some (.builtin_fn .builtin_type "type")
    ∧ environment_get_var (interpreter_init : Interpreter F).envs "len"
        = some (.builtin_fn .builtin_len "len")
    ∧ source_tokens "fn print(a: int): int \x7b return a + 1; \x7d print(7);"
        = tokens_successor_print
    ∧ (∃ p, parse_program 40 (parser_init tokens_successor_print eofToken)
        = .done program_successor_print p ∧ p.had_error = false)
    ∧ (∃ st', execute_program fl (n + 12) (some program_successor_print) interpreter_init
          = .done (some .void) st'
        ∧ interpreter_execute fl (n + 12) (some program_successor_print) interpreter_init
          = .done 1 st'
        ∧ st'.output = "7\n" ∧ st'.has_runtime_error = false)
    ∧ source_tokens
        "fn print(a: int): int \x7b return a + 1; \x7d \x7b let print: int = 0; print(7); \x7d"
        = tokens_shadowed_print
    ∧ (∃ p, parse_program 60 (parser_init tokens_shadowed_print eofToken)
        = .done program_shadowed_print p ∧ p.had_error = false)
    ∧ (∃ st', execute_program fl (n + 24) (some program_shadowed_print) interpreter_init
          = .done (some (.int_val 8)) st'
        ∧ interpreter_execute fl (n + 24) (some program_shadowed_print) interpreter_init
          = .done 1 st'
        ∧ st'.output = "" ∧ st'.has_runtime_error = false)
    ∧ source_tokens "print(print = 1);" = tokens_print_rebound
    ∧ (∃ p, parse_program 40 (parser_init tokens_print_rebound eofToken)
        = .done program_print_rebound p ∧ p.had_error = false)
    ∧ (stray_stmt_count statement_print_rebound ≤ 0 →
        ∃ a, semantic_analyze stray_stmt_count (n + 5) (some program_print_rebound)
            semantic_init = .done 1 a
          ∧ a.error_count = 0)
    ∧ environment_get_var (state_in_block : Interpreter F).envs "print"
        = some (.builtin_fn .builtin_print "print")
    ∧ (∃ st1, execute_expression fl (n + 3) (some print_becomes_one) state_in_block
          = .done (some (.int_val 1)) st1
        ∧ st1.has_runtime_error = false
        ∧ environment_get_var st1.envs "print" = some (.int_val 1)
        ∧ builtin_referenced st1 "print" .builtin_print [some (.int_val 1)] = false)
    ∧ interpreter_execute fl (n + 10) (some program_print_rebound) interpreter_init
        = .undefined
    ∧ source_tokens "let p: int = print; print(print = 1);" = tokens_print_kept
    ∧ (∃ p, parse_program 40 (parser_init tokens_print_kept eofToken)
        = .done program_print_kept p ∧ p.had_error = false)
    ∧ (∃ st', interpreter_execute fl (n + 12) (some program_print_kept) interpreter_init
          = .done 1 st'
        ∧ st'.output = "1\n" ∧ st'.has_runtime_error = false) := by
  have h0 : wrap32 0 = 0 := by decide
  have h1 : wrap32 1 = 1 := by decide
  have h7 : wrap32 7 = 7 := by decide
  have h8 : wrap32 8 = 8 := by decide
  have hs1 : toString (1 : Int) = "1" := by decide
  have hs7 : toString (7 : Int) = "7" := by decide
  have hwf : ∀ V : Type, (hashtable_create 32 : HashTable V).WF :=
    fun _ => hashtable_create_wf 32 (by decide)
  have hwf2 : ∀ (V : Type) (k k' : String) (v v' : Option V),
      (hashtable_set (hashtable_set (hashtable_create 32) k v) k' v').WF :=
    fun V k k' v v' => hashtable_set_wf _ _ _ (hashtable_set_wf _ _ _ (hwf V))
  have hwf3 : ∀ (V : Type) (k1 k2 k3 : String) (v1 v2 v3 : Option V),
      (hashtable_set (hashtable_set (hashtable_set (hashtable_create 32) k1 v1) k2 v2)
        k3 v3).WF :=
    fun V _ _ _ _ _ _ => hashtable_set_wf _ _ _ (hwf2 V _ _ _ _)
  have hkept : hashtable_holds_builtin
      (hashtable_set (hashtable_create 32 : HashTable (Value F)) "p"
        (some (.builtin_fn .builtin_print "print"))) .builtin_print = true :=
    hashtable_holds_builtin_of_get _ "p" _
      (by simp [hashtable_get_set_same, hwf, Value.is_builtin])
  refine ⟨execute_call_expr_builtin fl, builtin_call_no_argument fl,
    builtin_call_one_argument fl,
    fun name function label args st h => builtin_referenced_bound st name function label args h,
    execute_call_expr_user fl, ?_, ?_, ?_,
    by decide, ⟨_, rfl, rfl⟩, ?_, by decide, ⟨_, rfl, rfl⟩, ?_,
    by decide, ⟨_, rfl, rfl⟩, ?_, ?_, ?_, ?_, by decide, ⟨_, rfl, rfl⟩, ?_⟩
  · simp [interpreter_init, register_builtin_functions, environment_get_var,
      environment_create_variables, environment_define_var_variables,
      hashtable_get_create, hashtable_get_set_same, hashtable_get_set_other,
      hashtable_set_wf, hwf, hwf2, hwf2]
  · simp [interpreter_init, register_builtin_functions, environment_get_var,
      environment_create_variables, environment_define_var_variables,
      hashtable_get_create, hashtable_get_set_same, hashtable_get_set_other,
      hashtable_set_wf, hwf, hwf2, hwf2]
  · simp [interpreter_init, register_builtin_functions, environment_get_var,
      environment_create_variables, environment_define_var_variables,
      hashtable_get_create, hashtable_get_set_same, hashtable_get_set_other,
      hashtable_set_wf, hwf, hwf2, hwf2]
  · simp [program_successor_print, successor_print_decl, print_seven, interpreter_execute,
      execute_program, execute_statement, execute_block,
      execute_block_loop, execute_expression, execute_literal_expr,
      execute_function_decl, execute_call_expr, execute_builtin_call, builtin_referenced,
      Value.is_builtin,
      interpreter_init, register_builtin_functions, environment_get_var,
      environment_create_variables, environment_define_var_variables,
      environment_define_func_variables,
      hashtable_get_create, hashtable_get_set_same, hashtable_get_set_other,
      hashtable_set_wf, hwf, hwf2,
      value_create_int, call_builtin, builtin_print,
      print_text, value_to_string, h7, hs7]
  · simp [program_shadowed_print, successor_print_decl, print_seven, interpreter_execute,
      execute_program, execute_statement, execute_block,
      execute_block_loop, execute_variable_decl, execute_expression, execute_literal_expr,
      execute_variable_expr, execute_return_statement, execute_binary_expr, binary_switch,
      op_add,
      execute_function_decl, execute_call_expr, execute_builtin_call, execute_user_call,
      interpreter_init, register_builtin_functions, environment_get_var, environment_get_func,
      environment_create_variables, environment_define_var_variables,
      environment_define_func_variables, function_entry_create, function_entry_define_var,
      function_entry_define_func_same, function_entry_define_func_other,
      hashtable_get_create, hashtable_get_set_same, hashtable_get_set_other,
      hashtable_set_wf, hwf, hwf2, environment_create_wf,
      environment_define_var_functions,
      value_create_int, push_call_frame, pop_call_frame,
      runtime_error, h7, h0, h1, h8]
  · intro h
    have h' : ¬ 0 < stray_stmt_count statement_print_rebound := by omega
    simp only [program_print_rebound, statement_print_rebound, print_becomes_one] at h' ⊢
    simp [semantic_analyze, visit_node, visit_block, visit_block_loop,
      visit_expression_statement, enter_scope, exit_scope, scope_create,
      semantic_init, semantic_register_builtins, symbol_insert, h']
  · simp [state_in_block, interpreter_init, register_builtin_functions, environment_get_var,
      environment_create_variables, environment_define_var_variables,
      hashtable_get_create, hashtable_get_set_same, hashtable_get_set_other,
      hashtable_set_wf, hwf, hwf2]
  · simp [print_becomes_one, state_in_block, execute_expression, execute_assignment,
      execute_literal_expr, builtin_referenced, Value.is_builtin,
      interpreter_init, register_builtin_functions, environment_get_var,
      environment_assign_var, hashtable_has,
      environment_create_variables, environment_define_var_variables,
      hashtable_get_create, hashtable_get_set_same, hashtable_get_set_other,
      hashtable_set_wf, hwf, hwf2, hwf3, value_create_int, h1,
      hashtable_holds_builtin_create, rebound_table_holds_no_print]
  · simp [program_print_rebound, statement_print_rebound, print_becomes_one,
      interpreter_execute,
      execute_program, execute_statement, execute_block,
      execute_block_loop, execute_expression, execute_literal_expr, execute_assignment,
      execute_call_expr, execute_builtin_call, builtin_referenced,
      Value.is_builtin,
      interpreter_init, register_builtin_functions, environment_get_var,
      environment_assign_var, hashtable_has,
      environment_create_variables, environment_define_var_variables,
      hashtable_get_create, hashtable_get_set_same, hashtable_get_set_other,
      hashtable_set_wf, hwf, hwf2, hwf3, value_create_int, h1,
      hashtable_holds_builtin_create, rebound_table_holds_no_print]
  · simp [program_print_kept, statement_print_rebound, print_becomes_one,
      interpreter_execute,
      execute_program, execute_statement, execute_block, execute_variable_decl,
      execute_variable_expr,
      execute_block_loop, execute_expression, execute_literal_expr, execute_assignment,
      execute_call_expr, execute_builtin_call, builtin_referenced,
      Value.is_builtin,
      interpreter_init, register_builtin_functions, environment_get_var,
      environment_assign_var, hashtable_has,
      environment_create_variables, environment_define_var_variables,
      hashtable_get_create, hashtable_get_set_same, hashtable_get_set_other,
      hashtable_set_wf, hwf, hwf2, hwf3, value_create_int, h1, hs1,
      hashtable_holds_builtin_create, rebound_table_holds_no_print, hkept,
      call_builtin, builtin_print, print_text, value_to_string]

theorem call_of_builtin_name_witness :
    environment_get_var (interpreter_init : Interpreter ℚ).envs "print"
        = some (.builtin_fn .builtin_print "print")
    ∧ execute_call_expr exactArithmetic 3 "print" [] 0 interpreter_init
        = execute_builtin_call exactArithmetic 2 "print" .builtin_print [] 0 []
            interpreter_init
    ∧ execute_call_expr exactArithmetic 2 "print" [] 0 interpreter_init
        = call_builtin exactArithmetic .builtin_print interpreter_init []
    ∧ (fun _ : ASTNode => (0 : Int)) statement_print_rebound ≤ 0
    ∧ (∃ a, semantic_analyze (fun _ => 0) 5 (some program_print_rebound) semantic_init
          = .done 1 a
        ∧ a.error_count = 0)
    ∧ interpreter_execute exactArithmetic 10 (some program_print_rebound) interpreter_init
        = .undefined :=
  ⟨(call_of_builtin_name exactArithmetic (fun _ => 0) 0).2.2.2.2.2.1,
   (call_of_builtin_name exactArithmetic (fun _ => 0) 0).1 2 "print" [] 0 interpreter_init
     .builtin_print "print" (call_of_builtin_name exactArithmetic (fun _ => 0) 0).2.2.2.2.2.1,
   (call_of_builtin_name exactArithmetic (fun _ => 0) 0).2.1 0 "print" interpreter_init
     .builtin_print "print" (call_of_builtin_name exactArithmetic (fun _ => 0) 0).2.2.2.2.2.1,
   Int.le_refl 0,
   (call_of_builtin_name exactArithmetic (fun _ => 0) 0).2.2.2.2.2.2.2.2.2.2.2.2.2.2.2.2.1
     (Int.le_refl 0),
   (call_of_builtin_name exactArithmetic (fun _ => 0)
     0).2.2.2.2.2.2.2.2.2.2.2.2.2.2.2.2.2.2.2.1⟩

/-! ## The exit code -/

theorem parse_program_one_semicolon_paren (fuel : Nat) (junk : Token) :
    parse_program fuel (parser_init tokens_one_semicolon_paren junk) = .outOfFuel := by
  unfold parse_program
  by_cases h : 13 ≤ fuel
  · obtain ⟨m, rfl⟩ := Nat.exists_eq_add_of_le h
    rw [Nat.add_comm, first_iteration, second_iteration, stalled_loop]
  · have : fuel < 13 := by omega
    interval_cases fuel <;> rfl

theorem interpreter_execute_result {F : Type} (fl : DoubleOps F) (fuel : Nat)
    (root : Option ASTNode) (st st' : Interpreter F) (result : Int)
    (h : interpreter_execute fl fuel root st = .done result st') :
    (result = 0 ∨ result = 1) ∧ (result ≠ 0 ↔ st'.has_runtime_error = false) := by
  unfold interpreter_execute at h
  split at h
  · cases h
    exact ⟨Or.inl rfl, by simp [runtime_error]⟩
  · split at h
    · split at h
      · rename_i he
        cases h
        exact ⟨Or.inl rfl, by simp [he]⟩
      · rename_i he
        cases h
        exact ⟨Or.inr rfl, by simpa using he⟩
    · cases h
    · cases h

theorem semantic_analyze_result (stray_stmt_count : ASTNode → Int) (fuel : Nat)
    (root : ASTNode) (st st' : SemanticAnalyzer) (ok : Int)
    (h : semantic_analyze stray_stmt_count fuel (some root) st = .done ok st') :
    ok = if st'.error_count = 0 then 1 else 0 := by
  unfold semantic_analyze at h
  simp only at h
  split at h
  · cases h
    rfl
  · cases h
  · cases h

theorem parse_program_let_a (n : Nat) (junk : Token) :
    parse_program (n + 16) (parser_init tokens_let_a junk)
      = .done program_let_a (stateAt eofToken ⟨TOKEN_SEMICOLON, ";"⟩ [] false false) := by
  simp [parse_program, parse_program_loop, parse_declaration, parse_variable_declaration,
    parse_type, parse_expression,
    parse_assignment, parse_equality, parse_equality_loop, parse_comparison,
    parse_comparison_loop, parse_term, parse_term_loop, parse_factor, parse_factor_loop,
    parse_unary, parse_primary, match_, check, stateAt, parser_error, parser_init,
    tokens_let_a, advance, lexer_next_token, consume, make_literal_node, program_let_a,
    eofToken]
  rfl

theorem semantic_analyze_let_a (stray_stmt_count : ASTNode → Int) (n : Nat) :
    ∃ st', semantic_analyze stray_stmt_count (n + 16) (some program_let_a) semantic_init
        = .done 1 st' ∧ st'.error_count = 0 := by
  simp [program_let_a, semantic_analyze, visit_node, visit_block, visit_block_loop,
    visit_variable_decl, check_expression, check_literal_expression,
    are_types_compatible, type_from_ast_node,
    symbol_lookup_current, enter_scope, exit_scope, scope_create, find_symbol,
    symbol_insert, symbol_create_variable, typeinfo_create, typeinfo_copy,
    semantic_init, semantic_register_builtins]

theorem interpreter_execute_let_a {F : Type} (fl : DoubleOps F) (n : Nat) :
    ∃ st', interpreter_execute fl (n + 16) (some program_let_a) interpreter_init
        = .done 1 st' ∧ st'.has_runtime_error = false := by
  simp [program_let_a, interpreter_execute, execute_program, execute_statement,
    execute_block, execute_block_loop, execute_variable_decl, execute_expression,
    execute_literal_expr, interpreter_init, environment_create_variables,
    hashtable_get_create, value_create_int]

/-- C31, refuted on a file that holds `1; )`.  `parse_program` does not return on that
source, so `execute_craze_file` does not return either, whatever the fuel: it does not
return 1.  On a file that holds `= 5;` the parser reads through `NULL`.  Whenever
`execute_craze_file` does return, the rest of the claim holds: it returns 0 or 1; it
returns 0 exactly when the file was read, `parse_program` returned with `had_error` clear,
`semantic_analyze` returned 1 with no error counted, and `interpreter_execute` returned 1,
which it does exactly when no runtime error was raised; and the interpreter has been run
only after a parse without error and an analysis without error. -/
theorem execute_craze_file_contract {F : Type} (fl : DoubleOps F)
    (stray_stmt_count : ASTNode → Int) (junk : Token) (fuel : Nat) :
    execute_craze_file fl stray_stmt_count junk fuel (some "1; )") = .outOfFuel
    ∧ execute_craze_file fl stray_stmt_count junk (fuel + 12) (some "= 5;") = .undefined
    ∧ (∃ run, execute_craze_file fl stray_stmt_count junk (fuel + 16)
          (some "let a: int = 1;") = .done run
        ∧ run.exit_code = 0)
    ∧ (∀ run, execute_craze_file fl stray_stmt_count junk fuel none = .done run →
        run.exit_code = 1 ∧ run.parser = none ∧ run.analyzer = none
          ∧ run.interpreter = none)
    ∧ (∀ source run, execute_craze_file fl stray_stmt_count junk fuel source = .done run →
        (run.exit_code = 0 ∨ run.exit_code = 1)
        ∧ (run.exit_code = 0 ↔
            ∃ text program parser analyzer interpreter,
              source = some text
              ∧ parse_program fuel (parser_init (source_tokens text) junk)
                  = .done program parser
              ∧ parser.had_error = false
              ∧ semantic_analyze stray_stmt_count fuel (some program) semantic_init
                  = .done 1 analyzer
              ∧ analyzer.error_count = 0
              ∧ interpreter_execute fl fuel (some program) interpreter_init
                  = .done 1 interpreter
              ∧ interpreter.has_runtime_error = false)
        ∧ (∀ interpreter, run.interpreter = some interpreter →
            ∃ text program parser analyzer result,
              source = some text
              ∧ parse_program fuel (parser_init (source_tokens text) junk)
                  = .done program parser
              ∧ parser.had_error = false
              ∧ semantic_analyze stray_stmt_count fuel (some program) semantic_init
                  = .done 1 analyzer
              ∧ analyzer.error_count = 0
              ∧ interpreter_execute fl fuel (some program) interpreter_init
                  = .done result interpreter)) := by
  have h1 : source_tokens "1; )" = tokens_one_semicolon_paren := by decide
  have h2 : source_tokens "= 5;" = tokens_equal_five := by decide
  have h3 : source_tokens "let a: int = 1;" = tokens_let_a := by decide
  refine ⟨?_, ?_, ?_, ?_, ?_⟩
  · simp only [execute_craze_file, h1, parse_program_one_semicolon_paren]
  · simp only [execute_craze_file, h2, parse_program_equal_five]
  · obtain ⟨a, ha, ha0⟩ := semantic_analyze_let_a stray_stmt_count fuel
    obtain ⟨i, hi, -⟩ := interpreter_execute_let_a fl fuel
    refine ⟨⟨0, some (stateAt eofToken ⟨TOKEN_SEMICOLON, ";"⟩ [] false false), some a,
      some i⟩, ?_, rfl⟩
    simp [execute_craze_file, h3, parse_program_let_a, main_runs_analysis, stateAt, ha, ha0,
      hi]
  · intro run h
    simp only [execute_craze_file, FileOutcome.done.injEq] at h
    subst h
    exact ⟨rfl, rfl, rfl, rfl⟩
  · intro source run h
    unfold execute_craze_file at h
    split at h
    · cases h
      refine ⟨Or.inr rfl, ⟨fun h0 => by simp at h0, ?_⟩, ?_⟩
      · rintro ⟨text, _, _, _, _, hsrc, _⟩
        cases hsrc
      · intro interpreter hi
        cases hi
    · rename_i text
      split at h
      · rename_i program parser hparse
        split at h
        · rename_i hrun
          have hparser : parser.had_error = false := by
            simpa [main_runs_analysis] using hrun
          split at h
          · rename_i semantic_ok analyzer hsem
            have hok := semantic_analyze_result _ _ _ _ _ _ hsem
            split at h
            · rename_i hcond
              have hone : semantic_ok = 1 := by
                rw [hok, if_pos hcond.2]
              subst hone
              split at h
              · rename_i result interpreter hexec
                have hres := interpreter_execute_result fl fuel _ _ _ _ hexec
                cases h
                refine ⟨?_, ⟨?_, ?_⟩, ?_⟩
                · rcases hres.1 with h0 | h0 <;> simp [h0]
                · intro hexit
                  have hne : result ≠ 0 := by
                    intro h0
                    simp [h0] at hexit
                  have h1 : result = 1 := by
                    rcases hres.1 with h0 | h0
                    · exact absurd h0 hne
                    · exact h0
                  subst h1
                  exact ⟨text, program, parser, analyzer, interpreter, rfl, hparse, hparser,
                    hsem, hcond.2, hexec, hres.2.mp hne⟩
                · rintro ⟨text', program', parser', analyzer', interpreter', hsrc, hp', _, hs',
                    _, hi', _⟩
                  cases hsrc
                  rw [hparse] at hp'
                  cases hp'
                  rw [hsem] at hs'
                  cases hs'
                  rw [hexec] at hi'
                  cases hi'
                  rfl
                · intro interpreter' hi
                  cases hi
                  exact ⟨text, program, parser, analyzer, result, rfl, hparse, hparser, hsem,
                    hcond.2, hexec⟩
              · cases h
              · cases h
            · rename_i hcond
              cases h
              refine ⟨Or.inr rfl, ⟨fun h0 => by simp at h0, ?_⟩, ?_⟩
              · rintro ⟨text', program', parser', analyzer', interpreter', hsrc, hp', _, hs',
                  he', _⟩
                cases hsrc
                rw [hparse] at hp'
                cases hp'
                rw [hsem] at hs'
                cases hs'
                exact absurd ⟨by decide, he'⟩ hcond
              · intro interpreter hi
                cases hi
          · cases h
          · cases h
        · rename_i hrun
          cases h
          refine ⟨Or.inr rfl, ⟨fun h0 => by simp at h0, ?_⟩, ?_⟩
          · rintro ⟨text', program', parser', analyzer', interpreter', hsrc, hp', hh, _⟩
            cases hsrc
            rw [hparse] at hp'
            cases hp'
            exact absurd (by simp [main_runs_analysis, hh]) hrun
          · intro interpreter hi
            cases hi
      · cases h
      · cases h

theorem execute_craze_file_contract_witness :
    execute_craze_file exactArithmetic (fun _ => 0) eofToken 5 none
        = .done ⟨1, none, none, none⟩
    ∧ (⟨1, none, none, none⟩ : FileRun ℚ).interpreter = none :=
  ⟨rfl,
   ((execute_craze_file_contract exactArithmetic (fun _ => 0) eofToken 5).2.2.2.1
      ⟨1, none, none, none⟩ rfl).2.2.2⟩

/-! ## The `data_type` of the nodes the parser makes -/

theorem nodes_of_array_append (a b : List ASTNode) :
    nodes_of_array (a ++ b) = nodes_of_array a ++ nodes_of_array b := by
  induction a with
  | nil => simp [nodes_of_array]
  | cons x xs ih => simp [nodes_of_array, ih]

theorem well_made_optional_none : well_made_optional none = true := by
  simp [well_made_optional, nodes_of_optional]

theorem well_made_array_nil : well_made_array [] = true := by
  simp [well_made_array, nodes_of_array]

theorem well_made_array_append (a : List ASTNode) (x : ASTNode) :
    well_made_array (a ++ [x]) = (well_made_array a && well_made_optional (some x)) := by
  simp [well_made_array, well_made_optional, nodes_of_array_append, nodes_of_array,
    nodes_of_optional]

theorem well_made_var_decl (name : String) (type : ASTNode) (init : Option ASTNode) :
    well_made_optional (some (var_decl name type init))
      = (well_made_optional (some type) && well_made_optional init) := by
  simp [well_made_optional, nodes_of_optional, ASTNode.nodes, ASTNode.well_made]

theorem well_made_func_decl (name : String) (params : List ASTNode) (count : Nat)
    (return_type body : ASTNode) :
    well_made_optional (some (func_decl name params count return_type body))
      = (well_made_array params && well_made_optional (some return_type)
          && well_made_optional (some body)) := by
  simp [well_made_optional, well_made_array, nodes_of_optional, ASTNode.nodes,
    ASTNode.well_made, Bool.and_assoc]

theorem well_made_param (name : String) (type : ASTNode) :
    well_made_optional (some (param name type)) = well_made_optional (some type) := by
  simp [well_made_optional, nodes_of_optional, ASTNode.nodes, ASTNode.well_made]

theorem well_made_if_stmt (condition then_branch : ASTNode) (else_branch : Option ASTNode) :
    well_made_optional (some (if_stmt condition then_branch else_branch))
      = (well_made_optional (some condition) && well_made_optional (some then_branch)
          && well_made_optional else_branch) := by
  simp [well_made_optional, nodes_of_optional, ASTNode.nodes, ASTNode.well_made,
    Bool.and_assoc]

theorem well_made_while_stmt (condition body : ASTNode) :
    well_made_optional (some (while_stmt condition body))
      = (well_made_optional (some condition) && well_made_optional (some body)) := by
  simp [well_made_optional, nodes_of_optional, ASTNode.nodes, ASTNode.well_made]

theorem well_made_return_stmt (value : Option ASTNode) :
    well_made_optional (some (return_stmt value)) = well_made_optional value := by
  simp [well_made_optional, nodes_of_optional, ASTNode.nodes, ASTNode.well_made]

theorem well_made_expr_stmt (expression : ASTNode) :
    well_made_optional (some (expr_stmt expression))
      = well_made_optional (some expression) := by
  simp [well_made_optional, nodes_of_optional, ASTNode.nodes, ASTNode.well_made]

theorem well_made_block (statements : List ASTNode) :
    well_made_optional (some (block statements)) = well_made_array statements := by
  simp [well_made_optional, well_made_array, nodes_of_optional, ASTNode.nodes,
    ASTNode.well_made]

theorem well_made_binary_expr (operator : TokenType) (left : Option ASTNode)
    (right : ASTNode) :
    well_made_optional (some (binary_expr operator left right))
      = (well_made_optional left && well_made_optional (some right)) := by
  simp [well_made_optional, nodes_of_optional, ASTNode.nodes, ASTNode.well_made]

theorem well_made_unary_expr (operator : TokenType) (operand : ASTNode) :
    well_made_optional (some (unary_expr operator operand))
      = well_made_optional (some operand) := by
  simp [well_made_optional, nodes_of_optional, ASTNode.nodes, ASTNode.well_made]

theorem well_made_assign_expr (name : String) (value : ASTNode) :
    well_made_optional (some (assign_expr name value))
      = well_made_optional (some value) := by
  simp [well_made_optional, nodes_of_optional, ASTNode.nodes, ASTNode.well_made]

theorem well_made_call_expr (name : String) (arguments : List ASTNode) (count : Nat) :
    well_made_optional (some (call_expr name arguments count))
      = well_made_array arguments := by
  simp [well_made_optional, well_made_array, nodes_of_optional, ASTNode.nodes,
    ASTNode.well_made]

theorem well_made_var_expr (name : String) :
    well_made_optional (some (var_expr name)) = true := by
  simp [well_made_optional, nodes_of_optional, ASTNode.nodes, ASTNode.well_made]

theorem well_made_literal_node (token : Token) :
    well_made_optional (make_literal_node token) = true := by
  unfold make_literal_node
  split <;>
    simp [well_made_optional, nodes_of_optional, ASTNode.nodes, ASTNode.well_made]

theorem well_made_of_parse_type (p : Parser) (r : Option ASTNode) (q : Parser)
    (h : parse_type p = (r, q)) : well_made_optional r = true := by
  unfold parse_type at h
  split at h <;> cases h <;>
    simp [well_made_optional, nodes_of_optional, ASTNode.nodes, ASTNode.well_made]

theorem data_type_of_well_made (node : ASTNode) (h : node.well_made = true) :
    node.data_type ≠ TYPE_INVALID ↔ node.is_literal_or_type = true := by
  cases node <;> simp_all [ASTNode.data_type, ASTNode.is_literal_or_type, ASTNode.well_made]
  rename_i literal_type value
  rcases h with (((h | h) | h) | h) | h <;> simp [h]

theorem well_made_parse_parameters_loop (fuel : Nat) :
    GathersWellMade (parse_parameters_loop fuel) := by
  induction fuel with
  | zero =>
    intro acc p array count q h
    rw [parse_parameters_loop] at h
    cases h
  | succ n ih =>
    intro acc p array count q h hacc
    rw [parse_parameters_loop] at h
    try dsimp only at h
    repeat' split at h
    all_goals
      try (simp only [Outcome.done.injEq, Prod.mk.injEq] at h; obtain ⟨⟨rfl, rfl⟩, rfl⟩ := h)
    all_goals
      repeat' first
        | assumption
        | exact well_made_array_nil
        | refine And.intro ?_ ?_
        | refine well_made_of_parse_type _ _ _ (by assumption)
        | simp only [well_made_param, well_made_array_append, Bool.and_eq_true]
        | refine ih _ _ _ _ _ (by assumption) ?_

theorem well_made_parse_parameters (fuel : Nat) (p : Parser) (array : List ASTNode)
    (count : Nat) (q : Parser) (h : parse_parameters fuel p = .done (array, count) q) :
    well_made_array array = true :=
  well_made_parse_parameters_loop fuel [] p array count q h well_made_array_nil

theorem well_made_step_parse_variable_declaration (n : Nat) (ih : WellMadeAt n) :
    ParsesWellMade (parse_variable_declaration (n + 1)) := by
  intro p r q h
  rw [parse_variable_declaration] at h
  try dsimp only at h
  repeat' split at h
  all_goals try (simp at h; done)
  all_goals try (simp only [Outcome.done.injEq] at h; obtain ⟨rfl, rfl⟩ := h)
  all_goals
    repeat' first
      | assumption
      | exact well_made_optional_none
      | exact well_made_array_nil
      | exact well_made_var_expr _
      | exact well_made_literal_node _
      | refine And.intro ?_ ?_
      | refine well_made_of_parse_type _ _ _ (by assumption)
      | simp only [well_made_var_decl, well_made_func_decl, well_made_param, well_made_if_stmt,
          well_made_while_stmt, well_made_return_stmt, well_made_expr_stmt, well_made_block,
          well_made_binary_expr, well_made_unary_expr, well_made_assign_expr,
          well_made_call_expr, well_made_array_append, Bool.and_eq_true]
      | refine ih.expression _ _ _ (by assumption)

theorem well_made_step_parse_function_declaration (n : Nat) (ih : WellMadeAt n) :
    ParsesWellMade (parse_function_declaration (n + 1)) := by
  intro p r q h
  rw [parse_function_declaration] at h
  try dsimp only at h
  repeat' split at h
  all_goals try (simp at h; done)
  all_goals try (simp only [Outcome.done.injEq] at h; obtain ⟨rfl, rfl⟩ := h)
  all_goals
    repeat' first
      | assumption
      | exact well_made_optional_none
      | exact well_made_array_nil
      | exact well_made_var_expr _
      | exact well_made_literal_node _
      | refine And.intro ?_ ?_
      | refine well_made_of_parse_type _ _ _ (by assumption)
      | simp only [well_made_var_decl, well_made_func_decl, well_made_param, well_made_if_stmt,
          well_made_while_stmt, well_made_return_stmt, well_made_expr_stmt, well_made_block,
          well_made_binary_expr, well_made_unary_expr, well_made_assign_expr,
          well_made_call_expr, well_made_array_append, Bool.and_eq_true]
      | refine well_made_parse_parameters _ _ _ _ _ (by assumption)
      | refine ih.block _ _ _ (by assumption)

theorem well_made_step_parse_block_loop (n : Nat) (ih : WellMadeAt n) :
    CollectsWellMade (parse_block_loop (n + 1)) := by
  intro acc p r q h hacc
  rw [parse_block_loop] at h
  try dsimp only at h
  repeat' split at h
  all_goals try (simp at h; done)
  all_goals try (simp only [Outcome.done.injEq] at h; obtain ⟨rfl, rfl⟩ := h)
  all_goals
    repeat' first
      | assumption
      | exact well_made_optional_none
      | exact well_made_array_nil
      | exact well_made_var_expr _
      | exact well_made_literal_node _
      | refine And.intro ?_ ?_
      | refine well_made_of_parse_type _ _ _ (by assumption)
      | simp only [well_made_var_decl, well_made_func_decl, well_made_param, well_made_if_stmt,
          well_made_while_stmt, well_made_return_stmt, well_made_expr_stmt, well_made_block,
          well_made_binary_expr, well_made_unary_expr, well_made_assign_expr,
          well_made_call_expr, well_made_array_append, Bool.and_eq_true]
      | refine ih.declaration _ _ _ (by assumption)
      | refine ih.block_loop _ _ _ _ (by assumption) ?_

theorem well_made_step_parse_block (n : Nat) (ih : WellMadeAt n) :
    ParsesWellMade (parse_block (n + 1)) := by
  intro p r q h
  rw [parse_block] at h
  try dsimp only at h
  repeat' split at h
  all_goals try (simp at h; done)
  all_goals try (simp only [Outcome.done.injEq] at h; obtain ⟨rfl, rfl⟩ := h)
  all_goals
    repeat' first
      | assumption
      | exact well_made_optional_none
      | exact well_made_array_nil
      | exact well_made_var_expr _
      | exact well_made_literal_node _
      | refine And.intro ?_ ?_
      | refine well_made_of_parse_type _ _ _ (by assumption)
      | simp only [well_made_var_decl, well_made_func_decl, well_made_param, well_made_if_stmt,
          well_made_while_stmt, well_made_return_stmt, well_made_expr_stmt, well_made_block,
          well_made_binary_expr, well_made_unary_expr, well_made_assign_expr,
          well_made_call_expr, well_made_array_append, Bool.and_eq_true]
      | refine ih.block_loop _ _ _ _ (by assumption) ?_

theorem well_made_step_parse_if_statement (n : Nat) (ih : WellMadeAt n) :
    ParsesWellMade (parse_if_statement (n + 1)) := by
  intro p r q h
  rw [parse_if_statement] at h
  try dsimp only at h
  repeat' split at h
  all_goals try (simp at h; done)
  all_goals try (simp only [Outcome.done.injEq] at h; obtain ⟨rfl, rfl⟩ := h)
  all_goals
    repeat' first
      | assumption
      | exact well_made_optional_none
      | exact well_made_array_nil
      | exact well_made_var_expr _
      | exact well_made_literal_node _
      | refine And.intro ?_ ?_
      | refine well_made_of_parse_type _ _ _ (by assumption)
      | simp only [well_made_var_decl, well_made_func_decl, well_made_param, well_made_if_stmt,
          well_made_while_stmt, well_made_return_stmt, well_made_expr_stmt, well_made_block,
          well_made_binary_expr, well_made_unary_expr, well_made_assign_expr,
          well_made_call_expr, well_made_array_append, Bool.and_eq_true]
      | refine ih.expression _ _ _ (by assumption)
      | refine ih.block _ _ _ (by assumption)

theorem well_made_step_parse_while_statement (n : Nat) (ih : WellMadeAt n) :
    ParsesWellMade (parse_while_statement (n + 1)) := by
  intro p r q h
  rw [parse_while_statement] at h
  try dsimp only at h
  repeat' split at h
  all_goals try (simp at h; done)
  all_goals try (simp only [Outcome.done.injEq] at h; obtain ⟨rfl, rfl⟩ := h)
  all_goals
    repeat' first
      | assumption
      | exact well_made_optional_none
      | exact well_made_array_nil
      | exact well_made_var_expr _
      | exact well_made_literal_node _
      | refine And.intro ?_ ?_
      | refine well_made_of_parse_type _ _ _ (by assumption)
      | simp only [well_made_var_decl, well_made_func_decl, well_made_param, well_made_if_stmt,
          well_made_while_stmt, well_made_return_stmt, well_made_expr_stmt, well_made_block,
          well_made_binary_expr, well_made_unary_expr, well_made_assign_expr,
          well_made_call_expr, well_made_array_append, Bool.and_eq_true]
      | refine ih.expression _ _ _ (by assumption)
      | refine ih.block _ _ _ (by assumption)

theorem well_made_step_parse_return_statement (n : Nat) (ih : WellMadeAt n) :
    ParsesWellMade (parse_return_statement (n + 1)) := by
  intro p r q h
  rw [parse_return_statement] at h
  try dsimp only at h
  repeat' split at h
  all_goals try (simp at h; done)
  all_goals try (simp only [Outcome.done.injEq] at h; obtain ⟨rfl, rfl⟩ := h)
  all_goals
    repeat' first
      | assumption
      | exact well_made_optional_none
      | exact well_made_array_nil
      | exact well_made_var_expr _
      | exact well_made_literal_node _
      | refine And.intro ?_ ?_
      | refine well_made_of_parse_type _ _ _ (by assumption)
      | simp only [well_made_var_decl, well_made_func_decl, well_made_param, well_made_if_stmt,
          well_made_while_stmt, well_made_return_stmt, well_made_expr_stmt, well_made_block,
          well_made_binary_expr, well_made_unary_expr, well_made_assign_expr,
          well_made_call_expr, well_made_array_append, Bool.and_eq_true]
      | refine ih.expression _ _ _ (by assumption)

theorem well_made_step_parse_expression_statement (n : Nat) (ih : WellMadeAt n) :
    ParsesWellMade (parse_expression_statement (n + 1)) := by
  intro p r q h
  rw [parse_expression_statement] at h
  try dsimp only at h
  repeat' split at h
  all_goals try (simp at h; done)
  all_goals try (simp only [Outcome.done.injEq] at h; obtain ⟨rfl, rfl⟩ := h)
  all_goals
    repeat' first
      | assumption
      | exact well_made_optional_none
      | exact well_made_array_nil
      | exact well_made_var_expr _
      | exact well_made_literal_node _
      | refine And.intro ?_ ?_
      | refine well_made_of_parse_type _ _ _ (by assumption)
      | simp only [well_made_var_decl, well_made_func_decl, well_made_param, well_made_if_stmt,
          well_made_while_stmt, well_made_return_stmt, well_made_expr_stmt, well_made_block,
          well_made_binary_expr, well_made_unary_expr, well_made_assign_expr,
          well_made_call_expr, well_made_array_append, Bool.and_eq_true]
      | refine ih.expression _ _ _ (by assumption)

theorem well_made_step_parse_statement (n : Nat) (ih : WellMadeAt n) :
    ParsesWellMade (parse_statement (n + 1)) := by
  intro p r q h
  rw [parse_statement] at h
  try dsimp only at h
  repeat' split at h
  all_goals try (simp at h; done)
  all_goals try (simp only [Outcome.done.injEq] at h; obtain ⟨rfl, rfl⟩ := h)
  all_goals
    repeat' first
      | assumption
      | exact well_made_optional_none
      | exact well_made_array_nil
      | exact well_made_var_expr _
      | exact well_made_literal_node _
      | refine And.intro ?_ ?_
      | refine well_made_of_parse_type _ _ _ (by assumption)
      | simp only [well_made_var_decl, well_made_func_decl, well_made_param, well_made_if_stmt,
          well_made_while_stmt, well_made_return_stmt, well_made_expr_stmt, well_made_block,
          well_made_binary_expr, well_made_unary_expr, well_made_assign_expr,
          well_made_call_expr, well_made_array_append, Bool.and_eq_true]
      | refine ih.if_statement _ _ _ (by assumption)
      | refine ih.while_statement _ _ _ (by assumption)
      | refine ih.return_statement _ _ _ (by assumption)
      | refine ih.block _ _ _ (by assumption)
      | refine ih.expression_statement _ _ _ (by assumption)

theorem well_made_step_parse_declaration (n : Nat) (ih : WellMadeAt n) :
    ParsesWellMade (parse_declaration (n + 1)) := by
  intro p r q h
  rw [parse_declaration] at h
  try dsimp only at h
  repeat' split at h
  all_goals try (simp at h; done)
  all_goals try (simp only [Outcome.done.injEq] at h; obtain ⟨rfl, rfl⟩ := h)
  all_goals
    repeat' first
      | assumption
      | exact well_made_optional_none
      | exact well_made_array_nil
      | exact well_made_var_expr _
      | exact well_made_literal_node _
      | refine And.intro ?_ ?_
      | refine well_made_of_parse_type _ _ _ (by assumption)
      | simp only [well_made_var_decl, well_made_func_decl, well_made_param, well_made_if_stmt,
          well_made_while_stmt, well_made_return_stmt, well_made_expr_stmt, well_made_block,
          well_made_binary_expr, well_made_unary_expr, well_made_assign_expr,
          well_made_call_expr, well_made_array_append, Bool.and_eq_true]
      | refine ih.variable_declaration _ _ _ (by assumption)
      | refine ih.function_declaration _ _ _ (by assumption)
      | refine ih.statement _ _ _ (by assumption)

theorem well_made_step_parse_argument_list_loop (n : Nat) (ih : WellMadeAt n) :
    GathersWellMade (parse_argument_list_loop (n + 1)) := by
  intro acc p array count q h hacc
  rw [parse_argument_list_loop] at h
  try dsimp only at h
  repeat' split at h
  all_goals try (simp at h; done)
  all_goals try (simp only [Outcome.done.injEq, Prod.mk.injEq] at h; obtain ⟨⟨rfl, rfl⟩, rfl⟩ := h)
  all_goals
    repeat' first
      | assumption
      | exact well_made_optional_none
      | exact well_made_array_nil
      | exact well_made_var_expr _
      | exact well_made_literal_node _
      | refine And.intro ?_ ?_
      | refine well_made_of_parse_type _ _ _ (by assumption)
      | simp only [well_made_var_decl, well_made_func_decl, well_made_param, well_made_if_stmt,
          well_made_while_stmt, well_made_return_stmt, well_made_expr_stmt, well_made_block,
          well_made_binary_expr, well_made_unary_expr, well_made_assign_expr,
          well_made_call_expr, well_made_array_append, Bool.and_eq_true]
      | refine ih.expression _ _ _ (by assumption)
      | refine ih.argument_list_loop _ _ _ _ _ (by assumption) ?_

theorem well_made_step_parse_primary (n : Nat) (ih : WellMadeAt n) :
    ParsesWellMade (parse_primary (n + 1)) := by
  intro p r q h
  rw [parse_primary] at h
  try dsimp only at h
  repeat' split at h
  all_goals try (simp at h; done)
  all_goals try (simp only [Outcome.done.injEq] at h; obtain ⟨rfl, rfl⟩ := h)
  all_goals
    repeat' first
      | assumption
      | exact well_made_optional_none
      | exact well_made_array_nil
      | exact well_made_var_expr _
      | exact well_made_literal_node _
      | refine And.intro ?_ ?_
      | refine well_made_of_parse_type _ _ _ (by assumption)
      | simp only [well_made_var_decl, well_made_func_decl, well_made_param, well_made_if_stmt,
          well_made_while_stmt, well_made_return_stmt, well_made_expr_stmt, well_made_block,
          well_made_binary_expr, well_made_unary_expr, well_made_assign_expr,
          well_made_call_expr, well_made_array_append, Bool.and_eq_true]
      | refine ih.argument_list_loop _ _ _ _ _ (by assumption) ?_
      | refine ih.expression _ _ _ (by assumption)

theorem well_made_step_parse_unary (n : Nat) (ih : WellMadeAt n) :
    ParsesWellMade (parse_unary (n + 1)) := by
  intro p r q h
  rw [parse_unary] at h
  try dsimp only at h
  repeat' split at h
  all_goals try (simp at h; done)
  all_goals try (simp only [Outcome.done.injEq] at h; obtain ⟨rfl, rfl⟩ := h)
  all_goals
    repeat' first
      | assumption
      | exact well_made_optional_none
      | exact well_made_array_nil
      | exact well_made_var_expr _
      | exact well_made_literal_node _
      | refine And.intro ?_ ?_
      | refine well_made_of_parse_type _ _ _ (by assumption)
      | simp only [well_made_var_decl, well_made_func_decl, well_made_param, well_made_if_stmt,
          well_made_while_stmt, well_made_return_stmt, well_made_expr_stmt, well_made_block,
          well_made_binary_expr, well_made_unary_expr, well_made_assign_expr,
          well_made_call_expr, well_made_array_append, Bool.and_eq_true]
      | refine ih.unary _ _ _ (by assumption)
      | refine ih.primary _ _ _ (by assumption)

theorem well_made_step_parse_factor_loop (n : Nat) (ih : WellMadeAt n) :
    LoopsWellMade (parse_factor_loop (n + 1)) := by
  intro acc p r q h hacc
  rw [parse_factor_loop] at h
  try dsimp only at h
  repeat' split at h
  all_goals try (simp at h; done)
  all_goals try (simp only [Outcome.done.injEq] at h; obtain ⟨rfl, rfl⟩ := h)
  all_goals
    repeat' first
      | assumption
      | exact well_made_optional_none
      | exact well_made_array_nil
      | exact well_made_var_expr _
      | exact well_made_literal_node _
      | refine And.intro ?_ ?_
      | refine well_made_of_parse_type _ _ _ (by assumption)
      | simp only [well_made_var_decl, well_made_func_decl, well_made_param, well_made_if_stmt,
          well_made_while_stmt, well_made_return_stmt, well_made_expr_stmt, well_made_block,
          well_made_binary_expr, well_made_unary_expr, well_made_assign_expr,
          well_made_call_expr, well_made_array_append, Bool.and_eq_true]
      | refine ih.unary _ _ _ (by assumption)
      | refine ih.factor_loop _ _ _ _ (by assumption) ?_

theorem well_made_step_parse_factor (n : Nat) (ih : WellMadeAt n) :
    ParsesWellMade (parse_factor (n + 1)) := by
  intro p r q h
  rw [parse_factor] at h
  try dsimp only at h
  repeat' split at h
  all_goals try (simp at h; done)
  all_goals try (simp only [Outcome.done.injEq] at h; obtain ⟨rfl, rfl⟩ := h)
  all_goals
    repeat' first
      | assumption
      | exact well_made_optional_none
      | exact well_made_array_nil
      | exact well_made_var_expr _
      | exact well_made_literal_node _
      | refine And.intro ?_ ?_
      | refine well_made_of_parse_type _ _ _ (by assumption)
      | simp only [well_made_var_decl, well_made_func_decl, well_made_param, well_made_if_stmt,
          well_made_while_stmt, well_made_return_stmt, well_made_expr_stmt, well_made_block,
          well_made_binary_expr, well_made_unary_expr, well_made_assign_expr,
          well_made_call_expr, well_made_array_append, Bool.and_eq_true]
      | refine ih.unary _ _ _ (by assumption)
      | refine ih.factor_loop _ _ _ _ (by assumption) ?_

theorem well_made_step_parse_term_loop (n : Nat) (ih : WellMadeAt n) :
    LoopsWellMade (parse_term_loop (n + 1)) := by
  intro acc p r q h hacc
  rw [parse_term_loop] at h
  try dsimp only at h
  repeat' split at h
  all_goals try (simp at h; done)
  all_goals try (simp only [Outcome.done.injEq] at h; obtain ⟨rfl, rfl⟩ := h)
  all_goals
    repeat' first
      | assumption
      | exact well_made_optional_none
      | exact well_made_array_nil
      | exact well_made_var_expr _
      | exact well_made_literal_node _
      | refine And.intro ?_ ?_
      | refine well_made_of_parse_type _ _ _ (by assumption)
      | simp only [well_made_var_decl, well_made_func_decl, well_made_param, well_made_if_stmt,
          well_made_while_stmt, well_made_return_stmt, well_made_expr_stmt, well_made_block,
          well_made_binary_expr, well_made_unary_expr, well_made_assign_expr,
          well_made_call_expr, well_made_array_append, Bool.and_eq_true]
      | refine ih.factor _ _ _ (by assumption)
      | refine ih.term_loop _ _ _ _ (by assumption) ?_

theorem well_made_step_parse_term (n : Nat) (ih : WellMadeAt n) :
    ParsesWellMade (parse_term (n + 1)) := by
  intro p r q h
  rw [parse_term] at h
  try dsimp only at h
  repeat' split at h
  all_goals try (simp at h; done)
  all_goals try (simp only [Outcome.done.injEq] at h; obtain ⟨rfl, rfl⟩ := h)
  all_goals
    repeat' first
      | assumption
      | exact well_made_optional_none
      | exact well_made_array_nil
      | exact well_made_var_expr _
      | exact well_made_literal_node _
      | refine And.intro ?_ ?_
      | refine well_made_of_parse_type _ _ _ (by assumption)
      | simp only [well_made_var_decl, well_made_func_decl, well_made_param, well_made_if_stmt,
          well_made_while_stmt, well_made_return_stmt, well_made_expr_stmt, well_made_block,
          well_made_binary_expr, well_made_unary_expr, well_made_assign_expr,
          well_made_call_expr, well_made_array_append, Bool.and_eq_true]
      | refine ih.factor _ _ _ (by assumption)
      | refine ih.term_loop _ _ _ _ (by assumption) ?_

theorem well_made_step_parse_comparison_loop (n : Nat) (ih : WellMadeAt n) :
    LoopsWellMade (parse_comparison_loop (n + 1)) := by
  intro acc p r q h hacc
  rw [parse_comparison_loop] at h
  try dsimp only at h
  repeat' split at h
  all_goals try (simp at h; done)
  all_goals try (simp only [Outcome.done.injEq] at h; obtain ⟨rfl, rfl⟩ := h)
  all_goals
    repeat' first
      | assumption
      | exact well_made_optional_none
      | exact well_made_array_nil
      | exact well_made_var_expr _
      | exact well_made_literal_node _
      | refine And.intro ?_ ?_
      | refine well_made_of_parse_type _ _ _ (by assumption)
      | simp only [well_made_var_decl, well_made_func_decl, well_made_param, well_made_if_stmt,
          well_made_while_stmt, well_made_return_stmt, well_made_expr_stmt, well_made_block,
          well_made_binary_expr, well_made_unary_expr, well_made_assign_expr,
          well_made_call_expr, well_made_array_append, Bool.and_eq_true]
      | refine ih.term _ _ _ (by assumption)
      | refine ih.comparison_loop _ _ _ _ (by assumption) ?_

theorem well_made_step_parse_comparison (n : Nat) (ih : WellMadeAt n) :
    ParsesWellMade (parse_comparison (n + 1)) := by
  intro p r q h
  rw [parse_comparison] at h
  try dsimp only at h
  repeat' split at h
  all_goals try (simp at h; done)
  all_goals try (simp only [Outcome.done.injEq] at h; obtain ⟨rfl, rfl⟩ := h)
  all_goals
    repeat' first
      | assumption
      | exact well_made_optional_none
      | exact well_made_array_nil
      | exact well_made_var_expr _
      | exact well_made_literal_node _
      | refine And.intro ?_ ?_
      | refine well_made_of_parse_type _ _ _ (by assumption)
      | simp only [well_made_var_decl, well_made_func_decl, well_made_param, well_made_if_stmt,
          well_made_while_stmt, well_made_return_stmt, well_made_expr_stmt, well_made_block,
          well_made_binary_expr, well_made_unary_expr, well_made_assign_expr,
          well_made_call_expr, well_made_array_append, Bool.and_eq_true]
      | refine ih.term _ _ _ (by assumption)
      | refine ih.comparison_loop _ _ _ _ (by assumption) ?_

theorem well_made_step_parse_equality_loop (n : Nat) (ih : WellMadeAt n) :
    LoopsWellMade (parse_equality_loop (n + 1)) := by
  intro acc p r q h hacc
  rw [parse_equality_loop] at h
  try dsimp only at h
  repeat' split at h
  all_goals try (simp at h; done)
  all_goals try (simp only [Outcome.done.injEq] at h; obtain ⟨rfl, rfl⟩ := h)
  all_goals
    repeat' first
      | assumption
      | exact well_made_optional_none
      | exact well_made_array_nil
      | exact well_made_var_expr _
      | exact well_made_literal_node _
      | refine And.intro ?_ ?_
      | refine well_made_of_parse_type _ _ _ (by assumption)
      | simp only [well_made_var_decl, well_made_func_decl, well_made_param, well_made_if_stmt,
          well_made_while_stmt, well_made_return_stmt, well_made_expr_stmt, well_made_block,
          well_made_binary_expr, well_made_unary_expr, well_made_assign_expr,
          well_made_call_expr, well_made_array_append, Bool.and_eq_true]
      | refine ih.comparison _ _ _ (by assumption)
      | refine ih.equality_loop _ _ _ _ (by assumption) ?_

theorem well_made_step_parse_equality (n : Nat) (ih : WellMadeAt n) :
    ParsesWellMade (parse_equality (n + 1)) := by
  intro p r q h
  rw [parse_equality] at h
  try dsimp only at h
  repeat' split at h
  all_goals try (simp at h; done)
  all_goals try (simp only [Outcome.done.injEq] at h; obtain ⟨rfl, rfl⟩ := h)
  all_goals
    repeat' first
      | assumption
      | exact well_made_optional_none
      | exact well_made_array_nil
      | exact well_made_var_expr _
      | exact well_made_literal_node _
      | refine And.intro ?_ ?_
      | refine well_made_of_parse_type _ _ _ (by assumption)
      | simp only [well_made_var_decl, well_made_func_decl, well_made_param, well_made_if_stmt,
          well_made_while_stmt, well_made_return_stmt, well_made_expr_stmt, well_made_block,
          well_made_binary_expr, well_made_unary_expr, well_made_assign_expr,
          well_made_call_expr, well_made_array_append, Bool.and_eq_true]
      | refine ih.comparison _ _ _ (by assumption)
      | refine ih.equality_loop _ _ _ _ (by assumption) ?_

theorem well_made_step_parse_assignment (n : Nat) (ih : WellMadeAt n) :
    ParsesWellMade (parse_assignment (n + 1)) := by
  intro p r q h
  rw [parse_assignment] at h
  try dsimp only at h
  repeat' split at h
  all_goals try (simp at h; done)
  all_goals try (simp only [Outcome.done.injEq] at h; obtain ⟨rfl, rfl⟩ := h)
  all_goals
    repeat' first
      | assumption
      | exact well_made_optional_none
      | exact well_made_array_nil
      | exact well_made_var_expr _
      | exact well_made_literal_node _
      | refine And.intro ?_ ?_
      | refine well_made_of_parse_type _ _ _ (by assumption)
      | simp only [well_made_var_decl, well_made_func_decl, well_made_param, well_made_if_stmt,
          well_made_while_stmt, well_made_return_stmt, well_made_expr_stmt, well_made_block,
          well_made_binary_expr, well_made_unary_expr, well_made_assign_expr,
          well_made_call_expr, well_made_array_append, Bool.and_eq_true]
      | refine ih.equality _ _ _ (by assumption)
      | refine ih.assignment _ _ _ (by assumption)

theorem well_made_step_parse_expression (n : Nat) (ih : WellMadeAt n) :
    ParsesWellMade (parse_expression (n + 1)) := by
  intro p r q h
  rw [parse_expression] at h
  try dsimp only at h
  repeat' split at h
  all_goals try (simp at h; done)
  all_goals try (simp only [Outcome.done.injEq] at h; obtain ⟨rfl, rfl⟩ := h)
  all_goals
    repeat' first
      | assumption
      | exact well_made_optional_none
      | exact well_made_array_nil
      | exact well_made_var_expr _
      | exact well_made_literal_node _
      | refine And.intro ?_ ?_
      | refine well_made_of_parse_type _ _ _ (by assumption)
      | simp only [well_made_var_decl, well_made_func_decl, well_made_param, well_made_if_stmt,
          well_made_while_stmt, well_made_return_stmt, well_made_expr_stmt, well_made_block,
          well_made_binary_expr, well_made_unary_expr, well_made_assign_expr,
          well_made_call_expr, well_made_array_append, Bool.and_eq_true]
      | refine ih.assignment _ _ _ (by assumption)

theorem well_made_all (fuel : Nat) : WellMadeAt fuel := by
  induction fuel with
  | zero =>
    constructor
    · intro p r q h
      rw [parse_variable_declaration] at h
      cases h
    · intro p r q h
      rw [parse_function_declaration] at h
      cases h
    · intro acc p r q h
      rw [parse_block_loop] at h
      cases h
    · intro p r q h
      rw [parse_block] at h
      cases h
    · intro p r q h
      rw [parse_if_statement] at h
      cases h
    · intro p r q h
      rw [parse_while_statement] at h
      cases h
    · intro p r q h
      rw [parse_return_statement] at h
      cases h
    · intro p r q h
      rw [parse_expression_statement] at h
      cases h
    · intro p r q h
      rw [parse_statement] at h
      cases h
    · intro p r q h
      rw [parse_declaration] at h
      cases h
    · intro acc p array count q h
      rw [parse_argument_list_loop] at h
      cases h
    · intro p r q h
      rw [parse_primary] at h
      cases h
    · intro p r q h
      rw [parse_unary] at h
      cases h
    · intro acc p r q h
      rw [parse_factor_loop] at h
      cases h
    · intro p r q h
      rw [parse_factor] at h
      cases h
    · intro acc p r q h
      rw [parse_term_loop] at h
      cases h
    · intro p r q h
      rw [parse_term] at h
      cases h
    · intro acc p r q h
      rw [parse_comparison_loop] at h
      cases h
    · intro p r q h
      rw [parse_comparison] at h
      cases h
    · intro acc p r q h
      rw [parse_equality_loop] at h
      cases h
    · intro p r q h
      rw [parse_equality] at h
      cases h
    · intro p r q h
      rw [parse_assignment] at h
      cases h
    · intro p r q h
      rw [parse_expression] at h
      cases h
  | succ n ih =>
    exact
      ⟨well_made_step_parse_variable_declaration n ih,
       well_made_step_parse_function_declaration n ih,
       well_made_step_parse_block_loop n ih,
       well_made_step_parse_block n ih,
       well_made_step_parse_if_statement n ih,
       well_made_step_parse_while_statement n ih,
       well_made_step_parse_return_statement n ih,
       well_made_step_parse_expression_statement n ih,
       well_made_step_parse_statement n ih,
       well_made_step_parse_declaration n ih,
       well_made_step_parse_argument_list_loop n ih,
       well_made_step_parse_primary n ih,
       well_made_step_parse_unary n ih,
       well_made_step_parse_factor_loop n ih,
       well_made_step_parse_factor n ih,
       well_made_step_parse_term_loop n ih,
       well_made_step_parse_term n ih,
       well_made_step_parse_comparison_loop n ih,
       well_made_step_parse_comparison n ih,
       well_made_step_parse_equality_loop n ih,
       well_made_step_parse_equality n ih,
       well_made_step_parse_assignment n ih,
       well_made_step_parse_expression n ih⟩

theorem well_made_parse_program_loop (fuel : Nat) :
    CollectsWellMade (parse_program_loop fuel) := by
  induction fuel with
  | zero =>
    intro acc p r q h
    rw [parse_program_loop] at h
    cases h
  | succ n ih =>
    intro acc p r q h hacc
    rw [parse_program_loop] at h
    split at h
    · split at h
      · rename_i decl p1 heq
        refine ih _ _ _ _ h ?_
        rw [well_made_array_append, hacc, (well_made_all n).declaration _ _ _ heq]
        rfl
      · exact ih _ _ _ _ h hacc
      · cases h
      · cases h
    · simp only [Outcome.done.injEq] at h
      obtain ⟨rfl, -⟩ := h
      exact hacc

theorem well_made_parse_program (fuel : Nat) (p : Parser) (ast : ASTNode) (q : Parser)
    (h : parse_program fuel p = .done ast q) : well_made_optional (some ast) = true := by
  unfold parse_program at h
  split at h
  · rename_i declarations p1 heq
    simp only [Outcome.done.injEq] at h
    obtain ⟨rfl, -⟩ := h
    rw [well_made_block]
    exact well_made_parse_program_loop fuel [] p _ _ heq well_made_array_nil
  · cases h
  · cases h

/-- C36, refuted on the source text `1;`.  It parses without error to a block that holds
one expression statement that holds the literal 1.  The literal carries `TYPE_INT`, but the
block and the expression statement, which `make_node` made and no one annotated, carry
`TYPE_INVALID`. -/
theorem data_type_invalid_counterexample :
    source_tokens "1;" = tokens_one_semicolon
    ∧ ∃ p, parse_program 16 (parser_init tokens_one_semicolon eofToken)
        = .done (block [expr_stmt (literal TOKEN_INT_LITERAL (.int_value 1))]) p
      ∧ p.had_error = false
      ∧ (block [expr_stmt (literal TOKEN_INT_LITERAL (.int_value 1))]).nodes
          = [block [expr_stmt (literal TOKEN_INT_LITERAL (.int_value 1))],
             expr_stmt (literal TOKEN_INT_LITERAL (.int_value 1)),
             literal TOKEN_INT_LITERAL (.int_value 1)]
      ∧ (block [expr_stmt (literal TOKEN_INT_LITERAL (.int_value 1))]).data_type
          = TYPE_INVALID
      ∧ (expr_stmt (literal TOKEN_INT_LITERAL (.int_value 1))).data_type = TYPE_INVALID
      ∧ (literal TOKEN_INT_LITERAL (.int_value 1)).data_type = TYPE_INT := by
  refine ⟨by decide, _, rfl, rfl, ?_, rfl, rfl, rfl⟩
  simp [ASTNode.nodes, nodes_of_array]

/-- C36, amended.  In a tree returned by `parse_program` the nodes that carry a `data_type`
other than `TYPE_INVALID` are exactly the literal nodes and the type nodes: a literal node
holds one of the five literal token types and carries the type of its literal, a type node
carries the type it names, which is never `TYPE_INVALID`, and every node of another kind
carries `TYPE_INVALID`. -/
theorem parser_data_types (fuel : Nat) (p : Parser) (ast : ASTNode) (q : Parser)
    (h : parse_program fuel p = .done ast q) :
    ∀ node ∈ ast.nodes,
      node.well_made = true
      ∧ (node.data_type ≠ TYPE_INVALID ↔ node.is_literal_or_type = true)
      ∧ (∀ type, node = type_node type → node.data_type = type ∧ type ≠ TYPE_INVALID)
      ∧ (∀ literal_type value, node = literal literal_type value →
          node.data_type = (check_literal_expression literal_type).type.elim TYPE_INVALID
            TypeInfo.base_type
          ∧ node.data_type ≠ TYPE_INVALID) := by
  have hwell := well_made_parse_program fuel p ast q h
  simp only [well_made_optional, nodes_of_optional, List.all_eq_true] at hwell
  intro node hnode
  have hn := hwell node hnode
  have hiff := data_type_of_well_made node hn
  refine ⟨hn, hiff, ?_, ?_⟩
  · rintro type rfl
    exact ⟨rfl, hiff.mpr rfl⟩
  · rintro literal_type value rfl
    refine ⟨?_, hiff.mpr rfl⟩
    simp only [ASTNode.well_made, Bool.or_eq_true, beq_iff_eq] at hn
    rcases hn with (((h | h) | h) | h) | h <;> subst h <;> rfl

theorem parser_data_types_witness :
    parse_program 16 (parser_init tokens_one_semicolon eofToken)
        = .done (block [expr_stmt (literal TOKEN_INT_LITERAL (.int_value 1))])
            (stateAt eofToken ⟨TOKEN_SEMICOLON, ";"⟩ [] false false)
    ∧ ((block [expr_stmt (literal TOKEN_INT_LITERAL (.int_value 1))]).data_type
          ≠ TYPE_INVALID
        ↔ (block [expr_stmt (literal TOKEN_INT_LITERAL (.int_value 1))]).is_literal_or_type
          = true) :=
  ⟨rfl,
   (parser_data_types 16 (parser_init tokens_one_semicolon eofToken)
      (block [expr_stmt (literal TOKEN_INT_LITERAL (.int_value 1))])
      (stateAt eofToken ⟨TOKEN_SEMICOLON, ";"⟩ [] false false) rfl
      (block [expr_stmt (literal TOKEN_INT_LITERAL (.int_value 1))])
      (by simp [ASTNode.nodes])).2.1⟩

/-! ## What the routines of the interpreter keep -/

section Keeps

variable {F : Type} (fl : DoubleOps F)

theorem steps_refl (st : Interpreter F) : st.Steps st :=
  ⟨rfl, id, id, id⟩

theorem steps_trans (a b c : Interpreter F) (h1 : a.Steps b) (h2 : b.Steps c) : a.Steps c :=
  ⟨h2.1.trans h1.1, fun h => h2.2.1 (h1.2.1 h), fun h => h2.2.2.1 (h1.2.2.1 h),
    fun h => h2.2.2.2 (h1.2.2.2 h)⟩

theorem evaluates_refl (st : Interpreter F) : st.Evaluates st :=
  ⟨steps_refl st, rfl, rfl⟩

theorem evaluates_trans (a b c : Interpreter F) (h1 : a.Evaluates b) (h2 : b.Evaluates c) :
    a.Evaluates c :=
  ⟨steps_trans a b c h1.1 h2.1, h2.2.1.trans h1.2.1, h2.2.2.trans h1.2.2⟩

theorem steps_of_evaluates (a b c : Interpreter F) (h1 : a.Steps b) (h2 : b.Evaluates c) :
    a.Steps c :=
  steps_trans a b c h1 h2.1

theorem steps_runtime_error (a b : Interpreter F) (h : a.Steps b) :
    a.Steps (runtime_error b) :=
  ⟨h.1, fun _ => rfl, h.2.2.1, h.2.2.2⟩

theorem evaluates_runtime_error (a b : Interpreter F) (h : a.Evaluates b) :
    a.Evaluates (runtime_error b) :=
  ⟨steps_runtime_error a b h.1, h.2.1, h.2.2⟩

theorem steps_with_envs (a b : Interpreter F) (envs : List (Environment F))
    (h : a.Steps b) : a.Steps { b with envs := envs } :=
  h

theorem evaluates_with_envs (a b : Interpreter F) (envs : List (Environment F))
    (h : a.Evaluates b) : a.Evaluates { b with envs := envs } :=
  h

theorem steps_from_envs (a b : Interpreter F) (envs : List (Environment F))
    (h : a.Steps b) : ({ a with envs := envs } : Interpreter F).Steps b → a.Steps b :=
  fun _ => h

theorem steps_with_return (a b : Interpreter F) (flag : Bool) (value : Option (Value F))
    (h : a.Steps b) : a.Steps { b with should_return := flag, return_value := value } :=
  h

theorem steps_clear_break (a b : Interpreter F) (h : a.Steps b) :
    a.Steps { b with should_break := false } :=
  ⟨h.1, h.2.1, fun _ => rfl, h.2.2.2⟩

theorem steps_clear_continue (a b : Interpreter F) (h : a.Steps b) :
    a.Steps { b with should_continue := false } :=
  ⟨h.1, h.2.1, h.2.2.1, fun _ => rfl⟩

theorem op_compare_gt_state (st : Interpreter F) (l r : Value F) :
    (op_compare_gt fl st l r).2 = st ∨ (op_compare_gt fl st l r).2 = runtime_error st := by
  unfold op_compare_gt
  split <;> simp

theorem op_compare_lt_state (st : Interpreter F) (l r : Value F) :
    (op_compare_lt fl st l r).2 = st ∨ (op_compare_lt fl st l r).2 = runtime_error st := by
  unfold op_compare_lt
  split <;> simp

theorem op_compare_gte_state (st : Interpreter F) (l r : Value F) :
    (op_compare_gte fl st l r).2 = st ∨ (op_compare_gte fl st l r).2 = runtime_error st := by
  have h := op_compare_gt_state fl st l r
  unfold op_compare_gte
  split
  · rename_i heq
    rw [heq] at h
    exact h
  · rename_i heq
    rw [heq] at h
    exact h

theorem op_compare_lte_state (st : Interpreter F) (l r : Value F) :
    (op_compare_lte fl st l r).2 = st ∨ (op_compare_lte fl st l r).2 = runtime_error st := by
  have h := op_compare_lt_state fl st l r
  unfold op_compare_lte
  split
  · rename_i heq
    rw [heq] at h
    exact h
  · rename_i heq
    rw [heq] at h
    exact h

theorem binary_switch_state (st : Interpreter F) (op : TokenType) (l r : Value F) :
    (binary_switch fl st op l r).2 = st ∨ (binary_switch fl st op l r).2 = runtime_error st := by
  unfold binary_switch
  split
  · unfold op_add
    (repeat' split) <;> simp
  · unfold op_subtract
    (repeat' split) <;> simp
  · unfold op_multiply
    (repeat' split) <;> simp
  · unfold op_divide
    (repeat' split) <;> simp
  · simp
  · simp [op_compare_neq]
  · exact op_compare_gt_state fl st l r
  · exact op_compare_lt_state fl st l r
  · exact op_compare_gte_state fl st l r
  · exact op_compare_lte_state fl st l r
  · simp

theorem unary_switch_state (st : Interpreter F) (op : TokenType) (v : Value F) :
    (unary_switch fl st op v).2 = st ∨ (unary_switch fl st op v).2 = runtime_error st := by
  unfold unary_switch
  (repeat' split) <;> simp

theorem evaluates_binary_switch (a b : Interpreter F) (op : TokenType) (l r : Value F)
    (h : a.Evaluates b) : a.Evaluates (binary_switch fl b op l r).2 := by
  rcases binary_switch_state fl b op l r with h1 | h1 <;> rw [h1]
  · exact h
  · exact evaluates_runtime_error a b h

theorem evaluates_unary_switch (a b : Interpreter F) (op : TokenType) (v : Value F)
    (h : a.Evaluates b) : a.Evaluates (unary_switch fl b op v).2 := by
  rcases unary_switch_state fl b op v with h1 | h1 <;> rw [h1]
  · exact h
  · exact evaluates_runtime_error a b h

theorem evaluates_call_builtin (a b c : Interpreter F) (function : BuiltinFn)
    (args : List (Option (Value F))) (r : Option (Value F))
    (hc : call_builtin fl function b args = .done r c) (h : a.Evaluates b) :
    a.Evaluates c := by
  unfold call_builtin at hc
  split at hc
  · simp only [builtin_print, Exec.done.injEq] at hc
    obtain ⟨-, rfl⟩ := hc
    exact h
  · unfold builtin_type at hc
    repeat' split at hc
    all_goals first
      | (cases hc; done)
      | (cases hc; exact h)
      | (cases hc; exact evaluates_runtime_error a b h)
  · unfold builtin_len at hc
    repeat' split at hc
    all_goals first
      | (cases hc; done)
      | (cases hc; exact h)
      | (cases hc; exact evaluates_runtime_error a b h)

theorem evaluates_variable_expr (a b c : Interpreter F) (name : String)
    (r : Option (Value F)) (hc : execute_variable_expr b name = .done r c)
    (h : a.Evaluates b) : a.Evaluates c := by
  unfold execute_variable_expr at hc
  split at hc <;> cases hc
  · exact evaluates_runtime_error a b h
  · exact h

theorem evaluates_literal_expr (a b c : Interpreter F) (literal_type : TokenType)
    (value : LitValue) (r : Option (Value F))
    (hc : execute_literal_expr fl b literal_type value = .done r c)
    (h : a.Evaluates b) : a.Evaluates c := by
  unfold execute_literal_expr at hc
  split at hc
  all_goals first
    | (cases hc; done)
    | (cases hc; exact h)
    | (cases hc; exact evaluates_runtime_error a b h)

theorem steps_function_decl (a b c : Interpreter F) (name : String) (node : ASTNode)
    (r : Option (Value F)) (hc : execute_function_decl b name node = .done r c)
    (h : a.Steps b) : a.Steps c := by
  unfold execute_function_decl at hc
  split at hc <;> cases hc
  exact h

theorem evaluates_user_call_exit (st body_end : Interpreter F) (name : String)
    (entered_envs left_envs : List (Environment F))
    (h : Interpreter.Steps
      { push_call_frame st name with
        envs := entered_envs, should_return := false, return_value := none }
      body_end) :
    st.Evaluates
      (pop_call_frame
        { body_end with
          envs := left_envs,
          should_return := (push_call_frame st name).should_return,
          return_value := (push_call_frame st name).return_value }) := by
  obtain ⟨h1, h2, h3, h4⟩ := h
  refine ⟨⟨?_, h2, h3, h4⟩, rfl, rfl⟩
  simp only [pop_call_frame, push_call_frame] at h1 ⊢
  rw [h1]
  rfl

end Keeps

section KeepsAll

variable {F : Type} (fl : DoubleOps F)

theorem keeps_step_execute_statement (n : Nat) (ih : KeepsAt fl n) :
    ∀ node st r st1, execute_statement fl (n + 1) node st = .done r st1 →
      st.Steps st1 := by
  intro node st r st1 h
  rcases node with _ | nd <;> simp only [execute_statement] at h
  all_goals repeat' split at h
  all_goals try (cases h; done)
  all_goals try (simp only [Exec.done.injEq] at h; obtain ⟨rfl, rfl⟩ := h)
  iterate 12 (try any_goals (
    first
      | with_reducible exact steps_refl _
      | refine steps_trans _ _ _ ?_ (ih.variable_decl _ _ _ _ _ _ (by assumption))
      | refine steps_trans _ _ _ ?_ (ih.block _ _ _ _ (by assumption))
      | refine steps_trans _ _ _ ?_ (ih.if_statement _ _ _ _ _ _ (by assumption))
      | refine steps_trans _ _ _ ?_ (ih.while_loop _ _ _ _ _ _ (by assumption))
      | refine steps_trans _ _ _ ?_ (ih.return_statement _ _ _ _ (by assumption))
      | refine steps_of_evaluates _ _ _ ?_ (ih.expression _ _ _ _ (by assumption))
      | with_reducible refine steps_runtime_error _ _ ?_
      | with_reducible refine steps_function_decl _ _ _ _ _ _ (by assumption) ?_
      | with_reducible refine steps_with_envs _ _ _ ?_
      | with_reducible refine steps_with_return _ _ _ _ ?_
      | with_reducible refine steps_clear_break _ _ ?_
      | with_reducible refine steps_clear_continue _ _ ?_))

theorem keeps_step_execute_variable_decl (n : Nat) (ih : KeepsAt fl n) :
    ∀ name init dt st r st1, execute_variable_decl fl (n + 1) name init dt st = .done r st1 →
      st.Steps st1 := by
  intro name init dt st r st1 h
  simp only [execute_variable_decl] at h
  all_goals repeat' split at h
  all_goals try (cases h; done)
  all_goals try (simp only [Exec.done.injEq] at h; obtain ⟨rfl, rfl⟩ := h)
  iterate 12 (try any_goals (
    first
      | with_reducible exact steps_refl _
      | refine steps_of_evaluates _ _ _ ?_ (ih.expression _ _ _ _ (by assumption))
      | with_reducible refine steps_runtime_error _ _ ?_
      | with_reducible refine steps_function_decl _ _ _ _ _ _ (by assumption) ?_
      | with_reducible refine steps_with_envs _ _ _ ?_
      | with_reducible refine steps_with_return _ _ _ _ ?_
      | with_reducible refine steps_clear_break _ _ ?_
      | with_reducible refine steps_clear_continue _ _ ?_))

theorem keeps_step_execute_block (n : Nat) (ih : KeepsAt fl n) :
    ∀ node st r st1, execute_block fl (n + 1) node st = .done r st1 →
      st.Steps st1 := by
  intro node st r st1 h
  simp only [execute_block] at h
  all_goals repeat' split at h
  all_goals try (cases h; done)
  all_goals try (simp only [Exec.done.injEq] at h; obtain ⟨rfl, rfl⟩ := h)
  iterate 12 (try any_goals (
    first
      | with_reducible exact steps_refl _
      | refine steps_trans _ _ _ ?_ (ih.block_loop _ _ _ _ _ (by assumption))
      | with_reducible refine steps_runtime_error _ _ ?_
      | with_reducible refine steps_function_decl _ _ _ _ _ _ (by assumption) ?_
      | with_reducible refine steps_with_envs _ _ _ ?_
      | with_reducible refine steps_with_return _ _ _ _ ?_
      | with_reducible refine steps_clear_break _ _ ?_
      | with_reducible refine steps_clear_continue _ _ ?_))

theorem keeps_step_execute_block_loop (n : Nat) (ih : KeepsAt fl n) :
    ∀ stmts res st r st1, execute_block_loop fl (n + 1) stmts res st = .done r st1 →
      st.Steps st1 := by
  intro stmts res st r st1 h
  rcases stmts with _ | ⟨stmt, rest⟩ <;> simp only [execute_block_loop] at h
  all_goals repeat' split at h
  all_goals try (cases h; done)
  all_goals try (simp only [Exec.done.injEq] at h; obtain ⟨rfl, rfl⟩ := h)
  iterate 12 (try any_goals (
    first
      | with_reducible exact steps_refl _
      | refine steps_trans _ _ _ ?_ (ih.statement _ _ _ _ (by assumption))
      | refine steps_trans _ _ _ ?_ (ih.block_loop _ _ _ _ _ (by assumption))
      | with_reducible refine steps_runtime_error _ _ ?_
      | with_reducible refine steps_function_decl _ _ _ _ _ _ (by assumption) ?_
      | with_reducible refine steps_with_envs _ _ _ ?_
      | with_reducible refine steps_with_return _ _ _ _ ?_
      | with_reducible refine steps_clear_break _ _ ?_
      | with_reducible refine steps_clear_continue _ _ ?_))

theorem keeps_step_execute_if_statement (n : Nat) (ih : KeepsAt fl n) :
    ∀ c t e st r st1, execute_if_statement fl (n + 1) c t e st = .done r st1 →
      st.Steps st1 := by
  intro c t e st r st1 h
  simp only [execute_if_statement] at h
  all_goals repeat' split at h
  all_goals try (cases h; done)
  all_goals try (simp only [Exec.done.injEq] at h; obtain ⟨rfl, rfl⟩ := h)
  iterate 12 (try any_goals (
    first
      | with_reducible exact steps_refl _
      | refine steps_of_evaluates _ _ _ ?_ (ih.expression _ _ _ _ (by assumption))
      | refine steps_trans _ _ _ ?_ (ih.statement _ _ _ _ (by assumption))
      | with_reducible refine steps_runtime_error _ _ ?_
      | with_reducible refine steps_function_decl _ _ _ _ _ _ (by assumption) ?_
      | with_reducible refine steps_with_envs _ _ _ ?_
      | with_reducible refine steps_with_return _ _ _ _ ?_
      | with_reducible refine steps_clear_break _ _ ?_
      | with_reducible refine steps_clear_continue _ _ ?_))

theorem keeps_step_execute_while_loop (n : Nat) (ih : KeepsAt fl n) :
    ∀ c b res st r st1, execute_while_loop fl (n + 1) c b res st = .done r st1 →
      st.Steps st1 := by
  intro c b res st r st1 h
  simp only [execute_while_loop] at h
  all_goals repeat' split at h
  all_goals try (cases h; done)
  all_goals try (simp only [Exec.done.injEq] at h; obtain ⟨rfl, rfl⟩ := h)
  iterate 12 (try any_goals (
    first
      | with_reducible exact steps_refl _
      | refine steps_of_evaluates _ _ _ ?_ (ih.expression _ _ _ _ (by assumption))
      | refine steps_trans _ _ _ ?_ (ih.statement _ _ _ _ (by assumption))
      | refine steps_trans _ _ _ ?_ (ih.while_loop _ _ _ _ _ _ (by assumption))
      | with_reducible refine steps_runtime_error _ _ ?_
      | with_reducible refine steps_function_decl _ _ _ _ _ _ (by assumption) ?_
      | with_reducible refine steps_with_envs _ _ _ ?_
      | with_reducible refine steps_with_return _ _ _ _ ?_
      | with_reducible refine steps_clear_break _ _ ?_
      | with_reducible refine steps_clear_continue _ _ ?_))

theorem keeps_step_execute_return_statement (n : Nat) (ih : KeepsAt fl n) :
    ∀ value st r st1, execute_return_statement fl (n + 1) value st = .done r st1 →
      st.Steps st1 := by
  intro value st r st1 h
  simp only [execute_return_statement] at h
  all_goals repeat' split at h
  all_goals try (cases h; done)
  all_goals try (simp only [Exec.done.injEq] at h; obtain ⟨rfl, rfl⟩ := h)
  iterate 12 (try any_goals (
    first
      | with_reducible exact steps_refl _
      | refine steps_of_evaluates _ _ _ ?_ (ih.expression _ _ _ _ (by assumption))
      | with_reducible refine steps_runtime_error _ _ ?_
      | with_reducible refine steps_function_decl _ _ _ _ _ _ (by assumption) ?_
      | with_reducible refine steps_with_envs _ _ _ ?_
      | with_reducible refine steps_with_return _ _ _ _ ?_
      | with_reducible refine steps_clear_break _ _ ?_
      | with_reducible refine steps_clear_continue _ _ ?_))

theorem keeps_step_execute_expression (n : Nat) (ih : KeepsAt fl n) :
    ∀ node st r st1, execute_expression fl (n + 1) node st = .done r st1 →
      st.Evaluates st1 := by
  intro node st r st1 h
  rcases node with _ | nd <;> simp only [execute_expression] at h
  all_goals repeat' split at h
  all_goals try (cases h; done)
  all_goals try (simp only [Exec.done.injEq] at h; obtain ⟨rfl, rfl⟩ := h)
  iterate 12 (try any_goals (
    first
      | with_reducible exact evaluates_refl _
      | refine evaluates_trans _ _ _ ?_ (ih.binary_expr _ _ _ _ _ _ (by assumption))
      | refine evaluates_trans _ _ _ ?_ (ih.unary_expr _ _ _ _ _ (by assumption))
      | refine evaluates_trans _ _ _ ?_ (ih.assignment _ _ _ _ _ (by assumption))
      | refine evaluates_trans _ _ _ ?_ (ih.call_expr _ _ _ _ _ _ (by assumption))
      | with_reducible refine evaluates_runtime_error _ _ ?_
      | with_reducible refine evaluates_binary_switch fl _ _ _ _ _ ?_
      | with_reducible refine evaluates_unary_switch fl _ _ _ _ ?_
      | with_reducible refine evaluates_call_builtin fl _ _ _ _ _ _ (by assumption) ?_
      | with_reducible refine evaluates_variable_expr _ _ _ _ _ (by assumption) ?_
      | with_reducible refine evaluates_literal_expr fl _ _ _ _ _ _ (by assumption) ?_
      | with_reducible exact evaluates_user_call_exit _ _ _ _ _ (ih.block _ _ _ _ (by assumption))
      | with_reducible refine evaluates_with_envs _ _ _ ?_))

theorem keeps_step_execute_binary_expr (n : Nat) (ih : KeepsAt fl n) :
    ∀ op l rn st r st1, execute_binary_expr fl (n + 1) op l rn st = .done r st1 →
      st.Evaluates st1 := by
  intro op l rn st r st1 h
  simp only [execute_binary_expr] at h
  all_goals repeat' split at h
  all_goals try (cases h; done)
  all_goals try (simp only [Exec.done.injEq] at h; obtain ⟨rfl, rfl⟩ := h)
  iterate 12 (try any_goals (
    first
      | with_reducible exact evaluates_refl _
      | refine evaluates_trans _ _ _ ?_ (ih.expression _ _ _ _ (by assumption))
      | with_reducible refine evaluates_runtime_error _ _ ?_
      | with_reducible refine evaluates_binary_switch fl _ _ _ _ _ ?_
      | with_reducible refine evaluates_unary_switch fl _ _ _ _ ?_
      | with_reducible refine evaluates_call_builtin fl _ _ _ _ _ _ (by assumption) ?_
      | with_reducible refine evaluates_variable_expr _ _ _ _ _ (by assumption) ?_
      | with_reducible refine evaluates_literal_expr fl _ _ _ _ _ _ (by assumption) ?_
      | with_reducible exact evaluates_user_call_exit _ _ _ _ _ (ih.block _ _ _ _ (by assumption))
      | with_reducible refine evaluates_with_envs _ _ _ ?_))

theorem keeps_step_execute_unary_expr (n : Nat) (ih : KeepsAt fl n) :
    ∀ op operand st r st1, execute_unary_expr fl (n + 1) op operand st = .done r st1 →
      st.Evaluates st1 := by
  intro op operand st r st1 h
  simp only [execute_unary_expr] at h
  all_goals repeat' split at h
  all_goals try (cases h; done)
  all_goals try (simp only [Exec.done.injEq] at h; obtain ⟨rfl, rfl⟩ := h)
  iterate 12 (try any_goals (
    first
      | with_reducible exact evaluates_refl _
      | refine evaluates_trans _ _ _ ?_ (ih.expression _ _ _ _ (by assumption))
      | with_reducible refine evaluates_runtime_error _ _ ?_
      | with_reducible refine evaluates_binary_switch fl _ _ _ _ _ ?_
      | with_reducible refine evaluates_unary_switch fl _ _ _ _ ?_
      | with_reducible refine evaluates_call_builtin fl _ _ _ _ _ _ (by assumption) ?_
      | with_reducible refine evaluates_variable_expr _ _ _ _ _ (by assumption) ?_
      | with_reducible refine evaluates_literal_expr fl _ _ _ _ _ _ (by assumption) ?_
      | with_reducible exact evaluates_user_call_exit _ _ _ _ _ (ih.block _ _ _ _ (by assumption))
      | with_reducible refine evaluates_with_envs _ _ _ ?_))

theorem keeps_step_execute_assignment (n : Nat) (ih : KeepsAt fl n) :
    ∀ name value st r st1, execute_assignment fl (n + 1) name value st = .done r st1 →
      st.Evaluates st1 := by
  intro name value st r st1 h
  simp only [execute_assignment] at h
  all_goals repeat' split at h
  all_goals try (cases h; done)
  all_goals try (simp only [Exec.done.injEq] at h; obtain ⟨rfl, rfl⟩ := h)
  iterate 12 (try any_goals (
    first
      | with_reducible exact evaluates_refl _
      | refine evaluates_trans _ _ _ ?_ (ih.expression _ _ _ _ (by assumption))
      | with_reducible refine evaluates_runtime_error _ _ ?_
      | with_reducible refine evaluates_binary_switch fl _ _ _ _ _ ?_
      | with_reducible refine evaluates_unary_switch fl _ _ _ _ ?_
      | with_reducible refine evaluates_call_builtin fl _ _ _ _ _ _ (by assumption) ?_
      | with_reducible refine evaluates_variable_expr _ _ _ _ _ (by assumption) ?_
      | with_reducible refine evaluates_literal_expr fl _ _ _ _ _ _ (by assumption) ?_
      | with_reducible exact evaluates_user_call_exit _ _ _ _ _ (ih.block _ _ _ _ (by assumption))
      | with_reducible refine evaluates_with_envs _ _ _ ?_))

theorem keeps_step_execute_builtin_call (n : Nat) (ih : KeepsAt fl n) :
    ∀ name function arguments remaining args st r st1, execute_builtin_call fl (n + 1) name function arguments remaining args st = .done r st1 →
      st.Evaluates st1 := by
  intro name function arguments remaining args st r st1 h
  rcases remaining with _ | k <;> rcases arguments with _ | ⟨a, rest⟩ <;> simp only [execute_builtin_call] at h
  all_goals repeat' split at h
  all_goals try (cases h; done)
  all_goals try (simp only [Exec.done.injEq] at h; obtain ⟨rfl, rfl⟩ := h)
  iterate 12 (try any_goals (
    first
      | with_reducible exact evaluates_refl _
      | refine evaluates_trans _ _ _ ?_ (ih.expression _ _ _ _ (by assumption))
      | refine evaluates_trans _ _ _ ?_ (ih.builtin_call _ _ _ _ _ _ _ _ (by assumption))
      | with_reducible refine evaluates_runtime_error _ _ ?_
      | with_reducible refine evaluates_binary_switch fl _ _ _ _ _ ?_
      | with_reducible refine evaluates_unary_switch fl _ _ _ _ ?_
      | with_reducible refine evaluates_call_builtin fl _ _ _ _ _ _ (by assumption) ?_
      | with_reducible refine evaluates_variable_expr _ _ _ _ _ (by assumption) ?_
      | with_reducible refine evaluates_literal_expr fl _ _ _ _ _ _ (by assumption) ?_
      | with_reducible exact evaluates_user_call_exit _ _ _ _ _ (ih.block _ _ _ _ (by assumption))
      | with_reducible refine evaluates_with_envs _ _ _ ?_))

theorem keeps_step_execute_user_call (n : Nat) (ih : KeepsAt fl n) :
    ∀ func_name body arguments params remaining function_env st r st1, execute_user_call fl (n + 1) func_name body arguments params remaining function_env st = .done r st1 →
      st.Evaluates st1 := by
  intro func_name body arguments params remaining function_env st r st1 h
  rcases remaining with _ | k <;> rcases arguments with _ | ⟨a, rest⟩ <;> rcases params with _ | ⟨pm, pms⟩ <;> simp only [execute_user_call] at h
  all_goals repeat' split at h
  all_goals try (cases h; done)
  all_goals try (simp only [Exec.done.injEq] at h; obtain ⟨rfl, rfl⟩ := h)
  iterate 12 (try any_goals (
    first
      | with_reducible exact evaluates_refl _
      | refine evaluates_trans _ _ _ ?_ (ih.expression _ _ _ _ (by assumption))
      | refine evaluates_trans _ _ _ ?_ (ih.user_call _ _ _ _ _ _ _ _ _ (by assumption))
      | with_reducible refine evaluates_runtime_error _ _ ?_
      | with_reducible refine evaluates_binary_switch fl _ _ _ _ _ ?_
      | with_reducible refine evaluates_unary_switch fl _ _ _ _ ?_
      | with_reducible refine evaluates_call_builtin fl _ _ _ _ _ _ (by assumption) ?_
      | with_reducible refine evaluates_variable_expr _ _ _ _ _ (by assumption) ?_
      | with_reducible refine evaluates_literal_expr fl _ _ _ _ _ _ (by assumption) ?_
      | with_reducible exact evaluates_user_call_exit _ _ _ _ _ (ih.block _ _ _ _ (by assumption))
      | with_reducible refine evaluates_with_envs _ _ _ ?_))

theorem keeps_step_execute_call_expr (n : Nat) (ih : KeepsAt fl n) :
    ∀ name arguments arg_count st r st1, execute_call_expr fl (n + 1) name arguments arg_count st = .done r st1 →
      st.Evaluates st1 := by
  intro name arguments arg_count st r st1 h
  simp only [execute_call_expr] at h
  all_goals repeat' split at h
  all_goals try (cases h; done)
  all_goals try (simp only [Exec.done.injEq] at h; obtain ⟨rfl, rfl⟩ := h)
  iterate 12 (try any_goals (
    first
      | with_reducible exact evaluates_refl _
      | refine evaluates_trans _ _ _ ?_ (ih.builtin_call _ _ _ _ _ _ _ _ (by assumption))
      | refine evaluates_trans _ _ _ ?_ (ih.user_call _ _ _ _ _ _ _ _ _ (by assumption))
      | with_reducible refine evaluates_runtime_error _ _ ?_
      | with_reducible refine evaluates_binary_switch fl _ _ _ _ _ ?_
      | with_reducible refine evaluates_unary_switch fl _ _ _ _ ?_
      | with_reducible refine evaluates_call_builtin fl _ _ _ _ _ _ (by assumption) ?_
      | with_reducible refine evaluates_variable_expr _ _ _ _ _ (by assumption) ?_
      | with_reducible refine evaluates_literal_expr fl _ _ _ _ _ _ (by assumption) ?_
      | with_reducible exact evaluates_user_call_exit _ _ _ _ _ (ih.block _ _ _ _ (by assumption))
      | with_reducible refine evaluates_with_envs _ _ _ ?_))

theorem keeps_all (fuel : Nat) : KeepsAt fl fuel := by
  induction fuel with
  | zero =>
    constructor
    · intro node st r st1 h
      rw [execute_statement] at h
      cases h
    · intro name init dt st r st1 h
      rw [execute_variable_decl] at h
      cases h
    · intro node st r st1 h
      rw [execute_block] at h
      cases h
    · intro stmts res st r st1 h
      rw [execute_block_loop] at h
      cases h
    · intro c t e st r st1 h
      rw [execute_if_statement] at h
      cases h
    · intro c b res st r st1 h
      rw [execute_while_loop] at h
      cases h
    · intro value st r st1 h
      rw [execute_return_statement] at h
      cases h
    · intro node st r st1 h
      rw [execute_expression] at h
      cases h
    · intro op l rn st r st1 h
      rw [execute_binary_expr] at h
      cases h
    · intro op operand st r st1 h
      rw [execute_unary_expr] at h
      cases h
    · intro name value st r st1 h
      rw [execute_assignment] at h
      cases h
    · intro name function arguments remaining args st r st1 h
      rw [execute_builtin_call] at h
      cases h
    · intro func_name body arguments params remaining function_env st r st1 h
      rw [execute_user_call] at h
      cases h
    · intro name arguments arg_count st r st1 h
      rw [execute_call_expr] at h
      cases h
  | succ n ih =>
    exact
      ⟨keeps_step_execute_statement fl n ih,
       keeps_step_execute_variable_decl fl n ih,
       keeps_step_execute_block fl n ih,
       keeps_step_execute_block_loop fl n ih,
       keeps_step_execute_if_statement fl n ih,
       keeps_step_execute_while_loop fl n ih,
       keeps_step_execute_return_statement fl n ih,
       keeps_step_execute_expression fl n ih,
       keeps_step_execute_binary_expr fl n ih,
       keeps_step_execute_unary_expr fl n ih,
       keeps_step_execute_assignment fl n ih,
       keeps_step_execute_builtin_call fl n ih,
       keeps_step_execute_user_call fl n ih,
       keeps_step_execute_call_expr fl n ih⟩

end KeepsAll

/-! ## What a call restores -/

section CallRestores

variable {F : Type} (fl : DoubleOps F)

theorem call_return_a (n : Nat) :
    ∃ st1 : Interpreter F,
      execute_call_expr fl (n + 8) "f" [literal TOKEN_INT_LITERAL (.int_value 1)] 1
        state_return_a = .done (some (.int_val 1)) st1 := by
  have h1 : wrap32 1 = 1 := by decide
  have hwf : ∀ V : Type, (hashtable_create 32 : HashTable V).WF :=
    fun _ => hashtable_create_wf 32 (by decide)
  have hwf2 : ∀ (V : Type) (k k' : String) (v v' : Option V),
      (hashtable_set (hashtable_set (hashtable_create 32) k v) k' v').WF :=
    fun V k k' v v' => hashtable_set_wf _ _ _ (hashtable_set_wf _ _ _ (hwf V))
  simp [state_return_a, decl_return_a,
    execute_statement, execute_block, execute_return_statement,
    execute_block_loop, execute_expression, execute_literal_expr,
    execute_variable_expr,
    execute_call_expr, execute_user_call,
    interpreter_init, register_builtin_functions, environment_get_var, environment_get_func,
    environment_create_variables, environment_define_var_variables,
    environment_define_func_variables, function_entry_create, function_entry_define_var,
    function_entry_define_func_same, function_entry_define_func_other,
    hashtable_get_create, hashtable_get_set_same, hashtable_get_set_other,
    hashtable_set_wf, hwf, hwf2, environment_create_wf,
    environment_define_var_functions,
    value_create_int, push_call_frame, pop_call_frame, h1]

/-- C34.  Whenever `execute_call_expr` returns, whatever the callee (a user function or a
built-in) and whatever the path (the body ran to its end, a `return` was executed in it,
the number of arguments was wrong, the function was not defined, a runtime error was
raised in an argument or in the body), the interpreter has the `should_return` flag, the
`return_value` slot and the call stack it had before the call, and `current_env` points
at the same level of the chain of environments (the chain has the height it had). -/
theorem call_restores_state (fuel : Nat) (name : String) (arguments : List ASTNode)
    (arg_count : Nat) (st st1 : Interpreter F) (r : Option (Value F))
    (h : execute_call_expr fl fuel name arguments arg_count st = .done r st1) :
    st1.should_return = st.should_return
      ∧ st1.return_value = st.return_value
      ∧ st1.envs.length = st.envs.length
      ∧ st1.call_stack = st.call_stack
      ∧ st1.call_stack.length = st.call_stack.length :=
  have hk := (keeps_all fl fuel).call_expr name arguments arg_count st r st1 h
  have hf := (frame_all fl "" 0 none fuel).2.2.2.2.2.2.2.2.2.2.2.2.2
    name arguments arg_count st r st1 h
  ⟨hk.2.1, hk.2.2, hf.1, hk.1.1, congrArg List.length hk.1.1⟩

theorem call_restores_state_witness :
    ∃ st1 : Interpreter ℚ,
      execute_call_expr exactArithmetic 8 "f" [literal TOKEN_INT_LITERAL (.int_value 1)] 1
          state_return_a = .done (some (.int_val 1)) st1
        ∧ st1.should_return = false
        ∧ st1.return_value = none
        ∧ st1.envs.length = 1
        ∧ st1.call_stack = [] :=
  (call_return_a exactArithmetic 0).elim fun st1 h =>
    have hr := call_restores_state exactArithmetic 8 "f"
      [literal TOKEN_INT_LITERAL (.int_value 1)] 1 state_return_a st1 _ h
    ⟨st1, h, hr.1, hr.2.1, hr.2.2.1, hr.2.2.2.1⟩

end CallRestores

/-! ## Runtime errors are fail-fast -/

section FailFastLemmas

variable {F : Type} (fl : DoubleOps F)

theorem calm_next (a b : Interpreter F) (hc : a.Calm) (hs : a.Steps b)
    (hf : ¬ b.has_runtime_error = true) : b.Calm :=
  ⟨by simpa using hf, hs.2.2.1 hc.2.1, hs.2.2.2 hc.2.2⟩

theorem quiet_next (a b : Interpreter F) (hc : a.Calm) (hs : a.Steps b) :
    b.should_break = false ∧ b.should_continue = false :=
  ⟨hs.2.2.1 hc.2.1, hs.2.2.2 hc.2.2⟩

theorem ran_done {α : Type} (result : α) (st : Interpreter F) :
    FailFast.ran (Exec.done result st) = FailFast.done result st :=
  rfl

theorem ran_undefined {α : Type} :
    FailFast.ran (Exec.undefined : Exec F α) = FailFast.undefined :=
  rfl

theorem ran_out_of_fuel {α : Type} :
    FailFast.ran (Exec.outOfFuel : Exec F α) = FailFast.outOfFuel :=
  rfl

theorem calm_interpreter_init : (interpreter_init : Interpreter F).Calm :=
  ⟨rfl, rfl, rfl⟩

end FailFastLemmas

section FailFastAll

variable {F : Type} (fl : DoubleOps F)

theorem fail_fast_step_statement (n : Nat) (ih : FailFastAt fl n) :
    ∀ node st out, st.Calm → execute_statement fl (n + 1) node st = out →
      fail_fast_statement fl (n + 1) node st = .ran out := by
  intro node st out hc hout
  have hk := keeps_all fl n
  have hc1 := hc.1
  rcases node with _ | nd
  all_goals simp only [execute_statement] at hout
  all_goals repeat' split at hout
  all_goals subst hout
  all_goals simp only [fail_fast_statement, hc1, Bool.false_eq_true, if_false, if_true, *,
    ih.variable_decl, ih.block, ih.if_statement, ih.while_loop, ih.return_statement, ih.expression, ran_done, ran_undefined, ran_out_of_fuel, ne_eq, not_false_eq_true,
    not_true_eq_false]

theorem fail_fast_step_variable_decl (n : Nat) (ih : FailFastAt fl n) :
    ∀ name init dt st out, st.Calm → execute_variable_decl fl (n + 1) name init dt st = out →
      fail_fast_variable_decl fl (n + 1) name init dt st = .ran out := by
  intro name init dt st out hc hout
  have hk := keeps_all fl n
  have hc1 := hc.1
  all_goals simp only [execute_variable_decl] at hout
  all_goals repeat' split at hout
  all_goals subst hout
  all_goals simp only [fail_fast_variable_decl, hc1, Bool.false_eq_true, if_false, if_true, *,
    ih.expression, ran_done, ran_undefined, ran_out_of_fuel, ne_eq, not_false_eq_true,
    not_true_eq_false]

theorem fail_fast_step_block (n : Nat) (ih : FailFastAt fl n) :
    ∀ node st out, st.Calm → execute_block fl (n + 1) node st = out →
      fail_fast_block fl (n + 1) node st = .ran out := by
  intro node st out hc hout
  have hk := keeps_all fl n
  have hc1 := hc.1
  all_goals simp only [execute_block] at hout
  all_goals repeat' split at hout
  all_goals subst hout
  all_goals simp only [fail_fast_block, hc1, Bool.false_eq_true, if_false, if_true, *,
    ih.block_loop, ran_done, ran_undefined, ran_out_of_fuel, ne_eq, not_false_eq_true,
    not_true_eq_false]
  all_goals exact ih.block_loop _ _ _ ⟨rfl, hc.2.1, hc.2.2⟩

theorem fail_fast_step_block_loop (n : Nat) (ih : FailFastAt fl n) :
    ∀ stmts res st out, st.Calm → execute_block_loop fl (n + 1) stmts res st = out →
      fail_fast_block_loop fl (n + 1) stmts res st = .ran out := by
  intro stmts res st out hc hout
  have hk := keeps_all fl n
  have hc1 := hc.1
  rcases stmts with _ | ⟨stmt, rest⟩
  all_goals simp only [execute_block_loop] at hout
  all_goals repeat' split at hout
  all_goals subst hout
  all_goals try (have hs1 := calm_next st _ hc (hk.statement _ st _ _ (by assumption)) (by assumption))
  all_goals simp only [fail_fast_block_loop, hc1, Bool.false_eq_true, if_false, if_true, *,
    ih.statement, ih.block_loop, ran_done, ran_undefined, ran_out_of_fuel, ne_eq, not_false_eq_true,
    not_true_eq_false]

theorem fail_fast_step_if_statement (n : Nat) (ih : FailFastAt fl n) :
    ∀ c t e st out, st.Calm → execute_if_statement fl (n + 1) c t e st = out →
      fail_fast_if_statement fl (n + 1) c t e st = .ran out := by
  intro c t e st out hc hout
  have hk := keeps_all fl n
  have hc1 := hc.1
  all_goals simp only [execute_if_statement] at hout
  all_goals repeat' split at hout
  all_goals subst hout
  all_goals try (have hs1 := calm_next st _ hc (hk.expression _ st _ _ (by assumption)).1 (by assumption))
  all_goals simp only [fail_fast_if_statement, hc1, Bool.false_eq_true, if_false, if_true, *,
    ih.expression, ih.statement, ran_done, ran_undefined, ran_out_of_fuel, ne_eq, not_false_eq_true,
    not_true_eq_false]

theorem fail_fast_step_while_loop (n : Nat) (ih : FailFastAt fl n) :
    ∀ c b res st out, st.Calm → execute_while_loop fl (n + 1) c b res st = out →
      fail_fast_while_loop fl (n + 1) c b res st = .ran out := by
  intro c b res st out hc hout
  have hk := keeps_all fl n
  have hc1 := hc.1
  all_goals simp only [execute_while_loop] at hout
  all_goals repeat' split at hout
  all_goals subst hout
  all_goals try (have hs1 := calm_next st _ hc (hk.expression _ st _ _ (by assumption)).1 (by assumption))
  all_goals try (have hq2 := quiet_next _ _ hs1 (hk.statement _ _ _ _ (by assumption)))
  all_goals try (simp only [hq2.2, Bool.false_eq_true] at *; done)
  all_goals try (have hs2 := calm_next _ _ hs1 (hk.statement _ _ _ _ (by assumption)) (by assumption))
  all_goals simp only [fail_fast_while_loop, hc1, Bool.false_eq_true, if_false, if_true, *,
    ih.expression, ih.statement, ih.while_loop, ran_done, ran_undefined, ran_out_of_fuel, ne_eq, not_false_eq_true,
    not_true_eq_false]

theorem fail_fast_step_return_statement (n : Nat) (ih : FailFastAt fl n) :
    ∀ value st out, st.Calm → execute_return_statement fl (n + 1) value st = out →
      fail_fast_return_statement fl (n + 1) value st = .ran out := by
  intro value st out hc hout
  have hk := keeps_all fl n
  have hc1 := hc.1
  all_goals simp only [execute_return_statement] at hout
  all_goals repeat' split at hout
  all_goals subst hout
  all_goals simp only [fail_fast_return_statement, hc1, Bool.false_eq_true, if_false, if_true, *,
    ih.expression, ran_done, ran_undefined, ran_out_of_fuel, ne_eq, not_false_eq_true,
    not_true_eq_false]

theorem fail_fast_step_expression (n : Nat) (ih : FailFastAt fl n) :
    ∀ node st out, st.Calm → execute_expression fl (n + 1) node st = out →
      fail_fast_expression fl (n + 1) node st = .ran out := by
  intro node st out hc hout
  have hk := keeps_all fl n
  have hc1 := hc.1
  rcases node with _ | nd
  all_goals simp only [execute_expression] at hout
  all_goals repeat' split at hout
  all_goals subst hout
  all_goals simp only [fail_fast_expression, hc1, Bool.false_eq_true, if_false, if_true, *,
    ih.binary_expr, ih.unary_expr, ih.assignment, ih.call_expr, ran_done, ran_undefined, ran_out_of_fuel, ne_eq, not_false_eq_true,
    not_true_eq_false]

theorem fail_fast_step_binary_expr (n : Nat) (ih : FailFastAt fl n) :
    ∀ op l rn st out, st.Calm → execute_binary_expr fl (n + 1) op l rn st = out →
      fail_fast_binary_expr fl (n + 1) op l rn st = .ran out := by
  intro op l rn st out hc hout
  have hk := keeps_all fl n
  have hc1 := hc.1
  all_goals simp only [execute_binary_expr] at hout
  all_goals repeat' split at hout
  all_goals subst hout
  all_goals try (have hs1 := calm_next st _ hc (hk.expression _ st _ _ (by assumption)).1 (by assumption))
  all_goals simp only [fail_fast_binary_expr, hc1, Bool.false_eq_true, if_false, if_true, *,
    ih.expression, ran_done, ran_undefined, ran_out_of_fuel, ne_eq, not_false_eq_true,
    not_true_eq_false]

theorem fail_fast_step_unary_expr (n : Nat) (ih : FailFastAt fl n) :
    ∀ op operand st out, st.Calm → execute_unary_expr fl (n + 1) op operand st = out →
      fail_fast_unary_expr fl (n + 1) op operand st = .ran out := by
  intro op operand st out hc hout
  have hk := keeps_all fl n
  have hc1 := hc.1
  all_goals simp only [execute_unary_expr] at hout
  all_goals repeat' split at hout
  all_goals subst hout
  all_goals simp only [fail_fast_unary_expr, hc1, Bool.false_eq_true, if_false, if_true, *,
    ih.expression, ran_done, ran_undefined, ran_out_of_fuel, ne_eq, not_false_eq_true,
    not_true_eq_false]

theorem fail_fast_step_assignment (n : Nat) (ih : FailFastAt fl n) :
    ∀ name value st out, st.Calm → execute_assignment fl (n + 1) name value st = out →
      fail_fast_assignment fl (n + 1) name value st = .ran out := by
  intro name value st out hc hout
  have hk := keeps_all fl n
  have hc1 := hc.1
  all_goals simp only [execute_assignment] at hout
  all_goals repeat' split at hout
  all_goals subst hout
  all_goals simp only [fail_fast_assignment, hc1, Bool.false_eq_true, if_false, if_true, *,
    ih.expression, ran_done, ran_undefined, ran_out_of_fuel, ne_eq, not_false_eq_true,
    not_true_eq_false]

theorem fail_fast_step_builtin_call (n : Nat) (ih : FailFastAt fl n) :
    ∀ name function arguments remaining args st out, st.Calm → execute_builtin_call fl (n + 1) name function arguments remaining args st = out →
      fail_fast_builtin_call fl (n + 1) name function arguments remaining args st = .ran out := by
  intro name function arguments remaining args st out hc hout
  have hk := keeps_all fl n
  have hc1 := hc.1
  rcases remaining with _ | k <;> rcases arguments with _ | ⟨a, rest⟩
  all_goals simp only [execute_builtin_call] at hout
  all_goals repeat' split at hout
  all_goals subst hout
  all_goals try (have hs1 := calm_next st _ hc (hk.expression _ st _ _ (by assumption)).1 (by assumption))
  all_goals simp only [fail_fast_builtin_call, hc1, Bool.false_eq_true, if_false, if_true, *,
    ih.expression, ih.builtin_call, ran_done, ran_undefined, ran_out_of_fuel, ne_eq, not_false_eq_true,
    not_true_eq_false]

theorem fail_fast_step_user_call (n : Nat) (ih : FailFastAt fl n) :
    ∀ func_name body arguments params remaining function_env st out, st.Calm → execute_user_call fl (n + 1) func_name body arguments params remaining function_env st = out →
      fail_fast_user_call fl (n + 1) func_name body arguments params remaining function_env st = .ran out := by
  intro func_name body arguments params remaining function_env st out hc hout
  have hk := keeps_all fl n
  have hc1 := hc.1
  have hs0 : Interpreter.Calm
      { push_call_frame st func_name with
        envs := function_env :: (push_call_frame st func_name).envs,
        should_return := false, return_value := none } := hc
  rcases remaining with _ | k <;> rcases arguments with _ | ⟨a, rest⟩ <;>
    rcases params with _ | ⟨pm, pms⟩
  all_goals simp only [execute_user_call] at hout
  all_goals repeat' split at hout
  all_goals subst hout
  all_goals try (have hs1 := calm_next st _ hc (hk.expression _ st _ _ (by assumption)).1 (by assumption))
  all_goals simp only [fail_fast_user_call, hc1, Bool.false_eq_true, if_false, if_true, *,
    ih.expression, ih.user_call, ih.block, ih.block _ _ hs0, ran_done, ran_undefined, ran_out_of_fuel, ne_eq, not_false_eq_true,
    not_true_eq_false]

theorem fail_fast_step_call_expr (n : Nat) (ih : FailFastAt fl n) :
    ∀ name arguments arg_count st out, st.Calm → execute_call_expr fl (n + 1) name arguments arg_count st = out →
      fail_fast_call_expr fl (n + 1) name arguments arg_count st = .ran out := by
  intro name arguments arg_count st out hc hout
  have hk := keeps_all fl n
  have hc1 := hc.1
  all_goals simp only [execute_call_expr] at hout
  all_goals repeat' split at hout
  all_goals subst hout
  all_goals simp only [fail_fast_call_expr, hc1, Bool.false_eq_true, if_false, if_true, *,
    ih.builtin_call, ih.user_call, ran_done, ran_undefined, ran_out_of_fuel, ne_eq, not_false_eq_true,
    not_true_eq_false]

theorem fail_fast_all (fuel : Nat) : FailFastAt fl fuel := by
  induction fuel with
  | zero =>
    constructor
    · intro node st _
      rw [fail_fast_statement, execute_statement]
      rfl
    · intro name init dt st _
      rw [fail_fast_variable_decl, execute_variable_decl]
      rfl
    · intro node st _
      rw [fail_fast_block, execute_block]
      rfl
    · intro stmts res st _
      rw [fail_fast_block_loop, execute_block_loop]
      rfl
    · intro c t e st _
      rw [fail_fast_if_statement, execute_if_statement]
      rfl
    · intro c b res st _
      rw [fail_fast_while_loop, execute_while_loop]
      rfl
    · intro value st _
      rw [fail_fast_return_statement, execute_return_statement]
      rfl
    · intro node st _
      rw [fail_fast_expression, execute_expression]
      rfl
    · intro op l rn st _
      rw [fail_fast_binary_expr, execute_binary_expr]
      rfl
    · intro op operand st _
      rw [fail_fast_unary_expr, execute_unary_expr]
      rfl
    · intro name value st _
      rw [fail_fast_assignment, execute_assignment]
      rfl
    · intro name function arguments remaining args st _
      rw [fail_fast_builtin_call, execute_builtin_call]
      rfl
    · intro func_name body arguments params remaining function_env st _
      rw [fail_fast_user_call, execute_user_call]
      rfl
    · intro name arguments arg_count st _
      rw [fail_fast_call_expr, execute_call_expr]
      rfl
  | succ n ih =>
    exact
      ⟨fun node st hc =>
         fail_fast_step_statement fl n ih node st _ hc rfl,
       fun name init dt st hc =>
         fail_fast_step_variable_decl fl n ih name init dt st _ hc rfl,
       fun node st hc =>
         fail_fast_step_block fl n ih node st _ hc rfl,
       fun stmts res st hc =>
         fail_fast_step_block_loop fl n ih stmts res st _ hc rfl,
       fun c t e st hc =>
         fail_fast_step_if_statement fl n ih c t e st _ hc rfl,
       fun c b res st hc =>
         fail_fast_step_while_loop fl n ih c b res st _ hc rfl,
       fun value st hc =>
         fail_fast_step_return_statement fl n ih value st _ hc rfl,
       fun node st hc =>
         fail_fast_step_expression fl n ih node st _ hc rfl,
       fun op l rn st hc =>
         fail_fast_step_binary_expr fl n ih op l rn st _ hc rfl,
       fun op operand st hc =>
         fail_fast_step_unary_expr fl n ih op operand st _ hc rfl,
       fun name value st hc =>
         fail_fast_step_assignment fl n ih name value st _ hc rfl,
       fun name function arguments remaining args st hc =>
         fail_fast_step_builtin_call fl n ih name function arguments remaining args st _ hc rfl,
       fun func_name body arguments params remaining function_env st hc =>
         fail_fast_step_user_call fl n ih func_name body arguments params remaining function_env st _ hc rfl,
       fun name arguments arg_count st hc =>
         fail_fast_step_call_expr fl n ih name arguments arg_count st _ hc rfl⟩

end FailFastAll

section FailFastContract

variable {F : Type} (fl : DoubleOps F)

theorem fail_fast_statement_entered (fuel : Nat) (node : Option ASTNode) (st : Interpreter F)
    (h : st.has_runtime_error = true) :
    fail_fast_statement fl (fuel + 1) node st = .enteredAfterError := by
  cases node <;> simp [fail_fast_statement, h]

theorem fail_fast_expression_entered (fuel : Nat) (node : Option ASTNode)
    (st : Interpreter F) (h : st.has_runtime_error = true) :
    fail_fast_expression fl (fuel + 1) node st = .enteredAfterError := by
  cases node <;> simp [fail_fast_expression, h]

theorem interpreter_execute_after_error (fuel : Nat) (root : Option ASTNode)
    (st st1 : Interpreter F) (result : Int)
    (h : interpreter_execute fl fuel root st = .done result st1) :
    (st.has_runtime_error = true → st1.has_runtime_error = true)
      ∧ (st1.has_runtime_error = true → result = 0) := by
  unfold interpreter_execute at h
  split at h
  · cases h
    exact ⟨fun _ => rfl, fun _ => rfl⟩
  · split at h
    · rename_i r st2 hprog
      have hkeep : st.has_runtime_error = true → st2.has_runtime_error = true := by
        unfold execute_program at hprog
        split at hprog
        · cases hprog
          exact fun _ => rfl
        · split at hprog
          · rename_i r3 st3 hstmt
            have hk := ((keeps_all fl fuel).statement _ _ _ _ hstmt).2.1
            split at hprog <;> cases hprog <;> exact hk
          · cases hprog
          · cases hprog
      split at h
      · cases h
        exact ⟨hkeep, fun _ => rfl⟩
      · rename_i hflag
        cases h
        exact ⟨hkeep, fun h1 => absurd h1 hflag⟩
    · cases h
    · cases h

theorem interpreter_execute_print_after_error (n : Nat) :
    ∃ st' : Interpreter F,
      interpreter_execute fl (n + 12) (some program_print_after_error) interpreter_init
          = .done 0 st'
        ∧ st'.output = "1\n" ∧ st'.has_runtime_error = true ∧ st'.error_count = 1 := by
  have h1 : wrap32 1 = 1 := by decide
  have hs : toString (1 : Int) = "1" := by decide
  have hwf : ∀ V : Type, (hashtable_create 32 : HashTable V).WF :=
    fun _ => hashtable_create_wf 32 (by decide)
  have hwf2 : ∀ (V : Type) (k k' : String) (v v' : Option V),
      (hashtable_set (hashtable_set (hashtable_create 32) k v) k' v').WF :=
    fun V k k' v v' => hashtable_set_wf _ _ _ (hashtable_set_wf _ _ _ (hwf V))
  simp [program_print_after_error, interpreter_execute,
    execute_program, execute_statement, execute_block,
    execute_block_loop, execute_expression, execute_literal_expr, execute_binary_expr,
    execute_call_expr, execute_builtin_call, builtin_referenced,
      Value.is_builtin, binary_switch, op_compare_lt, Value.isNumeric,
    runtime_error,
    interpreter_init, register_builtin_functions, environment_get_var,
    environment_create_variables, environment_define_var_variables,
    hashtable_get_create, hashtable_get_set_same, hashtable_get_set_other,
    hashtable_set_wf, hwf, hwf2,
    value_create_int, call_builtin, builtin_print,
    print_text, value_to_string, h1, hs]

/-- C35.  Runtime errors are fail-fast.  In a run that starts with no runtime error raised
and no `break` or `continue` pending (as `interpreter_init` leaves the interpreter), no
routine of the interpreter is entered after a runtime error has been raised: no statement
is executed, no operand, argument, condition or initializer is evaluated, no built-in is
called, in the routine that raised the error and in every block, loop, conditional and
call around it.  This is stated with the fail-fast run, which reports `enteredAfterError`
as soon as a routine is entered with `has_runtime_error` set (and does report it when
started with the flag set): it yields what the interpreter yields.  No routine clears
`has_runtime_error`, and `interpreter_execute` returns 0 when the flag is set at its end,
so also when it was set at any moment before.  In `print(1); print("a" < "b"); print(2);`
the output is `1` and a newline: the second and third `print` write nothing. -/
theorem runtime_error_is_fail_fast (n : Nat) :
    (∀ (fuel : Nat) (node : Option ASTNode) (st : Interpreter F), st.Calm →
        fail_fast_statement fl fuel node st = .ran (execute_statement fl fuel node st))
    ∧ (∀ (fuel : Nat) (node : Option ASTNode) (st : Interpreter F), st.Calm →
        fail_fast_expression fl fuel node st = .ran (execute_expression fl fuel node st))
    ∧ (∀ (fuel : Nat) (node : Option ASTNode),
        fail_fast_statement fl fuel node (interpreter_init : Interpreter F)
          = .ran (execute_statement fl fuel node interpreter_init))
    ∧ (∀ (fuel : Nat) (node : Option ASTNode) (st : Interpreter F),
        st.has_runtime_error = true →
        fail_fast_statement fl (fuel + 1) node st = .enteredAfterError
          ∧ fail_fast_expression fl (fuel + 1) node st = .enteredAfterError)
    ∧ (∀ (fuel : Nat) (node : Option ASTNode) (st st1 : Interpreter F)
        (r : Option (Value F)),
        execute_statement fl fuel node st = .done r st1 →
        st.has_runtime_error = true → st1.has_runtime_error = true)
    ∧ (∀ (fuel : Nat) (node : Option ASTNode) (st st1 : Interpreter F)
        (r : Option (Value F)),
        execute_expression fl fuel node st = .done r st1 →
        st.has_runtime_error = true → st1.has_runtime_error = true)
    ∧ (∀ (fuel : Nat) (root : Option ASTNode) (st st1 : Interpreter F) (result : Int),
        interpreter_execute fl fuel root st = .done result st1 →
        (st.has_runtime_error = true → st1.has_runtime_error = true)
          ∧ (st1.has_runtime_error = true → result = 0))
    ∧ source_tokens "print(1); print(\"a\" < \"b\"); print(2);" = tokens_print_after_error
    ∧ (∃ p, parse_program 40 (parser_init tokens_print_after_error eofToken)
        = .done program_print_after_error p ∧ p.had_error = false)
    ∧ (∃ st' : Interpreter F,
        interpreter_execute fl (n + 12) (some program_print_after_error) interpreter_init
            = .done 0 st'
          ∧ st'.output = "1\n" ∧ st'.has_runtime_error = true ∧ st'.error_count = 1) :=
  ⟨fun fuel => (fail_fast_all fl fuel).statement,
   fun fuel => (fail_fast_all fl fuel).expression,
   fun fuel node => (fail_fast_all fl fuel).statement node _ calm_interpreter_init,
   fun fuel node st h =>
     ⟨fail_fast_statement_entered fl fuel node st h,
      fail_fast_expression_entered fl fuel node st h⟩,
   fun fuel node st st1 r h => ((keeps_all fl fuel).statement node st r st1 h).2.1,
   fun fuel node st st1 r h => ((keeps_all fl fuel).expression node st r st1 h).1.2.1,
   interpreter_execute_after_error fl,
   by decide,
   ⟨_, rfl, rfl⟩,
   interpreter_execute_print_after_error fl n⟩

theorem runtime_error_is_fail_fast_witness :
    (interpreter_init : Interpreter ℚ).Calm
      ∧ fail_fast_statement exactArithmetic 12 (some program_print_after_error)
          interpreter_init
        = .ran (execute_statement exactArithmetic 12 (some program_print_after_error)
            interpreter_init) :=
  ⟨calm_interpreter_init,
   (runtime_error_is_fail_fast exactArithmetic 0).1 12 (some program_print_after_error)
     interpreter_init calm_interpreter_init⟩

end FailFastContract

end Craze
